import Mathlib

set_option autoImplicit false

namespace ncnn

section

/-!
# GRU layer of ncnn for ARM: weight packing, gate recurrence, direction handling

Shallow embedding of `src/src/layer/arm/gru_arm.cpp` (fp32 path).

* float arithmetic is taken over an arbitrary field `α` (exact arithmetic);
  `expf` and `tanhf` of libm are parameters (`Libm`);
* a `float*` is an offset into a buffer `Buf α = Nat → α`;
* the preprocessor switches `__ARM_NEON` and `__aarch64__` are the two flags of `Build`;
* `#pragma omp parallel for` loops are run in index order.
-/

/-! ## Memory -/

/-- Float memory addressed by element offset. -/
abbrev Buf (α : Type) := Nat → α

/-- Assignment `m[p] = v`. -/
def store {α : Type} (m : Buf α) (p : Nat) (v : α) : Buf α :=
  fun j => if j = p then v else m j

/-! ## Loops -/

/-- Loop `for (; i < hi; i++) body(i)` entered with the given `i`. -/
def forFrom {σ : Type} (hi : Nat) (body : Nat → σ → σ) (i : Nat) (s : σ) : σ :=
  if i < hi then forFrom hi body (i + 1) (body i s) else s
termination_by hi - i

/-- Loop `for (; i + 3 < hi; i += 4) body(i)` entered with the given `i`;
returns the value of `i` at loop exit together with the state. -/
def forStep4 {σ : Type} (hi : Nat) (body : Nat → σ → σ) (i : Nat) (s : σ) : Nat × σ :=
  if i + 3 < hi then forStep4 hi body (i + 4) (body i s) else (i, s)
termination_by hi - i

/-- Iteration `body 0`, `body 1`, ..., `body (n-1)` (proof device: trip-count form of a loop). -/
def forRange {σ : Type} (n : Nat) (body : Nat → σ → σ) (s : σ) : σ :=
  match n with
  | 0 => s
  | k + 1 => body k (forRange k body s)

/-! ## NEON intrinsics (arm_neon.h), lane-wise -/

/-- Four float lanes. -/
abbrev float32x4_t (α : Type) := Fin 4 → α

/-- Two float lanes. -/
abbrev float32x2_t (α : Type) := Fin 2 → α

/-- Load four consecutive floats. -/
def vld1q_f32 {α : Type} (m : Buf α) (p : Nat) : float32x4_t α :=
  fun l => m (p + l.val)

/-- Store four consecutive floats. -/
def vst1q_f32 {α : Type} (m : Buf α) (p : Nat) (v : float32x4_t α) : Buf α :=
  store (store (store (store m p (v 0)) (p + 1) (v 1)) (p + 2) (v 2)) (p + 3) (v 3)

/-- Broadcast a scalar to all lanes. -/
def vdupq_n_f32 {α : Type} (x : α) : float32x4_t α :=
  fun _ => x

/-- Lane-wise `a + b`. -/
def vaddq_f32 {α : Type} [Add α] (a b : float32x4_t α) : float32x4_t α :=
  fun l => a l + b l

/-- Lane-wise `a - b`. -/
def vsubq_f32 {α : Type} [Sub α] (a b : float32x4_t α) : float32x4_t α :=
  fun l => a l - b l

/-- Lane-wise `a * b`. -/
def vmulq_f32 {α : Type} [Mul α] (a b : float32x4_t α) : float32x4_t α :=
  fun l => a l * b l

/-- Lane-wise `a + b * c`. -/
def vmlaq_f32 {α : Type} [Add α] [Mul α] (a b c : float32x4_t α) : float32x4_t α :=
  fun l => a l + b l * c l

/-- Lane-wise `a + b * v[lane]` (aarch64). -/
def vfmaq_laneq_f32 {α : Type} [Add α] [Mul α] (a b v : float32x4_t α) (lane : Fin 4) :
    float32x4_t α :=
  fun l => a l + b l * v lane

/-- Lanes 0 and 1. -/
def vget_low_f32 {α : Type} (v : float32x4_t α) : float32x2_t α :=
  fun l => v ⟨l.val, Nat.lt_trans l.isLt (by decide)⟩

/-- Lanes 2 and 3. -/
def vget_high_f32 {α : Type} (v : float32x4_t α) : float32x2_t α :=
  fun l => v ⟨l.val + 2, Nat.add_lt_add_right l.isLt 2⟩

/-- Lane-wise `a + b * v[lane]` with a two-lane `v` (armv7). -/
def vmlaq_lane_f32 {α : Type} [Add α] [Mul α] (a b : float32x4_t α) (v : float32x2_t α)
    (lane : Fin 2) : float32x4_t α :=
  fun l => a l + b l * v lane

/-- Multiply-accumulate by lane `lane` of `v`: `vfmaq_laneq_f32` under `__aarch64__`,
otherwise `vmlaq_lane_f32` on the low or high half of `v`. -/
def fma_lane {α : Type} [Add α] [Mul α] (aarch64 : Bool) (a b v : float32x4_t α)
    (lane : Fin 4) : float32x4_t α :=
  if aarch64 then vfmaq_laneq_f32 a b v lane
  else if h : lane.val < 2 then vmlaq_lane_f32 a b (vget_low_f32 v) ⟨lane.val, h⟩
  else vmlaq_lane_f32 a b (vget_high_f32 v) ⟨lane.val - 2, by omega⟩

/-! ## Math functions -/

/-- The libm functions used by the scalar code. -/
structure Libm (α : Type) where
  expf : α → α
  tanhf : α → α

/-- Logistic sigmoid as written in the scalar path: `1.f / (1.f + expf(-v))`. -/
def sigmoid {α : Type} [Field α] (lm : Libm α) (v : α) : α :=
  1 / (1 + lm.expf (-v))

/-- Modelled from the spec: `sigmoid_ps` of arm_activation.h (not among the sources) is the
logistic sigmoid applied to each lane. -/
def sigmoid_ps {α : Type} [Field α] (lm : Libm α) (v : float32x4_t α) : float32x4_t α :=
  fun l => sigmoid lm (v l)

/-- Modelled from the spec: `tanh_ps` of arm_activation.h (not among the sources) is the
hyperbolic tangent applied to each lane. -/
def tanh_ps {α : Type} (lm : Libm α) (v : float32x4_t α) : float32x4_t α :=
  fun l => lm.tanhf (v l)

/-! ## Tensors -/

/-- Modelled from the spec: the tensor `Mat` (mat.h is not among the sources): width, height,
channel count, pack factor, and one float buffer per channel. A 1-D or 2-D tensor lives in
channel 0. -/
structure Mat (α : Type) where
  w : Nat
  h : Nat
  c : Nat
  elempack : Nat
  data : Nat → Buf α

namespace Mat

variable {α : Type}

/-- Number of floats of the tensor. -/
def total (m : Mat α) : Nat :=
  m.w * m.h * m.c * m.elempack

/-- Buffer of a 1-D or 2-D tensor (or of a channel view). -/
def buf (m : Mat α) : Buf α :=
  m.data 0

/-- Pointer `row(y)`, as an offset into the channel buffer. -/
def row (m : Mat α) (y : Nat) : Nat :=
  y * m.w * m.elempack

/-- View `channel(q)`. -/
def channel (m : Mat α) (q : Nat) : Mat α :=
  { w := m.w, h := m.h, c := 1, elempack := m.elempack, data := fun k => m.data (q + k) }

/-- The tensor after the buffer of its channel view `q` has become `b`. -/
def set_channel (m : Mat α) (q : Nat) (b : Buf α) : Mat α :=
  { m with data := fun k => if k = q then b else m.data k }

/-- The tensor with the buffer of channel 0 replaced. -/
def set_buf (m : Mat α) (b : Buf α) : Mat α :=
  { m with data := fun k => if k = 0 then b else m.data k }

/-- View `row_range(y, rows)`: the buffer seen from `row(y)`. -/
def row_range (m : Mat α) (y rows : Nat) : Mat α :=
  { w := m.w, h := rows, c := 1, elempack := m.elempack,
    data := fun k j => m.data k (m.row y + j) }

/-- The tensor after the buffer of its view `row_range(y, _)` has become `b`. -/
def set_row_range (m : Mat α) (y : Nat) (b : Buf α) : Mat α :=
  m.set_buf (fun j => if m.row y ≤ j then b (j - m.row y) else m.buf j)

/-- Assignment of `v` to every element (`fill`) of a 1-D or 2-D tensor. -/
def fill (m : Mat α) (v : α) : Mat α :=
  m.set_buf (fun j => if j < m.total then v else m.buf j)

/-- Modelled from the spec: the tensor after `release()`: the storage is given back and the
shape fields `w`, `h`, `c` and `elempack` are set to 0, so that the tensor has no element
(`total = 0`, `empty()` holds). The model has no null pointer: `data` keeps its value, which is
not read through a tensor without elements. -/
def released (m : Mat α) : Mat α :=
  { m with w := 0, h := 0, c := 0, elempack := 0 }

end Mat

/-- An allocator: asked for a number of floats it fails (`none`) or hands out memory with
unspecified contents. -/
abbrev Allocator (α : Type) := Nat → Option (Buf α)

/-- The 2-D fp32 tensor of `w * h` floats stored in the memory `b`. -/
def Mat.of_buf {α : Type} (w h : Nat) (b : Buf α) : Mat α :=
  { w := w, h := h, c := 1, elempack := 1, data := fun _ => b }

/-- Modelled from the spec: creation of a 2-D tensor of `w * h` floats through an allocator;
`none` stands for a tensor that is `empty()` afterwards. -/
def Mat.create {α : Type} (w h : Nat) (a : Allocator α) : Option (Mat α) :=
  (a (w * h)).map (Mat.of_buf w h)

/-- Modelled from the spec: `clone(allocator)`, a deep copy with the same shape and contents;
`none` when the allocation fails. -/
def Mat.clone {α : Type} (m : Mat α) (a : Allocator α) : Option (Mat α) :=
  (a m.total).map (fun _ => m)

/-- The fields of ncnn `Option` read by this layer. -/
structure NcnnOption (α : Type) where
  lightmode : Bool
  num_threads : Nat
  use_fp16_storage : Bool
  use_bf16_storage : Bool
  blob_allocator : Allocator α
  workspace_allocator : Allocator α

/-- Preprocessor configuration. -/
structure Build where
  arm_neon : Bool
  aarch64 : Bool

/-! ## The layer -/

/-- The members of `GRU` and `GRU_arm` used by the fp32 path. -/
structure GRU_arm (α : Type) where
  num_output : Nat
  weight_data_size : Nat
  direction : Nat
  int8_scale_term : Nat
  weight_xc_data : Mat α
  bias_c_data : Mat α
  weight_hc_data : Mat α
  support_fp16_storage : Bool
  support_bf16_storage : Bool
  weight_xc_data_packed : Mat α
  bias_c_data_packed : Mat α
  weight_hc_data_packed : Mat α

/-! ## create_pipeline (fp32), lines 57-249 -/

/-- Row of the packed weights and of the gate workspace used for unit `q` by the one-unit
loops: `q / 4 + q % 4` under `__ARM_NEON`, otherwise `q`. -/
def unit_row (cfg : Build) (q : Nat) : Nat :=
  if cfg.arm_neon then q / 4 + q % 4 else q

/-- Write cursor and destination buffer of a packing loop. -/
structure PackCursor (α : Type) where
  ptr : Nat
  mem : Buf α

/-- Body of the loops at lines 135-161: eight stores (R, R_1, R_2, R_3, U, U_1, U_2, U_3 at
index `i`), then `ptr += 8`. The arguments `R .. U_3` are the row pointers into `src`. -/
def pack_RU4 {α : Type} (src : Buf α) (R R_1 R_2 R_3 U U_1 U_2 U_3 : Nat) (i : Nat)
    (s : PackCursor α) : PackCursor α :=
  let m := store s.mem (s.ptr + 0) (src (R + i))
  let m := store m (s.ptr + 1) (src (R_1 + i))
  let m := store m (s.ptr + 2) (src (R_2 + i))
  let m := store m (s.ptr + 3) (src (R_3 + i))
  let m := store m (s.ptr + 4) (src (U + i))
  let m := store m (s.ptr + 5) (src (U_1 + i))
  let m := store m (s.ptr + 6) (src (U_2 + i))
  let m := store m (s.ptr + 7) (src (U_3 + i))
  { ptr := s.ptr + 8, mem := m }

/-- Body of the loops at lines 163-181: four stores (N, N_1, N_2, N_3 at index `i`), then
`ptr += 4`. -/
def pack_N4 {α : Type} (src : Buf α) (N N_1 N_2 N_3 : Nat) (i : Nat)
    (s : PackCursor α) : PackCursor α :=
  let m := store s.mem (s.ptr + 0) (src (N + i))
  let m := store m (s.ptr + 1) (src (N_1 + i))
  let m := store m (s.ptr + 2) (src (N_2 + i))
  let m := store m (s.ptr + 3) (src (N_3 + i))
  { ptr := s.ptr + 4, mem := m }

/-- Body of the loops at lines 209-223: two stores (R, U at index `i`), then `ptr += 2`. -/
def pack_RU1 {α : Type} (src : Buf α) (R U : Nat) (i : Nat) (s : PackCursor α) :
    PackCursor α :=
  let m := store s.mem (s.ptr + 0) (src (R + i))
  let m := store m (s.ptr + 1) (src (U + i))
  { ptr := s.ptr + 2, mem := m }

/-- Body of the loops at lines 225-237: one store (N at index `i`), then `ptr += 1`. -/
def pack_N1 {α : Type} (src : Buf α) (N : Nat) (i : Nat) (s : PackCursor α) : PackCursor α :=
  { ptr := s.ptr + 1, mem := store s.mem (s.ptr + 0) (src (N + i)) }

/-- State of the loop over hidden units of one direction: the cursor `bias_c_RUBNWN` and the
three packed channel buffers. -/
structure PackState (α : Type) where
  bias_c_RUBNWN : Nat
  bias : Buf α
  xc : Buf α
  hc : Buf α

/-- Body of the 4-lane loop `for (; q + 3 < num_output; q += 4)`, lines 92-182.
`weight_xc`, `bias_c`, `weight_hc` are the raw channel views, `xcp`, `hcp` the packed channel
views (used for their row pointers). -/
def pack_group4 {α : Type} (num_output size : Nat) (weight_xc bias_c weight_hc xcp hcp : Mat α)
    (q : Nat) (s : PackState α) : PackState α :=
  let bias_c_R := bias_c.row 0
  let bias_c_U := bias_c.row 1
  let bias_c_WN := bias_c.row 2
  let bias_c_BN := bias_c.row 3
  let b := vst1q_f32 s.bias s.bias_c_RUBNWN (vld1q_f32 bias_c.buf (bias_c_R + q))
  let b := vst1q_f32 b (s.bias_c_RUBNWN + 4) (vld1q_f32 bias_c.buf (bias_c_U + q))
  let b := vst1q_f32 b (s.bias_c_RUBNWN + 8) (vld1q_f32 bias_c.buf (bias_c_BN + q))
  let b := vst1q_f32 b (s.bias_c_RUBNWN + 12) (vld1q_f32 bias_c.buf (bias_c_WN + q))
  let weight_xc_R := weight_xc.row (num_output * 0 + q)
  let weight_xc_U := weight_xc.row (num_output * 1 + q)
  let weight_xc_N := weight_xc.row (num_output * 2 + q)
  let weight_xc_R_1 := weight_xc.row (num_output * 0 + q + 1)
  let weight_xc_U_1 := weight_xc.row (num_output * 1 + q + 1)
  let weight_xc_N_1 := weight_xc.row (num_output * 2 + q + 1)
  let weight_xc_R_2 := weight_xc.row (num_output * 0 + q + 2)
  let weight_xc_U_2 := weight_xc.row (num_output * 1 + q + 2)
  let weight_xc_N_2 := weight_xc.row (num_output * 2 + q + 2)
  let weight_xc_R_3 := weight_xc.row (num_output * 0 + q + 3)
  let weight_xc_U_3 := weight_xc.row (num_output * 1 + q + 3)
  let weight_xc_N_3 := weight_xc.row (num_output * 2 + q + 3)
  let weight_hc_R := weight_hc.row (num_output * 0 + q)
  let weight_hc_U := weight_hc.row (num_output * 1 + q)
  let weight_hc_N := weight_hc.row (num_output * 2 + q)
  let weight_hc_R_1 := weight_hc.row (num_output * 0 + q + 1)
  let weight_hc_U_1 := weight_hc.row (num_output * 1 + q + 1)
  let weight_hc_N_1 := weight_hc.row (num_output * 2 + q + 1)
  let weight_hc_R_2 := weight_hc.row (num_output * 0 + q + 2)
  let weight_hc_U_2 := weight_hc.row (num_output * 1 + q + 2)
  let weight_hc_N_2 := weight_hc.row (num_output * 2 + q + 2)
  let weight_hc_R_3 := weight_hc.row (num_output * 0 + q + 3)
  let weight_hc_U_3 := weight_hc.row (num_output * 1 + q + 3)
  let weight_hc_N_3 := weight_hc.row (num_output * 2 + q + 3)
  let weight_xc_RUN : PackCursor α := { ptr := xcp.row (q / 4), mem := s.xc }
  let weight_hc_RUN : PackCursor α := { ptr := hcp.row (q / 4), mem := s.hc }
  let weight_xc_RUN := forFrom size
    (pack_RU4 weight_xc.buf weight_xc_R weight_xc_R_1 weight_xc_R_2 weight_xc_R_3
      weight_xc_U weight_xc_U_1 weight_xc_U_2 weight_xc_U_3) 0 weight_xc_RUN
  let weight_hc_RUN := forFrom num_output
    (pack_RU4 weight_hc.buf weight_hc_R weight_hc_R_1 weight_hc_R_2 weight_hc_R_3
      weight_hc_U weight_hc_U_1 weight_hc_U_2 weight_hc_U_3) 0 weight_hc_RUN
  let weight_xc_RUN := forFrom size
    (pack_N4 weight_xc.buf weight_xc_N weight_xc_N_1 weight_xc_N_2 weight_xc_N_3) 0
    weight_xc_RUN
  let weight_hc_RUN := forFrom num_output
    (pack_N4 weight_hc.buf weight_hc_N weight_hc_N_1 weight_hc_N_2 weight_hc_N_3) 0
    weight_hc_RUN
  { bias_c_RUBNWN := s.bias_c_RUBNWN + 16, bias := b,
    xc := weight_xc_RUN.mem, hc := weight_hc_RUN.mem }

/-- Body of the one-unit loop `for (; q < num_output; q++)`, lines 185-238. -/
def pack_unit {α : Type} (cfg : Build) (num_output size : Nat)
    (weight_xc bias_c weight_hc xcp hcp : Mat α) (q : Nat) (s : PackState α) : PackState α :=
  let bias_c_R := bias_c.row 0
  let bias_c_U := bias_c.row 1
  let bias_c_WN := bias_c.row 2
  let bias_c_BN := bias_c.row 3
  let b := store s.bias (s.bias_c_RUBNWN + 0) (bias_c.buf (bias_c_R + q))
  let b := store b (s.bias_c_RUBNWN + 1) (bias_c.buf (bias_c_U + q))
  let b := store b (s.bias_c_RUBNWN + 2) (bias_c.buf (bias_c_BN + q))
  let b := store b (s.bias_c_RUBNWN + 3) (bias_c.buf (bias_c_WN + q))
  let weight_xc_R := weight_xc.row (num_output * 0 + q)
  let weight_xc_U := weight_xc.row (num_output * 1 + q)
  let weight_xc_N := weight_xc.row (num_output * 2 + q)
  let weight_hc_R := weight_hc.row (num_output * 0 + q)
  let weight_hc_U := weight_hc.row (num_output * 1 + q)
  let weight_hc_N := weight_hc.row (num_output * 2 + q)
  let weight_xc_RUN : PackCursor α := { ptr := xcp.row (unit_row cfg q), mem := s.xc }
  let weight_hc_RUN : PackCursor α := { ptr := hcp.row (unit_row cfg q), mem := s.hc }
  let weight_xc_RUN := forFrom size (pack_RU1 weight_xc.buf weight_xc_R weight_xc_U) 0
    weight_xc_RUN
  let weight_hc_RUN := forFrom num_output (pack_RU1 weight_hc.buf weight_hc_R weight_hc_U) 0
    weight_hc_RUN
  let weight_xc_RUN := forFrom size (pack_N1 weight_xc.buf weight_xc_N) 0 weight_xc_RUN
  let weight_hc_RUN := forFrom num_output (pack_N1 weight_hc.buf weight_hc_N) 0 weight_hc_RUN
  { bias_c_RUBNWN := s.bias_c_RUBNWN + 4, bias := b,
    xc := weight_xc_RUN.mem, hc := weight_hc_RUN.mem }

/-- Body of the loop over directions, lines 73-239, on the channel views of direction `dr`:
the 4-lane loop (NEON only) followed by the one-unit loop. -/
def pack_direction {α : Type} (cfg : Build) (num_output size : Nat)
    (weight_xc bias_c weight_hc weight_xc_data_packed_dr bias_c_data_packed_dr
      weight_hc_data_packed_dr : Mat α) : PackState α :=
  let s0 : PackState α :=
    { bias_c_RUBNWN := bias_c_data_packed_dr.row 0, bias := bias_c_data_packed_dr.buf,
      xc := weight_xc_data_packed_dr.buf, hc := weight_hc_data_packed_dr.buf }
  let qs : Nat × PackState α :=
    if cfg.arm_neon then
      forStep4 num_output
        (pack_group4 num_output size weight_xc bias_c weight_hc weight_xc_data_packed_dr
          weight_hc_data_packed_dr) 0 s0
    else (0, s0)
  forFrom num_output
    (pack_unit cfg num_output size weight_xc bias_c weight_hc weight_xc_data_packed_dr
      weight_hc_data_packed_dr) qs.1 qs.2

/-- The three packed tensors. -/
structure Packed (α : Type) where
  xc : Mat α
  bias : Mat α
  hc : Mat α

/-- Body of the loop over directions with the write-back into the packed tensors. -/
def pack_channel {α : Type} (cfg : Build) (self : GRU_arm α) (size : Nat) (dr : Nat)
    (p : Packed α) : Packed α :=
  let s := pack_direction cfg self.num_output size (self.weight_xc_data.channel dr)
    (self.bias_c_data.channel dr) (self.weight_hc_data.channel dr) (p.xc.channel dr)
    (p.bias.channel dr) (p.hc.channel dr)
  { xc := p.xc.set_channel dr s.xc, bias := p.bias.set_channel dr s.bias,
    hc := p.hc.set_channel dr s.hc }

/-- Number of directions: `direction == 2 ? 2 : 1`. -/
def num_directions (direction : Nat) : Nat :=
  if direction = 2 then 2 else 1

/-- Input size as computed at line 59. -/
def input_size {α : Type} (self : GRU_arm α) : Nat :=
  self.weight_data_size / num_directions self.direction / self.num_output / 3

/-- The packed tensors as created at lines 61-69; `fresh_xc`, `fresh_bias`, `fresh_hc` are the
unspecified contents of the newly created storage, per channel. The source does not test the
result of these `create` calls. -/
def create_packed {α : Type} (cfg : Build) (self : GRU_arm α)
    (fresh_xc fresh_bias fresh_hc : Nat → Buf α) : Packed α :=
  let num_directions := num_directions self.direction
  let size := input_size self
  let num_output := self.num_output
  if cfg.arm_neon then
    { xc := { w := size * 12, h := num_output / 4 + num_output % 4, c := num_directions,
              elempack := 1, data := fresh_xc },
      bias := { w := num_output, h := 1, c := num_directions, elempack := 4,
                data := fresh_bias },
      hc := { w := num_output * 12, h := num_output / 4 + num_output % 4,
              c := num_directions, elempack := 1, data := fresh_hc } }
  else
    { xc := { w := size * 3, h := num_output, c := num_directions, elempack := 1,
              data := fresh_xc },
      bias := { w := num_output, h := 1, c := num_directions, elempack := 4,
                data := fresh_bias },
      hc := { w := num_output * 3, h := num_output, c := num_directions, elempack := 1,
              data := fresh_hc } }

/-- `GRU_arm::create_pipeline`, fp32 path (lines 57-249), once the three packed tensors are
created: returns the status and the layer with its packed tensors set (and the raw ones
released under light mode). -/
def create_pipeline {α : Type} (cfg : Build) (self : GRU_arm α)
    (fresh_xc fresh_bias fresh_hc : Nat → Buf α) (opt : NcnnOption α) : Int × GRU_arm α :=
  let p := forFrom (num_directions self.direction) (pack_channel cfg self (input_size self)) 0
    (create_packed cfg self fresh_xc fresh_bias fresh_hc)
  let self1 : GRU_arm α :=
    { self with weight_xc_data_packed := p.xc, bias_c_data_packed := p.bias,
                weight_hc_data_packed := p.hc }
  let self2 : GRU_arm α :=
    if opt.lightmode then
      { self1 with weight_xc_data := self1.weight_xc_data.released,
                   bias_c_data := self1.bias_c_data.released,
                   weight_hc_data := self1.weight_hc_data.released }
    else self1
  (0, self2)

/-- `GRU_arm::create_pipeline`, fp32 path (lines 57-249), with the outcome of the three
`create` calls of lines 61-69 as an input: `xc`, `bias`, `hc` are the storage obtained from the
default allocator for `weight_xc_data_packed`, `bias_c_data_packed`, `weight_hc_data_packed`,
or `none` when the allocation fails and the tensor is left `empty()`. The source has no test of
the three tensors between their creation and the packing loops, and `return 0` at line 248 is
its only `return`. With the three tensors created the result is that of `create_pipeline`.
With one of them missing the loops of lines 72-239 run all the same and store through the data
pointer of the empty tensor, which is null: the call has no defined result (`none`). A creation
asks for storage, and so can fail, only for a tensor that has elements, and the loops store into
each of the three tensors that has elements. -/
def create_pipeline_alloc {α : Type} (cfg : Build) (self : GRU_arm α)
    (xc bias hc : Option (Nat → Buf α)) (opt : NcnnOption α) : Option (Int × GRU_arm α) :=
  match xc, bias, hc with
  | some fresh_xc, some fresh_bias, some fresh_hc =>
    some (create_pipeline cfg self fresh_xc fresh_bias fresh_hc opt)
  | _, _, _ => none

/-! ## gru (fp32), lines 251-624 -/

/-- Cursor and accumulators of the reset/update loops of a 4-lane group. -/
structure AccRU4 (α : Type) where
  ptr : Nat
  gru_R : float32x4_t α
  gru_U : float32x4_t α
  sum1 : float32x4_t α
  sum2 : float32x4_t α
  sum3 : float32x4_t α
  sum4 : float32x4_t α
  sum5 : float32x4_t α
  sum6 : float32x4_t α

/-- Body of the loops at lines 300-332 and 347-379: four entries of `v` (the input row or the
hidden state, read from pointer `vp`) against 32 packed weights, then `ptr += 32`. -/
def gate_RU4 {α : Type} [Add α] [Mul α] (aarch64 : Bool) (v : Buf α) (vp : Nat) (wt : Buf α)
    (i : Nat) (s : AccRU4 α) : AccRU4 α :=
  let _xi := vld1q_f32 v (vp + i)
  let _weight_xc_R := vld1q_f32 wt s.ptr
  let _weight_xc_U := vld1q_f32 wt (s.ptr + 4)
  let _weight_xc_R_1 := vld1q_f32 wt (s.ptr + 8)
  let _weight_xc_U_1 := vld1q_f32 wt (s.ptr + 12)
  let _weight_xc_R_2 := vld1q_f32 wt (s.ptr + 16)
  let _weight_xc_U_2 := vld1q_f32 wt (s.ptr + 20)
  let _weight_xc_R_3 := vld1q_f32 wt (s.ptr + 24)
  let _weight_xc_U_3 := vld1q_f32 wt (s.ptr + 28)
  { ptr := s.ptr + 32,
    gru_R := fma_lane aarch64 s.gru_R _weight_xc_R _xi 0,
    gru_U := fma_lane aarch64 s.gru_U _weight_xc_U _xi 0,
    sum1 := fma_lane aarch64 s.sum1 _weight_xc_R_1 _xi 1,
    sum2 := fma_lane aarch64 s.sum2 _weight_xc_U_1 _xi 1,
    sum3 := fma_lane aarch64 s.sum3 _weight_xc_R_2 _xi 2,
    sum4 := fma_lane aarch64 s.sum4 _weight_xc_U_2 _xi 2,
    sum5 := fma_lane aarch64 s.sum5 _weight_xc_R_3 _xi 3,
    sum6 := fma_lane aarch64 s.sum6 _weight_xc_U_3 _xi 3 }

/-- Body of the loops at lines 333-344 and 380-391: one entry of `v` against 8 packed
weights, then `ptr += 8`. -/
def gate_RU4_tail {α : Type} [Add α] [Mul α] (v : Buf α) (vp : Nat) (wt : Buf α) (i : Nat)
    (s : AccRU4 α) : AccRU4 α :=
  let xi := v (vp + i)
  let _xi := vdupq_n_f32 xi
  let _weight_xc_R := vld1q_f32 wt s.ptr
  let _weight_xc_U := vld1q_f32 wt (s.ptr + 4)
  { s with ptr := s.ptr + 8,
           gru_R := vmlaq_f32 s.gru_R _weight_xc_R _xi,
           gru_U := vmlaq_f32 s.gru_U _weight_xc_U _xi }

/-- Cursor and accumulators of the candidate loops of a 4-lane group. -/
structure AccN4 (α : Type) where
  ptr : Nat
  gru_N : float32x4_t α
  sum1 : float32x4_t α
  sum2 : float32x4_t α
  sum3 : float32x4_t α

/-- Body of the loops at lines 412-432 and 454-474: four entries of `v` against 16 packed
weights, then `ptr += 16`. -/
def gate_N4 {α : Type} [Add α] [Mul α] (aarch64 : Bool) (v : Buf α) (vp : Nat) (wt : Buf α)
    (i : Nat) (s : AccN4 α) : AccN4 α :=
  let _h_cont := vld1q_f32 v (vp + i)
  let _weight_hc_N := vld1q_f32 wt s.ptr
  let _weight_hc_N_1 := vld1q_f32 wt (s.ptr + 4)
  let _weight_hc_N_2 := vld1q_f32 wt (s.ptr + 8)
  let _weight_hc_N_3 := vld1q_f32 wt (s.ptr + 12)
  { ptr := s.ptr + 16,
    gru_N := fma_lane aarch64 s.gru_N _weight_hc_N _h_cont 0,
    sum1 := fma_lane aarch64 s.sum1 _weight_hc_N_1 _h_cont 1,
    sum2 := fma_lane aarch64 s.sum2 _weight_hc_N_2 _h_cont 2,
    sum3 := fma_lane aarch64 s.sum3 _weight_hc_N_3 _h_cont 3 }

/-- Body of the loops at lines 433-442 and 475-484: one entry of `v` against 4 packed
weights, then `ptr += 4`. -/
def gate_N4_tail {α : Type} [Add α] [Mul α] (v : Buf α) (vp : Nat) (wt : Buf α) (i : Nat)
    (s : AccN4 α) : AccN4 α :=
  let h_cont := v (vp + i)
  let _h_cont := vdupq_n_f32 h_cont
  let _weight_hc_N := vld1q_f32 wt s.ptr
  { s with ptr := s.ptr + 4, gru_N := vmlaq_f32 s.gru_N _weight_hc_N _h_cont }

/-- The three gate vectors of a 4-lane group. -/
structure Gates4 (α : Type) where
  R : float32x4_t α
  U : float32x4_t α
  N : float32x4_t α

/-- Gate computation of the group `qq` (lines 280-491), up to the store into the workspace.
`x` is the pointer `bottom_blob.row(ti)`, `hidden` the buffer of `hidden_state`. -/
def gru_gates4 {α : Type} [Field α] (cfg : Build) (lm : Libm α) (size num_output : Nat)
    (bottom_blob : Buf α) (x : Nat) (weight_xc bias_c weight_hc : Mat α) (hidden : Buf α)
    (qq : Nat) : Gates4 α :=
  let q := qq * 4
  let bias_c_RUBNWN := q * 4
  let weight_xc_RUN := weight_xc.row (q / 4)
  let weight_hc_RUN := weight_hc.row (q / 4)
  let a : AccRU4 α :=
    { ptr := weight_xc_RUN,
      gru_R := vld1q_f32 bias_c.buf bias_c_RUBNWN,
      gru_U := vld1q_f32 bias_c.buf (bias_c_RUBNWN + 4),
      sum1 := vdupq_n_f32 0, sum2 := vdupq_n_f32 0, sum3 := vdupq_n_f32 0,
      sum4 := vdupq_n_f32 0, sum5 := vdupq_n_f32 0, sum6 := vdupq_n_f32 0 }
  let ia := forStep4 size (gate_RU4 cfg.aarch64 bottom_blob x weight_xc.buf) 0 a
  let a := forFrom size (gate_RU4_tail bottom_blob x weight_xc.buf) ia.1 ia.2
  let weight_xc_RUN := a.ptr
  let a : AccRU4 α := { a with ptr := weight_hc_RUN }
  let ia := forStep4 num_output (gate_RU4 cfg.aarch64 hidden 0 weight_hc.buf) 0 a
  let a := forFrom num_output (gate_RU4_tail hidden 0 weight_hc.buf) ia.1 ia.2
  let weight_hc_RUN := a.ptr
  let _gru_R := vaddq_f32 a.gru_R a.sum1
  let _gru_U := vaddq_f32 a.gru_U a.sum2
  let _sum3 := vaddq_f32 a.sum3 a.sum5
  let _sum4 := vaddq_f32 a.sum4 a.sum6
  let _gru_R := vaddq_f32 _gru_R _sum3
  let _gru_U := vaddq_f32 _gru_U _sum4
  let _gru_R := sigmoid_ps lm _gru_R
  let _gru_U := sigmoid_ps lm _gru_U
  let n : AccN4 α :=
    { ptr := weight_hc_RUN, gru_N := vld1q_f32 bias_c.buf (bias_c_RUBNWN + 8),
      sum1 := vdupq_n_f32 0, sum2 := vdupq_n_f32 0, sum3 := vdupq_n_f32 0 }
  let iN := forStep4 num_output (gate_N4 cfg.aarch64 hidden 0 weight_hc.buf) 0 n
  let n := forFrom num_output (gate_N4_tail hidden 0 weight_hc.buf) iN.1 iN.2
  let _gru_N := vaddq_f32 n.gru_N n.sum1
  let _sum2 := vaddq_f32 n.sum2 n.sum3
  let _gru_N := vaddq_f32 _gru_N _sum2
  let _gru_N := vmlaq_f32 (vld1q_f32 bias_c.buf (bias_c_RUBNWN + 12)) _gru_R _gru_N
  let n : AccN4 α :=
    { ptr := weight_xc_RUN, gru_N := _gru_N,
      sum1 := vdupq_n_f32 0, sum2 := vdupq_n_f32 0, sum3 := vdupq_n_f32 0 }
  let iN := forStep4 size (gate_N4 cfg.aarch64 bottom_blob x weight_xc.buf) 0 n
  let n := forFrom size (gate_N4_tail bottom_blob x weight_xc.buf) iN.1 iN.2
  let _gru_N := vaddq_f32 n.gru_N n.sum1
  let _sum2 := vaddq_f32 n.sum2 n.sum3
  let _gru_N := vaddq_f32 _gru_N _sum2
  let _gru_N := tanh_ps lm _gru_N
  { R := _gru_R, U := _gru_U, N := _gru_N }

/-- Cursor and accumulators of the reset/update loops of one unit. -/
structure AccRU1 (α : Type) where
  ptr : Nat
  R : α
  U : α

/-- Body of the loops at lines 518-536: `R += w[0] * v[i]; U += w[1] * v[i]; ptr += 2`. -/
def gate_RU1 {α : Type} [Add α] [Mul α] (v : Buf α) (vp : Nat) (wt : Buf α) (i : Nat)
    (s : AccRU1 α) : AccRU1 α :=
  let xi := v (vp + i)
  { ptr := s.ptr + 2, R := s.R + wt (s.ptr + 0) * xi, U := s.U + wt (s.ptr + 1) * xi }

/-- Cursor and accumulator of the candidate loops of one unit. -/
structure AccN1 (α : Type) where
  ptr : Nat
  N : α

/-- Body of the loops at lines 546-564: `N += w[0] * v[i]; ptr += 1`. -/
def gate_N1 {α : Type} [Add α] [Mul α] (v : Buf α) (vp : Nat) (wt : Buf α) (i : Nat)
    (s : AccN1 α) : AccN1 α :=
  let h_cont := v (vp + i)
  { ptr := s.ptr + 1, N := s.N + wt (s.ptr + 0) * h_cont }

/-- The three gates of one unit. -/
structure Gates1 (α : Type) where
  R : α
  U : α
  N : α

/-- Gate computation of the unit `q` in the one-unit loop (lines 502-567), up to the store
into the workspace. -/
def gru_gates1 {α : Type} [Field α] (cfg : Build) (lm : Libm α) (size num_output : Nat)
    (bottom_blob : Buf α) (x : Nat) (weight_xc bias_c weight_hc : Mat α) (hidden : Buf α)
    (q : Nat) : Gates1 α :=
  let bias_c_RUBNWN := q * 4
  let weight_xc_RUN := weight_xc.row (unit_row cfg q)
  let weight_hc_RUN := weight_hc.row (unit_row cfg q)
  let a : AccRU1 α :=
    { ptr := weight_xc_RUN, R := bias_c.buf (bias_c_RUBNWN + 0),
      U := bias_c.buf (bias_c_RUBNWN + 1) }
  let a := forFrom size (gate_RU1 bottom_blob x weight_xc.buf) 0 a
  let weight_xc_RUN := a.ptr
  let a : AccRU1 α := { a with ptr := weight_hc_RUN }
  let a := forFrom num_output (gate_RU1 hidden 0 weight_hc.buf) 0 a
  let weight_hc_RUN := a.ptr
  let R := 1 / (1 + lm.expf (-a.R))
  let U := 1 / (1 + lm.expf (-a.U))
  let n : AccN1 α := { ptr := weight_hc_RUN, N := bias_c.buf (bias_c_RUBNWN + 2) }
  let n := forFrom num_output (gate_N1 hidden 0 weight_hc.buf) 0 n
  let N := bias_c.buf (bias_c_RUBNWN + 3) + R * n.N
  let n : AccN1 α := { ptr := weight_xc_RUN, N := N }
  let n := forFrom size (gate_N1 bottom_blob x weight_xc.buf) 0 n
  let N := lm.tanhf n.N
  { R := R, U := U, N := N }

/-- Width of a row of the gate workspace: `4 * 2` with NEON, `2` without. -/
def gates_w (cfg : Build) : Nat :=
  if cfg.arm_neon then 4 * 2 else 2

/-- First unit of the one-unit loops: `(num_output >> 2) << 2` with NEON, `0` without. -/
def remain_num_output_start (cfg : Build) (num_output : Nat) : Nat :=
  if cfg.arm_neon then (num_output >>> 2) <<< 2 else 0

/-- The gates computed for hidden unit `q` within one timestep: lane `q % 4` of the group
`q / 4` when `q` is handled by the 4-lane loop (`q < remain_num_output_start`), otherwise the
result of the one-unit loop. -/
def gru_unit_gates {α : Type} [Field α] (cfg : Build) (lm : Libm α) (size num_output : Nat)
    (bottom_blob : Buf α) (x : Nat) (weight_xc bias_c weight_hc : Mat α) (hidden : Buf α)
    (q : Nat) : Gates1 α :=
  if q < remain_num_output_start cfg num_output then
    let g := gru_gates4 cfg lm size num_output bottom_blob x weight_xc bias_c weight_hc hidden
      (q / 4)
    { R := g.R ⟨q % 4, Nat.mod_lt q (by decide)⟩, U := g.U ⟨q % 4, Nat.mod_lt q (by decide)⟩,
      N := g.N ⟨q % 4, Nat.mod_lt q (by decide)⟩ }
  else gru_gates1 cfg lm size num_output bottom_blob x weight_xc bias_c weight_hc hidden q

/-- The buffers written by a timestep. -/
structure StepState (α : Type) where
  gates : Buf α
  top : Buf α
  hidden : Buf α

/-- Body of the loop at lines 278-497, with the store of U and N into workspace row `q / 4`. -/
def step_gates4 {α : Type} [Field α] (cfg : Build) (lm : Libm α) (size num_output : Nat)
    (bottom_blob : Buf α) (x : Nat) (weight_xc bias_c weight_hc : Mat α) (hidden : Buf α)
    (qq : Nat) (gates : Buf α) : Buf α :=
  let q := qq * 4
  let g := gru_gates4 cfg lm size num_output bottom_blob x weight_xc bias_c weight_hc hidden qq
  let gates_data := (q / 4) * gates_w cfg
  vst1q_f32 (vst1q_f32 gates gates_data g.U) (gates_data + 4) g.N

/-- Body of the loop at lines 500-577, with the store of U and N into the workspace row of
the unit. -/
def step_gates1 {α : Type} [Field α] (cfg : Build) (lm : Libm α) (size num_output : Nat)
    (bottom_blob : Buf α) (x : Nat) (weight_xc bias_c weight_hc : Mat α) (hidden : Buf α)
    (q : Nat) (gates : Buf α) : Buf α :=
  let g := gru_gates1 cfg lm size num_output bottom_blob x weight_xc bias_c weight_hc hidden q
  let gates_data := unit_row cfg q * gates_w cfg
  store (store gates (gates_data + 0) g.U) (gates_data + 1) g.N

/-- Body of the loop at lines 589-602: the blend for a 4-lane group, stored to the hidden
state and to the output row. -/
def step_H4 {α : Type} [Field α] (cfg : Build) (output_data hidden_ptr : Nat) (qq : Nat)
    (s : StepState α) : StepState α :=
  let q := qq * 4
  let gates_data := (q / 4) * gates_w cfg
  let _gru_U := vld1q_f32 s.gates gates_data
  let _gru_N := vld1q_f32 s.gates (gates_data + 4)
  let _gru_H := vaddq_f32 (vmulq_f32 (vsubq_f32 (vdupq_n_f32 1) _gru_U) _gru_N)
    (vmulq_f32 _gru_U (vld1q_f32 s.hidden (hidden_ptr + q)))
  { s with hidden := vst1q_f32 s.hidden (hidden_ptr + q) _gru_H,
           top := vst1q_f32 s.top (output_data + q) _gru_H }

/-- Body of the loop at lines 605-620: the blend for one unit. -/
def step_H1 {α : Type} [Field α] (cfg : Build) (output_data hidden_ptr : Nat) (q : Nat)
    (s : StepState α) : StepState α :=
  let gates_data := unit_row cfg q * gates_w cfg
  let U := s.gates (gates_data + 0)
  let N := s.gates (gates_data + 1)
  let H := (1 - U) * N + U * s.hidden (hidden_ptr + q)
  { s with hidden := store s.hidden (hidden_ptr + q) H,
           top := store s.top (output_data + q) H }

/-- Row processed at loop index `t` (line 270): `reverse ? T - 1 - t : t`. -/
def step_ti (reverse T t : Nat) : Nat :=
  if reverse ≠ 0 then T - 1 - t else t

/-- Body of the loop over timesteps (lines 269-620). -/
def gru_step {α : Type} [Field α] (cfg : Build) (lm : Libm α) (bottom_blob top_blob : Mat α)
    (reverse : Nat) (weight_xc bias_c weight_hc : Mat α) (t : Nat) (s : StepState α) :
    StepState α :=
  let size := bottom_blob.w
  let T := bottom_blob.h
  let num_output := top_blob.w
  let ti := step_ti reverse T t
  let nn_num_output := num_output >>> 2
  let x := bottom_blob.row ti
  let gates :=
    if cfg.arm_neon then
      forFrom nn_num_output
        (step_gates4 cfg lm size num_output bottom_blob.buf x weight_xc bias_c weight_hc
          s.hidden) 0 s.gates
    else s.gates
  let gates :=
    forFrom num_output
      (step_gates1 cfg lm size num_output bottom_blob.buf x weight_xc bias_c weight_hc
        s.hidden) (remain_num_output_start cfg num_output) gates
  let output_data := top_blob.row ti
  let hidden_ptr := 0
  let s1 : StepState α := { s with gates := gates }
  let s2 := if cfg.arm_neon then forFrom nn_num_output (step_H4 cfg output_data hidden_ptr) 0 s1
    else s1
  forFrom num_output (step_H1 cfg output_data hidden_ptr)
    (remain_num_output_start cfg num_output) s2

/-- The gate workspace of lines 259-263. -/
def gates_create {α : Type} (cfg : Build) (num_output : Nat) (a : Allocator α) :
    Option (Mat α) :=
  if cfg.arm_neon then Mat.create (4 * 2) (num_output / 4 + num_output % 4) a
  else Mat.create 2 num_output a

/-- The static function `gru` (lines 251-624): status, `top_blob` and `hidden_state` at
return. -/
def gru {α : Type} [Field α] (cfg : Build) (lm : Libm α) (bottom_blob top_blob : Mat α)
    (reverse : Nat) (weight_xc bias_c weight_hc hidden_state : Mat α) (opt : NcnnOption α) :
    Int × Mat α × Mat α :=
  let T := bottom_blob.h
  let num_output := top_blob.w
  match gates_create cfg num_output opt.workspace_allocator with
  | none => (-100, top_blob, hidden_state)
  | some gates =>
    let s := forFrom T (gru_step cfg lm bottom_blob top_blob reverse weight_xc bias_c weight_hc)
      0 { gates := gates.buf, top := top_blob.buf, hidden := hidden_state.buf }
    (0, top_blob.set_buf s.top, hidden_state.set_buf s.hidden)

/-! ## GRU_arm::forward (fp32), lines 647-705 and 730-801 -/

/-- Copy of `n` floats (`memcpy` of `n * sizeof(float)` bytes). -/
def memcpy {α : Type} (dst : Buf α) (dp : Nat) (src : Buf α) (sp : Nat) (n : Nat) : Buf α :=
  fun j => if dp ≤ j ∧ j < dp + n then src (sp + (j - dp)) else dst j

/-- Body of the loop "concat w" (lines 694-702, 785-793). -/
def concat_row {α : Type} (num_output : Nat) (top_blob top_blob_forward top_blob_reverse : Mat α)
    (i : Nat) (top : Buf α) : Buf α :=
  let pf := top_blob_forward.row i
  let pr := top_blob_reverse.row i
  let ptr := top_blob.row i
  memcpy (memcpy top ptr top_blob_forward.buf pf num_output) (ptr + num_output)
    top_blob_reverse.buf pr num_output

/-- Tensor without storage and shape. -/
def Mat.null {α : Type} [Zero α] : Mat α :=
  { w := 0, h := 0, c := 0, elempack := 0, data := fun _ _ => 0 }

/-- Single-input `GRU_arm::forward`, fp32 path (lines 647-705): the status, or the output
tensor `top_blob` when the status is 0. -/
def forward {α : Type} [Field α] (cfg : Build) (lm : Libm α) (self : GRU_arm α)
    (bottom_blob : Mat α) (opt : NcnnOption α) : Except Int (Mat α) :=
  let T := bottom_blob.h
  let num_directions := num_directions self.direction
  match Mat.create self.num_output 1 opt.workspace_allocator with
  | none => .error (-100)
  | some hidden =>
  let hidden := hidden.fill 0
  match Mat.create (self.num_output * num_directions) T opt.blob_allocator with
  | none => .error (-100)
  | some top_blob =>
  if self.direction = 0 ∨ self.direction = 1 then
    let r := gru cfg lm bottom_blob top_blob self.direction (self.weight_xc_data_packed.channel 0)
      (self.bias_c_data_packed.channel 0) (self.weight_hc_data_packed.channel 0) hidden opt
    if r.1 ≠ 0 then .error r.1 else .ok r.2.1
  else if self.direction = 2 then
    match Mat.create self.num_output T opt.workspace_allocator with
    | none => .error (-100)
    | some top_blob_forward =>
    match Mat.create self.num_output T opt.workspace_allocator with
    | none => .error (-100)
    | some top_blob_reverse =>
    let r0 := gru cfg lm bottom_blob top_blob_forward 0 (self.weight_xc_data_packed.channel 0)
      (self.bias_c_data_packed.channel 0) (self.weight_hc_data_packed.channel 0) hidden opt
    if r0.1 ≠ 0 then .error r0.1 else
    let top_blob_forward := r0.2.1
    let hidden := r0.2.2.fill 0
    let r1 := gru cfg lm bottom_blob top_blob_reverse 1 (self.weight_xc_data_packed.channel 1)
      (self.bias_c_data_packed.channel 1) (self.weight_hc_data_packed.channel 1) hidden opt
    if r1.1 ≠ 0 then .error r1.1 else
    let top_blob_reverse := r1.2.1
    .ok (top_blob.set_buf
      (forFrom T (concat_row self.num_output top_blob top_blob_forward top_blob_reverse) 0
        top_blob.buf))
  else .ok top_blob

/-- The hidden state of the multi-input `forward` at lines 733-745: a clone of the incoming
hidden state `bottom_blobs[1]` when there is one, otherwise a zero-filled tensor of
`num_output` by `num_directions`; `none` when the creation fails. The result of `clone` is not
tested by the source; a failed clone is carried on as a tensor without storage. -/
def forward_vec_hidden {α : Type} [Field α] (self : GRU_arm α)
    (bottom_blobs top_blobs : List (Mat α)) (opt : NcnnOption α) : Option (Mat α) :=
  let num_directions := num_directions self.direction
  let hidden_allocator :=
    if top_blobs.length = 2 then opt.blob_allocator else opt.workspace_allocator
  if bottom_blobs.length = 2 then
    some (((bottom_blobs.getD 1 Mat.null).clone hidden_allocator).getD Mat.null)
  else (Mat.create self.num_output num_directions hidden_allocator).map (fun m => m.fill 0)

/-- The vector `top_blobs` at return (lines 747, 796-799): entry 0 is the output tensor, entry 1
the hidden state when two outputs were requested. -/
def forward_vec_finish {α : Type} (top_blobs : List (Mat α)) (top_blob hidden : Mat α) :
    List (Mat α) :=
  if top_blobs.length = 2 then (top_blobs.set 0 top_blob).set 1 hidden
  else top_blobs.set 0 top_blob

/-- Multi-input `GRU_arm::forward`, fp32 path (lines 730-801): the status, or `top_blobs` at
return when the status is 0. `bottom_blobs` holds the sequence and optionally the incoming
hidden state; `top_blobs` has one or two entries on entry. -/
def forward_vec {α : Type} [Field α] (cfg : Build) (lm : Libm α) (self : GRU_arm α)
    (bottom_blobs top_blobs : List (Mat α)) (opt : NcnnOption α) : Except Int (List (Mat α)) :=
  let bottom_blob := bottom_blobs.getD 0 Mat.null
  let T := bottom_blob.h
  let num_directions := num_directions self.direction
  match forward_vec_hidden self bottom_blobs top_blobs opt with
  | none => .error (-100)
  | some hidden =>
  match Mat.create (self.num_output * num_directions) T opt.blob_allocator with
  | none => .error (-100)
  | some top_blob =>
  if self.direction = 0 ∨ self.direction = 1 then
    let r := gru cfg lm bottom_blob top_blob self.direction (self.weight_xc_data_packed.channel 0)
      (self.bias_c_data_packed.channel 0) (self.weight_hc_data_packed.channel 0) hidden opt
    if r.1 ≠ 0 then .error r.1 else .ok (forward_vec_finish top_blobs r.2.1 r.2.2)
  else if self.direction = 2 then
    match Mat.create self.num_output T opt.workspace_allocator with
    | none => .error (-100)
    | some top_blob_forward =>
    match Mat.create self.num_output T opt.workspace_allocator with
    | none => .error (-100)
    | some top_blob_reverse =>
    let hidden0 := hidden.row_range 0 1
    let r0 := gru cfg lm bottom_blob top_blob_forward 0 (self.weight_xc_data_packed.channel 0)
      (self.bias_c_data_packed.channel 0) (self.weight_hc_data_packed.channel 0) hidden0 opt
    if r0.1 ≠ 0 then .error r0.1 else
    let top_blob_forward := r0.2.1
    let hidden := hidden.set_row_range 0 r0.2.2.buf
    let hidden1 := hidden.row_range 1 1
    let r1 := gru cfg lm bottom_blob top_blob_reverse 1 (self.weight_xc_data_packed.channel 1)
      (self.bias_c_data_packed.channel 1) (self.weight_hc_data_packed.channel 1) hidden1 opt
    if r1.1 ≠ 0 then .error r1.1 else
    let top_blob_reverse := r1.2.1
    let hidden := hidden.set_row_range 1 r1.2.2.buf
    .ok (forward_vec_finish top_blobs
      (top_blob.set_buf
        (forFrom T (concat_row self.num_output top_blob top_blob_forward top_blob_reverse) 0
          top_blob.buf))
      hidden)
  else .ok (forward_vec_finish top_blobs top_blob hidden)

end

section

/-! ## Proof devices: the packing of one weight matrix -/

/-- The stores of `pack_group4` into one packed weight buffer (input-to-hidden with
`cols = size`, hidden-to-hidden with `cols = num_output`). -/
def pack_mat_group4 {α : Type} (n cols : Nat) (src dst : Mat α) (q : Nat) (m : Buf α) : Buf α :=
  (forFrom cols
    (pack_N4 src.buf (src.row (n * 2 + q)) (src.row (n * 2 + q + 1)) (src.row (n * 2 + q + 2))
      (src.row (n * 2 + q + 3))) 0
    (forFrom cols
      (pack_RU4 src.buf (src.row (n * 0 + q)) (src.row (n * 0 + q + 1))
        (src.row (n * 0 + q + 2)) (src.row (n * 0 + q + 3)) (src.row (n * 1 + q))
        (src.row (n * 1 + q + 1)) (src.row (n * 1 + q + 2)) (src.row (n * 1 + q + 3))) 0
      { ptr := dst.row (q / 4), mem := m })).mem

/-- The stores of `pack_unit` into one packed weight buffer. -/
def pack_mat_unit {α : Type} (cfg : Build) (n cols : Nat) (src dst : Mat α) (q : Nat)
    (m : Buf α) : Buf α :=
  (forFrom cols (pack_N1 src.buf (src.row (n * 2 + q))) 0
    (forFrom cols (pack_RU1 src.buf (src.row (n * 0 + q)) (src.row (n * 1 + q))) 0
      { ptr := dst.row (unit_row cfg q), mem := m })).mem

/-- The stores of `pack_direction` into one packed weight buffer. -/
def pack_mat {α : Type} (cfg : Build) (n cols : Nat) (src dst : Mat α) : Buf α :=
  let qs : Nat × Buf α :=
    if cfg.arm_neon then forStep4 n (pack_mat_group4 n cols src dst) 0 dst.buf
    else (0, dst.buf)
  forFrom n (pack_mat_unit cfg n cols src dst) qs.1 qs.2

/-- A loop body that writes the block `val i 0 .. val i (B-1)` at the cursor and advances the
cursor by `B`. -/
def IsBlockWrite {α : Type} (B : Nat) (val : Nat → Nat → α)
    (b : Nat → PackCursor α → PackCursor α) : Prop :=
  (∀ i s, (b i s).ptr = s.ptr + B) ∧
  (∀ i s k, k < B → (b i s).mem (s.ptr + k) = val i k) ∧
  (∀ i s j, j < s.ptr ∨ s.ptr + B ≤ j → (b i s).mem j = s.mem j)

/-- The stores of `pack_group4` into the packed bias. -/
def pack_bias_group4 {α : Type} (bias_c : Mat α) (q : Nat) (s : PackCursor α) : PackCursor α :=
  { ptr := s.ptr + 16,
    mem := vst1q_f32 (vst1q_f32 (vst1q_f32 (vst1q_f32 s.mem s.ptr
        (vld1q_f32 bias_c.buf (bias_c.row 0 + q))) (s.ptr + 4)
        (vld1q_f32 bias_c.buf (bias_c.row 1 + q))) (s.ptr + 8)
        (vld1q_f32 bias_c.buf (bias_c.row 3 + q))) (s.ptr + 12)
        (vld1q_f32 bias_c.buf (bias_c.row 2 + q)) }

/-- The stores of `pack_unit` into the packed bias. -/
def pack_bias_unit {α : Type} (bias_c : Mat α) (q : Nat) (s : PackCursor α) : PackCursor α :=
  { ptr := s.ptr + 4,
    mem := store (store (store (store s.mem (s.ptr + 0) (bias_c.buf (bias_c.row 0 + q)))
        (s.ptr + 1) (bias_c.buf (bias_c.row 1 + q)))
        (s.ptr + 2) (bias_c.buf (bias_c.row 3 + q)))
        (s.ptr + 3) (bias_c.buf (bias_c.row 2 + q)) }

/-- The stores of `pack_direction` into the packed bias. -/
def pack_bias {α : Type} (cfg : Build) (n : Nat) (bias_c dst : Mat α) : PackCursor α :=
  let qs : Nat × PackCursor α :=
    if cfg.arm_neon then forStep4 n (pack_bias_group4 bias_c) 0 { ptr := dst.row 0, mem := dst.buf }
    else (0, { ptr := dst.row 0, mem := dst.buf })
  forFrom n (pack_bias_unit bias_c) qs.1 qs.2

/-- Raw bias row stored at position `k` of a packed bias record: R, U, BN (row 3), WN (row 2). -/
def bias_sel (k : Nat) : Nat :=
  if k = 2 then 3 else if k = 3 then 2 else k

/-- Lane `l` of the reset pre-activation as combined at lines 393-397:
`(_gru_R + _sum1) + (_sum3 + _sum5)`. -/
def AccRU4.totR {α : Type} [Add α] (s : AccRU4 α) (l : Fin 4) : α :=
  s.gru_R l + s.sum1 l + (s.sum3 l + s.sum5 l)

/-- Lane `l` of the update pre-activation as combined at lines 394-398:
`(_gru_U + _sum2) + (_sum4 + _sum6)`. -/
def AccRU4.totU {α : Type} [Add α] (s : AccRU4 α) (l : Fin 4) : α :=
  s.gru_U l + s.sum2 l + (s.sum4 l + s.sum6 l)

/-- Lane `l` of the candidate accumulators as combined at lines 444-446 and 486-488:
`(_gru_N + _sum1) + (_sum2 + _sum3)`. -/
def AccN4.totN {α : Type} [Add α] (s : AccN4 α) (l : Fin 4) : α :=
  s.gru_N l + s.sum1 l + (s.sum2 l + s.sum3 l)

/-- The update gate of unit `q` as stored in the gate workspace. -/
def gate_U_at {α : Type} (cfg : Build) (n : Nat) (G : Buf α) (q : Nat) : α :=
  if q < remain_num_output_start cfg n then G ((q / 4) * gates_w cfg + q % 4)
  else G (unit_row cfg q * gates_w cfg + 0)

/-- The candidate state of unit `q` as stored in the gate workspace. -/
def gate_N_at {α : Type} (cfg : Build) (n : Nat) (G : Buf α) (q : Nat) : α :=
  if q < remain_num_output_start cfg n then G ((q / 4) * gates_w cfg + 4 + q % 4)
  else G (unit_row cfg q * gates_w cfg + 1)

/-- The blend `h_t := (1 - update) .* new + update .* h_{t-1}` of line 579. -/
def blend {α : Type} [Field α] (U N h : α) : α :=
  (1 - U) * N + U * h

/-- The value a timestep gives to hidden unit `q`: the blend of the gates computed for `q`
with the previous hidden value. -/
def gru_cell {α : Type} [Field α] (cfg : Build) (lm : Libm α) (size num_output : Nat)
    (bottom_blob : Buf α) (x : Nat) (weight_xc bias_c weight_hc : Mat α) (hidden : Buf α)
    (q : Nat) : α :=
  blend (gru_unit_gates cfg lm size num_output bottom_blob x weight_xc bias_c weight_hc hidden q).U
    (gru_unit_gates cfg lm size num_output bottom_blob x weight_xc bias_c weight_hc hidden q).N
    (hidden q)

/-- Element `row(y)[i]` of a 2-D tensor or channel view. -/
def Mat.at2 {α : Type} (m : Mat α) (y i : Nat) : α :=
  m.buf (m.row y + i)

/-- Reset gate as the specification writes it, on the raw gate-major tensors:
`R = σ(Wxc_R·x + Whc_R·h + b_R)`. -/
def spec_reset {α : Type} [Field α] (lm : Libm α) (num_output size : Nat)
    (Wxc Whc bias : Mat α) (x h : Nat → α) (q : Nat) : α :=
  sigmoid lm (bias.at2 0 q + ∑ i in Finset.range size, Wxc.at2 q i * x i
    + ∑ j in Finset.range num_output, Whc.at2 q j * h j)

/-- Update gate as the specification writes it: `U = σ(Wxc_U·x + Whc_U·h + b_U)`. -/
def spec_update {α : Type} [Field α] (lm : Libm α) (num_output size : Nat)
    (Wxc Whc bias : Mat α) (x h : Nat → α) (q : Nat) : α :=
  sigmoid lm (bias.at2 1 q + ∑ i in Finset.range size, Wxc.at2 (num_output + q) i * x i
    + ∑ j in Finset.range num_output, Whc.at2 (num_output + q) j * h j)

/-- Candidate state as the specification writes it:
`N = tanh(b_WN + Wxc_N·x + R ⊙ (Whc_N·h + b_BN))`, with `b_WN` raw bias row 2 and `b_BN` raw
bias row 3. -/
def spec_candidate {α : Type} [Field α] (lm : Libm α) (num_output size : Nat)
    (Wxc Whc bias : Mat α) (x h : Nat → α) (q : Nat) : α :=
  lm.tanhf (bias.at2 2 q + ∑ i in Finset.range size, Wxc.at2 (2 * num_output + q) i * x i
    + spec_reset lm num_output size Wxc Whc bias x h q
      * (∑ j in Finset.range num_output, Whc.at2 (2 * num_output + q) j * h j + bias.at2 3 q))

/-- Hidden update as the specification writes it: `h_t = (1 − U) ⊙ N + U ⊙ h_{t−1}`. -/
def spec_hidden {α : Type} [Field α] (lm : Libm α) (num_output size : Nat)
    (Wxc Whc bias : Mat α) (x h : Nat → α) (q : Nat) : α :=
  (1 - spec_update lm num_output size Wxc Whc bias x h q)
      * spec_candidate lm num_output size Wxc Whc bias x h q
    + spec_update lm num_output size Wxc Whc bias x h q * h q

/-- The hidden vector after one timestep on input row `ti`, as a function of the hidden vector
before it (`step(x, h)`). -/
def gru_next {α : Type} [Field α] (cfg : Build) (lm : Libm α) (bottom_blob top_blob : Mat α)
    (weight_xc bias_c weight_hc : Mat α) (ti : Nat) (h : Buf α) : Buf α :=
  fun j =>
    if j < top_blob.w then
      gru_cell cfg lm bottom_blob.w top_blob.w bottom_blob.buf (bottom_blob.row ti) weight_xc
        bias_c weight_hc h j
    else h j

/-- The hidden vector after the first `k` timesteps: `h_0 = h0`, `h_(k+1) = step(x_ti(k), h_k)`. -/
def gru_hidden_seq {α : Type} [Field α] (cfg : Build) (lm : Libm α) (bottom_blob top_blob : Mat α)
    (reverse : Nat) (weight_xc bias_c weight_hc : Mat α) (h0 : Buf α) : Nat → Buf α
  | 0 => h0
  | k + 1 =>
    gru_next cfg lm bottom_blob top_blob weight_xc bias_c weight_hc
      (step_ti reverse bottom_blob.h k)
      (gru_hidden_seq cfg lm bottom_blob top_blob reverse weight_xc bias_c weight_hc h0 k)

/-- The output buffer after the first `k` timesteps: timestep `k` stores the cell values
computed from `h_k` (the first `top_blob.w` entries of `h_(k+1)`) into the row `ti(k)`. -/
def gru_top_seq {α : Type} [Field α] (cfg : Build) (lm : Libm α) (bottom_blob top_blob : Mat α)
    (reverse : Nat) (weight_xc bias_c weight_hc : Mat α) (h0 top0 : Buf α) : Nat → Buf α
  | 0 => top0
  | k + 1 => fun j =>
    if top_blob.row (step_ti reverse bottom_blob.h k) ≤ j
        ∧ j < top_blob.row (step_ti reverse bottom_blob.h k) + top_blob.w then
      gru_cell cfg lm bottom_blob.w top_blob.w bottom_blob.buf
        (bottom_blob.row (step_ti reverse bottom_blob.h k)) weight_xc bias_c weight_hc
        (gru_hidden_seq cfg lm bottom_blob top_blob reverse weight_xc bias_c weight_hc h0 k)
        (j - top_blob.row (step_ti reverse bottom_blob.h k))
    else gru_top_seq cfg lm bottom_blob top_blob reverse weight_xc bias_c weight_hc h0 top0 k j

/-! ## A concrete layer, used to instantiate the theorems -/

/-- Build with NEON on aarch64. -/
def ex_cfg : Build :=
  { arm_neon := true, aarch64 := true }

/-- Stand-ins for `expf` and `tanhf` over the rationals. -/
def ex_lm : Libm ℚ :=
  { expf := fun v => v * v, tanhf := fun v => v / 2 }

/-- A tensor with pairwise different entries in each channel. -/
def ex_mat (w h c : Nat) : Mat ℚ :=
  { w := w, h := h, c := c, elempack := 1, data := fun k j => (k : ℚ) + 2 * (j : ℚ) + 1 }

/-- An allocator that always hands out zeroed memory. -/
def ex_alloc : Allocator ℚ :=
  fun _ => some (fun _ => 0)

/-- Options with allocators that succeed. -/
def ex_opt : NcnnOption ℚ :=
  { lightmode := false, num_threads := 1, use_fp16_storage := false, use_bf16_storage := false,
    blob_allocator := ex_alloc, workspace_allocator := ex_alloc }

/-- Contents of newly created packed storage. -/
def ex_fresh : Nat → Buf ℚ :=
  fun _ _ => 0

/-- A layer with 5 hidden units (one 4-lane group and one remaining unit), input size 2 and
the given direction mode. -/
def ex_layer (direction : Nat) : GRU_arm ℚ :=
  { num_output := 5, weight_data_size := 30 * num_directions direction, direction := direction,
    int8_scale_term := 0,
    weight_xc_data := ex_mat 2 15 (num_directions direction),
    bias_c_data := ex_mat 5 4 (num_directions direction),
    weight_hc_data := ex_mat 5 15 (num_directions direction),
    support_fp16_storage := false, support_bf16_storage := false,
    weight_xc_data_packed := Mat.null, bias_c_data_packed := Mat.null,
    weight_hc_data_packed := Mat.null }

/-- The layer `ex_layer` after `create_pipeline`. -/
def ex_packed (direction : Nat) : GRU_arm ℚ :=
  (create_pipeline ex_cfg (ex_layer direction) ex_fresh ex_fresh ex_fresh ex_opt).2

/-- An input sequence of 3 rows of width 2. -/
def ex_bottom : Mat ℚ :=
  ex_mat 2 3 1

/-- An output tensor of 3 rows of width 5. -/
def ex_top : Mat ℚ :=
  ex_mat 5 3 1

/-- A hidden state of 5 units. -/
def ex_hidden : Mat ℚ :=
  ex_mat 5 1 1

/-- The example sequence `ex_bottom` with its 3 rows in reverse order. -/
def ex_bottom_rev : Mat ℚ :=
  { ex_bottom with data := fun k j => ex_bottom.data k ((2 - j / 2) * 2 + j % 2) }

/-- Row width of a packed weight tensor with `cols` coefficients per gate row: `12 * cols` in
the 4-lane layout, `3 * cols` in the scalar layout. -/
def packed_w (cfg : Build) (cols : Nat) : Nat :=
  if cfg.arm_neon then 12 * cols else 3 * cols

/-- Row count of a packed weight tensor: `n / 4 + n % 4` in the 4-lane layout, `n` in the
scalar layout. -/
def packed_h (cfg : Build) (n : Nat) : Nat :=
  if cfg.arm_neon then n / 4 + n % 4 else n

/-- Offset, inside the packed channel, of the raw coefficient at row `r` (gate `r / n`, unit
`r % n`) and column `i`. -/
def pack_pos (cfg : Build) (n cols r i : Nat) : Nat :=
  if r % n < remain_num_output_start cfg n then
    (r % n / 4) * packed_w cfg cols
      + (if r / n < 2 then 8 * i + 4 * (r / n) + r % n % 4 else 8 * cols + 4 * i + r % n % 4)
  else
    unit_row cfg (r % n) * packed_w cfg cols
      + (if r / n < 2 then 2 * i + r / n else 2 * cols + i)

/-- The pass in original order with weight set 0, as called by `forward` in bidirectional
mode (lines 680 and 772). -/
def bi_forward_pass {α : Type} [Field α] (cfg : Build) (lm : Libm α) (self : GRU_arm α)
    (bottom_blob top_blob_forward hidden : Mat α) (opt : NcnnOption α) : Int × Mat α × Mat α :=
  gru cfg lm bottom_blob top_blob_forward 0 (self.weight_xc_data_packed.channel 0)
    (self.bias_c_data_packed.channel 0) (self.weight_hc_data_packed.channel 0) hidden opt

/-- The pass in reverse order with weight set 1, as called by `forward` in bidirectional mode
(lines 688 and 779). -/
def bi_reverse_pass {α : Type} [Field α] (cfg : Build) (lm : Libm α) (self : GRU_arm α)
    (bottom_blob top_blob_reverse hidden : Mat α) (opt : NcnnOption α) : Int × Mat α × Mat α :=
  gru cfg lm bottom_blob top_blob_reverse 1 (self.weight_xc_data_packed.channel 1)
    (self.bias_c_data_packed.channel 1) (self.weight_hc_data_packed.channel 1) hidden opt

/-- The single pass of the unidirectional modes (lines 664 and 755). -/
def uni_pass {α : Type} [Field α] (cfg : Build) (lm : Libm α) (self : GRU_arm α)
    (bottom_blob top_blob hidden : Mat α) (opt : NcnnOption α) : Int × Mat α × Mat α :=
  gru cfg lm bottom_blob top_blob self.direction (self.weight_xc_data_packed.channel 0)
    (self.bias_c_data_packed.channel 0) (self.weight_hc_data_packed.channel 0) hidden opt

/-- The output tensor after the loop "concat w". -/
def concat_top {α : Type} (num_output T : Nat) (top_blob top_blob_forward top_blob_reverse : Mat α) :
    Mat α :=
  top_blob.set_buf
    (forFrom T (concat_row num_output top_blob top_blob_forward top_blob_reverse) 0 top_blob.buf)

/-! ## A one-unit layer with zero weights, in reverse mode -/

/-- The tensor of the given shape with all entries `v`. -/
def const_mat {α : Type} (v : α) (w h c : Nat) : Mat α :=
  { w := w, h := h, c := c, elempack := 1, data := fun _ _ => v }

/-- An allocator that always succeeds. -/
def zero_alloc {α : Type} [Zero α] : Allocator α :=
  fun _ => some (fun _ => 0)

/-- Options whose allocators always succeed. -/
def zero_opt {α : Type} [Zero α] : NcnnOption α :=
  { lightmode := false, num_threads := 1, use_fp16_storage := false, use_bf16_storage := false,
    blob_allocator := zero_alloc, workspace_allocator := zero_alloc }

/-- A layer with one hidden unit, input size 1, the given direction mode, and all weights and
biases zero. -/
def zero_layer {α : Type} [Zero α] (direction : Nat) : GRU_arm α :=
  { num_output := 1, weight_data_size := 3, direction := direction, int8_scale_term := 0,
    weight_xc_data := const_mat 0 1 3 1, bias_c_data := const_mat 0 1 4 1,
    weight_hc_data := const_mat 0 1 3 1,
    support_fp16_storage := false, support_bf16_storage := false,
    weight_xc_data_packed := Mat.null, bias_c_data_packed := Mat.null,
    weight_hc_data_packed := Mat.null }

/-- The layer `zero_layer` after `create_pipeline`. -/
def zero_packed {α : Type} [Zero α] (cfg : Build) (direction : Nat) : GRU_arm α :=
  (create_pipeline cfg (zero_layer direction) (fun _ _ => 0) (fun _ _ => 0) (fun _ _ => 0)
    zero_opt).2

end

section

/-! ## Inverse index mapping of the packing -/

/-- Offset, inside the packed bias channel, of the bias of unit `q` stored at position `k` of
its record (`k = 0, 1, 2, 3` for R, U, BN, WN). -/
def bias_pos (cfg : Build) (n k q : Nat) : Nat :=
  if q < remain_num_output_start cfg n then 16 * (q / 4) + 4 * k + q % 4 else 4 * q + k

/-- Unpacking of a packed weight channel: the tensor of `3 * n` rows and `cols` columns whose
element `(r, i)` is read at `pack_pos r i`. -/
def unpack_mat {α : Type} (cfg : Build) (n cols : Nat) (P : Mat α) : Mat α :=
  Mat.of_buf cols (3 * n) (fun j => P.buf (pack_pos cfg n cols (j / cols) (j % cols)))

/-- Unpacking of a packed bias channel: the tensor of 4 rows (R, U, WN, BN) and `n` columns
whose element `(r, q)` is read at `bias_pos (bias_sel r) q`. -/
def unpack_bias {α : Type} (cfg : Build) (n : Nat) (P : Mat α) : Mat α :=
  Mat.of_buf n 4 (fun j => P.buf (bias_pos cfg n (bias_sel (j / n)) (j % n)))

/-! ## Proof devices: loops that only store -/

/-- A memory transformer that overwrites a fixed set of offsets `W` with values that do not
depend on the memory it is applied to, and leaves every other offset as it was. -/
def IsStores {α : Type} (G : Buf α → Buf α) : Prop :=
  ∃ W : Nat → Prop, ∀ b b2 j, (W j → G b j = G b2 j) ∧ (¬ W j → G b j = b j)

/-- A cursor transformer whose final cursor position depends on the initial position only and
whose effect on memory is a fixed set of stores. -/
def IsCursorStores {α : Type} (c : PackCursor α → PackCursor α) : Prop :=
  ∀ p, ∃ p2, (∀ m, (c ⟨p, m⟩).ptr = p2) ∧ IsStores (fun m => (c ⟨p, m⟩).mem)

/-! ## Precision dispatch, lines 34-55, 626-645 and 708-728 -/

/-- Build options `NCNN_INT8`, `NCNN_ARM82`, `NCNN_BF16`. -/
structure Features where
  ncnn_int8 : Bool
  ncnn_arm82 : Bool
  ncnn_bf16 : Bool

/-- The four precision paths of the layer. -/
inductive Precision where
  | int8 : Precision
  | fp16s : Precision
  | bf16s : Precision
  | fp32 : Precision
deriving DecidableEq

/-- The path taken by `GRU_arm::create_pipeline` (lines 36-57): `create_pipeline_int8`,
`create_pipeline_fp16s`, `create_pipeline_bf16s`, or the fp32 body. -/
def create_pipeline_select {α : Type} (ft : Features) (self : GRU_arm α) (opt : NcnnOption α) :
    Precision :=
  if ft.ncnn_int8 = true ∧ self.int8_scale_term ≠ 0 then Precision.int8
  else if ft.ncnn_arm82 = true ∧ self.support_fp16_storage = true ∧ opt.use_fp16_storage = true
    then Precision.fp16s
  else if ft.ncnn_bf16 = true ∧ opt.use_bf16_storage = true then Precision.bf16s
  else Precision.fp32

/-- The path taken by either overload of `GRU_arm::forward` (lines 628-647 and 710-730) on an
input of `elembits` bits per element: `forward_int8`, `forward_fp16s`, `forward_bf16s`, or the
fp32 body. -/
def forward_select {α : Type} (ft : Features) (self : GRU_arm α) (opt : NcnnOption α)
    (elembits : Nat) : Precision :=
  if ft.ncnn_int8 = true ∧ self.int8_scale_term ≠ 0 then Precision.int8
  else if ft.ncnn_arm82 = true ∧ self.support_fp16_storage = true ∧ opt.use_fp16_storage = true
      ∧ elembits = 16 then Precision.fp16s
  else if ft.ncnn_bf16 = true ∧ opt.use_bf16_storage = true ∧ elembits = 16 then Precision.bf16s
  else Precision.fp32

/-! ## The allocations of a `forward` call -/

/-- Every creation made by the single-input `forward` (fp32) yields a tensor that is not
`empty()`: the hidden state, the output tensor, and, by direction mode, the gate workspace of
the single pass, or the two scratch outputs and the gate workspace of the two passes. -/
def forward_allocs {α : Type} (cfg : Build) (self : GRU_arm α) (bottom_blob : Mat α)
    (opt : NcnnOption α) : Prop :=
  (Mat.create self.num_output 1 opt.workspace_allocator).isSome ∧
  (Mat.create (self.num_output * num_directions self.direction) bottom_blob.h
    opt.blob_allocator).isSome ∧
  (self.direction = 0 ∨ self.direction = 1 →
    (gates_create cfg (self.num_output * num_directions self.direction)
      opt.workspace_allocator).isSome) ∧
  (self.direction = 2 →
    (Mat.create self.num_output bottom_blob.h opt.workspace_allocator).isSome ∧
    (gates_create cfg self.num_output opt.workspace_allocator).isSome)

/-- Every creation made by the multi-input `forward` (fp32) called without an incoming hidden
state yields a tensor that is not `empty()`. -/
def forward_vec_allocs {α : Type} [Zero α] (cfg : Build) (self : GRU_arm α)
    (bottom_blobs top_blobs : List (Mat α)) (opt : NcnnOption α) : Prop :=
  (Mat.create self.num_output (num_directions self.direction)
    (if top_blobs.length = 2 then opt.blob_allocator else opt.workspace_allocator)).isSome ∧
  (Mat.create (self.num_output * num_directions self.direction)
    (bottom_blobs.getD 0 Mat.null).h opt.blob_allocator).isSome ∧
  (self.direction = 0 ∨ self.direction = 1 →
    (gates_create cfg (self.num_output * num_directions self.direction)
      opt.workspace_allocator).isSome) ∧
  (self.direction = 2 →
    (Mat.create self.num_output (bottom_blobs.getD 0 Mat.null).h
      opt.workspace_allocator).isSome ∧
    (gates_create cfg self.num_output opt.workspace_allocator).isSome)

/-- An allocator that fails for requests of exactly 5 floats and succeeds otherwise. -/
def ex_alloc_not5 : Allocator ℚ :=
  fun n => if n = 5 then none else some (fun _ => 0)

/-- Options whose blob allocator fails for requests of exactly 5 floats. -/
def ex_opt_not5 : NcnnOption ℚ :=
  { lightmode := false, num_threads := 1, use_fp16_storage := false, use_bf16_storage := false,
    blob_allocator := ex_alloc_not5, workspace_allocator := ex_alloc }

/-! ## dynamic_quantize, lines 1539-1602 -/

/-- Single-precision values as far as `dynamic_quantize` needs them: the finite values, the
two infinities and NaN. -/
inductive F32 (α : Type) where
  | fin : α → F32 α
  | pinf : F32 α
  | ninf : F32 α
  | nan : F32 α

/-- Rounding of a rational to the nearest integer, ties to the even one. -/
def round_half_even (r : ℚ) : ℤ :=
  if r - ⌊r⌋ < 1 / 2 then ⌊r⌋
  else if 1 / 2 < r - ⌊r⌋ then ⌊r⌋ + 1
  else if ⌊r⌋ % 2 = 0 then ⌊r⌋
  else ⌊r⌋ + 1

/-- Spacing of the single-precision values around `q`: `2 ^ (e - 23)` for
`2 ^ e ≤ |q| < 2 ^ (e + 1)`, with `e` not below -126 (the subnormal range). -/
def f32_ulp (q : ℚ) : ℚ :=
  (2 : ℚ) ^ (max (Int.log 2 |q|) (-126) - 23)

/-- The single-precision value nearest to the exact result `q` (IEEE 754 binary32, round to
nearest, ties to even), the exponent range taken as unbounded above: this is the result of a
`float` operation whose exact result is `q` as long as it stays below `2 ^ 128` in
magnitude. -/
def f32_fl (q : ℚ) : ℚ :=
  (round_half_even (q / f32_ulp q) : ℚ) * f32_ulp q

/-- The result of a `float` operation whose exact result is `q`: the nearest single-precision
value, or an infinity when that value reaches `2 ^ 128` in magnitude. -/
def f32_round (q : ℚ) : F32 ℚ :=
  if (2 : ℚ) ^ 128 ≤ f32_fl q then F32.pinf
  else if f32_fl q ≤ -(2 : ℚ) ^ 128 then F32.ninf
  else F32.fin (f32_fl q)

/-- IEEE 754 quotient `a / b` of two finite values, the divisor having positive sign when it
is zero: a non-zero value over zero is an infinity, zero over zero is NaN, and otherwise the
exact quotient is rounded by `rnd`, the rounding of the float format (`f32_round` for the
type `float`; `F32.fin` is exact arithmetic). -/
def fdiv {α : Type} [LinearOrderedField α] (rnd : α → F32 α) (a b : α) : F32 α :=
  if b ≠ 0 then rnd (a / b)
  else if a = 0 then F32.nan
  else if 0 < a then F32.pinf
  else F32.ninf

/-- The conversions of 16-bit storage to float (not among the sources); a 16-bit element is
represented by an element of the carrier. -/
structure Cast16 (α : Type) where
  float16_to_float32 : α → α
  bfloat16_to_float32 : α → α

/-- The tensors `bottom_blob_int8_scales` (local) and `bottom_blob_int8_descales`. -/
structure QuantScales (α : Type) where
  scales : Buf (F32 α)
  descales : Buf (F32 α)

/-- Body of the inner loops at lines 1557-1560, 1574-1577, 1591-1594:
`absmax = std::max(absmax, (float)fabs(cvt(x[i])))`. -/
def absmax_step {α : Type} [LinearOrderedField α] (cvt : α → α) (m : Buf α) (x : Nat) (i : Nat)
    (absmax : α) : α :=
  max absmax |cvt (m (x + i))|

/-- The value of `absmax` after the inner loop over row pointer `x`. -/
def absmax_row {α : Type} [LinearOrderedField α] (cvt : α → α) (m : Buf α) (x size : Nat) : α :=
  forFrom size (absmax_step cvt m x) 0 0

/-- Body of the loops over `t` at lines 1552-1564, 1569-1581, 1586-1598. -/
def quantize_scale_row {α : Type} [LinearOrderedField α] (rnd : α → F32 α) (cvt : α → α)
    (bottom_blob : Mat α) (t : Nat) (s : QuantScales α) : QuantScales α :=
  let size := bottom_blob.w
  let x := bottom_blob.row t
  let absmax := absmax_row cvt bottom_blob.buf x size
  { scales := store s.scales t (fdiv rnd 127 absmax),
    descales := store s.descales t (fdiv rnd absmax 127) }

/-- The scale and descale tensors at line 1601, before the call of `quantize_to_int8`;
`fresh_scales`, `fresh_descales` are the unspecified contents of the newly created tensors
(the source does not test the two creations). -/
def dynamic_quantize_scales {α : Type} [LinearOrderedField α] (rnd : α → F32 α)
    (cv : Cast16 α) (bottom_blob : Mat α) (elemtype : Nat)
    (fresh_scales fresh_descales : Buf (F32 α)) : QuantScales α :=
  let T := bottom_blob.h
  let s : QuantScales α := { scales := fresh_scales, descales := fresh_descales }
  let s := if elemtype = 1 then forFrom T (quantize_scale_row rnd (fun v => v) bottom_blob) 0 s
    else s
  let s := if elemtype = 2 then
      forFrom T (quantize_scale_row rnd cv.float16_to_float32 bottom_blob) 0 s
    else s
  let s := if elemtype = 4 then
      forFrom T (quantize_scale_row rnd cv.bfloat16_to_float32 bottom_blob) 0 s
    else s
  s

/-- Result of `dynamic_quantize`: the two output tensors and the local scale tensor. -/
structure DynQuant (α γ : Type) where
  bottom_blob_int8 : γ
  bottom_blob_int8_descales : Mat (F32 α)
  bottom_blob_int8_scales : Mat (F32 α)

/-- `GRU_arm::dynamic_quantize` (lines 1539-1602). The function `quantize_to_int8` is not among
the sources and is a parameter; `rnd` is the rounding that the float format applies to the
result of a division. -/
def dynamic_quantize {α γ : Type} [LinearOrderedField α] (rnd : α → F32 α) (cv : Cast16 α)
    (quantize_to_int8 : Mat α → Mat (F32 α) → γ) (bottom_blob : Mat α) (elemtype : Nat)
    (fresh_scales fresh_descales : Buf (F32 α)) : DynQuant α γ :=
  let T := bottom_blob.h
  let s := dynamic_quantize_scales rnd cv bottom_blob elemtype fresh_scales fresh_descales
  let bottom_blob_int8_scales := Mat.of_buf T 1 s.scales
  { bottom_blob_int8 := quantize_to_int8 bottom_blob bottom_blob_int8_scales,
    bottom_blob_int8_descales := Mat.of_buf T 1 s.descales,
    bottom_blob_int8_scales := bottom_blob_int8_scales }

/-- The value read from a storage element for the element type `elemtype` (1: fp32, 2: fp16,
4: bf16). -/
def quant_read {α : Type} (cv : Cast16 α) (elemtype : Nat) : α → α :=
  if elemtype = 2 then cv.float16_to_float32
  else if elemtype = 4 then cv.bfloat16_to_float32
  else fun v => v

/-- Identity conversions, for examples that use fp32 input only. -/
def ex_cast16 : Cast16 ℚ :=
  { float16_to_float32 := fun v => v, bfloat16_to_float32 := fun v => v }

/-! ## Zero weights -/

/-- A layer with `n` hidden units, input size `size`, the given direction mode, and all weights
and biases zero. -/
def zero_gru {α : Type} [Zero α] (n size direction : Nat) : GRU_arm α :=
  { num_output := n, weight_data_size := 3 * n * size * num_directions direction,
    direction := direction, int8_scale_term := 0,
    weight_xc_data := const_mat 0 size (3 * n) (num_directions direction),
    bias_c_data := const_mat 0 n 4 (num_directions direction),
    weight_hc_data := const_mat 0 n (3 * n) (num_directions direction),
    support_fp16_storage := false, support_bf16_storage := false,
    weight_xc_data_packed := Mat.null, bias_c_data_packed := Mat.null,
    weight_hc_data_packed := Mat.null }

/-- Stand-ins for `expf` and `tanhf` over the rationals with `expf 0 = 1` and `tanhf 0 = 0`. -/
def ex_lm1 : Libm ℚ :=
  { expf := fun v => 1 + v, tanhf := fun v => v }

/-! ## create_pipeline_bf16s, lines 1180-1374 -/

/-- The conversions of float to bf16 storage (not among the sources): the scalar
`float32_to_bfloat16` and the 4-lane `float2bfloat`. -/
structure Bf16Cast (α β : Type) where
  float32_to_bfloat16 : α → β
  float2bfloat : float32x4_t α → (Fin 4 → β)

/-- Store four consecutive 16-bit elements. -/
def vst1_u16 {β : Type} (m : Buf β) (p : Nat) (v : Fin 4 → β) : Buf β :=
  store (store (store (store m p (v 0)) (p + 1) (v 1)) (p + 2) (v 2)) (p + 3) (v 3)

/-- Body of the loops at lines 1260-1286: eight converted stores, then `ptr += 8`. -/
def pack_RU4_bf16 {α β : Type} (cv : Bf16Cast α β) (src : Buf α)
    (R R_1 R_2 R_3 U U_1 U_2 U_3 : Nat) (i : Nat) (s : PackCursor β) : PackCursor β :=
  let m := store s.mem (s.ptr + 0) (cv.float32_to_bfloat16 (src (R + i)))
  let m := store m (s.ptr + 1) (cv.float32_to_bfloat16 (src (R_1 + i)))
  let m := store m (s.ptr + 2) (cv.float32_to_bfloat16 (src (R_2 + i)))
  let m := store m (s.ptr + 3) (cv.float32_to_bfloat16 (src (R_3 + i)))
  let m := store m (s.ptr + 4) (cv.float32_to_bfloat16 (src (U + i)))
  let m := store m (s.ptr + 5) (cv.float32_to_bfloat16 (src (U_1 + i)))
  let m := store m (s.ptr + 6) (cv.float32_to_bfloat16 (src (U_2 + i)))
  let m := store m (s.ptr + 7) (cv.float32_to_bfloat16 (src (U_3 + i)))
  { ptr := s.ptr + 8, mem := m }

/-- Body of the loops at lines 1288-1306: four converted stores, then `ptr += 4`. -/
def pack_N4_bf16 {α β : Type} (cv : Bf16Cast α β) (src : Buf α) (N N_1 N_2 N_3 : Nat) (i : Nat)
    (s : PackCursor β) : PackCursor β :=
  let m := store s.mem (s.ptr + 0) (cv.float32_to_bfloat16 (src (N + i)))
  let m := store m (s.ptr + 1) (cv.float32_to_bfloat16 (src (N_1 + i)))
  let m := store m (s.ptr + 2) (cv.float32_to_bfloat16 (src (N_2 + i)))
  let m := store m (s.ptr + 3) (cv.float32_to_bfloat16 (src (N_3 + i)))
  { ptr := s.ptr + 4, mem := m }

/-- Body of the loops at lines 1334-1348: two converted stores, then `ptr += 2`. -/
def pack_RU1_bf16 {α β : Type} (cv : Bf16Cast α β) (src : Buf α) (R U : Nat) (i : Nat)
    (s : PackCursor β) : PackCursor β :=
  let m := store s.mem (s.ptr + 0) (cv.float32_to_bfloat16 (src (R + i)))
  let m := store m (s.ptr + 1) (cv.float32_to_bfloat16 (src (U + i)))
  { ptr := s.ptr + 2, mem := m }

/-- Body of the loops at lines 1350-1362: one converted store, then `ptr += 1`. -/
def pack_N1_bf16 {α β : Type} (cv : Bf16Cast α β) (src : Buf α) (N : Nat) (i : Nat)
    (s : PackCursor β) : PackCursor β :=
  { ptr := s.ptr + 1, mem := store s.mem (s.ptr + 0) (cv.float32_to_bfloat16 (src (N + i))) }

/-- Body of the 4-lane loop of `create_pipeline_bf16s`, lines 1217-1307. -/
def pack_group4_bf16 {α β : Type} (cv : Bf16Cast α β) (num_output size : Nat)
    (weight_xc bias_c weight_hc : Mat α) (xcp hcp : Mat β) (q : Nat) (s : PackState β) :
    PackState β :=
  let bias_c_R := bias_c.row 0
  let bias_c_U := bias_c.row 1
  let bias_c_WN := bias_c.row 2
  let bias_c_BN := bias_c.row 3
  let b := vst1_u16 s.bias s.bias_c_RUBNWN (cv.float2bfloat (vld1q_f32 bias_c.buf (bias_c_R + q)))
  let b := vst1_u16 b (s.bias_c_RUBNWN + 4)
    (cv.float2bfloat (vld1q_f32 bias_c.buf (bias_c_U + q)))
  let b := vst1_u16 b (s.bias_c_RUBNWN + 8)
    (cv.float2bfloat (vld1q_f32 bias_c.buf (bias_c_BN + q)))
  let b := vst1_u16 b (s.bias_c_RUBNWN + 12)
    (cv.float2bfloat (vld1q_f32 bias_c.buf (bias_c_WN + q)))
  let weight_xc_R := weight_xc.row (num_output * 0 + q)
  let weight_xc_U := weight_xc.row (num_output * 1 + q)
  let weight_xc_N := weight_xc.row (num_output * 2 + q)
  let weight_xc_R_1 := weight_xc.row (num_output * 0 + q + 1)
  let weight_xc_U_1 := weight_xc.row (num_output * 1 + q + 1)
  let weight_xc_N_1 := weight_xc.row (num_output * 2 + q + 1)
  let weight_xc_R_2 := weight_xc.row (num_output * 0 + q + 2)
  let weight_xc_U_2 := weight_xc.row (num_output * 1 + q + 2)
  let weight_xc_N_2 := weight_xc.row (num_output * 2 + q + 2)
  let weight_xc_R_3 := weight_xc.row (num_output * 0 + q + 3)
  let weight_xc_U_3 := weight_xc.row (num_output * 1 + q + 3)
  let weight_xc_N_3 := weight_xc.row (num_output * 2 + q + 3)
  let weight_hc_R := weight_hc.row (num_output * 0 + q)
  let weight_hc_U := weight_hc.row (num_output * 1 + q)
  let weight_hc_N := weight_hc.row (num_output * 2 + q)
  let weight_hc_R_1 := weight_hc.row (num_output * 0 + q + 1)
  let weight_hc_U_1 := weight_hc.row (num_output * 1 + q + 1)
  let weight_hc_N_1 := weight_hc.row (num_output * 2 + q + 1)
  let weight_hc_R_2 := weight_hc.row (num_output * 0 + q + 2)
  let weight_hc_U_2 := weight_hc.row (num_output * 1 + q + 2)
  let weight_hc_N_2 := weight_hc.row (num_output * 2 + q + 2)
  let weight_hc_R_3 := weight_hc.row (num_output * 0 + q + 3)
  let weight_hc_U_3 := weight_hc.row (num_output * 1 + q + 3)
  let weight_hc_N_3 := weight_hc.row (num_output * 2 + q + 3)
  let weight_xc_RUN : PackCursor β := { ptr := xcp.row (q / 4), mem := s.xc }
  let weight_hc_RUN : PackCursor β := { ptr := hcp.row (q / 4), mem := s.hc }
  let weight_xc_RUN := forFrom size
    (pack_RU4_bf16 cv weight_xc.buf weight_xc_R weight_xc_R_1 weight_xc_R_2 weight_xc_R_3
      weight_xc_U weight_xc_U_1 weight_xc_U_2 weight_xc_U_3) 0 weight_xc_RUN
  let weight_hc_RUN := forFrom num_output
    (pack_RU4_bf16 cv weight_hc.buf weight_hc_R weight_hc_R_1 weight_hc_R_2 weight_hc_R_3
      weight_hc_U weight_hc_U_1 weight_hc_U_2 weight_hc_U_3) 0 weight_hc_RUN
  let weight_xc_RUN := forFrom size
    (pack_N4_bf16 cv weight_xc.buf weight_xc_N weight_xc_N_1 weight_xc_N_2 weight_xc_N_3) 0
    weight_xc_RUN
  let weight_hc_RUN := forFrom num_output
    (pack_N4_bf16 cv weight_hc.buf weight_hc_N weight_hc_N_1 weight_hc_N_2 weight_hc_N_3) 0
    weight_hc_RUN
  { bias_c_RUBNWN := s.bias_c_RUBNWN + 16, bias := b,
    xc := weight_xc_RUN.mem, hc := weight_hc_RUN.mem }

/-- Body of the one-unit loop of `create_pipeline_bf16s`, lines 1310-1363. -/
def pack_unit_bf16 {α β : Type} (cv : Bf16Cast α β) (cfg : Build) (num_output size : Nat)
    (weight_xc bias_c weight_hc : Mat α) (xcp hcp : Mat β) (q : Nat) (s : PackState β) :
    PackState β :=
  let bias_c_R := bias_c.row 0
  let bias_c_U := bias_c.row 1
  let bias_c_WN := bias_c.row 2
  let bias_c_BN := bias_c.row 3
  let b := store s.bias (s.bias_c_RUBNWN + 0) (cv.float32_to_bfloat16 (bias_c.buf (bias_c_R + q)))
  let b := store b (s.bias_c_RUBNWN + 1) (cv.float32_to_bfloat16 (bias_c.buf (bias_c_U + q)))
  let b := store b (s.bias_c_RUBNWN + 2) (cv.float32_to_bfloat16 (bias_c.buf (bias_c_BN + q)))
  let b := store b (s.bias_c_RUBNWN + 3) (cv.float32_to_bfloat16 (bias_c.buf (bias_c_WN + q)))
  let weight_xc_R := weight_xc.row (num_output * 0 + q)
  let weight_xc_U := weight_xc.row (num_output * 1 + q)
  let weight_xc_N := weight_xc.row (num_output * 2 + q)
  let weight_hc_R := weight_hc.row (num_output * 0 + q)
  let weight_hc_U := weight_hc.row (num_output * 1 + q)
  let weight_hc_N := weight_hc.row (num_output * 2 + q)
  let weight_xc_RUN : PackCursor β := { ptr := xcp.row (unit_row cfg q), mem := s.xc }
  let weight_hc_RUN : PackCursor β := { ptr := hcp.row (unit_row cfg q), mem := s.hc }
  let weight_xc_RUN := forFrom size (pack_RU1_bf16 cv weight_xc.buf weight_xc_R weight_xc_U) 0
    weight_xc_RUN
  let weight_hc_RUN := forFrom num_output
    (pack_RU1_bf16 cv weight_hc.buf weight_hc_R weight_hc_U) 0 weight_hc_RUN
  let weight_xc_RUN := forFrom size (pack_N1_bf16 cv weight_xc.buf weight_xc_N) 0 weight_xc_RUN
  let weight_hc_RUN := forFrom num_output (pack_N1_bf16 cv weight_hc.buf weight_hc_N) 0
    weight_hc_RUN
  { bias_c_RUBNWN := s.bias_c_RUBNWN + 4, bias := b,
    xc := weight_xc_RUN.mem, hc := weight_hc_RUN.mem }

/-- Body of the loop over directions of `create_pipeline_bf16s`, lines 1198-1364, on the
channel views of one direction. -/
def pack_direction_bf16 {α β : Type} (cv : Bf16Cast α β) (cfg : Build) (num_output size : Nat)
    (weight_xc bias_c weight_hc : Mat α)
    (weight_xc_data_packed_dr bias_c_data_packed_dr weight_hc_data_packed_dr : Mat β) :
    PackState β :=
  let s0 : PackState β :=
    { bias_c_RUBNWN := bias_c_data_packed_dr.row 0, bias := bias_c_data_packed_dr.buf,
      xc := weight_xc_data_packed_dr.buf, hc := weight_hc_data_packed_dr.buf }
  let qs : Nat × PackState β :=
    if cfg.arm_neon then
      forStep4 num_output
        (pack_group4_bf16 cv num_output size weight_xc bias_c weight_hc weight_xc_data_packed_dr
          weight_hc_data_packed_dr) 0 s0
    else (0, s0)
  forFrom num_output
    (pack_unit_bf16 cv cfg num_output size weight_xc bias_c weight_hc weight_xc_data_packed_dr
      weight_hc_data_packed_dr) qs.1 qs.2

/-- Body of the loop over directions of `create_pipeline_bf16s` with the write-back into the
packed tensors. -/
def pack_channel_bf16 {α β : Type} (cv : Bf16Cast α β) (cfg : Build) (self : GRU_arm α)
    (size : Nat) (dr : Nat) (p : Packed β) : Packed β :=
  let s := pack_direction_bf16 cv cfg self.num_output size (self.weight_xc_data.channel dr)
    (self.bias_c_data.channel dr) (self.weight_hc_data.channel dr) (p.xc.channel dr)
    (p.bias.channel dr) (p.hc.channel dr)
  { xc := p.xc.set_channel dr s.xc, bias := p.bias.set_channel dr s.bias,
    hc := p.hc.set_channel dr s.hc }

/-- The packed tensors as created at lines 1186-1194 (16-bit elements); the source does not
test the result of these `create` calls. -/
def create_packed_bf16 {α β : Type} (cfg : Build) (self : GRU_arm α)
    (fresh_xc fresh_bias fresh_hc : Nat → Buf β) : Packed β :=
  let num_directions := num_directions self.direction
  let size := input_size self
  let num_output := self.num_output
  if cfg.arm_neon then
    { xc := { w := size * 12, h := num_output / 4 + num_output % 4, c := num_directions,
              elempack := 1, data := fresh_xc },
      bias := { w := num_output, h := 1, c := num_directions, elempack := 4,
                data := fresh_bias },
      hc := { w := num_output * 12, h := num_output / 4 + num_output % 4,
              c := num_directions, elempack := 1, data := fresh_hc } }
  else
    { xc := { w := size * 3, h := num_output, c := num_directions, elempack := 1,
              data := fresh_xc },
      bias := { w := num_output, h := 1, c := num_directions, elempack := 4,
                data := fresh_bias },
      hc := { w := num_output * 3, h := num_output, c := num_directions, elempack := 1,
              data := fresh_hc } }

/-- The layer after `create_pipeline_bf16s`: its float members and the three packed tensors,
which hold 16-bit elements on this path. -/
structure GRU_arm_bf16 (α β : Type) where
  layer : GRU_arm α
  weight_xc_data_packed : Mat β
  bias_c_data_packed : Mat β
  weight_hc_data_packed : Mat β

/-- `GRU_arm::create_pipeline_bf16s` (lines 1180-1374): the status and the layer at return. -/
def create_pipeline_bf16s {α β : Type} (cv : Bf16Cast α β) (cfg : Build) (self : GRU_arm α)
    (fresh_xc fresh_bias fresh_hc : Nat → Buf β) (opt : NcnnOption α) :
    Int × GRU_arm_bf16 α β :=
  let p := forFrom (num_directions self.direction)
    (pack_channel_bf16 cv cfg self (input_size self)) 0
    (create_packed_bf16 cfg self fresh_xc fresh_bias fresh_hc)
  let self2 : GRU_arm α :=
    if opt.lightmode then
      { self with weight_xc_data := self.weight_xc_data.released,
                  bias_c_data := self.bias_c_data.released,
                  weight_hc_data := self.weight_hc_data.released }
    else self
  (0, { layer := self2, weight_xc_data_packed := p.xc, bias_c_data_packed := p.bias,
        weight_hc_data_packed := p.hc })

/-- Truncation of the example rationals to integers as a stand-in for the bf16 conversion. -/
def ex_bf16 : Bf16Cast ℚ ℤ :=
  { float32_to_bfloat16 := fun v => ⌊v⌋, float2bfloat := fun v l => ⌊v l⌋ }

end

section

/-! ## Element-wise conversion of tensors -/

/-- The tensor of the same shape whose elements are the images under `f`. -/
def Mat.map {α β : Type} (f : α → β) (m : Mat α) : Mat β :=
  { w := m.w, h := m.h, c := m.c, elempack := m.elempack, data := fun c j => f (m.data c j) }

/-- The layer whose raw weight and bias tensors are (and packed tensors) are converted
element by element with `f`. -/
def GRU_arm.map_weights {α β : Type} (f : α → β) (self : GRU_arm α) : GRU_arm β :=
  { num_output := self.num_output, weight_data_size := self.weight_data_size,
    direction := self.direction, int8_scale_term := self.int8_scale_term,
    weight_xc_data := self.weight_xc_data.map f, bias_c_data := self.bias_c_data.map f,
    weight_hc_data := self.weight_hc_data.map f,
    support_fp16_storage := self.support_fp16_storage,
    support_bf16_storage := self.support_bf16_storage,
    weight_xc_data_packed := self.weight_xc_data_packed.map f,
    bias_c_data_packed := self.bias_c_data_packed.map f,
    weight_hc_data_packed := self.weight_hc_data_packed.map f }

/-- Options of the same settings with allocators for another element type. -/
def NcnnOption.with_allocators {α β : Type} (opt : NcnnOption α) (blob workspace : Allocator β) :
    NcnnOption β :=
  { lightmode := opt.lightmode, num_threads := opt.num_threads,
    use_fp16_storage := opt.use_fp16_storage, use_bf16_storage := opt.use_bf16_storage,
    blob_allocator := blob, workspace_allocator := workspace }

end

section

/-! ## Element-wise activation layers: Swish_mips and Mish_arm -/

/-- Modelled from the spec: the tensor `Mat` with its depth `d` (mat.h is not among the
sources), as read by the activation layers: width, height, depth, channel count, pack factor,
and one float buffer per channel (`channel(q)`). -/
structure Mat4 (α : Type) where
  w : Nat
  h : Nat
  d : Nat
  c : Nat
  elempack : Nat
  data : Nat → Buf α

/-- Loop `for (; n > 0; n--) body(n)` entered with the given `n`. -/
def forDown {σ : Type} (body : Nat → σ → σ) : Nat → σ → σ
  | 0, s => s
  | n + 1, s => forDown body n (body (n + 1) s)

/-- Modelled from the spec: `exp_ps` of msa_mathfun.h and neon_mathfun.h (not among the
sources) is the exponential applied to each lane. -/
def exp_ps {α : Type} (lm : Libm α) (v : float32x4_t α) : float32x4_t α :=
  fun l => lm.expf (v l)

/-- Modelled from the spec: `log_ps` of neon_mathfun.h (not among the sources) is the natural
logarithm `logf` applied to each lane. -/
def log_ps {α : Type} (logf : α → α) (v : float32x4_t α) : float32x4_t α :=
  fun l => logf (v l)

/-- Load of four floats, `__msa_ld_w(ptr, 0)`. -/
def msa_ld_w {α : Type} (m : Buf α) (p : Nat) : float32x4_t α :=
  fun l => m (p + l.val)

/-- Store of four floats, `__msa_st_w(v, ptr, 0)`. -/
def msa_st_w {α : Type} (m : Buf α) (p : Nat) (v : float32x4_t α) : Buf α :=
  store (store (store (store m p (v 0)) (p + 1) (v 1)) (p + 2) (v 2)) (p + 3) (v 3)

/-- Broadcast `__msa_fill_w_f32`. -/
def msa_fill_w_f32 {α : Type} (x : α) : float32x4_t α :=
  fun _ => x

/-- Lane-wise sum `__msa_fadd_w`. -/
def msa_fadd_w {α : Type} [Add α] (a b : float32x4_t α) : float32x4_t α :=
  fun l => a l + b l

/-- Lane-wise quotient `__msa_fdiv_w`. -/
def msa_fdiv_w {α : Type} [Div α] (a b : float32x4_t α) : float32x4_t α :=
  fun l => a l / b l

/-- The call `__msa_bnegi_w(v, 31)`: bit 31 of every lane, the sign bit of the float, is
flipped. -/
def msa_bnegi_w_31 {α : Type} [Neg α] (v : float32x4_t α) : float32x4_t α :=
  fun l => - v l

/-- Body of the MSA loop of `Swish_mips::forward_inplace`, lines 37-45. -/
def swish_body4 {α : Type} [Field α] (lm : Libm α) (_i : Nat) (s : PackCursor α) :
    PackCursor α :=
  let _one := msa_fill_w_f32 (1 : α)
  let _p := msa_ld_w s.mem s.ptr
  let _p := msa_fdiv_w _p (msa_fadd_w _one (exp_ps lm (msa_bnegi_w_31 _p)))
  { ptr := s.ptr + 4, mem := msa_st_w s.mem s.ptr _p }

/-- Body of the scalar loop of `Swish_mips::forward_inplace`, lines 47-51. -/
def swish_body1 {α : Type} [Field α] (lm : Libm α) (_i : Nat) (s : PackCursor α) :
    PackCursor α :=
  { ptr := s.ptr + 1,
    mem := store s.mem s.ptr (s.mem s.ptr / (1 + lm.expf (- s.mem s.ptr))) }

/-- Body of the loop over channels of `Swish_mips::forward_inplace` (lines 30-52) on the
buffer of one channel; `mips_msa` is the preprocessor flag `__mips_msa`. -/
def swish_channel {α : Type} [Field α] (mips_msa : Bool) (lm : Libm α) (size : Nat)
    (b : Buf α) : Buf α :=
  let s0 : PackCursor α := { ptr := 0, mem := b }
  let is : Nat × PackCursor α :=
    if mips_msa then forStep4 size (swish_body4 lm) 0 s0 else (0, s0)
  (forFrom size (swish_body1 lm) is.1 is.2).mem

/-- `Swish_mips::forward_inplace` (lines 20-55): the status and the tensor at return. -/
def Swish_mips.forward_inplace {α : Type} [Field α] (mips_msa : Bool) (lm : Libm α)
    (bottom_top_blob : Mat4 α) : Int × Mat4 α :=
  let w := bottom_top_blob.w
  let h := bottom_top_blob.h
  let d := bottom_top_blob.d
  let channels := bottom_top_blob.c
  let elempack := bottom_top_blob.elempack
  let size := w * h * d * elempack
  let data := forFrom channels
    (fun q (data : Nat → Buf α) k =>
      if k = q then swish_channel mips_msa lm size (data q) else data k) 0 bottom_top_blob.data
  (0, { bottom_top_blob with data := data })

/-- Body of the NEON loops of the fp32 `Mish_arm::forward_inplace`, lines 64-70 and 90-96. -/
def mish_body4 {α : Type} [Field α] (lm : Libm α) (logf : α → α) (_i : Nat)
    (s : PackCursor α) : PackCursor α :=
  let _p := vld1q_f32 s.mem s.ptr
  let _p := vmulq_f32 _p (tanh_ps lm (log_ps logf (vaddq_f32 (exp_ps lm _p) (vdupq_n_f32 1))))
  { ptr := s.ptr + 4, mem := vst1q_f32 s.mem s.ptr _p }

/-- Body of the scalar loop of the fp32 `Mish_arm::forward_inplace`, lines 98-102. -/
def mish_body1 {α : Type} [Field α] (lm : Libm α) (logf : α → α) (_i : Nat)
    (s : PackCursor α) : PackCursor α :=
  { ptr := s.ptr + 1,
    mem := store s.mem s.ptr (s.mem s.ptr * lm.tanhf (logf (lm.expf (s.mem s.ptr) + 1))) }

/-- Body of the loop over channels for `elempack == 4` (lines 60-71) on the buffer of one
channel. -/
def mish_channel_pack4 {α : Type} [Field α] (lm : Libm α) (logf : α → α) (size : Nat)
    (b : Buf α) : Buf α :=
  (forFrom size (mish_body4 lm logf) 0 { ptr := 0, mem := b }).mem

/-- Body of the general loop over channels (lines 78-103) on the buffer of one channel. -/
def mish_channel {α : Type} [Field α] (cfg : Build) (lm : Libm α) (logf : α → α) (size : Nat)
    (b : Buf α) : Buf α :=
  let nn := if cfg.arm_neon then size >>> 2 else 0
  let remain := if cfg.arm_neon then size - (nn <<< 2) else size
  let s0 : PackCursor α := { ptr := 0, mem := b }
  let s1 := if cfg.arm_neon then forDown (mish_body4 lm logf) nn s0 else s0
  (forDown (mish_body1 lm logf) remain s1).mem

/-- The fp32 path of `Mish_arm::forward_inplace` (lines 49-106, reached when neither storage
test of lines 32-47 sends the call to a 16-bit path): the status and the tensor at return. -/
def Mish_arm.forward_inplace {α : Type} [Field α] (cfg : Build) (lm : Libm α) (logf : α → α)
    (bottom_top_blob : Mat4 α) : Int × Mat4 α :=
  let w := bottom_top_blob.w
  let h := bottom_top_blob.h
  let d := bottom_top_blob.d
  let channels := bottom_top_blob.c
  let size := w * h * d
  let elempack := bottom_top_blob.elempack
  if cfg.arm_neon ∧ elempack = 4 then
    let data := forFrom channels
      (fun q (data : Nat → Buf α) k =>
        if k = q then mish_channel_pack4 lm logf size (data q) else data k) 0
      bottom_top_blob.data
    (0, { bottom_top_blob with data := data })
  else
    let data := forFrom channels
      (fun q (data : Nat → Buf α) k =>
        if k = q then mish_channel cfg lm logf size (data q) else data k) 0
      bottom_top_blob.data
    (0, { bottom_top_blob with data := data })

/-- Swish as the specification writes it: `f(x) = x / (1 + exp(-x))`. -/
def swish_spec {α : Type} [Field α] (lm : Libm α) (x : α) : α :=
  x / (1 + lm.expf (-x))

/-- Mish as the specification writes it: `f(x) = x * tanh(ln(exp(x) + 1))`. -/
def mish_spec {α : Type} [Field α] (lm : Libm α) (logf : α → α) (x : α) : α :=
  x * lm.tanhf (logf (lm.expf x + 1))

/-- A loop body that advances the cursor by `w` and replaces the `w` values under it by their
images under `f` (proof device). -/
def IsMapStep {α : Type} (f : α → α) (w : Nat) (B : PackCursor α → PackCursor α) : Prop :=
  ∀ s, (B s).ptr = s.ptr + w ∧
    ∀ j, (B s).mem j = if s.ptr ≤ j ∧ j < s.ptr + w then f (s.mem j) else s.mem j

/-- A tensor of 2 channels of 2 x 3 x 1 elements with pack factor 1 and pairwise different
entries in each channel. -/
def ex_blob : Mat4 ℚ :=
  { w := 2, h := 3, d := 1, c := 2, elempack := 1, data := fun k j => (k : ℚ) + 2 * (j : ℚ) }

end

section

/-! ## The multi-input forward with explicit storage

The tensors of `Mat` values above carry their contents with them. To speak about which storage
a call writes, the same code is embedded once more with `Mat` as a header that refers to an
allocation. -/

/-- Memory: the float storage of every allocation, by allocation identifier, and the first
identifier not handed out yet. -/
structure Heap (α : Type) where
  mem : Nat → Buf α
  next : Nat

/-- Modelled from the spec: a `Mat` header (mat.h is not among the sources): the shape and the
storage it refers to, allocation `id` seen from element offset `off`; `id = none` for a tensor
without storage. Copying a header shares the storage. -/
structure MatRef where
  w : Nat
  h : Nat
  c : Nat
  elempack : Nat
  id : Option Nat
  off : Nat

/-- Header without storage and shape. -/
def MatRef.null : MatRef :=
  { w := 0, h := 0, c := 0, elempack := 0, id := none, off := 0 }

/-- Number of floats of the tensor. -/
def MatRef.total (r : MatRef) : Nat :=
  r.w * r.h * r.c * r.elempack

/-- View `row_range(y, rows)`: same storage, seen from `row(y)`. -/
def MatRef.row_range (r : MatRef) (y rows : Nat) : MatRef :=
  { w := r.w, h := rows, c := 1, elempack := r.elempack, id := r.id,
    off := r.off + y * r.w * r.elempack }

/-- The tensor value a header denotes in a memory. -/
def Heap.read {α : Type} [Zero α] (hp : Heap α) (r : MatRef) : Mat α :=
  { w := r.w, h := r.h, c := r.c, elempack := r.elempack,
    data := fun _ j => match r.id with
      | some i => hp.mem i (r.off + j)
      | none => 0 }

/-- The memory after the contents seen through the header `r` have become `b`; only the
allocation `r.id` changes. -/
def Heap.write {α : Type} (hp : Heap α) (r : MatRef) (b : Buf α) : Heap α :=
  match r.id with
  | some i =>
    { hp with mem := fun k =>
        if k = i then (fun j => if r.off ≤ j then b (j - r.off) else hp.mem i j) else hp.mem k }
  | none => hp

/-- Allocation of `n` floats: refused (`none`) when the allocator does not grant the request,
otherwise a new identifier is handed out; the contents of the new storage are unspecified. -/
def Heap.alloc {α : Type} (grants : Nat → Bool) (n : Nat) (hp : Heap α) :
    Option (Nat × Heap α) :=
  if grants n then some (hp.next, { hp with next := hp.next + 1 }) else none

/-- Modelled from the spec: `create(w, h, 4u, allocator)`, new storage for a 2-D tensor. -/
def MatRef.create {α : Type} (w h : Nat) (grants : Nat → Bool) (hp : Heap α) :
    Option (MatRef × Heap α) :=
  (Heap.alloc grants (w * h) hp).map
    (fun p => ({ w := w, h := h, c := 1, elempack := 1, id := some p.1, off := 0 }, p.2))

/-- Modelled from the spec: `clone(allocator)`, a deep copy into new storage; a tensor without
storage when the allocation fails. -/
def MatRef.clone {α : Type} [Zero α] (r : MatRef) (grants : Nat → Bool) (hp : Heap α) :
    MatRef × Heap α :=
  match Heap.alloc grants r.total hp with
  | some p =>
    ({ r with id := some p.1, off := 0 },
      p.2.write { r with id := some p.1, off := 0 } (hp.read r).buf)
  | none => (MatRef.null, hp)

/-- The allocators of ncnn `Option` as the sets of requests they grant. -/
structure HeapOption where
  blob_allocator : Nat → Bool
  workspace_allocator : Nat → Bool

/-- The options seen by `gru` in the memory `hp`: a granted request is served from the next
unused allocation. -/
def HeapOption.to_option {α : Type} (ho : HeapOption) (hp : Heap α) : NcnnOption α :=
  { lightmode := false, num_threads := 1, use_fp16_storage := false, use_bf16_storage := false,
    blob_allocator := fun n => if ho.blob_allocator n then some (hp.mem hp.next) else none,
    workspace_allocator :=
      fun n => if ho.workspace_allocator n then some (hp.mem hp.next) else none }

/-- A call of the static function `gru` (lines 251-624) on headers: it reads the three tensors
from memory, and what it leaves in `top_blob` and `hidden_state` is written back to their
storage; its gate workspace is released at return. At each call site `top_blob` and
`hidden_state` refer to allocations different from each other and from `bottom_blob`. -/
def gru_heap {α : Type} [Field α] (cfg : Build) (lm : Libm α) (ho : HeapOption)
    (bottom_blob top_blob : MatRef) (reverse : Nat) (weight_xc bias_c weight_hc : Mat α)
    (hidden_state : MatRef) (hp : Heap α) : Int × Heap α :=
  let r := gru cfg lm (hp.read bottom_blob) (hp.read top_blob) reverse weight_xc bias_c weight_hc
    (hp.read hidden_state) (ho.to_option hp)
  if r.1 ≠ 0 then (r.1, hp)
  else (0, (hp.write top_blob r.2.1.buf).write hidden_state r.2.2.buf)

/-- The hidden state of the multi-input `forward` at lines 733-745, on headers: a clone of
`bottom_blobs[1]` when there is one, otherwise newly created and zero-filled. -/
def forward_heap_hidden {α : Type} [Field α] (self : GRU_arm α) (ho : HeapOption)
    (bottom_blobs top_blobs : List MatRef) (hp : Heap α) : Option (MatRef × Heap α) :=
  let num_directions := num_directions self.direction
  let hidden_allocator :=
    if top_blobs.length = 2 then ho.blob_allocator else ho.workspace_allocator
  if bottom_blobs.length = 2 then
    some ((bottom_blobs.getD 1 MatRef.null).clone hidden_allocator hp)
  else
    match MatRef.create self.num_output num_directions hidden_allocator hp with
    | none => none
    | some p => some (p.1, p.2.write p.1 (((p.2.read p.1).fill 0).buf))

/-- The vector `top_blobs` at return (lines 796-799). -/
def forward_heap_finish (top_blobs : List MatRef) (hidden : MatRef) : List MatRef :=
  if top_blobs.length = 2 then top_blobs.set 1 hidden else top_blobs

/-- Multi-input `GRU_arm::forward`, fp32 path (lines 730-801), on headers: the status,
`top_blobs` and the memory at return. -/
def forward_heap {α : Type} [Field α] (cfg : Build) (lm : Libm α) (self : GRU_arm α)
    (ho : HeapOption) (bottom_blobs top_blobs : List MatRef) (hp : Heap α) :
    Int × List MatRef × Heap α :=
  let bottom_blob := bottom_blobs.getD 0 MatRef.null
  let T := bottom_blob.h
  let num_directions := num_directions self.direction
  match forward_heap_hidden self ho bottom_blobs top_blobs hp with
  | none => (-100, top_blobs, hp)
  | some (hidden, hp) =>
  match MatRef.create (self.num_output * num_directions) T ho.blob_allocator hp with
  | none =>
    (-100,
      top_blobs.set 0 { w := self.num_output * num_directions, h := T, c := 1, elempack := 1,
                        id := none, off := 0 }, hp)
  | some (top_blob, hp) =>
  let top_blobs := top_blobs.set 0 top_blob
  if self.direction = 0 ∨ self.direction = 1 then
    let r := gru_heap cfg lm ho bottom_blob top_blob self.direction
      (self.weight_xc_data_packed.channel 0) (self.bias_c_data_packed.channel 0)
      (self.weight_hc_data_packed.channel 0) hidden hp
    if r.1 ≠ 0 then (r.1, top_blobs, r.2)
    else (0, forward_heap_finish top_blobs hidden, r.2)
  else if self.direction = 2 then
    match MatRef.create self.num_output T ho.workspace_allocator hp with
    | none => (-100, top_blobs, hp)
    | some (top_blob_forward, hp) =>
    match MatRef.create self.num_output T ho.workspace_allocator hp with
    | none => (-100, top_blobs, hp)
    | some (top_blob_reverse, hp) =>
    let hidden0 := hidden.row_range 0 1
    let r0 := gru_heap cfg lm ho bottom_blob top_blob_forward 0
      (self.weight_xc_data_packed.channel 0) (self.bias_c_data_packed.channel 0)
      (self.weight_hc_data_packed.channel 0) hidden0 hp
    if r0.1 ≠ 0 then (r0.1, top_blobs, r0.2) else
    let hp := r0.2
    let hidden1 := hidden.row_range 1 1
    let r1 := gru_heap cfg lm ho bottom_blob top_blob_reverse 1
      (self.weight_xc_data_packed.channel 1) (self.bias_c_data_packed.channel 1)
      (self.weight_hc_data_packed.channel 1) hidden1 hp
    if r1.1 ≠ 0 then (r1.1, top_blobs, r1.2) else
    let hp := r1.2
    let hp := hp.write top_blob
      (forFrom T
        (concat_row self.num_output (hp.read top_blob) (hp.read top_blob_forward)
          (hp.read top_blob_reverse)) 0 (hp.read top_blob).buf)
    (0, forward_heap_finish top_blobs hidden, hp)
  else (0, forward_heap_finish top_blobs hidden, hp)

/-- A memory with two allocations: allocation 0 holds a 3-row sequence of width 2, allocation
1 a hidden state of 5 units. -/
def ex_heap : Heap ℚ :=
  { mem := fun i j => (i : ℚ) + 2 * (j : ℚ) + 1, next := 2 }

/-- Header of the sequence in `ex_heap`. -/
def ex_ref_bottom : MatRef :=
  { w := 2, h := 3, c := 1, elempack := 1, id := some 0, off := 0 }

/-- Header of the hidden state in `ex_heap`. -/
def ex_ref_hidden : MatRef :=
  { w := 5, h := 1, c := 1, elempack := 1, id := some 1, off := 0 }

/-- Allocators that grant every request. -/
def ex_heap_opt : HeapOption :=
  { blob_allocator := fun _ => true, workspace_allocator := fun _ => true }

end

section

/-! ## gru_bf16s, lines 805-1178 -/

/-- The conversions of bf16 storage to float (not among the sources): the scalar
`bfloat16_to_float32` and the 4-lane `bfloat2float`. -/
structure Bf16Decode (α β : Type) where
  bfloat16_to_float32 : β → α
  bfloat2float : (Fin 4 → β) → float32x4_t α

/-- Load four consecutive 16-bit elements. -/
def vld1_u16 {β : Type} (m : Buf β) (p : Nat) : Fin 4 → β :=
  fun l => m (p + l.val)

/-- Broadcast a 16-bit element to all lanes. -/
def vdup_n_u16 {β : Type} (x : β) : Fin 4 → β :=
  fun _ => x

/-- Body of the loops at lines 854-886 and 901-933: four entries `_xi` of the input row
(decoded) or of the hidden state (float), given by `ld i`, against 32 packed bf16 weights, then
`ptr += 32`. -/
def gate_RU4_bf16 {α β : Type} [Add α] [Mul α] (dc : Bf16Decode α β) (aarch64 : Bool)
    (ld : Nat → float32x4_t α) (wt : Buf β) (i : Nat) (s : AccRU4 α) : AccRU4 α :=
  let _xi := ld i
  let _weight_xc_R := dc.bfloat2float (vld1_u16 wt s.ptr)
  let _weight_xc_U := dc.bfloat2float (vld1_u16 wt (s.ptr + 4))
  let _weight_xc_R_1 := dc.bfloat2float (vld1_u16 wt (s.ptr + 8))
  let _weight_xc_U_1 := dc.bfloat2float (vld1_u16 wt (s.ptr + 12))
  let _weight_xc_R_2 := dc.bfloat2float (vld1_u16 wt (s.ptr + 16))
  let _weight_xc_U_2 := dc.bfloat2float (vld1_u16 wt (s.ptr + 20))
  let _weight_xc_R_3 := dc.bfloat2float (vld1_u16 wt (s.ptr + 24))
  let _weight_xc_U_3 := dc.bfloat2float (vld1_u16 wt (s.ptr + 28))
  { ptr := s.ptr + 32,
    gru_R := fma_lane aarch64 s.gru_R _weight_xc_R _xi 0,
    gru_U := fma_lane aarch64 s.gru_U _weight_xc_U _xi 0,
    sum1 := fma_lane aarch64 s.sum1 _weight_xc_R_1 _xi 1,
    sum2 := fma_lane aarch64 s.sum2 _weight_xc_U_1 _xi 1,
    sum3 := fma_lane aarch64 s.sum3 _weight_xc_R_2 _xi 2,
    sum4 := fma_lane aarch64 s.sum4 _weight_xc_U_2 _xi 2,
    sum5 := fma_lane aarch64 s.sum5 _weight_xc_R_3 _xi 3,
    sum6 := fma_lane aarch64 s.sum6 _weight_xc_U_3 _xi 3 }

/-- Body of the loops at lines 887-897 and 934-944: one broadcast entry `ld i` against 8 packed
bf16 weights, then `ptr += 8`. -/
def gate_RU4_tail_bf16 {α β : Type} [Add α] [Mul α] (dc : Bf16Decode α β)
    (ld : Nat → float32x4_t α) (wt : Buf β) (i : Nat) (s : AccRU4 α) : AccRU4 α :=
  let _xi := ld i
  let _weight_xc_R := dc.bfloat2float (vld1_u16 wt s.ptr)
  let _weight_xc_U := dc.bfloat2float (vld1_u16 wt (s.ptr + 4))
  { s with ptr := s.ptr + 8,
           gru_R := vmlaq_f32 s.gru_R _weight_xc_R _xi,
           gru_U := vmlaq_f32 s.gru_U _weight_xc_U _xi }

/-- Body of the loops at lines 966-986 and 1008-1028: four entries `ld i` against 16 packed
bf16 weights, then `ptr += 16`. -/
def gate_N4_bf16 {α β : Type} [Add α] [Mul α] (dc : Bf16Decode α β) (aarch64 : Bool)
    (ld : Nat → float32x4_t α) (wt : Buf β) (i : Nat) (s : AccN4 α) : AccN4 α :=
  let _h_cont := ld i
  let _weight_hc_N := dc.bfloat2float (vld1_u16 wt s.ptr)
  let _weight_hc_N_1 := dc.bfloat2float (vld1_u16 wt (s.ptr + 4))
  let _weight_hc_N_2 := dc.bfloat2float (vld1_u16 wt (s.ptr + 8))
  let _weight_hc_N_3 := dc.bfloat2float (vld1_u16 wt (s.ptr + 12))
  { ptr := s.ptr + 16,
    gru_N := fma_lane aarch64 s.gru_N _weight_hc_N _h_cont 0,
    sum1 := fma_lane aarch64 s.sum1 _weight_hc_N_1 _h_cont 1,
    sum2 := fma_lane aarch64 s.sum2 _weight_hc_N_2 _h_cont 2,
    sum3 := fma_lane aarch64 s.sum3 _weight_hc_N_3 _h_cont 3 }

/-- Body of the loops at lines 987-996 and 1029-1038: one broadcast entry `ld i` against 4
packed bf16 weights, then `ptr += 4`. -/
def gate_N4_tail_bf16 {α β : Type} [Add α] [Mul α] (dc : Bf16Decode α β)
    (ld : Nat → float32x4_t α) (wt : Buf β) (i : Nat) (s : AccN4 α) : AccN4 α :=
  let _h_cont := ld i
  let _weight_hc_N := dc.bfloat2float (vld1_u16 wt s.ptr)
  { s with ptr := s.ptr + 4, gru_N := vmlaq_f32 s.gru_N _weight_hc_N _h_cont }

/-- Gate computation of the group `qq` in `gru_bf16s` (lines 832-1045), up to the store into
the workspace. `x` is the pointer `bottom_blob.row(ti)`; the input row, the weights and the
bias are bf16, `hidden` is the float buffer of `hidden_state`. -/
def gru_gates4_bf16 {α β : Type} [Field α] (dc : Bf16Decode α β) (cfg : Build) (lm : Libm α)
    (size num_output : Nat) (bottom_blob : Buf β) (x : Nat) (weight_xc bias_c weight_hc : Mat β)
    (hidden : Buf α) (qq : Nat) : Gates4 α :=
  let q := qq * 4
  let bias_c_RUBNWN := q * 4
  let weight_xc_RUN := weight_xc.row (q / 4)
  let weight_hc_RUN := weight_hc.row (q / 4)
  let a : AccRU4 α :=
    { ptr := weight_xc_RUN,
      gru_R := dc.bfloat2float (vld1_u16 bias_c.buf bias_c_RUBNWN),
      gru_U := dc.bfloat2float (vld1_u16 bias_c.buf (bias_c_RUBNWN + 4)),
      sum1 := vdupq_n_f32 0, sum2 := vdupq_n_f32 0, sum3 := vdupq_n_f32 0,
      sum4 := vdupq_n_f32 0, sum5 := vdupq_n_f32 0, sum6 := vdupq_n_f32 0 }
  let ia := forStep4 size
    (gate_RU4_bf16 dc cfg.aarch64 (fun i => dc.bfloat2float (vld1_u16 bottom_blob (x + i)))
      weight_xc.buf) 0 a
  let a := forFrom size
    (gate_RU4_tail_bf16 dc (fun i => dc.bfloat2float (vdup_n_u16 (bottom_blob (x + i))))
      weight_xc.buf) ia.1 ia.2
  let weight_xc_RUN := a.ptr
  let a : AccRU4 α := { a with ptr := weight_hc_RUN }
  let ia := forStep4 num_output
    (gate_RU4_bf16 dc cfg.aarch64 (fun i => vld1q_f32 hidden (0 + i)) weight_hc.buf) 0 a
  let a := forFrom num_output
    (gate_RU4_tail_bf16 dc (fun i => vdupq_n_f32 (hidden (0 + i))) weight_hc.buf) ia.1 ia.2
  let weight_hc_RUN := a.ptr
  let _gru_R := vaddq_f32 a.gru_R a.sum1
  let _gru_U := vaddq_f32 a.gru_U a.sum2
  let _sum3 := vaddq_f32 a.sum3 a.sum5
  let _sum4 := vaddq_f32 a.sum4 a.sum6
  let _gru_R := vaddq_f32 _gru_R _sum3
  let _gru_U := vaddq_f32 _gru_U _sum4
  let _gru_R := sigmoid_ps lm _gru_R
  let _gru_U := sigmoid_ps lm _gru_U
  let n : AccN4 α :=
    { ptr := weight_hc_RUN, gru_N := dc.bfloat2float (vld1_u16 bias_c.buf (bias_c_RUBNWN + 8)),
      sum1 := vdupq_n_f32 0, sum2 := vdupq_n_f32 0, sum3 := vdupq_n_f32 0 }
  let iN := forStep4 num_output
    (gate_N4_bf16 dc cfg.aarch64 (fun i => vld1q_f32 hidden (0 + i)) weight_hc.buf) 0 n
  let n := forFrom num_output
    (gate_N4_tail_bf16 dc (fun i => vdupq_n_f32 (hidden (0 + i))) weight_hc.buf) iN.1 iN.2
  let _gru_N := vaddq_f32 n.gru_N n.sum1
  let _sum2 := vaddq_f32 n.sum2 n.sum3
  let _gru_N := vaddq_f32 _gru_N _sum2
  let _gru_N := vmlaq_f32 (dc.bfloat2float (vld1_u16 bias_c.buf (bias_c_RUBNWN + 12))) _gru_R
    _gru_N
  let n : AccN4 α :=
    { ptr := weight_xc_RUN, gru_N := _gru_N,
      sum1 := vdupq_n_f32 0, sum2 := vdupq_n_f32 0, sum3 := vdupq_n_f32 0 }
  let iN := forStep4 size
    (gate_N4_bf16 dc cfg.aarch64 (fun i => dc.bfloat2float (vld1_u16 bottom_blob (x + i)))
      weight_xc.buf) 0 n
  let n := forFrom size
    (gate_N4_tail_bf16 dc (fun i => dc.bfloat2float (vdup_n_u16 (bottom_blob (x + i))))
      weight_xc.buf) iN.1 iN.2
  let _gru_N := vaddq_f32 n.gru_N n.sum1
  let _sum2 := vaddq_f32 n.sum2 n.sum3
  let _gru_N := vaddq_f32 _gru_N _sum2
  let _gru_N := tanh_ps lm _gru_N
  { R := _gru_R, U := _gru_U, N := _gru_N }

/-- Body of the loops at lines 1072-1080 and 1082-1090: `R += decode(w[0]) * v; U +=
decode(w[1]) * v; ptr += 2`, with `v = ld i` the decoded input or the float hidden entry. -/
def gate_RU1_bf16 {α β : Type} [Add α] [Mul α] (dc : Bf16Decode α β) (ld : Nat → α)
    (wt : Buf β) (i : Nat) (s : AccRU1 α) : AccRU1 α :=
  let xi := ld i
  { ptr := s.ptr + 2, R := s.R + dc.bfloat16_to_float32 (wt (s.ptr + 0)) * xi,
    U := s.U + dc.bfloat16_to_float32 (wt (s.ptr + 1)) * xi }

/-- Body of the loops at lines 1100-1107 and 1111-1118: `N += decode(w[0]) * v; ptr += 1`. -/
def gate_N1_bf16 {α β : Type} [Add α] [Mul α] (dc : Bf16Decode α β) (ld : Nat → α)
    (wt : Buf β) (i : Nat) (s : AccN1 α) : AccN1 α :=
  let h_cont := ld i
  { ptr := s.ptr + 1, N := s.N + dc.bfloat16_to_float32 (wt (s.ptr + 0)) * h_cont }

/-- Gate computation of the unit `q` in the one-unit loop of `gru_bf16s` (lines 1054-1121), up
to the store into the workspace. -/
def gru_gates1_bf16 {α β : Type} [Field α] (dc : Bf16Decode α β) (cfg : Build) (lm : Libm α)
    (size num_output : Nat) (bottom_blob : Buf β) (x : Nat) (weight_xc bias_c weight_hc : Mat β)
    (hidden : Buf α) (q : Nat) : Gates1 α :=
  let bias_c_RUBNWN := q * 4
  let weight_xc_RUN := weight_xc.row (unit_row cfg q)
  let weight_hc_RUN := weight_hc.row (unit_row cfg q)
  let a : AccRU1 α :=
    { ptr := weight_xc_RUN, R := dc.bfloat16_to_float32 (bias_c.buf (bias_c_RUBNWN + 0)),
      U := dc.bfloat16_to_float32 (bias_c.buf (bias_c_RUBNWN + 1)) }
  let a := forFrom size
    (gate_RU1_bf16 dc (fun i => dc.bfloat16_to_float32 (bottom_blob (x + i))) weight_xc.buf) 0 a
  let weight_xc_RUN := a.ptr
  let a : AccRU1 α := { a with ptr := weight_hc_RUN }
  let a := forFrom num_output (gate_RU1_bf16 dc (fun i => hidden (0 + i)) weight_hc.buf) 0 a
  let weight_hc_RUN := a.ptr
  let R := 1 / (1 + lm.expf (-a.R))
  let U := 1 / (1 + lm.expf (-a.U))
  let n : AccN1 α :=
    { ptr := weight_hc_RUN, N := dc.bfloat16_to_float32 (bias_c.buf (bias_c_RUBNWN + 2)) }
  let n := forFrom num_output (gate_N1_bf16 dc (fun i => hidden (0 + i)) weight_hc.buf) 0 n
  let N := dc.bfloat16_to_float32 (bias_c.buf (bias_c_RUBNWN + 3)) + R * n.N
  let n : AccN1 α := { ptr := weight_xc_RUN, N := N }
  let n := forFrom size
    (gate_N1_bf16 dc (fun i => dc.bfloat16_to_float32 (bottom_blob (x + i))) weight_xc.buf) 0 n
  let N := lm.tanhf n.N
  { R := R, U := U, N := N }

/-- The buffers written by a timestep of `gru_bf16s`: the float gate workspace, the bf16 output
and the float hidden state. -/
structure StepState16 (α β : Type) where
  gates : Buf α
  top : Buf β
  hidden : Buf α

/-- Body of the loop at lines 832-1051, with the store of U and N into workspace row
`q / 4`. -/
def step_gates4_bf16 {α β : Type} [Field α] (dc : Bf16Decode α β) (cfg : Build) (lm : Libm α)
    (size num_output : Nat) (bottom_blob : Buf β) (x : Nat) (weight_xc bias_c weight_hc : Mat β)
    (hidden : Buf α) (qq : Nat) (gates : Buf α) : Buf α :=
  let q := qq * 4
  let g := gru_gates4_bf16 dc cfg lm size num_output bottom_blob x weight_xc bias_c weight_hc
    hidden qq
  let gates_data := (q / 4) * gates_w cfg
  vst1q_f32 (vst1q_f32 gates gates_data g.U) (gates_data + 4) g.N

/-- Body of the loop at lines 1054-1131, with the store of U and N into the workspace row of
the unit. -/
def step_gates1_bf16 {α β : Type} [Field α] (dc : Bf16Decode α β) (cfg : Build) (lm : Libm α)
    (size num_output : Nat) (bottom_blob : Buf β) (x : Nat) (weight_xc bias_c weight_hc : Mat β)
    (hidden : Buf α) (q : Nat) (gates : Buf α) : Buf α :=
  let g := gru_gates1_bf16 dc cfg lm size num_output bottom_blob x weight_xc bias_c weight_hc
    hidden q
  let gates_data := unit_row cfg q * gates_w cfg
  store (store gates (gates_data + 0) g.U) (gates_data + 1) g.N

/-- Body of the loop at lines 1143-1156: the blend for a 4-lane group, stored as float to the
hidden state and converted to bf16 to the output row. -/
def step_H4_bf16 {α β : Type} [Field α] (cv : Bf16Cast α β) (cfg : Build)
    (output_data hidden_ptr : Nat) (qq : Nat) (s : StepState16 α β) : StepState16 α β :=
  let q := qq * 4
  let gates_data := (q / 4) * gates_w cfg
  let _gru_U := vld1q_f32 s.gates gates_data
  let _gru_N := vld1q_f32 s.gates (gates_data + 4)
  let _gru_H := vaddq_f32 (vmulq_f32 (vsubq_f32 (vdupq_n_f32 1) _gru_U) _gru_N)
    (vmulq_f32 _gru_U (vld1q_f32 s.hidden (hidden_ptr + q)))
  { s with hidden := vst1q_f32 s.hidden (hidden_ptr + q) _gru_H,
           top := vst1_u16 s.top (output_data + q) (cv.float2bfloat _gru_H) }

/-- Body of the loop at lines 1159-1174: the blend for one unit, stored as float to the hidden
state and converted to bf16 to the output row. -/
def step_H1_bf16 {α β : Type} [Field α] (cv : Bf16Cast α β) (cfg : Build)
    (output_data hidden_ptr : Nat) (q : Nat) (s : StepState16 α β) : StepState16 α β :=
  let gates_data := unit_row cfg q * gates_w cfg
  let U := s.gates (gates_data + 0)
  let N := s.gates (gates_data + 1)
  let H := (1 - U) * N + U * s.hidden (hidden_ptr + q)
  { s with hidden := store s.hidden (hidden_ptr + q) H,
           top := store s.top (output_data + q) (cv.float32_to_bfloat16 H) }

/-- Body of the loop over timesteps of `gru_bf16s` (lines 822-1175). -/
def gru_step_bf16 {α β : Type} [Field α] (cv : Bf16Cast α β) (dc : Bf16Decode α β)
    (cfg : Build) (lm : Libm α) (bottom_blob top_blob : Mat β) (reverse : Nat)
    (weight_xc bias_c weight_hc : Mat β) (t : Nat) (s : StepState16 α β) : StepState16 α β :=
  let size := bottom_blob.w
  let T := bottom_blob.h
  let num_output := top_blob.w
  let ti := step_ti reverse T t
  let nn_num_output := num_output >>> 2
  let x := bottom_blob.row ti
  let gates :=
    if cfg.arm_neon then
      forFrom nn_num_output
        (step_gates4_bf16 dc cfg lm size num_output bottom_blob.buf x weight_xc bias_c weight_hc
          s.hidden) 0 s.gates
    else s.gates
  let gates :=
    forFrom num_output
      (step_gates1_bf16 dc cfg lm size num_output bottom_blob.buf x weight_xc bias_c weight_hc
        s.hidden) (remain_num_output_start cfg num_output) gates
  let output_data := top_blob.row ti
  let hidden_ptr := 0
  let s1 : StepState16 α β := { s with gates := gates }
  let s2 :=
    if cfg.arm_neon then forFrom nn_num_output (step_H4_bf16 cv cfg output_data hidden_ptr) 0 s1
    else s1
  forFrom num_output (step_H1_bf16 cv cfg output_data hidden_ptr)
    (remain_num_output_start cfg num_output) s2

/-- The static function `gru_bf16s` (lines 805-1178): status, `top_blob` (bf16) and
`hidden_state` (float) at return. -/
def gru_bf16s {α β : Type} [Field α] (cv : Bf16Cast α β) (dc : Bf16Decode α β) (cfg : Build)
    (lm : Libm α) (bottom_blob top_blob : Mat β) (reverse : Nat)
    (weight_xc bias_c weight_hc : Mat β) (hidden_state : Mat α) (opt : NcnnOption α) :
    Int × Mat β × Mat α :=
  let T := bottom_blob.h
  let num_output := top_blob.w
  match gates_create cfg num_output opt.workspace_allocator with
  | none => (-100, top_blob, hidden_state)
  | some gates =>
    let s := forFrom T
      (gru_step_bf16 cv dc cfg lm bottom_blob top_blob reverse weight_xc bias_c weight_hc) 0
      { gates := gates.buf, top := top_blob.buf, hidden := hidden_state.buf }
    (0, top_blob.set_buf s.top, hidden_state.set_buf s.hidden)

/-- The float part of a `gru_bf16s` timestep state agrees with a `gru` timestep state. -/
def StepState16.agrees {α β : Type} (s : StepState16 α β) (t : StepState α) : Prop :=
  s.gates = t.gates ∧ s.hidden = t.hidden

/-- Progress of the loops that write `h_t`: the first `k` units of the output row hold the
conversion of the hidden values just written, the rest of the output buffer is as it was. -/
def StepState16.written {α β : Type} (cv : Bf16Cast α β) (out : Nat) (top0 : Buf β) (k : Nat)
    (s : StepState16 α β) : Prop :=
  (∀ q, q < k → s.top (out + q) = cv.float32_to_bfloat16 (s.hidden q)) ∧
  (∀ j, (j < out ∨ out + k ≤ j) → s.top j = top0 j)

/-- Decoding of the example 16-bit integers as rationals. -/
def ex_dec : Bf16Decode ℚ ℤ :=
  { bfloat16_to_float32 := fun z => (z : ℚ), bfloat2float := fun v l => (v l : ℚ) }

end

section

/-! ## Normalize (src/layer/normalize.cpp) -/

/-- The fields of `Normalize` set by `load_param` and `load_model` (lines 16-28); the flags are
C `int`s tested for being non-zero. -/
structure Normalize (α : Type) where
  across_spatial : Int
  across_channel : Int
  channel_shared : Int
  eps : α
  eps_mode : Int
  scale_data : Mat α

/-- The coefficient `a` of lines 71-83 (the same text at lines 131-143, 178-190, 218-230);
`sqrtf` is the libm square root (line 82 calls `sqrt` on the same float argument) and `fl` the
rounding that the type `float` applies to the exact result of an addition, a multiplication or
a division (`f32_fl` for single precision, the identity for exact arithmetic). -/
def normalize_coef {α : Type} [LinearOrderedField α] (fl : α → α) (sqrtf : α → α) (eps : α)
    (eps_mode : Int) (ssum : α) : α :=
  if eps_mode = 0 then fl (1 / sqrtf (fl (ssum + eps)))
  else if eps_mode = 1 then fl (1 / max (sqrtf ssum) eps)
  else fl (1 / sqrtf (max ssum eps))

/-- The loop of lines 56-60 (125-129): `ssum += ptr[i] * ptr[i]` over the `size` values of a
channel, from `ssum = 0`. -/
def channel_ssum {α : Type} [Field α] (fl : α → α) (ptr : Buf α) (size : Nat) : α :=
  forFrom size (fun i ssum => fl (ssum + fl (ptr i * ptr i))) 0 0

/-- The loop of lines 94-97 (108-111, 147-150): `ptr[i] = ptr[i] * scale`. -/
def channel_scale {α : Type} [Field α] (fl : α → α) (scale : α) (size : Nat) (ptr : Buf α) :
    Buf α :=
  forFrom size (fun i p => store p i (fl (p i * scale))) 0 ptr

/-- The loop of lines 171-176 (211-216): `ssum += ptr[i] * ptr[i]` over the channels at the
position `i`, from `ssum = 0`. -/
def position_ssum {α : Type} [Field α] (fl : α → α) (data : Nat → Buf α) (channels i : Nat) :
    α :=
  forFrom channels (fun q ssum => fl (ssum + fl (data q i * data q i))) 0 0

/-- `Normalize::forward_inplace` (lines 35-252): the status and the blob at return. The blob
is read through `w`, `h`, `c` and `channel(q)` only; the workspace tensor `square_sum_blob` is
created through the workspace allocator and its being `empty()` is the failure of that
creation. Every `float` operation rounds its exact result by `fl`. -/
def Normalize.forward_inplace {α : Type} [LinearOrderedField α] (fl : α → α) (sqrtf : α → α)
    (self : Normalize α) (bottom_top_blob : Mat α) (opt : NcnnOption α) : Int × Mat α :=
  let w := bottom_top_blob.w
  let h := bottom_top_blob.h
  let channels := bottom_top_blob.c
  let size := w * h
  if self.across_spatial ≠ 0 ∧ self.across_channel ≠ 0 then
    match Mat.create channels 1 opt.workspace_allocator with
    | none => (-100, bottom_top_blob)
    | some square_sum_blob =>
      let sq := forFrom channels
        (fun q (sq : Buf α) => store sq q (channel_ssum fl (bottom_top_blob.data q) size)) 0
        square_sum_blob.buf
      let ssum := forFrom channels (fun q (ssum : α) => fl (ssum + sq q)) 0 0
      let a := normalize_coef fl sqrtf self.eps self.eps_mode ssum
      if self.channel_shared ≠ 0 then
        let scale := fl (a * self.scale_data.buf 0)
        let data := forFrom channels
          (fun q (data : Nat → Buf α) k =>
            if k = q then channel_scale fl scale size (data q) else data k) 0
          bottom_top_blob.data
        (0, { bottom_top_blob with data := data })
      else
        let data := forFrom channels
          (fun q (data : Nat → Buf α) k =>
            if k = q then channel_scale fl (fl (a * self.scale_data.buf q)) size (data q)
            else data k) 0
          bottom_top_blob.data
        (0, { bottom_top_blob with data := data })
  else if self.across_spatial ≠ 0 ∧ ¬ self.across_channel ≠ 0 then
    let data := forFrom channels
      (fun q (data : Nat → Buf α) k =>
        if k = q then
          let ptr := data q
          let ssum := channel_ssum fl ptr size
          let a := normalize_coef fl sqrtf self.eps self.eps_mode ssum
          let scale := fl (a * (if self.channel_shared ≠ 0 then self.scale_data.buf 0
            else self.scale_data.buf q))
          channel_scale fl scale size ptr
        else data k) 0
      bottom_top_blob.data
    (0, { bottom_top_blob with data := data })
  else if ¬ self.across_spatial ≠ 0 ∧ self.across_channel ≠ 0 then
    match Mat.create size 1 opt.workspace_allocator with
    | none => (-100, bottom_top_blob)
    | some square_sum_blob =>
      if self.channel_shared ≠ 0 then
        let scale := self.scale_data.buf 0
        let sq := forFrom size
          (fun i (sq : Buf α) =>
            let ssum := position_ssum fl bottom_top_blob.data channels i
            let a := normalize_coef fl sqrtf self.eps self.eps_mode ssum
            store sq i (fl (a * scale))) 0
          square_sum_blob.buf
        let data := forFrom channels
          (fun q (data : Nat → Buf α) k =>
            if k = q then forFrom size (fun i p => store p i (fl (p i * sq i))) 0 (data q)
            else data k) 0
          bottom_top_blob.data
        (0, { bottom_top_blob with data := data })
      else
        let sq := forFrom size
          (fun i (sq : Buf α) =>
            let ssum := position_ssum fl bottom_top_blob.data channels i
            let a := normalize_coef fl sqrtf self.eps self.eps_mode ssum
            store sq i a) 0
          square_sum_blob.buf
        let data := forFrom channels
          (fun q (data : Nat → Buf α) k =>
            if k = q then
              let scale := self.scale_data.buf q
              forFrom size (fun i p => store p i (fl (fl (p i * sq i) * scale))) 0 (data q)
            else data k) 0
          bottom_top_blob.data
        (0, { bottom_top_blob with data := data })
  else (0, bottom_top_blob)

/-- A layer with the given flags, `eps = 1`, and a scale vector whose entries are all 3. -/
def ex_normalize {α : Type} [Field α] (across_spatial across_channel channel_shared
    eps_mode : Int) : Normalize α :=
  { across_spatial := across_spatial, across_channel := across_channel,
    channel_shared := channel_shared, eps := 1, eps_mode := eps_mode,
    scale_data := const_mat 3 4 1 1 }

/-- A square root over the rationals that is exact on the squares of rationals (the `float`
square root of a square whose root is a `float` is that root); a stand-in elsewhere. -/
def ex_sqrtf (v : ℚ) : ℚ :=
  (Nat.sqrt v.num.toNat : ℚ) / (Nat.sqrt v.den : ℚ)

/-- A layer with both flags and `channel_shared` set, `eps = 1`, `eps_mode = 1` and the shared
scale 3. -/
def ex_normalize_f32 : Normalize ℚ :=
  { across_spatial := 1, across_channel := 1, channel_shared := 1, eps := 1, eps_mode := 1,
    scale_data := const_mat 3 1 1 1 }

end

section

/-! ## pnnx passes: F_avg_pool1d, F_max_pool3d, nn_Conv3d_2 (tools/pnnx/src/pass_ncnn) -/

/-- Modelled from the spec: the pnnx `Parameter` (ir.h is not among the sources): the type tag
(0 absent, 1 bool, 2 int, 4 string, 5 array of int) and the value fields read by the passes. -/
structure Parameter where
  type : Int
  b : Bool
  i : Int
  s : String
  ai : List Int

/-- Modelled from the spec: the `Parameter` made from an `int` (type tag 2), as assigned by
`op->params[key] = value`. -/
def Parameter.of_int (v : Int) : Parameter :=
  { type := 2, b := false, i := v, s := "", ai := [] }

/-- Modelled from the spec: the parameters of a pnnx `Operator`, a map from key to
`Parameter` (`none` for a key that is not in the map). -/
structure Operator where
  params : String → Option Parameter

/-- Assignment `op->params[key] = v`. -/
def Operator.set_param (op : Operator) (key : String) (v : Parameter) : Operator :=
  { params := fun k => if k = key then some v else op.params k }

/-- `F_avg_pool1d::write` (lines 33-51); `captured_params.at(key)` has no result for a key that
is not in the map, and `v[k]` has none for an index outside the vector. -/
def F_avg_pool1d.write (op : Operator) (captured_params : String → Option Parameter) :
    Option Operator :=
  match captured_params "stride" with
  | none => none
  | some p_stride =>
  match captured_params "kernel_size" with
  | none => none
  | some p_kernel_size =>
  let stride : List Int := if p_stride.type = 0 then p_kernel_size.ai else p_stride.ai
  let op := op.set_param "0" (Parameter.of_int 1)
  match p_kernel_size.ai[0]? with
  | none => none
  | some kernel_size_0 =>
  let op := op.set_param "1" (Parameter.of_int kernel_size_0)
  match stride[0]? with
  | none => none
  | some stride_0 =>
  let op := op.set_param "2" (Parameter.of_int stride_0)
  match captured_params "padding" with
  | none => none
  | some p_padding =>
  match p_padding.ai[0]? with
  | none => none
  | some padding_0 =>
  let op := op.set_param "3" (Parameter.of_int padding_0)
  match captured_params "ceil_mode" with
  | none => none
  | some p_ceil_mode =>
  let op := op.set_param "5" (Parameter.of_int (if p_ceil_mode.b then 0 else 1))
  match captured_params "count_include_pad" with
  | none => none
  | some p_count_include_pad =>
  let op := op.set_param "6" (Parameter.of_int (if p_count_include_pad.b then 1 else 0))
  some op

/-- `F_max_pool3d::write` (lines 33-56). -/
def F_max_pool3d.write (op : Operator) (captured_params : String → Option Parameter) :
    Option Operator :=
  match captured_params "stride" with
  | none => none
  | some p_stride =>
  match captured_params "kernel_size" with
  | none => none
  | some p_kernel_size =>
  let stride : List Int := if p_stride.type = 0 then p_kernel_size.ai else p_stride.ai
  let op := op.set_param "0" (Parameter.of_int 0)
  match p_kernel_size.ai[2]? with
  | none => none
  | some kernel_size_2 =>
  let op := op.set_param "1" (Parameter.of_int kernel_size_2)
  match p_kernel_size.ai[1]? with
  | none => none
  | some kernel_size_1 =>
  let op := op.set_param "11" (Parameter.of_int kernel_size_1)
  match p_kernel_size.ai[0]? with
  | none => none
  | some kernel_size_0 =>
  let op := op.set_param "21" (Parameter.of_int kernel_size_0)
  match stride[2]? with
  | none => none
  | some stride_2 =>
  let op := op.set_param "2" (Parameter.of_int stride_2)
  match stride[1]? with
  | none => none
  | some stride_1 =>
  let op := op.set_param "12" (Parameter.of_int stride_1)
  match stride[0]? with
  | none => none
  | some stride_0 =>
  let op := op.set_param "22" (Parameter.of_int stride_0)
  match captured_params "padding" with
  | none => none
  | some p_padding =>
  match p_padding.ai[2]? with
  | none => none
  | some padding_2 =>
  let op := op.set_param "3" (Parameter.of_int padding_2)
  match p_padding.ai[1]? with
  | none => none
  | some padding_1 =>
  let op := op.set_param "13" (Parameter.of_int padding_1)
  match p_padding.ai[0]? with
  | none => none
  | some padding_0 =>
  let op := op.set_param "23" (Parameter.of_int padding_0)
  match captured_params "ceil_mode" with
  | none => none
  | some p_ceil_mode =>
  let op := op.set_param "5" (Parameter.of_int (if p_ceil_mode.b then 0 else 1))
  some op

/-- C division of `int`s: the quotient truncated toward zero; no result for the divisor 0.
The values are taken as integers, that is, without signed overflow. -/
def c_div (a b : Int) : Option Int :=
  if b = 0 then none else some (Int.tdiv a b)

/-- Element `v[v.size() - k]` of a vector (lines 182-184); no result when the index is outside
the vector (for `k > v.size()` the unsigned index wraps around). -/
def index_from_end (v : List Int) (k : Nat) : Option Int :=
  if k ≤ v.length then v[v.length - k]? else none

/-- The total pad along one axis for `padding = "same"` (lines 195-201):
`kernel_extent + (n - 1) / stride * stride - n` with
`kernel_extent = dilation * (kernel - 1) + 1`. -/
def same_pad (n kernel dilation stride : Int) : Option Int :=
  let kernel_extent := dilation * (kernel - 1) + 1
  match c_div (n - 1) stride with
  | none => none
  | some quot =>
  some (kernel_extent + quot * stride - n)

/-- The vector `padding` resolved for `padding = "same"` (lines 180-203); `input_shape` is the
shape of the first input of the operator `pad`. -/
def nn_Conv3d_2.same_padding (input_shape : List Int)
    (captured_params : String → Option Parameter) : Option (List Int) :=
  match index_from_end input_shape 1 with
  | none => none
  | some w =>
  match index_from_end input_shape 2 with
  | none => none
  | some h =>
  match index_from_end input_shape 3 with
  | none => none
  | some d =>
  match captured_params "kernel_size" with
  | none => none
  | some p_kernel_size =>
  match p_kernel_size.ai[2]? with
  | none => none
  | some kernel_w =>
  match p_kernel_size.ai[1]? with
  | none => none
  | some kernel_h =>
  match p_kernel_size.ai[0]? with
  | none => none
  | some kernel_d =>
  match captured_params "dilation" with
  | none => none
  | some p_dilation =>
  match p_dilation.ai[2]? with
  | none => none
  | some dilation_w =>
  match p_dilation.ai[1]? with
  | none => none
  | some dilation_h =>
  match p_dilation.ai[0]? with
  | none => none
  | some dilation_d =>
  match captured_params "stride" with
  | none => none
  | some p_stride =>
  match p_stride.ai[2]? with
  | none => none
  | some stride_w =>
  match p_stride.ai[1]? with
  | none => none
  | some stride_h =>
  match p_stride.ai[0]? with
  | none => none
  | some stride_d =>
  match same_pad w kernel_w dilation_w stride_w with
  | none => none
  | some wpad =>
  match same_pad h kernel_h dilation_h stride_h with
  | none => none
  | some hpad =>
  match same_pad d kernel_d dilation_d stride_d with
  | none => none
  | some dpad =>
  some [Int.tdiv hpad 2, hpad - Int.tdiv hpad 2, Int.tdiv wpad 2, wpad - Int.tdiv wpad 2,
    Int.tdiv dpad 2, dpad - Int.tdiv dpad 2]

/-- The vector `padding` of `nn_Conv3d_2::write` at line 217 (lines 175-216). For a string
that is neither "same" nor "valid" the vector stays empty. -/
def nn_Conv3d_2.padding (input_shape : List Int) (captured_params : String → Option Parameter) :
    Option (List Int) :=
  match captured_params "padding" with
  | none => none
  | some p_padding =>
  if p_padding.type = 4 then
    if p_padding.s = "same" then
      nn_Conv3d_2.same_padding input_shape captured_params
    else if p_padding.s = "valid" then
      some [0, 0, 0, 0, 0, 0]
    else
      some []
  else
    match p_padding.ai[0]? with
    | none => none
    | some dpad =>
    match p_padding.ai[1]? with
    | none => none
    | some hpad =>
    match p_padding.ai[2]? with
    | none => none
    | some wpad =>
    some [hpad, hpad, wpad, wpad, dpad, dpad]

/-- The operator `pad` after lines 218-237 of `nn_Conv3d_2::write`. -/
def nn_Conv3d_2.write_pad (pad : Operator) (padding : List Int)
    (captured_params : String → Option Parameter) : Option Operator :=
  match padding[0]? with
  | none => none
  | some padding_0 =>
  let pad := pad.set_param "0" (Parameter.of_int padding_0)
  match padding[1]? with
  | none => none
  | some padding_1 =>
  let pad := pad.set_param "1" (Parameter.of_int padding_1)
  match padding[2]? with
  | none => none
  | some padding_2 =>
  let pad := pad.set_param "2" (Parameter.of_int padding_2)
  match padding[3]? with
  | none => none
  | some padding_3 =>
  let pad := pad.set_param "3" (Parameter.of_int padding_3)
  match padding[4]? with
  | none => none
  | some padding_4 =>
  let pad := pad.set_param "7" (Parameter.of_int padding_4)
  match padding[5]? with
  | none => none
  | some padding_5 =>
  let pad := pad.set_param "8" (Parameter.of_int padding_5)
  match captured_params "padding_mode" with
  | none => none
  | some p_padding_mode =>
  let padding_mode := p_padding_mode.s
  let pad :=
    if padding_mode = "reflect" then pad.set_param "4" (Parameter.of_int 2)
    else if padding_mode = "replicate" then pad.set_param "4" (Parameter.of_int 1)
    else pad
  some pad

/-- The parameters of the operator `conv` after lines 239-254 of `nn_Conv3d_2::write`.
`weight_elemcount` is `captured_attrs.at("op_0.weight").elemcount()`; the attributes written
at lines 256-260 are not part of the model. -/
def nn_Conv3d_2.write_conv (conv : Operator) (captured_params : String → Option Parameter)
    (weight_elemcount : Option Int) : Option Operator :=
  match captured_params "out_channels" with
  | none => none
  | some p_out_channels =>
  let conv := conv.set_param "0" p_out_channels
  match captured_params "kernel_size" with
  | none => none
  | some p_kernel_size =>
  match p_kernel_size.ai[2]? with
  | none => none
  | some kernel_size_2 =>
  let conv := conv.set_param "1" (Parameter.of_int kernel_size_2)
  match p_kernel_size.ai[1]? with
  | none => none
  | some kernel_size_1 =>
  let conv := conv.set_param "11" (Parameter.of_int kernel_size_1)
  match p_kernel_size.ai[0]? with
  | none => none
  | some kernel_size_0 =>
  let conv := conv.set_param "21" (Parameter.of_int kernel_size_0)
  match captured_params "dilation" with
  | none => none
  | some p_dilation =>
  match p_dilation.ai[2]? with
  | none => none
  | some dilation_2 =>
  let conv := conv.set_param "2" (Parameter.of_int dilation_2)
  match p_dilation.ai[1]? with
  | none => none
  | some dilation_1 =>
  let conv := conv.set_param "12" (Parameter.of_int dilation_1)
  match p_dilation.ai[0]? with
  | none => none
  | some dilation_0 =>
  let conv := conv.set_param "22" (Parameter.of_int dilation_0)
  match captured_params "stride" with
  | none => none
  | some p_stride =>
  match p_stride.ai[2]? with
  | none => none
  | some stride_2 =>
  let conv := conv.set_param "3" (Parameter.of_int stride_2)
  match p_stride.ai[1]? with
  | none => none
  | some stride_1 =>
  let conv := conv.set_param "13" (Parameter.of_int stride_1)
  match p_stride.ai[0]? with
  | none => none
  | some stride_0 =>
  let conv := conv.set_param "23" (Parameter.of_int stride_0)
  let conv := conv.set_param "4" (Parameter.of_int 0)
  let conv := conv.set_param "14" (Parameter.of_int 0)
  let conv := conv.set_param "24" (Parameter.of_int 0)
  match captured_params "bias" with
  | none => none
  | some p_bias =>
  let conv := conv.set_param "5" (Parameter.of_int (if p_bias.b then 1 else 0))
  match weight_elemcount with
  | none => none
  | some elemcount =>
  let conv := conv.set_param "6" (Parameter.of_int elemcount)
  let conv := conv.set_param "7"
    (match captured_params "groups" with
     | some p_groups => p_groups
     | none => Parameter.of_int 1)
  some conv

/-- The parameters of the two operators after `nn_Conv3d_2::write` (lines 173-261): `pad` and
`conv` at return. -/
def nn_Conv3d_2.write (pad conv : Operator) (input_shape : List Int)
    (captured_params : String → Option Parameter) (weight_elemcount : Option Int) :
    Option (Operator × Operator) :=
  match nn_Conv3d_2.padding input_shape captured_params with
  | none => none
  | some padding =>
  match nn_Conv3d_2.write_pad pad padding captured_params with
  | none => none
  | some pad =>
  match nn_Conv3d_2.write_conv conv captured_params weight_elemcount with
  | none => none
  | some conv =>
  some (pad, conv)

/-- Modelled from the spec: the output extent along one axis of a convolution with the given
kernel, dilation, stride and pads on an input of extent `n` (the convolution layer is not
among the sources): `(n + pad_before + pad_after - kernel_extent) / stride + 1`. -/
def conv_out_extent (n kernel dilation stride pad_before pad_after : Int) : Int :=
  Int.tdiv (n + pad_before + pad_after - (dilation * (kernel - 1) + 1)) stride + 1

/-- An operator without parameters. -/
def ex_op : Operator :=
  { params := fun _ => none }

/-- A `Parameter` holding an array of int (type tag 5). -/
def ex_ai (v : List Int) : Parameter :=
  { type := 5, b := false, i := 0, s := "", ai := v }

/-- A `Parameter` holding a string (type tag 4). -/
def ex_str (v : String) : Parameter :=
  { type := 4, b := false, i := 0, s := v, ai := [] }

/-- A `Parameter` holding a bool (type tag 1). -/
def ex_bool (v : Bool) : Parameter :=
  { type := 1, b := v, i := 0, s := "", ai := [] }

/-- An absent `Parameter` (type tag 0). -/
def ex_absent : Parameter :=
  { type := 0, b := false, i := 0, s := "", ai := [] }

/-- Captured parameters of a 1-D average pooling: kernel 3, stride absent, padding 1,
`ceil_mode` true. -/
def ex_pool1d_params : String → Option Parameter :=
  fun k =>
    if k = "kernel_size" then some (ex_ai [3])
    else if k = "stride" then some ex_absent
    else if k = "padding" then some (ex_ai [1])
    else if k = "ceil_mode" then some (ex_bool true)
    else if k = "count_include_pad" then some (ex_bool false)
    else none

/-- Captured parameters of a 3-D max pooling: kernel (2, 3, 4), stride (5, 6, 7),
padding (0, 1, 2), `ceil_mode` false. -/
def ex_pool3d_params : String → Option Parameter :=
  fun k =>
    if k = "kernel_size" then some (ex_ai [2, 3, 4])
    else if k = "stride" then some (ex_ai [5, 6, 7])
    else if k = "padding" then some (ex_ai [0, 1, 2])
    else if k = "ceil_mode" then some (ex_bool false)
    else none

/-- Captured parameters of a 3-D convolution with `padding = "same"`: kernel (3, 3, 2),
dilation (1, 2, 1), stride (1, 2, 3), reflecting pad. -/
def ex_conv3d_params : String → Option Parameter :=
  fun k =>
    if k = "padding" then some (ex_str "same")
    else if k = "kernel_size" then some (ex_ai [3, 3, 2])
    else if k = "dilation" then some (ex_ai [1, 2, 1])
    else if k = "stride" then some (ex_ai [1, 2, 3])
    else if k = "padding_mode" then some (ex_str "reflect")
    else if k = "out_channels" then some (Parameter.of_int 8)
    else if k = "bias" then some (ex_bool true)
    else none

end

section

/-! ## Depthwise 5x5 convolution, RVV fp16 (src/layer/riscv/convolutiondepthwise_5x5_packn_fp16s.h) -/

/-- Loop `for (; i + 1 < hi; i += 2) body(i)` entered with the given `i`; returns the value of
`i` at loop exit together with the state. -/
def forStep2 {σ : Type} (hi : Nat) (body : Nat → σ → σ) (i : Nat) (s : σ) : Nat × σ :=
  if i + 1 < hi then forStep2 hi body (i + 2) (body i s) else (i, s)
termination_by hi - i

/-- Modelled from the spec: a vector register `vfloat16m1_t` holding `vl` lanes (the RVV
intrinsics are not among the sources); lane values are elements of the carrier, without
rounding. -/
abbrev vfloat16m1_t (α : Type) (vl : Nat) := Fin vl → α

/-- Modelled from the spec: `__riscv_vle16_v_f16m1(p, vl)`, the load of `vl` consecutive
elements. -/
def vle16 {α : Type} (m : Buf α) (p : Nat) (vl : Nat) : vfloat16m1_t α vl :=
  fun l => m (p + l)

/-- Modelled from the spec: `__riscv_vfmv_v_f_f16m1(x, vl)`, the value `x` in every lane. -/
def vfmv {α : Type} (x : α) (vl : Nat) : vfloat16m1_t α vl :=
  fun _ => x

/-- Modelled from the spec: `__riscv_vfmacc_vv_f16m1(vd, vs1, vs2, vl)`, lane-wise
`vs1 * vs2 + vd`. -/
def vfmacc {α : Type} [Add α] [Mul α] {vl : Nat} (vd vs1 vs2 : vfloat16m1_t α vl) :
    vfloat16m1_t α vl :=
  fun l => vs1 l * vs2 l + vd l

/-- Modelled from the spec: `__riscv_vse16_v_f16m1(p, v, vl)`, the store of the `vl` lanes to
consecutive elements. -/
def vse16 {α : Type} {vl : Nat} (m : Buf α) (p : Nat) (v : vfloat16m1_t α vl) : Buf α :=
  fun j => if h : p ≤ j ∧ j < p + vl then v ⟨j - p, by omega⟩ else m j

/-- Five vector registers `_x0 .. _x4`. -/
structure Vec5 (α : Type) (vl : Nat) where
  v0 : vfloat16m1_t α vl
  v1 : vfloat16m1_t α vl
  v2 : vfloat16m1_t α vl
  v3 : vfloat16m1_t α vl
  v4 : vfloat16m1_t α vl

/-- The five loads from `p`, `p + packn`, `p + packn * 2`, `p + packn * 3`, `p + packn * 4`
(lines 48-52 and the like). -/
def load5 {α : Type} (m : Buf α) (p packn vl : Nat) : Vec5 α vl :=
  { v0 := vle16 m p vl, v1 := vle16 m (p + packn) vl, v2 := vle16 m (p + packn * 2) vl,
    v3 := vle16 m (p + packn * 3) vl, v4 := vle16 m (p + packn * 4) vl }

/-- The five accumulations `_sum = vfmacc(_sum, _k0, _r0)`, ..., `_sum = vfmacc(_sum, _k4, _r4)`
(lines 61-65 and the like). -/
def fmacc5 {α : Type} [Add α] [Mul α] {vl : Nat} (sum : vfloat16m1_t α vl) (k r : Vec5 α vl) :
    vfloat16m1_t α vl :=
  vfmacc (vfmacc (vfmacc (vfmacc (vfmacc sum k.v0 r.v0) k.v1 r.v1) k.v2 r.v2) k.v3 r.v3)
    k.v4 r.v4

/-- The pointers of the loops over one group, as offsets into the buffers of the kernel, of
the output channel and of the input channel, and the buffer of the output channel. -/
structure DwState (α : Type) where
  k0 : Nat
  outptr0 : Nat
  outptr1 : Nat
  r0 : Nat
  r1 : Nat
  r2 : Nat
  r3 : Nat
  r4 : Nat
  r5 : Nat
  out : Buf α

/-- Body of the loop over `j` that produces two output rows (lines 45-190 of
`convdw5x5s1_packn_fp16sa_rvv`). -/
def dw5x5s1_pixel2 {α : Type} [Add α] [Mul α] (packn vl : Nat) (img ker : Buf α)
    (_bias0 : vfloat16m1_t α vl) (s : DwState α) : DwState α :=
  let _sum0 := _bias0
  let _sum1 := _bias0
  let k0 := s.k0
  let _r0 := load5 img s.r0 packn vl
  let _k0 := load5 ker k0 packn vl
  let k0 := k0 + packn * 5
  let _sum0 := fmacc5 _sum0 _k0 _r0
  let _r1 := load5 img s.r1 packn vl
  let _sum1 := fmacc5 _sum1 _k0 _r1
  let _k1 := load5 ker k0 packn vl
  let k0 := k0 + packn * 5
  let _sum0 := fmacc5 _sum0 _k1 _r1
  let _r2 := load5 img s.r2 packn vl
  let _sum1 := fmacc5 _sum1 _k1 _r2
  let _k2 := load5 ker k0 packn vl
  let k0 := k0 + packn * 5
  let _sum0 := fmacc5 _sum0 _k2 _r2
  let _r3 := load5 img s.r3 packn vl
  let _sum1 := fmacc5 _sum1 _k2 _r3
  let _k3 := load5 ker k0 packn vl
  let k0 := k0 + packn * 5
  let _sum0 := fmacc5 _sum0 _k3 _r3
  let _r4 := load5 img s.r4 packn vl
  let _sum1 := fmacc5 _sum1 _k3 _r4
  let _k4 := load5 ker k0 packn vl
  let k0 := k0 - packn * 20
  let _sum0 := fmacc5 _sum0 _k4 _r4
  let _r5 := load5 img s.r5 packn vl
  let _sum1 := fmacc5 _sum1 _k4 _r5
  let out := vse16 s.out s.outptr0 _sum0
  let out := vse16 out s.outptr1 _sum1
  { k0 := k0, outptr0 := s.outptr0 + packn, outptr1 := s.outptr1 + packn,
    r0 := s.r0 + packn, r1 := s.r1 + packn, r2 := s.r2 + packn, r3 := s.r3 + packn,
    r4 := s.r4 + packn, r5 := s.r5 + packn, out := out }

/-- Body of a loop over `j` that produces one output row: lines 208-313 of
`convdw5x5s1_packn_fp16sa_rvv` with `step = packn`, lines 366-471 of
`convdw5x5s2_packn_fp16sa_rvv` with `step = packn * 2` (the two texts differ in the step of
the row pointers only). -/
def dw5x5_pixel1 {α : Type} [Add α] [Mul α] (packn vl step : Nat) (img ker : Buf α)
    (_bias0 : vfloat16m1_t α vl) (s : DwState α) : DwState α :=
  let _sum0 := _bias0
  let k0 := s.k0
  let _r0 := load5 img s.r0 packn vl
  let _k0 := load5 ker k0 packn vl
  let k0 := k0 + packn * 5
  let _sum0 := fmacc5 _sum0 _k0 _r0
  let _r1 := load5 img s.r1 packn vl
  let _k1 := load5 ker k0 packn vl
  let k0 := k0 + packn * 5
  let _sum0 := fmacc5 _sum0 _k1 _r1
  let _r2 := load5 img s.r2 packn vl
  let _k2 := load5 ker k0 packn vl
  let k0 := k0 + packn * 5
  let _sum0 := fmacc5 _sum0 _k2 _r2
  let _r3 := load5 img s.r3 packn vl
  let _k3 := load5 ker k0 packn vl
  let k0 := k0 + packn * 5
  let _sum0 := fmacc5 _sum0 _k3 _r3
  let _r4 := load5 img s.r4 packn vl
  let _k4 := load5 ker k0 packn vl
  let k0 := k0 - packn * 20
  let _sum0 := fmacc5 _sum0 _k4 _r4
  let out := vse16 s.out s.outptr0 _sum0
  { s with k0 := k0, outptr0 := s.outptr0 + packn,
           r0 := s.r0 + step, r1 := s.r1 + step, r2 := s.r2 + step, r3 := s.r3 + step,
           r4 := s.r4 + step, out := out }

/-- Body of the loop over pairs of output rows (lines 41-202). -/
def dw5x5s1_rows2 {α : Type} [Add α] [Mul α] (packn vl w outw : Nat) (img ker : Buf α)
    (_bias0 : vfloat16m1_t α vl) (s : DwState α) : DwState α :=
  let s := forFrom outw (fun _ s => dw5x5s1_pixel2 packn vl img ker _bias0 s) 0 s
  { s with r0 := s.r0 + (4 * packn + w * packn), r1 := s.r1 + (4 * packn + w * packn),
           r2 := s.r2 + (4 * packn + w * packn), r3 := s.r3 + (4 * packn + w * packn),
           r4 := s.r4 + (4 * packn + w * packn), r5 := s.r5 + (4 * packn + w * packn),
           outptr0 := s.outptr0 + outw * packn, outptr1 := s.outptr1 + outw * packn }

/-- Body of the loop over the remaining output row (lines 204-321). -/
def dw5x5s1_rows1 {α : Type} [Add α] [Mul α] (packn vl outw : Nat) (img ker : Buf α)
    (_bias0 : vfloat16m1_t α vl) (s : DwState α) : DwState α :=
  let s := forFrom outw (fun _ s => dw5x5_pixel1 packn vl packn img ker _bias0 s) 0 s
  { s with r0 := s.r0 + 4 * packn, r1 := s.r1 + 4 * packn, r2 := s.r2 + 4 * packn,
           r3 := s.r3 + 4 * packn, r4 := s.r4 + 4 * packn }

/-- The vector `_bias0` of group `g` (lines 23 and 346): loaded from `bias + g * packn`, or 0
in every lane when the bias pointer is null. -/
def dw_bias0 {α : Type} [Zero α] (packn vl : Nat) (bias : Option (Buf α)) (g : Nat) :
    vfloat16m1_t α vl :=
  match bias with
  | some b => vle16 b (g * packn) vl
  | none => vfmv 0 vl

/-- Body of the loop over the groups of `convdw5x5s1_packn_fp16sa_rvv` (lines 20-322): the
state after the two loops over the rows of group `g`. -/
def convdw5x5s1_group {α : Type} [Field α] (packn : Nat) (bottom_blob top_blob kernel : Mat α)
    (bias : Option (Buf α)) (g : Nat) : DwState α :=
  let vl := packn
  let w := bottom_blob.w
  let outw := top_blob.w
  let outh := top_blob.h
  let out := top_blob.channel g
  let _bias0 : vfloat16m1_t α vl := dw_bias0 packn vl bias g
  let k0 := kernel.row g
  let outptr0 := out.row 0
  let outptr1 := out.row 1
  let img0 := bottom_blob.channel g
  let s : DwState α :=
    { k0 := k0, outptr0 := outptr0, outptr1 := outptr1, r0 := img0.row 0, r1 := img0.row 1,
      r2 := img0.row 2, r3 := img0.row 3, r4 := img0.row 4, r5 := img0.row 5, out := out.buf }
  let is := forStep2 outh (fun _ s => dw5x5s1_rows2 packn vl w outw img0.buf kernel.buf _bias0 s)
    0 s
  forFrom outh (fun _ s => dw5x5s1_rows1 packn vl outw img0.buf kernel.buf _bias0 s) is.1 is.2

/-- `convdw5x5s1_packn_fp16sa_rvv` (lines 4-323): `top_blob` at return. `packn` is
`csrr_vlenb() / 2`, and `vl = __riscv_vsetvl_e16m1(packn)` is `packn` (the largest vector
length for 16-bit elements in one register is `vlenb / 2`). -/
def convdw5x5s1_packn_fp16sa_rvv {α : Type} [Field α] (packn : Nat)
    (bottom_blob top_blob kernel : Mat α) (bias : Option (Buf α)) : Mat α :=
  let group := bottom_blob.c
  { top_blob with
    data := forFrom group
      (fun g (data : Nat → Buf α) k =>
        if k = g then
          (convdw5x5s1_group packn bottom_blob { top_blob with data := data } kernel bias g).out
        else data k) 0 top_blob.data }

/-- The pointer `r + tailstep` (lines 474-478), `tailstep` being a C `int` that may be
negative. -/
def ptr_add (r : Nat) (tailstep : Int) : Nat :=
  Int.toNat ((r : Int) + tailstep)

/-- Body of the loop over the output rows of `convdw5x5s2_packn_fp16sa_rvv` (lines 362-479). -/
def dw5x5s2_rows1 {α : Type} [Add α] [Mul α] (packn vl outw : Nat) (tailstep : Int)
    (img ker : Buf α) (_bias0 : vfloat16m1_t α vl) (s : DwState α) : DwState α :=
  let s := forFrom outw (fun _ s => dw5x5_pixel1 packn vl (packn * 2) img ker _bias0 s) 0 s
  { s with r0 := ptr_add s.r0 tailstep, r1 := ptr_add s.r1 tailstep,
           r2 := ptr_add s.r2 tailstep, r3 := ptr_add s.r3 tailstep,
           r4 := ptr_add s.r4 tailstep }

/-- Body of the loop over the groups of `convdw5x5s2_packn_fp16sa_rvv` (lines 343-480): the
state after the loop over the rows of group `g`. The fields `outptr1` and `r5` are not used. -/
def convdw5x5s2_group {α : Type} [Field α] (packn : Nat) (bottom_blob top_blob kernel : Mat α)
    (bias : Option (Buf α)) (g : Nat) : DwState α :=
  let vl := packn
  let w := bottom_blob.w
  let outw := top_blob.w
  let outh := top_blob.h
  let tailstep : Int := ((w : Int) - 2 * (outw : Int) + (w : Int)) * (packn : Int)
  let out := top_blob.channel g
  let _bias0 : vfloat16m1_t α vl := dw_bias0 packn vl bias g
  let k0 := kernel.row g
  let outptr0 := out.row 0
  let img0 := bottom_blob.channel g
  let s : DwState α :=
    { k0 := k0, outptr0 := outptr0, outptr1 := 0, r0 := img0.row 0, r1 := img0.row 1,
      r2 := img0.row 2, r3 := img0.row 3, r4 := img0.row 4, r5 := 0, out := out.buf }
  forFrom outh (fun _ s => dw5x5s2_rows1 packn vl outw tailstep img0.buf kernel.buf _bias0 s) 0 s

/-- `convdw5x5s2_packn_fp16sa_rvv` (lines 325-481): `top_blob` at return. -/
def convdw5x5s2_packn_fp16sa_rvv {α : Type} [Field α] (packn : Nat)
    (bottom_blob top_blob kernel : Mat α) (bias : Option (Buf α)) : Mat α :=
  let group := bottom_blob.c
  { top_blob with
    data := forFrom group
      (fun g (data : Nat → Buf α) k =>
        if k = g then
          (convdw5x5s2_group packn bottom_blob { top_blob with data := data } kernel bias g).out
        else data k) 0 top_blob.data }

/-- The accumulated vector of one output pixel, from the kernel pointer `k0` and the five
row pointers `ra .. re`: the value both pixel bodies store (proof device). -/
def dw5x5_sum {α : Type} [Add α] [Mul α] (packn vl : Nat) (img ker : Buf α)
    (_bias0 : vfloat16m1_t α vl) (k0 ra rb rc rd re : Nat) : vfloat16m1_t α vl :=
  fmacc5 (fmacc5 (fmacc5 (fmacc5 (fmacc5 _bias0 (load5 ker k0 packn vl) (load5 img ra packn vl))
    (load5 ker (k0 + packn * 5) packn vl) (load5 img rb packn vl))
    (load5 ker (k0 + packn * 5 + packn * 5) packn vl) (load5 img rc packn vl))
    (load5 ker (k0 + packn * 5 + packn * 5 + packn * 5) packn vl) (load5 img rd packn vl))
    (load5 ker (k0 + packn * 5 + packn * 5 + packn * 5 + packn * 5) packn vl)
    (load5 img re packn vl)

/-- Lane `l` of the bias of group `g`: element `g * packn + l` of the bias, or 0 when the bias
is absent. -/
def dw_bias_at {α : Type} [Zero α] (packn : Nat) (bias : Option (Buf α)) (g l : Nat) : α :=
  match bias with
  | some b => b (g * packn + l)
  | none => 0

/-- The value of the convolution at output row `i`, column `j`, lane `l` of a group, with
vertical and horizontal stride `stride`: the bias plus the sum over the 5 x 5 window of
kernel entry `5 * ky + kx` times input row `stride * i + ky`, column `stride * j + kx`;
`krow` is the offset of the kernel row of the group, `w` the input width. -/
def dw5x5_ref {α : Type} [Field α] (packn stride w : Nat) (img ker : Buf α) (krow : Nat)
    (bias0 : Nat → α) (i j l : Nat) : α :=
  bias0 l + ∑ ky in Finset.range 5, ∑ kx in Finset.range 5,
    ker (krow + (5 * ky + kx) * packn + l)
      * img (((stride * i + ky) * w + (stride * j + kx)) * packn + l)

/-- An input of one group, 6 rows of 5 columns of 2 lanes, with pairwise different entries. -/
def ex_dw_bottom : Mat ℚ :=
  { w := 5, h := 6, c := 1, elempack := 2, data := fun k j => (k : ℚ) + 2 * (j : ℚ) + 1 }

/-- A kernel row of 25 entries of 2 lanes: element `j` is `j + 1`. -/
def ex_dw_kernel : Mat ℚ :=
  { w := 25, h := 1, c := 1, elempack := 2, data := fun _ j => (j : ℚ) + 1 }

/-- An output tensor of `h` rows of 1 column of 2 lanes, before the call. -/
def ex_dw_top (h : Nat) : Mat ℚ :=
  { w := 1, h := h, c := 1, elempack := 2, data := fun _ _ => 0 }

end

section

/-! ## Loop lemmas -/

theorem forRange_shift {σ : Type} (n : Nat) (body : Nat → σ → σ) (s : σ) :
    forRange (n + 1) body s = forRange n (fun k => body (k + 1)) (body 0 s) := by
  induction n with
  | zero => rfl
  | succ k ih =>
    show body (k + 1) (forRange (k + 1) body s) = _
    rw [ih]
    rfl

theorem forFrom_eq_forRange {σ : Type} (hi : Nat) (body : Nat → σ → σ) :
    ∀ (d i : Nat) (s : σ), hi - i = d →
      forFrom hi body i s = forRange d (fun k => body (i + k)) s := by
  intro d
  induction d with
  | zero =>
    intro i s h
    rw [forFrom, if_neg (by omega)]
    rfl
  | succ d ih =>
    intro i s h
    rw [forFrom, if_pos (by omega), ih (i + 1) (body i s) (by omega), forRange_shift]
    have : (fun k => body (i + 1 + k)) = (fun k => body (i + (k + 1))) := by
      funext k
      rw [Nat.add_assoc, Nat.add_comm 1 k]
    rw [this]
    rfl

theorem forFrom_zero {σ : Type} (hi : Nat) (body : Nat → σ → σ) (s : σ) :
    forFrom hi body 0 s = forRange hi body s := by
  rw [forFrom_eq_forRange hi body hi 0 s (by omega)]
  simp

theorem forStep4_eq_forRange {σ : Type} (hi : Nat) (body : Nat → σ → σ) :
    ∀ (d i : Nat) (s : σ), (hi - i) / 4 = d →
      forStep4 hi body i s = (i + 4 * d, forRange d (fun k => body (i + 4 * k)) s) := by
  intro d
  induction d with
  | zero =>
    intro i s h
    rw [forStep4, if_neg (by omega)]
    rfl
  | succ d ih =>
    intro i s h
    rw [forStep4, if_pos (by omega), ih (i + 4) (body i s) (by omega), forRange_shift]
    have : (fun k => body (i + 4 + 4 * k)) = (fun k => body (i + 4 * (k + 1))) := by
      funext k
      rw [show i + 4 + 4 * k = i + 4 * (k + 1) by omega]
    rw [this]
    have h2 : i + 4 + 4 * d = i + 4 * (d + 1) := by omega
    rw [h2]
    rfl

theorem forStep4_zero {σ : Type} (hi : Nat) (body : Nat → σ → σ) (s : σ) :
    forStep4 hi body 0 s = (4 * (hi / 4), forRange (hi / 4) (fun k => body (4 * k)) s) := by
  rw [forStep4_eq_forRange hi body (hi / 4) 0 s (by simp)]
  simp

end

section

variable {α : Type}

@[simp]
theorem store_same (m : Buf α) (p : Nat) (v : α) : store m p v p = v := by
  simp [store]

theorem store_other (m : Buf α) (p j : Nat) (v : α) (h : j ≠ p) : store m p v j = m j := by
  simp [store, h]

/-! ### Inner packing loops -/

theorem pack_RU4_block (src : Buf α) (f : Nat → Nat) :
    IsBlockWrite 8 (fun i k => src (f k + i))
      (pack_RU4 src (f 0) (f 1) (f 2) (f 3) (f 4) (f 5) (f 6) (f 7)) := by
  refine ⟨fun i s => rfl, ?_, ?_⟩
  · intro i s k hk
    interval_cases k <;> simp [pack_RU4, store]
  · intro i s j hj
    simp only [pack_RU4]
    repeat rw [store_other _ _ _ _ (by omega)]

theorem pack_N4_block (src : Buf α) (f : Nat → Nat) :
    IsBlockWrite 4 (fun i k => src (f k + i)) (pack_N4 src (f 0) (f 1) (f 2) (f 3)) := by
  refine ⟨fun i s => rfl, ?_, ?_⟩
  · intro i s k hk
    interval_cases k <;> simp [pack_N4, store]
  · intro i s j hj
    simp only [pack_N4]
    repeat rw [store_other _ _ _ _ (by omega)]

theorem pack_RU1_block (src : Buf α) (f : Nat → Nat) :
    IsBlockWrite 2 (fun i k => src (f k + i)) (pack_RU1 src (f 0) (f 1)) := by
  refine ⟨fun i s => rfl, ?_, ?_⟩
  · intro i s k hk
    interval_cases k <;> simp [pack_RU1, store]
  · intro i s j hj
    simp only [pack_RU1]
    repeat rw [store_other _ _ _ _ (by omega)]

theorem pack_N1_block (src : Buf α) (f : Nat → Nat) :
    IsBlockWrite 1 (fun i k => src (f k + i)) (pack_N1 src (f 0)) := by
  refine ⟨fun i s => rfl, ?_, ?_⟩
  · intro i s k hk
    interval_cases k
    simp [pack_N1, store]
  · intro i s j hj
    simp only [pack_N1]
    rw [store_other _ _ _ _ (by omega)]

theorem block_loop {B : Nat} {val : Nat → Nat → α} {b : Nat → PackCursor α → PackCursor α}
    (hb : IsBlockWrite B val b) (p : Nat) (m : Buf α) (n : Nat) :
    (forRange n b ⟨p, m⟩).ptr = p + B * n ∧
    (∀ i k, i < n → k < B → (forRange n b ⟨p, m⟩).mem (p + B * i + k) = val i k) ∧
    (∀ j, j < p ∨ p + B * n ≤ j → (forRange n b ⟨p, m⟩).mem j = m j) := by
  obtain ⟨b1, b2, b3⟩ := hb
  induction n with
  | zero => exact ⟨rfl, fun i k hi _ => absurd hi (Nat.not_lt_zero i), fun j _ => rfl⟩
  | succ n ih =>
    obtain ⟨h1, h2, h3⟩ := ih
    simp only [forRange]
    have e1 : B * (n + 1) = B * n + B := Nat.mul_succ B n
    refine ⟨?_, ?_, ?_⟩
    · rw [b1, h1]; omega
    · intro i k hi hk
      by_cases hin : i = n
      · subst hin
        rw [← h1]
        exact b2 _ _ k hk
      · have e2 : B * (i + 1) ≤ B * n := Nat.mul_le_mul_left B (by omega)
        have e3 : B * (i + 1) = B * i + B := Nat.mul_succ B i
        rw [b3 _ _ _ (by rw [h1]; omega)]
        exact h2 i k (by omega) hk
    · intro j hj
      rw [b3 _ _ _ (by rw [h1]; omega)]
      exact h3 j (by omega)

end

section

variable {α : Type}

/-! ### One group, one unit -/

theorem pack_mat_group4_spec (n cols : Nat) (src dst : Mat α) (q : Nat) (m : Buf α) :
    (∀ i t l, i < cols → t < 2 → l < 4 →
      pack_mat_group4 n cols src dst q m (dst.row (q / 4) + 8 * i + 4 * t + l)
        = src.buf (src.row (n * t + q + l) + i)) ∧
    (∀ i l, i < cols → l < 4 →
      pack_mat_group4 n cols src dst q m (dst.row (q / 4) + 8 * cols + 4 * i + l)
        = src.buf (src.row (n * 2 + q + l) + i)) ∧
    (∀ j, j < dst.row (q / 4) ∨ dst.row (q / 4) + 12 * cols ≤ j →
      pack_mat_group4 n cols src dst q m j = m j) := by
  have hRU := block_loop
    (pack_RU4_block src.buf (fun k => src.row (n * (k / 4) + q + k % 4)))
    (dst.row (q / 4)) m cols
  obtain ⟨r1, r2, r3⟩ := hRU
  have hN := block_loop (pack_N4_block src.buf (fun k => src.row (n * 2 + q + k)))
    (dst.row (q / 4) + 8 * cols)
    (forRange cols (pack_RU4 src.buf (src.row (n * 0 + q)) (src.row (n * 0 + q + 1))
        (src.row (n * 0 + q + 2)) (src.row (n * 0 + q + 3)) (src.row (n * 1 + q))
        (src.row (n * 1 + q + 1)) (src.row (n * 1 + q + 2)) (src.row (n * 1 + q + 3)))
      { ptr := dst.row (q / 4), mem := m }).mem cols
  obtain ⟨n1, n2, n3⟩ := hN
  have key : pack_mat_group4 n cols src dst q m =
      (forRange cols (pack_N4 src.buf (src.row (n * 2 + q)) (src.row (n * 2 + q + 1))
        (src.row (n * 2 + q + 2)) (src.row (n * 2 + q + 3)))
        ⟨dst.row (q / 4) + 8 * cols,
          (forRange cols (pack_RU4 src.buf (src.row (n * 0 + q)) (src.row (n * 0 + q + 1))
            (src.row (n * 0 + q + 2)) (src.row (n * 0 + q + 3)) (src.row (n * 1 + q))
            (src.row (n * 1 + q + 1)) (src.row (n * 1 + q + 2)) (src.row (n * 1 + q + 3)))
          { ptr := dst.row (q / 4), mem := m }).mem⟩).mem := by
    have r1b : (forRange cols (pack_RU4 src.buf (src.row (n * 0 + q)) (src.row (n * 0 + q + 1))
        (src.row (n * 0 + q + 2)) (src.row (n * 0 + q + 3)) (src.row (n * 1 + q))
        (src.row (n * 1 + q + 1)) (src.row (n * 1 + q + 2)) (src.row (n * 1 + q + 3)))
        { ptr := dst.row (q / 4), mem := m }).ptr = dst.row (q / 4) + 8 * cols := r1
    unfold pack_mat_group4
    rw [forFrom_zero, forFrom_zero, ← r1b]
  rw [key]
  refine ⟨?_, ?_, ?_⟩
  · intro i t l hi ht hl
    have e := n3 (dst.row (q / 4) + 8 * i + 4 * t + l) (by omega)
    have e2 := r2 i (4 * t + l) hi (by omega)
    have e3 : (4 * t + l) / 4 = t := by omega
    have e4 : (4 * t + l) % 4 = l := by omega
    simp only [e3, e4] at e2
    rw [Nat.add_assoc (dst.row (q / 4) + 8 * i)]
    rw [Nat.add_assoc (dst.row (q / 4) + 8 * i)] at e
    exact e.trans e2
  · intro i l hi hl
    exact n2 i l hi hl
  · intro j hj
    have e := n3 j (by omega)
    exact e.trans (r3 j (by omega))

theorem pack_mat_unit_spec (cfg : Build) (n cols : Nat) (src dst : Mat α) (q : Nat)
    (m : Buf α) :
    (∀ i t, i < cols → t < 2 →
      pack_mat_unit cfg n cols src dst q m (dst.row (unit_row cfg q) + 2 * i + t)
        = src.buf (src.row (n * t + q) + i)) ∧
    (∀ i, i < cols →
      pack_mat_unit cfg n cols src dst q m (dst.row (unit_row cfg q) + 2 * cols + i)
        = src.buf (src.row (n * 2 + q) + i)) ∧
    (∀ j, j < dst.row (unit_row cfg q) ∨ dst.row (unit_row cfg q) + 3 * cols ≤ j →
      pack_mat_unit cfg n cols src dst q m j = m j) := by
  have hRU := block_loop (pack_RU1_block src.buf (fun k => src.row (n * k + q)))
    (dst.row (unit_row cfg q)) m cols
  obtain ⟨r1, r2, r3⟩ := hRU
  have hN := block_loop (pack_N1_block src.buf (fun _ => src.row (n * 2 + q)))
    (dst.row (unit_row cfg q) + 2 * cols)
    (forRange cols (pack_RU1 src.buf (src.row (n * 0 + q)) (src.row (n * 1 + q)))
      { ptr := dst.row (unit_row cfg q), mem := m }).mem cols
  obtain ⟨n1, n2, n3⟩ := hN
  have key : pack_mat_unit cfg n cols src dst q m =
      (forRange cols (pack_N1 src.buf (src.row (n * 2 + q)))
        ⟨dst.row (unit_row cfg q) + 2 * cols,
          (forRange cols (pack_RU1 src.buf (src.row (n * 0 + q)) (src.row (n * 1 + q)))
          { ptr := dst.row (unit_row cfg q), mem := m }).mem⟩).mem := by
    have r1b : (forRange cols (pack_RU1 src.buf (src.row (n * 0 + q)) (src.row (n * 1 + q)))
        { ptr := dst.row (unit_row cfg q), mem := m }).ptr = dst.row (unit_row cfg q) + 2 * cols :=
      r1
    unfold pack_mat_unit
    rw [forFrom_zero, forFrom_zero, ← r1b]
  rw [key]
  refine ⟨?_, ?_, ?_⟩
  · intro i t hi ht
    have e := n3 (dst.row (unit_row cfg q) + 2 * i + t) (by omega)
    exact e.trans (r2 i t hi ht)
  · intro i hi
    have e := n2 i 0 hi (by omega)
    simpa using e
  · intro j hj
    have e := n3 j (by omega)
    exact e.trans (r3 j (by omega))

end

section

variable {α : Type}

/-! ### All groups, all units of one matrix -/

theorem groups_loop (n cols W : Nat) (src dst : Mat α) (hrow : ∀ y, dst.row y = y * W)
    (hW : 12 * cols ≤ W) (m0 : Buf α) (k : Nat) :
    (∀ g l i t, g < k → l < 4 → i < cols → t < 2 →
      forRange k (fun g => pack_mat_group4 n cols src dst (4 * g)) m0
        (g * W + 8 * i + 4 * t + l) = src.buf (src.row (n * t + 4 * g + l) + i)) ∧
    (∀ g l i, g < k → l < 4 → i < cols →
      forRange k (fun g => pack_mat_group4 n cols src dst (4 * g)) m0
        (g * W + 8 * cols + 4 * i + l) = src.buf (src.row (n * 2 + 4 * g + l) + i)) ∧
    (∀ j, k * W ≤ j →
      forRange k (fun g => pack_mat_group4 n cols src dst (4 * g)) m0 j = m0 j) := by
  induction k with
  | zero =>
    exact ⟨fun g l i t hg => absurd hg (Nat.not_lt_zero g),
      fun g l i hg => absurd hg (Nat.not_lt_zero g), fun j _ => rfl⟩
  | succ k ih =>
    obtain ⟨a1, a2, a3⟩ := ih
    obtain ⟨s1, s2, s3⟩ := pack_mat_group4_spec n cols src dst (4 * k)
      (forRange k (fun g => pack_mat_group4 n cols src dst (4 * g)) m0)
    have hk4 : 4 * k / 4 = k := by omega
    rw [hk4, hrow] at s1 s2 s3
    have e1 : (k + 1) * W = k * W + W := Nat.succ_mul k W
    simp only [forRange]
    refine ⟨?_, ?_, ?_⟩
    · intro g l i t hg hl hi ht
      by_cases hgk : g = k
      · subst hgk
        exact s1 i t l hi ht hl
      · have e2 : (g + 1) * W ≤ k * W := Nat.mul_le_mul_right W (by omega)
        have e3 : (g + 1) * W = g * W + W := Nat.succ_mul g W
        rw [s3 _ (by omega)]
        exact a1 g l i t (by omega) hl hi ht
    · intro g l i hg hl hi
      by_cases hgk : g = k
      · subst hgk
        exact s2 i l hi hl
      · have e2 : (g + 1) * W ≤ k * W := Nat.mul_le_mul_right W (by omega)
        have e3 : (g + 1) * W = g * W + W := Nat.succ_mul g W
        rw [s3 _ (by omega)]
        exact a2 g l i (by omega) hl hi
    · intro j hj
      rw [s3 _ (by omega)]
      exact a3 j (by omega)

theorem units_loop (cfg : Build) (n cols W : Nat) (src dst : Mat α)
    (hrow : ∀ y, dst.row y = y * W) (hW : 3 * cols ≤ W) (q0 r0 : Nat) (m1 : Buf α) (k : Nat)
    (hur : ∀ d, d < k → unit_row cfg (q0 + d) = r0 + d) :
    (∀ d i t, d < k → i < cols → t < 2 →
      forRange k (fun d => pack_mat_unit cfg n cols src dst (q0 + d)) m1
        ((r0 + d) * W + 2 * i + t) = src.buf (src.row (n * t + (q0 + d)) + i)) ∧
    (∀ d i, d < k → i < cols →
      forRange k (fun d => pack_mat_unit cfg n cols src dst (q0 + d)) m1
        ((r0 + d) * W + 2 * cols + i) = src.buf (src.row (n * 2 + (q0 + d)) + i)) ∧
    (∀ j, j < r0 * W ∨ (r0 + k) * W ≤ j →
      forRange k (fun d => pack_mat_unit cfg n cols src dst (q0 + d)) m1 j = m1 j) := by
  induction k with
  | zero =>
    exact ⟨fun d i t hd => absurd hd (Nat.not_lt_zero d),
      fun d i hd => absurd hd (Nat.not_lt_zero d), fun j _ => rfl⟩
  | succ k ih =>
    obtain ⟨a1, a2, a3⟩ := ih (fun d hd => hur d (by omega))
    obtain ⟨s1, s2, s3⟩ := pack_mat_unit_spec cfg n cols src dst (q0 + k)
      (forRange k (fun d => pack_mat_unit cfg n cols src dst (q0 + d)) m1)
    rw [hur k (by omega), hrow] at s1 s2 s3
    have e1 : (r0 + k + 1) * W = (r0 + k) * W + W := Nat.succ_mul (r0 + k) W
    have e0 : r0 * W ≤ (r0 + k) * W := Nat.mul_le_mul_right W (by omega)
    simp only [forRange]
    refine ⟨?_, ?_, ?_⟩
    · intro d i t hd hi ht
      by_cases hdk : d = k
      · subst hdk
        exact s1 i t hi ht
      · have e2 : (r0 + d + 1) * W ≤ (r0 + k) * W := Nat.mul_le_mul_right W (by omega)
        have e3 : (r0 + d + 1) * W = (r0 + d) * W + W := Nat.succ_mul (r0 + d) W
        rw [s3 _ (by omega)]
        exact a1 d i t (by omega) hi ht
    · intro d i hd hi
      by_cases hdk : d = k
      · subst hdk
        exact s2 i hi
      · have e2 : (r0 + d + 1) * W ≤ (r0 + k) * W := Nat.mul_le_mul_right W (by omega)
        have e3 : (r0 + d + 1) * W = (r0 + d) * W + W := Nat.succ_mul (r0 + d) W
        rw [s3 _ (by omega)]
        exact a2 d i (by omega) hi
    · intro j hj
      rw [s3 _ (by rw [← Nat.add_assoc] at hj; omega)]
      exact a3 j (by rw [← Nat.add_assoc] at hj; omega)

/-- Closed form of the packed buffer, 4-lane layout. -/
theorem pack_mat_neon (cfg : Build) (hneon : cfg.arm_neon = true) (n cols W : Nat)
    (src dst : Mat α) (hrow : ∀ y, dst.row y = y * W) (hW : 12 * cols ≤ W) :
    (∀ g l i t, g < n / 4 → l < 4 → i < cols → t < 2 →
      pack_mat cfg n cols src dst (g * W + 8 * i + 4 * t + l)
        = src.buf (src.row (n * t + 4 * g + l) + i)) ∧
    (∀ g l i, g < n / 4 → l < 4 → i < cols →
      pack_mat cfg n cols src dst (g * W + 8 * cols + 4 * i + l)
        = src.buf (src.row (n * 2 + 4 * g + l) + i)) ∧
    (∀ q i t, 4 * (n / 4) ≤ q → q < n → i < cols → t < 2 →
      pack_mat cfg n cols src dst (unit_row cfg q * W + 2 * i + t)
        = src.buf (src.row (n * t + q) + i)) ∧
    (∀ q i, 4 * (n / 4) ≤ q → q < n → i < cols →
      pack_mat cfg n cols src dst (unit_row cfg q * W + 2 * cols + i)
        = src.buf (src.row (n * 2 + q) + i)) ∧
    (∀ j, (n / 4 + n % 4) * W ≤ j → pack_mat cfg n cols src dst j = dst.buf j) := by
  have hur : ∀ d, d < n - 4 * (n / 4) → unit_row cfg (4 * (n / 4) + d) = n / 4 + d := by
    intro d hd
    simp only [unit_row, hneon, if_true]
    omega
  obtain ⟨g1, g2, g3⟩ := groups_loop n cols W src dst hrow hW dst.buf (n / 4)
  obtain ⟨u1, u2, u3⟩ := units_loop cfg n cols W src dst hrow (by omega) (4 * (n / 4)) (n / 4)
    (forRange (n / 4) (fun g => pack_mat_group4 n cols src dst (4 * g)) dst.buf)
    (n - 4 * (n / 4)) hur
  have key : pack_mat cfg n cols src dst =
      forRange (n - 4 * (n / 4)) (fun d => pack_mat_unit cfg n cols src dst (4 * (n / 4) + d))
        (forRange (n / 4) (fun g => pack_mat_group4 n cols src dst (4 * g)) dst.buf) := by
    unfold pack_mat
    simp only [hneon, if_true]
    rw [forStep4_zero]
    exact forFrom_eq_forRange n _ _ _ _ rfl
  rw [key]
  refine ⟨?_, ?_, ?_, ?_, ?_⟩
  · intro g l i t hg hl hi ht
    have e2 : (g + 1) * W ≤ (n / 4) * W := Nat.mul_le_mul_right W (by omega)
    have e3 : (g + 1) * W = g * W + W := Nat.succ_mul g W
    rw [u3 _ (by omega)]
    exact g1 g l i t hg hl hi ht
  · intro g l i hg hl hi
    have e2 : (g + 1) * W ≤ (n / 4) * W := Nat.mul_le_mul_right W (by omega)
    have e3 : (g + 1) * W = g * W + W := Nat.succ_mul g W
    rw [u3 _ (by omega)]
    exact g2 g l i hg hl hi
  · intro q i t hq1 hq2 hi ht
    obtain ⟨d, rfl⟩ : ∃ d, q = 4 * (n / 4) + d := ⟨q - 4 * (n / 4), by omega⟩
    rw [hur d (by omega)]
    exact u1 d i t (by omega) hi ht
  · intro q i hq1 hq2 hi
    obtain ⟨d, rfl⟩ : ∃ d, q = 4 * (n / 4) + d := ⟨q - 4 * (n / 4), by omega⟩
    rw [hur d (by omega)]
    exact u2 d i (by omega) hi
  · intro j hj
    have e4 : n / 4 + (n - 4 * (n / 4)) = n / 4 + n % 4 := by omega
    have e5 : (n / 4) * W ≤ (n / 4 + n % 4) * W := Nat.mul_le_mul_right W (by omega)
    rw [u3 _ (by rw [e4]; omega)]
    exact g3 j (by omega)

/-- Closed form of the packed buffer, scalar layout. -/
theorem pack_mat_scalar (cfg : Build) (hneon : cfg.arm_neon = false) (n cols W : Nat)
    (src dst : Mat α) (hrow : ∀ y, dst.row y = y * W) (hW : 3 * cols ≤ W) :
    (∀ q i t, q < n → i < cols → t < 2 →
      pack_mat cfg n cols src dst (unit_row cfg q * W + 2 * i + t)
        = src.buf (src.row (n * t + q) + i)) ∧
    (∀ q i, q < n → i < cols →
      pack_mat cfg n cols src dst (unit_row cfg q * W + 2 * cols + i)
        = src.buf (src.row (n * 2 + q) + i)) ∧
    (∀ j, n * W ≤ j → pack_mat cfg n cols src dst j = dst.buf j) := by
  have hur : ∀ d, d < n → unit_row cfg (0 + d) = 0 + d := by
    intro d _
    simp [unit_row, hneon]
  obtain ⟨u1, u2, u3⟩ := units_loop cfg n cols W src dst hrow hW 0 0 dst.buf n hur
  have key : pack_mat cfg n cols src dst =
      forRange n (fun d => pack_mat_unit cfg n cols src dst (0 + d)) dst.buf := by
    unfold pack_mat
    simp only [hneon]
    exact forFrom_eq_forRange n _ _ _ _ rfl
  rw [key]
  have hu : ∀ q, unit_row cfg q = q := by
    intro q
    simp [unit_row, hneon]
  refine ⟨?_, ?_, ?_⟩
  · intro q i t hq hi ht
    have := u1 q i t hq hi ht
    simpa [hu] using this
  · intro q i hq hi
    have := u2 q i hq hi
    simpa [hu] using this
  · intro j hj
    exact u3 j (Or.inr (by simpa using hj))

end

section

variable {α : Type}

/-! ### The packed bias -/

theorem pack_bias_group4_block (bias_c : Mat α) :
    IsBlockWrite 16 (fun g k => bias_c.buf (bias_c.row (bias_sel (k / 4)) + 4 * g + k % 4))
      (fun g => pack_bias_group4 bias_c (4 * g)) := by
  refine ⟨fun i s => rfl, ?_, ?_⟩
  · intro i s k hk
    have h3 : ((3 : Fin 4) : ℕ) = 3 := rfl
    interval_cases k <;>
      simp [pack_bias_group4, vst1q_f32, vld1q_f32, store, bias_sel, Nat.add_assoc, h3]
  · intro i s j hj
    simp only [pack_bias_group4, vst1q_f32]
    repeat rw [store_other _ _ _ _ (by omega)]

theorem pack_bias_unit_block (bias_c : Mat α) (q0 : Nat) :
    IsBlockWrite 4 (fun d k => bias_c.buf (bias_c.row (bias_sel k) + (q0 + d)))
      (fun d => pack_bias_unit bias_c (q0 + d)) := by
  refine ⟨fun i s => rfl, ?_, ?_⟩
  · intro i s k hk
    interval_cases k <;> simp [pack_bias_unit, store, bias_sel]
  · intro i s j hj
    simp only [pack_bias_unit]
    repeat rw [store_other _ _ _ _ (by omega)]

/-- Closed form of the packed bias, 4-lane layout: a 16-float record per group (R, U, BN, WN,
four lanes each), then a 4-float record per remaining unit. -/
theorem pack_bias_neon (cfg : Build) (hneon : cfg.arm_neon = true) (n : Nat)
    (bias_c dst : Mat α) :
    (∀ g k l, g < n / 4 → k < 4 → l < 4 →
      (pack_bias cfg n bias_c dst).mem (dst.row 0 + 16 * g + 4 * k + l)
        = bias_c.buf (bias_c.row (bias_sel k) + 4 * g + l)) ∧
    (∀ q k, 4 * (n / 4) ≤ q → q < n → k < 4 →
      (pack_bias cfg n bias_c dst).mem (dst.row 0 + 4 * q + k)
        = bias_c.buf (bias_c.row (bias_sel k) + q)) := by
  obtain ⟨g1, g2, g3⟩ := block_loop (pack_bias_group4_block bias_c) (dst.row 0) dst.buf (n / 4)
  obtain ⟨u1, u2, u3⟩ := block_loop (pack_bias_unit_block bias_c (4 * (n / 4)))
    (dst.row 0 + 16 * (n / 4))
    (forRange (n / 4) (fun g => pack_bias_group4 bias_c (4 * g)) ⟨dst.row 0, dst.buf⟩).mem
    (n - 4 * (n / 4))
  have key : pack_bias cfg n bias_c dst =
      forRange (n - 4 * (n / 4)) (fun d => pack_bias_unit bias_c (4 * (n / 4) + d))
        ⟨dst.row 0 + 16 * (n / 4),
          (forRange (n / 4) (fun g => pack_bias_group4 bias_c (4 * g))
            ⟨dst.row 0, dst.buf⟩).mem⟩ := by
    unfold pack_bias
    simp only [hneon, if_true]
    rw [forStep4_zero, ← g1]
    exact forFrom_eq_forRange n _ _ _ _ rfl
  rw [key]
  constructor
  · intro g k l hg hk hl
    rw [u3 _ (by omega)]
    have := g2 g (4 * k + l) hg (by omega)
    have e3 : (4 * k + l) / 4 = k := by omega
    have e4 : (4 * k + l) % 4 = l := by omega
    simp only [e3, e4] at this
    rw [← this]
    congr 1
    omega
  · intro q k hq1 hq2 hk
    obtain ⟨d, rfl⟩ : ∃ d, q = 4 * (n / 4) + d := ⟨q - 4 * (n / 4), by omega⟩
    have := u2 d k (by omega) hk
    rw [← this]
    congr 1
    omega

/-- Closed form of the packed bias, scalar layout: a 4-float record per unit. -/
theorem pack_bias_scalar (cfg : Build) (hneon : cfg.arm_neon = false) (n : Nat)
    (bias_c dst : Mat α) :
    ∀ q k, q < n → k < 4 →
      (pack_bias cfg n bias_c dst).mem (dst.row 0 + 4 * q + k)
        = bias_c.buf (bias_c.row (bias_sel k) + q) := by
  obtain ⟨u1, u2, u3⟩ := block_loop (pack_bias_unit_block bias_c 0) (dst.row 0) dst.buf n
  have key : pack_bias cfg n bias_c dst =
      forRange n (fun d => pack_bias_unit bias_c (0 + d)) ⟨dst.row 0, dst.buf⟩ := by
    unfold pack_bias
    simp only [hneon]
    exact forFrom_eq_forRange n _ _ _ _ rfl
  rw [key]
  intro q k hq hk
  have := u2 q k hq hk
  simpa using this

/-! ### pack_direction, component by component -/

theorem pack_group4_loop (num_output size : Nat) (weight_xc bias_c weight_hc xcp hcp : Mat α)
    (c : PackCursor α) (mx mh : Buf α) (k : Nat) :
    forRange k (fun g => pack_group4 num_output size weight_xc bias_c weight_hc xcp hcp (4 * g))
        { bias_c_RUBNWN := c.ptr, bias := c.mem, xc := mx, hc := mh } =
      { bias_c_RUBNWN := (forRange k (fun g => pack_bias_group4 bias_c (4 * g)) c).ptr,
        bias := (forRange k (fun g => pack_bias_group4 bias_c (4 * g)) c).mem,
        xc := forRange k (fun g => pack_mat_group4 num_output size weight_xc xcp (4 * g)) mx,
        hc := forRange k (fun g => pack_mat_group4 num_output num_output weight_hc hcp (4 * g))
          mh } := by
  induction k with
  | zero => rfl
  | succ k ih =>
    simp only [forRange]
    rw [ih]
    rfl

theorem pack_unit_loop (cfg : Build) (num_output size : Nat)
    (weight_xc bias_c weight_hc xcp hcp : Mat α) (q0 : Nat)
    (c : PackCursor α) (mx mh : Buf α) (k : Nat) :
    forRange k
        (fun d => pack_unit cfg num_output size weight_xc bias_c weight_hc xcp hcp (q0 + d))
        { bias_c_RUBNWN := c.ptr, bias := c.mem, xc := mx, hc := mh } =
      { bias_c_RUBNWN := (forRange k (fun d => pack_bias_unit bias_c (q0 + d)) c).ptr,
        bias := (forRange k (fun d => pack_bias_unit bias_c (q0 + d)) c).mem,
        xc := forRange k (fun d => pack_mat_unit cfg num_output size weight_xc xcp (q0 + d)) mx,
        hc := forRange k
          (fun d => pack_mat_unit cfg num_output num_output weight_hc hcp (q0 + d)) mh } := by
  induction k with
  | zero => rfl
  | succ k ih =>
    simp only [forRange]
    rw [ih]
    rfl

theorem pack_direction_eq (cfg : Build) (num_output size : Nat)
    (weight_xc bias_c weight_hc xcp bp hcp : Mat α) :
    pack_direction cfg num_output size weight_xc bias_c weight_hc xcp bp hcp =
      { bias_c_RUBNWN := (pack_bias cfg num_output bias_c bp).ptr,
        bias := (pack_bias cfg num_output bias_c bp).mem,
        xc := pack_mat cfg num_output size weight_xc xcp,
        hc := pack_mat cfg num_output num_output weight_hc hcp } := by
  unfold pack_direction pack_bias pack_mat
  cases hneon : cfg.arm_neon
  · simp only [Bool.false_eq_true, if_false]
    rw [forFrom_zero, forFrom_zero, forFrom_zero, forFrom_zero]
    have h := pack_unit_loop cfg num_output size weight_xc bias_c weight_hc xcp hcp 0
      ⟨bp.row 0, bp.buf⟩ xcp.buf hcp.buf num_output
    simp only [Nat.zero_add] at h
    exact h
  · simp only [if_true]
    rw [forStep4_zero, forStep4_zero, forStep4_zero, forStep4_zero]
    simp only []
    rw [forFrom_eq_forRange num_output _ _ _ _ rfl, forFrom_eq_forRange num_output _ _ _ _ rfl,
      forFrom_eq_forRange num_output _ _ _ _ rfl, forFrom_eq_forRange num_output _ _ _ _ rfl]
    have hg := pack_group4_loop num_output size weight_xc bias_c weight_hc xcp hcp
      ⟨bp.row 0, bp.buf⟩ xcp.buf hcp.buf (num_output / 4)
    rw [hg]
    exact pack_unit_loop cfg num_output size weight_xc bias_c weight_hc xcp hcp
      (4 * (num_output / 4)) _ _ _ _

end

section

variable {α : Type}

/-! ### create_pipeline: the packed tensors, channel by channel -/

theorem pack_channel_loop (cfg : Build) (self : GRU_arm α) (size : Nat) (p0 : Packed α)
    (k : Nat) :
    forRange k (pack_channel cfg self size) p0 =
      { xc := { p0.xc with data := (fun c =>
                  if c < k then pack_mat cfg self.num_output size (self.weight_xc_data.channel c)
                    (p0.xc.channel c)
                  else p0.xc.data c) },
        bias := { p0.bias with data := (fun c =>
                  if c < k then (pack_bias cfg self.num_output (self.bias_c_data.channel c)
                    (p0.bias.channel c)).mem
                  else p0.bias.data c) },
        hc := { p0.hc with data := (fun c =>
                  if c < k then pack_mat cfg self.num_output self.num_output
                    (self.weight_hc_data.channel c) (p0.hc.channel c)
                  else p0.hc.data c) } } := by
  induction k with
  | zero => simp [forRange]
  | succ k ih =>
    simp only [forRange]
    rw [ih]
    simp only [pack_channel, pack_direction_eq, Mat.set_channel]
    have hx : ∀ (m : Mat α) (f : Nat → Buf α),
        (∀ c, k ≤ c → f c = m.data c) →
        Mat.channel { m with data := f } k = m.channel k := by
      intro m f hf
      simp only [Mat.channel]
      congr 1
      funext j
      exact hf (k + j) (by omega)
    rw [hx p0.xc _ (fun c hc => by simp [Nat.not_lt.mpr hc]),
      hx p0.bias _ (fun c hc => by simp [Nat.not_lt.mpr hc]),
      hx p0.hc _ (fun c hc => by simp [Nat.not_lt.mpr hc])]
    congr 1
    · congr 1
      funext c
      by_cases h1 : c = k
      · subst h1; simp
      · by_cases h2 : c < k
        · simp [h1, h2, Nat.lt_succ_of_lt h2]
        · simp [h1, h2, show ¬ c < k + 1 by omega]
    · congr 1
      funext c
      by_cases h1 : c = k
      · subst h1; simp
      · by_cases h2 : c < k
        · simp [h1, h2, Nat.lt_succ_of_lt h2]
        · simp [h1, h2, show ¬ c < k + 1 by omega]
    · congr 1
      funext c
      by_cases h1 : c = k
      · subst h1; simp
      · by_cases h2 : c < k
        · simp [h1, h2, Nat.lt_succ_of_lt h2]
        · simp [h1, h2, show ¬ c < k + 1 by omega]

theorem create_pipeline_status (cfg : Build) (self : GRU_arm α)
    (fx fb fh : Nat → Buf α) (opt : NcnnOption α) :
    (create_pipeline cfg self fx fb fh opt).1 = 0 := rfl

theorem create_pipeline_params (cfg : Build) (self : GRU_arm α)
    (fx fb fh : Nat → Buf α) (opt : NcnnOption α) :
    (create_pipeline cfg self fx fb fh opt).2.num_output = self.num_output ∧
    (create_pipeline cfg self fx fb fh opt).2.direction = self.direction ∧
    (create_pipeline cfg self fx fb fh opt).2.weight_data_size = self.weight_data_size := by
  unfold create_pipeline
  cases opt.lightmode <;> simp

theorem create_pipeline_xc (cfg : Build) (self : GRU_arm α)
    (fx fb fh : Nat → Buf α) (opt : NcnnOption α) :
    (create_pipeline cfg self fx fb fh opt).2.weight_xc_data_packed =
      { (create_packed cfg self fx fb fh).xc with data := (fun c =>
          if c < num_directions self.direction then
            pack_mat cfg self.num_output (input_size self) (self.weight_xc_data.channel c)
              ((create_packed cfg self fx fb fh).xc.channel c)
          else fx c) } := by
  unfold create_pipeline
  rw [forFrom_zero, pack_channel_loop]
  cases opt.lightmode <;> cases hn : cfg.arm_neon <;> simp [create_packed, hn]

theorem create_pipeline_hc (cfg : Build) (self : GRU_arm α)
    (fx fb fh : Nat → Buf α) (opt : NcnnOption α) :
    (create_pipeline cfg self fx fb fh opt).2.weight_hc_data_packed =
      { (create_packed cfg self fx fb fh).hc with data := (fun c =>
          if c < num_directions self.direction then
            pack_mat cfg self.num_output self.num_output (self.weight_hc_data.channel c)
              ((create_packed cfg self fx fb fh).hc.channel c)
          else fh c) } := by
  unfold create_pipeline
  rw [forFrom_zero, pack_channel_loop]
  cases opt.lightmode <;> cases hn : cfg.arm_neon <;> simp [create_packed, hn]

theorem create_pipeline_bias (cfg : Build) (self : GRU_arm α)
    (fx fb fh : Nat → Buf α) (opt : NcnnOption α) :
    (create_pipeline cfg self fx fb fh opt).2.bias_c_data_packed =
      { (create_packed cfg self fx fb fh).bias with data := (fun c =>
          if c < num_directions self.direction then
            (pack_bias cfg self.num_output (self.bias_c_data.channel c)
              ((create_packed cfg self fx fb fh).bias.channel c)).mem
          else fb c) } := by
  unfold create_pipeline
  rw [forFrom_zero, pack_channel_loop]
  cases opt.lightmode <;> cases hn : cfg.arm_neon <;> simp [create_packed, hn]

end

section

variable {α : Type} [Field α]
open Finset

/-! ### Gate loops of a 4-lane group -/

theorem fma_lane_apply (aa : Bool) (a b v : float32x4_t α) (lane l : Fin 4) :
    fma_lane aa a b v lane l = a l + b l * v lane := by
  cases aa
  · fin_cases lane <;> rfl
  · rfl

theorem sum_range_four (f : ℕ → α) (k : ℕ) :
    ∑ i in range (4 * (k + 1)), f i
      = ∑ i in range (4 * k), f i + f (4 * k) + f (4 * k + 1) + f (4 * k + 2) + f (4 * k + 3) := by
  rw [show 4 * (k + 1) = 4 * k + 1 + 1 + 1 + 1 by omega]
  simp only [sum_range_succ]

theorem gate_RU4_step (aa : Bool) (v : Buf α) (vp : Nat) (wt : Buf α) (i : Nat)
    (s : AccRU4 α) (l : Fin 4) :
    (gate_RU4 aa v vp wt i s).ptr = s.ptr + 32 ∧
    (gate_RU4 aa v vp wt i s).totR l = s.totR l +
      (wt (s.ptr + l) * v (vp + i) + wt (s.ptr + 8 + l) * v (vp + i + 1)
        + wt (s.ptr + 16 + l) * v (vp + i + 2) + wt (s.ptr + 24 + l) * v (vp + i + 3)) ∧
    (gate_RU4 aa v vp wt i s).totU l = s.totU l +
      (wt (s.ptr + 4 + l) * v (vp + i) + wt (s.ptr + 12 + l) * v (vp + i + 1)
        + wt (s.ptr + 20 + l) * v (vp + i + 2) + wt (s.ptr + 28 + l) * v (vp + i + 3)) := by
  have h1 : ((1 : Fin 4) : ℕ) = 1 := rfl
  have h2 : ((2 : Fin 4) : ℕ) = 2 := rfl
  have h3 : ((3 : Fin 4) : ℕ) = 3 := rfl
  refine ⟨rfl, ?_, ?_⟩
  · simp only [AccRU4.totR, gate_RU4, fma_lane_apply, vld1q_f32, Fin.val_zero, Nat.add_zero, h1,
      h2, h3]
    ring
  · simp only [AccRU4.totU, gate_RU4, fma_lane_apply, vld1q_f32, Fin.val_zero, Nat.add_zero, h1,
      h2, h3]
    ring

theorem gate_RU4_stride (aa : Bool) (v : Buf α) (vp : Nat) (wt : Buf α) (a : AccRU4 α)
    (l : Fin 4) (k : Nat) :
    (forRange k (fun j => gate_RU4 aa v vp wt (4 * j)) a).ptr = a.ptr + 32 * k ∧
    (forRange k (fun j => gate_RU4 aa v vp wt (4 * j)) a).totR l = a.totR l +
      ∑ i in range (4 * k), wt (a.ptr + 8 * i + l) * v (vp + i) ∧
    (forRange k (fun j => gate_RU4 aa v vp wt (4 * j)) a).totU l = a.totU l +
      ∑ i in range (4 * k), wt (a.ptr + 8 * i + 4 + l) * v (vp + i) := by
  induction k with
  | zero => simp [forRange]
  | succ k ih =>
    obtain ⟨p1, r1, u1⟩ := ih
    obtain ⟨p2, r2, u2⟩ := gate_RU4_step aa v vp wt (4 * k)
      (forRange k (fun j => gate_RU4 aa v vp wt (4 * j)) a) l
    simp only [forRange]
    refine ⟨by rw [p2, p1]; omega, ?_, ?_⟩
    · rw [r2, r1, p1, sum_range_four]
      have e1 : a.ptr + 32 * k + (l : ℕ) = a.ptr + 8 * (4 * k) + l := by omega
      have e2 : a.ptr + 32 * k + 8 + (l : ℕ) = a.ptr + 8 * (4 * k + 1) + l := by omega
      have e3 : a.ptr + 32 * k + 16 + (l : ℕ) = a.ptr + 8 * (4 * k + 2) + l := by omega
      have e4 : a.ptr + 32 * k + 24 + (l : ℕ) = a.ptr + 8 * (4 * k + 3) + l := by omega
      rw [e1, e2, e3, e4]
      simp only [Nat.add_assoc]
      ring
    · rw [u2, u1, p1, sum_range_four]
      have e1 : a.ptr + 32 * k + 4 + (l : ℕ) = a.ptr + 8 * (4 * k) + 4 + l := by omega
      have e2 : a.ptr + 32 * k + 12 + (l : ℕ) = a.ptr + 8 * (4 * k + 1) + 4 + l := by omega
      have e3 : a.ptr + 32 * k + 20 + (l : ℕ) = a.ptr + 8 * (4 * k + 2) + 4 + l := by omega
      have e4 : a.ptr + 32 * k + 28 + (l : ℕ) = a.ptr + 8 * (4 * k + 3) + 4 + l := by omega
      rw [e1, e2, e3, e4]
      simp only [Nat.add_assoc]
      ring

theorem gate_RU4_tail_loop (v : Buf α) (vp : Nat) (wt : Buf α) (i0 : Nat) (a : AccRU4 α)
    (l : Fin 4) (d : Nat) :
    (forRange d (fun j => gate_RU4_tail v vp wt (i0 + j)) a).ptr = a.ptr + 8 * d ∧
    (forRange d (fun j => gate_RU4_tail v vp wt (i0 + j)) a).totR l = a.totR l +
      ∑ j in range d, wt (a.ptr + 8 * j + l) * v (vp + (i0 + j)) ∧
    (forRange d (fun j => gate_RU4_tail v vp wt (i0 + j)) a).totU l = a.totU l +
      ∑ j in range d, wt (a.ptr + 8 * j + 4 + l) * v (vp + (i0 + j)) := by
  induction d with
  | zero => simp [forRange]
  | succ d ih =>
    obtain ⟨p1, r1, u1⟩ := ih
    simp only [forRange]
    refine ⟨?_, ?_, ?_⟩
    · simp only [gate_RU4_tail, p1]; omega
    · rw [sum_range_succ, ← add_assoc, ← r1]
      simp only [AccRU4.totR, gate_RU4_tail, vmlaq_f32, vld1q_f32, vdupq_n_f32, p1]
      ring
    · rw [sum_range_succ, ← add_assoc, ← u1]
      simp only [AccRU4.totU, gate_RU4_tail, vmlaq_f32, vld1q_f32, vdupq_n_f32, p1]
      ring

/-- The two reset/update loops over one operand (stride 4, then the tail). -/
theorem gate_RU4_loops (aa : Bool) (v : Buf α) (vp : Nat) (wt : Buf α) (n : Nat)
    (a : AccRU4 α) (l : Fin 4) :
    (forFrom n (gate_RU4_tail v vp wt) (forStep4 n (gate_RU4 aa v vp wt) 0 a).1
        (forStep4 n (gate_RU4 aa v vp wt) 0 a).2).ptr = a.ptr + 8 * n ∧
    (forFrom n (gate_RU4_tail v vp wt) (forStep4 n (gate_RU4 aa v vp wt) 0 a).1
        (forStep4 n (gate_RU4 aa v vp wt) 0 a).2).totR l = a.totR l +
      ∑ i in range n, wt (a.ptr + 8 * i + l) * v (vp + i) ∧
    (forFrom n (gate_RU4_tail v vp wt) (forStep4 n (gate_RU4 aa v vp wt) 0 a).1
        (forStep4 n (gate_RU4 aa v vp wt) 0 a).2).totU l = a.totU l +
      ∑ i in range n, wt (a.ptr + 8 * i + 4 + l) * v (vp + i) := by
  rw [forStep4_zero]
  simp only []
  rw [forFrom_eq_forRange n _ (n - 4 * (n / 4)) _ _ rfl]
  obtain ⟨p1, r1, u1⟩ := gate_RU4_stride aa v vp wt a l (n / 4)
  obtain ⟨p2, r2, u2⟩ := gate_RU4_tail_loop v vp wt (4 * (n / 4))
    (forRange (n / 4) (fun j => gate_RU4 aa v vp wt (4 * j)) a) l (n - 4 * (n / 4))
  have hn : n = 4 * (n / 4) + (n - 4 * (n / 4)) := by omega
  refine ⟨by rw [p2, p1]; omega, ?_, ?_⟩
  · rw [r2, r1, p1, add_assoc]
    congr 1
    conv_rhs => rw [hn, sum_range_add]
    congr 1
    apply sum_congr rfl
    intro j _
    congr 2
    omega
  · rw [u2, u1, p1, add_assoc]
    congr 1
    conv_rhs => rw [hn, sum_range_add]
    congr 1
    apply sum_congr rfl
    intro j _
    congr 2
    omega

end

section

variable {α : Type} [Field α]
open Finset

theorem gate_N4_step (aa : Bool) (v : Buf α) (vp : Nat) (wt : Buf α) (i : Nat)
    (s : AccN4 α) (l : Fin 4) :
    (gate_N4 aa v vp wt i s).ptr = s.ptr + 16 ∧
    (gate_N4 aa v vp wt i s).totN l = s.totN l +
      (wt (s.ptr + l) * v (vp + i) + wt (s.ptr + 4 + l) * v (vp + i + 1)
        + wt (s.ptr + 8 + l) * v (vp + i + 2) + wt (s.ptr + 12 + l) * v (vp + i + 3)) := by
  have h1 : ((1 : Fin 4) : ℕ) = 1 := rfl
  have h2 : ((2 : Fin 4) : ℕ) = 2 := rfl
  have h3 : ((3 : Fin 4) : ℕ) = 3 := rfl
  refine ⟨rfl, ?_⟩
  simp only [AccN4.totN, gate_N4, fma_lane_apply, vld1q_f32, Fin.val_zero, Nat.add_zero, h1,
    h2, h3]
  ring

theorem gate_N4_stride (aa : Bool) (v : Buf α) (vp : Nat) (wt : Buf α) (a : AccN4 α)
    (l : Fin 4) (k : Nat) :
    (forRange k (fun j => gate_N4 aa v vp wt (4 * j)) a).ptr = a.ptr + 16 * k ∧
    (forRange k (fun j => gate_N4 aa v vp wt (4 * j)) a).totN l = a.totN l +
      ∑ i in range (4 * k), wt (a.ptr + 4 * i + l) * v (vp + i) := by
  induction k with
  | zero => simp [forRange]
  | succ k ih =>
    obtain ⟨p1, r1⟩ := ih
    obtain ⟨p2, r2⟩ := gate_N4_step aa v vp wt (4 * k)
      (forRange k (fun j => gate_N4 aa v vp wt (4 * j)) a) l
    simp only [forRange]
    refine ⟨by rw [p2, p1]; omega, ?_⟩
    rw [r2, r1, p1, sum_range_four]
    have e1 : a.ptr + 16 * k + (l : ℕ) = a.ptr + 4 * (4 * k) + l := by omega
    have e2 : a.ptr + 16 * k + 4 + (l : ℕ) = a.ptr + 4 * (4 * k + 1) + l := by omega
    have e3 : a.ptr + 16 * k + 8 + (l : ℕ) = a.ptr + 4 * (4 * k + 2) + l := by omega
    have e4 : a.ptr + 16 * k + 12 + (l : ℕ) = a.ptr + 4 * (4 * k + 3) + l := by omega
    rw [e1, e2, e3, e4]
    simp only [Nat.add_assoc]
    ring

theorem gate_N4_tail_loop (v : Buf α) (vp : Nat) (wt : Buf α) (i0 : Nat) (a : AccN4 α)
    (l : Fin 4) (d : Nat) :
    (forRange d (fun j => gate_N4_tail v vp wt (i0 + j)) a).ptr = a.ptr + 4 * d ∧
    (forRange d (fun j => gate_N4_tail v vp wt (i0 + j)) a).totN l = a.totN l +
      ∑ j in range d, wt (a.ptr + 4 * j + l) * v (vp + (i0 + j)) := by
  induction d with
  | zero => simp [forRange]
  | succ d ih =>
    obtain ⟨p1, r1⟩ := ih
    simp only [forRange]
    refine ⟨?_, ?_⟩
    · simp only [gate_N4_tail, p1]; omega
    · rw [sum_range_succ, ← add_assoc, ← r1]
      simp only [AccN4.totN, gate_N4_tail, vmlaq_f32, vld1q_f32, vdupq_n_f32, p1]
      ring

/-- The two candidate loops over one operand (stride 4, then the tail). -/
theorem gate_N4_loops (aa : Bool) (v : Buf α) (vp : Nat) (wt : Buf α) (n : Nat)
    (a : AccN4 α) (l : Fin 4) :
    (forFrom n (gate_N4_tail v vp wt) (forStep4 n (gate_N4 aa v vp wt) 0 a).1
        (forStep4 n (gate_N4 aa v vp wt) 0 a).2).ptr = a.ptr + 4 * n ∧
    (forFrom n (gate_N4_tail v vp wt) (forStep4 n (gate_N4 aa v vp wt) 0 a).1
        (forStep4 n (gate_N4 aa v vp wt) 0 a).2).totN l = a.totN l +
      ∑ i in range n, wt (a.ptr + 4 * i + l) * v (vp + i) := by
  rw [forStep4_zero]
  simp only []
  rw [forFrom_eq_forRange n _ (n - 4 * (n / 4)) _ _ rfl]
  obtain ⟨p1, r1⟩ := gate_N4_stride aa v vp wt a l (n / 4)
  obtain ⟨p2, r2⟩ := gate_N4_tail_loop v vp wt (4 * (n / 4))
    (forRange (n / 4) (fun j => gate_N4 aa v vp wt (4 * j)) a) l (n - 4 * (n / 4))
  have hn : n = 4 * (n / 4) + (n - 4 * (n / 4)) := by omega
  refine ⟨by rw [p2, p1]; omega, ?_⟩
  rw [r2, r1, p1, add_assoc]
  congr 1
  conv_rhs => rw [hn, sum_range_add]
  congr 1
  apply sum_congr rfl
  intro j _
  congr 2
  omega

/-! ### Gate loops of one unit -/

theorem gate_RU1_loop (v : Buf α) (vp : Nat) (wt : Buf α) (a : AccRU1 α) (n : Nat) :
    (forRange n (gate_RU1 v vp wt) a).ptr = a.ptr + 2 * n ∧
    (forRange n (gate_RU1 v vp wt) a).R = a.R + ∑ i in range n, wt (a.ptr + 2 * i) * v (vp + i) ∧
    (forRange n (gate_RU1 v vp wt) a).U
      = a.U + ∑ i in range n, wt (a.ptr + 2 * i + 1) * v (vp + i) := by
  induction n with
  | zero => simp [forRange]
  | succ n ih =>
    obtain ⟨p1, r1, u1⟩ := ih
    simp only [forRange]
    refine ⟨?_, ?_, ?_⟩
    · simp only [gate_RU1, p1]; omega
    · rw [sum_range_succ, ← add_assoc, ← r1]
      simp only [gate_RU1, p1, Nat.add_zero]
    · rw [sum_range_succ, ← add_assoc, ← u1]
      simp only [gate_RU1, p1]

theorem gate_N1_loop (v : Buf α) (vp : Nat) (wt : Buf α) (a : AccN1 α) (n : Nat) :
    (forRange n (gate_N1 v vp wt) a).ptr = a.ptr + n ∧
    (forRange n (gate_N1 v vp wt) a).N = a.N + ∑ i in range n, wt (a.ptr + i) * v (vp + i) := by
  induction n with
  | zero => simp [forRange]
  | succ n ih =>
    obtain ⟨p1, r1⟩ := ih
    simp only [forRange]
    refine ⟨?_, ?_⟩
    · simp only [gate_N1, p1]; omega
    · rw [sum_range_succ, ← add_assoc, ← r1]
      simp only [gate_N1, p1, Nat.add_zero]

end

section

variable {α : Type} [Field α]
open Finset

/-- What the 4-lane gate computation reads from the packed tensors. -/
theorem gru_gates4_eq (cfg : Build) (lm : Libm α) (size n : Nat) (bottom : Buf α) (x : Nat)
    (wxc bias whc : Mat α) (hidden : Buf α) (qq : Nat) (l : Fin 4) :
    (gru_gates4 cfg lm size n bottom x wxc bias whc hidden qq).R l =
      sigmoid lm (bias.buf (16 * qq + l)
        + ∑ i in range size, wxc.buf (wxc.row qq + 8 * i + l) * bottom (x + i)
        + ∑ j in range n, whc.buf (whc.row qq + 8 * j + l) * hidden j) ∧
    (gru_gates4 cfg lm size n bottom x wxc bias whc hidden qq).U l =
      sigmoid lm (bias.buf (16 * qq + 4 + l)
        + ∑ i in range size, wxc.buf (wxc.row qq + 8 * i + 4 + l) * bottom (x + i)
        + ∑ j in range n, whc.buf (whc.row qq + 8 * j + 4 + l) * hidden j) ∧
    (gru_gates4 cfg lm size n bottom x wxc bias whc hidden qq).N l =
      lm.tanhf (bias.buf (16 * qq + 12 + l)
        + (gru_gates4 cfg lm size n bottom x wxc bias whc hidden qq).R l
          * (bias.buf (16 * qq + 8 + l)
              + ∑ j in range n, whc.buf (whc.row qq + 8 * n + 4 * j + l) * hidden j)
        + ∑ i in range size, wxc.buf (wxc.row qq + 8 * size + 4 * i + l) * bottom (x + i)) := by
  have hq4 : qq * 4 / 4 = qq := by omega
  have hb : qq * 4 * 4 = 16 * qq := by omega
  let a0 : AccRU4 α :=
    { ptr := wxc.row qq,
      gru_R := vld1q_f32 bias.buf (16 * qq),
      gru_U := vld1q_f32 bias.buf (16 * qq + 4),
      sum1 := vdupq_n_f32 0, sum2 := vdupq_n_f32 0, sum3 := vdupq_n_f32 0,
      sum4 := vdupq_n_f32 0, sum5 := vdupq_n_f32 0, sum6 := vdupq_n_f32 0 }
  let a1 := forFrom size (gate_RU4_tail bottom x wxc.buf)
    (forStep4 size (gate_RU4 cfg.aarch64 bottom x wxc.buf) 0 a0).1
    (forStep4 size (gate_RU4 cfg.aarch64 bottom x wxc.buf) 0 a0).2
  let a1h : AccRU4 α := { a1 with ptr := whc.row qq }
  let a2 := forFrom n (gate_RU4_tail hidden 0 whc.buf)
    (forStep4 n (gate_RU4 cfg.aarch64 hidden 0 whc.buf) 0 a1h).1
    (forStep4 n (gate_RU4 cfg.aarch64 hidden 0 whc.buf) 0 a1h).2
  let n0 : AccN4 α :=
    { ptr := a2.ptr, gru_N := vld1q_f32 bias.buf (16 * qq + 8),
      sum1 := vdupq_n_f32 0, sum2 := vdupq_n_f32 0, sum3 := vdupq_n_f32 0 }
  let n1 := forFrom n (gate_N4_tail hidden 0 whc.buf)
    (forStep4 n (gate_N4 cfg.aarch64 hidden 0 whc.buf) 0 n0).1
    (forStep4 n (gate_N4 cfg.aarch64 hidden 0 whc.buf) 0 n0).2
  let m0 : AccN4 α :=
    { ptr := a1.ptr,
      gru_N := vmlaq_f32 (vld1q_f32 bias.buf (16 * qq + 12))
        (sigmoid_ps lm (vaddq_f32 (vaddq_f32 a2.gru_R a2.sum1) (vaddq_f32 a2.sum3 a2.sum5)))
        (vaddq_f32 (vaddq_f32 n1.gru_N n1.sum1) (vaddq_f32 n1.sum2 n1.sum3)),
      sum1 := vdupq_n_f32 0, sum2 := vdupq_n_f32 0, sum3 := vdupq_n_f32 0 }
  let m1 := forFrom size (gate_N4_tail bottom x wxc.buf)
    (forStep4 size (gate_N4 cfg.aarch64 bottom x wxc.buf) 0 m0).1
    (forStep4 size (gate_N4 cfg.aarch64 bottom x wxc.buf) 0 m0).2
  have hR : (gru_gates4 cfg lm size n bottom x wxc bias whc hidden qq).R l
      = sigmoid lm (a2.totR l) := by
    simp only [gru_gates4, hq4, hb]
    rfl
  have hU : (gru_gates4 cfg lm size n bottom x wxc bias whc hidden qq).U l
      = sigmoid lm (a2.totU l) := by
    simp only [gru_gates4, hq4, hb]
    rfl
  have hN : (gru_gates4 cfg lm size n bottom x wxc bias whc hidden qq).N l
      = lm.tanhf (m1.totN l) := by
    simp only [gru_gates4, hq4, hb]
    rfl
  obtain ⟨p1, r1, u1⟩ := gate_RU4_loops cfg.aarch64 bottom x wxc.buf size a0 l
  obtain ⟨p2, r2, u2⟩ := gate_RU4_loops cfg.aarch64 hidden 0 whc.buf n a1h l
  obtain ⟨p3, r3⟩ := gate_N4_loops cfg.aarch64 hidden 0 whc.buf n n0 l
  obtain ⟨p4, r4⟩ := gate_N4_loops cfg.aarch64 bottom x wxc.buf size m0 l
  have e1 : a1.totR l = a0.totR l
      + ∑ i in range size, wxc.buf (wxc.row qq + 8 * i + l) * bottom (x + i) := r1
  have e1u : a1.totU l = a0.totU l
      + ∑ i in range size, wxc.buf (wxc.row qq + 8 * i + 4 + l) * bottom (x + i) := u1
  have e1p : a1.ptr = wxc.row qq + 8 * size := p1
  have e2 : a2.totR l = a1.totR l
      + ∑ j in range n, whc.buf (whc.row qq + 8 * j + l) * hidden (0 + j) := r2
  have e2u : a2.totU l = a1.totU l
      + ∑ j in range n, whc.buf (whc.row qq + 8 * j + 4 + l) * hidden (0 + j) := u2
  have e2p : a2.ptr = whc.row qq + 8 * n := p2
  have e3 : n1.totN l = n0.totN l
      + ∑ j in range n, whc.buf (a2.ptr + 4 * j + l) * hidden (0 + j) := r3
  have e4 : m1.totN l = m0.totN l
      + ∑ i in range size, wxc.buf (a1.ptr + 4 * i + l) * bottom (x + i) := r4
  have e0 : a0.totR l = bias.buf (16 * qq + l) := by
    simp [a0, AccRU4.totR, vld1q_f32, vdupq_n_f32]
  have e0u : a0.totU l = bias.buf (16 * qq + 4 + l) := by
    simp [a0, AccRU4.totU, vld1q_f32, vdupq_n_f32]
  have en0 : n0.totN l = bias.buf (16 * qq + 8 + l) := by
    simp [n0, AccN4.totN, vld1q_f32, vdupq_n_f32]
  have em0 : m0.totN l = bias.buf (16 * qq + 12 + l) + sigmoid lm (a2.totR l) * n1.totN l := by
    simp [m0, AccN4.totN, AccRU4.totR, vld1q_f32, vdupq_n_f32, vmlaq_f32, vaddq_f32, sigmoid_ps]
  refine ⟨?_, ?_, ?_⟩
  · rw [hR, e2, e1, e0]
    simp only [Nat.zero_add]
  · rw [hU, e2u, e1u, e0u]
    simp only [Nat.zero_add]
  · rw [hN, e4, em0, e3, en0, hR, e1p, e2p]
    simp only [Nat.zero_add]

/-- What the one-unit gate computation reads from the packed tensors. -/
theorem gru_gates1_eq (cfg : Build) (lm : Libm α) (size n : Nat) (bottom : Buf α) (x : Nat)
    (wxc bias whc : Mat α) (hidden : Buf α) (q : Nat) :
    (gru_gates1 cfg lm size n bottom x wxc bias whc hidden q).R =
      sigmoid lm (bias.buf (4 * q)
        + ∑ i in range size, wxc.buf (wxc.row (unit_row cfg q) + 2 * i) * bottom (x + i)
        + ∑ j in range n, whc.buf (whc.row (unit_row cfg q) + 2 * j) * hidden j) ∧
    (gru_gates1 cfg lm size n bottom x wxc bias whc hidden q).U =
      sigmoid lm (bias.buf (4 * q + 1)
        + ∑ i in range size, wxc.buf (wxc.row (unit_row cfg q) + 2 * i + 1) * bottom (x + i)
        + ∑ j in range n, whc.buf (whc.row (unit_row cfg q) + 2 * j + 1) * hidden j) ∧
    (gru_gates1 cfg lm size n bottom x wxc bias whc hidden q).N =
      lm.tanhf (bias.buf (4 * q + 3)
        + (gru_gates1 cfg lm size n bottom x wxc bias whc hidden q).R
          * (bias.buf (4 * q + 2)
              + ∑ j in range n, whc.buf (whc.row (unit_row cfg q) + 2 * n + j) * hidden j)
        + ∑ i in range size,
            wxc.buf (wxc.row (unit_row cfg q) + 2 * size + i) * bottom (x + i)) := by
  have hb : q * 4 = 4 * q := by omega
  let a0 : AccRU1 α :=
    { ptr := wxc.row (unit_row cfg q), R := bias.buf (4 * q + 0), U := bias.buf (4 * q + 1) }
  let a1 := forRange size (gate_RU1 bottom x wxc.buf) a0
  let a1h : AccRU1 α := { a1 with ptr := whc.row (unit_row cfg q) }
  let a2 := forRange n (gate_RU1 hidden 0 whc.buf) a1h
  let n0 : AccN1 α := { ptr := a2.ptr, N := bias.buf (4 * q + 2) }
  let n1 := forRange n (gate_N1 hidden 0 whc.buf) n0
  let m0 : AccN1 α :=
    { ptr := a1.ptr, N := bias.buf (4 * q + 3) + 1 / (1 + lm.expf (-a2.R)) * n1.N }
  let m1 := forRange size (gate_N1 bottom x wxc.buf) m0
  have hR : (gru_gates1 cfg lm size n bottom x wxc bias whc hidden q).R
      = sigmoid lm a2.R := by
    simp only [gru_gates1, hb, forFrom_zero]
    try rfl
  have hU : (gru_gates1 cfg lm size n bottom x wxc bias whc hidden q).U
      = sigmoid lm a2.U := by
    simp only [gru_gates1, hb, forFrom_zero]
    try rfl
  have hN : (gru_gates1 cfg lm size n bottom x wxc bias whc hidden q).N
      = lm.tanhf m1.N := by
    simp only [gru_gates1, hb, forFrom_zero]
    try rfl
  obtain ⟨p1, r1, u1⟩ := gate_RU1_loop bottom x wxc.buf a0 size
  obtain ⟨p2, r2, u2⟩ := gate_RU1_loop hidden 0 whc.buf a1h n
  obtain ⟨p3, r3⟩ := gate_N1_loop hidden 0 whc.buf n0 n
  obtain ⟨p4, r4⟩ := gate_N1_loop bottom x wxc.buf m0 size
  have e1 : a1.R = bias.buf (4 * q)
      + ∑ i in range size, wxc.buf (wxc.row (unit_row cfg q) + 2 * i) * bottom (x + i) := r1
  have e1u : a1.U = bias.buf (4 * q + 1)
      + ∑ i in range size, wxc.buf (wxc.row (unit_row cfg q) + 2 * i + 1) * bottom (x + i) := u1
  have e1p : a1.ptr = wxc.row (unit_row cfg q) + 2 * size := p1
  have e2 : a2.R = a1.R
      + ∑ j in range n, whc.buf (whc.row (unit_row cfg q) + 2 * j) * hidden (0 + j) := r2
  have e2u : a2.U = a1.U
      + ∑ j in range n, whc.buf (whc.row (unit_row cfg q) + 2 * j + 1) * hidden (0 + j) := u2
  have e2p : a2.ptr = whc.row (unit_row cfg q) + 2 * n := p2
  have e3 : n1.N = bias.buf (4 * q + 2)
      + ∑ j in range n, whc.buf (a2.ptr + j) * hidden (0 + j) := r3
  have e4 : m1.N = bias.buf (4 * q + 3) + sigmoid lm a2.R * n1.N
      + ∑ i in range size, wxc.buf (a1.ptr + i) * bottom (x + i) := r4
  refine ⟨?_, ?_, ?_⟩
  · rw [hR, e2, e1]
    simp only [Nat.zero_add]
  · rw [hU, e2u, e1u]
    simp only [Nat.zero_add]
  · rw [hN, e4, e3, hR, e1p, e2p]
    simp only [Nat.zero_add]

end

section

variable {α : Type}

theorem vst1q_f32_apply (m : Buf α) (p : Nat) (v : float32x4_t α) (j : Nat) :
    vst1q_f32 m p v j =
      if h : p ≤ j ∧ j < p + 4 then v ⟨j - p, by omega⟩ else m j := by
  by_cases h : p ≤ j ∧ j < p + 4
  · rw [dif_pos h]
    obtain ⟨k, rfl⟩ : ∃ k, j = p + k := ⟨j - p, by omega⟩
    have hk : k < 4 := by omega
    interval_cases k <;> simp [vst1q_f32, store]
  · rw [dif_neg h]
    simp only [vst1q_f32]
    repeat rw [store_other _ _ _ _ (by omega)]

theorem remain_start_neon (cfg : Build) (h : cfg.arm_neon = true) (n : Nat) :
    remain_num_output_start cfg n = 4 * (n / 4) := by
  simp only [remain_num_output_start, h, if_true, Nat.shiftRight_eq_div_pow, Nat.shiftLeft_eq]
  omega

theorem remain_start_scalar (cfg : Build) (h : cfg.arm_neon = false) (n : Nat) :
    remain_num_output_start cfg n = 0 := by
  simp [remain_num_output_start, h]

theorem remain_start_le (cfg : Build) (n : Nat) : remain_num_output_start cfg n ≤ n := by
  cases h : cfg.arm_neon
  · rw [remain_start_scalar cfg h]; omega
  · rw [remain_start_neon cfg h]; omega

theorem shr2 (n : Nat) : n >>> 2 = n / 4 := by
  simp [Nat.shiftRight_eq_div_pow]

theorem StepState.ext3 (a b : StepState α) (h1 : a.gates = b.gates) (h2 : a.top = b.top)
    (h3 : a.hidden = b.hidden) : a = b := by
  cases a; cases b; simp only [StepState.mk.injEq]; exact ⟨h1, h2, h3⟩

variable [Field α]

/-! ### The blend loops of a timestep -/

theorem step_H4_loop (cfg : Build) (hneon : cfg.arm_neon = true) (n out : Nat)
    (s : StepState α) (k : Nat) (hk : k ≤ n / 4) :
    forRange k (step_H4 cfg out 0) s =
      { gates := s.gates,
        hidden := fun j => if j < 4 * k then
            blend (gate_U_at cfg n s.gates j) (gate_N_at cfg n s.gates j) (s.hidden j)
          else s.hidden j,
        top := fun j => if out ≤ j ∧ j < out + 4 * k then
            blend (gate_U_at cfg n s.gates (j - out)) (gate_N_at cfg n s.gates (j - out))
              (s.hidden (j - out))
          else s.top j } := by
  induction k with
  | zero =>
    simp only [forRange]
    refine StepState.ext3 _ _ rfl ?_ ?_
    · funext j; simp only []; rw [if_neg (by omega)]
    · funext j; simp only []; rw [if_neg (by omega)]
  | succ k ih =>
    simp only [forRange]
    rw [ih (by omega)]
    have hrs := remain_start_neon cfg hneon n
    have hgw : gates_w cfg = 8 := by simp [gates_w, hneon]
    have hk4 : k * 4 / 4 = k := by omega
    refine StepState.ext3 _ _ rfl ?_ ?_
    · funext j
      simp only [step_H4, hk4, hgw]
      rw [vst1q_f32_apply]
      by_cases hj : out + k * 4 ≤ j ∧ j < out + k * 4 + 4
      · rw [dif_pos hj, if_pos (by omega)]
        have h1 : (j - out) / 4 = k := by omega
        have h2 : (j - out) % 4 = j - (out + k * 4) := by omega
        have h3 : j - out < remain_num_output_start cfg n := by omega
        have h4 : 0 + k * 4 + (j - (out + k * 4)) = j - out := by omega
        simp only [vaddq_f32, vmulq_f32, vsubq_f32, vdupq_n_f32, vld1q_f32, blend, gate_U_at,
          gate_N_at, h3, if_true, h1, h2, hgw, h4, if_neg (show ¬ j - out < 4 * k by omega)]
      · rw [dif_neg hj]
        by_cases hj2 : out ≤ j ∧ j < out + 4 * k
        · rw [if_pos hj2, if_pos (by omega)]
        · rw [if_neg hj2, if_neg (by omega)]
    · funext j
      simp only [step_H4, hk4, hgw]
      rw [vst1q_f32_apply]
      by_cases hj : 0 + k * 4 ≤ j ∧ j < 0 + k * 4 + 4
      · rw [dif_pos hj, if_pos (by omega)]
        have h1 : j / 4 = k := by omega
        have h2 : j % 4 = j - (0 + k * 4) := by omega
        have h3 : j < remain_num_output_start cfg n := by omega
        have h4 : 0 + k * 4 + (j - (0 + k * 4)) = j := by omega
        simp only [vaddq_f32, vmulq_f32, vsubq_f32, vdupq_n_f32, vld1q_f32, blend, gate_U_at,
          gate_N_at, h3, if_true, h1, h2, hgw, h4, if_neg (show ¬ j < 4 * k by omega)]
      · rw [dif_neg hj]
        by_cases hj2 : j < 4 * k
        · rw [if_pos hj2, if_pos (by omega)]
        · rw [if_neg hj2, if_neg (by omega)]

theorem step_H1_loop (cfg : Build) (n out q0 : Nat) (hq0 : q0 = remain_num_output_start cfg n)
    (s : StepState α) (d : Nat) :
    forRange d (fun k => step_H1 cfg out 0 (q0 + k)) s =
      { gates := s.gates,
        hidden := fun j => if q0 ≤ j ∧ j < q0 + d then
            blend (gate_U_at cfg n s.gates j) (gate_N_at cfg n s.gates j) (s.hidden j)
          else s.hidden j,
        top := fun j => if out + q0 ≤ j ∧ j < out + q0 + d then
            blend (gate_U_at cfg n s.gates (j - out)) (gate_N_at cfg n s.gates (j - out))
              (s.hidden (j - out))
          else s.top j } := by
  induction d with
  | zero =>
    simp only [forRange]
    refine StepState.ext3 _ _ rfl ?_ ?_
    · funext j; simp only []; rw [if_neg (by omega)]
    · funext j; simp only []; rw [if_neg (by omega)]
  | succ d ih =>
    simp only [forRange]
    rw [ih]
    refine StepState.ext3 _ _ rfl ?_ ?_
    · funext j
      simp only [step_H1]
      by_cases hj : j = out + (q0 + d)
      · subst hj
        have c1 : ¬ (q0 ≤ 0 + (q0 + d) ∧ 0 + (q0 + d) < q0 + d) := by omega
        have c2 : out + q0 ≤ out + (q0 + d) ∧ out + (q0 + d) < out + q0 + (d + 1) := by omega
        rw [store_same, if_neg c1, if_pos c2]
        have h3 : ¬ (q0 + d < remain_num_output_start cfg n) := by omega
        have h4 : out + (q0 + d) - out = q0 + d := by omega
        simp only [blend, gate_U_at, gate_N_at, h3, if_false, Nat.zero_add, h4]
      · rw [store_other _ _ _ _ hj]
        by_cases hj2 : out + q0 ≤ j ∧ j < out + q0 + d
        · rw [if_pos hj2, if_pos (by omega)]
        · rw [if_neg hj2, if_neg (by omega)]
    · funext j
      simp only [step_H1]
      by_cases hj : j = 0 + (q0 + d)
      · subst hj
        have c1 : ¬ (q0 ≤ 0 + (q0 + d) ∧ 0 + (q0 + d) < q0 + d) := by omega
        have c2 : q0 ≤ 0 + (q0 + d) ∧ 0 + (q0 + d) < q0 + (d + 1) := by omega
        rw [store_same, if_neg c1, if_pos c2]
        have h3 : ¬ (q0 + d < remain_num_output_start cfg n) := by omega
        simp only [blend, gate_U_at, gate_N_at, h3, if_false, Nat.zero_add]
      · rw [store_other _ _ _ _ hj]
        by_cases hj2 : q0 ≤ j ∧ j < q0 + d
        · rw [if_pos hj2, if_pos (by omega)]
        · rw [if_neg hj2, if_neg (by omega)]

end

section

variable {α : Type} [Field α]

/-! ### The gate loops of a timestep -/

theorem step_gates4_loop (cfg : Build) (hneon : cfg.arm_neon = true) (lm : Libm α)
    (size n : Nat) (bottom : Buf α) (x : Nat) (wxc bias whc : Mat α) (hidden G0 : Buf α)
    (k : Nat) :
    (∀ qq (l : Fin 4), qq < k →
      forRange k (step_gates4 cfg lm size n bottom x wxc bias whc hidden) G0 (qq * 8 + l)
          = (gru_gates4 cfg lm size n bottom x wxc bias whc hidden qq).U l ∧
      forRange k (step_gates4 cfg lm size n bottom x wxc bias whc hidden) G0 (qq * 8 + 4 + l)
          = (gru_gates4 cfg lm size n bottom x wxc bias whc hidden qq).N l) ∧
    (∀ j, k * 8 ≤ j →
      forRange k (step_gates4 cfg lm size n bottom x wxc bias whc hidden) G0 j = G0 j) := by
  have hgw : gates_w cfg = 8 := by simp [gates_w, hneon]
  induction k with
  | zero => exact ⟨fun qq l h => absurd h (Nat.not_lt_zero qq), fun j _ => rfl⟩
  | succ k ih =>
    obtain ⟨a1, a2⟩ := ih
    have hk4 : k * 4 / 4 = k := by omega
    simp only [forRange]
    constructor
    · intro qq l hqq
      have hl := l.isLt
      simp only [step_gates4, hk4, hgw, vst1q_f32_apply]
      by_cases hqk : qq = k
      · subst hqk
        constructor
        · rw [dif_neg (by omega), dif_pos (by omega)]
          congr 1
          apply Fin.ext
          simp
        · rw [dif_pos (by omega)]
          congr 1
          apply Fin.ext
          simp only []
          omega
      · rw [dif_neg (by omega), dif_neg (by omega), dif_neg (by omega), dif_neg (by omega)]
        exact a1 qq l (by omega)
    · intro j hj
      simp only [step_gates4, hk4, hgw, vst1q_f32_apply]
      rw [dif_neg (by omega), dif_neg (by omega)]
      exact a2 j (by omega)

theorem step_gates1_loop (cfg : Build) (lm : Libm α) (size n : Nat) (bottom : Buf α) (x : Nat)
    (wxc bias whc : Mat α) (hidden G1 : Buf α) (q0 r0 : Nat) (k : Nat)
    (hur : ∀ d, d < k → unit_row cfg (q0 + d) = r0 + d) :
    (∀ d, d < k →
      forRange k (fun d => step_gates1 cfg lm size n bottom x wxc bias whc hidden (q0 + d)) G1
          ((r0 + d) * gates_w cfg + 0)
          = (gru_gates1 cfg lm size n bottom x wxc bias whc hidden (q0 + d)).U ∧
      forRange k (fun d => step_gates1 cfg lm size n bottom x wxc bias whc hidden (q0 + d)) G1
          ((r0 + d) * gates_w cfg + 1)
          = (gru_gates1 cfg lm size n bottom x wxc bias whc hidden (q0 + d)).N) ∧
    (∀ j, j < r0 * gates_w cfg →
      forRange k (fun d => step_gates1 cfg lm size n bottom x wxc bias whc hidden (q0 + d)) G1 j
        = G1 j) := by
  have hgw : 2 ≤ gates_w cfg := by
    simp only [gates_w]
    split <;> omega
  induction k with
  | zero => exact ⟨fun d h => absurd h (Nat.not_lt_zero d), fun j _ => rfl⟩
  | succ k ih =>
    obtain ⟨a1, a2⟩ := ih (fun d hd => hur d (by omega))
    simp only [forRange]
    have e0 : r0 * gates_w cfg ≤ (r0 + k) * gates_w cfg := Nat.mul_le_mul_right _ (by omega)
    constructor
    · intro d hd
      simp only [step_gates1, hur k (by omega)]
      by_cases hdk : d = k
      · subst hdk
        constructor
        · rw [store_other _ _ _ _ (by omega), store_same]
        · rw [store_same]
      · have e1 : (r0 + d + 1) * gates_w cfg ≤ (r0 + k) * gates_w cfg :=
          Nat.mul_le_mul_right _ (by omega)
        have e2 : (r0 + d + 1) * gates_w cfg = (r0 + d) * gates_w cfg + gates_w cfg :=
          Nat.succ_mul _ _
        rw [store_other _ _ _ _ (by omega), store_other _ _ _ _ (by omega),
          store_other _ _ _ _ (by omega), store_other _ _ _ _ (by omega)]
        exact a1 d (by omega)
    · intro j hj
      simp only [step_gates1, hur k (by omega)]
      rw [store_other _ _ _ _ (by omega), store_other _ _ _ _ (by omega)]
      exact a2 j hj

/-- After the two gate loops of a timestep the workspace holds, for every unit, the gates
computed from the hidden state the timestep started with. -/
theorem step_gates_spec (cfg : Build) (lm : Libm α) (size n : Nat) (bottom : Buf α) (x : Nat)
    (wxc bias whc : Mat α) (hidden G0 : Buf α) (q : Nat) (hq : q < n) :
    gate_U_at cfg n
      (forFrom n (step_gates1 cfg lm size n bottom x wxc bias whc hidden)
        (remain_num_output_start cfg n)
        (if cfg.arm_neon then
          forFrom (n >>> 2) (step_gates4 cfg lm size n bottom x wxc bias whc hidden) 0 G0
         else G0)) q
      = (gru_unit_gates cfg lm size n bottom x wxc bias whc hidden q).U ∧
    gate_N_at cfg n
      (forFrom n (step_gates1 cfg lm size n bottom x wxc bias whc hidden)
        (remain_num_output_start cfg n)
        (if cfg.arm_neon then
          forFrom (n >>> 2) (step_gates4 cfg lm size n bottom x wxc bias whc hidden) 0 G0
         else G0)) q
      = (gru_unit_gates cfg lm size n bottom x wxc bias whc hidden q).N := by
  rw [forFrom_eq_forRange n _ (n - remain_num_output_start cfg n) _ _ rfl]
  cases hneon : cfg.arm_neon
  · have hrs := remain_start_scalar cfg hneon n
    have hur : ∀ d, d < n - remain_num_output_start cfg n →
        unit_row cfg (remain_num_output_start cfg n + d) = 0 + d := by
      intro d _
      simp [unit_row, hneon, hrs]
    obtain ⟨u1, u2⟩ := step_gates1_loop cfg lm size n bottom x wxc bias whc hidden G0
      (remain_num_output_start cfg n) 0 (n - remain_num_output_start cfg n) hur
    have := u1 q (by omega)
    simp only [gate_U_at, gate_N_at, gru_unit_gates, hrs, Nat.not_lt_zero, if_false,
      Bool.false_eq_true, Nat.zero_add, Nat.sub_zero]
    simp only [hrs, Nat.zero_add, Nat.sub_zero] at this
    have hu : unit_row cfg q = q := by simp [unit_row, hneon]
    rw [hu]
    exact this
  · have hrs := remain_start_neon cfg hneon n
    have hgw : gates_w cfg = 8 := by simp [gates_w, hneon]
    have hur : ∀ d, d < n - remain_num_output_start cfg n →
        unit_row cfg (remain_num_output_start cfg n + d) = n / 4 + d := by
      intro d hd
      simp only [unit_row, hneon, if_true, hrs]
      omega
    simp only [if_true]
    rw [shr2, forFrom_zero]
    obtain ⟨g1, g2⟩ := step_gates4_loop cfg hneon lm size n bottom x wxc bias whc hidden G0
      (n / 4)
    obtain ⟨u1, u2⟩ := step_gates1_loop cfg lm size n bottom x wxc bias whc hidden
      (forRange (n / 4) (step_gates4 cfg lm size n bottom x wxc bias whc hidden) G0)
      (remain_num_output_start cfg n) (n / 4) (n - remain_num_output_start cfg n) hur
    by_cases hqr : q < remain_num_output_start cfg n
    · simp only [gate_U_at, gate_N_at, gru_unit_gates, hqr, if_true, hgw]
      rw [u2 _ (by rw [hgw]; omega), u2 _ (by rw [hgw]; omega)]
      exact g1 (q / 4) ⟨q % 4, Nat.mod_lt q (by decide)⟩ (by omega)
    · simp only [gate_U_at, gate_N_at, gru_unit_gates, hqr, if_false]
      obtain ⟨d, hd⟩ : ∃ d, q = remain_num_output_start cfg n + d :=
        ⟨q - remain_num_output_start cfg n, by omega⟩
      have := u1 d (by omega)
      rw [hd, hur d (by omega)]
      exact this

end

section

variable {α : Type} [Field α]

/-- One timestep in closed form: every unit of the hidden state becomes its cell value
computed from the previous hidden state, and the same values go to the output row. -/
theorem gru_step_eq (cfg : Build) (lm : Libm α) (bottom_blob top_blob : Mat α) (reverse : Nat)
    (wxc bias whc : Mat α) (t : Nat) (s : StepState α) :
    (gru_step cfg lm bottom_blob top_blob reverse wxc bias whc t s).hidden =
      (fun j => if j < top_blob.w then
          gru_cell cfg lm bottom_blob.w top_blob.w bottom_blob.buf
            (bottom_blob.row (step_ti reverse bottom_blob.h t)) wxc bias whc s.hidden j
        else s.hidden j) ∧
    (gru_step cfg lm bottom_blob top_blob reverse wxc bias whc t s).top =
      (fun j => if top_blob.row (step_ti reverse bottom_blob.h t) ≤ j
            ∧ j < top_blob.row (step_ti reverse bottom_blob.h t) + top_blob.w then
          gru_cell cfg lm bottom_blob.w top_blob.w bottom_blob.buf
            (bottom_blob.row (step_ti reverse bottom_blob.h t)) wxc bias whc s.hidden
            (j - top_blob.row (step_ti reverse bottom_blob.h t))
        else s.top j) := by
  have hspec := step_gates_spec cfg lm bottom_blob.w top_blob.w bottom_blob.buf
    (bottom_blob.row (step_ti reverse bottom_blob.h t)) wxc bias whc s.hidden s.gates
  have hrl := remain_start_le cfg top_blob.w
  simp only [gru_step]
  rw [forFrom_eq_forRange top_blob.w (step_H1 _ _ _) (top_blob.w - remain_num_output_start cfg top_blob.w) _ _ rfl]
  rw [step_H1_loop cfg top_blob.w _ _ rfl]
  cases hneon : cfg.arm_neon
  · have hrs := remain_start_scalar cfg hneon top_blob.w
    simp only [hneon, Bool.false_eq_true, if_false] at hspec
    simp only [Bool.false_eq_true, if_false, hrs, Nat.zero_add, Nat.add_zero, Nat.sub_zero]
    constructor
    · funext j
      by_cases hj : j < top_blob.w
      · rw [if_pos ⟨Nat.zero_le j, hj⟩, if_pos hj]
        obtain ⟨h1, h2⟩ := hspec j hj
        simp only [hrs] at h1 h2
        rw [gru_cell, ← h1, ← h2]
      · rw [if_neg (by omega), if_neg hj]
    · funext j
      by_cases hj : top_blob.row (step_ti reverse bottom_blob.h t) ≤ j
          ∧ j < top_blob.row (step_ti reverse bottom_blob.h t) + top_blob.w
      · rw [if_pos hj, if_pos hj]
        obtain ⟨h1, h2⟩ := hspec (j - top_blob.row (step_ti reverse bottom_blob.h t)) (by omega)
        simp only [hrs] at h1 h2
        rw [gru_cell, ← h1, ← h2]
      · rw [if_neg hj, if_neg hj]
  · have hrs := remain_start_neon cfg hneon top_blob.w
    simp only [hneon, if_true] at hspec
    simp only [if_true, shr2]
    rw [forFrom_zero (top_blob.w / 4) (step_H4 _ _ _),
      step_H4_loop cfg hneon top_blob.w _ _ _ (Nat.le_refl _)]
    simp only [hrs, shr2, if_true] at hspec ⊢
    constructor
    · funext j
      by_cases hj : j < top_blob.w
      · rw [if_pos hj]
        obtain ⟨h1, h2⟩ := hspec j hj
        rw [gru_cell, ← h1, ← h2]
        by_cases hj2 : j < 4 * (top_blob.w / 4)
        · rw [if_neg (by omega), if_pos hj2]
        · rw [if_pos (by omega), if_neg hj2]
      · rw [if_neg (by omega), if_neg (by omega), if_neg hj]
    · funext j
      by_cases hj : top_blob.row (step_ti reverse bottom_blob.h t) ≤ j
          ∧ j < top_blob.row (step_ti reverse bottom_blob.h t) + top_blob.w
      · rw [if_pos hj]
        obtain ⟨h1, h2⟩ := hspec (j - top_blob.row (step_ti reverse bottom_blob.h t)) (by omega)
        rw [gru_cell, ← h1, ← h2]
        by_cases hj2 : j < top_blob.row (step_ti reverse bottom_blob.h t) + 4 * (top_blob.w / 4)
        · rw [if_neg (by omega), if_pos (by omega)]
        · rw [if_pos (by omega), if_neg (by omega)]
      · rw [if_neg (by omega), if_neg (by omega), if_neg hj]

end

section

variable {α : Type}

/-! ### The packed tensors of the layer, read by row pointer -/

theorem packed_xc_row (cfg : Build) (self : GRU_arm α) (fx fb fh : Nat → Buf α)
    (opt : NcnnOption α) (dr y : Nat) :
    ((create_pipeline cfg self fx fb fh opt).2.weight_xc_data_packed.channel dr).row y
      = y * (if cfg.arm_neon then 12 * input_size self else 3 * input_size self) := by
  rw [create_pipeline_xc]
  cases hn : cfg.arm_neon <;>
    simp only [Mat.channel, Mat.row, create_packed, hn, if_true, if_false, Bool.false_eq_true,
      Nat.mul_one] <;> ring

theorem packed_hc_row (cfg : Build) (self : GRU_arm α) (fx fb fh : Nat → Buf α)
    (opt : NcnnOption α) (dr y : Nat) :
    ((create_pipeline cfg self fx fb fh opt).2.weight_hc_data_packed.channel dr).row y
      = y * (if cfg.arm_neon then 12 * self.num_output else 3 * self.num_output) := by
  rw [create_pipeline_hc]
  cases hn : cfg.arm_neon <;>
    simp only [Mat.channel, Mat.row, create_packed, hn, if_true, if_false, Bool.false_eq_true,
      Nat.mul_one] <;> ring

theorem created_xc_row (cfg : Build) (self : GRU_arm α) (fx fb fh : Nat → Buf α) (dr y : Nat) :
    ((create_packed cfg self fx fb fh).xc.channel dr).row y
      = y * (if cfg.arm_neon then 12 * input_size self else 3 * input_size self) := by
  cases hn : cfg.arm_neon <;>
    simp only [Mat.channel, Mat.row, create_packed, hn, if_true, if_false, Bool.false_eq_true,
      Nat.mul_one] <;> ring

theorem created_hc_row (cfg : Build) (self : GRU_arm α) (fx fb fh : Nat → Buf α) (dr y : Nat) :
    ((create_packed cfg self fx fb fh).hc.channel dr).row y
      = y * (if cfg.arm_neon then 12 * self.num_output else 3 * self.num_output) := by
  cases hn : cfg.arm_neon <;>
    simp only [Mat.channel, Mat.row, create_packed, hn, if_true, if_false, Bool.false_eq_true,
      Nat.mul_one] <;> ring

theorem created_bias_row0 (cfg : Build) (self : GRU_arm α) (fx fb fh : Nat → Buf α) (dr : Nat) :
    ((create_packed cfg self fx fb fh).bias.channel dr).row 0 = 0 := by
  simp [Mat.channel, Mat.row]

theorem packed_xc_buf (cfg : Build) (self : GRU_arm α) (fx fb fh : Nat → Buf α)
    (opt : NcnnOption α) (dr : Nat) (hdr : dr < num_directions self.direction) :
    ((create_pipeline cfg self fx fb fh opt).2.weight_xc_data_packed.channel dr).buf
      = pack_mat cfg self.num_output (input_size self) (self.weight_xc_data.channel dr)
          ((create_packed cfg self fx fb fh).xc.channel dr) := by
  rw [create_pipeline_xc]
  simp [Mat.channel, Mat.buf, hdr]

theorem packed_hc_buf (cfg : Build) (self : GRU_arm α) (fx fb fh : Nat → Buf α)
    (opt : NcnnOption α) (dr : Nat) (hdr : dr < num_directions self.direction) :
    ((create_pipeline cfg self fx fb fh opt).2.weight_hc_data_packed.channel dr).buf
      = pack_mat cfg self.num_output self.num_output (self.weight_hc_data.channel dr)
          ((create_packed cfg self fx fb fh).hc.channel dr) := by
  rw [create_pipeline_hc]
  simp [Mat.channel, Mat.buf, hdr]

theorem packed_bias_buf (cfg : Build) (self : GRU_arm α) (fx fb fh : Nat → Buf α)
    (opt : NcnnOption α) (dr : Nat) (hdr : dr < num_directions self.direction) :
    ((create_pipeline cfg self fx fb fh opt).2.bias_c_data_packed.channel dr).buf
      = (pack_bias cfg self.num_output (self.bias_c_data.channel dr)
          ((create_packed cfg self fx fb fh).bias.channel dr)).mem := by
  rw [create_pipeline_bias]
  simp [Mat.channel, Mat.buf, hdr]

/-- Layout of a packed weight tensor for a unit of a 4-lane group: reset and update
coefficients interleaved eight per input feature, then the candidate coefficients four per
feature. Stated for both weight tensors through `cols` (input size or `num_output`). -/
theorem packed_group_read (cfg : Build) (hneon : cfg.arm_neon = true) (n cols : Nat)
    (src dst P : Mat α) (hbuf : P.buf = pack_mat cfg n cols src dst)
    (hrowP : ∀ y, P.row y = y * (12 * cols)) (hrowd : ∀ y, dst.row y = y * (12 * cols))
    (q : Nat) (hq : q < 4 * (n / 4)) (i : Nat) (hi : i < cols) :
    P.buf (P.row (q / 4) + 8 * i + q % 4) = src.at2 q i ∧
    P.buf (P.row (q / 4) + 8 * i + 4 + q % 4) = src.at2 (n + q) i ∧
    P.buf (P.row (q / 4) + 8 * cols + 4 * i + q % 4) = src.at2 (2 * n + q) i := by
  obtain ⟨g1, g2, -, -, -⟩ := pack_mat_neon cfg hneon n cols (12 * cols) src dst hrowd
    (Nat.le_refl _)
  have hl : q % 4 < 4 := Nat.mod_lt q (by decide)
  have hg : q / 4 < n / 4 := by omega
  have hqq : 4 * (q / 4) + q % 4 = q := by omega
  rw [hbuf, hrowP]
  refine ⟨?_, ?_, ?_⟩
  · have := g1 (q / 4) (q % 4) i 0 hg hl hi (by omega)
    simp only [Nat.mul_zero, Nat.add_zero, Nat.zero_add] at this
    rw [this, Mat.at2, hqq]
  · have := g1 (q / 4) (q % 4) i 1 hg hl hi (by omega)
    simp only [Nat.mul_one] at this
    rw [this, Mat.at2, show n + 4 * (q / 4) + q % 4 = n + q by omega]
  · have := g2 (q / 4) (q % 4) i hg hl hi
    rw [this, Mat.at2, show n * 2 + 4 * (q / 4) + q % 4 = 2 * n + q by omega]

/-- Layout of a packed weight tensor for a unit stored on its own row: reset and update
coefficients interleaved two per input feature, then the candidate coefficients. -/
theorem packed_unit_read (cfg : Build) (n cols : Nat)
    (src dst P : Mat α) (hbuf : P.buf = pack_mat cfg n cols src dst)
    (hrowP : ∀ y, P.row y = y * (if cfg.arm_neon then 12 * cols else 3 * cols))
    (hrowd : ∀ y, dst.row y = y * (if cfg.arm_neon then 12 * cols else 3 * cols))
    (q : Nat) (hq1 : remain_num_output_start cfg n ≤ q) (hq2 : q < n) (i : Nat) (hi : i < cols) :
    P.buf (P.row (unit_row cfg q) + 2 * i) = src.at2 q i ∧
    P.buf (P.row (unit_row cfg q) + 2 * i + 1) = src.at2 (n + q) i ∧
    P.buf (P.row (unit_row cfg q) + 2 * cols + i) = src.at2 (2 * n + q) i := by
  rw [hbuf, hrowP]
  cases hneon : cfg.arm_neon
  · simp only [hneon, Bool.false_eq_true, if_false] at hrowd ⊢
    obtain ⟨u1, u2, -⟩ := pack_mat_scalar cfg hneon n cols (3 * cols) src dst hrowd
      (Nat.le_refl _)
    refine ⟨?_, ?_, ?_⟩
    · have := u1 q i 0 hq2 hi (by omega)
      simp only [Nat.mul_zero, Nat.add_zero, Nat.zero_add] at this
      rw [this, Mat.at2]
    · have := u1 q i 1 hq2 hi (by omega)
      simp only [Nat.mul_one] at this
      rw [this, Mat.at2]
    · rw [u2 q i hq2 hi, Mat.at2, show n * 2 + q = 2 * n + q by omega]
  · simp only [hneon, if_true] at hrowd ⊢
    rw [remain_num_output_start] at hq1
    simp only [hneon, if_true, Nat.shiftRight_eq_div_pow, Nat.shiftLeft_eq] at hq1
    obtain ⟨-, -, u1, u2, -⟩ := pack_mat_neon cfg hneon n cols (12 * cols) src dst hrowd
      (Nat.le_refl _)
    refine ⟨?_, ?_, ?_⟩
    · have := u1 q i 0 (by omega) hq2 hi (by omega)
      simp only [Nat.mul_zero, Nat.add_zero, Nat.zero_add] at this
      rw [this, Mat.at2]
    · have := u1 q i 1 (by omega) hq2 hi (by omega)
      simp only [Nat.mul_one] at this
      rw [this, Mat.at2]
    · rw [u2 q i (by omega) hq2 hi, Mat.at2, show n * 2 + q = 2 * n + q by omega]

/-- Layout of the packed bias: for a unit of a 4-lane group the four values sit at stride 4
inside the 16-float record of the group; for a unit stored on its own, at `4 * q .. 4 * q + 3`.
In both cases in the order R, U, BN (raw row 3), WN (raw row 2). -/
theorem packed_bias_read (cfg : Build) (n : Nat) (bias_c dst : Mat α) (hd : dst.row 0 = 0)
    (q : Nat) (hq : q < n) (k : Nat) (hk : k < 4) :
    (pack_bias cfg n bias_c dst).mem
        (if q < remain_num_output_start cfg n then 16 * (q / 4) + 4 * k + q % 4 else 4 * q + k)
      = bias_c.at2 (bias_sel k) q := by
  cases hneon : cfg.arm_neon
  · have hrs : remain_num_output_start cfg n = 0 := by simp [remain_num_output_start, hneon]
    have := pack_bias_scalar cfg hneon n bias_c dst q k hq hk
    rw [hd, Nat.zero_add] at this
    simp only [hrs, Nat.not_lt_zero, if_false]
    rw [this, Mat.at2]
  · have hrs : remain_num_output_start cfg n = 4 * (n / 4) := by
      simp only [remain_num_output_start, hneon, if_true, Nat.shiftRight_eq_div_pow,
        Nat.shiftLeft_eq]
      omega
    obtain ⟨b1, b2⟩ := pack_bias_neon cfg hneon n bias_c dst
    rw [hrs]
    by_cases hqr : q < 4 * (n / 4)
    · rw [if_pos hqr]
      have := b1 (q / 4) k (q % 4) (by omega) hk (Nat.mod_lt q (by decide))
      rw [hd, Nat.zero_add] at this
      rw [this, Mat.at2,
        show bias_c.row (bias_sel k) + 4 * (q / 4) + q % 4 = bias_c.row (bias_sel k) + q by omega]
    · rw [if_neg hqr]
      have := b2 q k (by omega) hq hk
      rw [hd, Nat.zero_add] at this
      rw [this, Mat.at2]

end

section

variable {α : Type} [Field α]
open Finset

/-- The gates of unit `q` computed on the tensors packed by `create_pipeline`, in terms of the
raw tensors (preactivation sums in the order the code adds them). -/
theorem unit_gates_raw (cfg : Build) (lm : Libm α) (self : GRU_arm α)
    (fx fb fh : Nat → Buf α) (opt : NcnnOption α) (bottom : Buf α) (x : Nat) (hidden : Buf α)
    (dr q : Nat) (hdr : dr < num_directions self.direction) (hq : q < self.num_output) :
    (gru_unit_gates cfg lm (input_size self) self.num_output bottom x
        ((create_pipeline cfg self fx fb fh opt).2.weight_xc_data_packed.channel dr)
        ((create_pipeline cfg self fx fb fh opt).2.bias_c_data_packed.channel dr)
        ((create_pipeline cfg self fx fb fh opt).2.weight_hc_data_packed.channel dr)
        hidden q).R =
      sigmoid lm ((self.bias_c_data.channel dr).at2 0 q
        + ∑ i in range (input_size self),
            (self.weight_xc_data.channel dr).at2 q i * bottom (x + i)
        + ∑ j in range self.num_output, (self.weight_hc_data.channel dr).at2 q j * hidden j) ∧
    (gru_unit_gates cfg lm (input_size self) self.num_output bottom x
        ((create_pipeline cfg self fx fb fh opt).2.weight_xc_data_packed.channel dr)
        ((create_pipeline cfg self fx fb fh opt).2.bias_c_data_packed.channel dr)
        ((create_pipeline cfg self fx fb fh opt).2.weight_hc_data_packed.channel dr)
        hidden q).U =
      sigmoid lm ((self.bias_c_data.channel dr).at2 1 q
        + ∑ i in range (input_size self),
            (self.weight_xc_data.channel dr).at2 (self.num_output + q) i * bottom (x + i)
        + ∑ j in range self.num_output,
            (self.weight_hc_data.channel dr).at2 (self.num_output + q) j * hidden j) ∧
    (gru_unit_gates cfg lm (input_size self) self.num_output bottom x
        ((create_pipeline cfg self fx fb fh opt).2.weight_xc_data_packed.channel dr)
        ((create_pipeline cfg self fx fb fh opt).2.bias_c_data_packed.channel dr)
        ((create_pipeline cfg self fx fb fh opt).2.weight_hc_data_packed.channel dr)
        hidden q).N =
      lm.tanhf ((self.bias_c_data.channel dr).at2 2 q
        + (gru_unit_gates cfg lm (input_size self) self.num_output bottom x
            ((create_pipeline cfg self fx fb fh opt).2.weight_xc_data_packed.channel dr)
            ((create_pipeline cfg self fx fb fh opt).2.bias_c_data_packed.channel dr)
            ((create_pipeline cfg self fx fb fh opt).2.weight_hc_data_packed.channel dr)
            hidden q).R
          * ((self.bias_c_data.channel dr).at2 3 q
              + ∑ j in range self.num_output,
                  (self.weight_hc_data.channel dr).at2 (2 * self.num_output + q) j * hidden j)
        + ∑ i in range (input_size self),
            (self.weight_xc_data.channel dr).at2 (2 * self.num_output + q) i
              * bottom (x + i)) := by
  have hxb := packed_xc_buf cfg self fx fb fh opt dr hdr
  have hhb := packed_hc_buf cfg self fx fb fh opt dr hdr
  have hbb := packed_bias_buf cfg self fx fb fh opt dr hdr
  have hxr := packed_xc_row cfg self fx fb fh opt dr
  have hhr := packed_hc_row cfg self fx fb fh opt dr
  have hxd := created_xc_row cfg self fx fb fh dr
  have hhd := created_hc_row cfg self fx fb fh dr
  have hbd := created_bias_row0 cfg self fx fb fh dr
  have hbias : ∀ k, k < 4 → _ := fun k hk =>
    packed_bias_read cfg self.num_output (self.bias_c_data.channel dr)
      ((create_packed cfg self fx fb fh).bias.channel dr) hbd q hq k hk
  rw [← hbb] at hbias
  by_cases hqr : q < remain_num_output_start cfg self.num_output
  · have hneon : cfg.arm_neon = true := by
      cases h : cfg.arm_neon
      · rw [remain_start_scalar cfg h] at hqr; omega
      · rfl
    have hrs := remain_start_neon cfg hneon self.num_output
    simp only [hneon, if_true] at hxr hhr hxd hhd
    simp only [hqr, if_true] at hbias
    have hX := fun i hi => packed_group_read cfg hneon self.num_output (input_size self) _ _ _
      hxb hxr hxd q (by omega) i hi
    have hH := fun i hi => packed_group_read cfg hneon self.num_output self.num_output _ _ _
      hhb hhr hhd q (by omega) i hi
    obtain ⟨gR, gU, gN⟩ := gru_gates4_eq cfg lm (input_size self) self.num_output bottom x
      ((create_pipeline cfg self fx fb fh opt).2.weight_xc_data_packed.channel dr)
      ((create_pipeline cfg self fx fb fh opt).2.bias_c_data_packed.channel dr)
      ((create_pipeline cfg self fx fb fh opt).2.weight_hc_data_packed.channel dr)
      hidden (q / 4) ⟨q % 4, Nat.mod_lt q (by decide)⟩
    have b0 := hbias 0 (by omega)
    have b1 := hbias 1 (by omega)
    have b2 := hbias 2 (by omega)
    have b3 := hbias 3 (by omega)
    have s0 : bias_sel 0 = 0 := rfl
    have s1 : bias_sel 1 = 1 := rfl
    have s2 : bias_sel 2 = 3 := rfl
    have s3 : bias_sel 3 = 2 := rfl
    simp only [Nat.mul_zero, Nat.add_zero, Nat.mul_one, s0, s1, s2, s3, Nat.reduceMul]
      at b0 b1 b2 b3
    simp only [gru_unit_gates, hqr, if_true]
    refine ⟨?_, ?_, ?_⟩
    · rw [gR]
      simp only []
      rw [b0]
      congr 2
      · congr 1
        exact sum_congr rfl fun i hi => by rw [(hX i (mem_range.mp hi)).1]
      · exact sum_congr rfl fun j hj => by rw [(hH j (mem_range.mp hj)).1]
    · rw [gU]
      simp only []
      rw [b1]
      congr 2
      · congr 1
        exact sum_congr rfl fun i hi => by rw [(hX i (mem_range.mp hi)).2.1]
      · exact sum_congr rfl fun j hj => by rw [(hH j (mem_range.mp hj)).2.1]
    · rw [gN]
      simp only []
      rw [b2, b3]
      congr 2
      · congr 2
        congr 1
        exact sum_congr rfl fun j hj => by rw [(hH j (mem_range.mp hj)).2.2]
      · exact sum_congr rfl fun i hi => by rw [(hX i (mem_range.mp hi)).2.2]
  · simp only [hqr, if_false] at hbias
    have hX := fun i hi => packed_unit_read cfg self.num_output (input_size self) _ _ _
      hxb hxr hxd q (by omega) hq i hi
    have hH := fun i hi => packed_unit_read cfg self.num_output self.num_output _ _ _
      hhb hhr hhd q (by omega) hq i hi
    obtain ⟨gR, gU, gN⟩ := gru_gates1_eq cfg lm (input_size self) self.num_output bottom x
      ((create_pipeline cfg self fx fb fh opt).2.weight_xc_data_packed.channel dr)
      ((create_pipeline cfg self fx fb fh opt).2.bias_c_data_packed.channel dr)
      ((create_pipeline cfg self fx fb fh opt).2.weight_hc_data_packed.channel dr)
      hidden q
    have b0 := hbias 0 (by omega)
    have b1 := hbias 1 (by omega)
    have b2 := hbias 2 (by omega)
    have b3 := hbias 3 (by omega)
    have s0 : bias_sel 0 = 0 := rfl
    have s1 : bias_sel 1 = 1 := rfl
    have s2 : bias_sel 2 = 3 := rfl
    have s3 : bias_sel 3 = 2 := rfl
    simp only [Nat.add_zero, s0, s1, s2, s3] at b0 b1 b2 b3
    simp only [gru_unit_gates, hqr, if_false]
    refine ⟨?_, ?_, ?_⟩
    · rw [gR, b0]
      congr 2
      · congr 1
        exact sum_congr rfl fun i hi => by rw [(hX i (mem_range.mp hi)).1]
      · exact sum_congr rfl fun j hj => by rw [(hH j (mem_range.mp hj)).1]
    · rw [gU, b1]
      congr 2
      · congr 1
        exact sum_congr rfl fun i hi => by rw [(hX i (mem_range.mp hi)).2.1]
      · exact sum_congr rfl fun j hj => by rw [(hH j (mem_range.mp hj)).2.1]
    · rw [gN, b2, b3]
      congr 2
      · congr 2
        congr 1
        exact sum_congr rfl fun j hj => by rw [(hH j (mem_range.mp hj)).2.2]
      · exact sum_congr rfl fun i hi => by rw [(hX i (mem_range.mp hi)).2.2]

end

section

variable {α : Type} [Field α]
open Finset

/-! ### The timestep loop -/

theorem gru_loop_eq (cfg : Build) (lm : Libm α) (bottom_blob top_blob : Mat α) (reverse : Nat)
    (wxc bias whc : Mat α) (s0 : StepState α) (k : Nat) :
    (forRange k (gru_step cfg lm bottom_blob top_blob reverse wxc bias whc) s0).hidden
      = gru_hidden_seq cfg lm bottom_blob top_blob reverse wxc bias whc s0.hidden k ∧
    (forRange k (gru_step cfg lm bottom_blob top_blob reverse wxc bias whc) s0).top
      = gru_top_seq cfg lm bottom_blob top_blob reverse wxc bias whc s0.hidden s0.top k := by
  induction k with
  | zero => exact ⟨rfl, rfl⟩
  | succ k ih =>
    obtain ⟨h1, h2⟩ := ih
    obtain ⟨e1, e2⟩ := gru_step_eq cfg lm bottom_blob top_blob reverse wxc bias whc k
      (forRange k (gru_step cfg lm bottom_blob top_blob reverse wxc bias whc) s0)
    simp only [forRange]
    rw [e1, e2, h1, h2]
    exact ⟨rfl, rfl⟩

/-- The function `gru` in closed form. -/
theorem gru_eq (cfg : Build) (lm : Libm α) (bottom_blob top_blob : Mat α) (reverse : Nat)
    (wxc bias whc hidden_state : Mat α) (opt : NcnnOption α) (g : Mat α)
    (hg : gates_create cfg top_blob.w opt.workspace_allocator = some g) :
    gru cfg lm bottom_blob top_blob reverse wxc bias whc hidden_state opt =
      (0,
       top_blob.set_buf (gru_top_seq cfg lm bottom_blob top_blob reverse wxc bias whc
          hidden_state.buf top_blob.buf bottom_blob.h),
       hidden_state.set_buf (gru_hidden_seq cfg lm bottom_blob top_blob reverse wxc bias whc
          hidden_state.buf bottom_blob.h)) := by
  unfold gru
  simp only [hg]
  rw [forFrom_zero]
  obtain ⟨h1, h2⟩ := gru_loop_eq cfg lm bottom_blob top_blob reverse wxc bias whc
    { gates := g.buf, top := top_blob.buf, hidden := hidden_state.buf } bottom_blob.h
  rw [h1, h2]

theorem gru_fail (cfg : Build) (lm : Libm α) (bottom_blob top_blob : Mat α) (reverse : Nat)
    (wxc bias whc hidden_state : Mat α) (opt : NcnnOption α)
    (hg : gates_create cfg top_blob.w opt.workspace_allocator = none) :
    gru cfg lm bottom_blob top_blob reverse wxc bias whc hidden_state opt =
      (-100, top_blob, hidden_state) := by
  unfold gru
  simp only [hg]

/-! ### What a cell value depends on -/

theorem unit_gates_congr (cfg : Build) (lm : Libm α) (size n : Nat) (b1 b2 : Buf α)
    (x1 x2 : Nat) (wxc bias whc : Mat α) (h1 h2 : Buf α)
    (hx : ∀ i, i < size → b1 (x1 + i) = b2 (x2 + i)) (hh : ∀ j, j < n → h1 j = h2 j) (q : Nat) :
    gru_unit_gates cfg lm size n b1 x1 wxc bias whc h1 q
      = gru_unit_gates cfg lm size n b2 x2 wxc bias whc h2 q := by
  have sx : ∀ f : Nat → α, ∑ i in range size, f i * b1 (x1 + i)
      = ∑ i in range size, f i * b2 (x2 + i) :=
    fun f => sum_congr rfl fun i hi => by rw [hx i (mem_range.mp hi)]
  have sh : ∀ f : Nat → α, ∑ j in range n, f j * h1 j = ∑ j in range n, f j * h2 j :=
    fun f => sum_congr rfl fun j hj => by rw [hh j (mem_range.mp hj)]
  have ext1 : ∀ a b : Gates1 α, a.R = b.R → a.U = b.U → a.N = b.N → a = b := by
    intro a b h1 h2 h3
    cases a; cases b; simp only [Gates1.mk.injEq]; exact ⟨h1, h2, h3⟩
  simp only [gru_unit_gates]
  split
  · obtain ⟨r1, u1, n1⟩ := gru_gates4_eq cfg lm size n b1 x1 wxc bias whc h1 (q / 4)
      ⟨q % 4, Nat.mod_lt q (by decide)⟩
    obtain ⟨r2, u2, n2⟩ := gru_gates4_eq cfg lm size n b2 x2 wxc bias whc h2 (q / 4)
      ⟨q % 4, Nat.mod_lt q (by decide)⟩
    have hR : (gru_gates4 cfg lm size n b1 x1 wxc bias whc h1 (q / 4)).R
          ⟨q % 4, Nat.mod_lt q (by decide)⟩
        = (gru_gates4 cfg lm size n b2 x2 wxc bias whc h2 (q / 4)).R
          ⟨q % 4, Nat.mod_lt q (by decide)⟩ := by
      rw [r1, r2, sx, sh]
    apply ext1
    · exact hR
    · simp only []
      rw [u1, u2, sx, sh]
    · simp only []
      rw [n1, n2, hR, sx, sh]
  · obtain ⟨r1, u1, n1⟩ := gru_gates1_eq cfg lm size n b1 x1 wxc bias whc h1 q
    obtain ⟨r2, u2, n2⟩ := gru_gates1_eq cfg lm size n b2 x2 wxc bias whc h2 q
    have hR : (gru_gates1 cfg lm size n b1 x1 wxc bias whc h1 q).R
        = (gru_gates1 cfg lm size n b2 x2 wxc bias whc h2 q).R := by
      rw [r1, r2, sx, sh]
    apply ext1
    · exact hR
    · rw [u1, u2, sx, sh]
    · rw [n1, n2, hR, sx, sh]

theorem gru_cell_congr (cfg : Build) (lm : Libm α) (size n : Nat) (b1 b2 : Buf α)
    (x1 x2 : Nat) (wxc bias whc : Mat α) (h1 h2 : Buf α)
    (hx : ∀ i, i < size → b1 (x1 + i) = b2 (x2 + i)) (hh : ∀ j, j < n → h1 j = h2 j)
    (q : Nat) (hq : q < n) :
    gru_cell cfg lm size n b1 x1 wxc bias whc h1 q
      = gru_cell cfg lm size n b2 x2 wxc bias whc h2 q := by
  simp only [gru_cell]
  rw [unit_gates_congr cfg lm size n b1 b2 x1 x2 wxc bias whc h1 h2 hx hh q, hh q hq]

end

section

variable {α : Type} [Field α]

/-! ### Sequences of timesteps -/

theorem step_ti_forward (T t : Nat) : step_ti 0 T t = t := rfl

theorem step_ti_reverse (reverse T t : Nat) (hr : reverse ≠ 0) : step_ti reverse T t = T - 1 - t := by
  simp [step_ti, hr]

theorem step_ti_inj (reverse T t1 t2 : Nat) (h1 : t1 < T) (h2 : t2 < T)
    (h : step_ti reverse T t1 = step_ti reverse T t2) : t1 = t2 := by
  unfold step_ti at h
  split at h <;> omega

theorem step_ti_lt (reverse T t : Nat) (h1 : t < T) : step_ti reverse T t < T := by
  unfold step_ti
  split <;> omega

theorem hidden_seq_ge (cfg : Build) (lm : Libm α) (bottom top : Mat α) (reverse : Nat)
    (wxc bias whc : Mat α) (h0 : Buf α) (k j : Nat) (hj : top.w ≤ j) :
    gru_hidden_seq cfg lm bottom top reverse wxc bias whc h0 k j = h0 j := by
  induction k with
  | zero => rfl
  | succ k ih =>
    simp only [gru_hidden_seq, gru_next]
    rw [if_neg (by omega), ih]

theorem hidden_seq_succ_lt (cfg : Build) (lm : Libm α) (bottom top : Mat α) (reverse : Nat)
    (wxc bias whc : Mat α) (h0 : Buf α) (k q : Nat) (hq : q < top.w) :
    gru_hidden_seq cfg lm bottom top reverse wxc bias whc h0 (k + 1) q =
      gru_cell cfg lm bottom.w top.w bottom.buf (bottom.row (step_ti reverse bottom.h k)) wxc bias
        whc (gru_hidden_seq cfg lm bottom top reverse wxc bias whc h0 k) q := by
  simp only [gru_hidden_seq, gru_next]
  rw [if_pos hq]

/-- Two runs whose inputs agree row by row (in processing order) and whose initial hidden
vectors agree on the hidden units produce the same hidden vectors. -/
theorem hidden_seq_congr (cfg : Build) (lm : Libm α) (b1 b2 t1 t2 : Mat α) (r1 r2 : Nat)
    (wxc bias whc : Mat α) (h1 h2 : Buf α) (hw : b1.w = b2.w) (htw : t1.w = t2.w) (K : Nat)
    (hx : ∀ t i, t < K → i < b1.w →
      b1.buf (b1.row (step_ti r1 b1.h t) + i) = b2.buf (b2.row (step_ti r2 b2.h t) + i))
    (hh : ∀ j, j < t1.w → h1 j = h2 j) :
    ∀ k, k ≤ K → ∀ j, j < t1.w →
      gru_hidden_seq cfg lm b1 t1 r1 wxc bias whc h1 k j
        = gru_hidden_seq cfg lm b2 t2 r2 wxc bias whc h2 k j := by
  intro k
  induction k with
  | zero => intro _ j hj; exact hh j hj
  | succ k ih =>
    intro hk j hj
    rw [hidden_seq_succ_lt _ _ _ _ _ _ _ _ _ _ _ hj,
      hidden_seq_succ_lt _ _ _ _ _ _ _ _ _ _ _ (by omega), ← hw, ← htw]
    exact gru_cell_congr cfg lm b1.w t1.w b1.buf b2.buf _ _ wxc bias whc _ _
      (fun i hi => hx k i (by omega) hi) (ih (by omega)) j hj

theorem hidden_seq_congr_fun (cfg : Build) (lm : Libm α) (b1 b2 t1 t2 : Mat α) (r1 r2 : Nat)
    (wxc bias whc : Mat α) (h0 : Buf α) (hw : b1.w = b2.w) (htw : t1.w = t2.w) (K : Nat)
    (hx : ∀ t i, t < K → i < b1.w →
      b1.buf (b1.row (step_ti r1 b1.h t) + i) = b2.buf (b2.row (step_ti r2 b2.h t) + i)) :
    gru_hidden_seq cfg lm b1 t1 r1 wxc bias whc h0 K
      = gru_hidden_seq cfg lm b2 t2 r2 wxc bias whc h0 K := by
  funext j
  by_cases hj : j < t1.w
  · exact hidden_seq_congr cfg lm b1 b2 t1 t2 r1 r2 wxc bias whc h0 h0 hw htw K hx
      (fun _ _ => rfl) K (Nat.le_refl _) j hj
  · rw [hidden_seq_ge _ _ _ _ _ _ _ _ _ _ _ (by omega),
      hidden_seq_ge _ _ _ _ _ _ _ _ _ _ _ (by omega)]

theorem rows_disjoint (w a b q j : Nat) (hab : a ≠ b) (hq : q < w)
    (hj : b * w ≤ j ∧ j < b * w + w) : j ≠ a * w + q := by
  rcases Nat.lt_or_gt_of_ne hab with h | h
  · have e1 : (a + 1) * w ≤ b * w := Nat.mul_le_mul_right w h
    have e2 : (a + 1) * w = a * w + w := Nat.succ_mul a w
    omega
  · have e1 : (b + 1) * w ≤ a * w := Nat.mul_le_mul_right w h
    have e2 : (b + 1) * w = b * w + w := Nat.succ_mul b w
    omega

/-- Row `ti(t)` of the output holds `h_(t+1)` once timestep `t` has run. -/
theorem top_seq_at (cfg : Build) (lm : Libm α) (bottom top : Mat α) (reverse : Nat)
    (wxc bias whc : Mat α) (h0 top0 : Buf α) (hrow : ∀ y, top.row y = y * top.w) (k : Nat)
    (hk : k ≤ bottom.h) (t q : Nat) (ht : t < k) (hq : q < top.w) :
    gru_top_seq cfg lm bottom top reverse wxc bias whc h0 top0 k
        (top.row (step_ti reverse bottom.h t) + q)
      = gru_hidden_seq cfg lm bottom top reverse wxc bias whc h0 (t + 1) q := by
  induction k with
  | zero => omega
  | succ k ih =>
    simp only [gru_top_seq]
    by_cases htk : t = k
    · subst htk
      rw [if_pos (by omega), hidden_seq_succ_lt _ _ _ _ _ _ _ _ _ _ _ hq]
      congr 1
      omega
    · have hne : step_ti reverse bottom.h t ≠ step_ti reverse bottom.h k := fun h =>
        htk (step_ti_inj reverse bottom.h t k (by omega) (by omega) h)
      rw [if_neg, ih (by omega) (by omega)]
      intro hj
      rw [hrow, hrow] at hj
      exact rows_disjoint top.w _ _ q _ hne hq hj rfl

/-- The output buffer outside the rows written so far is untouched. -/
theorem top_seq_frame (cfg : Build) (lm : Libm α) (bottom top : Mat α) (reverse : Nat)
    (wxc bias whc : Mat α) (h0 top0 : Buf α) (k j : Nat)
    (hj : ∀ t, t < k → ¬ (top.row (step_ti reverse bottom.h t) ≤ j
      ∧ j < top.row (step_ti reverse bottom.h t) + top.w)) :
    gru_top_seq cfg lm bottom top reverse wxc bias whc h0 top0 k j = top0 j := by
  induction k with
  | zero => rfl
  | succ k ih =>
    simp only [gru_top_seq]
    rw [if_neg (hj k (by omega)), ih (fun t ht => hj t (by omega))]

/-- Two runs with the same row pointers and pointwise equal hidden sequences on the hidden
units write the same output buffer. -/
theorem top_seq_congr (cfg : Build) (lm : Libm α) (b1 b2 t1 t2 : Mat α) (r1 r2 : Nat)
    (wxc bias whc : Mat α) (h1 h2 top0 : Buf α) (hw : b1.w = b2.w) (htw : t1.w = t2.w)
    (K : Nat)
    (hx : ∀ t i, t < K → i < b1.w →
      b1.buf (b1.row (step_ti r1 b1.h t) + i) = b2.buf (b2.row (step_ti r2 b2.h t) + i))
    (hti : ∀ t, t < K → t1.row (step_ti r1 b1.h t) = t2.row (step_ti r2 b2.h t))
    (hh : ∀ j, j < t1.w → h1 j = h2 j) :
    ∀ k, k ≤ K →
      gru_top_seq cfg lm b1 t1 r1 wxc bias whc h1 top0 k
        = gru_top_seq cfg lm b2 t2 r2 wxc bias whc h2 top0 k := by
  intro k
  induction k with
  | zero => intro _; rfl
  | succ k ih =>
    intro hk
    funext j
    simp only [gru_top_seq]
    rw [ih (by omega), ← hti k (by omega), ← htw, ← hw]
    by_cases hj : t1.row (step_ti r1 b1.h k) ≤ j ∧ j < t1.row (step_ti r1 b1.h k) + t1.w
    · rw [if_pos hj, if_pos hj]
      exact gru_cell_congr cfg lm b1.w t1.w b1.buf b2.buf _ _ wxc bias whc _ _
        (fun i hi => hx k i (by omega) hi)
        (hidden_seq_congr cfg lm b1 b2 t1 t2 r1 r2 wxc bias whc h1 h2 hw htw K hx hh k
          (by omega)) _ (by omega)
    · rw [if_neg hj, if_neg hj]

end

section

theorem ex_bottom_rev_rows :
    ∀ t i, t < ex_bottom.h → i < ex_bottom.w →
      ex_bottom_rev.at2 t i = ex_bottom.at2 (ex_bottom.h - 1 - t) i := by
  intro t i ht hi
  have ht3 : t < 3 := ht
  have hi2 : i < 2 := hi
  interval_cases t <;> interval_cases i <;> rfl

end

section

variable {α : Type}

/-! ### The index map of the weight packing -/

theorem raw_row_split (n r : Nat) (hr : r < 3 * n) :
    (r / n = 0 ∧ r = r % n) ∨ (r / n = 1 ∧ r = n + r % n) ∨ (r / n = 2 ∧ r = 2 * n + r % n) := by
  have hn : 0 < n := by omega
  have h1 : r / n < 3 := (Nat.div_lt_iff_lt_mul hn).mpr hr
  have h2 := Nat.div_add_mod r n
  have h3 : r / n = 0 ∨ r / n = 1 ∨ r / n = 2 := by
    generalize r / n = k at h1
    omega
  rcases h3 with h | h | h
  · left; rw [h] at h2; simp only [Nat.mul_zero, Nat.zero_add] at h2; exact ⟨h, h2.symm⟩
  · right; left; rw [h] at h2; simp only [Nat.mul_one] at h2; exact ⟨h, h2.symm⟩
  · right; right; rw [h] at h2; exact ⟨h, by generalize r % n = m at h2 ⊢; omega⟩

/-- Every raw coefficient is found, unaltered, at its packed position. -/
theorem pack_pos_read (cfg : Build) (n cols : Nat) (src dst P : Mat α)
    (hbuf : P.buf = pack_mat cfg n cols src dst)
    (hrowP : ∀ y, P.row y = y * packed_w cfg cols) (hrowd : ∀ y, dst.row y = y * packed_w cfg cols)
    (r i : Nat) (hr : r < 3 * n) (hi : i < cols) :
    P.buf (pack_pos cfg n cols r i) = src.at2 r i := by
  have hn : 0 < n := by omega
  have hq : r % n < n := Nat.mod_lt r hn
  simp only [pack_pos]
  by_cases hqr : r % n < remain_num_output_start cfg n
  · have hneon : cfg.arm_neon = true := by
      cases h : cfg.arm_neon
      · rw [remain_start_scalar cfg h] at hqr; omega
      · rfl
    have hrs := remain_start_neon cfg hneon n
    have hpw : packed_w cfg cols = 12 * cols := by simp [packed_w, hneon]
    rw [hpw] at hrowP hrowd
    obtain ⟨g1, g2, g3⟩ := packed_group_read cfg hneon n cols src dst P hbuf hrowP hrowd
      (r % n) (by omega) i hi
    rw [if_pos hqr, hpw, ← hrowP]
    rcases raw_row_split n r hr with ⟨h, e⟩ | ⟨h, e⟩ | ⟨h, e⟩
    · rw [h, if_pos (by omega)]
      simp only [Nat.mul_zero, Nat.add_zero, ← Nat.add_assoc]
      rw [g1, ← e]
    · rw [h, if_pos (by omega)]
      simp only [Nat.mul_one, ← Nat.add_assoc]
      rw [g2, ← e]
    · rw [h, if_neg (by omega)]
      simp only [← Nat.add_assoc]
      rw [g3, ← e]
  · have hpw : packed_w cfg cols = (if cfg.arm_neon then 12 * cols else 3 * cols) := rfl
    rw [hpw] at hrowP hrowd
    obtain ⟨u1, u2, u3⟩ := packed_unit_read cfg n cols src dst P hbuf hrowP hrowd (r % n)
      (by omega) hq i hi
    rw [if_neg hqr, hpw, ← hrowP]
    rcases raw_row_split n r hr with ⟨h, e⟩ | ⟨h, e⟩ | ⟨h, e⟩
    · rw [h, if_pos (by omega)]
      simp only [Nat.add_zero, ← Nat.add_assoc]
      rw [u1, ← e]
    · rw [h, if_pos (by omega)]
      simp only [← Nat.add_assoc]
      rw [u2, ← e]
    · rw [h, if_neg (by omega)]
      simp only [← Nat.add_assoc]
      rw [u3, ← e]

/-- Every packed position lies inside the packed channel. -/
theorem pack_pos_lt (cfg : Build) (n cols r i : Nat) (hr : r < 3 * n) (hi : i < cols) :
    pack_pos cfg n cols r i < packed_w cfg cols * packed_h cfg n := by
  have hn : 0 < n := by omega
  have hq : r % n < n := Nat.mod_lt r hn
  have hl : r % n % 4 < 4 := Nat.mod_lt _ (by decide)
  simp only [pack_pos]
  by_cases hqr : r % n < remain_num_output_start cfg n
  · have hneon : cfg.arm_neon = true := by
      cases h : cfg.arm_neon
      · rw [remain_start_scalar cfg h] at hqr; omega
      · rfl
    have hrs := remain_start_neon cfg hneon n
    have hpw : packed_w cfg cols = 12 * cols := by simp [packed_w, hneon]
    have hph : packed_h cfg n = n / 4 + n % 4 := by simp [packed_h, hneon]
    rw [if_pos hqr, hpw, hph, Nat.mul_comm (12 * cols)]
    have e1 : (r % n / 4 + 1) * (12 * cols) ≤ (n / 4 + n % 4) * (12 * cols) :=
      Nat.mul_le_mul_right _ (by omega)
    have e2 : (r % n / 4 + 1) * (12 * cols) = r % n / 4 * (12 * cols) + 12 * cols :=
      Nat.succ_mul _ _
    rcases raw_row_split n r hr with ⟨h, -⟩ | ⟨h, -⟩ | ⟨h, -⟩
    · rw [h, if_pos (by omega)]; omega
    · rw [h, if_pos (by omega)]; omega
    · rw [h, if_neg (by omega)]; omega
  · rw [if_neg hqr, Nat.mul_comm (packed_w cfg cols)]
    have hu : unit_row cfg (r % n) < packed_h cfg n := by
      cases hneon : cfg.arm_neon
      · simp [unit_row, packed_h, hneon, hq]
      · have hrs := remain_start_neon cfg hneon n
        simp only [unit_row, packed_h, hneon, if_true]
        omega
    have hw3 : 3 * cols ≤ packed_w cfg cols := by
      simp only [packed_w]
      split <;> omega
    have e1 : (unit_row cfg (r % n) + 1) * packed_w cfg cols
        ≤ packed_h cfg n * packed_w cfg cols := Nat.mul_le_mul_right _ hu
    have e2 : (unit_row cfg (r % n) + 1) * packed_w cfg cols
        = unit_row cfg (r % n) * packed_w cfg cols + packed_w cfg cols := Nat.succ_mul _ _
    rcases raw_row_split n r hr with ⟨h, -⟩ | ⟨h, -⟩ | ⟨h, -⟩
    · rw [h, if_pos (by omega)]; omega
    · rw [h, if_pos (by omega)]; omega
    · rw [h, if_neg (by omega)]; omega

/-- Different raw coefficients go to different packed positions. Obtained by packing the
tensor of natural numbers whose entry at row `r`, column `i` is `r * cols + i`. -/
theorem pack_pos_inj (cfg : Build) (n cols r i r2 i2 : Nat) (hr : r < 3 * n) (hi : i < cols)
    (hr2 : r2 < 3 * n) (hi2 : i2 < cols)
    (h : pack_pos cfg n cols r i = pack_pos cfg n cols r2 i2) : r = r2 ∧ i = i2 := by
  let src : Mat Nat := { w := cols, h := 3 * n, c := 1, elempack := 1, data := fun _ j => j }
  let dst : Mat Nat :=
    { w := packed_w cfg cols, h := packed_h cfg n, c := 1, elempack := 1, data := fun _ _ => 0 }
  let P : Mat Nat := { dst with data := fun _ => pack_mat cfg n cols src dst }
  have hrow : ∀ y, dst.row y = y * packed_w cfg cols := fun y => by simp [dst, Mat.row]
  have hrowP : ∀ y, P.row y = y * packed_w cfg cols := fun y => by simp [P, dst, Mat.row]
  have e1 := pack_pos_read cfg n cols src dst P rfl hrowP hrow r i hr hi
  have e2 := pack_pos_read cfg n cols src dst P rfl hrowP hrow r2 i2 hr2 hi2
  rw [h, e2] at e1
  have e3 : r2 * cols + i2 = r * cols + i := by
    simpa [src, Mat.at2, Mat.buf, Mat.row] using e1
  have hc : 0 < cols := by omega
  have d1 : (r * cols + i) / cols = r := by
    rw [Nat.add_comm, Nat.add_mul_div_right _ _ hc, Nat.div_eq_of_lt hi, Nat.zero_add]
  have d2 : (r2 * cols + i2) / cols = r2 := by
    rw [Nat.add_comm, Nat.add_mul_div_right _ _ hc, Nat.div_eq_of_lt hi2, Nat.zero_add]
  have hrr : r = r2 := by rw [← d1, ← d2, e3]
  subst hrr
  exact ⟨rfl, by omega⟩

end

section

variable {α : Type}

/-! ### Small facts on tensors -/

@[simp]
theorem Mat.set_buf_buf (m : Mat α) (b : Buf α) : (m.set_buf b).buf = b := by
  simp [Mat.set_buf, Mat.buf]

@[simp]
theorem Mat.set_buf_w (m : Mat α) (b : Buf α) : (m.set_buf b).w = m.w := rfl

@[simp]
theorem Mat.set_buf_h (m : Mat α) (b : Buf α) : (m.set_buf b).h = m.h := rfl

@[simp]
theorem Mat.set_buf_elempack (m : Mat α) (b : Buf α) :
    (m.set_buf b).elempack = m.elempack := rfl

@[simp]
theorem Mat.set_buf_row (m : Mat α) (b : Buf α) (y : Nat) :
    (m.set_buf b).row y = m.row y := rfl

@[simp]
theorem Mat.set_buf_total (m : Mat α) (b : Buf α) : (m.set_buf b).total = m.total := rfl

theorem Mat.at2_set_buf (m : Mat α) (b : Buf α) (y i : Nat) :
    (m.set_buf b).at2 y i = b (m.row y + i) := by
  simp [Mat.at2]

@[simp]
theorem Mat.of_buf_buf (w h : Nat) (b : Buf α) : (Mat.of_buf w h b).buf = b := rfl

@[simp]
theorem Mat.of_buf_w (w h : Nat) (b : Buf α) : (Mat.of_buf w h b).w = w := rfl

@[simp]
theorem Mat.of_buf_h (w h : Nat) (b : Buf α) : (Mat.of_buf w h b).h = h := rfl

@[simp]
theorem Mat.of_buf_elempack (w h : Nat) (b : Buf α) :
    (Mat.of_buf w h b).elempack = 1 := rfl

theorem Mat.of_buf_row (w h : Nat) (b : Buf α) (y : Nat) : (Mat.of_buf w h b).row y = y * w := by
  simp [Mat.of_buf, Mat.row]

theorem Mat.of_buf_total (w h : Nat) (b : Buf α) : (Mat.of_buf w h b).total = w * h := by
  simp [Mat.of_buf, Mat.total]

theorem Mat.fill_buf (m : Mat α) (v : α) (j : Nat) :
    (m.fill v).buf j = if j < m.total then v else m.buf j := by
  simp [Mat.fill]

@[simp]
theorem Mat.fill_w (m : Mat α) (v : α) : (m.fill v).w = m.w := rfl

@[simp]
theorem Mat.fill_h (m : Mat α) (v : α) : (m.fill v).h = m.h := rfl

@[simp]
theorem Mat.fill_elempack (m : Mat α) (v : α) : (m.fill v).elempack = m.elempack := rfl

@[simp]
theorem Mat.fill_total (m : Mat α) (v : α) : (m.fill v).total = m.total := rfl

theorem Mat.set_buf_set_buf (m : Mat α) (b1 b2 : Buf α) :
    (m.set_buf b1).set_buf b2 = m.set_buf b2 := by
  simp only [Mat.set_buf]
  congr 1
  funext k
  split <;> rfl

theorem gates_create_mul_one (cfg : Build) (n : Nat) (a : Allocator α) :
    gates_create cfg (n * 1) a = gates_create cfg n a := by
  rw [Nat.mul_one]

variable [Field α]

/-! ### Results of `gru` -/

theorem gru_status (cfg : Build) (lm : Libm α) (bottom top : Mat α) (reverse : Nat)
    (wxc bias whc hidden : Mat α) (opt : NcnnOption α)
    (hg : (gates_create cfg top.w opt.workspace_allocator).isSome) :
    (gru cfg lm bottom top reverse wxc bias whc hidden opt).1 = 0 := by
  obtain ⟨g, hg⟩ := Option.isSome_iff_exists.mp hg
  rw [gru_eq cfg lm bottom top reverse wxc bias whc hidden opt g hg]

theorem gru_top_dims (cfg : Build) (lm : Libm α) (bottom top : Mat α) (reverse : Nat)
    (wxc bias whc hidden : Mat α) (opt : NcnnOption α) :
    (gru cfg lm bottom top reverse wxc bias whc hidden opt).2.1.w = top.w ∧
    (gru cfg lm bottom top reverse wxc bias whc hidden opt).2.1.h = top.h ∧
    (gru cfg lm bottom top reverse wxc bias whc hidden opt).2.1.elempack = top.elempack ∧
    (∀ y, (gru cfg lm bottom top reverse wxc bias whc hidden opt).2.1.row y = top.row y) := by
  cases hg : gates_create cfg top.w opt.workspace_allocator with
  | none =>
    rw [gru_fail cfg lm bottom top reverse wxc bias whc hidden opt hg]
    exact ⟨rfl, rfl, rfl, fun _ => rfl⟩
  | some g =>
    rw [gru_eq cfg lm bottom top reverse wxc bias whc hidden opt g hg]
    exact ⟨rfl, rfl, rfl, fun _ => rfl⟩

theorem gru_hidden_dims (cfg : Build) (lm : Libm α) (bottom top : Mat α) (reverse : Nat)
    (wxc bias whc hidden : Mat α) (opt : NcnnOption α) :
    (gru cfg lm bottom top reverse wxc bias whc hidden opt).2.2.w = hidden.w ∧
    (gru cfg lm bottom top reverse wxc bias whc hidden opt).2.2.total = hidden.total ∧
    (∀ y, (gru cfg lm bottom top reverse wxc bias whc hidden opt).2.2.row y = hidden.row y) ∧
    (∀ j, top.w ≤ j →
      (gru cfg lm bottom top reverse wxc bias whc hidden opt).2.2.buf j = hidden.buf j) ∧
    (gru cfg lm bottom top reverse wxc bias whc hidden opt).2.2
      = hidden.set_buf (gru cfg lm bottom top reverse wxc bias whc hidden opt).2.2.buf := by
  cases hg : gates_create cfg top.w opt.workspace_allocator with
  | none =>
    rw [gru_fail cfg lm bottom top reverse wxc bias whc hidden opt hg]
    refine ⟨rfl, rfl, fun _ => rfl, fun _ _ => rfl, ?_⟩
    simp only [Mat.set_buf, Mat.buf]
    cases hidden
    simp only [Mat.mk.injEq, true_and]
    funext k
    split
    · next h => rw [h]
    · rfl
  | some g =>
    rw [gru_eq cfg lm bottom top reverse wxc bias whc hidden opt g hg]
    refine ⟨rfl, rfl, fun _ => rfl, fun j hj => ?_, ?_⟩
    · simp only [Mat.set_buf_buf]
      exact hidden_seq_ge _ _ _ _ _ _ _ _ _ _ _ hj
    · simp only [Mat.set_buf_buf]

/-- The output of `gru` at row `ti(t)` is the hidden vector after timestep `t`. -/
theorem gru_top_at (cfg : Build) (lm : Libm α) (bottom top : Mat α) (reverse : Nat)
    (wxc bias whc hidden : Mat α) (opt : NcnnOption α)
    (hg : (gates_create cfg top.w opt.workspace_allocator).isSome) (hpack : top.elempack = 1)
    (t q : Nat) (ht : t < bottom.h) (hq : q < top.w) :
    (gru cfg lm bottom top reverse wxc bias whc hidden opt).2.1.at2 (step_ti reverse bottom.h t) q
      = gru_hidden_seq cfg lm bottom top reverse wxc bias whc hidden.buf (t + 1) q := by
  obtain ⟨g, hg⟩ := Option.isSome_iff_exists.mp hg
  have hrow : ∀ y, top.row y = y * top.w := by
    intro y
    simp [Mat.row, hpack]
  rw [gru_eq cfg lm bottom top reverse wxc bias whc hidden opt g hg]
  simp only [Mat.at2_set_buf]
  exact top_seq_at cfg lm bottom top reverse wxc bias whc hidden.buf top.buf hrow bottom.h
    (Nat.le_refl _) t q ht hq

theorem gru_hidden_buf (cfg : Build) (lm : Libm α) (bottom top : Mat α) (reverse : Nat)
    (wxc bias whc hidden : Mat α) (opt : NcnnOption α)
    (hg : (gates_create cfg top.w opt.workspace_allocator).isSome) :
    (gru cfg lm bottom top reverse wxc bias whc hidden opt).2.2.buf
      = gru_hidden_seq cfg lm bottom top reverse wxc bias whc hidden.buf bottom.h := by
  obtain ⟨g, hg⟩ := Option.isSome_iff_exists.mp hg
  rw [gru_eq cfg lm bottom top reverse wxc bias whc hidden opt g hg]
  simp only [Mat.set_buf_buf]

/-- The status and the output of `gru` depend on the hidden state only through its first
`top_blob.w` entries. -/
theorem gru_top_congr (cfg : Build) (lm : Libm α) (bottom top : Mat α) (reverse : Nat)
    (wxc bias whc h1 h2 : Mat α) (opt : NcnnOption α)
    (hh : ∀ j, j < top.w → h1.buf j = h2.buf j) :
    (gru cfg lm bottom top reverse wxc bias whc h1 opt).1
      = (gru cfg lm bottom top reverse wxc bias whc h2 opt).1 ∧
    (gru cfg lm bottom top reverse wxc bias whc h1 opt).2.1
      = (gru cfg lm bottom top reverse wxc bias whc h2 opt).2.1 := by
  cases hg : gates_create cfg top.w opt.workspace_allocator with
  | none =>
    rw [gru_fail cfg lm bottom top reverse wxc bias whc h1 opt hg,
      gru_fail cfg lm bottom top reverse wxc bias whc h2 opt hg]
    exact ⟨rfl, rfl⟩
  | some g =>
    rw [gru_eq cfg lm bottom top reverse wxc bias whc h1 opt g hg,
      gru_eq cfg lm bottom top reverse wxc bias whc h2 opt g hg]
    refine ⟨rfl, ?_⟩
    simp only []
    rw [top_seq_congr cfg lm bottom bottom top top reverse reverse wxc bias whc h1.buf h2.buf
      top.buf rfl rfl bottom.h (fun _ _ _ _ => rfl) (fun _ _ => rfl) hh bottom.h (Nat.le_refl _)]

end

section

variable {α : Type}

/-! ### The loop "concat w" -/

theorem memcpy_apply (dst : Buf α) (dp : Nat) (src : Buf α) (sp n j : Nat) :
    memcpy dst dp src sp n j = if dp ≤ j ∧ j < dp + n then src (sp + (j - dp)) else dst j := rfl

theorem concat_loop (n : Nat) (top tf tr : Mat α) (htop : ∀ y, top.row y = y * (2 * n))
    (b0 : Buf α) (k : Nat) :
    (∀ t q, t < k → q < n →
      forRange k (concat_row n top tf tr) b0 (top.row t + q) = tf.at2 t q ∧
      forRange k (concat_row n top tf tr) b0 (top.row t + n + q) = tr.at2 t q) ∧
    (∀ j, k * (2 * n) ≤ j → forRange k (concat_row n top tf tr) b0 j = b0 j) := by
  induction k with
  | zero => exact ⟨fun t q ht => absurd ht (Nat.not_lt_zero t), fun j _ => rfl⟩
  | succ k ih =>
    obtain ⟨a1, a2⟩ := ih
    have e1 : (k + 1) * (2 * n) = k * (2 * n) + 2 * n := Nat.succ_mul _ _
    simp only [forRange, concat_row, memcpy_apply, htop]
    constructor
    · intro t q ht hq
      by_cases htk : t = k
      · subst htk
        constructor
        · rw [if_neg (by omega), if_pos (by omega)]
          simp only [Mat.at2]
          congr 2
          omega
        · rw [if_pos (by omega)]
          simp only [Mat.at2]
          congr 2
          omega
      · have e2 : (t + 1) * (2 * n) ≤ k * (2 * n) := Nat.mul_le_mul_right _ (by omega)
        have e3 : (t + 1) * (2 * n) = t * (2 * n) + 2 * n := Nat.succ_mul _ _
        have := a1 t q (by omega) hq
        rw [htop] at this
        rw [if_neg (by omega), if_neg (by omega), if_neg (by omega), if_neg (by omega)]
        exact this
    · intro j hj
      rw [if_neg (by omega), if_neg (by omega)]
      exact a2 j (by omega)

/-- After "concat w", row `t` of the output is row `t` of the forward pass followed by row `t`
of the reverse pass. -/
theorem concat_top_at (n T : Nat) (top tf tr : Mat α) (htop : ∀ y, top.row y = y * (2 * n))
    (t q : Nat) (ht : t < T) (hq : q < n) :
    (concat_top n T top tf tr).at2 t q = tf.at2 t q ∧
    (concat_top n T top tf tr).at2 t (n + q) = tr.at2 t q := by
  obtain ⟨a1, -⟩ := concat_loop n top tf tr htop top.buf T
  have := a1 t q ht hq
  simp only [concat_top, Mat.at2_set_buf, forFrom_zero, ← Nat.add_assoc]
  exact this

theorem num_directions_uni (d : Nat) (hd : d = 0 ∨ d = 1) : num_directions d = 1 := by
  rcases hd with h | h <;> simp [num_directions, h]

theorem num_directions_bi : num_directions 2 = 2 := rfl

variable [Field α]

/-! ### `forward` and the multi-input `forward` when the allocations succeed -/

theorem forward_uni_eq (cfg : Build) (lm : Libm α) (self : GRU_arm α) (bottom : Mat α)
    (opt : NcnnOption α) (hd : self.direction = 0 ∨ self.direction = 1) (bh bt : Buf α)
    (hH : opt.workspace_allocator (self.num_output * 1) = some bh)
    (hT : opt.blob_allocator (self.num_output * 1 * bottom.h) = some bt)
    (hG : (gates_create cfg self.num_output opt.workspace_allocator).isSome) :
    forward cfg lm self bottom opt =
      .ok (uni_pass cfg lm self bottom (Mat.of_buf (self.num_output * 1) bottom.h bt)
        ((Mat.of_buf self.num_output 1 bh).fill 0) opt).2.1 := by
  have hs := gru_status cfg lm bottom (Mat.of_buf (self.num_output * 1) bottom.h bt)
    self.direction (self.weight_xc_data_packed.channel 0) (self.bias_c_data_packed.channel 0)
    (self.weight_hc_data_packed.channel 0) ((Mat.of_buf self.num_output 1 bh).fill 0) opt
    (by simpa using hG)
  unfold forward
  simp only [Mat.create, num_directions_uni _ hd, hH, hT, Option.map_some', hd, if_true]
  rw [if_neg (by rw [hs]; decide)]
  rfl

theorem forward_bi_eq (cfg : Build) (lm : Libm α) (self : GRU_arm α) (bottom : Mat α)
    (opt : NcnnOption α) (hd : self.direction = 2) (bh bt bs : Buf α)
    (hH : opt.workspace_allocator (self.num_output * 1) = some bh)
    (hT : opt.blob_allocator (self.num_output * 2 * bottom.h) = some bt)
    (hS : opt.workspace_allocator (self.num_output * bottom.h) = some bs)
    (hG : (gates_create cfg self.num_output opt.workspace_allocator).isSome) :
    forward cfg lm self bottom opt =
      .ok (concat_top self.num_output bottom.h (Mat.of_buf (self.num_output * 2) bottom.h bt)
        (bi_forward_pass cfg lm self bottom (Mat.of_buf self.num_output bottom.h bs)
          ((Mat.of_buf self.num_output 1 bh).fill 0) opt).2.1
        (bi_reverse_pass cfg lm self bottom (Mat.of_buf self.num_output bottom.h bs)
          ((bi_forward_pass cfg lm self bottom (Mat.of_buf self.num_output bottom.h bs)
            ((Mat.of_buf self.num_output 1 bh).fill 0) opt).2.2.fill 0) opt).2.1) := by
  have hs0 := gru_status cfg lm bottom (Mat.of_buf self.num_output bottom.h bs)
    0 (self.weight_xc_data_packed.channel 0) (self.bias_c_data_packed.channel 0)
    (self.weight_hc_data_packed.channel 0) ((Mat.of_buf self.num_output 1 bh).fill 0) opt hG
  have hs1 := fun hid => gru_status cfg lm bottom (Mat.of_buf self.num_output bottom.h bs)
    1 (self.weight_xc_data_packed.channel 1) (self.bias_c_data_packed.channel 1)
    (self.weight_hc_data_packed.channel 1) hid opt hG
  unfold forward
  simp only [Mat.create, hd, num_directions_bi, hH, hT, hS, Option.map_some']
  simp only [hs0, hs1, ne_eq, not_true_eq_false, if_false, if_true, OfNat.ofNat_ne_zero,
    OfNat.ofNat_ne_one, or_self]
  rfl

theorem forward_vec_uni_eq (cfg : Build) (lm : Libm α) (self : GRU_arm α)
    (bottom_blobs top_blobs : List (Mat α)) (opt : NcnnOption α)
    (hd : self.direction = 0 ∨ self.direction = 1) (hidden : Mat α) (bt : Buf α)
    (hH : forward_vec_hidden self bottom_blobs top_blobs opt = some hidden)
    (hT : opt.blob_allocator (self.num_output * 1 * (bottom_blobs.getD 0 Mat.null).h) = some bt)
    (hG : (gates_create cfg self.num_output opt.workspace_allocator).isSome) :
    forward_vec cfg lm self bottom_blobs top_blobs opt =
      .ok (forward_vec_finish top_blobs
        (uni_pass cfg lm self (bottom_blobs.getD 0 Mat.null)
          (Mat.of_buf (self.num_output * 1) (bottom_blobs.getD 0 Mat.null).h bt) hidden opt).2.1
        (uni_pass cfg lm self (bottom_blobs.getD 0 Mat.null)
          (Mat.of_buf (self.num_output * 1) (bottom_blobs.getD 0 Mat.null).h bt) hidden
          opt).2.2) := by
  have hs := gru_status cfg lm (bottom_blobs.getD 0 Mat.null)
    (Mat.of_buf (self.num_output * 1) (bottom_blobs.getD 0 Mat.null).h bt)
    self.direction (self.weight_xc_data_packed.channel 0) (self.bias_c_data_packed.channel 0)
    (self.weight_hc_data_packed.channel 0) hidden opt (by simpa using hG)
  unfold forward_vec
  simp only [hH, Mat.create, num_directions_uni _ hd, hT, Option.map_some', hd, if_true]
  rw [if_neg (by rw [hs]; decide)]
  rfl

theorem forward_vec_bi_eq (cfg : Build) (lm : Libm α) (self : GRU_arm α)
    (bottom_blobs top_blobs : List (Mat α)) (opt : NcnnOption α)
    (hd : self.direction = 2) (hidden : Mat α) (bt bs : Buf α)
    (hH : forward_vec_hidden self bottom_blobs top_blobs opt = some hidden)
    (hT : opt.blob_allocator (self.num_output * 2 * (bottom_blobs.getD 0 Mat.null).h) = some bt)
    (hS : opt.workspace_allocator (self.num_output * (bottom_blobs.getD 0 Mat.null).h) = some bs)
    (hG : (gates_create cfg self.num_output opt.workspace_allocator).isSome) :
    forward_vec cfg lm self bottom_blobs top_blobs opt =
      .ok (forward_vec_finish top_blobs
        (concat_top self.num_output (bottom_blobs.getD 0 Mat.null).h
          (Mat.of_buf (self.num_output * 2) (bottom_blobs.getD 0 Mat.null).h bt)
          (bi_forward_pass cfg lm self (bottom_blobs.getD 0 Mat.null)
            (Mat.of_buf self.num_output (bottom_blobs.getD 0 Mat.null).h bs)
            (hidden.row_range 0 1) opt).2.1
          (bi_reverse_pass cfg lm self (bottom_blobs.getD 0 Mat.null)
            (Mat.of_buf self.num_output (bottom_blobs.getD 0 Mat.null).h bs)
            ((hidden.set_row_range 0
              (bi_forward_pass cfg lm self (bottom_blobs.getD 0 Mat.null)
                (Mat.of_buf self.num_output (bottom_blobs.getD 0 Mat.null).h bs)
                (hidden.row_range 0 1) opt).2.2.buf).row_range 1 1) opt).2.1)
        ((hidden.set_row_range 0
            (bi_forward_pass cfg lm self (bottom_blobs.getD 0 Mat.null)
              (Mat.of_buf self.num_output (bottom_blobs.getD 0 Mat.null).h bs)
              (hidden.row_range 0 1) opt).2.2.buf).set_row_range 1
          (bi_reverse_pass cfg lm self (bottom_blobs.getD 0 Mat.null)
            (Mat.of_buf self.num_output (bottom_blobs.getD 0 Mat.null).h bs)
            ((hidden.set_row_range 0
              (bi_forward_pass cfg lm self (bottom_blobs.getD 0 Mat.null)
                (Mat.of_buf self.num_output (bottom_blobs.getD 0 Mat.null).h bs)
                (hidden.row_range 0 1) opt).2.2.buf).row_range 1 1) opt).2.2.buf)) := by
  have hs0 := fun hid => gru_status cfg lm (bottom_blobs.getD 0 Mat.null)
    (Mat.of_buf self.num_output (bottom_blobs.getD 0 Mat.null).h bs)
    0 (self.weight_xc_data_packed.channel 0) (self.bias_c_data_packed.channel 0)
    (self.weight_hc_data_packed.channel 0) hid opt hG
  have hs1 := fun hid => gru_status cfg lm (bottom_blobs.getD 0 Mat.null)
    (Mat.of_buf self.num_output (bottom_blobs.getD 0 Mat.null).h bs)
    1 (self.weight_xc_data_packed.channel 1) (self.bias_c_data_packed.channel 1)
    (self.weight_hc_data_packed.channel 1) hid opt hG
  unfold forward_vec
  simp only [hH, Mat.create, hd, num_directions_bi, hT, hS, Option.map_some']
  simp only [hs0, hs1, ne_eq, not_true_eq_false, if_false, if_true, OfNat.ofNat_ne_zero,
    OfNat.ofNat_ne_one, or_self]
  rfl

end

section

variable {α : Type}

/-! ### Row views -/

theorem Mat.row_range_buf (m : Mat α) (y r j : Nat) :
    (m.row_range y r).buf j = m.buf (m.row y + j) := rfl

@[simp]
theorem Mat.row_range_w (m : Mat α) (y r : Nat) : (m.row_range y r).w = m.w := rfl

theorem Mat.set_row_range_buf (m : Mat α) (y : Nat) (b : Buf α) (j : Nat) :
    (m.set_row_range y b).buf j = if m.row y ≤ j then b (j - m.row y) else m.buf j := by
  simp [Mat.set_row_range]

@[simp]
theorem Mat.set_row_range_row (m : Mat α) (y : Nat) (b : Buf α) (y2 : Nat) :
    (m.set_row_range y b).row y2 = m.row y2 := rfl

@[simp]
theorem Mat.set_row_range_w (m : Mat α) (y : Nat) (b : Buf α) :
    (m.set_row_range y b).w = m.w := rfl

theorem Mat.row_zero (m : Mat α) : m.row 0 = 0 := by
  simp [Mat.row]

theorem Mat.row_one (m : Mat α) (h : m.elempack = 1) : m.row 1 = m.w := by
  simp [Mat.row, h]

/-- The view of row 1 is not affected by a pass that writes its hidden state through the view
of row 0 and leaves everything from offset `row(1)` on untouched. -/
theorem row_range_one_after (m : Mat α) (b : Buf α)
    (hb : ∀ j, m.row 1 ≤ j → b j = (m.row_range 0 1).buf j) :
    (m.set_row_range 0 b).row_range 1 1 = m.row_range 1 1 := by
  simp only [Mat.row_range, Mat.set_row_range_row]
  congr 1
  funext k j
  by_cases hk : k = 0
  · subst hk
    have e1 : (m.set_row_range 0 b).data 0 = (m.set_row_range 0 b).buf := rfl
    have e2 : m.data 0 = m.buf := rfl
    rw [e1, e2, Mat.set_row_range_buf, Mat.row_zero, if_pos (Nat.zero_le _), Nat.sub_zero,
      hb _ (by omega), Mat.row_range_buf, Mat.row_zero, Nat.zero_add]
  · simp [Mat.set_row_range, Mat.set_buf, hk]

theorem finish_head (top_blobs : List (Mat α)) (top hidden : Mat α) (h : top_blobs ≠ []) :
    (forward_vec_finish top_blobs top hidden).head? = some top := by
  cases top_blobs with
  | nil => exact absurd rfl h
  | cons a l =>
    simp only [forward_vec_finish]
    split <;> simp

theorem finish_two (t0 t1 top hidden : Mat α) :
    forward_vec_finish [t0, t1] top hidden = [top, hidden] := by
  simp [forward_vec_finish]

variable [Field α]

/-! ### The initial hidden state of the multi-input `forward` -/

theorem forward_vec_hidden_create (self : GRU_arm α) (bottom : Mat α) (top_blobs : List (Mat α))
    (opt : NcnnOption α) (b : Buf α)
    (hb : (if top_blobs.length = 2 then opt.blob_allocator else opt.workspace_allocator)
      (self.num_output * num_directions self.direction) = some b) :
    forward_vec_hidden self [bottom] top_blobs opt
      = some ((Mat.of_buf self.num_output (num_directions self.direction) b).fill 0) := by
  simp only [forward_vec_hidden, List.length_singleton, OfNat.one_ne_ofNat, if_false, Mat.create,
    hb, Option.map_some']

theorem forward_vec_hidden_clone (self : GRU_arm α) (bottom H : Mat α) (top_blobs : List (Mat α))
    (opt : NcnnOption α)
    (hb : ((if top_blobs.length = 2 then opt.blob_allocator else opt.workspace_allocator)
      H.total).isSome) :
    forward_vec_hidden self [bottom, H] top_blobs opt = some H := by
  obtain ⟨b, hb⟩ := Option.isSome_iff_exists.mp hb
  simp [forward_vec_hidden, Mat.clone, hb]

end

section

variable {α : Type} [Field α]
open Finset

/-! ### A sequence run in two calls (original order) -/

theorem hidden_seq_split (cfg : Build) (lm : Libm α) (X X1 X2 top top1 top2 : Mat α)
    (wxc bias whc : Mat α) (h0 : Buf α) (hw1 : X1.w = X.w) (hw2 : X2.w = X.w)
    (ht1 : top1.w = top.w) (ht2 : top2.w = top.w)
    (hx1 : ∀ t i, t < X1.h → i < X.w → X1.at2 t i = X.at2 t i)
    (hx2 : ∀ t i, t < X2.h → i < X.w → X2.at2 t i = X.at2 (X1.h + t) i) :
    ∀ k, k ≤ X2.h → ∀ j, j < top.w →
      gru_hidden_seq cfg lm X top 0 wxc bias whc h0 (X1.h + k) j
        = gru_hidden_seq cfg lm X2 top2 0 wxc bias whc
            (gru_hidden_seq cfg lm X1 top1 0 wxc bias whc h0 X1.h) k j := by
  intro k
  induction k with
  | zero =>
    intro _ j hj
    exact hidden_seq_congr cfg lm X X1 top top1 0 0 wxc bias whc h0 h0 hw1.symm ht1.symm X1.h
      (fun t i ht hi => by
        rw [step_ti_forward, step_ti_forward]
        exact (hx1 t i ht hi).symm)
      (fun _ _ => rfl) X1.h (Nat.le_refl _) j hj
  | succ k ih =>
    intro hk j hj
    rw [← Nat.add_assoc, hidden_seq_succ_lt _ _ _ _ _ _ _ _ _ _ _ hj,
      hidden_seq_succ_lt _ _ _ _ _ _ _ _ _ _ _ (by omega), step_ti_forward, step_ti_forward,
      hw2, ht2]
    exact gru_cell_congr cfg lm X.w top.w X.buf X2.buf _ _ wxc bias whc _ _
      (fun i hi => (hx2 k i (by omega) hi).symm) (ih (by omega)) j hj

theorem hidden_seq_split_fun (cfg : Build) (lm : Libm α) (X X1 X2 top top1 top2 : Mat α)
    (wxc bias whc : Mat α) (h0 : Buf α) (hw1 : X1.w = X.w) (hw2 : X2.w = X.w)
    (ht1 : top1.w = top.w) (ht2 : top2.w = top.w) (hh : X.h = X1.h + X2.h)
    (hx1 : ∀ t i, t < X1.h → i < X.w → X1.at2 t i = X.at2 t i)
    (hx2 : ∀ t i, t < X2.h → i < X.w → X2.at2 t i = X.at2 (X1.h + t) i) :
    gru_hidden_seq cfg lm X top 0 wxc bias whc h0 X.h
      = gru_hidden_seq cfg lm X2 top2 0 wxc bias whc
          (gru_hidden_seq cfg lm X1 top1 0 wxc bias whc h0 X1.h) X2.h := by
  funext j
  by_cases hj : j < top.w
  · rw [hh]
    exact hidden_seq_split cfg lm X X1 X2 top top1 top2 wxc bias whc h0 hw1 hw2 ht1 ht2 hx1 hx2
      X2.h (Nat.le_refl _) j hj
  · rw [hidden_seq_ge _ _ _ _ _ _ _ _ _ _ _ (by omega),
      hidden_seq_ge _ _ _ _ _ _ _ _ _ _ _ (by omega),
      hidden_seq_ge _ _ _ _ _ _ _ _ _ _ _ (by omega)]

/-! ### Zero weights -/

/-- With all raw weights and biases of direction `dr` zero, every cell value is
`(1 - σ(0)) * tanh(0) + σ(0) * h[q]`. -/
theorem zero_weights_cell (cfg : Build) (lm : Libm α) (self : GRU_arm α)
    (fx fb fh : Nat → Buf α) (opt : NcnnOption α) (bottom : Buf α) (x : Nat) (hidden : Buf α)
    (dr q : Nat) (hdr : dr < num_directions self.direction) (hq : q < self.num_output)
    (zx : ∀ j, (self.weight_xc_data.channel dr).buf j = 0)
    (zh : ∀ j, (self.weight_hc_data.channel dr).buf j = 0)
    (zb : ∀ j, (self.bias_c_data.channel dr).buf j = 0) :
    gru_cell cfg lm (input_size self) self.num_output bottom x
        ((create_pipeline cfg self fx fb fh opt).2.weight_xc_data_packed.channel dr)
        ((create_pipeline cfg self fx fb fh opt).2.bias_c_data_packed.channel dr)
        ((create_pipeline cfg self fx fb fh opt).2.weight_hc_data_packed.channel dr) hidden q
      = (1 - sigmoid lm 0) * lm.tanhf 0 + sigmoid lm 0 * hidden q := by
  obtain ⟨hR, hU, hN⟩ := unit_gates_raw cfg lm self fx fb fh opt bottom x hidden dr q hdr hq
  rw [gru_cell, blend, hN, hR, hU]
  simp only [Mat.at2, zx, zh, zb, zero_mul, sum_const_zero, add_zero, mul_zero]

end

section

variable {α : Type} [Field α]
open Finset

/-! ## Claims -/

/-- C1: on weights packed by `create_pipeline` (fp32), the reset and update gates that `gru`
computes for any hidden unit `q` (in a 4-lane group or a remaining unit) of direction `dr`, from
the input row `ti` and the hidden vector `hidden`, are
`R = sigmoid(bias_row0[q] + Σ_i Wxc[q][i] * x[i] + Σ_j Whc[q][j] * h[j])` and
`U = sigmoid(bias_row1[q] + Σ_i Wxc[num_output+q][i] * x[i] + Σ_j Whc[num_output+q][j] * h[j])`
on the raw tensors. -/
theorem C1_reset_update_gates (cfg : Build) (lm : Libm α) (self : GRU_arm α)
    (fresh_xc fresh_bias fresh_hc : Nat → Buf α) (opt : NcnnOption α)
    (bottom_blob top_blob : Mat α) (ti : Nat) (hidden : Buf α) (dr q : Nat)
    (hsize : bottom_blob.w = input_size self) (hout : top_blob.w = self.num_output)
    (hdr : dr < num_directions self.direction) (hq : q < self.num_output) :
    (gru_unit_gates cfg lm bottom_blob.w top_blob.w bottom_blob.buf (bottom_blob.row ti)
        ((create_pipeline cfg self fresh_xc fresh_bias fresh_hc opt).2.weight_xc_data_packed.channel
          dr)
        ((create_pipeline cfg self fresh_xc fresh_bias fresh_hc opt).2.bias_c_data_packed.channel
          dr)
        ((create_pipeline cfg self fresh_xc fresh_bias fresh_hc opt).2.weight_hc_data_packed.channel
          dr)
        hidden q).R
      = spec_reset lm self.num_output (input_size self) (self.weight_xc_data.channel dr)
          (self.weight_hc_data.channel dr) (self.bias_c_data.channel dr)
          (fun i => bottom_blob.at2 ti i) hidden q ∧
    (gru_unit_gates cfg lm bottom_blob.w top_blob.w bottom_blob.buf (bottom_blob.row ti)
        ((create_pipeline cfg self fresh_xc fresh_bias fresh_hc opt).2.weight_xc_data_packed.channel
          dr)
        ((create_pipeline cfg self fresh_xc fresh_bias fresh_hc opt).2.bias_c_data_packed.channel
          dr)
        ((create_pipeline cfg self fresh_xc fresh_bias fresh_hc opt).2.weight_hc_data_packed.channel
          dr)
        hidden q).U
      = spec_update lm self.num_output (input_size self) (self.weight_xc_data.channel dr)
          (self.weight_hc_data.channel dr) (self.bias_c_data.channel dr)
          (fun i => bottom_blob.at2 ti i) hidden q := by
  obtain ⟨hR, hU, -⟩ := unit_gates_raw cfg lm self fresh_xc fresh_bias fresh_hc opt
    bottom_blob.buf (bottom_blob.row ti) hidden dr q hdr hq
  rw [hsize, hout]
  exact ⟨hR, hU⟩

/-- Instance of C1: the remaining unit 4 of the 5-unit layer, second input row. -/
theorem C1_reset_update_gates_witness :
    ex_bottom.w = input_size (ex_layer 0) ∧ ex_top.w = (ex_layer 0).num_output ∧
    0 < num_directions (ex_layer 0).direction ∧ 4 < (ex_layer 0).num_output ∧
    (gru_unit_gates ex_cfg ex_lm ex_bottom.w ex_top.w ex_bottom.buf (ex_bottom.row 1)
        ((ex_packed 0).weight_xc_data_packed.channel 0)
        ((ex_packed 0).bias_c_data_packed.channel 0)
        ((ex_packed 0).weight_hc_data_packed.channel 0) ex_hidden.buf 4).R
      = spec_reset ex_lm 5 (input_size (ex_layer 0)) ((ex_layer 0).weight_xc_data.channel 0)
          ((ex_layer 0).weight_hc_data.channel 0) ((ex_layer 0).bias_c_data.channel 0)
          (fun i => ex_bottom.at2 1 i) ex_hidden.buf 4 :=
  ⟨by decide, by decide, by decide, by decide,
    (C1_reset_update_gates ex_cfg ex_lm (ex_layer 0) ex_fresh ex_fresh ex_fresh ex_opt ex_bottom
      ex_top 1 ex_hidden.buf 0 4 (by decide) (by decide) (by decide) (by decide)).1⟩

/-- C2: on weights packed by `create_pipeline`, the candidate state that `gru` computes for any
hidden unit `q` is
`N = tanh(b_WN[q] + Σ_i Wxc[2*num_output+q][i] * x[i] + R * (Σ_j Whc[2*num_output+q][j] * h[j] + b_BN[q]))`
with `b_WN` raw bias row 2, `b_BN` raw bias row 3 and `R` the reset gate of `q`: the code adds
`b_BN` to the hidden-side sum, multiplies by `R`, and adds `b_WN` and the input-side sum. -/
theorem C2_candidate_state (cfg : Build) (lm : Libm α) (self : GRU_arm α)
    (fresh_xc fresh_bias fresh_hc : Nat → Buf α) (opt : NcnnOption α)
    (bottom_blob top_blob : Mat α) (ti : Nat) (hidden : Buf α) (dr q : Nat)
    (hsize : bottom_blob.w = input_size self) (hout : top_blob.w = self.num_output)
    (hdr : dr < num_directions self.direction) (hq : q < self.num_output) :
    (gru_unit_gates cfg lm bottom_blob.w top_blob.w bottom_blob.buf (bottom_blob.row ti)
        ((create_pipeline cfg self fresh_xc fresh_bias fresh_hc opt).2.weight_xc_data_packed.channel
          dr)
        ((create_pipeline cfg self fresh_xc fresh_bias fresh_hc opt).2.bias_c_data_packed.channel
          dr)
        ((create_pipeline cfg self fresh_xc fresh_bias fresh_hc opt).2.weight_hc_data_packed.channel
          dr)
        hidden q).N
      = spec_candidate lm self.num_output (input_size self) (self.weight_xc_data.channel dr)
          (self.weight_hc_data.channel dr) (self.bias_c_data.channel dr)
          (fun i => bottom_blob.at2 ti i) hidden q := by
  obtain ⟨hR, -, hN⟩ := unit_gates_raw cfg lm self fresh_xc fresh_bias fresh_hc opt
    bottom_blob.buf (bottom_blob.row ti) hidden dr q hdr hq
  rw [hsize, hout, hN, hR]
  simp only [spec_candidate, spec_reset, Mat.at2]
  congr 1
  ring

/-- Instance of C2: unit 2 (inside the 4-lane group) of the 5-unit layer, first input row. -/
theorem C2_candidate_state_witness :
    ex_bottom.w = input_size (ex_layer 0) ∧ ex_top.w = (ex_layer 0).num_output ∧
    0 < num_directions (ex_layer 0).direction ∧ 2 < (ex_layer 0).num_output ∧
    (gru_unit_gates ex_cfg ex_lm ex_bottom.w ex_top.w ex_bottom.buf (ex_bottom.row 0)
        ((ex_packed 0).weight_xc_data_packed.channel 0)
        ((ex_packed 0).bias_c_data_packed.channel 0)
        ((ex_packed 0).weight_hc_data_packed.channel 0) ex_hidden.buf 2).N
      = spec_candidate ex_lm 5 (input_size (ex_layer 0)) ((ex_layer 0).weight_xc_data.channel 0)
          ((ex_layer 0).weight_hc_data.channel 0) ((ex_layer 0).bias_c_data.channel 0)
          (fun i => ex_bottom.at2 0 i) ex_hidden.buf 2 :=
  ⟨by decide, by decide, by decide, by decide,
    C2_candidate_state ex_cfg ex_lm (ex_layer 0) ex_fresh ex_fresh ex_fresh ex_opt ex_bottom
      ex_top 0 ex_hidden.buf 0 2 (by decide) (by decide) (by decide) (by decide)⟩

/-- C3: in every timestep and for every hidden unit `q`, `gru` sets the new hidden value to
`(1 - U[q]) * N[q] + U[q] * h_prev[q]`, with `U`, `N` the gates computed from the hidden vector
the timestep started with, and stores that same value at column `q` of output row `ti`: the
output of a timestep is the new hidden vector itself. -/
theorem C3_hidden_update (cfg : Build) (lm : Libm α) (bottom_blob top_blob : Mat α)
    (reverse : Nat) (weight_xc bias_c weight_hc : Mat α) (t : Nat) (s : StepState α) (q : Nat)
    (hq : q < top_blob.w) :
    (gru_step cfg lm bottom_blob top_blob reverse weight_xc bias_c weight_hc t s).hidden q
      = (1 - (gru_unit_gates cfg lm bottom_blob.w top_blob.w bottom_blob.buf
              (bottom_blob.row (step_ti reverse bottom_blob.h t)) weight_xc bias_c weight_hc
              s.hidden q).U)
          * (gru_unit_gates cfg lm bottom_blob.w top_blob.w bottom_blob.buf
              (bottom_blob.row (step_ti reverse bottom_blob.h t)) weight_xc bias_c weight_hc
              s.hidden q).N
        + (gru_unit_gates cfg lm bottom_blob.w top_blob.w bottom_blob.buf
              (bottom_blob.row (step_ti reverse bottom_blob.h t)) weight_xc bias_c weight_hc
              s.hidden q).U * s.hidden q ∧
    (gru_step cfg lm bottom_blob top_blob reverse weight_xc bias_c weight_hc t s).top
        (top_blob.row (step_ti reverse bottom_blob.h t) + q)
      = (gru_step cfg lm bottom_blob top_blob reverse weight_xc bias_c weight_hc t s).hidden q := by
  obtain ⟨e1, e2⟩ := gru_step_eq cfg lm bottom_blob top_blob reverse weight_xc bias_c weight_hc t s
  rw [e1, e2]
  simp only []
  rw [if_pos hq, if_pos (by omega), Nat.add_sub_cancel_left]
  exact ⟨rfl, rfl⟩

/-- Instance of C3: second timestep of a reverse pass, remaining unit 4. -/
theorem C3_hidden_update_witness :
    4 < ex_top.w ∧
    (gru_step ex_cfg ex_lm ex_bottom ex_top 1 ((ex_packed 0).weight_xc_data_packed.channel 0)
        ((ex_packed 0).bias_c_data_packed.channel 0)
        ((ex_packed 0).weight_hc_data_packed.channel 0) 1
        { gates := fun _ => 0, top := ex_top.buf, hidden := ex_hidden.buf }).top
        (ex_top.row (step_ti 1 ex_bottom.h 1) + 4)
      = (gru_step ex_cfg ex_lm ex_bottom ex_top 1 ((ex_packed 0).weight_xc_data_packed.channel 0)
        ((ex_packed 0).bias_c_data_packed.channel 0)
        ((ex_packed 0).weight_hc_data_packed.channel 0) 1
        { gates := fun _ => 0, top := ex_top.buf, hidden := ex_hidden.buf }).hidden 4 :=
  ⟨by decide,
    (C3_hidden_update ex_cfg ex_lm ex_bottom ex_top 1
      ((ex_packed 0).weight_xc_data_packed.channel 0)
      ((ex_packed 0).bias_c_data_packed.channel 0)
      ((ex_packed 0).weight_hc_data_packed.channel 0) 1
      { gates := fun _ => 0, top := ex_top.buf, hidden := ex_hidden.buf } 4 (by decide)).2⟩

/-- C4: with `reverse = 0` and the gate workspace allocated, `gru` returns 0, leaves
`h_(t+1)` in output row `t` for every `t < T`, and leaves `h_T` in `hidden_state`, where
`h_0` is the incoming hidden vector and `h_(k+1) = step(x_k, h_k)` is the one-timestep update
applied to input row `k`: timesteps run in order, each on the hidden vector left by the
previous one. -/
theorem C4_forward_sequence (cfg : Build) (lm : Libm α) (bottom_blob top_blob : Mat α)
    (weight_xc bias_c weight_hc hidden_state : Mat α) (opt : NcnnOption α)
    (halloc : (gates_create cfg top_blob.w opt.workspace_allocator).isSome)
    (hpack : top_blob.elempack = 1) :
    gru_hidden_seq cfg lm bottom_blob top_blob 0 weight_xc bias_c weight_hc hidden_state.buf 0
      = hidden_state.buf ∧
    (∀ k, gru_hidden_seq cfg lm bottom_blob top_blob 0 weight_xc bias_c weight_hc
          hidden_state.buf (k + 1)
        = gru_next cfg lm bottom_blob top_blob weight_xc bias_c weight_hc k
            (gru_hidden_seq cfg lm bottom_blob top_blob 0 weight_xc bias_c weight_hc
              hidden_state.buf k)) ∧
    (gru cfg lm bottom_blob top_blob 0 weight_xc bias_c weight_hc hidden_state opt).1 = 0 ∧
    (∀ t q, t < bottom_blob.h → q < top_blob.w →
      (gru cfg lm bottom_blob top_blob 0 weight_xc bias_c weight_hc hidden_state opt).2.1.at2 t q
        = gru_hidden_seq cfg lm bottom_blob top_blob 0 weight_xc bias_c weight_hc
            hidden_state.buf (t + 1) q) ∧
    (gru cfg lm bottom_blob top_blob 0 weight_xc bias_c weight_hc hidden_state opt).2.2.buf
      = gru_hidden_seq cfg lm bottom_blob top_blob 0 weight_xc bias_c weight_hc
          hidden_state.buf bottom_blob.h := by
  obtain ⟨g, hg⟩ := Option.isSome_iff_exists.mp halloc
  have hrow : ∀ y, top_blob.row y = y * top_blob.w := by
    intro y
    simp [Mat.row, hpack]
  rw [gru_eq cfg lm bottom_blob top_blob 0 weight_xc bias_c weight_hc hidden_state opt g hg]
  refine ⟨rfl, fun k => rfl, rfl, ?_, ?_⟩
  · intro t q ht hq
    have := top_seq_at cfg lm bottom_blob top_blob 0 weight_xc bias_c weight_hc hidden_state.buf
      top_blob.buf hrow bottom_blob.h (Nat.le_refl _) t q ht hq
    rw [step_ti_forward] at this
    simpa [Mat.at2, Mat.set_buf, Mat.buf, Mat.row] using this
  · simp [Mat.set_buf, Mat.buf]

/-- Instance of C4 on the 3-row example sequence. -/
theorem C4_forward_sequence_witness :
    (gates_create ex_cfg ex_top.w ex_opt.workspace_allocator).isSome ∧ ex_top.elempack = 1 ∧
    (gru ex_cfg ex_lm ex_bottom ex_top 0 ((ex_packed 0).weight_xc_data_packed.channel 0)
        ((ex_packed 0).bias_c_data_packed.channel 0)
        ((ex_packed 0).weight_hc_data_packed.channel 0) ex_hidden ex_opt).2.2.buf
      = gru_hidden_seq ex_cfg ex_lm ex_bottom ex_top 0
          ((ex_packed 0).weight_xc_data_packed.channel 0)
          ((ex_packed 0).bias_c_data_packed.channel 0)
          ((ex_packed 0).weight_hc_data_packed.channel 0) ex_hidden.buf ex_bottom.h :=
  ⟨by decide, by decide,
    (C4_forward_sequence ex_cfg ex_lm ex_bottom ex_top
      ((ex_packed 0).weight_xc_data_packed.channel 0)
      ((ex_packed 0).bias_c_data_packed.channel 0)
      ((ex_packed 0).weight_hc_data_packed.channel 0) ex_hidden ex_opt (by decide)
      (by decide)).2.2.2.2⟩

end

section

variable {α : Type} [Field α]
open Finset

/-- C6: with the gate workspace allocated, `gru` with `reverse = 1` on a sequence `X` gives the
status, the final hidden state, and (row `t` against row `T - 1 - t`) the output rows of `gru`
with `reverse = 0` on any tensor `XR` whose rows are those of `X` in reverse order. -/
theorem C6_reverse_pass (cfg : Build) (lm : Libm α) (X XR top_blob : Mat α)
    (weight_xc bias_c weight_hc hidden_state : Mat α) (opt : NcnnOption α)
    (halloc : (gates_create cfg top_blob.w opt.workspace_allocator).isSome)
    (hpack : top_blob.elempack = 1) (hw : XR.w = X.w) (hh : XR.h = X.h)
    (hrev : ∀ t i, t < X.h → i < X.w → XR.at2 t i = X.at2 (X.h - 1 - t) i) :
    (gru cfg lm X top_blob 1 weight_xc bias_c weight_hc hidden_state opt).1
      = (gru cfg lm XR top_blob 0 weight_xc bias_c weight_hc hidden_state opt).1 ∧
    (∀ t q, t < X.h → q < top_blob.w →
      (gru cfg lm X top_blob 1 weight_xc bias_c weight_hc hidden_state opt).2.1.at2 t q
        = (gru cfg lm XR top_blob 0 weight_xc bias_c weight_hc hidden_state opt).2.1.at2
            (X.h - 1 - t) q) ∧
    (gru cfg lm X top_blob 1 weight_xc bias_c weight_hc hidden_state opt).2.2
      = (gru cfg lm XR top_blob 0 weight_xc bias_c weight_hc hidden_state opt).2.2 := by
  obtain ⟨g, hg⟩ := Option.isSome_iff_exists.mp halloc
  have hrow : ∀ y, top_blob.row y = y * top_blob.w := by
    intro y
    simp [Mat.row, hpack]
  have hx : ∀ t i, t < X.h → i < X.w →
      X.buf (X.row (step_ti 1 X.h t) + i) = XR.buf (XR.row (step_ti 0 XR.h t) + i) := by
    intro t i ht hi
    rw [step_ti_reverse 1 X.h t (by decide), step_ti_forward]
    exact (hrev t i ht hi).symm
  have hseq := hidden_seq_congr cfg lm X XR top_blob top_blob 1 0 weight_xc bias_c weight_hc
    hidden_state.buf hidden_state.buf hw.symm rfl X.h hx (fun _ _ => rfl)
  rw [gru_eq cfg lm X top_blob 1 weight_xc bias_c weight_hc hidden_state opt g hg,
    gru_eq cfg lm XR top_blob 0 weight_xc bias_c weight_hc hidden_state opt g hg]
  refine ⟨rfl, ?_, ?_⟩
  · intro t q ht hq
    have h1 := top_seq_at cfg lm X top_blob 1 weight_xc bias_c weight_hc hidden_state.buf
      top_blob.buf hrow X.h (Nat.le_refl _) (X.h - 1 - t) q (by omega) hq
    have h0 := top_seq_at cfg lm XR top_blob 0 weight_xc bias_c weight_hc hidden_state.buf
      top_blob.buf hrow XR.h (Nat.le_refl _) (X.h - 1 - t) q (by omega) hq
    rw [step_ti_reverse 1 X.h _ (by decide), show X.h - 1 - (X.h - 1 - t) = t by omega] at h1
    rw [step_ti_forward] at h0
    simp only [Mat.at2, Mat.set_buf, Mat.buf, Mat.row, if_true] at h1 h0 ⊢
    rw [h1, h0]
    exact hseq _ (by omega) q hq
  · simp only []
    rw [hidden_seq_congr_fun cfg lm X XR top_blob top_blob 1 0 weight_xc bias_c weight_hc
      hidden_state.buf hw.symm rfl X.h hx, hh]

/-- Instance of C6 on the example layer: the example sequence and its row-reversed copy give
the same final hidden state. -/
theorem C6_reverse_pass_witness :
    (gates_create ex_cfg ex_top.w ex_opt.workspace_allocator).isSome ∧ ex_top.elempack = 1 ∧
    (gru ex_cfg ex_lm ex_bottom ex_top 1 ((ex_packed 0).weight_xc_data_packed.channel 0)
        ((ex_packed 0).bias_c_data_packed.channel 0)
        ((ex_packed 0).weight_hc_data_packed.channel 0) ex_hidden ex_opt).2.2
      = (gru ex_cfg ex_lm ex_bottom_rev ex_top 0 ((ex_packed 0).weight_xc_data_packed.channel 0)
        ((ex_packed 0).bias_c_data_packed.channel 0)
        ((ex_packed 0).weight_hc_data_packed.channel 0) ex_hidden ex_opt).2.2 :=
  ⟨by decide, by decide,
    (C6_reverse_pass ex_cfg ex_lm ex_bottom ex_bottom_rev ex_top
      ((ex_packed 0).weight_xc_data_packed.channel 0)
      ((ex_packed 0).bias_c_data_packed.channel 0)
      ((ex_packed 0).weight_hc_data_packed.channel 0) ex_hidden ex_opt (by decide) (by decide)
      rfl rfl ex_bottom_rev_rows).2.2⟩

end

section

variable {α : Type}

/-- C10 as stated fails: in the 4-lane layout the packed input-to-hidden tensor of the layer
with 5 hidden units and input size 2 has 48 elements, the raw tensor 30. -/
theorem C10_counterexample :
    (ex_layer 0).weight_xc_data.total = 30 ∧
    (create_pipeline ex_cfg (ex_layer 0) ex_fresh ex_fresh ex_fresh
      ex_opt).2.weight_xc_data_packed.total = 48 ∧
    (create_pipeline ex_cfg (ex_layer 0) ex_fresh ex_fresh ex_fresh
      ex_opt).2.weight_xc_data_packed.total ≠ (ex_layer 0).weight_xc_data.total := by
  refine ⟨by decide, ?_, ?_⟩
  · rw [create_pipeline_xc]
    decide
  · rw [create_pipeline_xc]
    decide

/-- C10 (amended): for each direction, in both layouts, `create_pipeline` places every raw
coefficient of the input-to-hidden and of the hidden-to-hidden tensor, unaltered, at the
position `pack_pos` of the packed channel; these positions lie inside the packed channel and
are pairwise different. The packed tensor has as many elements as the raw one in the scalar
layout and in the 4-lane layout when `num_output` is a multiple of 4; otherwise the 4-lane
tensor has `9 * (num_output % 4) * cols` further elements per direction (`cols` the input size
or `num_output`), the unwritten part of the rows that hold a single unit. -/
theorem C10_packing_placement (cfg : Build) (self : GRU_arm α)
    (fresh_xc fresh_bias fresh_hc : Nat → Buf α) (opt : NcnnOption α) (dr : Nat)
    (hdr : dr < num_directions self.direction)
    (hxc : self.weight_xc_data.w = input_size self ∧ self.weight_xc_data.h = 3 * self.num_output
      ∧ self.weight_xc_data.c = num_directions self.direction ∧ self.weight_xc_data.elempack = 1)
    (hhc : self.weight_hc_data.w = self.num_output ∧ self.weight_hc_data.h = 3 * self.num_output
      ∧ self.weight_hc_data.c = num_directions self.direction ∧ self.weight_hc_data.elempack = 1) :
    (∀ r i, r < 3 * self.num_output → i < input_size self →
      ((create_pipeline cfg self fresh_xc fresh_bias fresh_hc opt).2.weight_xc_data_packed.channel
          dr).buf (pack_pos cfg self.num_output (input_size self) r i)
        = (self.weight_xc_data.channel dr).at2 r i ∧
      pack_pos cfg self.num_output (input_size self) r i
        < (create_pipeline cfg self fresh_xc fresh_bias fresh_hc opt).2.weight_xc_data_packed.w
          * (create_pipeline cfg self fresh_xc fresh_bias fresh_hc opt).2.weight_xc_data_packed.h) ∧
    (∀ r i r2 i2, r < 3 * self.num_output → i < input_size self → r2 < 3 * self.num_output →
      i2 < input_size self →
      pack_pos cfg self.num_output (input_size self) r i
        = pack_pos cfg self.num_output (input_size self) r2 i2 → r = r2 ∧ i = i2) ∧
    (∀ r i, r < 3 * self.num_output → i < self.num_output →
      ((create_pipeline cfg self fresh_xc fresh_bias fresh_hc opt).2.weight_hc_data_packed.channel
          dr).buf (pack_pos cfg self.num_output self.num_output r i)
        = (self.weight_hc_data.channel dr).at2 r i ∧
      pack_pos cfg self.num_output self.num_output r i
        < (create_pipeline cfg self fresh_xc fresh_bias fresh_hc opt).2.weight_hc_data_packed.w
          * (create_pipeline cfg self fresh_xc fresh_bias fresh_hc opt).2.weight_hc_data_packed.h) ∧
    (∀ r i r2 i2, r < 3 * self.num_output → i < self.num_output → r2 < 3 * self.num_output →
      i2 < self.num_output →
      pack_pos cfg self.num_output self.num_output r i
        = pack_pos cfg self.num_output self.num_output r2 i2 → r = r2 ∧ i = i2) ∧
    (create_pipeline cfg self fresh_xc fresh_bias fresh_hc opt).2.weight_xc_data_packed.total
      = self.weight_xc_data.total
        + (if cfg.arm_neon then
            9 * (self.num_output % 4) * input_size self * num_directions self.direction
          else 0) ∧
    (create_pipeline cfg self fresh_xc fresh_bias fresh_hc opt).2.weight_hc_data_packed.total
      = self.weight_hc_data.total
        + (if cfg.arm_neon then
            9 * (self.num_output % 4) * self.num_output * num_directions self.direction
          else 0) := by
  have hxb := packed_xc_buf cfg self fresh_xc fresh_bias fresh_hc opt dr hdr
  have hhb := packed_hc_buf cfg self fresh_xc fresh_bias fresh_hc opt dr hdr
  have hxr := packed_xc_row cfg self fresh_xc fresh_bias fresh_hc opt dr
  have hhr := packed_hc_row cfg self fresh_xc fresh_bias fresh_hc opt dr
  have hxd := created_xc_row cfg self fresh_xc fresh_bias fresh_hc dr
  have hhd := created_hc_row cfg self fresh_xc fresh_bias fresh_hc dr
  have dxw : (create_pipeline cfg self fresh_xc fresh_bias fresh_hc opt).2.weight_xc_data_packed.w
      = packed_w cfg (input_size self) := by
    rw [create_pipeline_xc]
    cases hn : cfg.arm_neon <;> simp [create_packed, packed_w, hn, Nat.mul_comm]
  have dxh : (create_pipeline cfg self fresh_xc fresh_bias fresh_hc opt).2.weight_xc_data_packed.h
      = packed_h cfg self.num_output := by
    rw [create_pipeline_xc]
    cases hn : cfg.arm_neon <;> simp [create_packed, packed_h, hn]
  have dhw : (create_pipeline cfg self fresh_xc fresh_bias fresh_hc opt).2.weight_hc_data_packed.w
      = packed_w cfg self.num_output := by
    rw [create_pipeline_hc]
    cases hn : cfg.arm_neon <;> simp [create_packed, packed_w, hn, Nat.mul_comm]
  have dhh : (create_pipeline cfg self fresh_xc fresh_bias fresh_hc opt).2.weight_hc_data_packed.h
      = packed_h cfg self.num_output := by
    rw [create_pipeline_hc]
    cases hn : cfg.arm_neon <;> simp [create_packed, packed_h, hn]
  have dxt : (create_pipeline cfg self fresh_xc fresh_bias fresh_hc opt).2.weight_xc_data_packed.total
      = packed_w cfg (input_size self) * packed_h cfg self.num_output
          * num_directions self.direction := by
    rw [create_pipeline_xc]
    cases hn : cfg.arm_neon <;> simp [create_packed, packed_w, packed_h, hn, Mat.total, Nat.mul_comm]
  have dht : (create_pipeline cfg self fresh_xc fresh_bias fresh_hc opt).2.weight_hc_data_packed.total
      = packed_w cfg self.num_output * packed_h cfg self.num_output
          * num_directions self.direction := by
    rw [create_pipeline_hc]
    cases hn : cfg.arm_neon <;> simp [create_packed, packed_w, packed_h, hn, Mat.total, Nat.mul_comm]
  have hcount : ∀ cols : Nat, packed_w cfg cols * packed_h cfg self.num_output
      = cols * (3 * self.num_output)
        + (if cfg.arm_neon then 9 * (self.num_output % 4) * cols else 0) := by
    intro cols
    have h4 := Nat.div_add_mod self.num_output 4
    cases hn : cfg.arm_neon
    · simp only [packed_w, packed_h, hn, Bool.false_eq_true, if_false]
      ring
    · simp only [packed_w, packed_h, hn, if_true]
      have : 12 * cols * (self.num_output / 4 + self.num_output % 4)
          = cols * (3 * (4 * (self.num_output / 4) + self.num_output % 4))
            + 9 * (self.num_output % 4) * cols := by ring
      rw [this, h4]
  refine ⟨?_, ?_, ?_, ?_, ?_, ?_⟩
  · intro r i hr hi
    rw [dxw, dxh]
    exact ⟨pack_pos_read cfg self.num_output (input_size self) _ _ _ hxb hxr hxd r i hr hi,
      pack_pos_lt cfg self.num_output (input_size self) r i hr hi⟩
  · intro r i r2 i2 hr hi hr2 hi2 h
    exact pack_pos_inj cfg self.num_output (input_size self) r i r2 i2 hr hi hr2 hi2 h
  · intro r i hr hi
    rw [dhw, dhh]
    exact ⟨pack_pos_read cfg self.num_output self.num_output _ _ _ hhb hhr hhd r i hr hi,
      pack_pos_lt cfg self.num_output self.num_output r i hr hi⟩
  · intro r i r2 i2 hr hi hr2 hi2 h
    exact pack_pos_inj cfg self.num_output self.num_output r i r2 i2 hr hi hr2 hi2 h
  · obtain ⟨a, b, c, d⟩ := hxc
    rw [dxt, hcount, Mat.total, a, b, c, d]
    split <;> ring
  · obtain ⟨a, b, c, d⟩ := hhc
    rw [dht, hcount, Mat.total, a, b, c, d]
    split <;> ring

/-- Instance of the amended C10 on the 5-unit layer: the coefficient at raw row 14 (candidate
gate of the remaining unit 4), column 1. -/
theorem C10_packing_placement_witness :
    0 < num_directions (ex_layer 0).direction ∧
    ((ex_packed 0).weight_xc_data_packed.channel 0).buf
        (pack_pos ex_cfg (ex_layer 0).num_output (input_size (ex_layer 0)) 14 1)
      = ((ex_layer 0).weight_xc_data.channel 0).at2 14 1 :=
  ⟨by decide,
    ((C10_packing_placement ex_cfg (ex_layer 0) ex_fresh ex_fresh ex_fresh ex_opt 0 (by decide)
      (by decide) (by decide)).1 14 1 (by decide) (by decide)).1⟩

end

section

variable {α : Type} [Field α]

/-- C5: with `direction = 2` and all allocations successful, the single-input `forward`
returns an output of `T` rows of width `2 * num_output` whose row `t` is row `t` of the forward
pass (weight set 0, original order) followed by row `t` of the reverse pass (weight set 1,
reverse order), both started from the all-zero hidden vector; the reverse pass is the one run
from that zero vector, whatever the forward pass left in the hidden state. -/
theorem C5_bidirectional_concat (cfg : Build) (lm : Libm α) (self : GRU_arm α) (bottom : Mat α)
    (opt : NcnnOption α) (bh bt bs : Buf α) (hd : self.direction = 2)
    (hH : opt.workspace_allocator (self.num_output * 1) = some bh)
    (hT : opt.blob_allocator (self.num_output * 2 * bottom.h) = some bt)
    (hS : opt.workspace_allocator (self.num_output * bottom.h) = some bs)
    (hG : (gates_create cfg self.num_output opt.workspace_allocator).isSome) :
    ∃ top, forward cfg lm self bottom opt = .ok top ∧
      top.w = self.num_output * 2 ∧ top.h = bottom.h ∧
      (∀ q, q < self.num_output → ((Mat.of_buf self.num_output 1 bh).fill 0).buf q = 0) ∧
      ∀ t q, t < bottom.h → q < self.num_output →
        top.at2 t q
          = (bi_forward_pass cfg lm self bottom (Mat.of_buf self.num_output bottom.h bs)
              ((Mat.of_buf self.num_output 1 bh).fill 0) opt).2.1.at2 t q ∧
        top.at2 t (self.num_output + q)
          = (bi_reverse_pass cfg lm self bottom (Mat.of_buf self.num_output bottom.h bs)
              ((Mat.of_buf self.num_output 1 bh).fill 0) opt).2.1.at2 t q := by
  have hz : ∀ q, q < self.num_output → ((Mat.of_buf self.num_output 1 bh).fill 0).buf q = 0 := by
    intro q hq
    rw [Mat.fill_buf, Mat.of_buf_total, if_pos (by omega)]
  have hrev : (bi_reverse_pass cfg lm self bottom (Mat.of_buf self.num_output bottom.h bs)
        ((bi_forward_pass cfg lm self bottom (Mat.of_buf self.num_output bottom.h bs)
          ((Mat.of_buf self.num_output 1 bh).fill 0) opt).2.2.fill 0) opt).2.1
      = (bi_reverse_pass cfg lm self bottom (Mat.of_buf self.num_output bottom.h bs)
        ((Mat.of_buf self.num_output 1 bh).fill 0) opt).2.1 := by
    refine (gru_top_congr cfg lm bottom _ 1 _ _ _ _ _ opt ?_).2
    intro j hj
    have hj2 : j < self.num_output := hj
    obtain ⟨-, ht, -⟩ := gru_hidden_dims cfg lm bottom (Mat.of_buf self.num_output bottom.h bs) 0
      (self.weight_xc_data_packed.channel 0) (self.bias_c_data_packed.channel 0)
      (self.weight_hc_data_packed.channel 0) ((Mat.of_buf self.num_output 1 bh).fill 0) opt
    rw [hz j hj2, Mat.fill_buf, if_pos]
    rw [bi_forward_pass, ht, Mat.fill_total, Mat.of_buf_total]
    omega
  refine ⟨_, forward_bi_eq cfg lm self bottom opt hd bh bt bs hH hT hS hG, rfl, rfl, hz, ?_⟩
  intro t q ht hq
  rw [hrev]
  exact concat_top_at self.num_output bottom.h _ _ _
    (fun y => by rw [Mat.of_buf_row]; ring) t q ht hq

/-- Instance of C5 on the example layer in bidirectional mode. -/
theorem C5_bidirectional_concat_witness :
    (ex_packed 2).direction = 2 ∧
    ex_opt.workspace_allocator ((ex_packed 2).num_output * 1) = some (fun _ => 0) ∧
    ex_opt.blob_allocator ((ex_packed 2).num_output * 2 * ex_bottom.h) = some (fun _ => 0) ∧
    ex_opt.workspace_allocator ((ex_packed 2).num_output * ex_bottom.h) = some (fun _ => 0) ∧
    (gates_create ex_cfg (ex_packed 2).num_output ex_opt.workspace_allocator).isSome ∧
    ∃ top, forward ex_cfg ex_lm (ex_packed 2) ex_bottom ex_opt = .ok top ∧
      top.w = (ex_packed 2).num_output * 2 ∧ top.h = ex_bottom.h :=
  ⟨rfl, rfl, rfl, rfl, by decide,
    (C5_bidirectional_concat ex_cfg ex_lm (ex_packed 2) ex_bottom ex_opt (fun _ => 0)
      (fun _ => 0) (fun _ => 0) rfl rfl rfl rfl (by decide)).elim
      fun top h => ⟨top, h.1, h.2.1, h.2.2.1⟩⟩

/-- C9: for each direction mode 0, 1, 2 and with all allocations of both calls successful, the
single-input `forward` and the multi-input `forward` called with the sequence alone return
status 0 and the same output tensor (`top_blobs[0]` of the multi-input call). -/
theorem C9_single_equals_multi (cfg : Build) (lm : Libm α) (self : GRU_arm α) (bottom : Mat α)
    (top_blobs : List (Mat α)) (opt : NcnnOption α)
    (hdir : self.direction = 0 ∨ self.direction = 1 ∨ self.direction = 2)
    (htops : top_blobs ≠ [])
    (hH1 : (opt.workspace_allocator (self.num_output * 1)).isSome)
    (hH2 : ((if top_blobs.length = 2 then opt.blob_allocator else opt.workspace_allocator)
      (self.num_output * num_directions self.direction)).isSome)
    (hT : (opt.blob_allocator
      (self.num_output * num_directions self.direction * bottom.h)).isSome)
    (hS : self.direction = 2 → (opt.workspace_allocator (self.num_output * bottom.h)).isSome)
    (hG : (gates_create cfg self.num_output opt.workspace_allocator).isSome) :
    ∃ top, forward cfg lm self bottom opt = .ok top ∧
      ∃ tops, forward_vec cfg lm self [bottom] top_blobs opt = .ok tops ∧
        tops.head? = some top := by
  obtain ⟨bh, hbh⟩ := Option.isSome_iff_exists.mp hH1
  obtain ⟨bv, hbv⟩ := Option.isSome_iff_exists.mp hH2
  obtain ⟨bt, hbt⟩ := Option.isSome_iff_exists.mp hT
  have hV := forward_vec_hidden_create self bottom top_blobs opt bv hbv
  have hz1 : ∀ j, j < self.num_output → ((Mat.of_buf self.num_output 1 bh).fill 0).buf j = 0 := by
    intro q hq
    rw [Mat.fill_buf, Mat.of_buf_total, if_pos (by omega)]
  by_cases hd : self.direction = 0 ∨ self.direction = 1
  · have hnd := num_directions_uni _ hd
    rw [hnd] at hbt hV hbv
    refine ⟨_, forward_uni_eq cfg lm self bottom opt hd bh bt hbh hbt hG, _,
      forward_vec_uni_eq cfg lm self [bottom] top_blobs opt hd _ bt hV hbt hG, ?_⟩
    rw [finish_head _ _ _ htops]
    congr 1
    refine ((gru_top_congr cfg lm bottom _ self.direction _ _ _ _ _ opt ?_).2).symm
    intro j hj
    have hj2 : j < self.num_output := by simpa using hj
    rw [hz1 j hj2, Mat.fill_buf, Mat.of_buf_total, if_pos (by omega)]
  · have hd2 : self.direction = 2 := by omega
    obtain ⟨bs, hbs⟩ := Option.isSome_iff_exists.mp (hS hd2)
    have hnd : num_directions self.direction = 2 := by rw [hd2]; rfl
    rw [hnd] at hbt hV hbv
    refine ⟨_, forward_bi_eq cfg lm self bottom opt hd2 bh bt bs hbh hbt hbs hG, _,
      forward_vec_bi_eq cfg lm self [bottom] top_blobs opt hd2 _ bt bs hV hbt hbs hG, ?_⟩
    rw [finish_head _ _ _ htops]
    have hzv : ∀ j, j < 2 * self.num_output →
        ((Mat.of_buf self.num_output 2 bv).fill 0).buf j = 0 := by
      intro j hj
      rw [Mat.fill_buf, Mat.of_buf_total, if_pos (by omega)]
    have hrowv : ∀ y, ((Mat.of_buf self.num_output 2 bv).fill 0).row y = y * self.num_output :=
      fun y => Mat.of_buf_row self.num_output 2 bv y
    have hF : (bi_forward_pass cfg lm self bottom (Mat.of_buf self.num_output bottom.h bs)
          (((Mat.of_buf self.num_output 2 bv).fill 0).row_range 0 1) opt).2.1
        = (bi_forward_pass cfg lm self bottom (Mat.of_buf self.num_output bottom.h bs)
          ((Mat.of_buf self.num_output 1 bh).fill 0) opt).2.1 := by
      refine (gru_top_congr cfg lm bottom _ 0 _ _ _ _ _ opt ?_).2
      intro j hj
      have hj2 : j < self.num_output := hj
      rw [hz1 j hj2, Mat.row_range_buf, hrowv, hzv _ (by omega)]
    have hR : (bi_reverse_pass cfg lm self bottom (Mat.of_buf self.num_output bottom.h bs)
          ((((Mat.of_buf self.num_output 2 bv).fill 0).set_row_range 0
            (bi_forward_pass cfg lm self bottom (Mat.of_buf self.num_output bottom.h bs)
              (((Mat.of_buf self.num_output 2 bv).fill 0).row_range 0 1) opt).2.2.buf).row_range
            1 1) opt).2.1
        = (bi_reverse_pass cfg lm self bottom (Mat.of_buf self.num_output bottom.h bs)
          ((bi_forward_pass cfg lm self bottom (Mat.of_buf self.num_output bottom.h bs)
            ((Mat.of_buf self.num_output 1 bh).fill 0) opt).2.2.fill 0) opt).2.1 := by
      refine (gru_top_congr cfg lm bottom _ 1 _ _ _ _ _ opt ?_).2
      intro j hj
      have hj2 : j < self.num_output := hj
      obtain ⟨-, -, -, hfr, -⟩ := gru_hidden_dims cfg lm bottom
        (Mat.of_buf self.num_output bottom.h bs) 0
        (self.weight_xc_data_packed.channel 0) (self.bias_c_data_packed.channel 0)
        (self.weight_hc_data_packed.channel 0)
        (((Mat.of_buf self.num_output 2 bv).fill 0).row_range 0 1) opt
      obtain ⟨-, ht, -⟩ := gru_hidden_dims cfg lm bottom
        (Mat.of_buf self.num_output bottom.h bs) 0
        (self.weight_xc_data_packed.channel 0) (self.bias_c_data_packed.channel 0)
        (self.weight_hc_data_packed.channel 0) ((Mat.of_buf self.num_output 1 bh).fill 0) opt
      rw [Mat.row_range_buf, Mat.set_row_range_row, hrowv, Mat.set_row_range_buf, hrowv,
        if_pos (by omega), bi_forward_pass, hfr _ (by simp), Mat.row_range_buf, hrowv,
        hzv _ (by omega), Mat.fill_buf, if_pos]
      rw [bi_forward_pass, ht, Mat.fill_total, Mat.of_buf_total]
      omega
    rw [show ([bottom].getD 0 (Mat.null : Mat α)) = bottom from rfl, hF, hR]

/-- Instance of C9 on the example layer in bidirectional mode, one output requested. -/
theorem C9_single_equals_multi_witness :
    ((ex_packed 2).direction = 0 ∨ (ex_packed 2).direction = 1 ∨ (ex_packed 2).direction = 2) ∧
    [ex_top] ≠ [] ∧
    (ex_opt.workspace_allocator ((ex_packed 2).num_output * 1)).isSome ∧
    (∃ top, forward ex_cfg ex_lm (ex_packed 2) ex_bottom ex_opt = .ok top ∧
      ∃ tops, forward_vec ex_cfg ex_lm (ex_packed 2) [ex_bottom] [ex_top] ex_opt = .ok tops ∧
        tops.head? = some top) :=
  ⟨by decide, List.cons_ne_nil _ _, by decide,
    C9_single_equals_multi ex_cfg ex_lm (ex_packed 2) ex_bottom [ex_top] ex_opt (by decide)
      (List.cons_ne_nil _ _) (by decide) (by decide) (by decide) (fun _ => by decide)
      (by decide)⟩

end

section

variable {α : Type} [Field α]

/-- C8: in the multi-input `forward`,
(a) without an incoming hidden state the call is the call with the incoming hidden state
`Z`, the all-zero tensor of `num_directions` rows of `num_output` entries;
(b) in bidirectional mode with incoming hidden state `H` (rows of `num_output` entries) and
two outputs requested, the forward pass starts from row 0 of `H`, the reverse pass from row 1
of `H`, and `top_blobs[1]` holds the final hidden vector of the forward pass in row 0 and of
the reverse pass in row 1;
(c) in a unidirectional mode with incoming hidden state `H` and two outputs requested,
`top_blobs[1]` is the hidden state left by the single pass started from `H`. -/
theorem C8_hidden_state_carry (cfg : Build) (lm : Libm α) (self : GRU_arm α) (bottom : Mat α)
    (opt : NcnnOption α) (top_blobs : List (Mat α)) (H t0 t1 : Mat α) (bv bt bs : Buf α) :
    ((if top_blobs.length = 2 then opt.blob_allocator else opt.workspace_allocator)
          (self.num_output * num_directions self.direction) = some bv →
      forward_vec cfg lm self [bottom] top_blobs opt
        = forward_vec cfg lm self
            [bottom, (Mat.of_buf self.num_output (num_directions self.direction) bv).fill 0]
            top_blobs opt ∧
      ((Mat.of_buf self.num_output (num_directions self.direction) bv).fill 0).w
        = self.num_output ∧
      ((Mat.of_buf self.num_output (num_directions self.direction) bv).fill 0).h
        = num_directions self.direction ∧
      ∀ j, j < self.num_output * num_directions self.direction →
        ((Mat.of_buf self.num_output (num_directions self.direction) bv).fill 0).buf j = 0) ∧
    (self.direction = 2 → H.w = self.num_output → H.elempack = 1 →
      (opt.blob_allocator H.total).isSome →
      opt.blob_allocator (self.num_output * 2 * bottom.h) = some bt →
      opt.workspace_allocator (self.num_output * bottom.h) = some bs →
      (gates_create cfg self.num_output opt.workspace_allocator).isSome →
      ∃ Hout, forward_vec cfg lm self [bottom, H] [t0, t1] opt =
          .ok [concat_top self.num_output bottom.h (Mat.of_buf (self.num_output * 2) bottom.h bt)
            (bi_forward_pass cfg lm self bottom (Mat.of_buf self.num_output bottom.h bs)
              (H.row_range 0 1) opt).2.1
            (bi_reverse_pass cfg lm self bottom (Mat.of_buf self.num_output bottom.h bs)
              (H.row_range 1 1) opt).2.1, Hout] ∧
        ∀ q, q < self.num_output →
          Hout.at2 0 q
            = (bi_forward_pass cfg lm self bottom (Mat.of_buf self.num_output bottom.h bs)
                (H.row_range 0 1) opt).2.2.buf q ∧
          Hout.at2 1 q
            = (bi_reverse_pass cfg lm self bottom (Mat.of_buf self.num_output bottom.h bs)
                (H.row_range 1 1) opt).2.2.buf q) ∧
    ((self.direction = 0 ∨ self.direction = 1) →
      (opt.blob_allocator H.total).isSome →
      opt.blob_allocator (self.num_output * 1 * bottom.h) = some bt →
      (gates_create cfg self.num_output opt.workspace_allocator).isSome →
      forward_vec cfg lm self [bottom, H] [t0, t1] opt =
        .ok [(uni_pass cfg lm self bottom (Mat.of_buf (self.num_output * 1) bottom.h bt) H
                opt).2.1,
             (uni_pass cfg lm self bottom (Mat.of_buf (self.num_output * 1) bottom.h bt) H
                opt).2.2] ∧
      (uni_pass cfg lm self bottom (Mat.of_buf (self.num_output * 1) bottom.h bt) H opt).2.2.buf
        = gru_hidden_seq cfg lm bottom (Mat.of_buf (self.num_output * 1) bottom.h bt)
            self.direction (self.weight_xc_data_packed.channel 0)
            (self.bias_c_data_packed.channel 0) (self.weight_hc_data_packed.channel 0) H.buf
            bottom.h) := by
  refine ⟨?_, ?_, ?_⟩
  · intro hbv
    have h1 := forward_vec_hidden_create self bottom top_blobs opt bv hbv
    have h2 := forward_vec_hidden_clone self bottom
      ((Mat.of_buf self.num_output (num_directions self.direction) bv).fill 0) top_blobs opt
      (by rw [Mat.fill_total, Mat.of_buf_total, hbv]; rfl)
    refine ⟨?_, rfl, rfl, ?_⟩
    · unfold forward_vec
      rw [h1, h2]
      rfl
    · intro j hj
      rw [Mat.fill_buf, Mat.of_buf_total, if_pos hj]
  · intro hd hw hp hH hT hS hG
    have hV := forward_vec_hidden_clone self bottom H [t0, t1] opt (by simpa using hH)
    have hrow1 : H.row 1 = self.num_output := by rw [Mat.row_one H hp, hw]
    have hview : (H.set_row_range 0
          (bi_forward_pass cfg lm self bottom (Mat.of_buf self.num_output bottom.h bs)
            (H.row_range 0 1) opt).2.2.buf).row_range 1 1 = H.row_range 1 1 := by
      apply row_range_one_after
      intro j hj
      obtain ⟨-, -, -, hfr, -⟩ := gru_hidden_dims cfg lm bottom
        (Mat.of_buf self.num_output bottom.h bs) 0
        (self.weight_xc_data_packed.channel 0) (self.bias_c_data_packed.channel 0)
        (self.weight_hc_data_packed.channel 0) (H.row_range 0 1) opt
      exact hfr j (by rw [hrow1] at hj; simpa using hj)
    have hE := forward_vec_bi_eq cfg lm self [bottom, H] [t0, t1] opt hd H bt bs hV hT hS hG
    rw [show ([bottom, H].getD 0 (Mat.null : Mat α)) = bottom from rfl, hview, finish_two] at hE
    refine ⟨_, hE, ?_⟩
    intro q hq
    simp only [Mat.at2, Mat.set_row_range_buf, Mat.set_row_range_row, Mat.row_zero, hrow1,
      Nat.zero_add, Nat.zero_le, if_true, Nat.sub_zero]
    constructor
    · rw [if_neg (by omega)]
    · rw [if_pos (by omega), Nat.add_sub_cancel_left]
  · intro hd hH hT hG
    have hV := forward_vec_hidden_clone self bottom H [t0, t1] opt (by simpa using hH)
    have hE := forward_vec_uni_eq cfg lm self [bottom, H] [t0, t1] opt hd H bt hV hT hG
    rw [show ([bottom, H].getD 0 (Mat.null : Mat α)) = bottom from rfl, finish_two] at hE
    refine ⟨hE, ?_⟩
    exact gru_hidden_buf cfg lm bottom _ self.direction _ _ _ H opt (by simpa using hG)

/-- Instance of C8 (b) on the example layer in bidirectional mode: the call with an incoming
hidden state of two rows and two outputs requested succeeds. -/
theorem C8_hidden_state_carry_witness :
    (ex_packed 2).direction = 2 ∧ (ex_mat 5 2 1).w = (ex_packed 2).num_output ∧
    ∃ tw Hout, forward_vec ex_cfg ex_lm (ex_packed 2) [ex_bottom, ex_mat 5 2 1] [ex_top, ex_top]
      ex_opt = .ok [tw, Hout] :=
  ⟨rfl, rfl,
    ((C8_hidden_state_carry ex_cfg ex_lm (ex_packed 2) ex_bottom ex_opt [ex_top, ex_top]
      (ex_mat 5 2 1) ex_top ex_top (fun _ => 0) (fun _ => 0) (fun _ => 0)).2.1 rfl rfl rfl
      (by decide) rfl rfl (by decide)).elim fun Hout h => ⟨_, Hout, h.1⟩⟩

end

section

variable {α : Type} [Field α]

/-- C7 as stated fails in reverse mode (`direction = 1`): for the one-unit layer with zero
weights, over the reals with the true `exp` and `tanh`, each timestep halves the hidden value;
started from hidden value 1 on a two-row sequence, the one-call output has `1/4` in row 0,
while the call on the first row alone puts `1/2` there. -/
theorem C7_counterexample :
    ∃ tw hw t1 h1 : Mat ℝ,
      forward_vec ex_cfg { expf := Real.exp, tanhf := Real.tanh } (zero_packed ex_cfg 1)
          [const_mat 0 1 2 1, const_mat 1 1 1 1] [Mat.null, Mat.null] zero_opt = .ok [tw, hw] ∧
      forward_vec ex_cfg { expf := Real.exp, tanhf := Real.tanh } (zero_packed ex_cfg 1)
          [const_mat 0 1 1 1, const_mat 1 1 1 1] [Mat.null, Mat.null] zero_opt = .ok [t1, h1] ∧
      tw.at2 0 0 = 1 / 4 ∧ t1.at2 0 0 = 1 / 2 ∧ tw.at2 0 0 ≠ t1.at2 0 0 := by
  have hcell : ∀ (bottom top : Mat ℝ) (ti : Nat) (h : Buf ℝ), bottom.w = 1 → top.w = 1 →
      gru_next ex_cfg { expf := Real.exp, tanhf := Real.tanh } bottom top
        ((zero_packed ex_cfg 1).weight_xc_data_packed.channel 0)
        ((zero_packed ex_cfg 1).bias_c_data_packed.channel 0)
        ((zero_packed ex_cfg 1).weight_hc_data_packed.channel 0) ti h 0 = h 0 / 2 := by
    intro bottom top ti h hb ht
    have := zero_weights_cell ex_cfg { expf := Real.exp, tanhf := Real.tanh }
      (zero_layer 1 : GRU_arm ℝ) (fun _ _ => 0) (fun _ _ => 0) (fun _ _ => 0) zero_opt
      bottom.buf (bottom.row ti) h 0 0 (by decide) (by decide) (fun _ => rfl) (fun _ => rfl)
      (fun _ => rfl)
    rw [gru_next, ht, if_pos (by decide), hb]
    rw [show input_size (zero_layer 1 : GRU_arm ℝ) = 1 from rfl,
      show (zero_layer 1 : GRU_arm ℝ).num_output = 1 from rfl] at this
    rw [zero_packed, this]
    simp only [sigmoid, neg_zero, Real.exp_zero, Real.tanh_zero]
    ring
  have hG : (gates_create ex_cfg (zero_packed ex_cfg 1 : GRU_arm ℝ).num_output
      (zero_opt : NcnnOption ℝ).workspace_allocator).isSome := rfl
  have hd : (zero_packed ex_cfg 1 : GRU_arm ℝ).direction = 0
      ∨ (zero_packed ex_cfg 1 : GRU_arm ℝ).direction = 1 := Or.inr rfl
  have e1 := forward_vec_uni_eq ex_cfg { expf := Real.exp, tanhf := Real.tanh }
    (zero_packed ex_cfg 1) [const_mat 0 1 2 1, const_mat 1 1 1 1] [Mat.null, Mat.null] zero_opt
    hd (const_mat 1 1 1 1) (fun _ => 0)
    (forward_vec_hidden_clone _ _ _ _ _ rfl) rfl hG
  have e2 := forward_vec_uni_eq ex_cfg { expf := Real.exp, tanhf := Real.tanh }
    (zero_packed ex_cfg 1) [const_mat 0 1 1 1, const_mat 1 1 1 1] [Mat.null, Mat.null] zero_opt
    hd (const_mat 1 1 1 1) (fun _ => 0)
    (forward_vec_hidden_clone _ _ _ _ _ rfl) rfl hG
  rw [finish_two] at e1 e2
  have a1 := gru_top_at ex_cfg { expf := Real.exp, tanhf := Real.tanh }
    (const_mat 0 1 2 1) (Mat.of_buf (1 * 1) 2 (fun _ => (0 : ℝ))) 1
    ((zero_packed ex_cfg 1).weight_xc_data_packed.channel 0)
    ((zero_packed ex_cfg 1).bias_c_data_packed.channel 0)
    ((zero_packed ex_cfg 1).weight_hc_data_packed.channel 0) (const_mat 1 1 1 1) zero_opt
    rfl rfl 1 0 (by decide) (by decide)
  have a2 := gru_top_at ex_cfg { expf := Real.exp, tanhf := Real.tanh }
    (const_mat 0 1 1 1) (Mat.of_buf (1 * 1) 1 (fun _ => (0 : ℝ))) 1
    ((zero_packed ex_cfg 1).weight_xc_data_packed.channel 0)
    ((zero_packed ex_cfg 1).bias_c_data_packed.channel 0)
    ((zero_packed ex_cfg 1).weight_hc_data_packed.channel 0) (const_mat 1 1 1 1) zero_opt
    rfl rfl 0 0 (by decide) (by decide)
  have v1 : (uni_pass ex_cfg { expf := Real.exp, tanhf := Real.tanh } (zero_packed ex_cfg 1)
      (const_mat 0 1 2 1) (Mat.of_buf (1 * 1) 2 (fun _ => (0 : ℝ))) (const_mat 1 1 1 1)
      zero_opt).2.1.at2 0 0 = 1 / 4 := by
    refine a1.trans ?_
    simp only [gru_hidden_seq]
    rw [hcell _ _ _ _ rfl rfl, hcell _ _ _ _ rfl rfl]
    simp only [const_mat, Mat.buf]
    norm_num
  have v2 : (uni_pass ex_cfg { expf := Real.exp, tanhf := Real.tanh } (zero_packed ex_cfg 1)
      (const_mat 0 1 1 1) (Mat.of_buf (1 * 1) 1 (fun _ => (0 : ℝ))) (const_mat 1 1 1 1)
      zero_opt).2.1.at2 0 0 = 1 / 2 := by
    refine a2.trans ?_
    simp only [gru_hidden_seq]
    rw [hcell _ _ _ _ rfl rfl]
    simp only [const_mat, Mat.buf]
  have hne : (1 / 4 : ℝ) ≠ 1 / 2 := by norm_num
  exact ⟨_, _, _, _, e1, e2, v1, v2, fun h => hne (v1.symm.trans (h.trans v2))⟩

/-- C7 (amended): in forward mode (`direction = 0`) with two outputs requested and all
allocations successful, the multi-input `forward` on a sequence `X` equals its run on the first
`T` rows (`X1`) followed by a second call on the remaining rows (`X2`) that is given the hidden
state returned by the first call: the three calls return status 0, the rows of the two partial
outputs are the rows of the one-call output, and the final hidden states are equal. -/
theorem C7_split_forward (cfg : Build) (lm : Libm α) (self : GRU_arm α) (X X1 X2 : Mat α)
    (rest : List (Mat α)) (t0 t1 hidden : Mat α) (opt : NcnnOption α)
    (hd : self.direction = 0)
    (hw1 : X1.w = X.w) (hw2 : X2.w = X.w) (hh : X.h = X1.h + X2.h)
    (hx1 : ∀ t i, t < X1.h → i < X.w → X1.at2 t i = X.at2 t i)
    (hx2 : ∀ t i, t < X2.h → i < X.w → X2.at2 t i = X.at2 (X1.h + t) i)
    (hH : forward_vec_hidden self (X :: rest) [t0, t1] opt = some hidden)
    (hHc : (opt.blob_allocator hidden.total).isSome)
    (hT : (opt.blob_allocator (self.num_output * 1 * X.h)).isSome)
    (hT1 : (opt.blob_allocator (self.num_output * 1 * X1.h)).isSome)
    (hT2 : (opt.blob_allocator (self.num_output * 1 * X2.h)).isSome)
    (hG : (gates_create cfg self.num_output opt.workspace_allocator).isSome) :
    ∃ tw hw o1 h1 o2 h2,
      forward_vec cfg lm self (X :: rest) [t0, t1] opt = .ok [tw, hw] ∧
      forward_vec cfg lm self (X1 :: rest) [t0, t1] opt = .ok [o1, h1] ∧
      forward_vec cfg lm self [X2, h1] [t0, t1] opt = .ok [o2, h2] ∧
      (∀ t q, t < X1.h → q < self.num_output → tw.at2 t q = o1.at2 t q) ∧
      (∀ t q, t < X2.h → q < self.num_output → tw.at2 (X1.h + t) q = o2.at2 t q) ∧
      hw = h2 := by
  obtain ⟨bt, hbt⟩ := Option.isSome_iff_exists.mp hT
  obtain ⟨bt1, hbt1⟩ := Option.isSome_iff_exists.mp hT1
  obtain ⟨bt2, hbt2⟩ := Option.isSome_iff_exists.mp hT2
  have hdu : self.direction = 0 ∨ self.direction = 1 := Or.inl hd
  have hH1 : forward_vec_hidden self (X1 :: rest) [t0, t1] opt = some hidden := hH
  have e0 := forward_vec_uni_eq cfg lm self (X :: rest) [t0, t1] opt hdu hidden bt hH hbt hG
  have e1 := forward_vec_uni_eq cfg lm self (X1 :: rest) [t0, t1] opt hdu hidden bt1 hH1 hbt1 hG
  rw [show ((X :: rest).getD 0 (Mat.null : Mat α)) = X from rfl, finish_two] at e0
  rw [show ((X1 :: rest).getD 0 (Mat.null : Mat α)) = X1 from rfl, finish_two] at e1
  have hG1 : ∀ h : Nat, (gates_create cfg (Mat.of_buf (self.num_output * 1) h bt).w
      opt.workspace_allocator).isSome := fun h => by simpa using hG
  have hG1a : ∀ (h : Nat) (b : Buf α), (gates_create cfg (Mat.of_buf (self.num_output * 1) h b).w
      opt.workspace_allocator).isSome := fun h b => by simpa using hG
  obtain ⟨-, htot, -, -, hset1⟩ := gru_hidden_dims cfg lm X1
    (Mat.of_buf (self.num_output * 1) X1.h bt1) self.direction
    (self.weight_xc_data_packed.channel 0) (self.bias_c_data_packed.channel 0)
    (self.weight_hc_data_packed.channel 0) hidden opt
  have hH2 := forward_vec_hidden_clone self X2
    (uni_pass cfg lm self X1 (Mat.of_buf (self.num_output * 1) X1.h bt1) hidden opt).2.2
    [t0, t1] opt (by rw [uni_pass, htot]; simpa using hHc)
  have e2 := forward_vec_uni_eq cfg lm self
    [X2, (uni_pass cfg lm self X1 (Mat.of_buf (self.num_output * 1) X1.h bt1) hidden opt).2.2]
    [t0, t1] opt hdu _ bt2 hH2 hbt2 hG
  rw [show (([X2, (uni_pass cfg lm self X1 (Mat.of_buf (self.num_output * 1) X1.h bt1) hidden
      opt).2.2] : List (Mat α)).getD 0 (Mat.null : Mat α)) = X2 from rfl, finish_two] at e2
  have b1 := gru_hidden_buf cfg lm X1 (Mat.of_buf (self.num_output * 1) X1.h bt1) self.direction
    (self.weight_xc_data_packed.channel 0) (self.bias_c_data_packed.channel 0)
    (self.weight_hc_data_packed.channel 0) hidden opt (hG1a _ _)
  refine ⟨_, _, _, _, _, _, e0, e1, e2, ?_, ?_, ?_⟩
  · intro t q ht hq
    have a0 := gru_top_at cfg lm X (Mat.of_buf (self.num_output * 1) X.h bt) self.direction
      (self.weight_xc_data_packed.channel 0) (self.bias_c_data_packed.channel 0)
      (self.weight_hc_data_packed.channel 0) hidden opt (hG1a _ _) rfl t q (by omega)
      (by simpa using hq)
    have a1 := gru_top_at cfg lm X1 (Mat.of_buf (self.num_output * 1) X1.h bt1) self.direction
      (self.weight_xc_data_packed.channel 0) (self.bias_c_data_packed.channel 0)
      (self.weight_hc_data_packed.channel 0) hidden opt (hG1a _ _) rfl t q ht
      (by simpa using hq)
    simp only [hd, step_ti_forward] at a0 a1
    simp only [uni_pass, hd]
    rw [a0, a1]
    exact hidden_seq_congr cfg lm X X1 (Mat.of_buf (self.num_output * 1) X.h bt)
      (Mat.of_buf (self.num_output * 1) X1.h bt1) 0 0 _ _ _ hidden.buf hidden.buf hw1.symm rfl X1.h
      (fun t i ht hi => by
        rw [step_ti_forward, step_ti_forward]
        exact (hx1 t i ht hi).symm)
      (fun _ _ => rfl) (t + 1) (by omega) q (by simpa using hq)
  · intro t q ht hq
    have a0 := gru_top_at cfg lm X (Mat.of_buf (self.num_output * 1) X.h bt) self.direction
      (self.weight_xc_data_packed.channel 0) (self.bias_c_data_packed.channel 0)
      (self.weight_hc_data_packed.channel 0) hidden opt (hG1a _ _) rfl (X1.h + t) q (by omega)
      (by simpa using hq)
    have a2 := gru_top_at cfg lm X2 (Mat.of_buf (self.num_output * 1) X2.h bt2) self.direction
      (self.weight_xc_data_packed.channel 0) (self.bias_c_data_packed.channel 0)
      (self.weight_hc_data_packed.channel 0)
      (uni_pass cfg lm self X1 (Mat.of_buf (self.num_output * 1) X1.h bt1) hidden opt).2.2 opt
      (hG1a _ _) rfl t q ht (by simpa using hq)
    simp only [uni_pass, hd, step_ti_forward] at a0 a2 b1
    simp only [uni_pass, hd]
    rw [a0, a2, b1, Nat.add_assoc]
    exact hidden_seq_split cfg lm X X1 X2 (Mat.of_buf (self.num_output * 1) X.h bt)
      (Mat.of_buf (self.num_output * 1) X1.h bt1) (Mat.of_buf (self.num_output * 1) X2.h bt2)
      _ _ _ hidden.buf hw1 hw2 rfl rfl hx1 hx2 (t + 1)
      (by omega) q (by simpa using hq)
  · obtain ⟨-, -, -, -, hset0⟩ := gru_hidden_dims cfg lm X
      (Mat.of_buf (self.num_output * 1) X.h bt) self.direction
      (self.weight_xc_data_packed.channel 0) (self.bias_c_data_packed.channel 0)
      (self.weight_hc_data_packed.channel 0) hidden opt
    obtain ⟨-, -, -, -, hset2⟩ := gru_hidden_dims cfg lm X2
      (Mat.of_buf (self.num_output * 1) X2.h bt2) self.direction
      (self.weight_xc_data_packed.channel 0) (self.bias_c_data_packed.channel 0)
      (self.weight_hc_data_packed.channel 0)
      (uni_pass cfg lm self X1 (Mat.of_buf (self.num_output * 1) X1.h bt1) hidden opt).2.2 opt
    have b0 := gru_hidden_buf cfg lm X (Mat.of_buf (self.num_output * 1) X.h bt) self.direction
      (self.weight_xc_data_packed.channel 0) (self.bias_c_data_packed.channel 0)
      (self.weight_hc_data_packed.channel 0) hidden opt (hG1a _ _)
    have b2 := gru_hidden_buf cfg lm X2 (Mat.of_buf (self.num_output * 1) X2.h bt2)
      self.direction
      (self.weight_xc_data_packed.channel 0) (self.bias_c_data_packed.channel 0)
      (self.weight_hc_data_packed.channel 0)
      (uni_pass cfg lm self X1 (Mat.of_buf (self.num_output * 1) X1.h bt1) hidden opt).2.2 opt
      (hG1a _ _)
    simp only [uni_pass] at hset2 b2 ⊢
    rw [hset0, b0, hset2, b2, hset1, Mat.set_buf_set_buf, Mat.set_buf_buf, b1, hd]
    congr 1
    exact hidden_seq_split_fun cfg lm X X1 X2 (Mat.of_buf (self.num_output * 1) X.h bt)
      (Mat.of_buf (self.num_output * 1) X1.h bt1) (Mat.of_buf (self.num_output * 1) X2.h bt2)
      _ _ _ hidden.buf hw1 hw2 rfl rfl hh hx1 hx2

/-- Instance of C7 (amended) on the example layer in forward mode: the three-row example
sequence split after its first row. -/
theorem C7_split_forward_witness :
    (ex_packed 0).direction = 0 ∧
    ∃ tw hw o1 h1 o2 h2,
      forward_vec ex_cfg ex_lm (ex_packed 0) [ex_bottom, ex_hidden] [ex_top, ex_top] ex_opt
        = .ok [tw, hw] ∧
      forward_vec ex_cfg ex_lm (ex_packed 0) [ex_bottom.row_range 0 1, ex_hidden]
        [ex_top, ex_top] ex_opt = .ok [o1, h1] ∧
      forward_vec ex_cfg ex_lm (ex_packed 0) [ex_bottom.row_range 1 2, h1] [ex_top, ex_top]
        ex_opt = .ok [o2, h2] ∧
      (∀ t q, t < (ex_bottom.row_range 0 1).h → q < (ex_packed 0).num_output →
        tw.at2 t q = o1.at2 t q) ∧
      (∀ t q, t < (ex_bottom.row_range 1 2).h → q < (ex_packed 0).num_output →
        tw.at2 ((ex_bottom.row_range 0 1).h + t) q = o2.at2 t q) ∧
      hw = h2 :=
  ⟨rfl, C7_split_forward ex_cfg ex_lm (ex_packed 0) ex_bottom (ex_bottom.row_range 0 1)
    (ex_bottom.row_range 1 2) [ex_hidden] ex_top ex_top ex_hidden ex_opt rfl rfl rfl rfl
    (fun t i _ _ => by
      simp [Mat.at2, Mat.row_range, Mat.row, Mat.buf, ex_bottom, ex_mat])
    (fun t i _ _ => by
      simp only [Mat.at2, Mat.row_range, Mat.row, Mat.buf, ex_bottom, ex_mat]
      push_cast
      ring)
    (forward_vec_hidden_clone _ _ _ _ _ rfl) rfl rfl rfl rfl rfl⟩

end

section

variable {α : Type}

/-! ### Reading a packed channel back -/

theorem bias_sel_sel (r : Nat) (hr : r < 4) : bias_sel (bias_sel r) = r := by
  have h : r = 0 ∨ r = 1 ∨ r = 2 ∨ r = 3 := by omega
  rcases h with rfl | rfl | rfl | rfl <;> rfl

theorem bias_sel_lt (r : Nat) (hr : r < 4) : bias_sel r < 4 := by
  have h : r = 0 ∨ r = 1 ∨ r = 2 ∨ r = 3 := by omega
  rcases h with rfl | rfl | rfl | rfl <;> decide

theorem unpack_mat_buf (cfg : Build) (n cols : Nat) (src dst P : Mat α)
    (hbuf : P.buf = pack_mat cfg n cols src dst)
    (hrowP : ∀ y, P.row y = y * packed_w cfg cols) (hrowd : ∀ y, dst.row y = y * packed_w cfg cols)
    (hw : src.w = cols) (hp : src.elempack = 1) (j : Nat) (hj : j < cols * (3 * n)) :
    (unpack_mat cfg n cols P).buf j = src.buf j := by
  have hc : 0 < cols := by
    rcases Nat.eq_zero_or_pos cols with h | h
    · rw [h] at hj; simp at hj
    · exact h
  have hr : j / cols < 3 * n := (Nat.div_lt_iff_lt_mul hc).mpr (by rw [Nat.mul_comm]; exact hj)
  have hi : j % cols < cols := Nat.mod_lt _ hc
  have h := pack_pos_read cfg n cols src dst P hbuf hrowP hrowd (j / cols) (j % cols) hr hi
  have e : j / cols * cols + j % cols = j := Nat.div_add_mod' j cols
  show P.buf (pack_pos cfg n cols (j / cols) (j % cols)) = src.buf j
  rw [h, Mat.at2, Mat.row, hw, hp, Nat.mul_one, e]

theorem unpack_bias_buf (cfg : Build) (n : Nat) (bias_c dst P : Mat α)
    (hbuf : P.buf = (pack_bias cfg n bias_c dst).mem) (hd : dst.row 0 = 0)
    (hw : bias_c.w = n) (hp : bias_c.elempack = 1) (j : Nat) (hj : j < n * 4) :
    (unpack_bias cfg n P).buf j = bias_c.buf j := by
  have hc : 0 < n := by
    rcases Nat.eq_zero_or_pos n with h | h
    · rw [h] at hj; simp at hj
    · exact h
  have hr : j / n < 4 := (Nat.div_lt_iff_lt_mul hc).mpr (by rw [Nat.mul_comm]; exact hj)
  have hq : j % n < n := Nat.mod_lt _ hc
  have h := packed_bias_read cfg n bias_c dst hd (j % n) hq (bias_sel (j / n))
    (bias_sel_lt _ hr)
  have e : j / n * n + j % n = j := Nat.div_add_mod' j n
  show P.buf (bias_pos cfg n (bias_sel (j / n)) (j % n)) = bias_c.buf j
  rw [hbuf, bias_pos, h, bias_sel_sel _ hr, Mat.at2, Mat.row, hw, hp, Nat.mul_one, e]

/-- C11: the fp32 packing of `create_pipeline` is inverted by the index mappings `unpack_mat`
(weights) and `unpack_bias` (bias): for each direction, in both layouts and for every
`num_output`, unpacking the packed input-to-hidden, hidden-to-hidden and bias channel gives
tensors of the raw shape whose elements are exactly those of the raw channel. -/
theorem C11_unpack_roundtrip (cfg : Build) (self : GRU_arm α)
    (fresh_xc fresh_bias fresh_hc : Nat → Buf α) (opt : NcnnOption α) (dr : Nat)
    (hdr : dr < num_directions self.direction)
    (hxc : self.weight_xc_data.w = input_size self ∧ self.weight_xc_data.elempack = 1)
    (hhc : self.weight_hc_data.w = self.num_output ∧ self.weight_hc_data.elempack = 1)
    (hb : self.bias_c_data.w = self.num_output ∧ self.bias_c_data.elempack = 1) :
    ((unpack_mat cfg self.num_output (input_size self)
        ((create_pipeline cfg self fresh_xc fresh_bias fresh_hc opt).2.weight_xc_data_packed.channel
          dr)).w = self.weight_xc_data.w ∧
      (unpack_mat cfg self.num_output (input_size self)
        ((create_pipeline cfg self fresh_xc fresh_bias fresh_hc opt).2.weight_xc_data_packed.channel
          dr)).h = 3 * self.num_output ∧
      ∀ j, j < input_size self * (3 * self.num_output) →
        (unpack_mat cfg self.num_output (input_size self)
          ((create_pipeline cfg self fresh_xc fresh_bias fresh_hc
            opt).2.weight_xc_data_packed.channel dr)).buf j
          = (self.weight_xc_data.channel dr).buf j) ∧
    ((unpack_mat cfg self.num_output self.num_output
        ((create_pipeline cfg self fresh_xc fresh_bias fresh_hc opt).2.weight_hc_data_packed.channel
          dr)).w = self.weight_hc_data.w ∧
      (unpack_mat cfg self.num_output self.num_output
        ((create_pipeline cfg self fresh_xc fresh_bias fresh_hc opt).2.weight_hc_data_packed.channel
          dr)).h = 3 * self.num_output ∧
      ∀ j, j < self.num_output * (3 * self.num_output) →
        (unpack_mat cfg self.num_output self.num_output
          ((create_pipeline cfg self fresh_xc fresh_bias fresh_hc
            opt).2.weight_hc_data_packed.channel dr)).buf j
          = (self.weight_hc_data.channel dr).buf j) ∧
    ((unpack_bias cfg self.num_output
        ((create_pipeline cfg self fresh_xc fresh_bias fresh_hc opt).2.bias_c_data_packed.channel
          dr)).w = self.bias_c_data.w ∧
      (unpack_bias cfg self.num_output
        ((create_pipeline cfg self fresh_xc fresh_bias fresh_hc opt).2.bias_c_data_packed.channel
          dr)).h = 4 ∧
      ∀ j, j < self.num_output * 4 →
        (unpack_bias cfg self.num_output
          ((create_pipeline cfg self fresh_xc fresh_bias fresh_hc
            opt).2.bias_c_data_packed.channel dr)).buf j
          = (self.bias_c_data.channel dr).buf j) := by
  refine ⟨⟨hxc.1.symm, rfl, ?_⟩, ⟨hhc.1.symm, rfl, ?_⟩, ⟨hb.1.symm, rfl, ?_⟩⟩
  · intro j hj
    exact unpack_mat_buf cfg self.num_output (input_size self) _ _ _
      (packed_xc_buf cfg self fresh_xc fresh_bias fresh_hc opt dr hdr)
      (packed_xc_row cfg self fresh_xc fresh_bias fresh_hc opt dr)
      (created_xc_row cfg self fresh_xc fresh_bias fresh_hc dr) hxc.1 hxc.2 j hj
  · intro j hj
    exact unpack_mat_buf cfg self.num_output self.num_output _ _ _
      (packed_hc_buf cfg self fresh_xc fresh_bias fresh_hc opt dr hdr)
      (packed_hc_row cfg self fresh_xc fresh_bias fresh_hc opt dr)
      (created_hc_row cfg self fresh_xc fresh_bias fresh_hc dr) hhc.1 hhc.2 j hj
  · intro j hj
    exact unpack_bias_buf cfg self.num_output _ _ _
      (packed_bias_buf cfg self fresh_xc fresh_bias fresh_hc opt dr hdr)
      (created_bias_row0 cfg self fresh_xc fresh_bias fresh_hc dr) hb.1 hb.2 j hj

/-- Instance of C11 on the 5-unit example layer (one 4-lane group and one remaining unit):
the last element of the raw input-to-hidden tensor, at offset 29, is recovered. -/
theorem C11_unpack_roundtrip_witness :
    0 < num_directions (ex_layer 0).direction ∧
    (unpack_mat ex_cfg (ex_layer 0).num_output (input_size (ex_layer 0))
        ((ex_packed 0).weight_xc_data_packed.channel 0)).buf 29
      = ((ex_layer 0).weight_xc_data.channel 0).buf 29 :=
  ⟨by decide,
    (C11_unpack_roundtrip ex_cfg (ex_layer 0) ex_fresh ex_fresh ex_fresh ex_opt 0 (by decide)
      (by decide) (by decide) (by decide)).1.2.2 29 (by decide)⟩

/-- C20: in the 4-lane layout, for a group of 4 adjacent hidden units starting at `q` (`q` a
multiple of 4, `q + 3 < num_output`), row `q / 4` of the packed input-to-hidden channel holds,
for each input feature `i < size` and lane `l < 4`, the reset coefficient `Wxc[q+l][i]` at
offset `8*i + l`, the update coefficient `Wxc[num_output+q+l][i]` at offset `8*i + 4 + l`, and
the candidate coefficient `Wxc[2*num_output+q+l][i]` at offset `8*size + 4*i + l`; the packed
hidden-to-hidden channel holds `Whc` in the same way with `size` replaced by `num_output`. -/
theorem C20_group_layout (cfg : Build) (self : GRU_arm α)
    (fresh_xc fresh_bias fresh_hc : Nat → Buf α) (opt : NcnnOption α) (dr q l : Nat)
    (hneon : cfg.arm_neon = true) (hdr : dr < num_directions self.direction)
    (hq4 : q % 4 = 0) (hq : q + 3 < self.num_output) (hl : l < 4) :
    (∀ i, i < input_size self →
      ((create_pipeline cfg self fresh_xc fresh_bias fresh_hc opt).2.weight_xc_data_packed.channel
          dr).at2 (q / 4) (8 * i + l)
        = (self.weight_xc_data.channel dr).at2 (q + l) i ∧
      ((create_pipeline cfg self fresh_xc fresh_bias fresh_hc opt).2.weight_xc_data_packed.channel
          dr).at2 (q / 4) (8 * i + 4 + l)
        = (self.weight_xc_data.channel dr).at2 (self.num_output + q + l) i ∧
      ((create_pipeline cfg self fresh_xc fresh_bias fresh_hc opt).2.weight_xc_data_packed.channel
          dr).at2 (q / 4) (8 * input_size self + 4 * i + l)
        = (self.weight_xc_data.channel dr).at2 (2 * self.num_output + q + l) i) ∧
    (∀ i, i < self.num_output →
      ((create_pipeline cfg self fresh_xc fresh_bias fresh_hc opt).2.weight_hc_data_packed.channel
          dr).at2 (q / 4) (8 * i + l)
        = (self.weight_hc_data.channel dr).at2 (q + l) i ∧
      ((create_pipeline cfg self fresh_xc fresh_bias fresh_hc opt).2.weight_hc_data_packed.channel
          dr).at2 (q / 4) (8 * i + 4 + l)
        = (self.weight_hc_data.channel dr).at2 (self.num_output + q + l) i ∧
      ((create_pipeline cfg self fresh_xc fresh_bias fresh_hc opt).2.weight_hc_data_packed.channel
          dr).at2 (q / 4) (8 * self.num_output + 4 * i + l)
        = (self.weight_hc_data.channel dr).at2 (2 * self.num_output + q + l) i) := by
  have hq' : q + l < 4 * (self.num_output / 4) := by omega
  have e1 : (q + l) / 4 = q / 4 := by omega
  have e2 : (q + l) % 4 = l := by omega
  have hxr : ∀ y, ((create_pipeline cfg self fresh_xc fresh_bias fresh_hc
      opt).2.weight_xc_data_packed.channel dr).row y = y * (12 * input_size self) := by
    intro y
    rw [packed_xc_row, hneon, if_pos rfl]
  have hhr : ∀ y, ((create_pipeline cfg self fresh_xc fresh_bias fresh_hc
      opt).2.weight_hc_data_packed.channel dr).row y = y * (12 * self.num_output) := by
    intro y
    rw [packed_hc_row, hneon, if_pos rfl]
  have hxd : ∀ y, ((create_packed cfg self fresh_xc fresh_bias fresh_hc).xc.channel dr).row y
      = y * (12 * input_size self) := by
    intro y
    rw [created_xc_row, hneon, if_pos rfl]
  have hhd : ∀ y, ((create_packed cfg self fresh_xc fresh_bias fresh_hc).hc.channel dr).row y
      = y * (12 * self.num_output) := by
    intro y
    rw [created_hc_row, hneon, if_pos rfl]
  constructor
  · intro i hi
    have h := packed_group_read cfg hneon self.num_output (input_size self) _ _ _
      (packed_xc_buf cfg self fresh_xc fresh_bias fresh_hc opt dr hdr) hxr hxd (q + l) hq' i hi
    rw [e1, e2] at h
    simp only [Mat.at2, ← Nat.add_assoc] at h ⊢
    exact h
  · intro i hi
    have h := packed_group_read cfg hneon self.num_output self.num_output _ _ _
      (packed_hc_buf cfg self fresh_xc fresh_bias fresh_hc opt dr hdr) hhr hhd (q + l) hq' i hi
    rw [e1, e2] at h
    simp only [Mat.at2, ← Nat.add_assoc] at h ⊢
    exact h

/-- Instance of C20 on the 5-unit example layer: group 0, lane 2, input feature 1. -/
theorem C20_group_layout_witness :
    ex_cfg.arm_neon = true ∧ 0 + 3 < (ex_layer 0).num_output ∧
    ((ex_packed 0).weight_xc_data_packed.channel 0).at2 (0 / 4) (8 * 1 + 4 + 2)
      = ((ex_layer 0).weight_xc_data.channel 0).at2 ((ex_layer 0).num_output + 0 + 2) 1 :=
  ⟨rfl, by decide,
    ((C20_group_layout ex_cfg (ex_layer 0) ex_fresh ex_fresh ex_fresh ex_opt 0 0 2 rfl
      (by decide) (by decide) (by decide) (by decide)).1 1 (by decide)).2.1⟩

end

section

variable {α : Type}

/-- C12 as stated fails: with `NCNN_BF16` and `opt.use_bf16_storage` set, no int8 and no fp16
storage, `create_pipeline` packs the weights for bf16, while `forward` on an input of 32 bits
per element takes the fp32 path. -/
theorem C12_counterexample :
    create_pipeline_select { ncnn_int8 := true, ncnn_arm82 := true, ncnn_bf16 := true }
        (ex_layer 0) { ex_opt with use_bf16_storage := true } = Precision.bf16s ∧
    forward_select { ncnn_int8 := true, ncnn_arm82 := true, ncnn_bf16 := true }
        (ex_layer 0) { ex_opt with use_bf16_storage := true } 32 = Precision.fp32 ∧
    forward_select { ncnn_int8 := true, ncnn_arm82 := true, ncnn_bf16 := true }
        (ex_layer 0) { ex_opt with use_bf16_storage := true } 32
      ≠ create_pipeline_select { ncnn_int8 := true, ncnn_arm82 := true, ncnn_bf16 := true }
        (ex_layer 0) { ex_opt with use_bf16_storage := true } := by
  refine ⟨by decide, by decide, by decide⟩

/-- C12 (amended): for every build, layer configuration, options and input element width, the
path that `forward` selects is the path for which `create_pipeline` packed the weights exactly
when the input has 16 bits per element or `create_pipeline` selected int8 or fp32; in
particular the two agree whenever a selected 16-bit storage path comes with a 16-bit input. -/
theorem C12_path_agreement (ft : Features) (self : GRU_arm α) (opt : NcnnOption α)
    (elembits : Nat) :
    (forward_select ft self opt elembits = create_pipeline_select ft self opt ↔
      (elembits = 16 ∨ create_pipeline_select ft self opt = Precision.int8
        ∨ create_pipeline_select ft self opt = Precision.fp32)) ∧
    (create_pipeline_select ft self opt = Precision.int8 →
      forward_select ft self opt elembits = Precision.int8) ∧
    (create_pipeline_select ft self opt = Precision.fp32 →
      forward_select ft self opt elembits = Precision.fp32) ∧
    (elembits ≠ 16 → create_pipeline_select ft self opt = Precision.fp16s →
      forward_select ft self opt elembits = Precision.fp32) ∧
    (elembits ≠ 16 → create_pipeline_select ft self opt = Precision.bf16s →
      forward_select ft self opt elembits = Precision.fp32) := by
  unfold forward_select create_pipeline_select
  by_cases h1 : ft.ncnn_int8 = true ∧ self.int8_scale_term ≠ 0
  · simp [h1]
  · by_cases h2 : ft.ncnn_arm82 = true ∧ self.support_fp16_storage = true
        ∧ opt.use_fp16_storage = true
    · by_cases h3 : ft.ncnn_bf16 = true ∧ opt.use_bf16_storage = true
      · by_cases h4 : elembits = 16 <;> simp [h1, h2, h3, h4]
      · by_cases h4 : elembits = 16 <;> simp [h1, h2, h3, h4]
    · by_cases h3 : ft.ncnn_bf16 = true ∧ opt.use_bf16_storage = true
      · by_cases h4 : elembits = 16 <;> simp [h1, h2, h3, h4]
      · by_cases h4 : elembits = 16 <;> simp [h1, h2, h3, h4]

/-- C13 as stated fails: on the example layer (5 hidden units) with the creation of
`weight_xc_data_packed` failing and the other two succeeding, `create_pipeline` does not return
a non-zero status: it has no result at all (the packing loops store through the empty
tensor), and with the three tensors created the status it returns is 0. -/
theorem C13_counterexample :
    create_pipeline_alloc ex_cfg (ex_layer 0) none (some ex_fresh) (some ex_fresh) ex_opt
      = none ∧
    (¬ ∃ r, create_pipeline_alloc ex_cfg (ex_layer 0) none (some ex_fresh) (some ex_fresh)
        ex_opt = some r ∧ r.1 ≠ 0) ∧
    (create_pipeline_alloc ex_cfg (ex_layer 0) (some ex_fresh) (some ex_fresh) (some ex_fresh)
      ex_opt).map Prod.fst = some 0 := by
  refine ⟨rfl, ?_, rfl⟩
  rintro ⟨r, h, -⟩
  cases h

/-- C13 (amended): the fp32 body of `create_pipeline` has no test of the three packed tensors
after their creation (lines 61-69) and its only `return` is `return 0` (line 248). Whatever the
outcome of the three creations, a status that it returns is 0; when the three tensors are
created it returns 0 with the packed channels holding the result of `pack_mat`; when a
creation fails it returns no status (it goes on to the packing loops, which store through the
empty tensor). -/
theorem C13_unchecked_creation (cfg : Build) (self : GRU_arm α)
    (xc bias hc : Option (Nat → Buf α)) (opt : NcnnOption α) :
    (∀ r, create_pipeline_alloc cfg self xc bias hc opt = some r → r.1 = 0) ∧
    (∀ fresh_xc fresh_bias fresh_hc, xc = some fresh_xc → bias = some fresh_bias →
      hc = some fresh_hc →
      ∃ layer, create_pipeline_alloc cfg self xc bias hc opt = some (0, layer) ∧
        ∀ dr, dr < num_directions self.direction →
          (layer.weight_xc_data_packed.channel dr).buf
            = pack_mat cfg self.num_output (input_size self) (self.weight_xc_data.channel dr)
                ((create_packed cfg self fresh_xc fresh_bias fresh_hc).xc.channel dr)) ∧
    (xc = none ∨ bias = none ∨ hc = none →
      create_pipeline_alloc cfg self xc bias hc opt = none) := by
  refine ⟨?_, ?_, ?_⟩
  · intro r hr
    cases xc with
    | none => cases hr
    | some fx =>
      cases bias with
      | none => cases hr
      | some fb =>
        cases hc with
        | none => cases hr
        | some fh =>
          cases hr
          rfl
  · intro fx fb fh h1 h2 h3
    subst h1 h2 h3
    refine ⟨(create_pipeline cfg self fx fb fh opt).2, rfl, fun dr hdr => ?_⟩
    have h := create_pipeline_xc cfg self fx fb fh opt
    rw [h]
    simp [Mat.channel, Mat.buf, hdr]
  · intro h
    cases xc with
    | none => rfl
    | some fx =>
      cases bias with
      | none => rfl
      | some fb =>
        cases hc with
        | none => rfl
        | some fh =>
          rcases h with h | h | h <;> cases h

end

section

variable {α : Type}

/-! ### The status of `gru` and of `forward` -/

theorem Mat.create_w (w h : Nat) (a : Allocator α) (m : Mat α) (hm : Mat.create w h a = some m) :
    m.w = w := by
  unfold Mat.create at hm
  cases ha : a (w * h) with
  | none => rw [ha] at hm; cases hm
  | some b =>
    rw [ha] at hm
    cases hm
    rfl

variable [Field α]

theorem gru_status_cases (cfg : Build) (lm : Libm α) (bottom top : Mat α) (reverse : Nat)
    (wxc bias whc hidden : Mat α) (opt : NcnnOption α) :
    (gru cfg lm bottom top reverse wxc bias whc hidden opt).1
      = if (gates_create cfg top.w opt.workspace_allocator).isSome then 0 else -100 := by
  cases hg : gates_create cfg top.w opt.workspace_allocator with
  | none => rw [gru_fail cfg lm bottom top reverse wxc bias whc hidden opt hg]; rfl
  | some g => rw [gru_eq cfg lm bottom top reverse wxc bias whc hidden opt g hg]; rfl

theorem forward_status (cfg : Build) (lm : Libm α) (self : GRU_arm α) (bottom : Mat α)
    (opt : NcnnOption α) :
    (forward_allocs cfg self bottom opt → ∃ top, forward cfg lm self bottom opt = .ok top) ∧
    (¬ forward_allocs cfg self bottom opt → forward cfg lm self bottom opt = .error (-100)) := by
  unfold forward forward_allocs
  simp only []
  cases h1 : Mat.create self.num_output 1 opt.workspace_allocator with
  | none => simp
  | some hidden =>
    cases h2 : Mat.create (self.num_output * num_directions self.direction) bottom.h
        opt.blob_allocator with
    | none => simp
    | some top =>
      have hw := Mat.create_w _ _ _ _ h2
      by_cases hd : self.direction = 0 ∨ self.direction = 1
      · have hd2 : self.direction ≠ 2 := by omega
        simp only [hd, if_true, gru_status_cases, hw, Option.isSome_some, true_and, hd2,
          false_implies, and_true, true_implies]
        cases hg : gates_create cfg (self.num_output * num_directions self.direction)
            opt.workspace_allocator with
        | none => simp
        | some g => simp
      · by_cases hd2 : self.direction = 2
        · simp only [hd, if_false, hd2, if_true, Option.isSome_some, true_and, false_implies,
            true_implies]
          cases h3 : Mat.create self.num_output bottom.h opt.workspace_allocator with
          | none => simp
          | some sc =>
            have hw3 := Mat.create_w _ _ _ _ h3
            simp only [gru_status_cases, hw3, Option.isSome_some, true_and]
            cases hg : gates_create cfg self.num_output opt.workspace_allocator with
            | none => simp
            | some g => simp
        · simp [hd, hd2]

theorem forward_vec_status (cfg : Build) (lm : Libm α) (self : GRU_arm α)
    (bottom_blobs top_blobs : List (Mat α)) (opt : NcnnOption α)
    (hlen : bottom_blobs.length ≠ 2) :
    (forward_vec_allocs cfg self bottom_blobs top_blobs opt →
      ∃ tops, forward_vec cfg lm self bottom_blobs top_blobs opt = .ok tops) ∧
    (¬ forward_vec_allocs cfg self bottom_blobs top_blobs opt →
      forward_vec cfg lm self bottom_blobs top_blobs opt = .error (-100)) := by
  unfold forward_vec forward_vec_allocs forward_vec_hidden
  simp only [hlen, if_false]
  cases h1 : Mat.create self.num_output (num_directions self.direction)
      (if top_blobs.length = 2 then opt.blob_allocator else opt.workspace_allocator) with
  | none => simp
  | some hidden =>
    cases h2 : Mat.create (self.num_output * num_directions self.direction)
        (bottom_blobs.getD 0 Mat.null).h opt.blob_allocator with
    | none => simp
    | some top =>
      have hw := Mat.create_w _ _ _ _ h2
      by_cases hd : self.direction = 0 ∨ self.direction = 1
      · have hd2 : self.direction ≠ 2 := by omega
        simp only [Option.map_some', hd, if_true, gru_status_cases, hw, Option.isSome_some,
          true_and, hd2, false_implies, and_true, true_implies]
        cases hg : gates_create cfg (self.num_output * num_directions self.direction)
            opt.workspace_allocator with
        | none => simp
        | some g => simp
      · by_cases hd2 : self.direction = 2
        · simp only [Option.map_some', hd, if_false, hd2, if_true, Option.isSome_some, true_and,
            false_implies, true_implies]
          cases h3 : Mat.create self.num_output (bottom_blobs.getD 0 Mat.null).h
              opt.workspace_allocator with
          | none => simp
          | some sc =>
            have hw3 := Mat.create_w _ _ _ _ h3
            simp only [gru_status_cases, hw3, Option.isSome_some, true_and]
            cases hg : gates_create cfg self.num_output opt.workspace_allocator with
            | none => simp
            | some g => simp
        · simp [hd, hd2]

theorem forward_vec_error (cfg : Build) (lm : Libm α) (self : GRU_arm α)
    (bottom_blobs top_blobs : List (Mat α)) (opt : NcnnOption α) (e : Int)
    (he : forward_vec cfg lm self bottom_blobs top_blobs opt = .error e) : e = -100 := by
  unfold forward_vec at he
  simp only [gru_status_cases] at he
  cases h1 : forward_vec_hidden self bottom_blobs top_blobs opt with
  | none =>
    simp only [h1] at he
    injection he with he
    exact he.symm
  | some hidden =>
    simp only [h1] at he
    cases h2 : Mat.create (self.num_output * num_directions self.direction)
        (bottom_blobs.getD 0 Mat.null).h opt.blob_allocator with
    | none =>
      simp only [h2] at he
      injection he with he
      exact he.symm
    | some top =>
      simp only [h2] at he
      cases h3 : Mat.create self.num_output (bottom_blobs.getD 0 Mat.null).h
          opt.workspace_allocator with
      | none =>
        simp only [h3] at he
        split_ifs at he <;> simp_all
      | some sc =>
        simp only [h3] at he
        split_ifs at he <;> simp_all

theorem forward_error (cfg : Build) (lm : Libm α) (self : GRU_arm α) (bottom : Mat α)
    (opt : NcnnOption α) (e : Int) (he : forward cfg lm self bottom opt = .error e) :
    e = -100 := by
  by_cases h : forward_allocs cfg self bottom opt
  · obtain ⟨top, ht⟩ := (forward_status cfg lm self bottom opt).1 h
    rw [ht] at he
    cases he
  · rw [(forward_status cfg lm self bottom opt).2 h] at he
    injection he with he
    exact he.symm

/-- C14, the part that holds: the single-input `forward` (fp32) returns 0 exactly when every
creation it makes yields a non-empty tensor and returns -100 otherwise; the same holds for the
multi-input `forward` called without an incoming hidden state; and neither overload ever
returns a status other than 0 and -100. -/
theorem C14_forward_status (cfg : Build) (lm : Libm α) (self : GRU_arm α) (bottom : Mat α)
    (bottom_blobs top_blobs : List (Mat α)) (opt : NcnnOption α) :
    ((∃ top, forward cfg lm self bottom opt = .ok top) ↔ forward_allocs cfg self bottom opt) ∧
    (¬ forward_allocs cfg self bottom opt → forward cfg lm self bottom opt = .error (-100)) ∧
    (∀ e, forward cfg lm self bottom opt = .error e → e = -100) ∧
    (bottom_blobs.length ≠ 2 →
      ((∃ tops, forward_vec cfg lm self bottom_blobs top_blobs opt = .ok tops) ↔
        forward_vec_allocs cfg self bottom_blobs top_blobs opt) ∧
      (¬ forward_vec_allocs cfg self bottom_blobs top_blobs opt →
        forward_vec cfg lm self bottom_blobs top_blobs opt = .error (-100))) ∧
    (∀ e, forward_vec cfg lm self bottom_blobs top_blobs opt = .error e → e = -100) := by
  obtain ⟨f1, f2⟩ := forward_status cfg lm self bottom opt
  refine ⟨⟨fun h => ?_, f1⟩, f2, fun e he => forward_error cfg lm self bottom opt e he,
    fun hlen => ?_, fun e he => forward_vec_error cfg lm self bottom_blobs top_blobs opt e he⟩
  · by_contra hn
    obtain ⟨top, ht⟩ := h
    rw [f2 hn] at ht
    cases ht
  · obtain ⟨v1, v2⟩ := forward_vec_status cfg lm self bottom_blobs top_blobs opt hlen
    refine ⟨⟨fun h => ?_, v1⟩, v2⟩
    by_contra hn
    obtain ⟨tops, ht⟩ := h
    rw [v2 hn] at ht
    cases ht

/-- C14 fails on the code for the multi-input `forward` called with an incoming hidden
state: the result of `clone` at line 737 is not tested. On the example layer, with a blob
allocator that fails for the 5 floats of the clone and succeeds otherwise, the clone fails and
the call still ends with status 0. -/
theorem C14_clone_unchecked :
    ex_hidden.clone ex_opt_not5.blob_allocator = none ∧
    ∃ tops, forward_vec ex_cfg ex_lm (ex_packed 0) [ex_bottom, ex_hidden] [ex_top, ex_top]
      ex_opt_not5 = .ok tops :=
  ⟨rfl, _, forward_vec_uni_eq ex_cfg ex_lm (ex_packed 0) [ex_bottom, ex_hidden] [ex_top, ex_top]
    ex_opt_not5 (Or.inl rfl) Mat.null (fun _ => 0) rfl rfl (by decide)⟩

end

section

variable {α : Type} [LinearOrderedField α]

/-! ### dynamic_quantize: absmax of a row, scale and descale of a timestep -/

theorem absmax_range (cvt : α → α) (m : Buf α) (x : Nat) (n : Nat) :
    0 ≤ forRange n (absmax_step cvt m x) 0 ∧
    (∀ i, i < n → |cvt (m (x + i))| ≤ forRange n (absmax_step cvt m x) 0) ∧
    (forRange n (absmax_step cvt m x) 0 = 0 ∨
      ∃ i, i < n ∧ |cvt (m (x + i))| = forRange n (absmax_step cvt m x) 0) := by
  induction n with
  | zero => exact ⟨le_refl _, fun i hi => absurd hi (Nat.not_lt_zero i), Or.inl rfl⟩
  | succ k ih =>
    obtain ⟨h0, h1, h2⟩ := ih
    simp only [forRange, absmax_step]
    refine ⟨le_max_of_le_left h0, ?_, ?_⟩
    · intro i hi
      rcases Nat.lt_succ_iff_lt_or_eq.mp hi with h | h
      · exact le_max_of_le_left (h1 i h)
      · rw [h]; exact le_max_right _ _
    · rcases le_total (forRange k (absmax_step cvt m x) 0) |cvt (m (x + k))| with h | h
      · right
        exact ⟨k, Nat.lt_succ_self k, (max_eq_right h).symm⟩
      · rw [max_eq_left h]
        rcases h2 with h2 | ⟨i, hi, h2⟩
        · exact Or.inl h2
        · exact Or.inr ⟨i, Nat.lt_succ_of_lt hi, h2⟩

theorem absmax_row_spec (cvt : α → α) (m : Buf α) (x size : Nat) :
    0 ≤ absmax_row cvt m x size ∧
    (∀ i, i < size → |cvt (m (x + i))| ≤ absmax_row cvt m x size) ∧
    (absmax_row cvt m x size = 0 ∨
      ∃ i, i < size ∧ |cvt (m (x + i))| = absmax_row cvt m x size) := by
  unfold absmax_row
  rw [forFrom_zero]
  exact absmax_range cvt m x size

theorem absmax_range_congr (cvt : α → α) (m m2 : Buf α) (x x2 : Nat) (n : Nat)
    (h : ∀ i, i < n → m2 (x2 + i) = m (x + i)) :
    forRange n (absmax_step cvt m2 x2) 0 = forRange n (absmax_step cvt m x) 0 := by
  induction n with
  | zero => rfl
  | succ k ih =>
    simp only [forRange, absmax_step]
    rw [ih (fun i hi => h i (Nat.lt_succ_of_lt hi)), h k (Nat.lt_succ_self k)]

theorem absmax_row_congr (cvt : α → α) (m m2 : Buf α) (x x2 : Nat) (size : Nat)
    (h : ∀ i, i < size → m2 (x2 + i) = m (x + i)) :
    absmax_row cvt m2 x2 size = absmax_row cvt m x size := by
  unfold absmax_row
  rw [forFrom_zero, forFrom_zero]
  exact absmax_range_congr cvt m m2 x x2 size h

theorem quantize_scale_loop (rnd : α → F32 α) (cvt : α → α) (bottom : Mat α)
    (s : QuantScales α) (n : Nat) :
    (∀ t, (forRange n (quantize_scale_row rnd cvt bottom) s).scales t
      = if t < n then fdiv rnd 127 (absmax_row cvt bottom.buf (bottom.row t) bottom.w)
        else s.scales t) ∧
    (∀ t, (forRange n (quantize_scale_row rnd cvt bottom) s).descales t
      = if t < n then fdiv rnd (absmax_row cvt bottom.buf (bottom.row t) bottom.w) 127
        else s.descales t) := by
  induction n with
  | zero => exact ⟨fun t => rfl, fun t => rfl⟩
  | succ k ih =>
    obtain ⟨h1, h2⟩ := ih
    constructor
    · intro t
      simp only [forRange, quantize_scale_row, store]
      by_cases e : t = k
      · rw [if_pos e, if_pos (by omega), e]
      · rw [if_neg e, h1]
        by_cases c : t < k
        · rw [if_pos c, if_pos (by omega)]
        · rw [if_neg c, if_neg (by omega)]
    · intro t
      simp only [forRange, quantize_scale_row, store]
      by_cases e : t = k
      · rw [if_pos e, if_pos (by omega), e]
      · rw [if_neg e, h2]
        by_cases c : t < k
        · rw [if_pos c, if_pos (by omega)]
        · rw [if_neg c, if_neg (by omega)]

theorem dynamic_quantize_scales_at (rnd : α → F32 α) (cv : Cast16 α) (bottom : Mat α)
    (elemtype : Nat) (fs fd : Buf (F32 α)) (t : Nat)
    (he : elemtype = 1 ∨ elemtype = 2 ∨ elemtype = 4) (ht : t < bottom.h) :
    (dynamic_quantize_scales rnd cv bottom elemtype fs fd).scales t
      = fdiv rnd 127 (absmax_row (quant_read cv elemtype) bottom.buf (bottom.row t) bottom.w) ∧
    (dynamic_quantize_scales rnd cv bottom elemtype fs fd).descales t
      = fdiv rnd (absmax_row (quant_read cv elemtype) bottom.buf (bottom.row t) bottom.w)
          127 := by
  unfold dynamic_quantize_scales quant_read
  rcases he with rfl | rfl | rfl
  · simp only [if_true, OfNat.one_ne_ofNat, if_false, forFrom_zero]
    obtain ⟨h1, h2⟩ := quantize_scale_loop rnd (fun v => v) bottom ⟨fs, fd⟩ bottom.h
    rw [h1, h2, if_pos ht, if_pos ht]
    exact ⟨rfl, rfl⟩
  · simp only [if_true, OfNat.ofNat_ne_one, if_false, forFrom_zero,
      show ¬ ((2 : Nat) = 4) by decide]
    obtain ⟨h1, h2⟩ := quantize_scale_loop rnd cv.float16_to_float32 bottom ⟨fs, fd⟩ bottom.h
    rw [h1, h2, if_pos ht, if_pos ht]
    exact ⟨rfl, rfl⟩
  · simp only [if_true, OfNat.ofNat_ne_one, if_false, forFrom_zero,
      show ¬ ((4 : Nat) = 2) by decide]
    obtain ⟨h1, h2⟩ := quantize_scale_loop rnd cv.bfloat16_to_float32 bottom ⟨fs, fd⟩ bottom.h
    rw [h1, h2, if_pos ht, if_pos ht]
    exact ⟨rfl, rfl⟩

theorem fdiv_of_ne_zero (rnd : α → F32 α) (a b : α) (hb : b ≠ 0) :
    fdiv rnd a b = rnd (a / b) := by
  unfold fdiv
  rw [if_pos hb]

theorem fdiv_pos_zero (rnd : α → F32 α) (a : α) (ha : 0 < a) : fdiv rnd a 0 = F32.pinf := by
  unfold fdiv
  rw [if_neg (by simp), if_neg (ne_of_gt ha), if_pos ha]

/-! ### Single-precision rounding -/

theorem round_half_even_eq (r : ℚ) (m : ℤ) (h1 : (m : ℚ) - 1 / 2 < r) (h2 : r < m + 1 / 2) :
    round_half_even r = m := by
  unfold round_half_even
  rcases le_or_lt (m : ℚ) r with h | h
  · have hf : ⌊r⌋ = m := by
      rw [Int.floor_eq_iff]
      constructor
      · exact h
      · linarith
    rw [hf, if_pos (by linarith)]
  · have hf : ⌊r⌋ = m - 1 := by
      rw [Int.floor_eq_iff]
      push_cast
      constructor
      · linarith
      · linarith
    rw [hf]
    push_cast
    rw [if_neg (by linarith), if_pos (by linarith)]
    ring

theorem f32_ulp_eq (q : ℚ) (e : ℤ) (he : -126 ≤ e) (h1 : (2 : ℚ) ^ e ≤ |q|)
    (h2 : |q| < (2 : ℚ) ^ (e + 1)) : f32_ulp q = (2 : ℚ) ^ (e - 23) := by
  unfold f32_ulp
  have hpos : 0 < |q| := lt_of_lt_of_le (by positivity) h1
  have a1 : e ≤ Int.log 2 |q| :=
    (Int.zpow_le_iff_le_log (by norm_num) hpos).mp (by push_cast; exact h1)
  have a2 : Int.log 2 |q| < e + 1 :=
    (Int.lt_zpow_iff_log_lt (by norm_num) hpos).mp (by push_cast; exact h2)
  have hl : Int.log 2 |q| = e := by omega
  rw [hl, max_eq_left he]

/-- The rounded value of `q` is `m * 2 ^ (e - 23)` when `q` lies in the binade of `2 ^ e`
and within half a unit of `m` in units of `2 ^ (e - 23)`. -/
theorem f32_fl_eq (q : ℚ) (e m : ℤ) (he : -126 ≤ e) (h1 : (2 : ℚ) ^ e ≤ |q|)
    (h2 : |q| < (2 : ℚ) ^ (e + 1))
    (h3 : ((m : ℚ) - 1 / 2) * (2 : ℚ) ^ (e - 23) < q)
    (h4 : q < ((m : ℚ) + 1 / 2) * (2 : ℚ) ^ (e - 23)) :
    f32_fl q = (m : ℚ) * (2 : ℚ) ^ (e - 23) := by
  unfold f32_fl
  rw [f32_ulp_eq q e he h1 h2]
  have hp : (0 : ℚ) < (2 : ℚ) ^ (e - 23) := by positivity
  rw [round_half_even_eq _ m (by rw [lt_div_iff₀ hp]; exact h3)
    (by rw [div_lt_iff₀ hp]; exact h4)]

theorem f32_fl_zero : f32_fl 0 = 0 := by
  unfold f32_fl
  rw [zero_div, round_half_even_eq 0 0 (by norm_num) (by norm_num)]
  norm_num

theorem f32_round_of_fl (q v : ℚ) (h : f32_fl q = v) (h1 : v < (2 : ℚ) ^ 128)
    (h2 : -(2 : ℚ) ^ 128 < v) : f32_round q = F32.fin v := by
  unfold f32_round
  rw [h, if_neg (not_le.mpr h1), if_neg (not_le.mpr h2)]

theorem f32_round_zero : f32_round 0 = F32.fin 0 :=
  f32_round_of_fl 0 0 f32_fl_zero (by norm_num) (by norm_num)

/-- Scale and descale of the sequence that consists of the single fp32 value `v`. -/
theorem one_row_scales {γ : Type} (rnd : ℚ → F32 ℚ) (quantize_to_int8 : Mat ℚ → Mat (F32 ℚ) → γ)
    (v : ℚ) (fs fd : Buf (F32 ℚ)) :
    (dynamic_quantize rnd ex_cast16 quantize_to_int8 (const_mat v 1 1 1) 1 fs
        fd).bottom_blob_int8_scales.buf 0 = fdiv rnd 127 |v| ∧
    (dynamic_quantize rnd ex_cast16 quantize_to_int8 (const_mat v 1 1 1) 1 fs
        fd).bottom_blob_int8_descales.buf 0 = fdiv rnd |v| 127 := by
  obtain ⟨s1, s2⟩ := dynamic_quantize_scales_at rnd ex_cast16 (const_mat v 1 1 1) 1 fs fd 0
    (Or.inl rfl) Nat.zero_lt_one
  have hA : absmax_row (quant_read ex_cast16 1) (const_mat v 1 1 1).buf
      ((const_mat v 1 1 1).row 0) (const_mat v 1 1 1).w = |v| := by
    rw [absmax_row, forFrom_zero]
    simp [forRange, absmax_step, quant_read, const_mat, Mat.buf, Mat.row]
  rw [hA] at s1 s2
  exact ⟨s1, s2⟩

/-- For a row whose elements are all zero: `absmax` is 0, the stored scale is `+inf` and the
stored descale is the rounding of 0. -/
theorem zero_row_scales {γ : Type} (rnd : α → F32 α) (cv : Cast16 α)
    (quantize_to_int8 : Mat α → Mat (F32 α) → γ) (bottom_blob : Mat α) (elemtype : Nat)
    (fresh_scales fresh_descales : Buf (F32 α)) (t : Nat)
    (he : elemtype = 1 ∨ elemtype = 2 ∨ elemtype = 4) (ht : t < bottom_blob.h)
    (hz : ∀ i, i < bottom_blob.w → quant_read cv elemtype (bottom_blob.at2 t i) = 0) :
    absmax_row (quant_read cv elemtype) bottom_blob.buf (bottom_blob.row t) bottom_blob.w = 0 ∧
    (dynamic_quantize rnd cv quantize_to_int8 bottom_blob elemtype fresh_scales
        fresh_descales).bottom_blob_int8_scales.buf t = F32.pinf ∧
    (dynamic_quantize rnd cv quantize_to_int8 bottom_blob elemtype fresh_scales
        fresh_descales).bottom_blob_int8_descales.buf t = rnd 0 := by
  obtain ⟨-, -, a2⟩ := absmax_row_spec (quant_read cv elemtype) bottom_blob.buf
    (bottom_blob.row t) bottom_blob.w
  obtain ⟨s1, s2⟩ := dynamic_quantize_scales_at rnd cv bottom_blob elemtype fresh_scales
    fresh_descales t he ht
  have hA : absmax_row (quant_read cv elemtype) bottom_blob.buf (bottom_blob.row t)
      bottom_blob.w = 0 := by
    rcases a2 with h | ⟨i, hi, h⟩
    · exact h
    · rw [← h]
      have := hz i hi
      rw [Mat.at2] at this
      rw [this, abs_zero]
  have h127 : (127 : α) ≠ 0 := by norm_num
  refine ⟨hA, ?_, ?_⟩
  · show (dynamic_quantize_scales rnd cv bottom_blob elemtype fresh_scales
      fresh_descales).scales t = _
    rw [s1, hA, fdiv_pos_zero _ _ (by norm_num)]
  · show (dynamic_quantize_scales rnd cv bottom_blob elemtype fresh_scales
      fresh_descales).descales t = _
    rw [s2, hA, fdiv_of_ne_zero _ _ _ h127, zero_div]

/-- C15 as stated fails in single precision. For the sequence that consists of the single
fp32 value 3 (one timestep, `absmax` = 3) the stored scale is the float nearest to 127/3,
`11097429 / 2^18`, and the stored descale the float nearest to 3/127, `6340995 / 2^28`:
neither is the exact quotient, their product is not 1, and the product as a `float`
multiplication computes it, `1 - 2^-24`, is not 1 either. -/
theorem C15_counterexample :
    (dynamic_quantize f32_round ex_cast16 (fun _ _ => ()) (const_mat (3 : ℚ) 1 1 1) 1
        (fun _ => F32.nan) (fun _ => F32.nan)).bottom_blob_int8_scales.buf 0
      = F32.fin (11097429 / 262144) ∧
    (dynamic_quantize f32_round ex_cast16 (fun _ _ => ()) (const_mat (3 : ℚ) 1 1 1) 1
        (fun _ => F32.nan) (fun _ => F32.nan)).bottom_blob_int8_descales.buf 0
      = F32.fin (6340995 / 268435456) ∧
    (11097429 / 262144 : ℚ) ≠ 127 / 3 ∧
    (6340995 / 268435456 : ℚ) ≠ 3 / 127 ∧
    (11097429 / 262144 : ℚ) * (6340995 / 268435456) ≠ 1 ∧
    f32_round ((11097429 / 262144) * (6340995 / 268435456)) = F32.fin (16777215 / 16777216) := by
  obtain ⟨s1, s2⟩ := one_row_scales f32_round (fun _ _ => ()) 3 (fun _ => F32.nan)
    (fun _ => F32.nan)
  have h3 : |(3 : ℚ)| = 3 := abs_of_pos (by norm_num)
  rw [h3] at s1 s2
  have e1 : f32_fl (127 / 3) = 11097429 / 262144 := by
    rw [f32_fl_eq (127 / 3) 5 11097429 (by norm_num) (by rw [abs_of_pos] <;> norm_num)
      (by rw [abs_of_pos] <;> norm_num) (by norm_num) (by norm_num)]
    norm_num
  have e2 : f32_fl (3 / 127) = 6340995 / 268435456 := by
    rw [f32_fl_eq (3 / 127) (-6) 12681990 (by norm_num) (by rw [abs_of_pos] <;> norm_num)
      (by rw [abs_of_pos] <;> norm_num) (by norm_num) (by norm_num)]
    norm_num
  have e3 : f32_fl ((11097429 / 262144) * (6340995 / 268435456)) = 16777215 / 16777216 := by
    rw [f32_fl_eq _ (-1) 16777215 (by norm_num) (by rw [abs_of_pos] <;> norm_num)
      (by rw [abs_of_pos] <;> norm_num) (by norm_num) (by norm_num)]
    norm_num
  refine ⟨?_, ?_, by norm_num, by norm_num, by norm_num, ?_⟩
  · rw [s1, fdiv_of_ne_zero _ _ _ (by norm_num)]
    exact f32_round_of_fl _ _ e1 (by norm_num) (by norm_num)
  · rw [s2, fdiv_of_ne_zero _ _ _ (by norm_num)]
    exact f32_round_of_fl _ _ e2 (by norm_num) (by norm_num)
  · exact f32_round_of_fl _ _ e3 (by norm_num) (by norm_num)

/-- C15 (amended): for a timestep `t` whose row has a non-zero element, `dynamic_quantize`
computes `absmax` as the maximum of `|x[t][i]|` over row `t` (an upper bound that is attained),
stores as `scale[t]` the quotient `127 / absmax` and as `descale[t]` the quotient
`absmax / 127`, each rounded by the float format (`rnd`); the exact quotients have product 1;
and another sequence that agrees with this one on row `t` gets the same `scale[t]` and
`descale[t]` whatever its other rows and the initial contents of the two tensors. Holds for
the element types 1 (fp32), 2 (fp16) and 4 (bf16), `x` being the value read from storage, and
for every rounding, exact arithmetic (`F32.fin`) and single precision (`f32_round`)
included. -/
theorem C15_row_scales {γ : Type} (rnd : α → F32 α) (cv : Cast16 α)
    (quantize_to_int8 : Mat α → Mat (F32 α) → γ)
    (bottom_blob : Mat α) (elemtype : Nat) (fresh_scales fresh_descales : Buf (F32 α)) (t : Nat)
    (he : elemtype = 1 ∨ elemtype = 2 ∨ elemtype = 4) (ht : t < bottom_blob.h)
    (hnz : ∃ i, i < bottom_blob.w ∧ quant_read cv elemtype (bottom_blob.at2 t i) ≠ 0) :
    ∃ absmax : α,
      (∀ i, i < bottom_blob.w → |quant_read cv elemtype (bottom_blob.at2 t i)| ≤ absmax) ∧
      (∃ i, i < bottom_blob.w ∧ |quant_read cv elemtype (bottom_blob.at2 t i)| = absmax) ∧
      0 < absmax ∧
      (dynamic_quantize rnd cv quantize_to_int8 bottom_blob elemtype fresh_scales
          fresh_descales).bottom_blob_int8_scales.buf t = rnd (127 / absmax) ∧
      (dynamic_quantize rnd cv quantize_to_int8 bottom_blob elemtype fresh_scales
          fresh_descales).bottom_blob_int8_descales.buf t = rnd (absmax / 127) ∧
      (127 / absmax) * (absmax / 127) = 1 ∧
      ∀ (bottom_blob2 : Mat α) (fresh_scales2 fresh_descales2 : Buf (F32 α)),
        bottom_blob2.w = bottom_blob.w → t < bottom_blob2.h →
        (∀ i, i < bottom_blob.w → bottom_blob2.at2 t i = bottom_blob.at2 t i) →
        (dynamic_quantize rnd cv quantize_to_int8 bottom_blob2 elemtype fresh_scales2
            fresh_descales2).bottom_blob_int8_scales.buf t
          = (dynamic_quantize rnd cv quantize_to_int8 bottom_blob elemtype fresh_scales
            fresh_descales).bottom_blob_int8_scales.buf t ∧
        (dynamic_quantize rnd cv quantize_to_int8 bottom_blob2 elemtype fresh_scales2
            fresh_descales2).bottom_blob_int8_descales.buf t
          = (dynamic_quantize rnd cv quantize_to_int8 bottom_blob elemtype fresh_scales
            fresh_descales).bottom_blob_int8_descales.buf t := by
  obtain ⟨a0, a1, a2⟩ := absmax_row_spec (quant_read cv elemtype) bottom_blob.buf
    (bottom_blob.row t) bottom_blob.w
  obtain ⟨s1, s2⟩ := dynamic_quantize_scales_at rnd cv bottom_blob elemtype fresh_scales
    fresh_descales t he ht
  obtain ⟨i0, hi0, hv0⟩ := hnz
  have hpos : 0 < absmax_row (quant_read cv elemtype) bottom_blob.buf (bottom_blob.row t)
      bottom_blob.w := lt_of_lt_of_le (abs_pos.mpr hv0) (a1 i0 hi0)
  have hne := ne_of_gt hpos
  have h127 : (127 : α) ≠ 0 := by norm_num
  refine ⟨absmax_row (quant_read cv elemtype) bottom_blob.buf (bottom_blob.row t) bottom_blob.w,
    a1, ?_, hpos, ?_, ?_, ?_, ?_⟩
  · rcases a2 with h | h
    · exact absurd h hne
    · exact h
  · show (dynamic_quantize_scales rnd cv bottom_blob elemtype fresh_scales
      fresh_descales).scales t = _
    rw [s1, fdiv_of_ne_zero _ _ _ hne]
  · show (dynamic_quantize_scales rnd cv bottom_blob elemtype fresh_scales
      fresh_descales).descales t = _
    rw [s2, fdiv_of_ne_zero _ _ _ h127]
  · field_simp
  · intro b2 fs2 fd2 hw ht2 hrow
    obtain ⟨r1, r2⟩ := dynamic_quantize_scales_at rnd cv b2 elemtype fs2 fd2 t he ht2
    have hc : absmax_row (quant_read cv elemtype) b2.buf (b2.row t) b2.w
        = absmax_row (quant_read cv elemtype) bottom_blob.buf (bottom_blob.row t)
            bottom_blob.w := by
      rw [hw]
      exact absmax_row_congr _ _ _ _ _ _ hrow
    constructor
    · show (dynamic_quantize_scales rnd cv b2 elemtype fs2 fd2).scales t
        = (dynamic_quantize_scales rnd cv bottom_blob elemtype fresh_scales
            fresh_descales).scales t
      rw [r1, s1, hc]
    · show (dynamic_quantize_scales rnd cv b2 elemtype fs2 fd2).descales t
        = (dynamic_quantize_scales rnd cv bottom_blob elemtype fresh_scales
            fresh_descales).descales t
      rw [r2, s2, hc]

/-- Instance of the amended C15 in single precision: fp32 input, the second row of the
example sequence, whose elements are 5 and 7. -/
theorem C15_row_scales_witness :
    1 < ex_bottom.h ∧ quant_read ex_cast16 1 (ex_bottom.at2 1 0) ≠ 0 ∧
    ∃ absmax : ℚ,
      (dynamic_quantize f32_round ex_cast16 (fun _ _ => ()) ex_bottom 1 (fun _ => F32.nan)
          (fun _ => F32.nan)).bottom_blob_int8_scales.buf 1 = f32_round (127 / absmax) ∧
      (127 / absmax) * (absmax / 127) = 1 :=
  ⟨by decide, by norm_num [quant_read, ex_cast16, ex_bottom, ex_mat, Mat.at2, Mat.buf, Mat.row],
    (C15_row_scales f32_round ex_cast16 (fun _ _ => ()) ex_bottom 1 (fun _ => F32.nan)
      (fun _ => F32.nan) 1 (Or.inl rfl) (by decide)
      ⟨0, by decide,
        by norm_num [quant_read, ex_cast16, ex_bottom, ex_mat, Mat.at2, Mat.buf, Mat.row]⟩).elim
      fun a h => ⟨a, h.2.2.2.1, h.2.2.2.2.2.1⟩⟩

/-- C16 as stated fails: in single precision, for a sequence of three timesteps of two
features that are all zero, the scale stored for timestep 1 is `+inf`, not 0 (the division
`127.f / absmax` is carried out with divisor 0), and the stored descale is 0. -/
theorem C16_counterexample :
    (dynamic_quantize f32_round ex_cast16 (fun _ _ => ()) (const_mat (0 : ℚ) 2 3 1) 1
        (fun _ => F32.nan) (fun _ => F32.nan)).bottom_blob_int8_scales.buf 1 = F32.pinf ∧
    (dynamic_quantize f32_round ex_cast16 (fun _ _ => ()) (const_mat (0 : ℚ) 2 3 1) 1
        (fun _ => F32.nan) (fun _ => F32.nan)).bottom_blob_int8_scales.buf 1 ≠ F32.fin 0 ∧
    (dynamic_quantize f32_round ex_cast16 (fun _ _ => ()) (const_mat (0 : ℚ) 2 3 1) 1
        (fun _ => F32.nan) (fun _ => F32.nan)).bottom_blob_int8_descales.buf 1 = F32.fin 0 := by
  obtain ⟨-, e1, e2⟩ := zero_row_scales f32_round ex_cast16 (fun _ _ => ())
    (const_mat (0 : ℚ) 2 3 1) 1 (fun _ => F32.nan) (fun _ => F32.nan) 1 (Or.inl rfl)
    (by decide) (fun _ _ => rfl)
  refine ⟨e1, ?_, ?_⟩
  · rw [e1]
    intro h
    cases h
  · rw [e2, f32_round_zero]

/-- C16 (amended): `dynamic_quantize` has no special case for a timestep whose elements are
all zero. For such a row `absmax` is 0, the quotient `127.f / absmax` of line 1562 (1579, 1596)
is evaluated with divisor 0, and the scale stored for the timestep is `+inf`, not 0; the stored
descale is the rounding of `0 / 127`, which is 0 for a rounding that leaves 0 unchanged. Holds
for the element types 1, 2 and 4 and every rounding of the float format. -/
theorem C16_zero_row_scale {γ : Type} (rnd : α → F32 α) (cv : Cast16 α)
    (quantize_to_int8 : Mat α → Mat (F32 α) → γ) (bottom_blob : Mat α) (elemtype : Nat)
    (fresh_scales fresh_descales : Buf (F32 α)) (t : Nat)
    (he : elemtype = 1 ∨ elemtype = 2 ∨ elemtype = 4) (ht : t < bottom_blob.h)
    (hz : ∀ i, i < bottom_blob.w → quant_read cv elemtype (bottom_blob.at2 t i) = 0)
    (hr : rnd 0 = F32.fin 0) :
    absmax_row (quant_read cv elemtype) bottom_blob.buf (bottom_blob.row t) bottom_blob.w = 0 ∧
    (dynamic_quantize rnd cv quantize_to_int8 bottom_blob elemtype fresh_scales
        fresh_descales).bottom_blob_int8_scales.buf t = F32.pinf ∧
    (dynamic_quantize rnd cv quantize_to_int8 bottom_blob elemtype fresh_scales
        fresh_descales).bottom_blob_int8_scales.buf t ≠ F32.fin 0 ∧
    (dynamic_quantize rnd cv quantize_to_int8 bottom_blob elemtype fresh_scales
        fresh_descales).bottom_blob_int8_descales.buf t = F32.fin 0 := by
  obtain ⟨hA, e1, e2⟩ := zero_row_scales rnd cv quantize_to_int8 bottom_blob elemtype
    fresh_scales fresh_descales t he ht hz
  refine ⟨hA, e1, ?_, ?_⟩
  · rw [e1]
    intro h
    cases h
  · rw [e2, hr]

/-- Instance of the amended C16: one timestep with the single feature 0, fp32 input, single
precision: the stored scale is `+inf`. -/
theorem C16_zero_row_scale_witness :
    0 < (const_mat (0 : ℚ) 1 1 1).h ∧ f32_round 0 = F32.fin 0 ∧
    (dynamic_quantize f32_round ex_cast16 (fun _ _ => ()) (const_mat (0 : ℚ) 1 1 1) 1
        (fun _ => F32.nan) (fun _ => F32.nan)).bottom_blob_int8_scales.buf 0 = F32.pinf :=
  ⟨by decide, f32_round_zero,
    (C16_zero_row_scale f32_round ex_cast16 (fun _ _ => ()) (const_mat (0 : ℚ) 1 1 1) 1
      (fun _ => F32.nan) (fun _ => F32.nan) 0 (Or.inl rfl) (by decide) (fun _ _ => rfl)
      f32_round_zero).2.1⟩

end

section

variable {α : Type} [Field α]

open Finset

/-! ### Zero weights, zero initial hidden state -/

theorem zero_weights_gates (cfg : Build) (lm : Libm α) (self : GRU_arm α)
    (fx fb fh : Nat → Buf α) (opt : NcnnOption α) (bottom : Buf α) (x : Nat) (hidden : Buf α)
    (dr q : Nat) (hexp : lm.expf 0 = 1) (htanh : lm.tanhf 0 = 0)
    (hdr : dr < num_directions self.direction) (hq : q < self.num_output)
    (zx : ∀ j, (self.weight_xc_data.channel dr).buf j = 0)
    (zh : ∀ j, (self.weight_hc_data.channel dr).buf j = 0)
    (zb : ∀ j, (self.bias_c_data.channel dr).buf j = 0) :
    (gru_unit_gates cfg lm (input_size self) self.num_output bottom x
        ((create_pipeline cfg self fx fb fh opt).2.weight_xc_data_packed.channel dr)
        ((create_pipeline cfg self fx fb fh opt).2.bias_c_data_packed.channel dr)
        ((create_pipeline cfg self fx fb fh opt).2.weight_hc_data_packed.channel dr)
        hidden q).R = 1 / 2 ∧
    (gru_unit_gates cfg lm (input_size self) self.num_output bottom x
        ((create_pipeline cfg self fx fb fh opt).2.weight_xc_data_packed.channel dr)
        ((create_pipeline cfg self fx fb fh opt).2.bias_c_data_packed.channel dr)
        ((create_pipeline cfg self fx fb fh opt).2.weight_hc_data_packed.channel dr)
        hidden q).U = 1 / 2 ∧
    (gru_unit_gates cfg lm (input_size self) self.num_output bottom x
        ((create_pipeline cfg self fx fb fh opt).2.weight_xc_data_packed.channel dr)
        ((create_pipeline cfg self fx fb fh opt).2.bias_c_data_packed.channel dr)
        ((create_pipeline cfg self fx fb fh opt).2.weight_hc_data_packed.channel dr)
        hidden q).N = 0 := by
  obtain ⟨hR, hU, hN⟩ := unit_gates_raw cfg lm self fx fb fh opt bottom x hidden dr q hdr hq
  have hs : sigmoid lm 0 = 1 / 2 := by
    simp only [sigmoid, neg_zero, hexp]
    norm_num
  refine ⟨?_, ?_, ?_⟩
  · rw [hR]
    simp only [Mat.at2, zx, zh, zb, zero_mul, sum_const_zero, add_zero]
    exact hs
  · rw [hU]
    simp only [Mat.at2, zx, zh, zb, zero_mul, sum_const_zero, add_zero]
    exact hs
  · rw [hN]
    simp only [Mat.at2, zx, zh, zb, zero_mul, sum_const_zero, add_zero, mul_zero]
    exact htanh

theorem zero_weights_seq (cfg : Build) (lm : Libm α) (self : GRU_arm α)
    (fx fb fh : Nat → Buf α) (opt : NcnnOption α) (bottom top : Mat α) (reverse dr : Nat)
    (h0 : Buf α) (htanh : lm.tanhf 0 = 0)
    (hdr : dr < num_directions self.direction)
    (zx : ∀ j, (self.weight_xc_data.channel dr).buf j = 0)
    (zh : ∀ j, (self.weight_hc_data.channel dr).buf j = 0)
    (zb : ∀ j, (self.bias_c_data.channel dr).buf j = 0)
    (hsize : bottom.w = input_size self) (hout : top.w = self.num_output)
    (hz : ∀ q, q < self.num_output → h0 q = 0) :
    ∀ k q, q < self.num_output →
      gru_hidden_seq cfg lm bottom top reverse
        ((create_pipeline cfg self fx fb fh opt).2.weight_xc_data_packed.channel dr)
        ((create_pipeline cfg self fx fb fh opt).2.bias_c_data_packed.channel dr)
        ((create_pipeline cfg self fx fb fh opt).2.weight_hc_data_packed.channel dr) h0 k q
        = 0 := by
  intro k
  induction k with
  | zero => exact fun q hq => hz q hq
  | succ k ih =>
    intro q hq
    rw [hidden_seq_succ_lt _ _ _ _ _ _ _ _ _ _ _ (by rw [hout]; exact hq), hsize, hout,
      zero_weights_cell cfg lm self fx fb fh opt _ _ _ dr q hdr hq zx zh zb, ih q hq, htanh]
    ring

/-- C17: with all raw weights and biases of a direction zero, packed by `create_pipeline`, and
`expf 0 = 1`, `tanhf 0 = 0`: every hidden unit has `R = U = 1/2` and `N = 0` in every timestep
(on any input row and hidden vector), and `gru` started from a zero hidden state returns 0 with
every output element 0 and the hidden state still all zero. Holds for every sequence length,
input, hidden size and input size, in both layouts and both traversal orders. -/
theorem C17_zero_weights (cfg : Build) (lm : Libm α) (self : GRU_arm α)
    (fresh_xc fresh_bias fresh_hc : Nat → Buf α) (opt : NcnnOption α)
    (bottom_blob top_blob hidden_state : Mat α) (reverse dr : Nat)
    (hexp : lm.expf 0 = 1) (htanh : lm.tanhf 0 = 0)
    (hdr : dr < num_directions self.direction)
    (zx : ∀ j, (self.weight_xc_data.channel dr).buf j = 0)
    (zh : ∀ j, (self.weight_hc_data.channel dr).buf j = 0)
    (zb : ∀ j, (self.bias_c_data.channel dr).buf j = 0)
    (hsize : bottom_blob.w = input_size self) (hout : top_blob.w = self.num_output)
    (hpack : top_blob.elempack = 1)
    (halloc : (gates_create cfg top_blob.w opt.workspace_allocator).isSome)
    (hz : ∀ q, q < self.num_output → hidden_state.buf q = 0) :
    (∀ (ti : Nat) (h : Buf α) (q : Nat), q < self.num_output →
      (gru_unit_gates cfg lm bottom_blob.w top_blob.w bottom_blob.buf (bottom_blob.row ti)
        ((create_pipeline cfg self fresh_xc fresh_bias fresh_hc opt).2.weight_xc_data_packed.channel
          dr)
        ((create_pipeline cfg self fresh_xc fresh_bias fresh_hc opt).2.bias_c_data_packed.channel
          dr)
        ((create_pipeline cfg self fresh_xc fresh_bias fresh_hc opt).2.weight_hc_data_packed.channel
          dr) h q).R = 1 / 2 ∧
      (gru_unit_gates cfg lm bottom_blob.w top_blob.w bottom_blob.buf (bottom_blob.row ti)
        ((create_pipeline cfg self fresh_xc fresh_bias fresh_hc opt).2.weight_xc_data_packed.channel
          dr)
        ((create_pipeline cfg self fresh_xc fresh_bias fresh_hc opt).2.bias_c_data_packed.channel
          dr)
        ((create_pipeline cfg self fresh_xc fresh_bias fresh_hc opt).2.weight_hc_data_packed.channel
          dr) h q).U = 1 / 2 ∧
      (gru_unit_gates cfg lm bottom_blob.w top_blob.w bottom_blob.buf (bottom_blob.row ti)
        ((create_pipeline cfg self fresh_xc fresh_bias fresh_hc opt).2.weight_xc_data_packed.channel
          dr)
        ((create_pipeline cfg self fresh_xc fresh_bias fresh_hc opt).2.bias_c_data_packed.channel
          dr)
        ((create_pipeline cfg self fresh_xc fresh_bias fresh_hc opt).2.weight_hc_data_packed.channel
          dr) h q).N = 0) ∧
    (gru cfg lm bottom_blob top_blob reverse
      ((create_pipeline cfg self fresh_xc fresh_bias fresh_hc opt).2.weight_xc_data_packed.channel
        dr)
      ((create_pipeline cfg self fresh_xc fresh_bias fresh_hc opt).2.bias_c_data_packed.channel dr)
      ((create_pipeline cfg self fresh_xc fresh_bias fresh_hc opt).2.weight_hc_data_packed.channel
        dr) hidden_state opt).1 = 0 ∧
    (∀ t q, t < bottom_blob.h → q < self.num_output →
      (gru cfg lm bottom_blob top_blob reverse
        ((create_pipeline cfg self fresh_xc fresh_bias fresh_hc opt).2.weight_xc_data_packed.channel
          dr)
        ((create_pipeline cfg self fresh_xc fresh_bias fresh_hc opt).2.bias_c_data_packed.channel
          dr)
        ((create_pipeline cfg self fresh_xc fresh_bias fresh_hc opt).2.weight_hc_data_packed.channel
          dr) hidden_state opt).2.1.at2 t q = 0) ∧
    (∀ q, q < self.num_output →
      (gru cfg lm bottom_blob top_blob reverse
        ((create_pipeline cfg self fresh_xc fresh_bias fresh_hc opt).2.weight_xc_data_packed.channel
          dr)
        ((create_pipeline cfg self fresh_xc fresh_bias fresh_hc opt).2.bias_c_data_packed.channel
          dr)
        ((create_pipeline cfg self fresh_xc fresh_bias fresh_hc opt).2.weight_hc_data_packed.channel
          dr) hidden_state opt).2.2.buf q = 0) := by
  have hseq := zero_weights_seq cfg lm self fresh_xc fresh_bias fresh_hc opt bottom_blob top_blob
    reverse dr hidden_state.buf htanh hdr zx zh zb hsize hout hz
  have hgates : ∀ (ti : Nat) (h : Buf α) (q : Nat), q < self.num_output →
      (gru_unit_gates cfg lm bottom_blob.w top_blob.w bottom_blob.buf (bottom_blob.row ti)
        ((create_pipeline cfg self fresh_xc fresh_bias fresh_hc opt).2.weight_xc_data_packed.channel
          dr)
        ((create_pipeline cfg self fresh_xc fresh_bias fresh_hc opt).2.bias_c_data_packed.channel
          dr)
        ((create_pipeline cfg self fresh_xc fresh_bias fresh_hc opt).2.weight_hc_data_packed.channel
          dr) h q).R = 1 / 2 ∧
      (gru_unit_gates cfg lm bottom_blob.w top_blob.w bottom_blob.buf (bottom_blob.row ti)
        ((create_pipeline cfg self fresh_xc fresh_bias fresh_hc opt).2.weight_xc_data_packed.channel
          dr)
        ((create_pipeline cfg self fresh_xc fresh_bias fresh_hc opt).2.bias_c_data_packed.channel
          dr)
        ((create_pipeline cfg self fresh_xc fresh_bias fresh_hc opt).2.weight_hc_data_packed.channel
          dr) h q).U = 1 / 2 ∧
      (gru_unit_gates cfg lm bottom_blob.w top_blob.w bottom_blob.buf (bottom_blob.row ti)
        ((create_pipeline cfg self fresh_xc fresh_bias fresh_hc opt).2.weight_xc_data_packed.channel
          dr)
        ((create_pipeline cfg self fresh_xc fresh_bias fresh_hc opt).2.bias_c_data_packed.channel
          dr)
        ((create_pipeline cfg self fresh_xc fresh_bias fresh_hc opt).2.weight_hc_data_packed.channel
          dr) h q).N = 0 := by
    intro ti h q hq
    rw [hsize, hout]
    exact zero_weights_gates cfg lm self fresh_xc fresh_bias fresh_hc opt _ _ h dr q hexp htanh
      hdr hq zx zh zb
  generalize (create_pipeline cfg self fresh_xc fresh_bias fresh_hc
    opt).2.weight_xc_data_packed.channel dr = wxc at hseq hgates ⊢
  generalize (create_pipeline cfg self fresh_xc fresh_bias fresh_hc
    opt).2.bias_c_data_packed.channel dr = wb at hseq hgates ⊢
  generalize (create_pipeline cfg self fresh_xc fresh_bias fresh_hc
    opt).2.weight_hc_data_packed.channel dr = whc at hseq hgates ⊢
  refine ⟨hgates, gru_status cfg lm _ _ _ _ _ _ _ opt halloc, ?_, ?_⟩
  · intro t q ht hq
    by_cases hr : reverse = 0
    · have h := gru_top_at cfg lm bottom_blob top_blob reverse wxc wb whc hidden_state opt halloc
        hpack t q ht (by rw [hout]; exact hq)
      rw [hr, step_ti_forward] at h
      rw [hr, h]
      exact hr ▸ hseq (t + 1) q hq
    · have h := gru_top_at cfg lm bottom_blob top_blob reverse wxc wb whc hidden_state opt halloc
        hpack (bottom_blob.h - 1 - t) q (by omega) (by rw [hout]; exact hq)
      rw [step_ti_reverse reverse bottom_blob.h _ hr,
        show bottom_blob.h - 1 - (bottom_blob.h - 1 - t) = t by omega] at h
      rw [h]
      exact hseq _ q hq
  · intro q hq
    rw [gru_hidden_buf cfg lm bottom_blob top_blob reverse wxc wb whc hidden_state opt halloc]
    exact hseq _ q hq

/-- Instance of C17: hidden size 4, input size 2, forward direction, one timestep. -/
theorem C17_zero_weights_witness :
    ex_lm1.expf 0 = 1 ∧ ex_lm1.tanhf 0 = 0 ∧
    (ex_mat 2 1 1).w = input_size (zero_gru 4 2 0 : GRU_arm ℚ) ∧
    (gru ex_cfg ex_lm1 (ex_mat 2 1 1) (ex_mat 4 1 1) 0
      ((create_pipeline ex_cfg (zero_gru 4 2 0) ex_fresh ex_fresh ex_fresh
        ex_opt).2.weight_xc_data_packed.channel 0)
      ((create_pipeline ex_cfg (zero_gru 4 2 0) ex_fresh ex_fresh ex_fresh
        ex_opt).2.bias_c_data_packed.channel 0)
      ((create_pipeline ex_cfg (zero_gru 4 2 0) ex_fresh ex_fresh ex_fresh
        ex_opt).2.weight_hc_data_packed.channel 0) (const_mat 0 4 1 1) ex_opt).2.1.at2 0 3 = 0 :=
  ⟨by norm_num [ex_lm1], rfl, by decide,
    (C17_zero_weights ex_cfg ex_lm1 (zero_gru 4 2 0) ex_fresh ex_fresh ex_fresh ex_opt
      (ex_mat 2 1 1) (ex_mat 4 1 1) (const_mat 0 4 1 1) 0 0 (by norm_num [ex_lm1]) rfl
      (by decide) (fun _ => rfl) (fun _ => rfl) (fun _ => rfl) (by decide) rfl rfl (by decide)
      (fun _ _ => rfl)).2.2.1 0 3 (by decide) (by decide)⟩

end

section

variable {α : Type}

/-- The raw tensors after `create_pipeline` (fp32 body): released under light mode, otherwise
as they were. -/
theorem raw_after_pipeline (cfg : Build) (self : GRU_arm α)
    (fresh_xc fresh_bias fresh_hc : Nat → Buf α) (opt : NcnnOption α) :
    (create_pipeline cfg self fresh_xc fresh_bias fresh_hc opt).2.weight_xc_data
        = (if opt.lightmode then self.weight_xc_data.released else self.weight_xc_data) ∧
    (create_pipeline cfg self fresh_xc fresh_bias fresh_hc opt).2.bias_c_data
        = (if opt.lightmode then self.bias_c_data.released else self.bias_c_data) ∧
    (create_pipeline cfg self fresh_xc fresh_bias fresh_hc opt).2.weight_hc_data
        = (if opt.lightmode then self.weight_hc_data.released else self.weight_hc_data) := by
  refine ⟨?_, ?_, ?_⟩ <;> (unfold create_pipeline; cases opt.lightmode <;> rfl)

/-- The raw tensors after `create_pipeline_bf16s`. -/
theorem raw_after_pipeline_bf16s {β : Type} (cv : Bf16Cast α β) (cfg : Build)
    (self : GRU_arm α) (fresh_xc fresh_bias fresh_hc : Nat → Buf β) (opt : NcnnOption α) :
    (create_pipeline_bf16s cv cfg self fresh_xc fresh_bias fresh_hc opt).2.layer.weight_xc_data
        = (if opt.lightmode then self.weight_xc_data.released else self.weight_xc_data) ∧
    (create_pipeline_bf16s cv cfg self fresh_xc fresh_bias fresh_hc opt).2.layer.bias_c_data
        = (if opt.lightmode then self.bias_c_data.released else self.bias_c_data) ∧
    (create_pipeline_bf16s cv cfg self fresh_xc fresh_bias fresh_hc opt).2.layer.weight_hc_data
        = (if opt.lightmode then self.weight_hc_data.released else self.weight_hc_data) := by
  refine ⟨?_, ?_, ?_⟩ <;> (unfold create_pipeline_bf16s; cases opt.lightmode <;> rfl)

/-- A tensor that is `released` under light mode and untouched otherwise: it has no element
left under light mode, it is the tensor it was without light mode, and, when it had elements,
it is empty afterwards exactly when light mode is set. -/
theorem released_iff_lightmode (lightmode : Bool) (m m2 : Mat α)
    (h : m2 = if lightmode then m.released else m) :
    (lightmode = true → m2.total = 0 ∧ m2.w = 0 ∧ m2.h = 0 ∧ m2.c = 0) ∧
    (lightmode = false → m2 = m) ∧
    (m.total ≠ 0 → (m2.total = 0 ↔ lightmode = true)) := by
  subst h
  cases lightmode with
  | false =>
    refine ⟨fun h => absurd h (by decide), fun _ => rfl, fun hne => ?_⟩
    simp [hne]
  | true =>
    refine ⟨fun _ => ⟨?_, rfl, rfl, rfl⟩, fun h => absurd h (by decide), fun _ => ?_⟩
    · simp [Mat.released, Mat.total]
    · simp [Mat.released, Mat.total]

/-- C19: `create_pipeline` (fp32 body) and `create_pipeline_bf16s` release the three raw weight
tensors exactly when `opt.lightmode` is set. For each of `weight_xc_data`, `bias_c_data` and
`weight_hc_data` (`raw`): with light mode set the tensor has no element after the call (its
`total` and its `w`, `h`, `c` are 0); with light mode not set it is the tensor it was before
the call; and a tensor that had elements is empty after the call if and only if light mode is
set. The packed tensors do not depend on `opt` (they are the same under any other options
`opt2`, in particular with light mode switched the other way), and on the fp32 path every
packed channel is the packing of the raw channel as it was before the release. -/
theorem C19_lightmode_release {β : Type} (cfg : Build) (self : GRU_arm α)
    (fresh_xc fresh_bias fresh_hc : Nat → Buf α) (cv : Bf16Cast α β)
    (fresh_xc16 fresh_bias16 fresh_hc16 : Nat → Buf β) (opt opt2 : NcnnOption α)
    (raw : GRU_arm α → Mat α)
    (hraw : raw = GRU_arm.weight_xc_data ∨ raw = GRU_arm.bias_c_data ∨
      raw = GRU_arm.weight_hc_data) :
    ((opt.lightmode = true →
        (raw (create_pipeline cfg self fresh_xc fresh_bias fresh_hc opt).2).total = 0 ∧
        (raw (create_pipeline cfg self fresh_xc fresh_bias fresh_hc opt).2).w = 0 ∧
        (raw (create_pipeline cfg self fresh_xc fresh_bias fresh_hc opt).2).h = 0 ∧
        (raw (create_pipeline cfg self fresh_xc fresh_bias fresh_hc opt).2).c = 0) ∧
      (opt.lightmode = false →
        raw (create_pipeline cfg self fresh_xc fresh_bias fresh_hc opt).2 = raw self) ∧
      ((raw self).total ≠ 0 →
        ((raw (create_pipeline cfg self fresh_xc fresh_bias fresh_hc opt).2).total = 0
          ↔ opt.lightmode = true))) ∧
    ((create_pipeline cfg self fresh_xc fresh_bias fresh_hc opt).2.weight_xc_data_packed
        = (create_pipeline cfg self fresh_xc fresh_bias fresh_hc opt2).2.weight_xc_data_packed ∧
      (create_pipeline cfg self fresh_xc fresh_bias fresh_hc opt).2.bias_c_data_packed
        = (create_pipeline cfg self fresh_xc fresh_bias fresh_hc opt2).2.bias_c_data_packed ∧
      (create_pipeline cfg self fresh_xc fresh_bias fresh_hc opt).2.weight_hc_data_packed
        = (create_pipeline cfg self fresh_xc fresh_bias fresh_hc opt2).2.weight_hc_data_packed) ∧
    (∀ dr, dr < num_directions self.direction →
      ((create_pipeline cfg self fresh_xc fresh_bias fresh_hc opt).2.weight_xc_data_packed.channel
          dr).buf
        = pack_mat cfg self.num_output (input_size self) (self.weight_xc_data.channel dr)
            ((create_packed cfg self fresh_xc fresh_bias fresh_hc).xc.channel dr) ∧
      ((create_pipeline cfg self fresh_xc fresh_bias fresh_hc opt).2.bias_c_data_packed.channel
          dr).buf
        = (pack_bias cfg self.num_output (self.bias_c_data.channel dr)
            ((create_packed cfg self fresh_xc fresh_bias fresh_hc).bias.channel dr)).mem ∧
      ((create_pipeline cfg self fresh_xc fresh_bias fresh_hc opt).2.weight_hc_data_packed.channel
          dr).buf
        = pack_mat cfg self.num_output self.num_output (self.weight_hc_data.channel dr)
            ((create_packed cfg self fresh_xc fresh_bias fresh_hc).hc.channel dr)) ∧
    ((opt.lightmode = true →
        (raw (create_pipeline_bf16s cv cfg self fresh_xc16 fresh_bias16 fresh_hc16
          opt).2.layer).total = 0 ∧
        (raw (create_pipeline_bf16s cv cfg self fresh_xc16 fresh_bias16 fresh_hc16
          opt).2.layer).w = 0 ∧
        (raw (create_pipeline_bf16s cv cfg self fresh_xc16 fresh_bias16 fresh_hc16
          opt).2.layer).h = 0 ∧
        (raw (create_pipeline_bf16s cv cfg self fresh_xc16 fresh_bias16 fresh_hc16
          opt).2.layer).c = 0) ∧
      (opt.lightmode = false →
        raw (create_pipeline_bf16s cv cfg self fresh_xc16 fresh_bias16 fresh_hc16 opt).2.layer
          = raw self) ∧
      ((raw self).total ≠ 0 →
        ((raw (create_pipeline_bf16s cv cfg self fresh_xc16 fresh_bias16 fresh_hc16
          opt).2.layer).total = 0 ↔ opt.lightmode = true))) ∧
    ((create_pipeline_bf16s cv cfg self fresh_xc16 fresh_bias16 fresh_hc16
          opt).2.weight_xc_data_packed
        = (create_pipeline_bf16s cv cfg self fresh_xc16 fresh_bias16 fresh_hc16
          opt2).2.weight_xc_data_packed ∧
      (create_pipeline_bf16s cv cfg self fresh_xc16 fresh_bias16 fresh_hc16
          opt).2.bias_c_data_packed
        = (create_pipeline_bf16s cv cfg self fresh_xc16 fresh_bias16 fresh_hc16
          opt2).2.bias_c_data_packed ∧
      (create_pipeline_bf16s cv cfg self fresh_xc16 fresh_bias16 fresh_hc16
          opt).2.weight_hc_data_packed
        = (create_pipeline_bf16s cv cfg self fresh_xc16 fresh_bias16 fresh_hc16
          opt2).2.weight_hc_data_packed) := by
  obtain ⟨a1, a2, a3⟩ := raw_after_pipeline cfg self fresh_xc fresh_bias fresh_hc opt
  obtain ⟨b1, b2, b3⟩ := raw_after_pipeline_bf16s cv cfg self fresh_xc16 fresh_bias16
    fresh_hc16 opt
  refine ⟨?_, ⟨?_, ?_, ?_⟩, fun dr hdr => ⟨?_, ?_, ?_⟩, ?_, ⟨rfl, rfl, rfl⟩⟩
  · rcases hraw with h | h | h <;> subst h
    · exact released_iff_lightmode opt.lightmode _ _ a1
    · exact released_iff_lightmode opt.lightmode _ _ a2
    · exact released_iff_lightmode opt.lightmode _ _ a3
  · rw [create_pipeline_xc, create_pipeline_xc]
  · rw [create_pipeline_bias, create_pipeline_bias]
  · rw [create_pipeline_hc, create_pipeline_hc]
  · exact packed_xc_buf cfg self fresh_xc fresh_bias fresh_hc opt dr hdr
  · exact packed_bias_buf cfg self fresh_xc fresh_bias fresh_hc opt dr hdr
  · exact packed_hc_buf cfg self fresh_xc fresh_bias fresh_hc opt dr hdr
  · rcases hraw with h | h | h <;> subst h
    · exact released_iff_lightmode opt.lightmode _ _ b1
    · exact released_iff_lightmode opt.lightmode _ _ b2
    · exact released_iff_lightmode opt.lightmode _ _ b3

/-- Instance of C19 on the example layer: its raw input-to-hidden tensor has 30 elements; after
either path with light mode set it has none, and after the fp32 path without light mode it is
the tensor it was. -/
theorem C19_lightmode_release_witness :
    (ex_layer 0).weight_xc_data.total = 30 ∧
    (create_pipeline ex_cfg (ex_layer 0) ex_fresh ex_fresh ex_fresh
        { ex_opt with lightmode := true }).2.weight_xc_data.total = 0 ∧
    (create_pipeline_bf16s ex_bf16 ex_cfg (ex_layer 0) (fun _ _ => 0) (fun _ _ => 0)
        (fun _ _ => 0) { ex_opt with lightmode := true }).2.layer.weight_xc_data.total = 0 ∧
    (create_pipeline ex_cfg (ex_layer 0) ex_fresh ex_fresh ex_fresh
        { ex_opt with lightmode := false }).2.weight_xc_data = (ex_layer 0).weight_xc_data :=
  ⟨by decide,
    ((C19_lightmode_release ex_cfg (ex_layer 0) ex_fresh ex_fresh ex_fresh ex_bf16 (fun _ _ => 0)
      (fun _ _ => 0) (fun _ _ => 0) { ex_opt with lightmode := true } ex_opt
      GRU_arm.weight_xc_data (Or.inl rfl)).1.1 rfl).1,
    ((C19_lightmode_release ex_cfg (ex_layer 0) ex_fresh ex_fresh ex_fresh ex_bf16 (fun _ _ => 0)
      (fun _ _ => 0) (fun _ _ => 0) { ex_opt with lightmode := true } ex_opt
      GRU_arm.weight_xc_data (Or.inl rfl)).2.2.2.1.1 rfl).1,
    (C19_lightmode_release ex_cfg (ex_layer 0) ex_fresh ex_fresh ex_fresh ex_bf16 (fun _ _ => 0)
      (fun _ _ => 0) (fun _ _ => 0) { ex_opt with lightmode := false } ex_opt
      GRU_arm.weight_xc_data (Or.inl rfl)).1.2.1 rfl⟩

end

section

variable {α : Type}

/-! ### Loops that only store: running them twice -/

theorem stores_idem {G : Buf α → Buf α} (h : IsStores G) (b : Buf α) : G (G b) = G b := by
  obtain ⟨W, h⟩ := h
  funext j
  by_cases w : W j
  · exact (h (G b) b j).1 w
  · exact (h (G b) b j).2 w

theorem stores_id : IsStores (fun b : Buf α => b) :=
  ⟨fun _ => False, fun _ _ _ => ⟨fun w => w.elim, fun _ => rfl⟩⟩

theorem stores_comp {G1 G2 : Buf α → Buf α} (h1 : IsStores G1) (h2 : IsStores G2) :
    IsStores (fun b => G2 (G1 b)) := by
  obtain ⟨W1, h1⟩ := h1
  obtain ⟨W2, h2⟩ := h2
  refine ⟨fun j => W2 j ∨ W1 j, fun b b2 j => ⟨?_, ?_⟩⟩
  · intro w
    by_cases w2 : W2 j
    · exact (h2 (G1 b) (G1 b2) j).1 w2
    · have w1 : W1 j := w.resolve_left w2
      show G2 (G1 b) j = G2 (G1 b2) j
      rw [(h2 (G1 b) b j).2 w2, (h2 (G1 b2) b j).2 w2]
      exact (h1 b b2 j).1 w1
  · intro w
    have w2 : ¬ W2 j := fun x => w (Or.inl x)
    have w1 : ¬ W1 j := fun x => w (Or.inr x)
    show G2 (G1 b) j = b j
    rw [(h2 (G1 b) b j).2 w2]
    exact (h1 b b j).2 w1

theorem stores_forRange (body : Nat → Buf α → Buf α) (h : ∀ k, IsStores (body k)) (n : Nat) :
    IsStores (fun b => forRange n body b) := by
  induction n with
  | zero => exact stores_id
  | succ k ih => exact @stores_comp α (fun b => forRange k body b) (body k) ih (h k)

theorem cursor_stores_comp {c1 c2 : PackCursor α → PackCursor α} (h1 : IsCursorStores c1)
    (h2 : IsCursorStores c2) : IsCursorStores (fun s => c2 (c1 s)) := by
  intro p
  obtain ⟨p1, hp1, s1⟩ := h1 p
  obtain ⟨p2, hp2, s2⟩ := h2 p1
  have e : ∀ m, c1 ⟨p, m⟩ = ⟨p1, (c1 ⟨p, m⟩).mem⟩ := by
    intro m
    rw [← hp1 m]
  refine ⟨p2, fun m => ?_, ?_⟩
  · show (c2 (c1 ⟨p, m⟩)).ptr = p2
    rw [e m]
    exact hp2 _
  · have h := stores_comp s1 s2
    have e2 : (fun m => (c2 (c1 ⟨p, m⟩)).mem) = fun m => (c2 ⟨p1, (c1 ⟨p, m⟩).mem⟩).mem := by
      funext m
      rw [← hp1 m]
    show IsStores (fun m => (c2 (c1 ⟨p, m⟩)).mem)
    rw [e2]
    exact h

theorem cursor_stores_forRange (b : Nat → PackCursor α → PackCursor α)
    (h : ∀ k, IsCursorStores (b k)) (n : Nat) : IsCursorStores (forRange n b) := by
  induction n with
  | zero => exact fun p => ⟨p, fun _ => rfl, stores_id⟩
  | succ k ih => exact @cursor_stores_comp α (forRange k b) (b k) ih (h k)

theorem block_cursor_stores {B : Nat} {val : Nat → Nat → α}
    {b : Nat → PackCursor α → PackCursor α} (hb : IsBlockWrite B val b) (i : Nat) :
    IsCursorStores (b i) := by
  obtain ⟨b1, b2, b3⟩ := hb
  intro p
  refine ⟨p + B, fun m => b1 i ⟨p, m⟩, fun j => p ≤ j ∧ j < p + B, fun m m2 j => ⟨?_, ?_⟩⟩
  · intro w
    have hk : j - p < B := by omega
    have h := b2 i ⟨p, m⟩ (j - p) hk
    have h2 := b2 i ⟨p, m2⟩ (j - p) hk
    have e : p + (j - p) = j := by omega
    simp only [e] at h h2
    exact h.trans h2.symm
  · intro w
    have hj : j < p ∨ p + B ≤ j := by omega
    exact b3 i ⟨p, m⟩ j hj

/-! ### The packing loops only store -/

theorem pack_mat_group4_stores (n cols : Nat) (src dst : Mat α) (q : Nat) :
    IsStores (pack_mat_group4 n cols src dst q) := by
  have h1 : IsCursorStores (forRange cols
      (pack_RU4 src.buf (src.row (n * 0 + q)) (src.row (n * 0 + q + 1))
        (src.row (n * 0 + q + 2)) (src.row (n * 0 + q + 3)) (src.row (n * 1 + q))
        (src.row (n * 1 + q + 1)) (src.row (n * 1 + q + 2)) (src.row (n * 1 + q + 3)))) := by
    have hb : IsBlockWrite 8 (fun i k => src.buf (src.row (n * (k / 4) + q + k % 4) + i))
        (pack_RU4 src.buf (src.row (n * 0 + q)) (src.row (n * 0 + q + 1))
          (src.row (n * 0 + q + 2)) (src.row (n * 0 + q + 3)) (src.row (n * 1 + q))
          (src.row (n * 1 + q + 1)) (src.row (n * 1 + q + 2)) (src.row (n * 1 + q + 3))) :=
      pack_RU4_block src.buf (fun k => src.row (n * (k / 4) + q + k % 4))
    exact cursor_stores_forRange _ (fun k => block_cursor_stores hb k) cols
  have h2 : IsCursorStores (forRange cols
      (pack_N4 src.buf (src.row (n * 2 + q)) (src.row (n * 2 + q + 1)) (src.row (n * 2 + q + 2))
        (src.row (n * 2 + q + 3)))) := by
    have hb : IsBlockWrite 4 (fun i k => src.buf (src.row (n * 2 + q + k) + i))
        (pack_N4 src.buf (src.row (n * 2 + q)) (src.row (n * 2 + q + 1))
          (src.row (n * 2 + q + 2)) (src.row (n * 2 + q + 3))) :=
      pack_N4_block src.buf (fun k => src.row (n * 2 + q + k))
    exact cursor_stores_forRange _ (fun k => block_cursor_stores hb k) cols
  obtain ⟨-, -, hs⟩ := cursor_stores_comp h1 h2 (dst.row (q / 4))
  have e : pack_mat_group4 n cols src dst q = fun m =>
      (forRange cols (pack_N4 src.buf (src.row (n * 2 + q)) (src.row (n * 2 + q + 1))
        (src.row (n * 2 + q + 2)) (src.row (n * 2 + q + 3)))
        (forRange cols (pack_RU4 src.buf (src.row (n * 0 + q)) (src.row (n * 0 + q + 1))
          (src.row (n * 0 + q + 2)) (src.row (n * 0 + q + 3)) (src.row (n * 1 + q))
          (src.row (n * 1 + q + 1)) (src.row (n * 1 + q + 2)) (src.row (n * 1 + q + 3)))
          ⟨dst.row (q / 4), m⟩)).mem := by
    funext m
    unfold pack_mat_group4
    rw [forFrom_zero, forFrom_zero]
  rw [e]
  exact hs

theorem pack_mat_unit_stores (cfg : Build) (n cols : Nat) (src dst : Mat α) (q : Nat) :
    IsStores (pack_mat_unit cfg n cols src dst q) := by
  have h1 : IsCursorStores (forRange cols
      (pack_RU1 src.buf (src.row (n * 0 + q)) (src.row (n * 1 + q)))) := by
    have hb : IsBlockWrite 2 (fun i k => src.buf (src.row (n * k + q) + i))
        (pack_RU1 src.buf (src.row (n * 0 + q)) (src.row (n * 1 + q))) :=
      pack_RU1_block src.buf (fun k => src.row (n * k + q))
    exact cursor_stores_forRange _ (fun k => block_cursor_stores hb k) cols
  have h2 : IsCursorStores (forRange cols (pack_N1 src.buf (src.row (n * 2 + q)))) := by
    have hb : IsBlockWrite 1 (fun i _ => src.buf (src.row (n * 2 + q) + i))
        (pack_N1 src.buf (src.row (n * 2 + q))) :=
      pack_N1_block src.buf (fun _ => src.row (n * 2 + q))
    exact cursor_stores_forRange _ (fun k => block_cursor_stores hb k) cols
  obtain ⟨-, -, hs⟩ := cursor_stores_comp h1 h2 (dst.row (unit_row cfg q))
  have e : pack_mat_unit cfg n cols src dst q = fun m =>
      (forRange cols (pack_N1 src.buf (src.row (n * 2 + q)))
        (forRange cols (pack_RU1 src.buf (src.row (n * 0 + q)) (src.row (n * 1 + q)))
          ⟨dst.row (unit_row cfg q), m⟩)).mem := by
    funext m
    unfold pack_mat_unit
    rw [forFrom_zero, forFrom_zero]
  rw [e]
  exact hs

theorem pack_mat_stores (cfg : Build) (n cols : Nat) (src dst : Mat α) :
    IsStores (fun b => pack_mat cfg n cols src (dst.set_buf b)) := by
  have hg : ∀ b, pack_mat_group4 n cols src (dst.set_buf b) = pack_mat_group4 n cols src dst :=
    fun _ => rfl
  have hu : ∀ b, pack_mat_unit cfg n cols src (dst.set_buf b) = pack_mat_unit cfg n cols src dst :=
    fun _ => rfl
  have hb : ∀ b, (dst.set_buf b).buf = b := fun b => Mat.set_buf_buf dst b
  cases hneon : cfg.arm_neon
  · have e : (fun b => pack_mat cfg n cols src (dst.set_buf b))
        = fun b => forRange n (pack_mat_unit cfg n cols src dst) b := by
      funext b
      unfold pack_mat
      simp only [hneon, Bool.false_eq_true, if_false, hg, hu, hb, forFrom_zero]
    rw [e]
    exact stores_forRange _ (fun k => pack_mat_unit_stores cfg n cols src dst k) n
  · have e : (fun b => pack_mat cfg n cols src (dst.set_buf b))
        = fun b => forRange (n - 4 * (n / 4))
            (fun k => pack_mat_unit cfg n cols src dst (4 * (n / 4) + k))
            (forRange (n / 4) (fun k => pack_mat_group4 n cols src dst (4 * k)) b) := by
      funext b
      unfold pack_mat
      simp only [hneon, if_true, hg, hu, hb, forStep4_zero]
      rw [forFrom_eq_forRange n _ (n - 4 * (n / 4)) (4 * (n / 4)) _ rfl]
    rw [e]
    exact stores_comp
      (stores_forRange _ (fun k => pack_mat_group4_stores n cols src dst (4 * k)) (n / 4))
      (stores_forRange _ (fun k => pack_mat_unit_stores cfg n cols src dst (4 * (n / 4) + k)) _)

theorem pack_mat_congr (cfg : Build) (n cols : Nat) (src dst dst2 : Mat α)
    (hrow : ∀ y, dst2.row y = dst.row y) (hbuf : dst2.buf = dst.buf) :
    pack_mat cfg n cols src dst2 = pack_mat cfg n cols src dst := by
  have hg : pack_mat_group4 n cols src dst2 = pack_mat_group4 n cols src dst := by
    funext q m
    unfold pack_mat_group4
    rw [hrow]
  have hu : pack_mat_unit cfg n cols src dst2 = pack_mat_unit cfg n cols src dst := by
    funext q m
    unfold pack_mat_unit
    rw [hrow]
  unfold pack_mat
  rw [hg, hu, hbuf]

/-- Packing once more over the packed buffer changes nothing. -/
theorem pack_mat_idem (cfg : Build) (n cols : Nat) (src dst dst2 : Mat α)
    (hrow : ∀ y, dst2.row y = dst.row y) (hbuf : dst2.buf = pack_mat cfg n cols src dst) :
    pack_mat cfg n cols src dst2 = pack_mat cfg n cols src dst := by
  have h := stores_idem (pack_mat_stores cfg n cols src dst) dst.buf
  have e1 : pack_mat cfg n cols src (dst.set_buf dst.buf) = pack_mat cfg n cols src dst :=
    pack_mat_congr cfg n cols src dst _ (fun _ => rfl) (Mat.set_buf_buf dst _)
  simp only [e1] at h
  rw [← h]
  exact pack_mat_congr cfg n cols src _ dst2 hrow (by rw [hbuf, Mat.set_buf_buf])

theorem pack_bias_stores (cfg : Build) (n : Nat) (bias_c dst : Mat α) :
    IsStores (fun b => (pack_bias cfg n bias_c (dst.set_buf b)).mem) := by
  have hb : ∀ b, (dst.set_buf b).buf = b := fun b => Mat.set_buf_buf dst b
  have hr : ∀ b, (dst.set_buf b).row 0 = dst.row 0 := fun _ => rfl
  have hG : IsCursorStores (forRange (n / 4) (fun g => pack_bias_group4 bias_c (4 * g))) :=
    cursor_stores_forRange _ (fun k => block_cursor_stores (pack_bias_group4_block bias_c) k) _
  have hU : ∀ q0 d, IsCursorStores (forRange d (fun k => pack_bias_unit bias_c (q0 + k))) :=
    fun q0 d => cursor_stores_forRange _
      (fun k => block_cursor_stores (pack_bias_unit_block bias_c q0) k) d
  cases hneon : cfg.arm_neon
  · have e : (fun b => (pack_bias cfg n bias_c (dst.set_buf b)).mem)
        = fun b => (forRange n (fun k => pack_bias_unit bias_c (0 + k)) ⟨dst.row 0, b⟩).mem := by
      funext b
      unfold pack_bias
      simp only [hneon, Bool.false_eq_true, if_false, hb, hr, forFrom_zero, Nat.zero_add]
    rw [e]
    exact (hU 0 n (dst.row 0)).choose_spec.2
  · have e : (fun b => (pack_bias cfg n bias_c (dst.set_buf b)).mem)
        = fun b => (forRange (n - 4 * (n / 4))
            (fun k => pack_bias_unit bias_c (4 * (n / 4) + k))
            (forRange (n / 4) (fun g => pack_bias_group4 bias_c (4 * g)) ⟨dst.row 0, b⟩)).mem := by
      funext b
      unfold pack_bias
      simp only [hneon, if_true, hb, hr, forStep4_zero]
      rw [forFrom_eq_forRange n _ (n - 4 * (n / 4)) (4 * (n / 4)) _ rfl]
    rw [e]
    exact (cursor_stores_comp hG (hU _ _) (dst.row 0)).choose_spec.2

theorem pack_bias_congr (cfg : Build) (n : Nat) (bias_c dst dst2 : Mat α)
    (hrow : dst2.row 0 = dst.row 0) (hbuf : dst2.buf = dst.buf) :
    pack_bias cfg n bias_c dst2 = pack_bias cfg n bias_c dst := by
  unfold pack_bias
  rw [hrow, hbuf]

theorem pack_bias_idem (cfg : Build) (n : Nat) (bias_c dst dst2 : Mat α)
    (hrow : dst2.row 0 = dst.row 0) (hbuf : dst2.buf = (pack_bias cfg n bias_c dst).mem) :
    (pack_bias cfg n bias_c dst2).mem = (pack_bias cfg n bias_c dst).mem := by
  have h := stores_idem (pack_bias_stores cfg n bias_c dst) dst.buf
  have e1 : pack_bias cfg n bias_c (dst.set_buf dst.buf) = pack_bias cfg n bias_c dst :=
    pack_bias_congr cfg n bias_c dst _ rfl (Mat.set_buf_buf dst _)
  simp only [e1] at h
  rw [← h]
  exact congrArg PackCursor.mem
    (pack_bias_congr cfg n bias_c _ dst2 hrow (by rw [hbuf, Mat.set_buf_buf]))

end

section

variable {α : Type}

/-! ### A second invocation of `create_pipeline` -/

theorem create_pipeline_congr (cfg : Build) (s1 s2 : GRU_arm α) (fx fb fh : Nat → Buf α)
    (opt : NcnnOption α) (h1 : s2.num_output = s1.num_output)
    (h2 : s2.weight_data_size = s1.weight_data_size) (h3 : s2.direction = s1.direction)
    (h4 : s2.weight_xc_data = s1.weight_xc_data) (h5 : s2.bias_c_data = s1.bias_c_data)
    (h6 : s2.weight_hc_data = s1.weight_hc_data) :
    (create_pipeline cfg s2 fx fb fh opt).2.weight_xc_data_packed
      = (create_pipeline cfg s1 fx fb fh opt).2.weight_xc_data_packed ∧
    (create_pipeline cfg s2 fx fb fh opt).2.bias_c_data_packed
      = (create_pipeline cfg s1 fx fb fh opt).2.bias_c_data_packed ∧
    (create_pipeline cfg s2 fx fb fh opt).2.weight_hc_data_packed
      = (create_pipeline cfg s1 fx fb fh opt).2.weight_hc_data_packed := by
  have hi : input_size s2 = input_size s1 := by
    unfold input_size
    rw [h1, h2, h3]
  have hc : create_packed cfg s2 fx fb fh = create_packed cfg s1 fx fb fh := by
    unfold create_packed
    simp only [hi, h1, h3]
  refine ⟨?_, ?_, ?_⟩
  · rw [create_pipeline_xc, create_pipeline_xc, hc, h1, h3, h4, hi]
  · rw [create_pipeline_bias, create_pipeline_bias, hc, h1, h3, h5]
  · rw [create_pipeline_hc, create_pipeline_hc, hc, h1, h3, h6]

theorem create_pipeline_raw (cfg : Build) (self : GRU_arm α) (fx fb fh : Nat → Buf α)
    (opt : NcnnOption α) (hl : opt.lightmode = false) :
    (create_pipeline cfg self fx fb fh opt).2.weight_xc_data = self.weight_xc_data ∧
    (create_pipeline cfg self fx fb fh opt).2.bias_c_data = self.bias_c_data ∧
    (create_pipeline cfg self fx fb fh opt).2.weight_hc_data = self.weight_hc_data := by
  unfold create_pipeline
  simp only [hl, Bool.false_eq_true, if_false, and_self]

theorem created_shape (cfg : Build) (self : GRU_arm α) (fx fb fh gx gb gh : Nat → Buf α)
    (D : Nat → Buf α) :
    ({ (create_packed cfg self gx gb gh).xc with data := D } : Mat α)
      = { (create_packed cfg self fx fb fh).xc with data := D } ∧
    ({ (create_packed cfg self gx gb gh).bias with data := D } : Mat α)
      = { (create_packed cfg self fx fb fh).bias with data := D } ∧
    ({ (create_packed cfg self gx gb gh).hc with data := D } : Mat α)
      = { (create_packed cfg self fx fb fh).hc with data := D } := by
  unfold create_packed
  cases cfg.arm_neon <;> exact ⟨rfl, rfl, rfl⟩

theorem created_buf (cfg : Build) (self : GRU_arm α) (gx gb gh : Nat → Buf α) (c : Nat) :
    ((create_packed cfg self gx gb gh).xc.channel c).buf = gx c ∧
    ((create_packed cfg self gx gb gh).bias.channel c).buf = gb c ∧
    ((create_packed cfg self gx gb gh).hc.channel c).buf = gh c := by
  unfold create_packed
  cases cfg.arm_neon <;> exact ⟨rfl, rfl, rfl⟩

theorem repack_same_storage (cfg : Build) (self : GRU_arm α) (fx fb fh : Nat → Buf α)
    (opt : NcnnOption α) :
    (create_pipeline cfg self
        (create_pipeline cfg self fx fb fh opt).2.weight_xc_data_packed.data
        (create_pipeline cfg self fx fb fh opt).2.bias_c_data_packed.data
        (create_pipeline cfg self fx fb fh opt).2.weight_hc_data_packed.data
        opt).2.weight_xc_data_packed
      = (create_pipeline cfg self fx fb fh opt).2.weight_xc_data_packed ∧
    (create_pipeline cfg self
        (create_pipeline cfg self fx fb fh opt).2.weight_xc_data_packed.data
        (create_pipeline cfg self fx fb fh opt).2.bias_c_data_packed.data
        (create_pipeline cfg self fx fb fh opt).2.weight_hc_data_packed.data
        opt).2.bias_c_data_packed
      = (create_pipeline cfg self fx fb fh opt).2.bias_c_data_packed ∧
    (create_pipeline cfg self
        (create_pipeline cfg self fx fb fh opt).2.weight_xc_data_packed.data
        (create_pipeline cfg self fx fb fh opt).2.bias_c_data_packed.data
        (create_pipeline cfg self fx fb fh opt).2.weight_hc_data_packed.data
        opt).2.weight_hc_data_packed
      = (create_pipeline cfg self fx fb fh opt).2.weight_hc_data_packed := by
  generalize hgx : (create_pipeline cfg self fx fb fh opt).2.weight_xc_data_packed.data = gx
  generalize hgb : (create_pipeline cfg self fx fb fh opt).2.bias_c_data_packed.data = gb
  generalize hgh : (create_pipeline cfg self fx fb fh opt).2.weight_hc_data_packed.data = gh
  rw [create_pipeline_xc] at hgx
  rw [create_pipeline_bias] at hgb
  rw [create_pipeline_hc] at hgh
  simp only [] at hgx hgb hgh
  have hDx : (fun c => if c < num_directions self.direction then
        pack_mat cfg self.num_output (input_size self) (self.weight_xc_data.channel c)
          ((create_packed cfg self gx gb gh).xc.channel c)
      else gx c)
      = fun c => if c < num_directions self.direction then
        pack_mat cfg self.num_output (input_size self) (self.weight_xc_data.channel c)
          ((create_packed cfg self fx fb fh).xc.channel c)
      else fx c := by
    funext c
    by_cases hc : c < num_directions self.direction
    · rw [if_pos hc, if_pos hc]
      apply pack_mat_idem
      · intro y
        rw [created_xc_row, created_xc_row]
      · rw [(created_buf cfg self gx gb gh c).1, ← hgx]
        simp only [if_pos hc]
    · rw [if_neg hc, if_neg hc, ← hgx]
      simp only [if_neg hc]
  have hDb : (fun c => if c < num_directions self.direction then
        (pack_bias cfg self.num_output (self.bias_c_data.channel c)
          ((create_packed cfg self gx gb gh).bias.channel c)).mem
      else gb c)
      = fun c => if c < num_directions self.direction then
        (pack_bias cfg self.num_output (self.bias_c_data.channel c)
          ((create_packed cfg self fx fb fh).bias.channel c)).mem
      else fb c := by
    funext c
    by_cases hc : c < num_directions self.direction
    · rw [if_pos hc, if_pos hc]
      apply pack_bias_idem
      · rw [created_bias_row0, created_bias_row0]
      · rw [(created_buf cfg self gx gb gh c).2.1, ← hgb]
        simp only [if_pos hc]
    · rw [if_neg hc, if_neg hc, ← hgb]
      simp only [if_neg hc]
  have hDh : (fun c => if c < num_directions self.direction then
        pack_mat cfg self.num_output self.num_output (self.weight_hc_data.channel c)
          ((create_packed cfg self gx gb gh).hc.channel c)
      else gh c)
      = fun c => if c < num_directions self.direction then
        pack_mat cfg self.num_output self.num_output (self.weight_hc_data.channel c)
          ((create_packed cfg self fx fb fh).hc.channel c)
      else fh c := by
    funext c
    by_cases hc : c < num_directions self.direction
    · rw [if_pos hc, if_pos hc]
      apply pack_mat_idem
      · intro y
        rw [created_hc_row, created_hc_row]
      · rw [(created_buf cfg self gx gb gh c).2.2, ← hgh]
        simp only [if_pos hc]
    · rw [if_neg hc, if_neg hc, ← hgh]
      simp only [if_neg hc]
  refine ⟨?_, ?_, ?_⟩
  · rw [create_pipeline_xc, create_pipeline_xc, hDx]
    exact (created_shape cfg self fx fb fh gx gb gh _).1
  · rw [create_pipeline_bias, create_pipeline_bias, hDb]
    exact (created_shape cfg self fx fb fh gx gb gh _).2.1
  · rw [create_pipeline_hc, create_pipeline_hc, hDh]
    exact (created_shape cfg self fx fb fh gx gb gh _).2.2

/-- C18: with light mode disabled, `create_pipeline` leaves the three raw tensors as they
were, and a second invocation on the resulting layer gives packed tensors identical to those of
the first: when the newly created storage has the same contents as in the first invocation,
and when the second invocation works on the storage left by the first (creation leaves
contents in place). For storage with any other contents `g` the packed tensors of the second
invocation agree with those of the first at every position that holds a coefficient
(`pack_pos`, `bias_pos`). -/
theorem C18_repack_identical (cfg : Build) (self : GRU_arm α)
    (fresh_xc fresh_bias fresh_hc : Nat → Buf α) (opt : NcnnOption α)
    (gx gb gh : Nat → Buf α) (hl : opt.lightmode = false) :
    ((create_pipeline cfg self fresh_xc fresh_bias fresh_hc opt).2.weight_xc_data
        = self.weight_xc_data ∧
      (create_pipeline cfg self fresh_xc fresh_bias fresh_hc opt).2.bias_c_data
        = self.bias_c_data ∧
      (create_pipeline cfg self fresh_xc fresh_bias fresh_hc opt).2.weight_hc_data
        = self.weight_hc_data) ∧
    ((create_pipeline cfg (create_pipeline cfg self fresh_xc fresh_bias fresh_hc opt).2
          fresh_xc fresh_bias fresh_hc opt).2.weight_xc_data_packed
        = (create_pipeline cfg self fresh_xc fresh_bias fresh_hc opt).2.weight_xc_data_packed ∧
      (create_pipeline cfg (create_pipeline cfg self fresh_xc fresh_bias fresh_hc opt).2
          fresh_xc fresh_bias fresh_hc opt).2.bias_c_data_packed
        = (create_pipeline cfg self fresh_xc fresh_bias fresh_hc opt).2.bias_c_data_packed ∧
      (create_pipeline cfg (create_pipeline cfg self fresh_xc fresh_bias fresh_hc opt).2
          fresh_xc fresh_bias fresh_hc opt).2.weight_hc_data_packed
        = (create_pipeline cfg self fresh_xc fresh_bias fresh_hc opt).2.weight_hc_data_packed) ∧
    ((create_pipeline cfg (create_pipeline cfg self fresh_xc fresh_bias fresh_hc opt).2
          (create_pipeline cfg self fresh_xc fresh_bias fresh_hc opt).2.weight_xc_data_packed.data
          (create_pipeline cfg self fresh_xc fresh_bias fresh_hc opt).2.bias_c_data_packed.data
          (create_pipeline cfg self fresh_xc fresh_bias fresh_hc opt).2.weight_hc_data_packed.data
          opt).2.weight_xc_data_packed
        = (create_pipeline cfg self fresh_xc fresh_bias fresh_hc opt).2.weight_xc_data_packed ∧
      (create_pipeline cfg (create_pipeline cfg self fresh_xc fresh_bias fresh_hc opt).2
          (create_pipeline cfg self fresh_xc fresh_bias fresh_hc opt).2.weight_xc_data_packed.data
          (create_pipeline cfg self fresh_xc fresh_bias fresh_hc opt).2.bias_c_data_packed.data
          (create_pipeline cfg self fresh_xc fresh_bias fresh_hc opt).2.weight_hc_data_packed.data
          opt).2.bias_c_data_packed
        = (create_pipeline cfg self fresh_xc fresh_bias fresh_hc opt).2.bias_c_data_packed ∧
      (create_pipeline cfg (create_pipeline cfg self fresh_xc fresh_bias fresh_hc opt).2
          (create_pipeline cfg self fresh_xc fresh_bias fresh_hc opt).2.weight_xc_data_packed.data
          (create_pipeline cfg self fresh_xc fresh_bias fresh_hc opt).2.bias_c_data_packed.data
          (create_pipeline cfg self fresh_xc fresh_bias fresh_hc opt).2.weight_hc_data_packed.data
          opt).2.weight_hc_data_packed
        = (create_pipeline cfg self fresh_xc fresh_bias fresh_hc opt).2.weight_hc_data_packed) ∧
    (∀ dr, dr < num_directions self.direction →
      (∀ r i, r < 3 * self.num_output → i < input_size self →
        ((create_pipeline cfg (create_pipeline cfg self fresh_xc fresh_bias fresh_hc opt).2
            gx gb gh opt).2.weight_xc_data_packed.channel dr).buf
            (pack_pos cfg self.num_output (input_size self) r i)
          = ((create_pipeline cfg self fresh_xc fresh_bias fresh_hc
              opt).2.weight_xc_data_packed.channel dr).buf
            (pack_pos cfg self.num_output (input_size self) r i)) ∧
      (∀ r i, r < 3 * self.num_output → i < self.num_output →
        ((create_pipeline cfg (create_pipeline cfg self fresh_xc fresh_bias fresh_hc opt).2
            gx gb gh opt).2.weight_hc_data_packed.channel dr).buf
            (pack_pos cfg self.num_output self.num_output r i)
          = ((create_pipeline cfg self fresh_xc fresh_bias fresh_hc
              opt).2.weight_hc_data_packed.channel dr).buf
            (pack_pos cfg self.num_output self.num_output r i)) ∧
      (∀ k q, k < 4 → q < self.num_output →
        ((create_pipeline cfg (create_pipeline cfg self fresh_xc fresh_bias fresh_hc opt).2
            gx gb gh opt).2.bias_c_data_packed.channel dr).buf (bias_pos cfg self.num_output k q)
          = ((create_pipeline cfg self fresh_xc fresh_bias fresh_hc
              opt).2.bias_c_data_packed.channel dr).buf (bias_pos cfg self.num_output k q))) := by
  obtain ⟨p1, p2, p3⟩ := create_pipeline_params cfg self fresh_xc fresh_bias fresh_hc opt
  obtain ⟨r1, r2, r3⟩ := create_pipeline_raw cfg self fresh_xc fresh_bias fresh_hc opt hl
  have hc := fun fx fb fh => create_pipeline_congr cfg self
    (create_pipeline cfg self fresh_xc fresh_bias fresh_hc opt).2 fx fb fh opt p1 p3 p2 r1 r2 r3
  refine ⟨⟨r1, r2, r3⟩, hc fresh_xc fresh_bias fresh_hc, ?_, ?_⟩
  · obtain ⟨c1, c2, c3⟩ := hc
      (create_pipeline cfg self fresh_xc fresh_bias fresh_hc opt).2.weight_xc_data_packed.data
      (create_pipeline cfg self fresh_xc fresh_bias fresh_hc opt).2.bias_c_data_packed.data
      (create_pipeline cfg self fresh_xc fresh_bias fresh_hc opt).2.weight_hc_data_packed.data
    obtain ⟨s1, s2, s3⟩ := repack_same_storage cfg self fresh_xc fresh_bias fresh_hc opt
    exact ⟨c1.trans s1, c2.trans s2, c3.trans s3⟩
  · intro dr hdr
    obtain ⟨c1, c2, c3⟩ := hc gx gb gh
    rw [c1, c2, c3]
    refine ⟨?_, ?_, ?_⟩
    · intro r i hr hi
      rw [pack_pos_read cfg self.num_output (input_size self) _ _ _
          (packed_xc_buf cfg self gx gb gh opt dr hdr) (packed_xc_row cfg self gx gb gh opt dr)
          (created_xc_row cfg self gx gb gh dr) r i hr hi,
        pack_pos_read cfg self.num_output (input_size self) _ _ _
          (packed_xc_buf cfg self fresh_xc fresh_bias fresh_hc opt dr hdr)
          (packed_xc_row cfg self fresh_xc fresh_bias fresh_hc opt dr)
          (created_xc_row cfg self fresh_xc fresh_bias fresh_hc dr) r i hr hi]
    · intro r i hr hi
      rw [pack_pos_read cfg self.num_output self.num_output _ _ _
          (packed_hc_buf cfg self gx gb gh opt dr hdr) (packed_hc_row cfg self gx gb gh opt dr)
          (created_hc_row cfg self gx gb gh dr) r i hr hi,
        pack_pos_read cfg self.num_output self.num_output _ _ _
          (packed_hc_buf cfg self fresh_xc fresh_bias fresh_hc opt dr hdr)
          (packed_hc_row cfg self fresh_xc fresh_bias fresh_hc opt dr)
          (created_hc_row cfg self fresh_xc fresh_bias fresh_hc dr) r i hr hi]
    · intro k q hk hq
      rw [packed_bias_buf cfg self gx gb gh opt dr hdr,
        packed_bias_buf cfg self fresh_xc fresh_bias fresh_hc opt dr hdr, bias_pos,
        packed_bias_read cfg self.num_output _ _ (created_bias_row0 cfg self gx gb gh dr) q hq k
          hk,
        packed_bias_read cfg self.num_output _ _
          (created_bias_row0 cfg self fresh_xc fresh_bias fresh_hc dr) q hq k hk]

/-- Instance of C18 on the 5-unit example layer: the second invocation on the storage left by
the first gives the same packed input-to-hidden tensor. -/
theorem C18_repack_identical_witness :
    ex_opt.lightmode = false ∧
    (create_pipeline ex_cfg (ex_packed 0) (ex_packed 0).weight_xc_data_packed.data
        (ex_packed 0).bias_c_data_packed.data (ex_packed 0).weight_hc_data_packed.data
        ex_opt).2.weight_xc_data_packed
      = (ex_packed 0).weight_xc_data_packed :=
  ⟨rfl, (C18_repack_identical ex_cfg (ex_layer 0) ex_fresh ex_fresh ex_fresh ex_opt ex_fresh
    ex_fresh ex_fresh rfl).2.2.1.1⟩

end

section

variable {α : Type}

/-! ## Layout of the units stored one at a time, and of the packed bias -/

/-- C21: for each direction and every hidden unit `q` that is not part of a full group of 4
(every unit in the scalar layout), row `unit_row q` of the packed input-to-hidden channel holds,
for each input feature `i < size`, the reset coefficient `Wxc[q][i]` at offset `2*i`, the update
coefficient `Wxc[num_output+q][i]` at offset `2*i + 1` and the candidate coefficient
`Wxc[2*num_output+q][i]` at offset `2*size + i`; the packed hidden-to-hidden channel holds `Whc`
in the same way with `size` replaced by `num_output`; and no other unit is stored in that row
(a unit of a group sits in row `q2 / 4`, any other unit in row `unit_row q2`). -/
theorem C21_remainder_unit_layout (cfg : Build) (self : GRU_arm α)
    (fresh_xc fresh_bias fresh_hc : Nat → Buf α) (opt : NcnnOption α) (dr q : Nat)
    (hdr : dr < num_directions self.direction)
    (hq1 : remain_num_output_start cfg self.num_output ≤ q) (hq2 : q < self.num_output) :
    (∀ i, i < input_size self →
      ((create_pipeline cfg self fresh_xc fresh_bias fresh_hc opt).2.weight_xc_data_packed.channel
          dr).at2 (unit_row cfg q) (2 * i)
        = (self.weight_xc_data.channel dr).at2 q i ∧
      ((create_pipeline cfg self fresh_xc fresh_bias fresh_hc opt).2.weight_xc_data_packed.channel
          dr).at2 (unit_row cfg q) (2 * i + 1)
        = (self.weight_xc_data.channel dr).at2 (self.num_output + q) i ∧
      ((create_pipeline cfg self fresh_xc fresh_bias fresh_hc opt).2.weight_xc_data_packed.channel
          dr).at2 (unit_row cfg q) (2 * input_size self + i)
        = (self.weight_xc_data.channel dr).at2 (2 * self.num_output + q) i) ∧
    (∀ i, i < self.num_output →
      ((create_pipeline cfg self fresh_xc fresh_bias fresh_hc opt).2.weight_hc_data_packed.channel
          dr).at2 (unit_row cfg q) (2 * i)
        = (self.weight_hc_data.channel dr).at2 q i ∧
      ((create_pipeline cfg self fresh_xc fresh_bias fresh_hc opt).2.weight_hc_data_packed.channel
          dr).at2 (unit_row cfg q) (2 * i + 1)
        = (self.weight_hc_data.channel dr).at2 (self.num_output + q) i ∧
      ((create_pipeline cfg self fresh_xc fresh_bias fresh_hc opt).2.weight_hc_data_packed.channel
          dr).at2 (unit_row cfg q) (2 * self.num_output + i)
        = (self.weight_hc_data.channel dr).at2 (2 * self.num_output + q) i) ∧
    (∀ q2, q2 < self.num_output → q2 ≠ q →
      (if q2 < remain_num_output_start cfg self.num_output then q2 / 4 else unit_row cfg q2)
        ≠ unit_row cfg q) := by
  refine ⟨?_, ?_, ?_⟩
  · intro i hi
    have h := packed_unit_read cfg self.num_output (input_size self) _ _ _
      (packed_xc_buf cfg self fresh_xc fresh_bias fresh_hc opt dr hdr)
      (packed_xc_row cfg self fresh_xc fresh_bias fresh_hc opt dr)
      (created_xc_row cfg self fresh_xc fresh_bias fresh_hc dr) q hq1 hq2 i hi
    simp only [Mat.at2, ← Nat.add_assoc] at h ⊢
    exact h
  · intro i hi
    have h := packed_unit_read cfg self.num_output self.num_output _ _ _
      (packed_hc_buf cfg self fresh_xc fresh_bias fresh_hc opt dr hdr)
      (packed_hc_row cfg self fresh_xc fresh_bias fresh_hc opt dr)
      (created_hc_row cfg self fresh_xc fresh_bias fresh_hc dr) q hq1 hq2 i hi
    simp only [Mat.at2, ← Nat.add_assoc] at h ⊢
    exact h
  · intro q2 hq2n hne
    cases hneon : cfg.arm_neon
    · simp only [remain_num_output_start, unit_row, hneon, Bool.false_eq_true, if_false,
        Nat.not_lt_zero]
      exact hne
    · simp only [remain_num_output_start, unit_row, hneon, if_true, Nat.shiftRight_eq_div_pow,
        Nat.shiftLeft_eq] at hq1 ⊢
      split <;> omega

/-- Instance of C21 on the 5-unit example layer: unit 4 is stored on its own in packed row 2;
input feature 1. -/
theorem C21_remainder_unit_layout_witness :
    0 < num_directions (ex_layer 0).direction ∧
    remain_num_output_start ex_cfg (ex_layer 0).num_output ≤ 4 ∧ 4 < (ex_layer 0).num_output ∧
    ((ex_packed 0).weight_xc_data_packed.channel 0).at2 (unit_row ex_cfg 4)
        (2 * input_size (ex_layer 0) + 1)
      = ((ex_layer 0).weight_xc_data.channel 0).at2 (2 * (ex_layer 0).num_output + 4) 1 :=
  ⟨by decide, by decide, by decide,
    ((C21_remainder_unit_layout ex_cfg (ex_layer 0) ex_fresh ex_fresh ex_fresh ex_opt 0 4
      (by decide) (by decide) (by decide)).1 1 (by decide)).2.2⟩

/-- C22 as stated fails for a unit of a 4-lane group: in the packed bias of the 5-unit example
layer, float offset `4*0 + 1` (the second entry of the record claimed for unit 0) holds the
reset bias of unit 1, `bias_row0[1] = 3`, and not the update bias of unit 0,
`bias_row1[0] = 11`. -/
theorem C22_counterexample :
    ((ex_packed 0).bias_c_data_packed.channel 0).buf (4 * 0 + 1)
      = ((ex_layer 0).bias_c_data.channel 0).at2 0 1 ∧
    ((ex_layer 0).bias_c_data.channel 0).at2 0 1 = 3 ∧
    ((ex_layer 0).bias_c_data.channel 0).at2 1 0 = 11 ∧
    ((ex_packed 0).bias_c_data_packed.channel 0).buf (4 * 0 + 1)
      ≠ ((ex_layer 0).bias_c_data.channel 0).at2 1 0 := by
  have h := packed_bias_read ex_cfg (ex_layer 0).num_output ((ex_layer 0).bias_c_data.channel 0)
    ((create_packed ex_cfg (ex_layer 0) ex_fresh ex_fresh ex_fresh).bias.channel 0)
    (created_bias_row0 ex_cfg (ex_layer 0) ex_fresh ex_fresh ex_fresh 0) 1 (by decide) 0
    (by decide)
  rw [← packed_bias_buf ex_cfg (ex_layer 0) ex_fresh ex_fresh ex_fresh ex_opt 0 (by decide)] at h
  have e : ((ex_packed 0).bias_c_data_packed.channel 0).buf (4 * 0 + 1)
      = ((ex_layer 0).bias_c_data.channel 0).at2 0 1 := h
  have v1 : ((ex_layer 0).bias_c_data.channel 0).at2 0 1 = 3 := by
    norm_num [ex_layer, ex_mat, Mat.at2, Mat.channel, Mat.buf, Mat.row]
  have v2 : ((ex_layer 0).bias_c_data.channel 0).at2 1 0 = 11 := by
    norm_num [ex_layer, ex_mat, Mat.at2, Mat.channel, Mat.buf, Mat.row]
  have hne : (3 : ℚ) ≠ 11 := by norm_num
  exact ⟨e, v1, v2, fun hh => hne (v1.symm.trans (e.symm.trans (hh.trans v2)))⟩

/-- C22 (amended): for every direction and hidden unit `q`, the packed bias holds the four
biases of the unit in the order reset, update, candidate hidden-side (raw row 3), candidate
input-side (raw row 2). A unit stored on its own (group remainder, or any unit in the scalar
layout) has them at float offsets `4*q .. 4*q + 3`; a unit of a 4-lane group has them at stride
4 inside the 16-float record of its group, at offsets `16*(q/4) + 4*k + q%4` for
`k = 0, 1, 2, 3`. -/
theorem C22_bias_record (cfg : Build) (self : GRU_arm α)
    (fresh_xc fresh_bias fresh_hc : Nat → Buf α) (opt : NcnnOption α) (dr q : Nat)
    (hdr : dr < num_directions self.direction) (hq : q < self.num_output) :
    (remain_num_output_start cfg self.num_output ≤ q →
      ((create_pipeline cfg self fresh_xc fresh_bias fresh_hc opt).2.bias_c_data_packed.channel
          dr).buf (4 * q) = (self.bias_c_data.channel dr).at2 0 q ∧
      ((create_pipeline cfg self fresh_xc fresh_bias fresh_hc opt).2.bias_c_data_packed.channel
          dr).buf (4 * q + 1) = (self.bias_c_data.channel dr).at2 1 q ∧
      ((create_pipeline cfg self fresh_xc fresh_bias fresh_hc opt).2.bias_c_data_packed.channel
          dr).buf (4 * q + 2) = (self.bias_c_data.channel dr).at2 3 q ∧
      ((create_pipeline cfg self fresh_xc fresh_bias fresh_hc opt).2.bias_c_data_packed.channel
          dr).buf (4 * q + 3) = (self.bias_c_data.channel dr).at2 2 q) ∧
    (q < remain_num_output_start cfg self.num_output →
      ((create_pipeline cfg self fresh_xc fresh_bias fresh_hc opt).2.bias_c_data_packed.channel
          dr).buf (16 * (q / 4) + q % 4) = (self.bias_c_data.channel dr).at2 0 q ∧
      ((create_pipeline cfg self fresh_xc fresh_bias fresh_hc opt).2.bias_c_data_packed.channel
          dr).buf (16 * (q / 4) + 4 + q % 4) = (self.bias_c_data.channel dr).at2 1 q ∧
      ((create_pipeline cfg self fresh_xc fresh_bias fresh_hc opt).2.bias_c_data_packed.channel
          dr).buf (16 * (q / 4) + 8 + q % 4) = (self.bias_c_data.channel dr).at2 3 q ∧
      ((create_pipeline cfg self fresh_xc fresh_bias fresh_hc opt).2.bias_c_data_packed.channel
          dr).buf (16 * (q / 4) + 12 + q % 4) = (self.bias_c_data.channel dr).at2 2 q) := by
  have h : ∀ k, k < 4 →
      ((create_pipeline cfg self fresh_xc fresh_bias fresh_hc opt).2.bias_c_data_packed.channel
          dr).buf (if q < remain_num_output_start cfg self.num_output
            then 16 * (q / 4) + 4 * k + q % 4 else 4 * q + k)
        = (self.bias_c_data.channel dr).at2 (bias_sel k) q := by
    intro k hk
    rw [packed_bias_buf cfg self fresh_xc fresh_bias fresh_hc opt dr hdr]
    exact packed_bias_read cfg self.num_output _ _
      (created_bias_row0 cfg self fresh_xc fresh_bias fresh_hc dr) q hq k hk
  constructor
  · intro hge
    have hn : ¬ q < remain_num_output_start cfg self.num_output := by omega
    have h0 := h 0 (by decide)
    have h1 := h 1 (by decide)
    have h2 := h 2 (by decide)
    have h3 := h 3 (by decide)
    simp only [if_neg hn, bias_sel] at h0 h1 h2 h3
    exact ⟨h0, h1, h2, h3⟩
  · intro hlt
    have h0 := h 0 (by decide)
    have h1 := h 1 (by decide)
    have h2 := h 2 (by decide)
    have h3 := h 3 (by decide)
    simp only [if_pos hlt, bias_sel] at h0 h1 h2 h3
    exact ⟨h0, h1, h2, h3⟩

/-- Instance of the amended C22 on the 5-unit example layer: unit 4 is stored on its own, its
candidate hidden-side bias sits at offset `4*4 + 2`. -/
theorem C22_bias_record_witness :
    0 < num_directions (ex_layer 0).direction ∧ 4 < (ex_layer 0).num_output ∧
    remain_num_output_start ex_cfg (ex_layer 0).num_output ≤ 4 ∧
    ((ex_packed 0).bias_c_data_packed.channel 0).buf (4 * 4 + 2)
      = ((ex_layer 0).bias_c_data.channel 0).at2 3 4 :=
  ⟨by decide, by decide, by decide,
    ((C22_bias_record ex_cfg (ex_layer 0) ex_fresh ex_fresh ex_fresh ex_opt 0 4 (by decide)
      (by decide)).1 (by decide)).2.2.1⟩

end

section

variable {α : Type} [Field α]

/-! ## One timestep: gates first, then the hidden vector -/

/-- The gate workspace after a timestep is the one left by the two gate loops, which read the
hidden vector the timestep started with; the loops that write the hidden vector do not touch
it. -/
theorem gru_step_gates (cfg : Build) (lm : Libm α) (bottom_blob top_blob : Mat α) (reverse : Nat)
    (wxc bias whc : Mat α) (t : Nat) (s : StepState α) :
    (gru_step cfg lm bottom_blob top_blob reverse wxc bias whc t s).gates =
      forFrom top_blob.w
        (step_gates1 cfg lm bottom_blob.w top_blob.w bottom_blob.buf
          (bottom_blob.row (step_ti reverse bottom_blob.h t)) wxc bias whc s.hidden)
        (remain_num_output_start cfg top_blob.w)
        (if cfg.arm_neon then
          forFrom (top_blob.w >>> 2)
            (step_gates4 cfg lm bottom_blob.w top_blob.w bottom_blob.buf
              (bottom_blob.row (step_ti reverse bottom_blob.h t)) wxc bias whc s.hidden) 0 s.gates
         else s.gates) := by
  simp only [gru_step]
  rw [forFrom_eq_forRange top_blob.w (step_H1 _ _ _)
    (top_blob.w - remain_num_output_start cfg top_blob.w) _ _ rfl]
  rw [step_H1_loop cfg top_blob.w _ _ rfl]
  cases hneon : cfg.arm_neon
  · simp only [Bool.false_eq_true, if_false]
  · simp only [if_true, shr2]
    rw [forFrom_zero (top_blob.w / 4) (step_H4 _ _ _),
      step_H4_loop cfg hneon top_blob.w _ _ _ (Nat.le_refl _)]

/-- C23: in one timestep of `gru`, started in state `s`, the gate workspace left by the
timestep holds for every hidden unit `q` the gates `U` and `N` computed from the hidden vector
`s.hidden` the timestep started with, and the hidden vector left by the timestep is the
simultaneous update `gru_next` of all units from `s.hidden`: the new value of unit `q` is
`(1 - U) * N + U * s.hidden[q]` with `U`, `N` computed from `s.hidden`, so it does not depend on
the new value of any other unit (two start states that agree on the hidden vector give the
same new hidden vector). -/
theorem C23_gates_before_commit (cfg : Build) (lm : Libm α) (bottom_blob top_blob : Mat α)
    (reverse : Nat) (weight_xc bias_c weight_hc : Mat α) (t : Nat) (s : StepState α) :
    (∀ q, q < top_blob.w →
      gate_U_at cfg top_blob.w
          (gru_step cfg lm bottom_blob top_blob reverse weight_xc bias_c weight_hc t s).gates q
        = (gru_unit_gates cfg lm bottom_blob.w top_blob.w bottom_blob.buf
            (bottom_blob.row (step_ti reverse bottom_blob.h t)) weight_xc bias_c weight_hc
            s.hidden q).U ∧
      gate_N_at cfg top_blob.w
          (gru_step cfg lm bottom_blob top_blob reverse weight_xc bias_c weight_hc t s).gates q
        = (gru_unit_gates cfg lm bottom_blob.w top_blob.w bottom_blob.buf
            (bottom_blob.row (step_ti reverse bottom_blob.h t)) weight_xc bias_c weight_hc
            s.hidden q).N) ∧
    (gru_step cfg lm bottom_blob top_blob reverse weight_xc bias_c weight_hc t s).hidden
      = gru_next cfg lm bottom_blob top_blob weight_xc bias_c weight_hc
          (step_ti reverse bottom_blob.h t) s.hidden ∧
    (∀ q, q < top_blob.w →
      (gru_step cfg lm bottom_blob top_blob reverse weight_xc bias_c weight_hc t s).hidden q
        = (1 - (gru_unit_gates cfg lm bottom_blob.w top_blob.w bottom_blob.buf
              (bottom_blob.row (step_ti reverse bottom_blob.h t)) weight_xc bias_c weight_hc
              s.hidden q).U)
            * (gru_unit_gates cfg lm bottom_blob.w top_blob.w bottom_blob.buf
              (bottom_blob.row (step_ti reverse bottom_blob.h t)) weight_xc bias_c weight_hc
              s.hidden q).N
          + (gru_unit_gates cfg lm bottom_blob.w top_blob.w bottom_blob.buf
              (bottom_blob.row (step_ti reverse bottom_blob.h t)) weight_xc bias_c weight_hc
              s.hidden q).U * s.hidden q) ∧
    (∀ s2 : StepState α, s2.hidden = s.hidden →
      (gru_step cfg lm bottom_blob top_blob reverse weight_xc bias_c weight_hc t s2).hidden
        = (gru_step cfg lm bottom_blob top_blob reverse weight_xc bias_c weight_hc t s).hidden) := by
  have he := (gru_step_eq cfg lm bottom_blob top_blob reverse weight_xc bias_c weight_hc t s).1
  refine ⟨?_, ?_, ?_, ?_⟩
  · intro q hq
    rw [gru_step_gates]
    exact step_gates_spec cfg lm bottom_blob.w top_blob.w bottom_blob.buf
      (bottom_blob.row (step_ti reverse bottom_blob.h t)) weight_xc bias_c weight_hc s.hidden
      s.gates q hq
  · rw [he]
    rfl
  · intro q hq
    rw [he]
    simp only [if_pos hq, gru_cell, blend]
  · intro s2 h2
    rw [he, (gru_step_eq cfg lm bottom_blob top_blob reverse weight_xc bias_c weight_hc t s2).1,
      h2]

/-- Instance of C23 on the example layer: unit 1 in the first timestep. -/
theorem C23_gates_before_commit_witness :
    1 < ex_top.w ∧
    gate_U_at ex_cfg ex_top.w
        (gru_step ex_cfg ex_lm ex_bottom ex_top 0 ((ex_packed 0).weight_xc_data_packed.channel 0)
          ((ex_packed 0).bias_c_data_packed.channel 0)
          ((ex_packed 0).weight_hc_data_packed.channel 0) 0
          { gates := fun _ => 0, top := ex_top.buf, hidden := ex_hidden.buf }).gates 1
      = (gru_unit_gates ex_cfg ex_lm ex_bottom.w ex_top.w ex_bottom.buf
          (ex_bottom.row (step_ti 0 ex_bottom.h 0))
          ((ex_packed 0).weight_xc_data_packed.channel 0)
          ((ex_packed 0).bias_c_data_packed.channel 0)
          ((ex_packed 0).weight_hc_data_packed.channel 0) ex_hidden.buf 1).U :=
  ⟨by decide,
    ((C23_gates_before_commit ex_cfg ex_lm ex_bottom ex_top 0
      ((ex_packed 0).weight_xc_data_packed.channel 0)
      ((ex_packed 0).bias_c_data_packed.channel 0)
      ((ex_packed 0).weight_hc_data_packed.channel 0) 0
      { gates := fun _ => 0, top := ex_top.buf, hidden := ex_hidden.buf }).1 1 (by decide)).1⟩

/-! ## Status of `gru` -/

/-- C24: `gru` returns -100 exactly when the allocation of its gate workspace fails, and then
returns the output tensor and the hidden state as they were passed in; in every other case it
returns 0, and the output tensor and hidden state it leaves are those of the state reached by
applying the timestep body to `t = 0, 1, ..., T - 1` in turn, starting from the passed-in
buffers. -/
theorem C24_gru_status (cfg : Build) (lm : Libm α) (bottom_blob top_blob : Mat α)
    (reverse : Nat) (weight_xc bias_c weight_hc hidden_state : Mat α) (opt : NcnnOption α) :
    ((gru cfg lm bottom_blob top_blob reverse weight_xc bias_c weight_hc hidden_state opt).1
        = -100
      ↔ gates_create cfg top_blob.w opt.workspace_allocator = none) ∧
    (gates_create cfg top_blob.w opt.workspace_allocator = none →
      gru cfg lm bottom_blob top_blob reverse weight_xc bias_c weight_hc hidden_state opt
        = (-100, top_blob, hidden_state)) ∧
    (∀ g, gates_create cfg top_blob.w opt.workspace_allocator = some g →
      gru cfg lm bottom_blob top_blob reverse weight_xc bias_c weight_hc hidden_state opt
        = (0,
           top_blob.set_buf
            (forRange bottom_blob.h
              (gru_step cfg lm bottom_blob top_blob reverse weight_xc bias_c weight_hc)
              { gates := g.buf, top := top_blob.buf, hidden := hidden_state.buf }).top,
           hidden_state.set_buf
            (forRange bottom_blob.h
              (gru_step cfg lm bottom_blob top_blob reverse weight_xc bias_c weight_hc)
              { gates := g.buf, top := top_blob.buf, hidden := hidden_state.buf }).hidden)) := by
  refine ⟨?_, ?_, ?_⟩
  · rw [gru_status_cases]
    cases hg : gates_create cfg top_blob.w opt.workspace_allocator with
    | none => simp
    | some g => simp
  · intro hg
    exact gru_fail cfg lm bottom_blob top_blob reverse weight_xc bias_c weight_hc hidden_state
      opt hg
  · intro g hg
    unfold gru
    simp only [hg]
    rw [forFrom_zero]

end

section

variable {α : Type} [Field α]

/-! ## A sequence run in two calls (reverse order) -/

theorem hidden_seq_split_rev (cfg : Build) (lm : Libm α) (X X1 X2 top top1 top2 : Mat α)
    (wxc bias whc : Mat α) (h0 : Buf α) (hw1 : X1.w = X.w) (hw2 : X2.w = X.w)
    (ht1 : top1.w = top.w) (ht2 : top2.w = top.w) (hh : X.h = X1.h + X2.h)
    (hx1 : ∀ t i, t < X1.h → i < X.w → X1.at2 t i = X.at2 t i)
    (hx2 : ∀ t i, t < X2.h → i < X.w → X2.at2 t i = X.at2 (X1.h + t) i) :
    ∀ k, k ≤ X1.h → ∀ j, j < top.w →
      gru_hidden_seq cfg lm X top 1 wxc bias whc h0 (X2.h + k) j
        = gru_hidden_seq cfg lm X1 top1 1 wxc bias whc
            (gru_hidden_seq cfg lm X2 top2 1 wxc bias whc h0 X2.h) k j := by
  intro k
  induction k with
  | zero =>
    intro _ j hj
    exact hidden_seq_congr cfg lm X X2 top top2 1 1 wxc bias whc h0 h0 hw2.symm ht2.symm X2.h
      (fun t i ht hi => by
        rw [step_ti_reverse 1 _ _ (by decide), step_ti_reverse 1 _ _ (by decide)]
        have := hx2 (X2.h - 1 - t) i (by omega) hi
        rw [Mat.at2, Mat.at2] at this
        rw [this, show X.h - 1 - t = X1.h + (X2.h - 1 - t) by omega])
      (fun _ _ => rfl) X2.h (Nat.le_refl _) j hj
  | succ k ih =>
    intro hk j hj
    rw [← Nat.add_assoc, hidden_seq_succ_lt _ _ _ _ _ _ _ _ _ _ _ hj,
      hidden_seq_succ_lt _ _ _ _ _ _ _ _ _ _ _ (by omega),
      step_ti_reverse 1 _ _ (by decide), step_ti_reverse 1 _ _ (by decide), hw1, ht1]
    refine gru_cell_congr cfg lm X.w top.w X.buf X1.buf _ _ wxc bias whc _ _
      (fun i hi => ?_) (ih (by omega)) j hj
    have := hx1 (X1.h - 1 - k) i (by omega) hi
    rw [Mat.at2, Mat.at2] at this
    rw [this, show X.h - 1 - (X2.h + k) = X1.h - 1 - k by omega]

theorem hidden_seq_split_rev_fun (cfg : Build) (lm : Libm α) (X X1 X2 top top1 top2 : Mat α)
    (wxc bias whc : Mat α) (h0 : Buf α) (hw1 : X1.w = X.w) (hw2 : X2.w = X.w)
    (ht1 : top1.w = top.w) (ht2 : top2.w = top.w) (hh : X.h = X1.h + X2.h)
    (hx1 : ∀ t i, t < X1.h → i < X.w → X1.at2 t i = X.at2 t i)
    (hx2 : ∀ t i, t < X2.h → i < X.w → X2.at2 t i = X.at2 (X1.h + t) i) :
    gru_hidden_seq cfg lm X top 1 wxc bias whc h0 X.h
      = gru_hidden_seq cfg lm X1 top1 1 wxc bias whc
          (gru_hidden_seq cfg lm X2 top2 1 wxc bias whc h0 X2.h) X1.h := by
  funext j
  by_cases hj : j < top.w
  · rw [hh, Nat.add_comm]
    exact hidden_seq_split_rev cfg lm X X1 X2 top top1 top2 wxc bias whc h0 hw1 hw2 ht1 ht2 hh
      hx1 hx2 X1.h (Nat.le_refl _) j hj
  · rw [hidden_seq_ge _ _ _ _ _ _ _ _ _ _ _ (by omega),
      hidden_seq_ge _ _ _ _ _ _ _ _ _ _ _ (by omega),
      hidden_seq_ge _ _ _ _ _ _ _ _ _ _ _ (by omega)]

/-- C29: in reverse mode (`direction = 1`) with two outputs requested and all allocations
successful, the multi-input `forward` on a sequence `X` of `T + T2` rows with incoming hidden
state `h0` equals its run on the last `T2` rows (`X2`) with `h0`, followed by a call on the
first `T` rows (`X1`) that is given the hidden state returned by that first call: the three
calls return status 0, the rows of the two partial outputs are the rows of the one-call output
at their positions (`X1.h + t` for row `t` of the first call, `t` for row `t` of the second),
and the final hidden states are equal. -/
theorem C29_split_reverse (cfg : Build) (lm : Libm α) (self : GRU_arm α) (X X1 X2 : Mat α)
    (rest : List (Mat α)) (t0 t1 hidden : Mat α) (opt : NcnnOption α)
    (hd : self.direction = 1)
    (hw1 : X1.w = X.w) (hw2 : X2.w = X.w) (hh : X.h = X1.h + X2.h)
    (hx1 : ∀ t i, t < X1.h → i < X.w → X1.at2 t i = X.at2 t i)
    (hx2 : ∀ t i, t < X2.h → i < X.w → X2.at2 t i = X.at2 (X1.h + t) i)
    (hH : forward_vec_hidden self (X :: rest) [t0, t1] opt = some hidden)
    (hHc : (opt.blob_allocator hidden.total).isSome)
    (hT : (opt.blob_allocator (self.num_output * 1 * X.h)).isSome)
    (hT1 : (opt.blob_allocator (self.num_output * 1 * X1.h)).isSome)
    (hT2 : (opt.blob_allocator (self.num_output * 1 * X2.h)).isSome)
    (hG : (gates_create cfg self.num_output opt.workspace_allocator).isSome) :
    ∃ tw hw o2 h2 o1 h1,
      forward_vec cfg lm self (X :: rest) [t0, t1] opt = .ok [tw, hw] ∧
      forward_vec cfg lm self (X2 :: rest) [t0, t1] opt = .ok [o2, h2] ∧
      forward_vec cfg lm self [X1, h2] [t0, t1] opt = .ok [o1, h1] ∧
      (∀ t q, t < X2.h → q < self.num_output → tw.at2 (X1.h + t) q = o2.at2 t q) ∧
      (∀ t q, t < X1.h → q < self.num_output → tw.at2 t q = o1.at2 t q) ∧
      hw = h1 := by
  obtain ⟨bt, hbt⟩ := Option.isSome_iff_exists.mp hT
  obtain ⟨bt1, hbt1⟩ := Option.isSome_iff_exists.mp hT1
  obtain ⟨bt2, hbt2⟩ := Option.isSome_iff_exists.mp hT2
  have hdu : self.direction = 0 ∨ self.direction = 1 := Or.inr hd
  have hHx : forward_vec_hidden self (X2 :: rest) [t0, t1] opt = some hidden := hH
  have e0 := forward_vec_uni_eq cfg lm self (X :: rest) [t0, t1] opt hdu hidden bt hH hbt hG
  have e2 := forward_vec_uni_eq cfg lm self (X2 :: rest) [t0, t1] opt hdu hidden bt2 hHx hbt2 hG
  rw [show ((X :: rest).getD 0 (Mat.null : Mat α)) = X from rfl, finish_two] at e0
  rw [show ((X2 :: rest).getD 0 (Mat.null : Mat α)) = X2 from rfl, finish_two] at e2
  have hG1a : ∀ (h : Nat) (b : Buf α), (gates_create cfg (Mat.of_buf (self.num_output * 1) h b).w
      opt.workspace_allocator).isSome := fun h b => by simpa using hG
  obtain ⟨-, htot, -, -, hset2⟩ := gru_hidden_dims cfg lm X2
    (Mat.of_buf (self.num_output * 1) X2.h bt2) self.direction
    (self.weight_xc_data_packed.channel 0) (self.bias_c_data_packed.channel 0)
    (self.weight_hc_data_packed.channel 0) hidden opt
  have hH1 := forward_vec_hidden_clone self X1
    (uni_pass cfg lm self X2 (Mat.of_buf (self.num_output * 1) X2.h bt2) hidden opt).2.2
    [t0, t1] opt (by rw [uni_pass, htot]; simpa using hHc)
  have e1 := forward_vec_uni_eq cfg lm self
    [X1, (uni_pass cfg lm self X2 (Mat.of_buf (self.num_output * 1) X2.h bt2) hidden opt).2.2]
    [t0, t1] opt hdu _ bt1 hH1 hbt1 hG
  rw [show (([X1, (uni_pass cfg lm self X2 (Mat.of_buf (self.num_output * 1) X2.h bt2) hidden
      opt).2.2] : List (Mat α)).getD 0 (Mat.null : Mat α)) = X1 from rfl, finish_two] at e1
  have b2 := gru_hidden_buf cfg lm X2 (Mat.of_buf (self.num_output * 1) X2.h bt2) self.direction
    (self.weight_xc_data_packed.channel 0) (self.bias_c_data_packed.channel 0)
    (self.weight_hc_data_packed.channel 0) hidden opt (hG1a _ _)
  have hr : ∀ T t, step_ti 1 T t = T - 1 - t := fun T t => step_ti_reverse 1 T t (by decide)
  refine ⟨_, _, _, _, _, _, e0, e2, e1, ?_, ?_, ?_⟩
  · intro t q ht hq
    have a0 := gru_top_at cfg lm X (Mat.of_buf (self.num_output * 1) X.h bt) self.direction
      (self.weight_xc_data_packed.channel 0) (self.bias_c_data_packed.channel 0)
      (self.weight_hc_data_packed.channel 0) hidden opt (hG1a _ _) rfl (X2.h - 1 - t) q
      (by omega) (by simpa using hq)
    have a2 := gru_top_at cfg lm X2 (Mat.of_buf (self.num_output * 1) X2.h bt2) self.direction
      (self.weight_xc_data_packed.channel 0) (self.bias_c_data_packed.channel 0)
      (self.weight_hc_data_packed.channel 0) hidden opt (hG1a _ _) rfl (X2.h - 1 - t) q
      (by omega) (by simpa using hq)
    simp only [hd, hr] at a0 a2
    rw [show X.h - 1 - (X2.h - 1 - t) = X1.h + t by omega] at a0
    rw [show X2.h - 1 - (X2.h - 1 - t) = t by omega] at a2
    simp only [uni_pass, hd]
    rw [a0, a2]
    exact hidden_seq_congr cfg lm X X2 (Mat.of_buf (self.num_output * 1) X.h bt)
      (Mat.of_buf (self.num_output * 1) X2.h bt2) 1 1 _ _ _ hidden.buf hidden.buf hw2.symm rfl
      X2.h
      (fun t i ht hi => by
        rw [hr, hr]
        have := hx2 (X2.h - 1 - t) i (by omega) hi
        rw [Mat.at2, Mat.at2] at this
        rw [this, show X.h - 1 - t = X1.h + (X2.h - 1 - t) by omega])
      (fun _ _ => rfl) (X2.h - 1 - t + 1) (by omega) q (by simpa using hq)
  · intro t q ht hq
    have a0 := gru_top_at cfg lm X (Mat.of_buf (self.num_output * 1) X.h bt) self.direction
      (self.weight_xc_data_packed.channel 0) (self.bias_c_data_packed.channel 0)
      (self.weight_hc_data_packed.channel 0) hidden opt (hG1a _ _) rfl (X.h - 1 - t) q
      (by omega) (by simpa using hq)
    have a1 := gru_top_at cfg lm X1 (Mat.of_buf (self.num_output * 1) X1.h bt1) self.direction
      (self.weight_xc_data_packed.channel 0) (self.bias_c_data_packed.channel 0)
      (self.weight_hc_data_packed.channel 0)
      (uni_pass cfg lm self X2 (Mat.of_buf (self.num_output * 1) X2.h bt2) hidden opt).2.2 opt
      (hG1a _ _) rfl (X1.h - 1 - t) q (by omega) (by simpa using hq)
    simp only [uni_pass, hd, hr] at a0 a1 b2
    rw [show X.h - 1 - (X.h - 1 - t) = t by omega] at a0
    rw [show X1.h - 1 - (X1.h - 1 - t) = t by omega] at a1
    simp only [uni_pass, hd]
    rw [a0, a1, b2, show X.h - 1 - t + 1 = X2.h + (X1.h - 1 - t + 1) by omega]
    exact hidden_seq_split_rev cfg lm X X1 X2 (Mat.of_buf (self.num_output * 1) X.h bt)
      (Mat.of_buf (self.num_output * 1) X1.h bt1) (Mat.of_buf (self.num_output * 1) X2.h bt2)
      _ _ _ hidden.buf hw1 hw2 rfl rfl hh hx1 hx2 (X1.h - 1 - t + 1)
      (by omega) q (by simpa using hq)
  · obtain ⟨-, -, -, -, hset0⟩ := gru_hidden_dims cfg lm X
      (Mat.of_buf (self.num_output * 1) X.h bt) self.direction
      (self.weight_xc_data_packed.channel 0) (self.bias_c_data_packed.channel 0)
      (self.weight_hc_data_packed.channel 0) hidden opt
    obtain ⟨-, -, -, -, hset1⟩ := gru_hidden_dims cfg lm X1
      (Mat.of_buf (self.num_output * 1) X1.h bt1) self.direction
      (self.weight_xc_data_packed.channel 0) (self.bias_c_data_packed.channel 0)
      (self.weight_hc_data_packed.channel 0)
      (uni_pass cfg lm self X2 (Mat.of_buf (self.num_output * 1) X2.h bt2) hidden opt).2.2 opt
    have b0 := gru_hidden_buf cfg lm X (Mat.of_buf (self.num_output * 1) X.h bt) self.direction
      (self.weight_xc_data_packed.channel 0) (self.bias_c_data_packed.channel 0)
      (self.weight_hc_data_packed.channel 0) hidden opt (hG1a _ _)
    have b1 := gru_hidden_buf cfg lm X1 (Mat.of_buf (self.num_output * 1) X1.h bt1)
      self.direction
      (self.weight_xc_data_packed.channel 0) (self.bias_c_data_packed.channel 0)
      (self.weight_hc_data_packed.channel 0)
      (uni_pass cfg lm self X2 (Mat.of_buf (self.num_output * 1) X2.h bt2) hidden opt).2.2 opt
      (hG1a _ _)
    simp only [uni_pass] at hset1 b1 ⊢
    rw [hset0, b0, hset1, b1, hset2, Mat.set_buf_set_buf, Mat.set_buf_buf, b2, hd]
    congr 1
    exact hidden_seq_split_rev_fun cfg lm X X1 X2 (Mat.of_buf (self.num_output * 1) X.h bt)
      (Mat.of_buf (self.num_output * 1) X1.h bt1) (Mat.of_buf (self.num_output * 1) X2.h bt2)
      _ _ _ hidden.buf hw1 hw2 rfl rfl hh hx1 hx2

/-- Instance of C29 on the example layer in reverse mode: the three-row example sequence split
after its first row. -/
theorem C29_split_reverse_witness :
    (ex_packed 1).direction = 1 ∧
    ∃ tw hw o2 h2 o1 h1,
      forward_vec ex_cfg ex_lm (ex_packed 1) [ex_bottom, ex_hidden] [ex_top, ex_top] ex_opt
        = .ok [tw, hw] ∧
      forward_vec ex_cfg ex_lm (ex_packed 1) [ex_bottom.row_range 1 2, ex_hidden]
        [ex_top, ex_top] ex_opt = .ok [o2, h2] ∧
      forward_vec ex_cfg ex_lm (ex_packed 1) [ex_bottom.row_range 0 1, h2] [ex_top, ex_top]
        ex_opt = .ok [o1, h1] ∧
      (∀ t q, t < (ex_bottom.row_range 1 2).h → q < (ex_packed 1).num_output →
        tw.at2 ((ex_bottom.row_range 0 1).h + t) q = o2.at2 t q) ∧
      (∀ t q, t < (ex_bottom.row_range 0 1).h → q < (ex_packed 1).num_output →
        tw.at2 t q = o1.at2 t q) ∧
      hw = h1 :=
  ⟨rfl, C29_split_reverse ex_cfg ex_lm (ex_packed 1) ex_bottom (ex_bottom.row_range 0 1)
    (ex_bottom.row_range 1 2) [ex_hidden] ex_top ex_top ex_hidden ex_opt rfl rfl rfl rfl
    (fun t i _ _ => by
      simp [Mat.at2, Mat.row_range, Mat.row, Mat.buf, ex_bottom, ex_mat])
    (fun t i _ _ => by
      simp only [Mat.at2, Mat.row_range, Mat.row, Mat.buf, ex_bottom, ex_mat]
      push_cast
      ring)
    (forward_vec_hidden_clone _ _ _ _ _ rfl) rfl rfl rfl rfl rfl⟩

end

section

/-! ## Boundedness of the hidden state over the reals -/

section

variable {α : Type} [Field α]

/-- Whatever the packed weights, the update gate of a unit is a logistic sigmoid and its
candidate state a `tanhf` value. -/
theorem unit_gates_form (cfg : Build) (lm : Libm α) (size n : Nat) (bottom : Buf α) (x : Nat)
    (wxc bias whc : Mat α) (hidden : Buf α) (q : Nat) :
    ∃ u v : α,
      (gru_unit_gates cfg lm size n bottom x wxc bias whc hidden q).U = sigmoid lm u ∧
      (gru_unit_gates cfg lm size n bottom x wxc bias whc hidden q).N = lm.tanhf v := by
  unfold gru_unit_gates
  split
  · obtain ⟨-, hU, hN⟩ := gru_gates4_eq cfg lm size n bottom x wxc bias whc hidden (q / 4)
      ⟨q % 4, Nat.mod_lt q (by decide)⟩
    exact ⟨_, _, hU, hN⟩
  · obtain ⟨-, hU, hN⟩ := gru_gates1_eq cfg lm size n bottom x wxc bias whc hidden q
    exact ⟨_, _, hU, hN⟩

end

theorem real_tanh_abs_le (v : ℝ) : |Real.tanh v| ≤ 1 := by
  rw [Real.tanh_eq_sinh_div_cosh, abs_div, abs_of_pos (Real.cosh_pos v)]
  rw [div_le_one (Real.cosh_pos v), abs_le]
  constructor
  · have h := Real.cosh_add_sinh v
    have := Real.exp_pos v
    linarith
  · exact le_of_lt (Real.sinh_lt_cosh v)

theorem real_sigmoid_mem (u : ℝ) :
    0 ≤ sigmoid { expf := Real.exp, tanhf := Real.tanh } u ∧
    sigmoid { expf := Real.exp, tanhf := Real.tanh } u ≤ 1 := by
  have he := Real.exp_pos (-u)
  simp only [sigmoid]
  constructor
  · positivity
  · rw [div_le_one (by linarith)]
    linarith

theorem blend_abs_le (U N h : ℝ) (h0 : 0 ≤ U) (h1 : U ≤ 1) (hN : |N| ≤ 1) :
    |blend U N h| ≤ max |h| 1 := by
  have hm1 : |h| ≤ max |h| 1 := le_max_left _ _
  have hm2 : (1 : ℝ) ≤ max |h| 1 := le_max_right _ _
  have a1 : |(1 - U) * N| ≤ (1 - U) * max |h| 1 := by
    rw [abs_mul, abs_of_nonneg (by linarith : (0 : ℝ) ≤ 1 - U)]
    exact mul_le_mul_of_nonneg_left (le_trans hN hm2) (by linarith)
  have a2 : |U * h| ≤ U * max |h| 1 := by
    rw [abs_mul, abs_of_nonneg h0]
    exact mul_le_mul_of_nonneg_left hm1 h0
  calc |blend U N h| = |(1 - U) * N + U * h| := rfl
    _ ≤ |(1 - U) * N| + |U * h| := abs_add _ _
    _ ≤ (1 - U) * max |h| 1 + U * max |h| 1 := add_le_add a1 a2
    _ = max |h| 1 := by ring

theorem cell_abs_le (cfg : Build) (size n : Nat) (bottom : Buf ℝ) (x : Nat)
    (wxc bias whc : Mat ℝ) (hidden : Buf ℝ) (q : Nat) :
    |gru_cell cfg { expf := Real.exp, tanhf := Real.tanh } size n bottom x wxc bias whc hidden q|
      ≤ max |hidden q| 1 := by
  obtain ⟨u, v, hU, hN⟩ := unit_gates_form cfg { expf := Real.exp, tanhf := Real.tanh } size n
    bottom x wxc bias whc hidden q
  rw [gru_cell, hU, hN]
  exact blend_abs_le _ _ _ (real_sigmoid_mem u).1 (real_sigmoid_mem u).2 (real_tanh_abs_le v)

theorem hidden_seq_abs_le (cfg : Build) (bottom top : Mat ℝ) (reverse : Nat)
    (wxc bias whc : Mat ℝ) (h0 : Buf ℝ) (q : Nat) (hq : |h0 q| ≤ 1) :
    ∀ k, |gru_hidden_seq cfg { expf := Real.exp, tanhf := Real.tanh } bottom top reverse wxc bias
      whc h0 k q| ≤ 1 := by
  intro k
  induction k with
  | zero => exact hq
  | succ k ih =>
    simp only [gru_hidden_seq, gru_next]
    split
    · exact le_trans (cell_abs_le cfg _ _ _ _ _ _ _ _ q) (max_le ih (le_refl 1))
    · exact ih

/-- C28: over the real numbers with the true `exp` and `tanh`, for all packed weights, inputs
and sequence lengths: each timestep of `gru` leaves in every hidden element a value of absolute
value at most `max(|previous value|, 1)`; hence, when the gate workspace is allocated and every
entry of the incoming hidden state lies in `[-1, 1]` (in particular when it is zero), every
element of every output row and of the final hidden state lies in `[-1, 1]`. -/
theorem C28_hidden_bounded (cfg : Build) (bottom_blob top_blob : Mat ℝ) (reverse : Nat)
    (weight_xc bias_c weight_hc hidden_state : Mat ℝ) (opt : NcnnOption ℝ)
    (halloc : (gates_create cfg top_blob.w opt.workspace_allocator).isSome)
    (hpack : top_blob.elempack = 1) :
    (∀ (t : Nat) (s : StepState ℝ) (q : Nat),
      |(gru_step cfg { expf := Real.exp, tanhf := Real.tanh } bottom_blob top_blob reverse
          weight_xc bias_c weight_hc t s).hidden q| ≤ max |s.hidden q| 1) ∧
    ((∀ q, q < top_blob.w → |hidden_state.buf q| ≤ 1) →
      (∀ t q, t < bottom_blob.h → q < top_blob.w →
        |(gru cfg { expf := Real.exp, tanhf := Real.tanh } bottom_blob top_blob reverse
            weight_xc bias_c weight_hc hidden_state opt).2.1.at2 t q| ≤ 1) ∧
      (∀ q, q < top_blob.w →
        |(gru cfg { expf := Real.exp, tanhf := Real.tanh } bottom_blob top_blob reverse
            weight_xc bias_c weight_hc hidden_state opt).2.2.buf q| ≤ 1)) := by
  constructor
  · intro t s q
    rw [(gru_step_eq cfg _ bottom_blob top_blob reverse weight_xc bias_c weight_hc t s).1]
    simp only []
    split
    · exact cell_abs_le cfg _ _ _ _ _ _ _ _ q
    · exact le_max_left _ _
  · intro h0
    constructor
    · intro t q ht hq
      have hti : ∃ t2, t2 < bottom_blob.h ∧ step_ti reverse bottom_blob.h t2 = t := by
        by_cases hr : reverse = 0
        · exact ⟨t, ht, by rw [hr, step_ti_forward]⟩
        · exact ⟨bottom_blob.h - 1 - t, by omega, by rw [step_ti_reverse _ _ _ hr]; omega⟩
      obtain ⟨t2, ht2, e⟩ := hti
      have a := gru_top_at cfg { expf := Real.exp, tanhf := Real.tanh } bottom_blob top_blob
        reverse weight_xc bias_c weight_hc hidden_state opt halloc hpack t2 q ht2 hq
      rw [e] at a
      rw [a]
      exact hidden_seq_abs_le cfg bottom_blob top_blob reverse weight_xc bias_c weight_hc
        hidden_state.buf q (h0 q hq) (t2 + 1)
    · intro q hq
      rw [gru_hidden_buf cfg _ bottom_blob top_blob reverse weight_xc bias_c weight_hc
        hidden_state opt halloc]
      exact hidden_seq_abs_le cfg bottom_blob top_blob reverse weight_xc bias_c weight_hc
        hidden_state.buf q (h0 q hq) bottom_blob.h

/-- Instance of C28: the one-unit layer with zero weights on a two-row sequence, started from
the hidden value 1. -/
theorem C28_hidden_bounded_witness :
    (gates_create ex_cfg (const_mat (0 : ℝ) 1 2 1).w
      (zero_opt : NcnnOption ℝ).workspace_allocator).isSome ∧
    (const_mat (0 : ℝ) 1 2 1).elempack = 1 ∧
    (∀ q, q < (const_mat (0 : ℝ) 1 2 1).w → |(const_mat (1 : ℝ) 1 1 1).buf q| ≤ 1) ∧
    ∀ t q, t < (const_mat (0 : ℝ) 1 2 1).h → q < (const_mat (0 : ℝ) 1 2 1).w →
      |(gru ex_cfg { expf := Real.exp, tanhf := Real.tanh } (const_mat 0 1 2 1)
          (const_mat 0 1 2 1) 1 ((zero_packed ex_cfg 1).weight_xc_data_packed.channel 0)
          ((zero_packed ex_cfg 1).bias_c_data_packed.channel 0)
          ((zero_packed ex_cfg 1).weight_hc_data_packed.channel 0) (const_mat 1 1 1 1)
          zero_opt).2.1.at2 t q| ≤ 1 :=
  ⟨rfl, rfl, fun q _ => by simp [const_mat, Mat.buf],
    ((C28_hidden_bounded ex_cfg (const_mat 0 1 2 1) (const_mat 0 1 2 1) 1
      ((zero_packed ex_cfg 1).weight_xc_data_packed.channel 0)
      ((zero_packed ex_cfg 1).bias_c_data_packed.channel 0)
      ((zero_packed ex_cfg 1).weight_hc_data_packed.channel 0) (const_mat 1 1 1 1) zero_opt
      rfl rfl).2 (fun q _ => by simp [const_mat, Mat.buf])).1⟩

end

section

variable {α β : Type}

/-! ## The bf16 packing as the fp32 packing of converted weights -/

theorem pack_direction_bf16_eq (cv : Bf16Cast α β) (cfg : Build) (n size : Nat)
    (wxc bias whc : Mat α) (X B H : Mat β)
    (hlane : ∀ v l, cv.float2bfloat v l = cv.float32_to_bfloat16 (v l)) :
    pack_direction_bf16 cv cfg n size wxc bias whc X B H
      = pack_direction cfg n size (wxc.map cv.float32_to_bfloat16)
          (bias.map cv.float32_to_bfloat16) (whc.map cv.float32_to_bfloat16) X B H := by
  have hl : ∀ v, cv.float2bfloat v = fun l => cv.float32_to_bfloat16 (v l) :=
    fun v => funext (hlane v)
  have h4 : pack_group4_bf16 cv n size wxc bias whc X H
      = pack_group4 n size (wxc.map cv.float32_to_bfloat16) (bias.map cv.float32_to_bfloat16)
          (whc.map cv.float32_to_bfloat16) X H := by
    funext q s
    simp only [pack_group4_bf16, pack_group4, hl]
    rfl
  have h1 : pack_unit_bf16 cv cfg n size wxc bias whc X H
      = pack_unit cfg n size (wxc.map cv.float32_to_bfloat16) (bias.map cv.float32_to_bfloat16)
          (whc.map cv.float32_to_bfloat16) X H := by
    funext q s
    rfl
  unfold pack_direction_bf16 pack_direction
  rw [h4, h1]

theorem create_pipeline_bf16s_eq (cv : Bf16Cast α β) (cfg : Build) (self : GRU_arm α)
    (gx gb gh : Nat → Buf β) (opt : NcnnOption α) (opt2 : NcnnOption β)
    (hlane : ∀ v l, cv.float2bfloat v l = cv.float32_to_bfloat16 (v l)) :
    (create_pipeline_bf16s cv cfg self gx gb gh opt).2.weight_xc_data_packed
      = (create_pipeline cfg (self.map_weights cv.float32_to_bfloat16) gx gb gh
          opt2).2.weight_xc_data_packed ∧
    (create_pipeline_bf16s cv cfg self gx gb gh opt).2.bias_c_data_packed
      = (create_pipeline cfg (self.map_weights cv.float32_to_bfloat16) gx gb gh
          opt2).2.bias_c_data_packed ∧
    (create_pipeline_bf16s cv cfg self gx gb gh opt).2.weight_hc_data_packed
      = (create_pipeline cfg (self.map_weights cv.float32_to_bfloat16) gx gb gh
          opt2).2.weight_hc_data_packed := by
  have hb : pack_channel_bf16 cv cfg self (input_size self)
      = pack_channel cfg (self.map_weights cv.float32_to_bfloat16)
          (input_size (self.map_weights cv.float32_to_bfloat16)) := by
    funext dr p
    unfold pack_channel_bf16 pack_channel
    rw [pack_direction_bf16_eq cv cfg _ _ _ _ _ _ _ _ hlane]
    rfl
  have hc : create_packed_bf16 cfg self gx gb gh
      = create_packed cfg (self.map_weights cv.float32_to_bfloat16) gx gb gh := rfl
  unfold create_pipeline_bf16s create_pipeline
  rw [hb, hc]
  cases opt2.lightmode <;> exact ⟨rfl, rfl, rfl⟩

/-- C25: when the 4-lane conversion `float2bfloat` is `float32_to_bfloat16` on each lane, the
tensors packed by `create_pipeline_bf16s` have the shapes of those packed by the fp32
`create_pipeline`, and for each direction the value at every position the packing writes (the
position `pack_pos` of a raw weight coefficient, the position `bias_pos` of a raw bias) is
`float32_to_bfloat16` of the value the fp32 packing puts there, which is the raw value
itself. -/
theorem C25_bf16_packing (cv : Bf16Cast α β) (cfg : Build) (self : GRU_arm α)
    (fx fb fh : Nat → Buf α) (gx gb gh : Nat → Buf β) (opt : NcnnOption α) (dr : Nat)
    (hlane : ∀ v l, cv.float2bfloat v l = cv.float32_to_bfloat16 (v l))
    (hdr : dr < num_directions self.direction) :
    ((create_pipeline_bf16s cv cfg self gx gb gh opt).2.weight_xc_data_packed.w
        = (create_pipeline cfg self fx fb fh opt).2.weight_xc_data_packed.w ∧
      (create_pipeline_bf16s cv cfg self gx gb gh opt).2.weight_xc_data_packed.h
        = (create_pipeline cfg self fx fb fh opt).2.weight_xc_data_packed.h ∧
      (create_pipeline_bf16s cv cfg self gx gb gh opt).2.weight_xc_data_packed.c
        = (create_pipeline cfg self fx fb fh opt).2.weight_xc_data_packed.c ∧
      (create_pipeline_bf16s cv cfg self gx gb gh opt).2.weight_xc_data_packed.elempack
        = (create_pipeline cfg self fx fb fh opt).2.weight_xc_data_packed.elempack) ∧
    ((create_pipeline_bf16s cv cfg self gx gb gh opt).2.weight_hc_data_packed.w
        = (create_pipeline cfg self fx fb fh opt).2.weight_hc_data_packed.w ∧
      (create_pipeline_bf16s cv cfg self gx gb gh opt).2.weight_hc_data_packed.h
        = (create_pipeline cfg self fx fb fh opt).2.weight_hc_data_packed.h ∧
      (create_pipeline_bf16s cv cfg self gx gb gh opt).2.weight_hc_data_packed.c
        = (create_pipeline cfg self fx fb fh opt).2.weight_hc_data_packed.c ∧
      (create_pipeline_bf16s cv cfg self gx gb gh opt).2.weight_hc_data_packed.elempack
        = (create_pipeline cfg self fx fb fh opt).2.weight_hc_data_packed.elempack) ∧
    ((create_pipeline_bf16s cv cfg self gx gb gh opt).2.bias_c_data_packed.w
        = (create_pipeline cfg self fx fb fh opt).2.bias_c_data_packed.w ∧
      (create_pipeline_bf16s cv cfg self gx gb gh opt).2.bias_c_data_packed.h
        = (create_pipeline cfg self fx fb fh opt).2.bias_c_data_packed.h ∧
      (create_pipeline_bf16s cv cfg self gx gb gh opt).2.bias_c_data_packed.c
        = (create_pipeline cfg self fx fb fh opt).2.bias_c_data_packed.c ∧
      (create_pipeline_bf16s cv cfg self gx gb gh opt).2.bias_c_data_packed.elempack
        = (create_pipeline cfg self fx fb fh opt).2.bias_c_data_packed.elempack) ∧
    (∀ r i, r < 3 * self.num_output → i < input_size self →
      ((create_pipeline_bf16s cv cfg self gx gb gh opt).2.weight_xc_data_packed.channel dr).buf
          (pack_pos cfg self.num_output (input_size self) r i)
        = cv.float32_to_bfloat16
            (((create_pipeline cfg self fx fb fh opt).2.weight_xc_data_packed.channel dr).buf
              (pack_pos cfg self.num_output (input_size self) r i)) ∧
      ((create_pipeline cfg self fx fb fh opt).2.weight_xc_data_packed.channel dr).buf
          (pack_pos cfg self.num_output (input_size self) r i)
        = (self.weight_xc_data.channel dr).at2 r i) ∧
    (∀ r i, r < 3 * self.num_output → i < self.num_output →
      ((create_pipeline_bf16s cv cfg self gx gb gh opt).2.weight_hc_data_packed.channel dr).buf
          (pack_pos cfg self.num_output self.num_output r i)
        = cv.float32_to_bfloat16
            (((create_pipeline cfg self fx fb fh opt).2.weight_hc_data_packed.channel dr).buf
              (pack_pos cfg self.num_output self.num_output r i)) ∧
      ((create_pipeline cfg self fx fb fh opt).2.weight_hc_data_packed.channel dr).buf
          (pack_pos cfg self.num_output self.num_output r i)
        = (self.weight_hc_data.channel dr).at2 r i) ∧
    (∀ q k, q < self.num_output → k < 4 →
      ((create_pipeline_bf16s cv cfg self gx gb gh opt).2.bias_c_data_packed.channel dr).buf
          (bias_pos cfg self.num_output k q)
        = cv.float32_to_bfloat16
            (((create_pipeline cfg self fx fb fh opt).2.bias_c_data_packed.channel dr).buf
              (bias_pos cfg self.num_output k q)) ∧
      ((create_pipeline cfg self fx fb fh opt).2.bias_c_data_packed.channel dr).buf
          (bias_pos cfg self.num_output k q)
        = (self.bias_c_data.channel dr).at2 (bias_sel k) q) := by
  obtain ⟨ex, eb, eh⟩ := create_pipeline_bf16s_eq cv cfg self gx gb gh opt
    (opt.with_allocators (fun _ => none) (fun _ => none)) hlane
  have hdr2 : dr < num_directions (self.map_weights cv.float32_to_bfloat16).direction := hdr
  refine ⟨?_, ?_, ?_, ?_, ?_, ?_⟩
  · rw [ex, create_pipeline_xc, create_pipeline_xc]
    unfold create_packed
    cases cfg.arm_neon <;> exact ⟨rfl, rfl, rfl, rfl⟩
  · rw [eh, create_pipeline_hc, create_pipeline_hc]
    unfold create_packed
    cases cfg.arm_neon <;> exact ⟨rfl, rfl, rfl, rfl⟩
  · rw [eb, create_pipeline_bias, create_pipeline_bias]
    unfold create_packed
    cases cfg.arm_neon <;> exact ⟨rfl, rfl, rfl, rfl⟩
  · intro r i hr hi
    have h32 := pack_pos_read cfg self.num_output (input_size self) _ _ _
      (packed_xc_buf cfg self fx fb fh opt dr hdr) (packed_xc_row cfg self fx fb fh opt dr)
      (created_xc_row cfg self fx fb fh dr) r i hr hi
    have h16 := pack_pos_read cfg (self.map_weights cv.float32_to_bfloat16).num_output
      (input_size (self.map_weights cv.float32_to_bfloat16)) _ _ _
      (packed_xc_buf cfg (self.map_weights cv.float32_to_bfloat16) gx gb gh
        (opt.with_allocators (fun _ => none) (fun _ => none)) dr hdr2)
      (packed_xc_row cfg _ gx gb gh _ dr) (created_xc_row cfg _ gx gb gh dr) r i hr hi
    rw [ex, h32]
    exact ⟨h16, rfl⟩
  · intro r i hr hi
    have h32 := pack_pos_read cfg self.num_output self.num_output _ _ _
      (packed_hc_buf cfg self fx fb fh opt dr hdr) (packed_hc_row cfg self fx fb fh opt dr)
      (created_hc_row cfg self fx fb fh dr) r i hr hi
    have h16 := pack_pos_read cfg (self.map_weights cv.float32_to_bfloat16).num_output
      (self.map_weights cv.float32_to_bfloat16).num_output _ _ _
      (packed_hc_buf cfg (self.map_weights cv.float32_to_bfloat16) gx gb gh
        (opt.with_allocators (fun _ => none) (fun _ => none)) dr hdr2)
      (packed_hc_row cfg _ gx gb gh _ dr) (created_hc_row cfg _ gx gb gh dr) r i hr hi
    rw [eh, h32]
    exact ⟨h16, rfl⟩
  · intro q k hq hk
    have h32 := packed_bias_read cfg self.num_output (self.bias_c_data.channel dr) _
      (created_bias_row0 cfg self fx fb fh dr) q hq k hk
    rw [← packed_bias_buf cfg self fx fb fh opt dr hdr] at h32
    have h16 := packed_bias_read cfg (self.map_weights cv.float32_to_bfloat16).num_output
      ((self.map_weights cv.float32_to_bfloat16).bias_c_data.channel dr) _
      (created_bias_row0 cfg (self.map_weights cv.float32_to_bfloat16) gx gb gh dr) q hq k hk
    rw [← packed_bias_buf cfg (self.map_weights cv.float32_to_bfloat16) gx gb gh
      (opt.with_allocators (fun _ => none) (fun _ => none)) dr hdr2] at h16
    rw [eb]
    unfold bias_pos
    rw [h32]
    exact ⟨h16, rfl⟩

/-- Instance of C25 on the 5-unit example layer with the floor conversion: the coefficient at
raw row 14, column 1 of the input-to-hidden tensor. -/
theorem C25_bf16_packing_witness :
    (∀ (v : float32x4_t ℚ) (l : Fin 4),
      ex_bf16.float2bfloat v l = ex_bf16.float32_to_bfloat16 (v l)) ∧
    0 < num_directions (ex_layer 0).direction ∧
    ((create_pipeline_bf16s ex_bf16 ex_cfg (ex_layer 0) (fun _ _ => 0) (fun _ _ => 0)
        (fun _ _ => 0) ex_opt).2.weight_xc_data_packed.channel 0).buf
        (pack_pos ex_cfg (ex_layer 0).num_output (input_size (ex_layer 0)) 14 1)
      = ex_bf16.float32_to_bfloat16
          (((create_pipeline ex_cfg (ex_layer 0) ex_fresh ex_fresh ex_fresh
              ex_opt).2.weight_xc_data_packed.channel 0).buf
            (pack_pos ex_cfg (ex_layer 0).num_output (input_size (ex_layer 0)) 14 1)) :=
  ⟨fun _ _ => rfl, by decide,
    ((C25_bf16_packing ex_bf16 ex_cfg (ex_layer 0) ex_fresh ex_fresh ex_fresh (fun _ _ => 0)
      (fun _ _ => 0) (fun _ _ => 0) ex_opt 0 (fun _ _ => rfl) (by decide)).2.2.2.1 14 1
      (by decide) (by decide)).1⟩

end

section

/-! ## Element-wise activation layers -/

section

variable {σ : Type}

theorem forRange_const (B : σ → σ) (n : Nat) (s : σ) :
    forRange n (fun _ => B) s = B^[n] s := by
  induction n with
  | zero => rfl
  | succ k ih =>
    show B (forRange k (fun _ => B) s) = _
    rw [ih, Function.iterate_succ_apply']

theorem forDown_const (B : σ → σ) (n : Nat) (s : σ) :
    forDown (fun _ => B) n s = B^[n] s := by
  induction n generalizing s with
  | zero => rfl
  | succ k ih =>
    show forDown (fun _ => B) k (B s) = _
    rw [ih, Function.iterate_succ_apply]

theorem forFrom_const (B : σ → σ) (n : Nat) (s : σ) :
    forFrom n (fun _ => B) 0 s = B^[n] s := by
  rw [forFrom_zero, forRange_const]

end

section

variable {α : Type}

theorem map_step_iterate (f : α → α) (w : Nat) (B : PackCursor α → PackCursor α)
    (hB : IsMapStep f w B) (n : Nat) (s : PackCursor α) :
    (B^[n] s).ptr = s.ptr + w * n ∧
    ∀ j, (B^[n] s).mem j = if s.ptr ≤ j ∧ j < s.ptr + w * n then f (s.mem j) else s.mem j := by
  induction n with
  | zero =>
    refine ⟨rfl, fun j => ?_⟩
    rw [if_neg (by omega)]
    rfl
  | succ k ih =>
    obtain ⟨ip, im⟩ := ih
    obtain ⟨bp, bm⟩ := hB (B^[k] s)
    rw [Function.iterate_succ_apply']
    refine ⟨by rw [bp, ip, Nat.mul_succ, Nat.add_assoc], fun j => ?_⟩
    rw [bm, ip, Nat.mul_succ]
    by_cases h1 : s.ptr + w * k ≤ j ∧ j < s.ptr + w * k + w
    · rw [if_pos h1, im, if_neg (by omega), if_pos (by omega)]
    · rw [if_neg h1, im]
      by_cases h2 : s.ptr ≤ j ∧ j < s.ptr + w * k
      · rw [if_pos h2, if_pos (by omega)]
      · rw [if_neg h2, if_neg (by omega)]

theorem channels_loop (G : Buf α → Buf α) (channels : Nat) (D : Nat → Buf α) :
    forFrom channels (fun q (data : Nat → Buf α) k => if k = q then G (data q) else data k) 0 D
      = fun k => if k < channels then G (D k) else D k := by
  rw [forFrom_zero]
  induction channels with
  | zero =>
    funext k
    rw [if_neg (by omega)]
    rfl
  | succ n ih =>
    show (fun k => if k = n then G (forRange n _ D n) else forRange n _ D k) = _
    rw [ih]
    funext k
    simp only []
    by_cases hk : k = n
    · rw [if_pos hk, hk, if_neg (Nat.lt_irrefl n), if_pos (Nat.lt_succ_self n)]
    · rw [if_neg hk]
      by_cases h2 : k < n
      · rw [if_pos h2, if_pos (by omega)]
      · rw [if_neg h2, if_neg (by omega)]

theorem store4_read (m : Buf α) (p : Nat) (v : Fin 4 → α) (j : Nat) :
    store (store (store (store m p (v 0)) (p + 1) (v 1)) (p + 2) (v 2)) (p + 3) (v 3) j
      = if h : p ≤ j ∧ j < p + 4 then v ⟨j - p, by omega⟩ else m j := by
  simp only [store]
  by_cases h3 : j = p + 3
  · subst h3
    rw [if_pos rfl, dif_pos (by omega)]
    congr 1
    apply Fin.ext
    show 3 = p + 3 - p
    omega
  · rw [if_neg h3]
    by_cases h2 : j = p + 2
    · subst h2
      rw [if_pos rfl, dif_pos (by omega)]
      congr 1
      apply Fin.ext
      show 2 = p + 2 - p
      omega
    · rw [if_neg h2]
      by_cases h1 : j = p + 1
      · subst h1
        rw [if_pos rfl, dif_pos (by omega)]
        congr 1
        apply Fin.ext
        show 1 = p + 1 - p
        omega
      · rw [if_neg h1]
        by_cases h0 : j = p
        · subst h0
          rw [if_pos rfl, dif_pos (by omega)]
          congr 1
          apply Fin.ext
          show 0 = j - j
          omega
        · rw [if_neg h0, dif_neg (by omega)]

variable [Field α]

theorem swish_body4_step (lm : Libm α) (i : Nat) :
    IsMapStep (swish_spec lm) 4 (swish_body4 lm i) := by
  intro s
  refine ⟨rfl, fun j => ?_⟩
  show store (store (store (store s.mem s.ptr _) (s.ptr + 1) _) (s.ptr + 2) _) (s.ptr + 3) _ j
    = _
  rw [store4_read]
  by_cases h : s.ptr ≤ j ∧ j < s.ptr + 4
  · rw [dif_pos h, if_pos h]
    show s.mem (s.ptr + (j - s.ptr)) / (1 + lm.expf (- s.mem (s.ptr + (j - s.ptr)))) = _
    rw [show s.ptr + (j - s.ptr) = j by omega]
    rfl
  · rw [dif_neg h, if_neg h]

theorem swish_body1_step (lm : Libm α) (i : Nat) :
    IsMapStep (swish_spec lm) 1 (swish_body1 lm i) := by
  intro s
  refine ⟨rfl, fun j => ?_⟩
  simp only [swish_body1, store]
  by_cases h : j = s.ptr
  · subst h
    rw [if_pos rfl, if_pos (by omega)]
    rfl
  · rw [if_neg h, if_neg (by omega)]

theorem mish_body4_step (lm : Libm α) (logf : α → α) (i : Nat) :
    IsMapStep (mish_spec lm logf) 4 (mish_body4 lm logf i) := by
  intro s
  refine ⟨rfl, fun j => ?_⟩
  show store (store (store (store s.mem s.ptr _) (s.ptr + 1) _) (s.ptr + 2) _) (s.ptr + 3) _ j
    = _
  rw [store4_read]
  by_cases h : s.ptr ≤ j ∧ j < s.ptr + 4
  · rw [dif_pos h, if_pos h]
    show s.mem (s.ptr + (j - s.ptr))
      * lm.tanhf (logf (lm.expf (s.mem (s.ptr + (j - s.ptr))) + 1)) = _
    rw [show s.ptr + (j - s.ptr) = j by omega]
    rfl
  · rw [dif_neg h, if_neg h]

theorem mish_body1_step (lm : Libm α) (logf : α → α) (i : Nat) :
    IsMapStep (mish_spec lm logf) 1 (mish_body1 lm logf i) := by
  intro s
  refine ⟨rfl, fun j => ?_⟩
  simp only [mish_body1, store]
  by_cases h : j = s.ptr
  · subst h
    rw [if_pos rfl, if_pos (by omega)]
    rfl
  · rw [if_neg h, if_neg (by omega)]

/-- One channel of Swish: the first `size` values are replaced by their images. -/
theorem swish_channel_eq (mips_msa : Bool) (lm : Libm α) (size : Nat) (b : Buf α) :
    swish_channel mips_msa lm size b
      = fun j => if j < size then swish_spec lm (b j) else b j := by
  have e4 : swish_body4 lm = fun _ => swish_body4 lm 0 := rfl
  have e1 : swish_body1 lm = fun _ => swish_body1 lm 0 := rfl
  funext j
  unfold swish_channel
  cases mips_msa
  · simp only [Bool.false_eq_true, if_false]
    rw [e1, forFrom_const]
    obtain ⟨-, hm⟩ := map_step_iterate _ 1 _ (swish_body1_step lm 0) size { ptr := 0, mem := b }
    rw [hm]
    simp only [Nat.zero_le, true_and, Nat.zero_add, Nat.one_mul]
  · simp only [if_true]
    rw [forStep4_zero, e4]
    simp only []
    rw [forRange_const,
      forFrom_eq_forRange size _ (size - 4 * (size / 4)) (4 * (size / 4)) _ rfl, e1]
    simp only []
    rw [forRange_const]
    obtain ⟨hp4, hm4⟩ := map_step_iterate _ 4 _ (swish_body4_step lm 0) (size / 4)
      { ptr := 0, mem := b }
    obtain ⟨-, hm1⟩ := map_step_iterate _ 1 _ (swish_body1_step lm 0) (size - 4 * (size / 4))
      ((swish_body4 lm 0)^[size / 4] { ptr := 0, mem := b })
    rw [hm1, hp4, hm4]
    simp only [Nat.zero_le, true_and, Nat.zero_add, Nat.one_mul]
    by_cases h1 : j < 4 * (size / 4)
    · rw [if_neg (by omega), if_pos h1, if_pos (by omega)]
    · rw [if_neg h1]
      by_cases h2 : j < size
      · rw [if_pos (by omega), if_pos h2]
      · rw [if_neg (by omega), if_neg h2]

/-- One channel of Mish with pack factor 4: the first `4 * size` values are replaced. -/
theorem mish_channel_pack4_eq (lm : Libm α) (logf : α → α) (size : Nat) (b : Buf α) :
    mish_channel_pack4 lm logf size b
      = fun j => if j < 4 * size then mish_spec lm logf (b j) else b j := by
  have e4 : mish_body4 lm logf = fun _ => mish_body4 lm logf 0 := rfl
  funext j
  unfold mish_channel_pack4
  rw [e4, forFrom_const]
  obtain ⟨-, hm⟩ := map_step_iterate _ 4 _ (mish_body4_step lm logf 0) size
    { ptr := 0, mem := b }
  rw [hm]
  simp only [Nat.zero_le, true_and, Nat.zero_add]

/-- One channel of Mish on the general path: the first `size` values are replaced. -/
theorem mish_channel_eq (cfg : Build) (lm : Libm α) (logf : α → α) (size : Nat) (b : Buf α) :
    mish_channel cfg lm logf size b
      = fun j => if j < size then mish_spec lm logf (b j) else b j := by
  have e4 : mish_body4 lm logf = fun _ => mish_body4 lm logf 0 := rfl
  have e1 : mish_body1 lm logf = fun _ => mish_body1 lm logf 0 := rfl
  funext j
  unfold mish_channel
  cases cfg.arm_neon
  · simp only [Bool.false_eq_true, if_false]
    rw [e1, forDown_const]
    obtain ⟨-, hm⟩ := map_step_iterate _ 1 _ (mish_body1_step lm logf 0) size
      { ptr := 0, mem := b }
    rw [hm]
    simp only [Nat.zero_le, true_and, Nat.zero_add, Nat.one_mul]
  · simp only [if_true, Nat.shiftRight_eq_div_pow, Nat.shiftLeft_eq]
    rw [e4, e1, forDown_const, forDown_const]
    obtain ⟨hp4, hm4⟩ := map_step_iterate _ 4 _ (mish_body4_step lm logf 0) (size / 2 ^ 2)
      { ptr := 0, mem := b }
    obtain ⟨-, hm1⟩ := map_step_iterate _ 1 _ (mish_body1_step lm logf 0)
      (size - size / 2 ^ 2 * 2 ^ 2) ((mish_body4 lm logf 0)^[size / 2 ^ 2] { ptr := 0, mem := b })
    rw [hm1, hp4, hm4]
    simp only [Nat.zero_le, true_and, Nat.zero_add, Nat.one_mul]
    have hd : size / 2 ^ 2 = size / 4 := rfl
    have hd2 : (2 : Nat) ^ 2 = 4 := rfl
    rw [hd, hd2]
    by_cases h1 : j < 4 * (size / 4)
    · rw [if_neg (by omega), if_pos h1, if_pos (by omega)]
    · rw [if_neg h1]
      by_cases h2 : j < size
      · rw [if_pos (by omega), if_pos h2]
      · rw [if_neg (by omega), if_neg h2]

/-- `Swish_mips::forward_inplace` in closed form. -/
theorem swish_forward_eq (mips_msa : Bool) (lm : Libm α) (blob : Mat4 α) :
    Swish_mips.forward_inplace mips_msa lm blob
      = (0, { blob with data := fun q j =>
          if q < blob.c ∧ j < blob.w * blob.h * blob.d * blob.elempack
          then swish_spec lm (blob.data q j) else blob.data q j }) := by
  unfold Swish_mips.forward_inplace
  simp only []
  rw [channels_loop]
  congr 2
  funext q j
  by_cases hq : q < blob.c
  · rw [if_pos hq, swish_channel_eq]
    simp only [hq, true_and]
  · rw [if_neg hq, if_neg (fun h => hq h.1)]

/-- The fp32 `Mish_arm::forward_inplace` in closed form: per channel it handles `w * h * d`
values, or four times as many on the `elempack == 4` path. -/
theorem mish_forward_eq (cfg : Build) (lm : Libm α) (logf : α → α) (blob : Mat4 α) :
    Mish_arm.forward_inplace cfg lm logf blob
      = (0, { blob with data := fun q j =>
          if q < blob.c ∧ j < (if cfg.arm_neon = true ∧ blob.elempack = 4
              then 4 * (blob.w * blob.h * blob.d) else blob.w * blob.h * blob.d)
          then mish_spec lm logf (blob.data q j) else blob.data q j }) := by
  unfold Mish_arm.forward_inplace
  simp only []
  by_cases hp : cfg.arm_neon = true ∧ blob.elempack = 4
  · rw [if_pos hp, channels_loop]
    congr 2
    funext q j
    by_cases hq : q < blob.c
    · rw [if_pos hq, mish_channel_pack4_eq]
      simp only [hq, true_and, if_pos hp]
    · rw [if_neg hq, if_neg (fun h => hq h.1)]
  · rw [if_neg hp, channels_loop]
    congr 2
    funext q j
    by_cases hq : q < blob.c
    · rw [if_pos hq, mish_channel_eq]
      simp only [hq, true_and, if_neg hp]
    · rw [if_neg hq, if_neg (fun h => hq h.1)]

end

/-- The two activations in closed form: Swish replaces each of the `w*h*d*elempack` values of
every channel by `x / (1 + exp(-x))`; the fp32 Mish replaces the first `w*h*d` values of every
channel (`4*w*h*d` on the NEON `elempack == 4` path) by `x * tanh(ln(exp(x) + 1))`, which are
all the `w*h*d*elempack` values when the pack factor is 1, or is 4 in a NEON build. -/
theorem swish_mish_elementwise {α : Type} [Field α] (mips_msa : Bool) (cfg : Build) (lm : Libm α)
    (logf : α → α) (blob : Mat4 α) :
    ((Swish_mips.forward_inplace mips_msa lm blob).1 = 0 ∧
      (∀ q j, q < blob.c → j < blob.w * blob.h * blob.d * blob.elempack →
        (Swish_mips.forward_inplace mips_msa lm blob).2.data q j
          = blob.data q j / (1 + lm.expf (- blob.data q j))) ∧
      (∀ q j, ¬ (q < blob.c ∧ j < blob.w * blob.h * blob.d * blob.elempack) →
        (Swish_mips.forward_inplace mips_msa lm blob).2.data q j = blob.data q j) ∧
      (Swish_mips.forward_inplace mips_msa lm blob).2.w = blob.w ∧
      (Swish_mips.forward_inplace mips_msa lm blob).2.h = blob.h ∧
      (Swish_mips.forward_inplace mips_msa lm blob).2.d = blob.d ∧
      (Swish_mips.forward_inplace mips_msa lm blob).2.c = blob.c ∧
      (Swish_mips.forward_inplace mips_msa lm blob).2.elempack = blob.elempack) ∧
    ((Mish_arm.forward_inplace cfg lm logf blob).1 = 0 ∧
      (blob.elempack = 1 ∨ (cfg.arm_neon = true ∧ blob.elempack = 4) →
        (∀ q j, q < blob.c → j < blob.w * blob.h * blob.d * blob.elempack →
          (Mish_arm.forward_inplace cfg lm logf blob).2.data q j
            = blob.data q j * lm.tanhf (logf (lm.expf (blob.data q j) + 1))) ∧
        (∀ q j, ¬ (q < blob.c ∧ j < blob.w * blob.h * blob.d * blob.elempack) →
          (Mish_arm.forward_inplace cfg lm logf blob).2.data q j = blob.data q j)) ∧
      (∀ q j, (Mish_arm.forward_inplace cfg lm logf blob).2.data q j
        = if q < blob.c ∧ j < (if cfg.arm_neon = true ∧ blob.elempack = 4
              then 4 * (blob.w * blob.h * blob.d) else blob.w * blob.h * blob.d)
          then blob.data q j * lm.tanhf (logf (lm.expf (blob.data q j) + 1))
          else blob.data q j) ∧
      (Mish_arm.forward_inplace cfg lm logf blob).2.w = blob.w ∧
      (Mish_arm.forward_inplace cfg lm logf blob).2.h = blob.h ∧
      (Mish_arm.forward_inplace cfg lm logf blob).2.d = blob.d ∧
      (Mish_arm.forward_inplace cfg lm logf blob).2.c = blob.c ∧
      (Mish_arm.forward_inplace cfg lm logf blob).2.elempack = blob.elempack) := by
  rw [swish_forward_eq, mish_forward_eq]
  refine ⟨⟨rfl, ?_, ?_, rfl, rfl, rfl, rfl, rfl⟩, ⟨rfl, ?_, ?_, rfl, rfl, rfl, rfl, rfl⟩⟩
  · intro q j hq hj
    simp only [if_pos (And.intro hq hj), swish_spec]
  · intro q j h
    simp only [if_neg h]
  · intro hp
    have hcnt : (if cfg.arm_neon = true ∧ blob.elempack = 4
        then 4 * (blob.w * blob.h * blob.d) else blob.w * blob.h * blob.d)
        = blob.w * blob.h * blob.d * blob.elempack := by
      rcases hp with h1 | h4
      · rw [if_neg (by omega), h1, Nat.mul_one]
      · rw [if_pos h4, h4.2, Nat.mul_comm]
    simp only [hcnt]
    constructor
    · intro q j hq hj
      simp only [if_pos (And.intro hq hj), mish_spec]
    · intro q j h
      simp only [if_neg h]
  · intro q j
    rfl

/-- C27: `Swish_mips::forward_inplace` returns 0 and replaces each of the `w*h*d*elempack`
values of every channel by `f` of that same value, `f(x) = x / (1 + exp(-x))`, leaving the
shape and every other stored value as they were. The fp32 `Mish_arm::forward_inplace` returns 0
and does the same with `f(x) = x * tanh(ln(exp(x) + 1))` on every tensor that reaches it: an
fp32 tensor has pack factor 1, or 4 in a NEON build (the layer asks for packing under
`__ARM_NEON` only, and 16-bit tensors are dispatched at lines 34-47), which is `hpack`. In both
layers the value left at a position depends on the value that was at that position only. -/
theorem C27_elementwise {α : Type} [Field α] (mips_msa : Bool) (cfg : Build) (lm : Libm α)
    (logf : α → α) (swish_blob mish_blob : Mat4 α)
    (hpack : mish_blob.elempack = 1 ∨ (cfg.arm_neon = true ∧ mish_blob.elempack = 4)) :
    ((Swish_mips.forward_inplace mips_msa lm swish_blob).1 = 0 ∧
      (∀ q j, q < swish_blob.c →
        j < swish_blob.w * swish_blob.h * swish_blob.d * swish_blob.elempack →
        (Swish_mips.forward_inplace mips_msa lm swish_blob).2.data q j
          = swish_blob.data q j / (1 + lm.expf (- swish_blob.data q j))) ∧
      (∀ q j, ¬ (q < swish_blob.c ∧
          j < swish_blob.w * swish_blob.h * swish_blob.d * swish_blob.elempack) →
        (Swish_mips.forward_inplace mips_msa lm swish_blob).2.data q j = swish_blob.data q j) ∧
      (Swish_mips.forward_inplace mips_msa lm swish_blob).2.w = swish_blob.w ∧
      (Swish_mips.forward_inplace mips_msa lm swish_blob).2.h = swish_blob.h ∧
      (Swish_mips.forward_inplace mips_msa lm swish_blob).2.d = swish_blob.d ∧
      (Swish_mips.forward_inplace mips_msa lm swish_blob).2.c = swish_blob.c ∧
      (Swish_mips.forward_inplace mips_msa lm swish_blob).2.elempack = swish_blob.elempack) ∧
    ((Mish_arm.forward_inplace cfg lm logf mish_blob).1 = 0 ∧
      (∀ q j, q < mish_blob.c →
        j < mish_blob.w * mish_blob.h * mish_blob.d * mish_blob.elempack →
        (Mish_arm.forward_inplace cfg lm logf mish_blob).2.data q j
          = mish_blob.data q j * lm.tanhf (logf (lm.expf (mish_blob.data q j) + 1))) ∧
      (∀ q j, ¬ (q < mish_blob.c ∧
          j < mish_blob.w * mish_blob.h * mish_blob.d * mish_blob.elempack) →
        (Mish_arm.forward_inplace cfg lm logf mish_blob).2.data q j = mish_blob.data q j) ∧
      (Mish_arm.forward_inplace cfg lm logf mish_blob).2.w = mish_blob.w ∧
      (Mish_arm.forward_inplace cfg lm logf mish_blob).2.h = mish_blob.h ∧
      (Mish_arm.forward_inplace cfg lm logf mish_blob).2.d = mish_blob.d ∧
      (Mish_arm.forward_inplace cfg lm logf mish_blob).2.c = mish_blob.c ∧
      (Mish_arm.forward_inplace cfg lm logf mish_blob).2.elempack = mish_blob.elempack) := by
  obtain ⟨hs, -⟩ := swish_mish_elementwise mips_msa cfg lm logf swish_blob
  obtain ⟨-, m0, m1, -, m3, m4, m5, m6, m7⟩ := swish_mish_elementwise mips_msa cfg lm logf
    mish_blob
  exact ⟨hs, m0, (m1 hpack).1, (m1 hpack).2, m3, m4, m5, m6, m7⟩

/-- Instance of C27 on the 2-channel example tensor (pack factor 1) in a NEON build: value 5
of channel 1 after Mish. -/
theorem C27_elementwise_witness :
    (ex_blob.elempack = 1 ∨ (ex_cfg.arm_neon = true ∧ ex_blob.elempack = 4)) ∧
    1 < ex_blob.c ∧ 5 < ex_blob.w * ex_blob.h * ex_blob.d * ex_blob.elempack ∧
    (Mish_arm.forward_inplace ex_cfg ex_lm1 (fun v => v) ex_blob).2.data 1 5
      = ex_blob.data 1 5 * ex_lm1.tanhf ((fun v => v) (ex_lm1.expf (ex_blob.data 1 5) + 1)) :=
  ⟨Or.inl rfl, by decide, by decide,
    (C27_elementwise true ex_cfg ex_lm1 (fun v => v) ex_blob ex_blob (Or.inl rfl)).2.2.1 1 5
      (by decide) (by decide)⟩

end

section

/-! ## Which storage the multi-input forward writes -/

section

variable {α : Type}

theorem Heap.write_frame (hp : Heap α) (r : MatRef) (b : Buf α) (N : Nat)
    (hr : ∀ i, r.id = some i → N ≤ i) :
    (∀ i, i < N → (hp.write r b).mem i = hp.mem i) ∧ (hp.write r b).next = hp.next := by
  unfold Heap.write
  cases hid : r.id with
  | none => exact ⟨fun _ _ => rfl, rfl⟩
  | some k =>
    refine ⟨fun i hi => ?_, rfl⟩
    have := hr k hid
    simp only []
    rw [if_neg (by omega)]

theorem Heap.alloc_some (grants : Nat → Bool) (n : Nat) (hp : Heap α) (p : Nat × Heap α)
    (h : Heap.alloc grants n hp = some p) :
    p.1 = hp.next ∧ p.2.mem = hp.mem ∧ p.2.next = hp.next + 1 := by
  unfold Heap.alloc at h
  split at h
  · cases h
    exact ⟨rfl, rfl, rfl⟩
  · cases h

theorem MatRef.create_some (w h : Nat) (grants : Nat → Bool) (hp : Heap α)
    (p : MatRef × Heap α) (hc : MatRef.create w h grants hp = some p) :
    p.1.id = some hp.next ∧ p.2.mem = hp.mem ∧ p.2.next = hp.next + 1 := by
  unfold MatRef.create at hc
  cases ha : Heap.alloc grants (w * h) hp with
  | none => rw [ha] at hc; cases hc
  | some q =>
    rw [ha] at hc
    cases hc
    obtain ⟨h1, h2, h3⟩ := Heap.alloc_some grants (w * h) hp q ha
    exact ⟨by rw [← h1], h2, h3⟩

theorem MatRef.row_range_id (r : MatRef) (y rows : Nat) : (r.row_range y rows).id = r.id := rfl

variable [Field α]

theorem MatRef.clone_spec (r : MatRef) (grants : Nat → Bool) (hp : Heap α) :
    (∀ i, (r.clone grants hp).1.id = some i → hp.next ≤ i) ∧
    (∀ i, i < hp.next → (r.clone grants hp).2.mem i = hp.mem i) ∧
    hp.next ≤ (r.clone grants hp).2.next ∧
    (grants r.total = true →
      (r.clone grants hp).1.id = some hp.next ∧
      (r.clone grants hp).2.read (r.clone grants hp).1 = hp.read r) := by
  unfold MatRef.clone
  cases ha : Heap.alloc grants r.total hp with
  | none =>
    refine ⟨?_, ?_, ?_, ?_⟩
    · intro i hi
      cases hi
    · intro i _
      rfl
    · exact Nat.le_refl _
    · intro hg
      unfold Heap.alloc at ha
      rw [if_pos hg] at ha
      cases ha
  | some p =>
    obtain ⟨h1, h2, h3⟩ := Heap.alloc_some grants r.total hp p ha
    simp only []
    obtain ⟨w1, w2⟩ := Heap.write_frame p.2 { r with id := some p.1, off := 0 }
      (hp.read r).buf hp.next (fun i hi => by cases hi; omega)
    refine ⟨fun i hi => by cases hi; omega, fun i hi => ?_, by rw [w2, h3]; omega,
      fun _ => ⟨by rw [h1], ?_⟩⟩
    · rw [w1 i hi, h2]
    · simp only [Heap.read, Heap.write, Mat.buf, if_pos, Nat.zero_le, Nat.zero_add, Nat.sub_zero,
        if_true]

theorem gru_heap_frame (cfg : Build) (lm : Libm α) (ho : HeapOption)
    (bottom_blob top_blob : MatRef) (reverse : Nat) (wxc bias whc : Mat α)
    (hidden_state : MatRef) (hp : Heap α) (N : Nat)
    (ht : ∀ i, top_blob.id = some i → N ≤ i) (hh : ∀ i, hidden_state.id = some i → N ≤ i) :
    (∀ i, i < N →
      (gru_heap cfg lm ho bottom_blob top_blob reverse wxc bias whc hidden_state hp).2.mem i
        = hp.mem i) ∧
    (gru_heap cfg lm ho bottom_blob top_blob reverse wxc bias whc hidden_state hp).2.next
      = hp.next := by
  unfold gru_heap
  simp only []
  split
  · exact ⟨fun _ _ => rfl, rfl⟩
  · obtain ⟨a1, a2⟩ := Heap.write_frame hp top_blob
      (gru cfg lm (hp.read bottom_blob) (hp.read top_blob) reverse wxc bias whc
        (hp.read hidden_state) (ho.to_option hp)).2.1.buf N ht
    obtain ⟨b1, b2⟩ := Heap.write_frame (hp.write top_blob
      (gru cfg lm (hp.read bottom_blob) (hp.read top_blob) reverse wxc bias whc
        (hp.read hidden_state) (ho.to_option hp)).2.1.buf) hidden_state
      (gru cfg lm (hp.read bottom_blob) (hp.read top_blob) reverse wxc bias whc
        (hp.read hidden_state) (ho.to_option hp)).2.2.buf N hh
    exact ⟨fun i hi => by rw [b1 i hi, a1 i hi], by rw [b2, a2]⟩

theorem forward_heap_hidden_spec (self : GRU_arm α) (ho : HeapOption)
    (bottom_blobs top_blobs : List MatRef) (hp : Heap α) (p : MatRef × Heap α)
    (h : forward_heap_hidden self ho bottom_blobs top_blobs hp = some p) :
    (∀ i, p.1.id = some i → hp.next ≤ i) ∧
    (∀ i, i < hp.next → p.2.mem i = hp.mem i) ∧
    hp.next ≤ p.2.next := by
  unfold forward_heap_hidden at h
  simp only [] at h
  split at h
  · cases h
    obtain ⟨c1, c2, c3, -⟩ := MatRef.clone_spec (bottom_blobs.getD 1 MatRef.null)
      (if top_blobs.length = 2 then ho.blob_allocator else ho.workspace_allocator) hp
    exact ⟨c1, c2, c3⟩
  · cases hc : MatRef.create self.num_output (num_directions self.direction)
        (if top_blobs.length = 2 then ho.blob_allocator else ho.workspace_allocator) hp with
    | none => rw [hc] at h; cases h
    | some q =>
      rw [hc] at h
      cases h
      obtain ⟨d1, d2, d3⟩ := MatRef.create_some _ _ _ hp q hc
      obtain ⟨w1, w2⟩ := Heap.write_frame q.2 q.1 (((q.2.read q.1).fill 0).buf) hp.next
        (fun i hi => by rw [d1] at hi; cases hi; exact Nat.le_refl _)
      exact ⟨fun i hi => by rw [d1] at hi; cases hi; exact Nat.le_refl _,
        fun i hi => by rw [w1 i hi, d2], by rw [w2, d3]; omega⟩

/-- The memory left by the multi-input `forward` agrees with the memory at the call on every
allocation that existed at the call. -/
theorem forward_heap_frame (cfg : Build) (lm : Libm α) (self : GRU_arm α) (ho : HeapOption)
    (bottom_blobs top_blobs : List MatRef) (hp : Heap α) :
    (∀ i, i < hp.next →
      (forward_heap cfg lm self ho bottom_blobs top_blobs hp).2.2.mem i = hp.mem i) ∧
    hp.next ≤ (forward_heap cfg lm self ho bottom_blobs top_blobs hp).2.2.next := by
  unfold forward_heap
  simp only []
  cases hH : forward_heap_hidden self ho bottom_blobs top_blobs hp with
  | none => exact ⟨fun _ _ => rfl, Nat.le_refl _⟩
  | some p =>
    obtain ⟨hidden, hp1⟩ := p
    obtain ⟨p1, p2, p3⟩ := forward_heap_hidden_spec self ho bottom_blobs top_blobs hp _ hH
    simp only [] at p1 p2 p3 ⊢
    cases hT : MatRef.create (self.num_output * num_directions self.direction)
        (bottom_blobs.getD 0 MatRef.null).h ho.blob_allocator hp1 with
    | none => exact ⟨p2, p3⟩
    | some q =>
      obtain ⟨top_blob, hp2⟩ := q
      obtain ⟨t1, t2, t3⟩ := MatRef.create_some _ _ _ hp1 _ hT
      simp only [] at t1 t2 t3 ⊢
      have htop : ∀ i, top_blob.id = some i → hp.next ≤ i := by
        intro i hi
        rw [t1] at hi
        cases hi
        exact p3
      have f2 : ∀ i, i < hp.next → hp2.mem i = hp.mem i := fun i hi => by rw [t2, p2 i hi]
      have n2 : hp.next ≤ hp2.next := by omega
      split
      · obtain ⟨g1, g2⟩ := gru_heap_frame cfg lm ho (bottom_blobs.getD 0 MatRef.null) top_blob
          self.direction (self.weight_xc_data_packed.channel 0)
          (self.bias_c_data_packed.channel 0) (self.weight_hc_data_packed.channel 0) hidden hp2
          hp.next htop p1
        split
        · exact ⟨fun i hi => by rw [g1 i hi, f2 i hi], by rw [g2]; exact n2⟩
        · exact ⟨fun i hi => by rw [g1 i hi, f2 i hi], by rw [g2]; exact n2⟩
      · split
        · cases hF : MatRef.create self.num_output (bottom_blobs.getD 0 MatRef.null).h
              ho.workspace_allocator hp2 with
          | none => exact ⟨f2, n2⟩
          | some qf =>
            obtain ⟨tf, hp3⟩ := qf
            obtain ⟨u1, u2, u3⟩ := MatRef.create_some _ _ _ hp2 _ hF
            simp only [] at u1 u2 u3 ⊢
            have f3 : ∀ i, i < hp.next → hp3.mem i = hp.mem i := fun i hi => by
              rw [u2, f2 i hi]
            have htf : ∀ i, tf.id = some i → hp.next ≤ i := by
              intro i hi
              rw [u1] at hi
              cases hi
              exact n2
            cases hR : MatRef.create self.num_output (bottom_blobs.getD 0 MatRef.null).h
                ho.workspace_allocator hp3 with
            | none =>
              simp only []
              exact ⟨f3, by omega⟩
            | some qr =>
              obtain ⟨tr, hp4⟩ := qr
              obtain ⟨v1, v2, v3⟩ := MatRef.create_some _ _ _ hp3 _ hR
              simp only [] at v1 v2 v3 ⊢
              have f4 : ∀ i, i < hp.next → hp4.mem i = hp.mem i := fun i hi => by
                rw [v2, f3 i hi]
              have htr : ∀ i, tr.id = some i → hp.next ≤ i := by
                intro i hi
                rw [v1] at hi
                cases hi
                omega
              obtain ⟨g1, g2⟩ := gru_heap_frame cfg lm ho (bottom_blobs.getD 0 MatRef.null) tf 0
                (self.weight_xc_data_packed.channel 0) (self.bias_c_data_packed.channel 0)
                (self.weight_hc_data_packed.channel 0) (hidden.row_range 0 1) hp4 hp.next htf p1
              split
              · exact ⟨fun i hi => by rw [g1 i hi, f4 i hi], by rw [g2]; omega⟩
              · obtain ⟨k1, k2⟩ := gru_heap_frame cfg lm ho (bottom_blobs.getD 0 MatRef.null)
                  tr 1 (self.weight_xc_data_packed.channel 1)
                  (self.bias_c_data_packed.channel 1) (self.weight_hc_data_packed.channel 1)
                  (hidden.row_range 1 1)
                  (gru_heap cfg lm ho (bottom_blobs.getD 0 MatRef.null) tf 0
                    (self.weight_xc_data_packed.channel 0) (self.bias_c_data_packed.channel 0)
                    (self.weight_hc_data_packed.channel 0) (hidden.row_range 0 1) hp4).2
                  hp.next htr p1
                split
                · exact ⟨fun i hi => by rw [k1 i hi, g1 i hi, f4 i hi], by rw [k2, g2]; omega⟩
                · obtain ⟨w1, w2⟩ := Heap.write_frame
                    (gru_heap cfg lm ho (bottom_blobs.getD 0 MatRef.null) tr 1
                      (self.weight_xc_data_packed.channel 1)
                      (self.bias_c_data_packed.channel 1)
                      (self.weight_hc_data_packed.channel 1) (hidden.row_range 1 1)
                      (gru_heap cfg lm ho (bottom_blobs.getD 0 MatRef.null) tf 0
                        (self.weight_xc_data_packed.channel 0)
                        (self.bias_c_data_packed.channel 0)
                        (self.weight_hc_data_packed.channel 0) (hidden.row_range 0 1) hp4).2).2
                    top_blob _ hp.next htop
                  exact ⟨fun i hi => by rw [w1 i hi, k1 i hi, g1 i hi, f4 i hi],
                    by rw [w2, k2, g2]; omega⟩
        · exact ⟨f2, n2⟩

/-- The header returned as `top_blobs[1]` is the hidden state made at lines 733-745. -/
theorem forward_heap_hidden_out (cfg : Build) (lm : Libm α) (self : GRU_arm α)
    (ho : HeapOption) (bottom_blobs top_blobs : List MatRef) (hp : Heap α)
    (h0 : (forward_heap cfg lm self ho bottom_blobs top_blobs hp).1 = 0)
    (h2 : top_blobs.length = 2) :
    ∃ p, forward_heap_hidden self ho bottom_blobs top_blobs hp = some p ∧
      (forward_heap cfg lm self ho bottom_blobs top_blobs hp).2.1.getD 1 MatRef.null = p.1 := by
  have hfin : ∀ (t hidden : MatRef),
      (forward_heap_finish (top_blobs.set 0 t) hidden).getD 1 MatRef.null = hidden := by
    intro t hidden
    match top_blobs, h2 with
    | [a, b], _ => rfl
  unfold forward_heap at h0 ⊢
  simp only [] at h0 ⊢
  cases hH : forward_heap_hidden self ho bottom_blobs top_blobs hp with
  | none => rw [hH] at h0; simp at h0
  | some p =>
    obtain ⟨hidden, hp1⟩ := p
    rw [hH] at h0
    refine ⟨_, rfl, ?_⟩
    simp only [] at h0 ⊢
    cases hT : MatRef.create (self.num_output * num_directions self.direction)
        (bottom_blobs.getD 0 MatRef.null).h ho.blob_allocator hp1 with
    | none => rw [hT] at h0; simp at h0
    | some q =>
      obtain ⟨top_blob, hp2⟩ := q
      rw [hT] at h0
      simp only [] at h0 ⊢
      split at h0
      · rw [if_pos (by assumption)]
        split at h0
        · rename_i hne
          exact absurd h0 hne
        · rw [if_neg (by assumption)]
          exact hfin _ _
      · rw [if_neg (by assumption)]
        split at h0
        · rw [if_pos (by assumption)]
          cases hF : MatRef.create self.num_output (bottom_blobs.getD 0 MatRef.null).h
              ho.workspace_allocator hp2 with
          | none => rw [hF] at h0; simp at h0
          | some qf =>
            obtain ⟨tf, hp3⟩ := qf
            rw [hF] at h0
            simp only [] at h0 ⊢
            cases hR : MatRef.create self.num_output (bottom_blobs.getD 0 MatRef.null).h
                ho.workspace_allocator hp3 with
            | none => rw [hR] at h0; simp at h0
            | some qr =>
              obtain ⟨tr, hp4⟩ := qr
              rw [hR] at h0
              simp only [] at h0 ⊢
              split at h0
              · rename_i hne
                exact absurd h0 hne
              · rw [if_neg (by assumption)]
                split at h0
                · rename_i hne
                  exact absurd h0 hne
                · rw [if_neg (by assumption)]
                  exact hfin _ _
        · rw [if_neg (by assumption)]
          exact hfin _ _

theorem Heap.read_frame (hp hp2 : Heap α) (b : MatRef) (N : Nat)
    (hf : ∀ i, i < N → hp2.mem i = hp.mem i) (hb : ∀ i, b.id = some i → i < N) :
    hp2.read b = hp.read b := by
  unfold Heap.read
  cases hid : b.id with
  | none => rfl
  | some k =>
    simp only []
    rw [hf k (hb k hid)]

/-- With all requests granted and a unidirectional layer, the multi-input `forward` on headers
returns 0. -/
theorem forward_heap_status (cfg : Build) (lm : Libm α) (self : GRU_arm α) (ho : HeapOption)
    (bottom_blobs top_blobs : List MatRef) (hp : Heap α)
    (hd : self.direction = 0 ∨ self.direction = 1) (hlen : bottom_blobs.length = 2)
    (hb : ∀ n, ho.blob_allocator n = true) (hw : ∀ n, ho.workspace_allocator n = true) :
    (forward_heap cfg lm self ho bottom_blobs top_blobs hp).1 = 0 := by
  have hg : ∀ (n : Nat) (h : Heap α),
      (gates_create cfg n (ho.to_option h : NcnnOption α).workspace_allocator).isSome := by
    intro n h
    unfold gates_create Mat.create HeapOption.to_option
    simp only [hw, if_true]
    split <;> rfl
  unfold forward_heap
  simp only []
  have hH : forward_heap_hidden self ho bottom_blobs top_blobs hp
      = some ((bottom_blobs.getD 1 MatRef.null).clone
          (if top_blobs.length = 2 then ho.blob_allocator else ho.workspace_allocator) hp) := by
    unfold forward_heap_hidden
    simp only [hlen, if_true]
  rw [hH]
  simp only [MatRef.create, Heap.alloc, hb, if_true, Option.map_some', if_pos hd]
  have hs : ∀ (b t h : MatRef) (m : Heap α),
      (gru_heap cfg lm ho b t self.direction (self.weight_xc_data_packed.channel 0)
        (self.bias_c_data_packed.channel 0) (self.weight_hc_data_packed.channel 0) h m).1 = 0 := by
    intro b t h m
    unfold gru_heap
    simp only []
    rw [gru_status _ _ _ _ _ _ _ _ _ _ (hg _ _)]
    simp
  rw [if_neg (by rw [hs]; simp)]

/-- C30: in the embedding of the multi-input fp32 `forward` with explicit storage, where
`create` and `clone` obtain new storage, the call leaves every allocation that existed at the
call as it was; hence every tensor of the caller whose storage existed at the call, in
particular the input sequence `bottom_blobs[0]` and the incoming hidden state
`bottom_blobs[1]`, reads the same after the call. When the call returns 0 and two outputs were
requested, `top_blobs[1]` is the header of the hidden state made at lines 733-745, whose
storage did not exist at the call; and when there is an incoming hidden state and the
allocation of the clone is granted, that hidden state is new storage holding, before the
recurrence starts, the contents of `bottom_blobs[1]`. -/
theorem C30_inputs_untouched (cfg : Build) (lm : Libm α) (self : GRU_arm α) (ho : HeapOption)
    (bottom_blobs top_blobs : List MatRef) (hp : Heap α) :
    (∀ i, i < hp.next →
      (forward_heap cfg lm self ho bottom_blobs top_blobs hp).2.2.mem i = hp.mem i) ∧
    (∀ b : MatRef, (∀ i, b.id = some i → i < hp.next) →
      (forward_heap cfg lm self ho bottom_blobs top_blobs hp).2.2.read b = hp.read b) ∧
    ((forward_heap cfg lm self ho bottom_blobs top_blobs hp).1 = 0 → top_blobs.length = 2 →
      ∃ p, forward_heap_hidden self ho bottom_blobs top_blobs hp = some p ∧
        (forward_heap cfg lm self ho bottom_blobs top_blobs hp).2.1.getD 1 MatRef.null = p.1 ∧
        ∀ i, p.1.id = some i → hp.next ≤ i) ∧
    (bottom_blobs.length = 2 →
      (if top_blobs.length = 2 then ho.blob_allocator else ho.workspace_allocator)
        (bottom_blobs.getD 1 MatRef.null).total = true →
      ∃ p, forward_heap_hidden self ho bottom_blobs top_blobs hp = some p ∧
        p.1.id = some hp.next ∧ p.2.read p.1 = hp.read (bottom_blobs.getD 1 MatRef.null)) := by
  obtain ⟨f1, -⟩ := forward_heap_frame cfg lm self ho bottom_blobs top_blobs hp
  refine ⟨f1, fun b hb => Heap.read_frame hp _ b hp.next f1 hb, ?_, ?_⟩
  · intro h0 h2
    obtain ⟨p, e1, e2⟩ := forward_heap_hidden_out cfg lm self ho bottom_blobs top_blobs hp h0 h2
    exact ⟨p, e1, e2, (forward_heap_hidden_spec self ho bottom_blobs top_blobs hp p e1).1⟩
  · intro hlen hg
    obtain ⟨-, -, -, c4⟩ := MatRef.clone_spec (bottom_blobs.getD 1 MatRef.null)
      (if top_blobs.length = 2 then ho.blob_allocator else ho.workspace_allocator) hp
    refine ⟨_, ?_, (c4 hg).1, (c4 hg).2⟩
    unfold forward_heap_hidden
    simp only [hlen, if_true]

end

/-- Instance of C30: the example layer in forward mode on a memory with two allocations, the
sequence and the incoming hidden state, with two outputs requested: the call returns 0, both
inputs read as before, and the returned hidden state is allocation 2. -/
theorem C30_inputs_untouched_witness :
    (forward_heap ex_cfg ex_lm (ex_packed 0) ex_heap_opt [ex_ref_bottom, ex_ref_hidden]
      [MatRef.null, MatRef.null] ex_heap).1 = 0 ∧
    (forward_heap ex_cfg ex_lm (ex_packed 0) ex_heap_opt [ex_ref_bottom, ex_ref_hidden]
      [MatRef.null, MatRef.null] ex_heap).2.2.read ex_ref_bottom = ex_heap.read ex_ref_bottom ∧
    (forward_heap ex_cfg ex_lm (ex_packed 0) ex_heap_opt [ex_ref_bottom, ex_ref_hidden]
      [MatRef.null, MatRef.null] ex_heap).2.2.read ex_ref_hidden = ex_heap.read ex_ref_hidden :=
  ⟨forward_heap_status ex_cfg ex_lm (ex_packed 0) ex_heap_opt _ _ ex_heap
      (Or.inl (create_pipeline_params ex_cfg (ex_layer 0) ex_fresh ex_fresh ex_fresh ex_opt).2.1)
      rfl (fun _ => rfl) (fun _ => rfl),
    (C30_inputs_untouched ex_cfg ex_lm (ex_packed 0) ex_heap_opt [ex_ref_bottom, ex_ref_hidden]
      [MatRef.null, MatRef.null] ex_heap).2.1 ex_ref_bottom
      (fun i hi => by cases hi; decide),
    (C30_inputs_untouched ex_cfg ex_lm (ex_packed 0) ex_heap_opt [ex_ref_bottom, ex_ref_hidden]
      [MatRef.null, MatRef.null] ex_heap).2.1 ex_ref_hidden
      (fun i hi => by cases hi; decide)⟩

end

section

/-! ## gru_bf16s against gru on decoded tensors -/

section

variable {σ τ : Type}

theorem forRange_rel (R : σ → τ → Prop) (f : Nat → σ → σ) (g : Nat → τ → τ)
    (h : ∀ i s t, R s t → R (f i s) (g i t)) (n : Nat) (s : σ) (t : τ) (hst : R s t) :
    R (forRange n f s) (forRange n g t) := by
  induction n with
  | zero => exact hst
  | succ k ih => exact h k _ _ ih

theorem forFrom_rel (R : σ → τ → Prop) (f : Nat → σ → σ) (g : Nat → τ → τ)
    (h : ∀ i s t, R s t → R (f i s) (g i t)) (hi i : Nat) (s : σ) (t : τ) (hst : R s t) :
    R (forFrom hi f i s) (forFrom hi g i t) := by
  rw [forFrom_eq_forRange hi f (hi - i) i s rfl, forFrom_eq_forRange hi g (hi - i) i t rfl]
  exact forRange_rel R _ _ (fun k => h (i + k)) _ s t hst

end

section

variable {α β : Type} [Field α]

theorem gru_gates4_bf16_eq (dc : Bf16Decode α β) (cfg : Build) (lm : Libm α) (size n : Nat)
    (bottom : Buf β) (x : Nat) (wxc bias whc : Mat β) (hidden : Buf α) (qq : Nat)
    (hdec : ∀ w l, dc.bfloat2float w l = dc.bfloat16_to_float32 (w l)) :
    gru_gates4_bf16 dc cfg lm size n bottom x wxc bias whc hidden qq
      = gru_gates4 cfg lm size n (fun j => dc.bfloat16_to_float32 (bottom j)) x
          (wxc.map dc.bfloat16_to_float32) (bias.map dc.bfloat16_to_float32)
          (whc.map dc.bfloat16_to_float32) hidden qq := by
  have hl : ∀ w, dc.bfloat2float w = fun l => dc.bfloat16_to_float32 (w l) :=
    fun w => funext (hdec w)
  have e1 : ∀ wt : Buf β,
      gate_RU4_bf16 dc cfg.aarch64 (fun i => dc.bfloat2float (vld1_u16 bottom (x + i))) wt
        = gate_RU4 cfg.aarch64 (fun j => dc.bfloat16_to_float32 (bottom j)) x
            (fun j => dc.bfloat16_to_float32 (wt j)) := by
    intro wt
    funext i s
    simp only [gate_RU4_bf16, gate_RU4, hl]
    rfl
  have e2 : ∀ wt : Buf β,
      gate_RU4_tail_bf16 dc (fun i => dc.bfloat2float (vdup_n_u16 (bottom (x + i)))) wt
        = gate_RU4_tail (fun j => dc.bfloat16_to_float32 (bottom j)) x
            (fun j => dc.bfloat16_to_float32 (wt j)) := by
    intro wt
    funext i s
    simp only [gate_RU4_tail_bf16, gate_RU4_tail, hl]
    rfl
  have e3 : ∀ wt : Buf β,
      gate_RU4_bf16 dc cfg.aarch64 (fun i => vld1q_f32 hidden (0 + i)) wt
        = gate_RU4 cfg.aarch64 hidden 0 (fun j => dc.bfloat16_to_float32 (wt j)) := by
    intro wt
    funext i s
    simp only [gate_RU4_bf16, gate_RU4, hl]
    rfl
  have e4 : ∀ wt : Buf β,
      gate_RU4_tail_bf16 dc (fun i => vdupq_n_f32 (hidden (0 + i))) wt
        = gate_RU4_tail hidden 0 (fun j => dc.bfloat16_to_float32 (wt j)) := by
    intro wt
    funext i s
    simp only [gate_RU4_tail_bf16, gate_RU4_tail, hl]
    rfl
  have e5 : ∀ wt : Buf β,
      gate_N4_bf16 dc cfg.aarch64 (fun i => dc.bfloat2float (vld1_u16 bottom (x + i))) wt
        = gate_N4 cfg.aarch64 (fun j => dc.bfloat16_to_float32 (bottom j)) x
            (fun j => dc.bfloat16_to_float32 (wt j)) := by
    intro wt
    funext i s
    simp only [gate_N4_bf16, gate_N4, hl]
    rfl
  have e6 : ∀ wt : Buf β,
      gate_N4_tail_bf16 dc (fun i => dc.bfloat2float (vdup_n_u16 (bottom (x + i)))) wt
        = gate_N4_tail (fun j => dc.bfloat16_to_float32 (bottom j)) x
            (fun j => dc.bfloat16_to_float32 (wt j)) := by
    intro wt
    funext i s
    simp only [gate_N4_tail_bf16, gate_N4_tail, hl]
    rfl
  have e7 : ∀ wt : Buf β,
      gate_N4_bf16 dc cfg.aarch64 (fun i => vld1q_f32 hidden (0 + i)) wt
        = gate_N4 cfg.aarch64 hidden 0 (fun j => dc.bfloat16_to_float32 (wt j)) := by
    intro wt
    funext i s
    simp only [gate_N4_bf16, gate_N4, hl]
    rfl
  have e8 : ∀ wt : Buf β,
      gate_N4_tail_bf16 dc (fun i => vdupq_n_f32 (hidden (0 + i))) wt
        = gate_N4_tail hidden 0 (fun j => dc.bfloat16_to_float32 (wt j)) := by
    intro wt
    funext i s
    simp only [gate_N4_tail_bf16, gate_N4_tail, hl]
    rfl
  unfold gru_gates4_bf16 gru_gates4
  simp only [e1, e2, e3, e4, e5, e6, e7, e8]
  simp only [hl]
  rfl

theorem gru_gates1_bf16_eq (dc : Bf16Decode α β) (cfg : Build) (lm : Libm α) (size n : Nat)
    (bottom : Buf β) (x : Nat) (wxc bias whc : Mat β) (hidden : Buf α) (q : Nat) :
    gru_gates1_bf16 dc cfg lm size n bottom x wxc bias whc hidden q
      = gru_gates1 cfg lm size n (fun j => dc.bfloat16_to_float32 (bottom j)) x
          (wxc.map dc.bfloat16_to_float32) (bias.map dc.bfloat16_to_float32)
          (whc.map dc.bfloat16_to_float32) hidden q := rfl

end

end

section

section

variable {α β : Type} [Field α]

/-! ### One timestep of gru_bf16s -/

theorem step_gates4_bf16_eq (dc : Bf16Decode α β) (cfg : Build) (lm : Libm α) (size n : Nat)
    (bottom : Buf β) (x : Nat) (wxc bias whc : Mat β) (hidden : Buf α)
    (hdec : ∀ w l, dc.bfloat2float w l = dc.bfloat16_to_float32 (w l)) :
    step_gates4_bf16 dc cfg lm size n bottom x wxc bias whc hidden
      = step_gates4 cfg lm size n (fun j => dc.bfloat16_to_float32 (bottom j)) x
          (wxc.map dc.bfloat16_to_float32) (bias.map dc.bfloat16_to_float32)
          (whc.map dc.bfloat16_to_float32) hidden := by
  funext qq gates
  unfold step_gates4_bf16 step_gates4
  rw [gru_gates4_bf16_eq dc cfg lm size n bottom x wxc bias whc hidden qq hdec]

theorem step_gates1_bf16_eq (dc : Bf16Decode α β) (cfg : Build) (lm : Libm α) (size n : Nat)
    (bottom : Buf β) (x : Nat) (wxc bias whc : Mat β) (hidden : Buf α) :
    step_gates1_bf16 dc cfg lm size n bottom x wxc bias whc hidden
      = step_gates1 cfg lm size n (fun j => dc.bfloat16_to_float32 (bottom j)) x
          (wxc.map dc.bfloat16_to_float32) (bias.map dc.bfloat16_to_float32)
          (whc.map dc.bfloat16_to_float32) hidden := rfl

theorem step_H4_bf16_agrees (cv : Bf16Cast α β) (cfg : Build) (out1 out2 : Nat) (qq : Nat)
    (s : StepState16 α β) (t : StepState α) (h : s.agrees t) :
    (step_H4_bf16 cv cfg out1 0 qq s).agrees (step_H4 cfg out2 0 qq t) := by
  obtain ⟨h1, h2⟩ := h
  unfold step_H4_bf16 step_H4 StepState16.agrees
  simp only [h1, h2, and_self]

theorem step_H1_bf16_agrees (cv : Bf16Cast α β) (cfg : Build) (out1 out2 : Nat) (q : Nat)
    (s : StepState16 α β) (t : StepState α) (h : s.agrees t) :
    (step_H1_bf16 cv cfg out1 0 q s).agrees (step_H1 cfg out2 0 q t) := by
  obtain ⟨h1, h2⟩ := h
  unfold step_H1_bf16 step_H1 StepState16.agrees
  simp only [h1, h2, and_self]

/-- A timestep of `gru_bf16s` leaves the float gate workspace and the float hidden state that
the timestep of `gru` leaves on the decoded input and weights. -/
theorem gru_step_bf16_agrees (cv : Bf16Cast α β) (dc : Bf16Decode α β) (cfg : Build)
    (lm : Libm α) (bottom top : Mat β) (top2 : Mat α) (reverse : Nat) (wxc bias whc : Mat β)
    (hdec : ∀ w l, dc.bfloat2float w l = dc.bfloat16_to_float32 (w l)) (hw : top2.w = top.w)
    (t : Nat) (s : StepState16 α β) (s2 : StepState α) (h : s.agrees s2) :
    (gru_step_bf16 cv dc cfg lm bottom top reverse wxc bias whc t s).agrees
      (gru_step cfg lm (bottom.map dc.bfloat16_to_float32) top2 reverse
        (wxc.map dc.bfloat16_to_float32) (bias.map dc.bfloat16_to_float32)
        (whc.map dc.bfloat16_to_float32) t s2) := by
  obtain ⟨h1, h2⟩ := h
  unfold gru_step_bf16 gru_step
  simp only [hw]
  rw [step_gates4_bf16_eq dc cfg lm _ _ _ _ _ _ _ _ hdec, step_gates1_bf16_eq, h1, h2]
  refine forFrom_rel StepState16.agrees _ _
    (fun i a b hab => step_H1_bf16_agrees cv cfg _ _ i a b hab) _ _ _ _ ?_
  cases cfg.arm_neon
  · simp only [Bool.false_eq_true, if_false]
    exact ⟨rfl, rfl⟩
  · simp only [if_true]
    refine forFrom_rel StepState16.agrees _ _
      (fun i a b hab => step_H4_bf16_agrees cv cfg _ _ i a b hab) _ _ _ _ ?_
    exact ⟨rfl, rfl⟩

theorem step_H4_bf16_written (cv : Bf16Cast α β) (cfg : Build) (out : Nat) (top0 : Buf β)
    (henc : ∀ v l, cv.float2bfloat v l = cv.float32_to_bfloat16 (v l)) (qq : Nat)
    (s : StepState16 α β) (h : s.written cv out top0 (4 * qq)) :
    (step_H4_bf16 cv cfg out 0 qq s).written cv out top0 (4 * qq + 4) := by
  obtain ⟨h1, h2⟩ := h
  have ht : ∀ j, (step_H4_bf16 cv cfg out 0 qq s).top j
      = if hj : out + qq * 4 ≤ j ∧ j < out + qq * 4 + 4 then
          cv.float32_to_bfloat16 ((step_H4_bf16 cv cfg out 0 qq s).hidden (j - out))
        else s.top j := by
    intro j
    show store (store (store (store s.top (out + qq * 4) _) (out + qq * 4 + 1) _)
      (out + qq * 4 + 2) _) (out + qq * 4 + 3) _ j = _
    rw [store4_read]
    by_cases hj : out + qq * 4 ≤ j ∧ j < out + qq * 4 + 4
    · rw [dif_pos hj, dif_pos hj, henc]
      congr 1
      show _ = store (store (store (store s.hidden (0 + qq * 4) _) (0 + qq * 4 + 1) _)
        (0 + qq * 4 + 2) _) (0 + qq * 4 + 3) _ (j - out)
      rw [store4_read, dif_pos (by omega)]
      congr 1
      apply Fin.ext
      show j - (out + qq * 4) = j - out - (0 + qq * 4)
      omega
    · rw [dif_neg hj, dif_neg hj]
  have hh : ∀ q, q < 4 * qq → (step_H4_bf16 cv cfg out 0 qq s).hidden q = s.hidden q := by
    intro q hq
    show store (store (store (store s.hidden (0 + qq * 4) _) (0 + qq * 4 + 1) _)
      (0 + qq * 4 + 2) _) (0 + qq * 4 + 3) _ q = _
    rw [store4_read, dif_neg (by omega)]
  constructor
  · intro q hq
    rw [ht]
    by_cases hj : out + qq * 4 ≤ out + q ∧ out + q < out + qq * 4 + 4
    · rw [dif_pos hj, Nat.add_sub_cancel_left]
    · rw [dif_neg hj, h1 q (by omega), hh q (by omega)]
  · intro j hj
    rw [ht, dif_neg (by omega), h2 j (by omega)]

theorem step_H1_bf16_written (cv : Bf16Cast α β) (cfg : Build) (out : Nat) (top0 : Buf β)
    (q : Nat) (s : StepState16 α β) (h : s.written cv out top0 q) :
    (step_H1_bf16 cv cfg out 0 q s).written cv out top0 (q + 1) := by
  obtain ⟨h1, h2⟩ := h
  unfold step_H1_bf16 StepState16.written
  simp only [store, Nat.zero_add]
  constructor
  · intro q2 hq2
    by_cases he : q2 = q
    · subst he
      rw [if_pos rfl, if_pos rfl]
    · rw [if_neg (by omega), if_neg he]
      exact h1 q2 (by omega)
  · intro j hj
    rw [if_neg (by omega)]
    exact h2 j (by omega)

theorem step_H4_bf16_loop (cv : Bf16Cast α β) (cfg : Build) (out : Nat) (top0 : Buf β)
    (henc : ∀ v l, cv.float2bfloat v l = cv.float32_to_bfloat16 (v l))
    (s : StepState16 α β) (h : s.written cv out top0 0) (m : Nat) :
    (forRange m (step_H4_bf16 cv cfg out 0) s).written cv out top0 (4 * m) := by
  induction m with
  | zero => exact h
  | succ k ih => exact step_H4_bf16_written cv cfg out top0 henc k _ ih

theorem step_H1_bf16_loop (cv : Bf16Cast α β) (cfg : Build) (out : Nat) (top0 : Buf β)
    (q0 : Nat) (s : StepState16 α β) (h : s.written cv out top0 q0) (d : Nat) :
    (forRange d (fun k => step_H1_bf16 cv cfg out 0 (q0 + k)) s).written cv out top0
      (q0 + d) := by
  induction d with
  | zero => exact h
  | succ k ih => exact step_H1_bf16_written cv cfg out top0 (q0 + k) _ ih

/-- The two loops that write `h_t`, run one after the other, fill the output row. -/
theorem H_phase_written (cv : Bf16Cast α β) (cfg : Build) (out n : Nat)
    (henc : ∀ v l, cv.float2bfloat v l = cv.float32_to_bfloat16 (v l))
    (s1 : StepState16 α β) :
    (forFrom n (step_H1_bf16 cv cfg out 0) (remain_num_output_start cfg n)
      (if cfg.arm_neon then forFrom (n >>> 2) (step_H4_bf16 cv cfg out 0) 0 s1
       else s1)).written cv out s1.top n := by
  have hrl := remain_start_le cfg n
  rw [forFrom_eq_forRange n (step_H1_bf16 cv cfg out 0)
    (n - remain_num_output_start cfg n) _ _ rfl]
  have hfin : remain_num_output_start cfg n + (n - remain_num_output_start cfg n) = n := by
    omega
  have h0 : s1.written cv out s1.top 0 := ⟨fun q hq => by omega, fun _ _ => rfl⟩
  cases hneon : cfg.arm_neon
  · have hrs := remain_start_scalar cfg hneon n
    simp only [Bool.false_eq_true, if_false]
    have := step_H1_bf16_loop cv cfg out s1.top (remain_num_output_start cfg n) s1
      (by rw [hrs]; exact h0) (n - remain_num_output_start cfg n)
    rw [hfin] at this
    exact this
  · have hrs := remain_start_neon cfg hneon n
    simp only [if_true, shr2]
    rw [forFrom_zero (n / 4) (step_H4_bf16 cv cfg out 0)]
    have h4 := step_H4_bf16_loop cv cfg out s1.top henc s1 h0 (n / 4)
    rw [← hrs] at h4
    have := step_H1_bf16_loop cv cfg out s1.top (remain_num_output_start cfg n) _ h4
      (n - remain_num_output_start cfg n)
    rw [hfin] at this
    exact this

/-- After a timestep of `gru_bf16s` the output row holds, unit by unit, the conversion of the
hidden state the timestep leaves; the rest of the output buffer is untouched. -/
theorem gru_step_bf16_top (cv : Bf16Cast α β) (dc : Bf16Decode α β) (cfg : Build)
    (lm : Libm α) (bottom top : Mat β) (reverse : Nat) (wxc bias whc : Mat β)
    (henc : ∀ v l, cv.float2bfloat v l = cv.float32_to_bfloat16 (v l))
    (t : Nat) (s : StepState16 α β) :
    (gru_step_bf16 cv dc cfg lm bottom top reverse wxc bias whc t s).written cv
      (top.row (step_ti reverse bottom.h t)) s.top top.w := by
  unfold gru_step_bf16
  exact H_phase_written cv cfg _ _ henc _

end

end

section

section

variable {α β : Type} [Field α]

/-! ### The timestep loop of gru_bf16s -/

theorem gru_bf16_loop_agrees (cv : Bf16Cast α β) (dc : Bf16Decode α β) (cfg : Build)
    (lm : Libm α) (bottom top : Mat β) (top2 : Mat α) (reverse : Nat) (wxc bias whc : Mat β)
    (hdec : ∀ w l, dc.bfloat2float w l = dc.bfloat16_to_float32 (w l)) (hw : top2.w = top.w)
    (s : StepState16 α β) (s2 : StepState α) (h : s.agrees s2) (k : Nat) :
    (forRange k (gru_step_bf16 cv dc cfg lm bottom top reverse wxc bias whc) s).agrees
      (forRange k (gru_step cfg lm (bottom.map dc.bfloat16_to_float32) top2 reverse
        (wxc.map dc.bfloat16_to_float32) (bias.map dc.bfloat16_to_float32)
        (whc.map dc.bfloat16_to_float32)) s2) :=
  forRange_rel StepState16.agrees _ _
    (fun i a b hab => gru_step_bf16_agrees cv dc cfg lm bottom top top2 reverse wxc bias whc
      hdec hw i a b hab) k s s2 h

/-- The float hidden state after `k` timesteps of `gru_bf16s` is the hidden vector `h_k` of
`gru` on the decoded input and weights. -/
theorem gru_bf16_loop_hidden (cv : Bf16Cast α β) (dc : Bf16Decode α β) (cfg : Build)
    (lm : Libm α) (bottom top : Mat β) (top2 : Mat α) (reverse : Nat) (wxc bias whc : Mat β)
    (hdec : ∀ w l, dc.bfloat2float w l = dc.bfloat16_to_float32 (w l)) (hw : top2.w = top.w)
    (s : StepState16 α β) (k : Nat) :
    (forRange k (gru_step_bf16 cv dc cfg lm bottom top reverse wxc bias whc) s).hidden
      = gru_hidden_seq cfg lm (bottom.map dc.bfloat16_to_float32) top2 reverse
          (wxc.map dc.bfloat16_to_float32) (bias.map dc.bfloat16_to_float32)
          (whc.map dc.bfloat16_to_float32) s.hidden k := by
  have h := gru_bf16_loop_agrees cv dc cfg lm bottom top top2 reverse wxc bias whc hdec hw s
    { gates := s.gates, top := fun _ => 0, hidden := s.hidden } ⟨rfl, rfl⟩ k
  rw [h.2, (gru_loop_eq cfg lm _ top2 reverse _ _ _ _ k).1]

/-- Output row `ti(t)` holds the conversion of `h_(t+1)` once timestep `t` has run. -/
theorem gru_bf16_loop_top (cv : Bf16Cast α β) (dc : Bf16Decode α β) (cfg : Build)
    (lm : Libm α) (bottom top : Mat β) (reverse : Nat) (wxc bias whc : Mat β)
    (henc : ∀ v l, cv.float2bfloat v l = cv.float32_to_bfloat16 (v l))
    (hrow : ∀ y, top.row y = y * top.w) (s : StepState16 α β) (k : Nat) (hk : k ≤ bottom.h)
    (t q : Nat) (ht : t < k) (hq : q < top.w) :
    (forRange k (gru_step_bf16 cv dc cfg lm bottom top reverse wxc bias whc) s).top
        (top.row (step_ti reverse bottom.h t) + q)
      = cv.float32_to_bfloat16
          ((forRange (t + 1) (gru_step_bf16 cv dc cfg lm bottom top reverse wxc bias whc)
            s).hidden q) := by
  induction k with
  | zero => omega
  | succ k ih =>
    obtain ⟨w1, w2⟩ := gru_step_bf16_top cv dc cfg lm bottom top reverse wxc bias whc henc k
      (forRange k (gru_step_bf16 cv dc cfg lm bottom top reverse wxc bias whc) s)
    by_cases htk : t = k
    · subst htk
      exact w1 q hq
    · have hne : step_ti reverse bottom.h t ≠ step_ti reverse bottom.h k := fun h =>
        htk (step_ti_inj reverse bottom.h t k (by omega) (by omega) h)
      have hout : ¬ (top.row (step_ti reverse bottom.h k)
            ≤ top.row (step_ti reverse bottom.h t) + q
          ∧ top.row (step_ti reverse bottom.h t) + q
            < top.row (step_ti reverse bottom.h k) + top.w) := by
        intro hj
        rw [hrow, hrow] at hj
        exact rows_disjoint top.w _ _ q _ hne hq hj rfl
      show (gru_step_bf16 cv dc cfg lm bottom top reverse wxc bias whc k
        (forRange k (gru_step_bf16 cv dc cfg lm bottom top reverse wxc bias whc) s)).top _ = _
      rw [w2 _ (by omega)]
      exact ih (by omega) (by omega)

theorem gru_bf16s_eq (cv : Bf16Cast α β) (dc : Bf16Decode α β) (cfg : Build) (lm : Libm α)
    (bottom top : Mat β) (reverse : Nat) (wxc bias whc : Mat β) (hidden : Mat α)
    (opt : NcnnOption α) (g : Mat α)
    (hg : gates_create cfg top.w opt.workspace_allocator = some g) :
    gru_bf16s cv dc cfg lm bottom top reverse wxc bias whc hidden opt =
      (0,
       top.set_buf (forRange bottom.h
          (gru_step_bf16 cv dc cfg lm bottom top reverse wxc bias whc)
          { gates := g.buf, top := top.buf, hidden := hidden.buf }).top,
       hidden.set_buf (forRange bottom.h
          (gru_step_bf16 cv dc cfg lm bottom top reverse wxc bias whc)
          { gates := g.buf, top := top.buf, hidden := hidden.buf }).hidden) := by
  unfold gru_bf16s
  simp only [hg]
  rw [forFrom_zero]

theorem gru_bf16s_fail (cv : Bf16Cast α β) (dc : Bf16Decode α β) (cfg : Build) (lm : Libm α)
    (bottom top : Mat β) (reverse : Nat) (wxc bias whc : Mat β) (hidden : Mat α)
    (opt : NcnnOption α) (hg : gates_create cfg top.w opt.workspace_allocator = none) :
    gru_bf16s cv dc cfg lm bottom top reverse wxc bias whc hidden opt = (-100, top, hidden) := by
  unfold gru_bf16s
  simp only [hg]

/-- `gru_bf16s` against `gru` run on the decoded tensors: same status, same float hidden state
at return, and (with the workspace allocated) each output element is the conversion of the
corresponding output element of `gru`. -/
theorem gru_bf16s_refines (cv : Bf16Cast α β) (dc : Bf16Decode α β) (cfg : Build) (lm : Libm α)
    (bottom top : Mat β) (reverse : Nat) (wxc bias whc : Mat β) (hidden : Mat α)
    (opt : NcnnOption α)
    (hdec : ∀ w l, dc.bfloat2float w l = dc.bfloat16_to_float32 (w l))
    (henc : ∀ v l, cv.float2bfloat v l = cv.float32_to_bfloat16 (v l)) :
    (gru_bf16s cv dc cfg lm bottom top reverse wxc bias whc hidden opt).1
      = (gru cfg lm (bottom.map dc.bfloat16_to_float32) (top.map dc.bfloat16_to_float32) reverse
          (wxc.map dc.bfloat16_to_float32) (bias.map dc.bfloat16_to_float32)
          (whc.map dc.bfloat16_to_float32) hidden opt).1 ∧
    (gru_bf16s cv dc cfg lm bottom top reverse wxc bias whc hidden opt).2.2
      = (gru cfg lm (bottom.map dc.bfloat16_to_float32) (top.map dc.bfloat16_to_float32) reverse
          (wxc.map dc.bfloat16_to_float32) (bias.map dc.bfloat16_to_float32)
          (whc.map dc.bfloat16_to_float32) hidden opt).2.2 ∧
    ((gates_create cfg top.w opt.workspace_allocator).isSome → top.elempack = 1 →
      ∀ t q, t < bottom.h → q < top.w →
        (gru_bf16s cv dc cfg lm bottom top reverse wxc bias whc hidden opt).2.1.at2
            (step_ti reverse bottom.h t) q
          = cv.float32_to_bfloat16
              ((gru cfg lm (bottom.map dc.bfloat16_to_float32)
                (top.map dc.bfloat16_to_float32) reverse (wxc.map dc.bfloat16_to_float32)
                (bias.map dc.bfloat16_to_float32) (whc.map dc.bfloat16_to_float32) hidden
                opt).2.1.at2 (step_ti reverse bottom.h t) q)) := by
  cases hg : gates_create cfg top.w opt.workspace_allocator with
  | none =>
    rw [gru_bf16s_fail cv dc cfg lm bottom top reverse wxc bias whc hidden opt hg,
      gru_fail cfg lm _ (top.map dc.bfloat16_to_float32) reverse _ _ _ hidden opt hg]
    exact ⟨rfl, rfl, fun h => by cases h⟩
  | some g =>
    rw [gru_bf16s_eq cv dc cfg lm bottom top reverse wxc bias whc hidden opt g hg]
    have e32 := gru_eq cfg lm (bottom.map dc.bfloat16_to_float32)
      (top.map dc.bfloat16_to_float32) reverse (wxc.map dc.bfloat16_to_float32)
      (bias.map dc.bfloat16_to_float32) (whc.map dc.bfloat16_to_float32) hidden opt g hg
    have hh := gru_bf16_loop_hidden cv dc cfg lm bottom top (top.map dc.bfloat16_to_float32)
      reverse wxc bias whc hdec rfl { gates := g.buf, top := top.buf, hidden := hidden.buf }
    refine ⟨by rw [e32], ?_, ?_⟩
    · rw [e32, hh]
      rfl
    · intro _ hpack t q ht hq
      have hrow : ∀ y, top.row y = y * top.w := by
        intro y
        simp [Mat.row, hpack]
      have a32 := gru_top_at cfg lm (bottom.map dc.bfloat16_to_float32)
        (top.map dc.bfloat16_to_float32) reverse (wxc.map dc.bfloat16_to_float32)
        (bias.map dc.bfloat16_to_float32) (whc.map dc.bfloat16_to_float32) hidden opt
        (by rw [show (top.map dc.bfloat16_to_float32).w = top.w from rfl, hg]; rfl) hpack t q ht
        hq
      have a16 := gru_bf16_loop_top cv dc cfg lm bottom top reverse wxc bias whc henc hrow
        { gates := g.buf, top := top.buf, hidden := hidden.buf } bottom.h (Nat.le_refl _) t q ht
        hq
      rw [show (bottom.map dc.bfloat16_to_float32).h = bottom.h from rfl] at a32
      rw [a32, ← hh (t + 1), ← a16]
      simp [Mat.at2, Mat.set_buf, Mat.buf, Mat.row]

/-- With all packed weights and biases zero, every cell value is
`(1 - σ(0)) * tanh(0) + σ(0) * h[q]`. -/
theorem zero_buf_cell (cfg : Build) (lm : Libm α) (size n : Nat) (bottom : Buf α) (x : Nat)
    (wxc bias whc : Mat α) (hidden : Buf α) (q : Nat)
    (zx : ∀ j, wxc.buf j = 0) (zb : ∀ j, bias.buf j = 0) (zh : ∀ j, whc.buf j = 0) :
    gru_cell cfg lm size n bottom x wxc bias whc hidden q
      = (1 - sigmoid lm 0) * lm.tanhf 0 + sigmoid lm 0 * hidden q := by
  unfold gru_cell gru_unit_gates blend
  split
  · obtain ⟨hR, hU, hN⟩ := gru_gates4_eq cfg lm size n bottom x wxc bias whc hidden (q / 4)
      ⟨q % 4, Nat.mod_lt q (by decide)⟩
    simp only [zx, zb, zh, zero_mul, Finset.sum_const_zero, add_zero, mul_zero] at hR hU hN
    simp only [hU, hN]
  · obtain ⟨hR, hU, hN⟩ := gru_gates1_eq cfg lm size n bottom x wxc bias whc hidden q
    simp only [zx, zb, zh, zero_mul, Finset.sum_const_zero, add_zero, mul_zero] at hR hU hN
    simp only [hU, hN]

end

end

section

/-- C26 as stated fails in its last part: the hidden state that `gru_bf16s` carries to the next
timestep (and returns) is the float `h_t`, not the re-encoded one. One unit, all weights and
biases zero, one timestep from hidden value 1, with the stand-ins `exp v = 1 + v`,
`tanh v = v` (so a timestep halves the hidden value), conversion to 16 bits by `floor` and
decoding by the inclusion of the integers: the output element is `floor(1/2) = 0`, which decodes
to 0, while the hidden state after the timestep is `1/2`. -/
theorem C26_counterexample :
    (gru_bf16s ex_bf16 ex_dec ex_cfg ex_lm1 (const_mat 0 1 1 1) (const_mat 0 1 1 1) 0
      (const_mat 0 12 1 1) (const_mat 0 4 1 1) (const_mat 0 12 1 1) (const_mat 1 1 1 1)
      zero_opt).1 = 0 ∧
    (gru_bf16s ex_bf16 ex_dec ex_cfg ex_lm1 (const_mat 0 1 1 1) (const_mat 0 1 1 1) 0
      (const_mat 0 12 1 1) (const_mat 0 4 1 1) (const_mat 0 12 1 1) (const_mat 1 1 1 1)
      zero_opt).2.1.at2 0 0 = ex_bf16.float32_to_bfloat16 (1 / 2) ∧
    ex_dec.bfloat16_to_float32 (ex_bf16.float32_to_bfloat16 (1 / 2)) = 0 ∧
    (gru_bf16s ex_bf16 ex_dec ex_cfg ex_lm1 (const_mat 0 1 1 1) (const_mat 0 1 1 1) 0
      (const_mat 0 12 1 1) (const_mat 0 4 1 1) (const_mat 0 12 1 1) (const_mat 1 1 1 1)
      zero_opt).2.2.buf 0 = 1 / 2 ∧
    (gru_bf16s ex_bf16 ex_dec ex_cfg ex_lm1 (const_mat 0 1 1 1) (const_mat 0 1 1 1) 0
      (const_mat 0 12 1 1) (const_mat 0 4 1 1) (const_mat 0 12 1 1) (const_mat 1 1 1 1)
      zero_opt).2.2.buf 0
      ≠ ex_dec.bfloat16_to_float32
          ((gru_bf16s ex_bf16 ex_dec ex_cfg ex_lm1 (const_mat 0 1 1 1) (const_mat 0 1 1 1) 0
            (const_mat 0 12 1 1) (const_mat 0 4 1 1) (const_mat 0 12 1 1) (const_mat 1 1 1 1)
            zero_opt).2.1.at2 0 0) := by
  obtain ⟨r1, r2, r3⟩ := gru_bf16s_refines ex_bf16 ex_dec ex_cfg ex_lm1 (const_mat 0 1 1 1)
    (const_mat 0 1 1 1) 0 (const_mat 0 12 1 1) (const_mat 0 4 1 1) (const_mat 0 12 1 1)
    (const_mat 1 1 1 1) zero_opt (fun _ _ => rfl) (fun _ _ => rfl)
  have hg : (gates_create ex_cfg ((const_mat (0 : ℤ) 1 1 1).map ex_dec.bfloat16_to_float32).w
      (zero_opt : NcnnOption ℚ).workspace_allocator).isSome := rfl
  have hcell : ∀ h : Buf ℚ, gru_cell ex_cfg ex_lm1 1 1
      ((const_mat (0 : ℤ) 1 1 1).map ex_dec.bfloat16_to_float32).buf 0
      ((const_mat (0 : ℤ) 12 1 1).map ex_dec.bfloat16_to_float32)
      ((const_mat (0 : ℤ) 4 1 1).map ex_dec.bfloat16_to_float32)
      ((const_mat (0 : ℤ) 12 1 1).map ex_dec.bfloat16_to_float32) h 0 = h 0 / 2 := by
    intro h
    rw [zero_buf_cell ex_cfg ex_lm1 1 1 _ 0 _ _ _ h 0
      (fun _ => by simp [Mat.map, Mat.buf, const_mat, ex_dec])
      (fun _ => by simp [Mat.map, Mat.buf, const_mat, ex_dec])
      (fun _ => by simp [Mat.map, Mat.buf, const_mat, ex_dec])]
    simp only [sigmoid, ex_lm1]
    norm_num
    ring
  have hs : gru_hidden_seq ex_cfg ex_lm1
      ((const_mat (0 : ℤ) 1 1 1).map ex_dec.bfloat16_to_float32)
      ((const_mat (0 : ℤ) 1 1 1).map ex_dec.bfloat16_to_float32) 0
      ((const_mat (0 : ℤ) 12 1 1).map ex_dec.bfloat16_to_float32)
      ((const_mat (0 : ℤ) 4 1 1).map ex_dec.bfloat16_to_float32)
      ((const_mat (0 : ℤ) 12 1 1).map ex_dec.bfloat16_to_float32)
      (const_mat (1 : ℚ) 1 1 1).buf 1 0 = 1 / 2 := by
    rw [hidden_seq_succ_lt _ _ _ _ _ _ _ _ _ _ _ (by decide)]
    exact (hcell _).trans (by simp [gru_hidden_seq, const_mat, Mat.buf])
  have hH : (gru_bf16s ex_bf16 ex_dec ex_cfg ex_lm1 (const_mat 0 1 1 1) (const_mat 0 1 1 1) 0
      (const_mat 0 12 1 1) (const_mat 0 4 1 1) (const_mat 0 12 1 1) (const_mat 1 1 1 1)
      zero_opt).2.2.buf 0 = 1 / 2 := by
    rw [r2, gru_hidden_buf _ _ _ _ _ _ _ _ _ _ hg]
    exact hs
  have hT : (gru_bf16s ex_bf16 ex_dec ex_cfg ex_lm1 (const_mat 0 1 1 1) (const_mat 0 1 1 1) 0
      (const_mat 0 12 1 1) (const_mat 0 4 1 1) (const_mat 0 12 1 1) (const_mat 1 1 1 1)
      zero_opt).2.1.at2 0 0 = ex_bf16.float32_to_bfloat16 (1 / 2) := by
    have := r3 rfl rfl 0 0 (by decide) (by decide)
    rw [show step_ti 0 (const_mat (0 : ℤ) 1 1 1).h 0 = 0 from rfl] at this
    rw [this]
    have a := gru_top_at ex_cfg ex_lm1
      ((const_mat (0 : ℤ) 1 1 1).map ex_dec.bfloat16_to_float32)
      ((const_mat (0 : ℤ) 1 1 1).map ex_dec.bfloat16_to_float32) 0
      ((const_mat (0 : ℤ) 12 1 1).map ex_dec.bfloat16_to_float32)
      ((const_mat (0 : ℤ) 4 1 1).map ex_dec.bfloat16_to_float32)
      ((const_mat (0 : ℤ) 12 1 1).map ex_dec.bfloat16_to_float32) (const_mat 1 1 1 1) zero_opt
      hg rfl 0 0 (by decide) (by decide)
    rw [show step_ti 0 ((const_mat (0 : ℤ) 1 1 1).map ex_dec.bfloat16_to_float32).h 0 = 0
      from rfl] at a
    rw [a, hs]
  have hE : ex_dec.bfloat16_to_float32 (ex_bf16.float32_to_bfloat16 (1 / 2)) = 0 := by
    simp only [ex_dec, ex_bf16]
    norm_num
  refine ⟨by rw [r1]; exact gru_status _ _ _ _ _ _ _ _ _ _ hg, hT, hE, hH, ?_⟩
  rw [hH, hT, hE]
  norm_num

section

variable {α β : Type} [Field α]

/-- C26 (amended): when the 4-lane conversions are the scalar ones on each lane, `gru_bf16s`
is `gru` run on the decoded input, weights and biases, with the float hidden state kept
unrounded: it returns the same status; after every timestep the hidden state is the float
vector `h_t` that the timestep of `gru` computes from the previous hidden state (it is that
unrounded `h_t` that the next timestep reads), and the output row holds
`float32_to_bfloat16(h_t[q])`; the hidden state at return is the one `gru` returns; and, with
the gate workspace allocated, every element of every output row is `float32_to_bfloat16` of the
element `gru` puts there. -/
theorem C26_bf16_refinement (cv : Bf16Cast α β) (dc : Bf16Decode α β) (cfg : Build)
    (lm : Libm α) (bottom_blob top_blob : Mat β) (reverse : Nat)
    (weight_xc bias_c weight_hc : Mat β) (hidden_state : Mat α) (opt : NcnnOption α)
    (hdec : ∀ w l, dc.bfloat2float w l = dc.bfloat16_to_float32 (w l))
    (henc : ∀ v l, cv.float2bfloat v l = cv.float32_to_bfloat16 (v l)) :
    (gru_bf16s cv dc cfg lm bottom_blob top_blob reverse weight_xc bias_c weight_hc hidden_state
        opt).1
      = (gru cfg lm (bottom_blob.map dc.bfloat16_to_float32)
          (top_blob.map dc.bfloat16_to_float32) reverse (weight_xc.map dc.bfloat16_to_float32)
          (bias_c.map dc.bfloat16_to_float32) (weight_hc.map dc.bfloat16_to_float32)
          hidden_state opt).1 ∧
    (∀ (t : Nat) (s : StepState16 α β),
      (gru_step_bf16 cv dc cfg lm bottom_blob top_blob reverse weight_xc bias_c weight_hc t
          s).hidden
        = gru_next cfg lm (bottom_blob.map dc.bfloat16_to_float32)
            (top_blob.map dc.bfloat16_to_float32) (weight_xc.map dc.bfloat16_to_float32)
            (bias_c.map dc.bfloat16_to_float32) (weight_hc.map dc.bfloat16_to_float32)
            (step_ti reverse bottom_blob.h t) s.hidden ∧
      ∀ q, q < top_blob.w →
        (gru_step_bf16 cv dc cfg lm bottom_blob top_blob reverse weight_xc bias_c weight_hc t
            s).top (top_blob.row (step_ti reverse bottom_blob.h t) + q)
          = cv.float32_to_bfloat16
              ((gru_step_bf16 cv dc cfg lm bottom_blob top_blob reverse weight_xc bias_c
                weight_hc t s).hidden q)) ∧
    (gru_bf16s cv dc cfg lm bottom_blob top_blob reverse weight_xc bias_c weight_hc hidden_state
        opt).2.2
      = (gru cfg lm (bottom_blob.map dc.bfloat16_to_float32)
          (top_blob.map dc.bfloat16_to_float32) reverse (weight_xc.map dc.bfloat16_to_float32)
          (bias_c.map dc.bfloat16_to_float32) (weight_hc.map dc.bfloat16_to_float32)
          hidden_state opt).2.2 ∧
    ((gates_create cfg top_blob.w opt.workspace_allocator).isSome → top_blob.elempack = 1 →
      ∀ r q, r < bottom_blob.h → q < top_blob.w →
        (gru_bf16s cv dc cfg lm bottom_blob top_blob reverse weight_xc bias_c weight_hc
            hidden_state opt).2.1.at2 r q
          = cv.float32_to_bfloat16
              ((gru cfg lm (bottom_blob.map dc.bfloat16_to_float32)
                (top_blob.map dc.bfloat16_to_float32) reverse
                (weight_xc.map dc.bfloat16_to_float32) (bias_c.map dc.bfloat16_to_float32)
                (weight_hc.map dc.bfloat16_to_float32) hidden_state opt).2.1.at2 r q)) := by
  obtain ⟨r1, r2, r3⟩ := gru_bf16s_refines cv dc cfg lm bottom_blob top_blob reverse weight_xc
    bias_c weight_hc hidden_state opt hdec henc
  refine ⟨r1, ?_, r2, ?_⟩
  · intro t s
    constructor
    · have h := gru_step_bf16_agrees cv dc cfg lm bottom_blob top_blob
        (top_blob.map dc.bfloat16_to_float32) reverse weight_xc bias_c weight_hc hdec rfl t s
        { gates := s.gates, top := fun _ => 0, hidden := s.hidden } ⟨rfl, rfl⟩
      rw [h.2, (gru_step_eq cfg lm _ _ reverse _ _ _ t _).1]
      rfl
    · intro q hq
      exact (gru_step_bf16_top cv dc cfg lm bottom_blob top_blob reverse weight_xc bias_c
        weight_hc henc t s).1 q hq
  · intro hg hpack r q hr hq
    have hti : ∃ t2, t2 < bottom_blob.h ∧ step_ti reverse bottom_blob.h t2 = r := by
      by_cases h0 : reverse = 0
      · exact ⟨r, hr, by rw [h0, step_ti_forward]⟩
      · exact ⟨bottom_blob.h - 1 - r, by omega, by rw [step_ti_reverse _ _ _ h0]; omega⟩
    obtain ⟨t2, ht2, e⟩ := hti
    have := r3 hg hpack t2 q ht2 hq
    rw [e] at this
    exact this

end

/-- Instance of the amended C26 on the one-unit example with zero weights: the hidden state
returned by `gru_bf16s` is the one `gru` returns on the decoded tensors. -/
theorem C26_bf16_refinement_witness :
    (∀ (w : Fin 4 → ℤ) (l : Fin 4), ex_dec.bfloat2float w l = ex_dec.bfloat16_to_float32 (w l)) ∧
    (∀ (v : float32x4_t ℚ) (l : Fin 4),
      ex_bf16.float2bfloat v l = ex_bf16.float32_to_bfloat16 (v l)) ∧
    (gru_bf16s ex_bf16 ex_dec ex_cfg ex_lm1 (const_mat 0 1 1 1) (const_mat 0 1 1 1) 0
      (const_mat 0 12 1 1) (const_mat 0 4 1 1) (const_mat 0 12 1 1) (const_mat 1 1 1 1)
      zero_opt).2.2
      = (gru ex_cfg ex_lm1 ((const_mat 0 1 1 1).map ex_dec.bfloat16_to_float32)
          ((const_mat 0 1 1 1).map ex_dec.bfloat16_to_float32) 0
          ((const_mat 0 12 1 1).map ex_dec.bfloat16_to_float32)
          ((const_mat 0 4 1 1).map ex_dec.bfloat16_to_float32)
          ((const_mat 0 12 1 1).map ex_dec.bfloat16_to_float32) (const_mat 1 1 1 1)
          zero_opt).2.2 :=
  ⟨fun _ _ => rfl, fun _ _ => rfl,
    (C26_bf16_refinement ex_bf16 ex_dec ex_cfg ex_lm1 (const_mat 0 1 1 1) (const_mat 0 1 1 1) 0
      (const_mat 0 12 1 1) (const_mat 0 4 1 1) (const_mat 0 12 1 1) (const_mat 1 1 1 1)
      zero_opt (fun _ _ => rfl) (fun _ _ => rfl)).2.2.1⟩

end

section

/-! ## Range of the scaled input of the dynamic quantisation -/

section

variable {α : Type} [LinearOrderedField α]

end

end

section

/-! ## Rows of the units stored one at a time in the 4-lane layout -/

section

variable {α : Type}

theorem unit_row_neon (cfg : Build) (hneon : cfg.arm_neon = true) (q : Nat) :
    unit_row cfg q = q / 4 + q % 4 := by
  simp only [unit_row, hneon, if_true]

theorem gates_create_h (cfg : Build) (hneon : cfg.arm_neon = true) (n : Nat) (a : Allocator α)
    (g : Mat α) (hg : gates_create cfg n a = some g) :
    g.h = n / 4 + n % 4 ∧ g.w = gates_w cfg := by
  simp only [gates_create, hneon, if_true, Mat.create] at hg
  cases ha : a (4 * 2 * (n / 4 + n % 4)) with
  | none => rw [ha] at hg; cases hg
  | some b =>
    rw [ha] at hg
    cases hg
    simp only [Mat.of_buf, gates_w, hneon, if_true]
    exact ⟨trivial, trivial⟩

/-- Column of the coefficient of gate `gate` (0 reset, 1 update, 2 candidate), lane `lane` and
input feature `i` inside the row of a 4-lane group. -/
theorem group_row_fill (cfg : Build) (hneon : cfg.arm_neon = true) (n cols : Nat)
    (src dst P : Mat α) (hbuf : P.buf = pack_mat cfg n cols src dst)
    (hrowP : ∀ y, P.row y = y * (12 * cols)) (hrowd : ∀ y, dst.row y = y * (12 * cols))
    (g : Nat) (hg : g < n / 4) :
    (∀ gate lane i, gate < 3 → lane < 4 → i < cols →
      (if gate < 2 then 8 * i + 4 * gate + lane else 8 * cols + 4 * i + lane) < 12 * cols ∧
      P.at2 g (if gate < 2 then 8 * i + 4 * gate + lane else 8 * cols + 4 * i + lane)
        = src.at2 (gate * n + 4 * g + lane) i) ∧
    (∀ j, j < 12 * cols → ∃ gate lane i, gate < 3 ∧ lane < 4 ∧ i < cols ∧
      j = (if gate < 2 then 8 * i + 4 * gate + lane else 8 * cols + 4 * i + lane)) := by
  constructor
  · intro gate lane i hgate hlane hi
    have hq : 4 * g + lane < 4 * (n / 4) := by omega
    obtain ⟨r1, r2, r3⟩ := packed_group_read cfg hneon n cols src dst P hbuf hrowP hrowd
      (4 * g + lane) hq i hi
    have e1 : (4 * g + lane) / 4 = g := by omega
    have e2 : (4 * g + lane) % 4 = lane := by omega
    rw [e1, e2] at r1 r2 r3
    have c0 : gate = 0 ∨ gate = 1 ∨ gate = 2 := by omega
    rcases c0 with rfl | rfl | rfl
    · refine ⟨?_, ?_⟩
      · rw [if_pos (by omega)]; omega
      · rw [if_pos (by omega), Mat.at2,
          show P.row g + (8 * i + 4 * 0 + lane) = P.row g + 8 * i + lane by omega, r1,
          show 0 * n + 4 * g + lane = 4 * g + lane by omega]
    · refine ⟨?_, ?_⟩
      · rw [if_pos (by omega)]; omega
      · rw [if_pos (by omega), Mat.at2,
          show P.row g + (8 * i + 4 * 1 + lane) = P.row g + 8 * i + 4 + lane by omega, r2,
          show 1 * n + 4 * g + lane = n + (4 * g + lane) by omega]
    · refine ⟨?_, ?_⟩
      · rw [if_neg (by omega)]; omega
      · rw [if_neg (by omega), Mat.at2,
          show P.row g + (8 * cols + 4 * i + lane) = P.row g + 8 * cols + 4 * i + lane by omega,
          r3, show 2 * n + 4 * g + lane = 2 * n + (4 * g + lane) by omega]
  · intro j hj
    by_cases c : j < 8 * cols
    · refine ⟨j % 8 / 4, j % 4, j / 8, by omega, by omega, by omega, ?_⟩
      rw [if_pos (by omega)]
      omega
    · refine ⟨2, (j - 8 * cols) % 4, (j - 8 * cols) / 4, by omega, by omega, by omega, ?_⟩
      rw [if_neg (by omega)]
      omega

end

section

variable {α : Type} [Field α]

open Finset

/-- After a timestep the workspace row `unit_row q` of a unit handled by the one-unit loop
holds its update gate at offset 0 and its candidate state at offset 1. -/
theorem workspace_unit_row (cfg : Build) (lm : Libm α) (bottom_blob top_blob : Mat α)
    (reverse : Nat) (wxc bias whc : Mat α) (t : Nat) (s : StepState α) (q : Nat)
    (hq1 : remain_num_output_start cfg top_blob.w ≤ q) (hq2 : q < top_blob.w) :
    (gru_step cfg lm bottom_blob top_blob reverse wxc bias whc t s).gates
        (unit_row cfg q * gates_w cfg + 0)
      = (gru_gates1 cfg lm bottom_blob.w top_blob.w bottom_blob.buf
          (bottom_blob.row (step_ti reverse bottom_blob.h t)) wxc bias whc s.hidden q).U ∧
    (gru_step cfg lm bottom_blob top_blob reverse wxc bias whc t s).gates
        (unit_row cfg q * gates_w cfg + 1)
      = (gru_gates1 cfg lm bottom_blob.w top_blob.w bottom_blob.buf
          (bottom_blob.row (step_ti reverse bottom_blob.h t)) wxc bias whc s.hidden q).N := by
  have h := step_gates_spec cfg lm bottom_blob.w top_blob.w bottom_blob.buf
    (bottom_blob.row (step_ti reverse bottom_blob.h t)) wxc bias whc s.hidden s.gates q hq2
  rw [← gru_step_gates cfg lm bottom_blob top_blob reverse wxc bias whc t s] at h
  have hn : ¬ q < remain_num_output_start cfg top_blob.w := by omega
  simp only [gate_U_at, gate_N_at, gru_unit_gates, hn, if_false] at h
  exact h

/-- The hidden value a timestep gives to a unit handled by the one-unit loop is the blend of
the two workspace entries of row `unit_row q`. -/
theorem hidden_unit_row (cfg : Build) (lm : Libm α) (bottom_blob top_blob : Mat α)
    (reverse : Nat) (wxc bias whc : Mat α) (t : Nat) (s : StepState α) (q : Nat)
    (hq1 : remain_num_output_start cfg top_blob.w ≤ q) (hq2 : q < top_blob.w) :
    (gru_step cfg lm bottom_blob top_blob reverse wxc bias whc t s).hidden q
      = (1 - (gru_step cfg lm bottom_blob top_blob reverse wxc bias whc t s).gates
              (unit_row cfg q * gates_w cfg + 0))
          * (gru_step cfg lm bottom_blob top_blob reverse wxc bias whc t s).gates
              (unit_row cfg q * gates_w cfg + 1)
        + (gru_step cfg lm bottom_blob top_blob reverse wxc bias whc t s).gates
              (unit_row cfg q * gates_w cfg + 0) * s.hidden q := by
  obtain ⟨w1, w2⟩ := workspace_unit_row cfg lm bottom_blob top_blob reverse wxc bias whc t s q
    hq1 hq2
  rw [w1, w2, (gru_step_eq cfg lm bottom_blob top_blob reverse wxc bias whc t s).1]
  have hn : ¬ q < remain_num_output_start cfg top_blob.w := by omega
  simp only [hq2, if_true, gru_cell, blend, gru_unit_gates, hn, if_false]

end

end

section

section

variable {α : Type} [Field α]

open Finset

/-- C39: in the 4-lane layout, for a unit `q` that is not part of a full group of 4
(`4 * (num_output / 4) ≤ q < num_output`), the row index `unit_row q = q / 4 + q % 4` is smaller
than the row count `num_output / 4 + num_output % 4` of both packed weight tensors and of the
gate workspace, differs from the row index of every other such unit and from every group row
index `g < num_output / 4`; `create_pipeline` stores the coefficients of unit `q` in that row of
both packed tensors, the one-unit gate computation reads its coefficients from that row of the
two weight tensors it is given, a timestep of `gru` stores the update gate and the candidate
state of unit `q` at offsets 0 and 1 of that row of the workspace and the blend reads them
there; and for every group row `g` the values written into the row are the `12 * size`
coefficients of its four units (`12 * num_output` for the hidden-to-hidden tensor), at columns
below the row width that cover every column of the row. -/
theorem C39_remainder_rows (cfg : Build) (hneon : cfg.arm_neon = true) (lm : Libm α)
    (self : GRU_arm α) (fresh_xc fresh_bias fresh_hc : Nat → Buf α) (opt : NcnnOption α)
    (dr : Nat) (hdr : dr < num_directions self.direction)
    (bottom_blob top_blob : Mat α) (reverse : Nat) (weight_xc bias_c weight_hc : Mat α)
    (t : Nat) (s : StepState α) (htop : top_blob.w = self.num_output)
    (q : Nat) (hq1 : 4 * (self.num_output / 4) ≤ q) (hq2 : q < self.num_output) :
    (unit_row cfg q = q / 4 + q % 4 ∧
      unit_row cfg q < self.num_output / 4 + self.num_output % 4 ∧
      (create_packed cfg self fresh_xc fresh_bias fresh_hc).xc.h
        = self.num_output / 4 + self.num_output % 4 ∧
      (create_packed cfg self fresh_xc fresh_bias fresh_hc).hc.h
        = self.num_output / 4 + self.num_output % 4 ∧
      (∀ g : Mat α, gates_create cfg top_blob.w opt.workspace_allocator = some g →
        g.h = self.num_output / 4 + self.num_output % 4) ∧
      (∀ q2, 4 * (self.num_output / 4) ≤ q2 → q2 < self.num_output → q2 ≠ q →
        unit_row cfg q2 ≠ unit_row cfg q) ∧
      (∀ g, g < self.num_output / 4 → g ≠ unit_row cfg q)) ∧
    ((∀ i, i < input_size self →
      ((create_pipeline cfg self fresh_xc fresh_bias fresh_hc opt).2.weight_xc_data_packed.channel
          dr).at2 (unit_row cfg q) (2 * i)
        = (self.weight_xc_data.channel dr).at2 q i ∧
      ((create_pipeline cfg self fresh_xc fresh_bias fresh_hc opt).2.weight_xc_data_packed.channel
          dr).at2 (unit_row cfg q) (2 * i + 1)
        = (self.weight_xc_data.channel dr).at2 (self.num_output + q) i ∧
      ((create_pipeline cfg self fresh_xc fresh_bias fresh_hc opt).2.weight_xc_data_packed.channel
          dr).at2 (unit_row cfg q) (2 * input_size self + i)
        = (self.weight_xc_data.channel dr).at2 (2 * self.num_output + q) i) ∧
     (∀ i, i < self.num_output →
      ((create_pipeline cfg self fresh_xc fresh_bias fresh_hc opt).2.weight_hc_data_packed.channel
          dr).at2 (unit_row cfg q) (2 * i)
        = (self.weight_hc_data.channel dr).at2 q i ∧
      ((create_pipeline cfg self fresh_xc fresh_bias fresh_hc opt).2.weight_hc_data_packed.channel
          dr).at2 (unit_row cfg q) (2 * i + 1)
        = (self.weight_hc_data.channel dr).at2 (self.num_output + q) i ∧
      ((create_pipeline cfg self fresh_xc fresh_bias fresh_hc opt).2.weight_hc_data_packed.channel
          dr).at2 (unit_row cfg q) (2 * self.num_output + i)
        = (self.weight_hc_data.channel dr).at2 (2 * self.num_output + q) i)) ∧
    ((gru_gates1 cfg lm bottom_blob.w top_blob.w bottom_blob.buf
          (bottom_blob.row (step_ti reverse bottom_blob.h t)) weight_xc bias_c weight_hc
          s.hidden q).R =
        sigmoid lm (bias_c.buf (4 * q)
          + ∑ i in range bottom_blob.w,
              weight_xc.buf (weight_xc.row (unit_row cfg q) + 2 * i)
                * bottom_blob.buf (bottom_blob.row (step_ti reverse bottom_blob.h t) + i)
          + ∑ j in range top_blob.w,
              weight_hc.buf (weight_hc.row (unit_row cfg q) + 2 * j) * s.hidden j) ∧
     (gru_gates1 cfg lm bottom_blob.w top_blob.w bottom_blob.buf
          (bottom_blob.row (step_ti reverse bottom_blob.h t)) weight_xc bias_c weight_hc
          s.hidden q).U =
        sigmoid lm (bias_c.buf (4 * q + 1)
          + ∑ i in range bottom_blob.w,
              weight_xc.buf (weight_xc.row (unit_row cfg q) + 2 * i + 1)
                * bottom_blob.buf (bottom_blob.row (step_ti reverse bottom_blob.h t) + i)
          + ∑ j in range top_blob.w,
              weight_hc.buf (weight_hc.row (unit_row cfg q) + 2 * j + 1) * s.hidden j) ∧
     (gru_gates1 cfg lm bottom_blob.w top_blob.w bottom_blob.buf
          (bottom_blob.row (step_ti reverse bottom_blob.h t)) weight_xc bias_c weight_hc
          s.hidden q).N =
        lm.tanhf (bias_c.buf (4 * q + 3)
          + (gru_gates1 cfg lm bottom_blob.w top_blob.w bottom_blob.buf
              (bottom_blob.row (step_ti reverse bottom_blob.h t)) weight_xc bias_c weight_hc
              s.hidden q).R
            * (bias_c.buf (4 * q + 2)
                + ∑ j in range top_blob.w,
                    weight_hc.buf (weight_hc.row (unit_row cfg q) + 2 * top_blob.w + j)
                      * s.hidden j)
          + ∑ i in range bottom_blob.w,
              weight_xc.buf (weight_xc.row (unit_row cfg q) + 2 * bottom_blob.w + i)
                * bottom_blob.buf (bottom_blob.row (step_ti reverse bottom_blob.h t) + i))) ∧
    ((gru_step cfg lm bottom_blob top_blob reverse weight_xc bias_c weight_hc t s).gates
          (unit_row cfg q * gates_w cfg + 0)
        = (gru_gates1 cfg lm bottom_blob.w top_blob.w bottom_blob.buf
            (bottom_blob.row (step_ti reverse bottom_blob.h t)) weight_xc bias_c weight_hc
            s.hidden q).U ∧
     (gru_step cfg lm bottom_blob top_blob reverse weight_xc bias_c weight_hc t s).gates
          (unit_row cfg q * gates_w cfg + 1)
        = (gru_gates1 cfg lm bottom_blob.w top_blob.w bottom_blob.buf
            (bottom_blob.row (step_ti reverse bottom_blob.h t)) weight_xc bias_c weight_hc
            s.hidden q).N ∧
     (gru_step cfg lm bottom_blob top_blob reverse weight_xc bias_c weight_hc t s).hidden q
        = (1 - (gru_step cfg lm bottom_blob top_blob reverse weight_xc bias_c weight_hc t
                  s).gates (unit_row cfg q * gates_w cfg + 0))
            * (gru_step cfg lm bottom_blob top_blob reverse weight_xc bias_c weight_hc t
                  s).gates (unit_row cfg q * gates_w cfg + 1)
          + (gru_step cfg lm bottom_blob top_blob reverse weight_xc bias_c weight_hc t
                  s).gates (unit_row cfg q * gates_w cfg + 0) * s.hidden q) ∧
    (∀ g, g < self.num_output / 4 →
      (create_packed cfg self fresh_xc fresh_bias fresh_hc).xc.w = 12 * input_size self ∧
      (∀ gate lane i, gate < 3 → lane < 4 → i < input_size self →
        (if gate < 2 then 8 * i + 4 * gate + lane else 8 * input_size self + 4 * i + lane)
          < 12 * input_size self ∧
        ((create_pipeline cfg self fresh_xc fresh_bias fresh_hc
            opt).2.weight_xc_data_packed.channel dr).at2 g
            (if gate < 2 then 8 * i + 4 * gate + lane else 8 * input_size self + 4 * i + lane)
          = (self.weight_xc_data.channel dr).at2 (gate * self.num_output + 4 * g + lane) i) ∧
      (∀ j, j < 12 * input_size self → ∃ gate lane i, gate < 3 ∧ lane < 4 ∧
        i < input_size self ∧
        j = (if gate < 2 then 8 * i + 4 * gate + lane
          else 8 * input_size self + 4 * i + lane)) ∧
      (create_packed cfg self fresh_xc fresh_bias fresh_hc).hc.w = 12 * self.num_output ∧
      (∀ gate lane i, gate < 3 → lane < 4 → i < self.num_output →
        (if gate < 2 then 8 * i + 4 * gate + lane else 8 * self.num_output + 4 * i + lane)
          < 12 * self.num_output ∧
        ((create_pipeline cfg self fresh_xc fresh_bias fresh_hc
            opt).2.weight_hc_data_packed.channel dr).at2 g
            (if gate < 2 then 8 * i + 4 * gate + lane else 8 * self.num_output + 4 * i + lane)
          = (self.weight_hc_data.channel dr).at2 (gate * self.num_output + 4 * g + lane) i) ∧
      (∀ j, j < 12 * self.num_output → ∃ gate lane i, gate < 3 ∧ lane < 4 ∧
        i < self.num_output ∧
        j = (if gate < 2 then 8 * i + 4 * gate + lane
          else 8 * self.num_output + 4 * i + lane))) := by
  have hrs := remain_start_neon cfg hneon self.num_output
  have hq1r : remain_num_output_start cfg self.num_output ≤ q := by rw [hrs]; exact hq1
  have hxr : ∀ y, ((create_pipeline cfg self fresh_xc fresh_bias fresh_hc
      opt).2.weight_xc_data_packed.channel dr).row y = y * (12 * input_size self) := by
    intro y
    rw [packed_xc_row, if_pos hneon]
  have hxd : ∀ y, ((create_packed cfg self fresh_xc fresh_bias fresh_hc).xc.channel dr).row y
      = y * (12 * input_size self) := by
    intro y
    rw [created_xc_row, if_pos hneon]
  have hhr : ∀ y, ((create_pipeline cfg self fresh_xc fresh_bias fresh_hc
      opt).2.weight_hc_data_packed.channel dr).row y = y * (12 * self.num_output) := by
    intro y
    rw [packed_hc_row, if_pos hneon]
  have hhd : ∀ y, ((create_packed cfg self fresh_xc fresh_bias fresh_hc).hc.channel dr).row y
      = y * (12 * self.num_output) := by
    intro y
    rw [created_hc_row, if_pos hneon]
  refine ⟨⟨unit_row_neon cfg hneon q, ?_, ?_, ?_, ?_, ?_, ?_⟩, ⟨?_, ?_⟩, ?_, ⟨?_, ?_, ?_⟩, ?_⟩
  · rw [unit_row_neon cfg hneon q]
    omega
  · simp only [create_packed, hneon, if_true]
  · simp only [create_packed, hneon, if_true]
  · intro g hg
    rw [htop] at hg
    exact (gates_create_h cfg hneon self.num_output _ g hg).1
  · intro q2 h1 h2 hne
    rw [unit_row_neon cfg hneon q2, unit_row_neon cfg hneon q]
    omega
  · intro g hg
    rw [unit_row_neon cfg hneon q]
    omega
  · intro i hi
    have h := packed_unit_read cfg self.num_output (input_size self) _ _ _
      (packed_xc_buf cfg self fresh_xc fresh_bias fresh_hc opt dr hdr)
      (packed_xc_row cfg self fresh_xc fresh_bias fresh_hc opt dr)
      (created_xc_row cfg self fresh_xc fresh_bias fresh_hc dr) q hq1r hq2 i hi
    simp only [Mat.at2, ← Nat.add_assoc] at h ⊢
    exact h
  · intro i hi
    have h := packed_unit_read cfg self.num_output self.num_output _ _ _
      (packed_hc_buf cfg self fresh_xc fresh_bias fresh_hc opt dr hdr)
      (packed_hc_row cfg self fresh_xc fresh_bias fresh_hc opt dr)
      (created_hc_row cfg self fresh_xc fresh_bias fresh_hc dr) q hq1r hq2 i hi
    simp only [Mat.at2, ← Nat.add_assoc] at h ⊢
    exact h
  · exact gru_gates1_eq cfg lm bottom_blob.w top_blob.w bottom_blob.buf
      (bottom_blob.row (step_ti reverse bottom_blob.h t)) weight_xc bias_c weight_hc s.hidden q
  · exact (workspace_unit_row cfg lm bottom_blob top_blob reverse weight_xc bias_c weight_hc t s
      q (by rw [htop]; exact hq1r) (by rw [htop]; exact hq2)).1
  · exact (workspace_unit_row cfg lm bottom_blob top_blob reverse weight_xc bias_c weight_hc t s
      q (by rw [htop]; exact hq1r) (by rw [htop]; exact hq2)).2
  · exact hidden_unit_row cfg lm bottom_blob top_blob reverse weight_xc bias_c weight_hc t s
      q (by rw [htop]; exact hq1r) (by rw [htop]; exact hq2)
  · intro g hg
    obtain ⟨x1, x2⟩ := group_row_fill cfg hneon self.num_output (input_size self) _ _ _
      (packed_xc_buf cfg self fresh_xc fresh_bias fresh_hc opt dr hdr) hxr hxd g hg
    obtain ⟨y1, y2⟩ := group_row_fill cfg hneon self.num_output self.num_output _ _ _
      (packed_hc_buf cfg self fresh_xc fresh_bias fresh_hc opt dr hdr) hhr hhd g hg
    refine ⟨?_, x1, x2, ?_, y1, y2⟩
    · simp only [create_packed, hneon, if_true]
      omega
    · simp only [create_packed, hneon, if_true]
      omega

/-- Instance of C39 on the 5-unit example layer: unit 4 uses row 2 of the packed tensors and of
the workspace, below the row count 2 + 1 = 3 and different from the group row 0. -/
theorem C39_remainder_rows_witness :
    ex_cfg.arm_neon = true ∧ 0 < num_directions (ex_layer 0).direction ∧
    ex_top.w = (ex_layer 0).num_output ∧
    4 * ((ex_layer 0).num_output / 4) ≤ 4 ∧ 4 < (ex_layer 0).num_output ∧
    unit_row ex_cfg 4 = 4 / 4 + 4 % 4 ∧
    unit_row ex_cfg 4 < (ex_layer 0).num_output / 4 + (ex_layer 0).num_output % 4 ∧
    (gru_step ex_cfg ex_lm ex_bottom ex_top 0 ((ex_packed 0).weight_xc_data_packed.channel 0)
        ((ex_packed 0).bias_c_data_packed.channel 0)
        ((ex_packed 0).weight_hc_data_packed.channel 0) 0
        { gates := fun _ => 0, top := ex_top.buf, hidden := ex_hidden.buf }).gates
        (unit_row ex_cfg 4 * gates_w ex_cfg + 0)
      = (gru_gates1 ex_cfg ex_lm ex_bottom.w ex_top.w ex_bottom.buf
          (ex_bottom.row (step_ti 0 ex_bottom.h 0))
          ((ex_packed 0).weight_xc_data_packed.channel 0)
          ((ex_packed 0).bias_c_data_packed.channel 0)
          ((ex_packed 0).weight_hc_data_packed.channel 0) ex_hidden.buf 4).U :=
  have h := C39_remainder_rows ex_cfg rfl ex_lm (ex_layer 0) ex_fresh ex_fresh ex_fresh ex_opt 0
    (by decide) ex_bottom ex_top 0 ((ex_packed 0).weight_xc_data_packed.channel 0)
    ((ex_packed 0).bias_c_data_packed.channel 0)
    ((ex_packed 0).weight_hc_data_packed.channel 0) 0
    { gates := fun _ => 0, top := ex_top.buf, hidden := ex_hidden.buf } rfl 4 (by decide)
    (by decide)
  ⟨rfl, by decide, rfl, by decide, by decide, h.1.1, h.1.2.1, h.2.2.2.1.1⟩

end

end

section

/-! ## Normalize: the loops in closed form -/

section

variable {α : Type}

theorem store_fn_loop (f : Nat → α → α) (n : Nat) (b : Buf α) :
    forFrom n (fun i (p : Buf α) => store p i (f i (p i))) 0 b
      = fun j => if j < n then f j (b j) else b j := by
  rw [forFrom_zero]
  induction n with
  | zero =>
    funext j
    rw [if_neg (by omega)]
    rfl
  | succ k ih =>
    show store (forRange k _ b) k (f k (forRange k _ b k)) = _
    rw [ih]
    funext j
    simp only [store]
    by_cases hj : j = k
    · rw [if_pos hj, hj, if_neg (Nat.lt_irrefl k), if_pos (Nat.lt_succ_self k)]
    · rw [if_neg hj]
      by_cases h2 : j < k
      · rw [if_pos h2, if_pos (by omega)]
      · rw [if_neg h2, if_neg (by omega)]

theorem channels_loop_idx (G : Nat → Buf α → Buf α) (channels : Nat) (D : Nat → Buf α) :
    forFrom channels (fun q (data : Nat → Buf α) k => if k = q then G q (data q) else data k) 0 D
      = fun k => if k < channels then G k (D k) else D k := by
  rw [forFrom_zero]
  induction channels with
  | zero =>
    funext k
    rw [if_neg (by omega)]
    rfl
  | succ n ih =>
    show (fun k => if k = n then G n (forRange n _ D n) else forRange n _ D k) = _
    rw [ih]
    funext k
    simp only []
    by_cases hk : k = n
    · rw [if_pos hk, hk, if_neg (Nat.lt_irrefl n), if_pos (Nat.lt_succ_self n)]
    · rw [if_neg hk]
      by_cases h2 : k < n
      · rw [if_pos h2, if_pos (by omega)]
      · rw [if_neg h2, if_neg (by omega)]

end

section

variable {α : Type} [Field α]

open Finset

theorem sum_loop (g : Nat → α) (n : Nat) :
    forFrom n (fun q (s : α) => s + g q) 0 0 = ∑ q in range n, g q := by
  rw [forFrom_zero]
  induction n with
  | zero => rfl
  | succ k ih =>
    show forRange k _ 0 + g k = _
    rw [ih, sum_range_succ]

theorem channel_ssum_eq (ptr : Buf α) (size : Nat) :
    channel_ssum (fun v => v) ptr size = ∑ i in range size, ptr i * ptr i :=
  sum_loop (fun i => ptr i * ptr i) size

theorem position_ssum_eq (data : Nat → Buf α) (channels i : Nat) :
    position_ssum (fun v => v) data channels i = ∑ q in range channels, data q i * data q i :=
  sum_loop (fun q => data q i * data q i) channels

theorem channel_scale_eq (scale : α) (size : Nat) (ptr : Buf α) :
    channel_scale (fun v => v) scale size ptr = fun i => if i < size then ptr i * scale else ptr i
        :=
  store_fn_loop (fun _ v => v * scale) size ptr

end

section

variable {α : Type} [LinearOrderedField α]

open Finset

/-- The sum of the squares of the `w * h` values of each of the `c` channels of a blob. -/
theorem square_sum_loop (D : Nat → Buf α) (channels size : Nat) (b : Buf α) :
    forFrom channels
        (fun q (ssum : α) => ssum + forFrom channels
          (fun q (sq : Buf α) => store sq q (channel_ssum (fun v => v) (D q) size)) 0 b q) 0 0
      = ∑ q in range channels, ∑ i in range size, D q i * D q i := by
  rw [store_fn_loop (fun q _ => channel_ssum (fun v => v) (D q) size) channels b, sum_loop]
  apply sum_congr rfl
  intro q hq
  rw [if_pos (mem_range.mp hq), channel_ssum_eq]

/-- Closed form of the branch `across_spatial && across_channel` (lines 43-116). -/
theorem normalize_both (sqrtf : α → α) (self : Normalize α) (blob : Mat α) (opt : NcnnOption α)
    (hs : self.across_spatial ≠ 0) (hc : self.across_channel ≠ 0) :
    Normalize.forward_inplace (fun v => v) sqrtf self blob opt =
      match Mat.create blob.c 1 opt.workspace_allocator with
      | none => (-100, blob)
      | some _ =>
        (0, { blob with data := fun k => if k < blob.c then
            (fun i => if i < blob.w * blob.h then
              blob.data k i * (normalize_coef (fun v => v) sqrtf self.eps self.eps_mode
                  (∑ q in range blob.c, ∑ i in range (blob.w * blob.h),
                    blob.data q i * blob.data q i)
                * (if self.channel_shared ≠ 0 then self.scale_data.buf 0
                    else self.scale_data.buf k))
              else blob.data k i)
          else blob.data k }) := by
  unfold Normalize.forward_inplace
  rw [if_pos ⟨hs, hc⟩]
  cases hm : Mat.create blob.c 1 opt.workspace_allocator with
  | none => rfl
  | some m =>
    simp only []
    rw [square_sum_loop]
    by_cases hsh : self.channel_shared ≠ 0
    · rw [if_pos hsh, channels_loop]
      simp only [if_pos hsh, channel_scale_eq]
    · rw [if_neg hsh,
        channels_loop_idx (fun q => channel_scale (fun v => v) (normalize_coef (fun v => v) sqrtf
            self.eps self.eps_mode
          (∑ q in range blob.c, ∑ i in range (blob.w * blob.h), blob.data q i * blob.data q i)
            * self.scale_data.buf q) (blob.w * blob.h))]
      simp only [if_neg hsh, channel_scale_eq]

/-- Closed form of the branch `across_spatial && !across_channel` (lines 118-154). -/
theorem normalize_spatial (sqrtf : α → α) (self : Normalize α) (blob : Mat α)
    (opt : NcnnOption α) (hs : self.across_spatial ≠ 0) (hc : self.across_channel = 0) :
    Normalize.forward_inplace (fun v => v) sqrtf self blob opt =
      (0, { blob with data := fun k => if k < blob.c then
          (fun i => if i < blob.w * blob.h then
            blob.data k i * (normalize_coef (fun v => v) sqrtf self.eps self.eps_mode
                (∑ i in range (blob.w * blob.h), blob.data k i * blob.data k i)
              * (if self.channel_shared ≠ 0 then self.scale_data.buf 0
                  else self.scale_data.buf k))
            else blob.data k i)
        else blob.data k }) := by
  unfold Normalize.forward_inplace
  rw [if_neg (fun h => h.2 hc), if_pos ⟨hs, fun h => h hc⟩]
  rw [channels_loop_idx (fun q ptr => channel_scale (fun v => v)
    (normalize_coef (fun v => v) sqrtf self.eps self.eps_mode (channel_ssum (fun v => v) ptr
        (blob.w * blob.h))
      * (if self.channel_shared ≠ 0 then self.scale_data.buf 0 else self.scale_data.buf q))
    (blob.w * blob.h) ptr)]
  simp only [channel_scale_eq, channel_ssum_eq]

/-- Closed form of the branch `!across_spatial && across_channel` (lines 156-249). -/
theorem normalize_channel (sqrtf : α → α) (self : Normalize α) (blob : Mat α)
    (opt : NcnnOption α) (hs : self.across_spatial = 0) (hc : self.across_channel ≠ 0) :
    Normalize.forward_inplace (fun v => v) sqrtf self blob opt =
      match Mat.create (blob.w * blob.h) 1 opt.workspace_allocator with
      | none => (-100, blob)
      | some _ =>
        (0, { blob with data := fun k => if k < blob.c then
            (fun i => if i < blob.w * blob.h then
              (if self.channel_shared ≠ 0 then
                blob.data k i * (normalize_coef (fun v => v) sqrtf self.eps self.eps_mode
                    (∑ q in range blob.c, blob.data q i * blob.data q i)
                  * self.scale_data.buf 0)
               else
                blob.data k i * normalize_coef (fun v => v) sqrtf self.eps self.eps_mode
                    (∑ q in range blob.c, blob.data q i * blob.data q i)
                  * self.scale_data.buf k)
              else blob.data k i)
          else blob.data k }) := by
  unfold Normalize.forward_inplace
  rw [if_neg (fun h => h.1 hs), if_neg (fun h => h.1 hs), if_pos ⟨fun h => h hs, hc⟩]
  cases hm : Mat.create (blob.w * blob.h) 1 opt.workspace_allocator with
  | none => rfl
  | some m =>
    simp only []
    by_cases hsh : self.channel_shared ≠ 0
    · rw [if_pos hsh,
        store_fn_loop (fun i _ => normalize_coef (fun v => v) sqrtf self.eps self.eps_mode
          (position_ssum (fun v => v) blob.data blob.c i) * self.scale_data.buf 0) (blob.w *
              blob.h) m.buf]
      rw [channels_loop (fun ptr => forFrom (blob.w * blob.h) (fun i p => store p i (p i *
        (fun j => if j < blob.w * blob.h then normalize_coef (fun v => v) sqrtf self.eps
            self.eps_mode
          (position_ssum (fun v => v) blob.data blob.c j) * self.scale_data.buf 0 else m.buf j) i))
              0 ptr)]
      congr 2
      funext k
      by_cases hk : k < blob.c
      · rw [if_pos hk, if_pos hk,
          store_fn_loop (fun i v => v * (fun j => if j < blob.w * blob.h then
            normalize_coef (fun v => v) sqrtf self.eps self.eps_mode (position_ssum (fun v => v)
                blob.data blob.c j)
              * self.scale_data.buf 0 else m.buf j) i) (blob.w * blob.h) (blob.data k)]
        funext i
        by_cases hi : i < blob.w * blob.h
        · simp only [if_pos hi, if_pos hsh, position_ssum_eq]
        · simp only [if_neg hi]
      · rw [if_neg hk, if_neg hk]
    · rw [if_neg hsh,
        store_fn_loop (fun i _ => normalize_coef (fun v => v) sqrtf self.eps self.eps_mode
          (position_ssum (fun v => v) blob.data blob.c i)) (blob.w * blob.h) m.buf]
      rw [channels_loop_idx (fun q ptr => forFrom (blob.w * blob.h) (fun i p => store p i (p i *
        (fun j => if j < blob.w * blob.h then normalize_coef (fun v => v) sqrtf self.eps
            self.eps_mode
          (position_ssum (fun v => v) blob.data blob.c j) else m.buf j) i * self.scale_data.buf q))
              0 ptr)]
      congr 2
      funext k
      by_cases hk : k < blob.c
      · rw [if_pos hk, if_pos hk,
          store_fn_loop (fun i v => v * (fun j => if j < blob.w * blob.h then
            normalize_coef (fun v => v) sqrtf self.eps self.eps_mode (position_ssum (fun v => v)
                blob.data blob.c j)
              else m.buf j) i * self.scale_data.buf k) (blob.w * blob.h) (blob.data k)]
        funext i
        by_cases hi : i < blob.w * blob.h
        · simp only [if_pos hi, if_neg hsh, position_ssum_eq]
        · simp only [if_neg hi]
      · rw [if_neg hk, if_neg hk]

/-- With neither flag set the call returns at line 251. -/
theorem normalize_none (fl sqrtf : α → α) (self : Normalize α) (blob : Mat α)
    (opt : NcnnOption α) (hs : self.across_spatial = 0) (hc : self.across_channel = 0) :
    Normalize.forward_inplace fl sqrtf self blob opt = (0, blob) := by
  unfold Normalize.forward_inplace
  rw [if_neg (fun h => h.1 hs), if_neg (fun h => h.1 hs), if_neg (fun h => h.2 hc)]

end

end

section

/-! ## Normalize: the three claims -/

section

open Finset

theorem coef_sq_le (eps : ℝ) (eps_mode : Int) (ssum : ℝ) (heps : 0 < eps) (hss : 0 ≤ ssum) :
    normalize_coef (fun v => v) Real.sqrt eps eps_mode ssum * normalize_coef (fun v => v) Real.sqrt
        eps eps_mode ssum
        * ssum ≤ 1 ∧
    (eps_mode = 1 → eps ≤ Real.sqrt ssum →
      normalize_coef (fun v => v) Real.sqrt eps eps_mode ssum * normalize_coef (fun v => v)
          Real.sqrt eps eps_mode ssum
        * ssum = 1) ∧
    (eps_mode ≠ 0 → eps_mode ≠ 1 → eps ≤ ssum →
      normalize_coef (fun v => v) Real.sqrt eps eps_mode ssum * normalize_coef (fun v => v)
          Real.sqrt eps eps_mode ssum
        * ssum = 1) := by
  have hsq : Real.sqrt ssum * Real.sqrt ssum = ssum := Real.mul_self_sqrt hss
  by_cases h0 : eps_mode = 0
  · have hp : 0 < ssum + eps := by linarith
    have e : normalize_coef (fun v => v) Real.sqrt eps eps_mode ssum = 1 / Real.sqrt (ssum + eps)
        := by
      rw [normalize_coef, if_pos h0]
    have e2 : (1 / Real.sqrt (ssum + eps)) * (1 / Real.sqrt (ssum + eps)) * ssum
        = ssum / (ssum + eps) := by
      rw [div_mul_div_comm, Real.mul_self_sqrt (le_of_lt hp)]
      ring
    refine ⟨?_, ?_, ?_⟩
    · rw [e, e2, div_le_one hp]
      linarith
    · intro h1
      rw [h0] at h1
      exact absurd h1 (by decide)
    · intro h _
      exact absurd h0 h
  · by_cases h1 : eps_mode = 1
    · have hm : 0 < max (Real.sqrt ssum) eps := lt_of_lt_of_le heps (le_max_right _ _)
      have e : normalize_coef (fun v => v) Real.sqrt eps eps_mode ssum = 1 / max (Real.sqrt ssum)
          eps := by
        rw [normalize_coef, if_neg h0, if_pos h1]
      have e2 : (1 / max (Real.sqrt ssum) eps) * (1 / max (Real.sqrt ssum) eps) * ssum
          = ssum / (max (Real.sqrt ssum) eps * max (Real.sqrt ssum) eps) := by
        rw [div_mul_div_comm]
        ring
      refine ⟨?_, ?_, ?_⟩
      · rw [e, e2, div_le_one (mul_pos hm hm)]
        calc ssum = Real.sqrt ssum * Real.sqrt ssum := hsq.symm
          _ ≤ max (Real.sqrt ssum) eps * max (Real.sqrt ssum) eps :=
            mul_self_le_mul_self (Real.sqrt_nonneg _) (le_max_left _ _)
      · intro _ hle
        have hpos : 0 < ssum := by
          rw [← hsq]
          exact mul_pos (lt_of_lt_of_le heps hle) (lt_of_lt_of_le heps hle)
        rw [e, e2, max_eq_left hle, hsq, div_self (ne_of_gt hpos)]
      · intro _ h
        exact absurd h1 h
    · have hm : 0 < max ssum eps := lt_of_lt_of_le heps (le_max_right _ _)
      have e : normalize_coef (fun v => v) Real.sqrt eps eps_mode ssum = 1 / Real.sqrt (max ssum
          eps) := by
        rw [normalize_coef, if_neg h0, if_neg h1]
      have e2 : (1 / Real.sqrt (max ssum eps)) * (1 / Real.sqrt (max ssum eps)) * ssum
          = ssum / max ssum eps := by
        rw [div_mul_div_comm, Real.mul_self_sqrt (le_of_lt hm)]
        ring
      refine ⟨?_, ?_, ?_⟩
      · rw [e, e2, div_le_one hm]
        exact le_max_left _ _
      · intro h
        exact absurd h h1
      · intro _ _ hle
        have hpos : 0 < ssum := lt_of_lt_of_le heps hle
        rw [e, e2, max_eq_left hle, div_self (ne_of_gt hpos)]

theorem scaled_square_sum (D : Nat → Buf ℝ) (channels size : Nat) (k : ℝ) :
    ∑ q in range channels, ∑ i in range size,
        (if q < channels then (fun i => if i < size then D q i * k else D q i) else D q) i
          * (if q < channels then (fun i => if i < size then D q i * k else D q i) else D q) i
      = k * k * ∑ q in range channels, ∑ i in range size, D q i * D q i := by
  rw [mul_sum]
  apply sum_congr rfl
  intro q hq
  rw [mul_sum]
  apply sum_congr rfl
  intro i hi
  rw [if_pos (mem_range.mp hq)]
  simp only [if_pos (mem_range.mp hi)]
  ring

theorem round_half_even_tie (m : ℤ) (hodd : m % 2 = 1) :
    round_half_even ((m : ℚ) + 1 / 2) = m + 1 := by
  unfold round_half_even
  have hf : ⌊(m : ℚ) + 1 / 2⌋ = m := by
    rw [Int.floor_eq_iff]
    constructor <;> linarith
  rw [hf, if_neg (by linarith), if_neg (by linarith), if_neg (by omega)]

theorem f32_fl_tie (q : ℚ) (e m : ℤ) (he : -126 ≤ e) (h1 : (2 : ℚ) ^ e ≤ |q|)
    (h2 : |q| < (2 : ℚ) ^ (e + 1)) (hq : q = ((m : ℚ) + 1 / 2) * (2 : ℚ) ^ (e - 23))
    (hodd : m % 2 = 1) : f32_fl q = ((m : ℚ) + 1) * (2 : ℚ) ^ (e - 23) := by
  unfold f32_fl
  rw [f32_ulp_eq q e he h1 h2]
  have hp : (2 : ℚ) ^ (e - 23) ≠ 0 := by positivity
  have hr : q / (2 : ℚ) ^ (e - 23) = (m : ℚ) + 1 / 2 := by
    rw [hq, mul_div_assoc, div_self hp, mul_one]
  rw [hr, round_half_even_tie m hodd]
  push_cast
  rfl

theorem ex_sqrtf_49 : ex_sqrtf 49 = 7 := by
  unfold ex_sqrtf
  have h1 : (49 : ℚ).num.toNat = 7 * 7 := by
    simp
  have h2 : (49 : ℚ).den = 1 * 1 := by
    simp
  rw [h1, h2, Nat.sqrt_eq, Nat.sqrt_eq]
  norm_num

theorem f32_fl_49 : f32_fl 49 = 49 := by
  rw [f32_fl_eq 49 5 12845056 (by norm_num) (by rw [abs_of_pos] <;> norm_num)
    (by rw [abs_of_pos] <;> norm_num) (by norm_num) (by norm_num)]
  norm_num

theorem f32_fl_inv7 : f32_fl (1 / 7) = 9586981 / 67108864 := by
  rw [f32_fl_eq _ (-3) 9586981 (by norm_num) (by rw [abs_of_pos] <;> norm_num)
    (by rw [abs_of_pos] <;> norm_num) (by norm_num) (by norm_num)]
  norm_num

theorem f32_fl_coef3 : f32_fl (28760943 / 67108864) = 1797559 / 4194304 := by
  rw [f32_fl_tie _ (-2) 14380471 (by norm_num) (by rw [abs_of_pos] <;> norm_num)
    (by rw [abs_of_pos] <;> norm_num) (by norm_num) (by norm_num)]
  norm_num

theorem f32_fl_out7 : f32_fl (12582913 / 4194304) = 12582913 / 4194304 := by
  rw [f32_fl_eq _ 1 12582913 (by norm_num) (by rw [abs_of_pos] <;> norm_num)
    (by rw [abs_of_pos] <;> norm_num) (by norm_num) (by norm_num)]
  norm_num

theorem normalize_f32_seven :
    Normalize.forward_inplace f32_fl ex_sqrtf ex_normalize_f32 (const_mat 7 1 1 1) ex_opt
      = (0, { const_mat (7 : ℚ) 1 1 1 with
          data := fun k => if k = 0 then store (fun _ => 7) 0 (12582913 / 4194304)
            else fun _ => 7 }) := by
  have h7 : (7 : ℚ) ⊔ 1 = 7 := max_eq_left (by norm_num)
  norm_num [Normalize.forward_inplace, ex_normalize_f32, const_mat, Mat.create, ex_opt, ex_alloc,
    forFrom_zero, forRange, channel_ssum, channel_scale, store, normalize_coef, Mat.buf,
    Mat.of_buf, f32_fl_49, ex_sqrtf_49, h7, f32_fl_inv7, f32_fl_coef3, f32_fl_out7]

/-- C32 as stated fails in single precision. One channel with the single value 7, both flags
and `channel_shared` set, shared scale `s = 3`, `eps = 1`, `eps_mode = 1`: `ssum` is 49 and
`sqrtf(ssum) = 7` is not below `eps`; the coefficient `a` is the float nearest to 1/7, the
scale the float nearest to `a * 3`, and the output element is `12582913 / 2^22`, that is
`3 + 2^-22`: the sum of the squares of the output elements exceeds `s * s = 9`. -/
theorem C32_counterexample :
    (Normalize.forward_inplace f32_fl ex_sqrtf ex_normalize_f32 (const_mat 7 1 1 1) ex_opt).1
      = 0 ∧
    (Normalize.forward_inplace f32_fl ex_sqrtf ex_normalize_f32 (const_mat 7 1 1 1)
      ex_opt).2.data 0 0 = 12582913 / 4194304 ∧
    ex_normalize_f32.eps_mode = 1 ∧
    ex_normalize_f32.eps ≤ ex_sqrtf (∑ q in range (const_mat (7 : ℚ) 1 1 1).c,
      ∑ i in range ((const_mat (7 : ℚ) 1 1 1).w * (const_mat (7 : ℚ) 1 1 1).h),
        (const_mat (7 : ℚ) 1 1 1).data q i * (const_mat (7 : ℚ) 1 1 1).data q i) ∧
    ex_normalize_f32.scale_data.buf 0 * ex_normalize_f32.scale_data.buf 0
      < ∑ q in range (const_mat (7 : ℚ) 1 1 1).c,
        ∑ i in range ((const_mat (7 : ℚ) 1 1 1).w * (const_mat (7 : ℚ) 1 1 1).h),
          (Normalize.forward_inplace f32_fl ex_sqrtf ex_normalize_f32 (const_mat 7 1 1 1)
              ex_opt).2.data q i
            * (Normalize.forward_inplace f32_fl ex_sqrtf ex_normalize_f32 (const_mat 7 1 1 1)
              ex_opt).2.data q i := by
  rw [normalize_f32_seven]
  refine ⟨rfl, ?_, rfl, ?_, ?_⟩
  · simp [store]
  · have h : (7 : ℚ) * 7 = 49 := by norm_num
    simp [const_mat, ex_normalize_f32, h, ex_sqrtf_49]
  · simp [const_mat, ex_normalize_f32, store, Mat.buf]
    norm_num

/-- C32 (amended): over exact arithmetic (the reals, the real square root, no rounding of any
operation), `Normalize::forward_inplace` with `across_spatial` and `across_channel` set,
`channel_shared` set with the scale `s = scale_data[0]`, `eps > 0` and the workspace tensor
created returns 0 and the sum of the squares of the output elements (the `w * h` values of each
of the `c` channels) is at most `s * s`, whatever `eps_mode` is; the sum equals `s * s` when
`eps_mode` is 1 and `eps ≤ sqrt(ssum)`, and when `eps_mode` is 2 (any value other than 0 and 1)
and `eps ≤ ssum`, where `ssum` is the sum of the squares of the input elements. -/
theorem C32_normalized_energy (self : Normalize ℝ) (bottom_top_blob : Mat ℝ)
    (opt : NcnnOption ℝ) (hs : self.across_spatial ≠ 0) (hc : self.across_channel ≠ 0)
    (hsh : self.channel_shared ≠ 0) (heps : 0 < self.eps)
    (halloc : (Mat.create bottom_top_blob.c 1 opt.workspace_allocator).isSome) :
    (Normalize.forward_inplace (fun v => v) Real.sqrt self bottom_top_blob opt).1 = 0 ∧
    (∑ q in range bottom_top_blob.c, ∑ i in range (bottom_top_blob.w * bottom_top_blob.h),
        (Normalize.forward_inplace (fun v => v) Real.sqrt self bottom_top_blob opt).2.data q i
          * (Normalize.forward_inplace (fun v => v) Real.sqrt self bottom_top_blob opt).2.data q i)
      ≤ self.scale_data.buf 0 * self.scale_data.buf 0 ∧
    (self.eps_mode = 1 →
      self.eps ≤ Real.sqrt (∑ q in range bottom_top_blob.c,
        ∑ i in range (bottom_top_blob.w * bottom_top_blob.h),
          bottom_top_blob.data q i * bottom_top_blob.data q i) →
      (∑ q in range bottom_top_blob.c, ∑ i in range (bottom_top_blob.w * bottom_top_blob.h),
        (Normalize.forward_inplace (fun v => v) Real.sqrt self bottom_top_blob opt).2.data q i
          * (Normalize.forward_inplace (fun v => v) Real.sqrt self bottom_top_blob opt).2.data q i)
        = self.scale_data.buf 0 * self.scale_data.buf 0) ∧
    (self.eps_mode ≠ 0 → self.eps_mode ≠ 1 →
      self.eps ≤ (∑ q in range bottom_top_blob.c,
        ∑ i in range (bottom_top_blob.w * bottom_top_blob.h),
          bottom_top_blob.data q i * bottom_top_blob.data q i) →
      (∑ q in range bottom_top_blob.c, ∑ i in range (bottom_top_blob.w * bottom_top_blob.h),
        (Normalize.forward_inplace (fun v => v) Real.sqrt self bottom_top_blob opt).2.data q i
          * (Normalize.forward_inplace (fun v => v) Real.sqrt self bottom_top_blob opt).2.data q i)
        = self.scale_data.buf 0 * self.scale_data.buf 0) := by
  obtain ⟨m, hm⟩ := Option.isSome_iff_exists.mp halloc
  have hss : 0 ≤ ∑ q in range bottom_top_blob.c,
      ∑ i in range (bottom_top_blob.w * bottom_top_blob.h),
        bottom_top_blob.data q i * bottom_top_blob.data q i :=
    sum_nonneg (fun q _ => sum_nonneg (fun i _ => mul_self_nonneg _))
  obtain ⟨k1, k2, k3⟩ := coef_sq_le self.eps self.eps_mode _ heps hss
  have hs2 : 0 ≤ self.scale_data.buf 0 * self.scale_data.buf 0 := mul_self_nonneg _
  rw [normalize_both Real.sqrt self bottom_top_blob opt hs hc, hm]
  simp only [if_pos hsh]
  rw [scaled_square_sum]
  generalize (∑ q in range bottom_top_blob.c,
      ∑ i in range (bottom_top_blob.w * bottom_top_blob.h),
        bottom_top_blob.data q i * bottom_top_blob.data q i) = S at k1 k2 k3 ⊢
  generalize normalize_coef (fun v => v) Real.sqrt self.eps self.eps_mode S = a at k1 k2 k3 ⊢
  generalize self.scale_data.buf 0 = sc at hs2 ⊢
  have e : a * sc * (a * sc) * S = sc * sc * (a * a * S) := by ring
  rw [e]
  refine ⟨trivial, ?_, ?_, ?_⟩
  · calc sc * sc * (a * a * S) ≤ sc * sc * 1 := mul_le_mul_of_nonneg_left k1 hs2
      _ = sc * sc := mul_one _
  · intro h1 hle
    rw [k2 h1 hle, mul_one]
  · intro h0 h1 hle
    rw [k3 h0 h1 hle, mul_one]

/-- Instance of the amended C32: two channels of two ones each, shared scale 3, `eps = 1`,
`eps_mode` 2. -/
theorem C32_normalized_energy_witness :
    (ex_normalize 1 1 1 2 : Normalize ℝ).across_spatial ≠ 0 ∧
    (ex_normalize 1 1 1 2 : Normalize ℝ).across_channel ≠ 0 ∧
    (ex_normalize 1 1 1 2 : Normalize ℝ).channel_shared ≠ 0 ∧
    0 < (ex_normalize 1 1 1 2 : Normalize ℝ).eps ∧
    (Mat.create (const_mat (1 : ℝ) 2 1 2).c 1
      (zero_opt : NcnnOption ℝ).workspace_allocator).isSome ∧
    (Normalize.forward_inplace (fun v => v) Real.sqrt (ex_normalize 1 1 1 2) (const_mat (1 : ℝ) 2 1
        2)
      zero_opt).1 = 0 ∧
    (∑ q in range (const_mat (1 : ℝ) 2 1 2).c,
      ∑ i in range ((const_mat (1 : ℝ) 2 1 2).w * (const_mat (1 : ℝ) 2 1 2).h),
        (Normalize.forward_inplace (fun v => v) Real.sqrt (ex_normalize 1 1 1 2) (const_mat (1 : ℝ)
            2 1 2)
            zero_opt).2.data q i
          * (Normalize.forward_inplace (fun v => v) Real.sqrt (ex_normalize 1 1 1 2) (const_mat (1
              : ℝ) 2 1 2)
            zero_opt).2.data q i)
      ≤ (ex_normalize 1 1 1 2 : Normalize ℝ).scale_data.buf 0
          * (ex_normalize 1 1 1 2 : Normalize ℝ).scale_data.buf 0 :=
  have h := C32_normalized_energy (ex_normalize 1 1 1 2) (const_mat (1 : ℝ) 2 1 2) zero_opt
    (by decide) (by decide) (by decide) (by simp [ex_normalize]) rfl
  ⟨by decide, by decide, by decide, by simp [ex_normalize], rfl, h.1, h.2.1⟩

end

section

variable {α : Type} [LinearOrderedField α]

open Finset

theorem normalize_shared_equiv (sqrtf : α → α) (A B : Normalize α) (s : α) (blob : Mat α)
    (opt : NcnnOption α) (e1 : A.across_spatial = B.across_spatial)
    (e2 : A.across_channel = B.across_channel) (e3 : A.eps = B.eps)
    (e4 : A.eps_mode = B.eps_mode) (hA : A.channel_shared = 0) (hB : B.channel_shared = 1)
    (hv : ∀ q, q < blob.c → A.scale_data.buf q = s) (h1 : B.scale_data.buf 0 = s) :
    Normalize.forward_inplace (fun v => v) sqrtf A blob opt = Normalize.forward_inplace
        (fun v => v) sqrtf B blob opt := by
  have n1 : ¬ (A.channel_shared ≠ 0) := fun h => h hA
  have n2 : B.channel_shared ≠ 0 := by rw [hB]; decide
  by_cases hs : A.across_spatial = 0
  · by_cases hc : A.across_channel = 0
    · rw [normalize_none (fun v => v) sqrtf A blob opt hs hc,
        normalize_none (fun v => v) sqrtf B blob opt (e1 ▸ hs) (e2 ▸ hc)]
    · rw [normalize_channel sqrtf A blob opt hs hc,
        normalize_channel sqrtf B blob opt (e1 ▸ hs) (e2 ▸ hc)]
      cases Mat.create (blob.w * blob.h) 1 opt.workspace_allocator with
      | none => rfl
      | some m =>
        simp only [if_neg n1, if_pos n2, h1, e3, e4]
        congr 2
        funext k
        by_cases hk : k < blob.c
        · rw [if_pos hk, if_pos hk, hv k hk]
          funext i
          by_cases hi : i < blob.w * blob.h
          · rw [if_pos hi, if_pos hi, mul_assoc]
          · rw [if_neg hi, if_neg hi]
        · rw [if_neg hk, if_neg hk]
  · by_cases hc : A.across_channel = 0
    · rw [normalize_spatial sqrtf A blob opt hs hc,
        normalize_spatial sqrtf B blob opt (e1 ▸ hs) (e2 ▸ hc)]
      simp only [if_neg n1, if_pos n2, h1, e3, e4]
      congr 2
      funext k
      by_cases hk : k < blob.c
      · rw [if_pos hk, if_pos hk, hv k hk]
      · rw [if_neg hk, if_neg hk]
    · rw [normalize_both sqrtf A blob opt hs hc,
        normalize_both sqrtf B blob opt (e1 ▸ hs) (e2 ▸ hc)]
      cases Mat.create blob.c 1 opt.workspace_allocator with
      | none => rfl
      | some m =>
        simp only [if_neg n1, if_pos n2, h1, e3, e4]
        congr 2
        funext k
        by_cases hk : k < blob.c
        · rw [if_pos hk, if_pos hk, hv k hk]
        · rw [if_neg hk, if_neg hk]

/-- C33: for every blob, every setting of `across_spatial` and `across_channel`, every `eps`
and `eps_mode` and every allocator, `Normalize::forward_inplace` with `channel_shared = 0` and
a scale vector whose first `c` entries all equal `s` returns the same status and the same blob
as with `channel_shared = 1` and `scale_data[0] = s`, over exact arithmetic and for any square
root function. -/
theorem C33_shared_scale_equiv (sqrtf : α → α) (self : Normalize α)
    (scale_vector scale_one : Mat α) (s : α) (bottom_top_blob : Mat α) (opt : NcnnOption α)
    (hv : ∀ q, q < bottom_top_blob.c → scale_vector.buf q = s) (h1 : scale_one.buf 0 = s) :
    Normalize.forward_inplace (fun v => v) sqrtf
        { self with channel_shared := 0, scale_data := scale_vector } bottom_top_blob opt
      = Normalize.forward_inplace (fun v => v) sqrtf
        { self with channel_shared := 1, scale_data := scale_one } bottom_top_blob opt :=
  normalize_shared_equiv sqrtf { self with channel_shared := 0, scale_data := scale_vector }
    { self with channel_shared := 1, scale_data := scale_one } s bottom_top_blob opt rfl rfl rfl
    rfl rfl rfl hv h1

/-- Instance of C33: normalisation across the channels only, three channels of 2 x 2 values,
scale 3. -/
theorem C33_shared_scale_equiv_witness :
    (∀ q, q < (ex_mat 2 2 3).c → (const_mat (3 : ℚ) 3 1 1).buf q = 3) ∧
    (const_mat (3 : ℚ) 1 1 1).buf 0 = 3 ∧
    Normalize.forward_inplace (fun v => v) (fun v => v)
        { (ex_normalize 0 1 0 1 : Normalize ℚ) with
          channel_shared := 0, scale_data := const_mat 3 3 1 1 } (ex_mat 2 2 3) ex_opt
      = Normalize.forward_inplace (fun v => v) (fun v => v)
        { (ex_normalize 0 1 0 1 : Normalize ℚ) with
          channel_shared := 1, scale_data := const_mat 3 1 1 1 } (ex_mat 2 2 3) ex_opt :=
  ⟨fun _ _ => rfl, rfl,
    C33_shared_scale_equiv (fun v => v) (ex_normalize 0 1 0 1) (const_mat 3 3 1 1)
      (const_mat 3 1 1 1) 3 (ex_mat 2 2 3) ex_opt (fun _ _ => rfl) rfl⟩

/-- C34: when neither `across_spatial` nor `across_channel` is set,
`Normalize::forward_inplace` returns 0 and the blob it leaves is the blob it was given, every
element included, whatever `eps`, `eps_mode`, `channel_shared`, `scale_data`, the square root
function, the rounding of the float format and the allocators are. -/
theorem C34_no_flags_identity (fl sqrtf : α → α) (self : Normalize α) (bottom_top_blob : Mat α)
    (opt : NcnnOption α) (hs : self.across_spatial = 0) (hc : self.across_channel = 0) :
    (Normalize.forward_inplace fl sqrtf self bottom_top_blob opt).1 = 0 ∧
    (Normalize.forward_inplace fl sqrtf self bottom_top_blob opt).2 = bottom_top_blob ∧
    ∀ q i, (Normalize.forward_inplace fl sqrtf self bottom_top_blob opt).2.data q i
      = bottom_top_blob.data q i := by
  rw [normalize_none fl sqrtf self bottom_top_blob opt hs hc]
  exact ⟨rfl, rfl, fun _ _ => rfl⟩

/-- Instance of C34: a layer with both flags 0 on three channels of 2 x 2 values. -/
theorem C34_no_flags_identity_witness :
    (ex_normalize 0 0 1 0 : Normalize ℚ).across_spatial = 0 ∧
    (ex_normalize 0 0 1 0 : Normalize ℚ).across_channel = 0 ∧
    (Normalize.forward_inplace (fun v => v) (fun v => v) (ex_normalize 0 0 1 0) (ex_mat 2 2 3)
        ex_opt).1 = 0 ∧
    (Normalize.forward_inplace (fun v => v) (fun v => v) (ex_normalize 0 0 1 0) (ex_mat 2 2 3)
        ex_opt).2
      = ex_mat 2 2 3 :=
  have h := C34_no_flags_identity (fun v => v) (fun v => v) (ex_normalize 0 0 1 0)
    (ex_mat 2 2 3) ex_opt rfl rfl
  ⟨rfl, rfl, h.1, h.2.1⟩

end

end

section

/-! ## The pooling passes -/

section

theorem stride_select (st ks : Parameter) (k s : Int) (i : Nat) (hk : ks.ai[i]? = some k)
    (hs : st.type = 0 ∨ st.ai[i]? = some s) :
    (if st.type = 0 then ks.ai else st.ai)[i]? = some (if st.type = 0 then k else s) := by
  by_cases h : st.type = 0
  · rw [if_pos h, if_pos h, hk]
  · rw [if_neg h, if_neg h]
    rcases hs with h2 | h2
    · exact absurd h2 h
    · exact h2

theorem avg_pool1d_write_eq (op : Operator) (cp : String → Option Parameter)
    (ks st pd cm cip : Parameter) (k0 s0 p0 : Int)
    (hks : cp "kernel_size" = some ks) (hst : cp "stride" = some st)
    (hpd : cp "padding" = some pd) (hcm : cp "ceil_mode" = some cm)
    (hcip : cp "count_include_pad" = some cip)
    (hk0 : ks.ai[0]? = some k0) (hp0 : pd.ai[0]? = some p0)
    (hs0 : st.type = 0 ∨ st.ai[0]? = some s0) :
    F_avg_pool1d.write op cp = some
      ((((((op.set_param "0" (Parameter.of_int 1)).set_param "1"
        (Parameter.of_int k0)).set_param "2"
        (Parameter.of_int (if st.type = 0 then k0 else s0))).set_param "3"
        (Parameter.of_int p0)).set_param "5"
        (Parameter.of_int (if cm.b then 0 else 1))).set_param "6"
        (Parameter.of_int (if cip.b then 1 else 0))) := by
  have hs := stride_select st ks k0 s0 0 hk0 hs0
  simp only [F_avg_pool1d.write, hks, hst, hpd, hcm, hcip, hk0, hp0, hs]

theorem max_pool3d_write_eq (op : Operator) (cp : String → Option Parameter)
    (ks st pd cm : Parameter) (kd kh kw sd sh sw pd0 ph pw : Int)
    (hks : cp "kernel_size" = some ks) (hst : cp "stride" = some st)
    (hpd : cp "padding" = some pd) (hcm : cp "ceil_mode" = some cm)
    (hk0 : ks.ai[0]? = some kd) (hk1 : ks.ai[1]? = some kh) (hk2 : ks.ai[2]? = some kw)
    (hp0 : pd.ai[0]? = some pd0) (hp1 : pd.ai[1]? = some ph) (hp2 : pd.ai[2]? = some pw)
    (hs : st.type = 0 ∨ (st.ai[0]? = some sd ∧ st.ai[1]? = some sh ∧ st.ai[2]? = some sw)) :
    F_max_pool3d.write op cp = some
      (((((((((((op.set_param "0" (Parameter.of_int 0)).set_param "1"
        (Parameter.of_int kw)).set_param "11"
        (Parameter.of_int kh)).set_param "21"
        (Parameter.of_int kd)).set_param "2"
        (Parameter.of_int (if st.type = 0 then kw else sw))).set_param "12"
        (Parameter.of_int (if st.type = 0 then kh else sh))).set_param "22"
        (Parameter.of_int (if st.type = 0 then kd else sd))).set_param "3"
        (Parameter.of_int pw)).set_param "13"
        (Parameter.of_int ph)).set_param "23"
        (Parameter.of_int pd0)).set_param "5"
        (Parameter.of_int (if cm.b then 0 else 1))) := by
  have hs0 := stride_select st ks kd sd 0 hk0 (hs.imp id (fun h => h.1))
  have hs1 := stride_select st ks kh sh 1 hk1 (hs.imp id (fun h => h.2.1))
  have hs2 := stride_select st ks kw sw 2 hk2 (hs.imp id (fun h => h.2.2))
  simp only [F_max_pool3d.write, hks, hst, hpd, hcm, hk0, hk1, hk2, hp0, hp1, hp2, hs0, hs1, hs2]

/-- C36: when the captured parameters are present and their arrays long enough (the stride
array only when the stride is not absent), `F_avg_pool1d::write` and `F_max_pool3d::write`
return, and in the operator they leave: the stride written is the captured `kernel_size` on
every axis when the captured stride has type 0 and the captured stride otherwise; the 1-D
pooling has kernel, stride and padding in params 1, 2, 3; the 3-D pooling has the width entries
(index 2 of the (depth, height, width) triples) of kernel, stride and padding in params 1, 2, 3,
the height entries (index 1) in 11, 12, 13 and the depth entries (index 0) in 21, 22, 23; and
param 5 is 0 when `ceil_mode` is true and 1 when it is false. -/
theorem C36_pool_write (op : Operator) (cp1 cp3 : String → Option Parameter)
    (ks1 st1 pd1 cm1 cip1 : Parameter) (k0 s0 p0 : Int)
    (ks3 st3 pd3 cm3 : Parameter) (kd kh kw sd sh sw pd ph pw : Int)
    (hks1 : cp1 "kernel_size" = some ks1) (hst1 : cp1 "stride" = some st1)
    (hpd1 : cp1 "padding" = some pd1) (hcm1 : cp1 "ceil_mode" = some cm1)
    (hcip1 : cp1 "count_include_pad" = some cip1)
    (hk10 : ks1.ai[0]? = some k0) (hp10 : pd1.ai[0]? = some p0)
    (hs1 : st1.type = 0 ∨ st1.ai[0]? = some s0)
    (hks3 : cp3 "kernel_size" = some ks3) (hst3 : cp3 "stride" = some st3)
    (hpd3 : cp3 "padding" = some pd3) (hcm3 : cp3 "ceil_mode" = some cm3)
    (hk30 : ks3.ai[0]? = some kd) (hk31 : ks3.ai[1]? = some kh) (hk32 : ks3.ai[2]? = some kw)
    (hp30 : pd3.ai[0]? = some pd) (hp31 : pd3.ai[1]? = some ph) (hp32 : pd3.ai[2]? = some pw)
    (hs3 : st3.type = 0 ∨
      (st3.ai[0]? = some sd ∧ st3.ai[1]? = some sh ∧ st3.ai[2]? = some sw)) :
    (∃ op1, F_avg_pool1d.write op cp1 = some op1 ∧
      op1.params "1" = some (Parameter.of_int k0) ∧
      op1.params "2" = some (Parameter.of_int (if st1.type = 0 then k0 else s0)) ∧
      op1.params "3" = some (Parameter.of_int p0) ∧
      op1.params "5" = some (Parameter.of_int (if cm1.b then 0 else 1))) ∧
    (∃ op3, F_max_pool3d.write op cp3 = some op3 ∧
      op3.params "1" = some (Parameter.of_int kw) ∧
      op3.params "11" = some (Parameter.of_int kh) ∧
      op3.params "21" = some (Parameter.of_int kd) ∧
      op3.params "2" = some (Parameter.of_int (if st3.type = 0 then kw else sw)) ∧
      op3.params "12" = some (Parameter.of_int (if st3.type = 0 then kh else sh)) ∧
      op3.params "22" = some (Parameter.of_int (if st3.type = 0 then kd else sd)) ∧
      op3.params "3" = some (Parameter.of_int pw) ∧
      op3.params "13" = some (Parameter.of_int ph) ∧
      op3.params "23" = some (Parameter.of_int pd) ∧
      op3.params "5" = some (Parameter.of_int (if cm3.b then 0 else 1))) := by
  constructor
  · refine ⟨_, avg_pool1d_write_eq op cp1 ks1 st1 pd1 cm1 cip1 k0 s0 p0 hks1 hst1 hpd1 hcm1
      hcip1 hk10 hp10 hs1, ?_, ?_, ?_, ?_⟩ <;>
    simp [Operator.set_param]
  · refine ⟨_, max_pool3d_write_eq op cp3 ks3 st3 pd3 cm3 kd kh kw sd sh sw pd ph pw hks3 hst3
      hpd3 hcm3 hk30 hk31 hk32 hp30 hp31 hp32 hs3, ?_, ?_, ?_, ?_, ?_, ?_, ?_, ?_, ?_, ?_⟩ <;>
    simp [Operator.set_param]

/-- Instance of C36: a 1-D average pooling with kernel 3 and absent stride, a 3-D max pooling
with kernel (2, 3, 4) and stride (5, 6, 7). -/
theorem C36_pool_write_witness :
    (∃ op1, F_avg_pool1d.write ex_op ex_pool1d_params = some op1 ∧
      op1.params "2" = some (Parameter.of_int 3) ∧
      op1.params "5" = some (Parameter.of_int 0)) ∧
    (∃ op3, F_max_pool3d.write ex_op ex_pool3d_params = some op3 ∧
      op3.params "2" = some (Parameter.of_int 7) ∧
      op3.params "12" = some (Parameter.of_int 6) ∧
      op3.params "22" = some (Parameter.of_int 5) ∧
      op3.params "5" = some (Parameter.of_int 1)) :=
  have h := C36_pool_write ex_op ex_pool1d_params ex_pool3d_params
    (ex_ai [3]) ex_absent (ex_ai [1]) (ex_bool true) (ex_bool false) 3 0 1
    (ex_ai [2, 3, 4]) (ex_ai [5, 6, 7]) (ex_ai [0, 1, 2]) (ex_bool false) 2 3 4 5 6 7 0 1 2
    rfl rfl rfl rfl rfl rfl rfl (Or.inl rfl)
    rfl rfl rfl rfl rfl rfl rfl rfl rfl rfl
    (Or.inr ⟨rfl, rfl, rfl⟩)
  ⟨h.1.elim fun o ho => ⟨o, ho.1, ho.2.2.1, ho.2.2.2.2⟩,
   h.2.elim fun o ho => ⟨o, ho.1, ho.2.2.2.2.1, ho.2.2.2.2.2.1, ho.2.2.2.2.2.2.1,
     ho.2.2.2.2.2.2.2.2.2.2⟩⟩

end

end

section

/-! ## Pads resolved for `padding = "same"` in nn_Conv3d_2 -/

section

theorem same_pad_eq (n kernel dilation stride : Int) (hs : stride ≠ 0) :
    same_pad n kernel dilation stride
      = some (dilation * (kernel - 1) + 1 + Int.tdiv (n - 1) stride * stride - n) := by
  simp only [same_pad, c_div, if_neg hs]

/-- The arithmetic of the pads along one axis. -/
theorem same_pad_axis (n kernel dilation stride : Int) (hn : 1 ≤ n) (hk : 1 ≤ kernel)
    (hd : 1 ≤ dilation) (hs : 1 ≤ stride) :
    ∃ total, same_pad n kernel dilation stride = some total ∧
      total = dilation * (kernel - 1) + 1 + Int.tdiv (n - 1) stride * stride - n ∧
      Int.tdiv total 2 + (total - Int.tdiv total 2) = total ∧
      conv_out_extent n kernel dilation stride (Int.tdiv total 2) (total - Int.tdiv total 2)
        = Int.tdiv (n - 1) stride + 1 ∧
      ⌈(n : ℚ) / (stride : ℚ)⌉ = Int.tdiv (n - 1) stride + 1 ∧
      (stride = 1 →
        total = dilation * (kernel - 1) ∧ 0 ≤ Int.tdiv total 2 ∧
        0 ≤ total - Int.tdiv total 2 ∧ Int.tdiv total 2 ≤ total - Int.tdiv total 2) := by
  have hs0 : stride ≠ 0 := by omega
  refine ⟨_, same_pad_eq n kernel dilation stride hs0, rfl, by ring, ?_, ?_, ?_⟩
  · simp only [conv_out_extent]
    have e : n + Int.tdiv (dilation * (kernel - 1) + 1 + Int.tdiv (n - 1) stride * stride - n) 2
        + (dilation * (kernel - 1) + 1 + Int.tdiv (n - 1) stride * stride - n
          - Int.tdiv (dilation * (kernel - 1) + 1 + Int.tdiv (n - 1) stride * stride - n) 2)
        - (dilation * (kernel - 1) + 1) = Int.tdiv (n - 1) stride * stride := by ring
    rw [e, Int.mul_tdiv_cancel _ hs0]
  · rw [Int.tdiv_eq_ediv (by omega) (by omega), Int.ceil_eq_iff]
    have hsq : (0 : ℚ) < (stride : ℚ) := by exact_mod_cast (by omega : (0 : Int) < stride)
    have h1 := Int.ediv_add_emod (n - 1) stride
    have h2 := Int.emod_nonneg (n - 1) hs0
    have h3 := Int.emod_lt_of_pos (n - 1) (by omega : (0 : Int) < stride)
    constructor
    · rw [lt_div_iff₀ hsq]
      have : ((n - 1) / stride) * stride < n := by nlinarith
      have hc : (((((n - 1) / stride) * stride : Int)) : ℚ) < (n : ℚ) := by exact_mod_cast this
      push_cast at hc ⊢
      linarith
    · rw [div_le_iff₀ hsq]
      have : n ≤ ((n - 1) / stride + 1) * stride := by nlinarith
      have hc : (n : ℚ) ≤ ((((n - 1) / stride + 1) * stride : Int) : ℚ) := by exact_mod_cast this
      push_cast at hc ⊢
      linarith
  · intro h1
    subst h1
    have e : dilation * (kernel - 1) + 1 + Int.tdiv (n - 1) 1 * 1 - n
        = dilation * (kernel - 1) := by
      rw [Int.tdiv_one]
      ring
    rw [e]
    have hnn : 0 ≤ dilation * (kernel - 1) := mul_nonneg (by omega) (by omega)
    have h2 : Int.tdiv (dilation * (kernel - 1)) 2 = (dilation * (kernel - 1)) / 2 :=
      Int.tdiv_eq_ediv hnn (by decide)
    rw [h2]
    refine ⟨rfl, ?_, ?_, ?_⟩ <;> omega

theorem same_padding_eq (input_shape : List Int) (cp : String → Option Parameter)
    (ks dl st : Parameter) (w h d kw kh kd dw dh dd sw sh sd wpad hpad dpad : Int)
    (hw : index_from_end input_shape 1 = some w) (hh : index_from_end input_shape 2 = some h)
    (hd : index_from_end input_shape 3 = some d)
    (hks : cp "kernel_size" = some ks) (hdl : cp "dilation" = some dl)
    (hst : cp "stride" = some st)
    (hk0 : ks.ai[0]? = some kd) (hk1 : ks.ai[1]? = some kh) (hk2 : ks.ai[2]? = some kw)
    (hd0 : dl.ai[0]? = some dd) (hd1 : dl.ai[1]? = some dh) (hd2 : dl.ai[2]? = some dw)
    (hs0 : st.ai[0]? = some sd) (hs1 : st.ai[1]? = some sh) (hs2 : st.ai[2]? = some sw)
    (hwp : same_pad w kw dw sw = some wpad) (hhp : same_pad h kh dh sh = some hpad)
    (hdp : same_pad d kd dd sd = some dpad) :
    nn_Conv3d_2.same_padding input_shape cp
      = some [Int.tdiv hpad 2, hpad - Int.tdiv hpad 2, Int.tdiv wpad 2, wpad - Int.tdiv wpad 2,
          Int.tdiv dpad 2, dpad - Int.tdiv dpad 2] := by
  simp only [nn_Conv3d_2.same_padding, hw, hh, hd, hks, hdl, hst, hk0, hk1, hk2, hd0, hd1, hd2,
    hs0, hs1, hs2, hwp, hhp, hdp]

theorem write_pad_eq (pad : Operator) (cp : String → Option Parameter) (pm : Parameter)
    (p0 p1 p2 p3 p4 p5 : Int) (hpm : cp "padding_mode" = some pm) :
    ∃ pad2, nn_Conv3d_2.write_pad pad [p0, p1, p2, p3, p4, p5] cp = some pad2 ∧
      pad2.params "0" = some (Parameter.of_int p0) ∧
      pad2.params "1" = some (Parameter.of_int p1) ∧
      pad2.params "2" = some (Parameter.of_int p2) ∧
      pad2.params "3" = some (Parameter.of_int p3) ∧
      pad2.params "7" = some (Parameter.of_int p4) ∧
      pad2.params "8" = some (Parameter.of_int p5) := by
  simp only [nn_Conv3d_2.write_pad, hpm, List.getElem?_cons_zero, List.getElem?_cons_succ]
  refine ⟨_, rfl, ?_, ?_, ?_, ?_, ?_, ?_⟩ <;>
  · by_cases c1 : pm.s = "reflect"
    · simp [c1, Operator.set_param]
    · by_cases c2 : pm.s = "replicate"
      · simp [c1, c2, Operator.set_param]
      · simp [c1, c2, Operator.set_param]

theorem write_conv_eq (conv : Operator) (cp : String → Option Parameter)
    (oc ks dl st bias : Parameter) (ec kw kh kd dw dh dd sw sh sd : Int)
    (hoc : cp "out_channels" = some oc) (hks : cp "kernel_size" = some ks)
    (hdl : cp "dilation" = some dl) (hst : cp "stride" = some st) (hb : cp "bias" = some bias)
    (hk0 : ks.ai[0]? = some kd) (hk1 : ks.ai[1]? = some kh) (hk2 : ks.ai[2]? = some kw)
    (hd0 : dl.ai[0]? = some dd) (hd1 : dl.ai[1]? = some dh) (hd2 : dl.ai[2]? = some dw)
    (hs0 : st.ai[0]? = some sd) (hs1 : st.ai[1]? = some sh) (hs2 : st.ai[2]? = some sw) :
    ∃ conv2, nn_Conv3d_2.write_conv conv cp (some ec) = some conv2 ∧
      conv2.params "1" = some (Parameter.of_int kw) ∧
      conv2.params "11" = some (Parameter.of_int kh) ∧
      conv2.params "21" = some (Parameter.of_int kd) ∧
      conv2.params "2" = some (Parameter.of_int dw) ∧
      conv2.params "12" = some (Parameter.of_int dh) ∧
      conv2.params "22" = some (Parameter.of_int dd) ∧
      conv2.params "3" = some (Parameter.of_int sw) ∧
      conv2.params "13" = some (Parameter.of_int sh) ∧
      conv2.params "23" = some (Parameter.of_int sd) ∧
      conv2.params "4" = some (Parameter.of_int 0) ∧
      conv2.params "14" = some (Parameter.of_int 0) ∧
      conv2.params "24" = some (Parameter.of_int 0) := by
  simp only [nn_Conv3d_2.write_conv, hoc, hks, hdl, hst, hb, hk0, hk1, hk2, hd0, hd1, hd2, hs0,
    hs1, hs2]
  refine ⟨_, rfl, ?_, ?_, ?_, ?_, ?_, ?_, ?_, ?_, ?_, ?_, ?_, ?_⟩ <;>
  simp [Operator.set_param]

end

end

section

section

/-- C35: for `padding = "same"`, with the captured parameters present, their arrays of length
at least 3, an input shape of at least 3 entries and strides of at least 1,
`nn_Conv3d_2::write` returns; along each axis (height from entry 1 of the triples and the
last-but-one shape entry, width from entry 2 and the last entry, depth from entry 0 and the
third entry from the end) it writes to the operator `pad` the two pads `total / 2` and
`total - total / 2` (params 0, 1 for height, 2, 3 for width, 7, 8 for depth), where
`total = dilation * (kernel - 1) + 1 + ((n - 1) / stride) * stride - n`, and the operator
`conv` gets the captured kernel, dilation and stride and the pads 0. For all `n`, `kernel`,
`dilation`, `stride` of at least 1 the two pads sum to `total`, a convolution without pads
on the padded extent has output extent `(n - 1) / stride + 1`, which is the ceiling of
`n / stride`; and for stride 1 the total is `dilation * (kernel - 1)`, both pads are
non-negative and the leading pad is not the larger one. -/
theorem C35_same_padding (pad conv : Operator) (input_shape : List Int)
    (captured_params : String → Option Parameter) (pp ks dl st pm oc bias : Parameter)
    (ec w h d kw kh kd dw dh dd sw sh sd : Int)
    (hpp : captured_params "padding" = some pp) (hty : pp.type = 4) (hsame : pp.s = "same")
    (hw : index_from_end input_shape 1 = some w) (hh : index_from_end input_shape 2 = some h)
    (hd : index_from_end input_shape 3 = some d)
    (hks : captured_params "kernel_size" = some ks)
    (hdl : captured_params "dilation" = some dl)
    (hst : captured_params "stride" = some st)
    (hpm : captured_params "padding_mode" = some pm)
    (hoc : captured_params "out_channels" = some oc)
    (hb : captured_params "bias" = some bias)
    (hk0 : ks.ai[0]? = some kd) (hk1 : ks.ai[1]? = some kh) (hk2 : ks.ai[2]? = some kw)
    (hd0 : dl.ai[0]? = some dd) (hd1 : dl.ai[1]? = some dh) (hd2 : dl.ai[2]? = some dw)
    (hs0 : st.ai[0]? = some sd) (hs1 : st.ai[1]? = some sh) (hs2 : st.ai[2]? = some sw)
    (hsw : 1 ≤ sw) (hsh : 1 ≤ sh) (hsd : 1 ≤ sd) :
    (∃ hpad wpad dpad pad2 conv2,
      hpad = dh * (kh - 1) + 1 + Int.tdiv (h - 1) sh * sh - h ∧
      wpad = dw * (kw - 1) + 1 + Int.tdiv (w - 1) sw * sw - w ∧
      dpad = dd * (kd - 1) + 1 + Int.tdiv (d - 1) sd * sd - d ∧
      nn_Conv3d_2.write pad conv input_shape captured_params (some ec) = some (pad2, conv2) ∧
      pad2.params "0" = some (Parameter.of_int (Int.tdiv hpad 2)) ∧
      pad2.params "1" = some (Parameter.of_int (hpad - Int.tdiv hpad 2)) ∧
      pad2.params "2" = some (Parameter.of_int (Int.tdiv wpad 2)) ∧
      pad2.params "3" = some (Parameter.of_int (wpad - Int.tdiv wpad 2)) ∧
      pad2.params "7" = some (Parameter.of_int (Int.tdiv dpad 2)) ∧
      pad2.params "8" = some (Parameter.of_int (dpad - Int.tdiv dpad 2)) ∧
      conv2.params "1" = some (Parameter.of_int kw) ∧
      conv2.params "11" = some (Parameter.of_int kh) ∧
      conv2.params "21" = some (Parameter.of_int kd) ∧
      conv2.params "2" = some (Parameter.of_int dw) ∧
      conv2.params "12" = some (Parameter.of_int dh) ∧
      conv2.params "22" = some (Parameter.of_int dd) ∧
      conv2.params "3" = some (Parameter.of_int sw) ∧
      conv2.params "13" = some (Parameter.of_int sh) ∧
      conv2.params "23" = some (Parameter.of_int sd) ∧
      conv2.params "4" = some (Parameter.of_int 0) ∧
      conv2.params "14" = some (Parameter.of_int 0) ∧
      conv2.params "24" = some (Parameter.of_int 0)) ∧
    (∀ n kernel dilation stride : Int, 1 ≤ n → 1 ≤ kernel → 1 ≤ dilation → 1 ≤ stride →
      ∃ total, same_pad n kernel dilation stride = some total ∧
        total = dilation * (kernel - 1) + 1 + Int.tdiv (n - 1) stride * stride - n ∧
        Int.tdiv total 2 + (total - Int.tdiv total 2) = total ∧
        conv_out_extent n kernel dilation stride (Int.tdiv total 2) (total - Int.tdiv total 2)
          = Int.tdiv (n - 1) stride + 1 ∧
        ⌈(n : ℚ) / (stride : ℚ)⌉ = Int.tdiv (n - 1) stride + 1 ∧
        (stride = 1 →
          total = dilation * (kernel - 1) ∧ 0 ≤ Int.tdiv total 2 ∧
          0 ≤ total - Int.tdiv total 2 ∧ Int.tdiv total 2 ≤ total - Int.tdiv total 2)) := by
  refine ⟨?_, same_pad_axis⟩
  have ew := same_pad_eq w kw dw sw (by omega)
  have eh := same_pad_eq h kh dh sh (by omega)
  have ed := same_pad_eq d kd dd sd (by omega)
  have hpadding := same_padding_eq input_shape captured_params ks dl st w h d kw kh kd dw dh dd
    sw sh sd _ _ _ hw hh hd hks hdl hst hk0 hk1 hk2 hd0 hd1 hd2 hs0 hs1 hs2 ew eh ed
  obtain ⟨pad2, hp, q0, q1, q2, q3, q7, q8⟩ := write_pad_eq pad captured_params pm
    (Int.tdiv (dh * (kh - 1) + 1 + Int.tdiv (h - 1) sh * sh - h) 2)
    (dh * (kh - 1) + 1 + Int.tdiv (h - 1) sh * sh - h
      - Int.tdiv (dh * (kh - 1) + 1 + Int.tdiv (h - 1) sh * sh - h) 2)
    (Int.tdiv (dw * (kw - 1) + 1 + Int.tdiv (w - 1) sw * sw - w) 2)
    (dw * (kw - 1) + 1 + Int.tdiv (w - 1) sw * sw - w
      - Int.tdiv (dw * (kw - 1) + 1 + Int.tdiv (w - 1) sw * sw - w) 2)
    (Int.tdiv (dd * (kd - 1) + 1 + Int.tdiv (d - 1) sd * sd - d) 2)
    (dd * (kd - 1) + 1 + Int.tdiv (d - 1) sd * sd - d
      - Int.tdiv (dd * (kd - 1) + 1 + Int.tdiv (d - 1) sd * sd - d) 2) hpm
  obtain ⟨conv2, hc, r⟩ := write_conv_eq conv captured_params oc ks dl st bias ec kw kh kd dw dh
    dd sw sh sd hoc hks hdl hst hb hk0 hk1 hk2 hd0 hd1 hd2 hs0 hs1 hs2
  refine ⟨_, _, _, pad2, conv2, rfl, rfl, rfl, ?_, q0, q1, q2, q3, q7, q8, r⟩
  simp only [nn_Conv3d_2.write, nn_Conv3d_2.padding, hpp, hty, hsame, if_true, hpadding, hp, hc]

/-- Instance of C35: input of shape (1, 4, 5, 6, 7), kernel (3, 3, 2), dilation (1, 2, 1),
stride (1, 2, 3): the totals are 3 for height, 1 for width and 2 for depth. -/
theorem C35_same_padding_witness :
    ex_conv3d_params "padding" = some (ex_str "same") ∧ (ex_str "same").type = 4 ∧
    (ex_str "same").s = "same" ∧ index_from_end [1, 4, 5, 6, 7] 1 = some 7 ∧
    (1 : Int) ≤ 3 ∧
    ∃ pad2 conv2,
      nn_Conv3d_2.write ex_op ex_op [1, 4, 5, 6, 7] ex_conv3d_params (some 96)
        = some (pad2, conv2) ∧
      pad2.params "0" = some (Parameter.of_int 1) ∧
      pad2.params "1" = some (Parameter.of_int 2) ∧
      pad2.params "2" = some (Parameter.of_int 0) ∧
      pad2.params "3" = some (Parameter.of_int 1) ∧
      pad2.params "7" = some (Parameter.of_int 1) ∧
      pad2.params "8" = some (Parameter.of_int 1) :=
  by
    obtain ⟨hpad, wpad, dpad, pad2, conv2, e1, e2, e3, hwr, q0, q1, q2, q3, q7, q8, _⟩ :=
      (C35_same_padding ex_op ex_op [1, 4, 5, 6, 7] ex_conv3d_params (ex_str "same")
        (ex_ai [3, 3, 2]) (ex_ai [1, 2, 1]) (ex_ai [1, 2, 3]) (ex_str "reflect")
        (Parameter.of_int 8) (ex_bool true) 96 7 6 5 2 3 3 1 2 1 3 2 1
        rfl rfl rfl rfl rfl rfl rfl rfl rfl rfl rfl rfl rfl rfl rfl rfl rfl rfl rfl rfl rfl
        (by decide) (by decide) (by decide)).1
    subst e1 e2 e3
    exact ⟨rfl, rfl, rfl, rfl, by decide, pad2, conv2, hwr, q0, q1, q2, q3, q7, q8⟩

end

end

section

/-! ## Depthwise 5x5 convolution: one output pixel -/

section

theorem forStep2_eq_forRange {σ : Type} (hi : Nat) (body : Nat → σ → σ) :
    ∀ (d i : Nat) (s : σ), (hi - i) / 2 = d →
      forStep2 hi body i s = (i + 2 * d, forRange d (fun k => body (i + 2 * k)) s) := by
  intro d
  induction d with
  | zero =>
    intro i s h
    rw [forStep2, if_neg (by omega)]
    rfl
  | succ k ih =>
    intro i s h
    rw [forStep2, if_pos (by omega), ih (i + 2) (body i s) (by omega), forRange_shift]
    refine Prod.ext (by simp only []; omega) ?_
    simp only [Nat.mul_zero, Nat.add_zero]
    congr 1
    funext j t
    congr 1
    omega

variable {α : Type}

theorem vse16_in {vl : Nat} (m : Buf α) (p : Nat) (v : vfloat16m1_t α vl) (l : Nat)
    (hl : l < vl) : vse16 m p v (p + l) = v ⟨l, hl⟩ := by
  simp only [vse16]
  rw [dif_pos (by omega)]
  congr 1
  apply Fin.ext
  show p + l - p = l
  omega

theorem vse16_out {vl : Nat} (m : Buf α) (p : Nat) (v : vfloat16m1_t α vl) (j : Nat)
    (hj : j < p ∨ p + vl ≤ j) : vse16 m p v j = m j := by
  simp only [vse16]
  rw [dif_neg (by omega)]

theorem DwState.ext10 (a b : DwState α) (h1 : a.k0 = b.k0) (h2 : a.outptr0 = b.outptr0)
    (h3 : a.outptr1 = b.outptr1) (h4 : a.r0 = b.r0) (h5 : a.r1 = b.r1) (h6 : a.r2 = b.r2)
    (h7 : a.r3 = b.r3) (h8 : a.r4 = b.r4) (h9 : a.r5 = b.r5) (h10 : a.out = b.out) : a = b := by
  cases a
  cases b
  simp only [DwState.mk.injEq]
  exact ⟨h1, h2, h3, h4, h5, h6, h7, h8, h9, h10⟩

end

section

variable {α : Type} [Field α]

theorem kptr_back (k0 packn : Nat) :
    k0 + packn * 5 + packn * 5 + packn * 5 + packn * 5 - packn * 20 = k0 := by
  omega

/-- One pixel of a single-row loop: the kernel pointer is back at its start, the output
pointer and the row pointers have advanced, and the accumulated vector has been stored. -/
theorem dw5x5_pixel1_eq (packn vl step : Nat) (img ker : Buf α) (bias0 : vfloat16m1_t α vl)
    (s : DwState α) :
    dw5x5_pixel1 packn vl step img ker bias0 s =
      { k0 := s.k0, outptr0 := s.outptr0 + packn, outptr1 := s.outptr1,
        r0 := s.r0 + step, r1 := s.r1 + step, r2 := s.r2 + step, r3 := s.r3 + step,
        r4 := s.r4 + step, r5 := s.r5,
        out := vse16 s.out s.outptr0
          (dw5x5_sum packn vl img ker bias0 s.k0 s.r0 s.r1 s.r2 s.r3 s.r4) } := by
  refine DwState.ext10 _ _ ?_ rfl rfl rfl rfl rfl rfl rfl rfl rfl
  exact kptr_back s.k0 packn

/-- One pixel of the two-row loop: the kernel pointer is back at its start, all pointers have
advanced by one pixel, and the two accumulated vectors have been stored. -/
theorem dw5x5s1_pixel2_eq (packn vl : Nat) (img ker : Buf α) (bias0 : vfloat16m1_t α vl)
    (s : DwState α) :
    dw5x5s1_pixel2 packn vl img ker bias0 s =
      { k0 := s.k0, outptr0 := s.outptr0 + packn, outptr1 := s.outptr1 + packn,
        r0 := s.r0 + packn, r1 := s.r1 + packn, r2 := s.r2 + packn, r3 := s.r3 + packn,
        r4 := s.r4 + packn, r5 := s.r5 + packn,
        out := vse16 (vse16 s.out s.outptr0
            (dw5x5_sum packn vl img ker bias0 s.k0 s.r0 s.r1 s.r2 s.r3 s.r4)) s.outptr1
          (dw5x5_sum packn vl img ker bias0 s.k0 s.r1 s.r2 s.r3 s.r4 s.r5) } := by
  refine DwState.ext10 _ _ ?_ rfl rfl rfl rfl rfl rfl rfl rfl rfl
  exact kptr_back s.k0 packn

/-- The accumulated vector in terms of the window: rows `R + ky * W`, columns at distance
`kx * packn`. -/
theorem dw5x5_sum_eq (packn vl : Nat) (img ker : Buf α) (bias0 : vfloat16m1_t α vl)
    (K R W : Nat) (l : Fin vl) :
    dw5x5_sum packn vl img ker bias0 K R (R + W) (R + 2 * W) (R + 3 * W) (R + 4 * W) l
      = bias0 l + ∑ ky in Finset.range 5, ∑ kx in Finset.range 5,
          ker (K + (5 * ky + kx) * packn + l) * img (R + ky * W + kx * packn + l) := by
  simp only [dw5x5_sum, fmacc5, vfmacc, load5, vle16, Finset.sum_range_succ,
    Finset.sum_range_zero]
  ring_nf

end

end

section

/-! ## Depthwise 5x5 convolution: the loops over the pixels of a row -/

section

theorem lane_lt (a b P l : Nat) (h : a < b) (hl : l < P) : a * P + l < b * P := by
  have h1 : (a + 1) * P ≤ b * P := Nat.mul_le_mul_right P h
  rw [Nat.succ_mul] at h1
  omega

variable {α : Type} [Field α]

/-- The loop over the pixels of one output row, after `n` pixels. -/
theorem dw5x5_pixel1_loop (packn step : Nat) (img ker : Buf α)
    (bias0 : vfloat16m1_t α packn) (s : DwState α) (n : Nat) :
    (forRange n (fun _ s => dw5x5_pixel1 packn packn step img ker bias0 s) s).k0 = s.k0 ∧
    (forRange n (fun _ s => dw5x5_pixel1 packn packn step img ker bias0 s) s).outptr0
      = s.outptr0 + n * packn ∧
    (forRange n (fun _ s => dw5x5_pixel1 packn packn step img ker bias0 s) s).outptr1
      = s.outptr1 ∧
    (forRange n (fun _ s => dw5x5_pixel1 packn packn step img ker bias0 s) s).r0
      = s.r0 + n * step ∧
    (forRange n (fun _ s => dw5x5_pixel1 packn packn step img ker bias0 s) s).r1
      = s.r1 + n * step ∧
    (forRange n (fun _ s => dw5x5_pixel1 packn packn step img ker bias0 s) s).r2
      = s.r2 + n * step ∧
    (forRange n (fun _ s => dw5x5_pixel1 packn packn step img ker bias0 s) s).r3
      = s.r3 + n * step ∧
    (forRange n (fun _ s => dw5x5_pixel1 packn packn step img ker bias0 s) s).r4
      = s.r4 + n * step ∧
    (forRange n (fun _ s => dw5x5_pixel1 packn packn step img ker bias0 s) s).r5 = s.r5 ∧
    (∀ j l (_ : j < n) (hl : l < packn),
      (forRange n (fun _ s => dw5x5_pixel1 packn packn step img ker bias0 s) s).out
          (s.outptr0 + j * packn + l)
        = dw5x5_sum packn packn img ker bias0 s.k0 (s.r0 + j * step) (s.r1 + j * step)
            (s.r2 + j * step) (s.r3 + j * step) (s.r4 + j * step) ⟨l, hl⟩) ∧
    (∀ p, p < s.outptr0 ∨ s.outptr0 + n * packn ≤ p →
      (forRange n (fun _ s => dw5x5_pixel1 packn packn step img ker bias0 s) s).out p
        = s.out p) := by
  induction n with
  | zero =>
    refine ⟨rfl, ?_, rfl, ?_, ?_, ?_, ?_, ?_, rfl, ?_, fun _ _ => rfl⟩
    · show s.outptr0 = _; omega
    · show s.r0 = _; omega
    · show s.r1 = _; omega
    · show s.r2 = _; omega
    · show s.r3 = _; omega
    · show s.r4 = _; omega
    · intro j l hj
      exact absurd hj (Nat.not_lt_zero j)
  | succ n ih =>
    obtain ⟨i1, i2, i3, i4, i5, i6, i7, i8, i9, i10, i11⟩ := ih
    have e : (n + 1) * packn = n * packn + packn := Nat.succ_mul n packn
    have e2 : (n + 1) * step = n * step + step := Nat.succ_mul n step
    have hstep : forRange (n + 1) (fun _ s => dw5x5_pixel1 packn packn step img ker bias0 s) s
        = dw5x5_pixel1 packn packn step img ker bias0
            (forRange n (fun _ s => dw5x5_pixel1 packn packn step img ker bias0 s) s) := rfl
    rw [hstep, dw5x5_pixel1_eq]
    refine ⟨i1, ?_, i3, ?_, ?_, ?_, ?_, ?_, i9, ?_, ?_⟩
    · show _ + packn = _; rw [i2]; omega
    · show _ + step = _; rw [i4]; omega
    · show _ + step = _; rw [i5]; omega
    · show _ + step = _; rw [i6]; omega
    · show _ + step = _; rw [i7]; omega
    · show _ + step = _; rw [i8]; omega
    · intro j l hj hl
      show vse16 _ _ _ _ = _
      rw [i1, i2, i4, i5, i6, i7, i8]
      by_cases hjn : j = n
      · subst hjn
        rw [vse16_in _ _ _ l hl]
      · have hlt := lane_lt j n packn l (by omega) hl
        rw [vse16_out _ _ _ _ (Or.inl (by omega))]
        exact i10 j l (by omega) hl
    · intro p hp
      show vse16 _ _ _ _ = _
      rw [i2, vse16_out _ _ _ _ (by omega)]
      exact i11 p (by omega)

/-- The loop over the pixels of two output rows, after `n ≤ outw` pixels; the second output
pointer is at least one row of `outw` pixels after the first. -/
theorem dw5x5s1_pixel2_loop (packn outw : Nat) (img ker : Buf α)
    (bias0 : vfloat16m1_t α packn) (s : DwState α)
    (hO : s.outptr0 + outw * packn ≤ s.outptr1) (n : Nat) (hn : n ≤ outw) :
    (forRange n (fun _ s => dw5x5s1_pixel2 packn packn img ker bias0 s) s).k0 = s.k0 ∧
    (forRange n (fun _ s => dw5x5s1_pixel2 packn packn img ker bias0 s) s).outptr0
      = s.outptr0 + n * packn ∧
    (forRange n (fun _ s => dw5x5s1_pixel2 packn packn img ker bias0 s) s).outptr1
      = s.outptr1 + n * packn ∧
    (forRange n (fun _ s => dw5x5s1_pixel2 packn packn img ker bias0 s) s).r0
      = s.r0 + n * packn ∧
    (forRange n (fun _ s => dw5x5s1_pixel2 packn packn img ker bias0 s) s).r1
      = s.r1 + n * packn ∧
    (forRange n (fun _ s => dw5x5s1_pixel2 packn packn img ker bias0 s) s).r2
      = s.r2 + n * packn ∧
    (forRange n (fun _ s => dw5x5s1_pixel2 packn packn img ker bias0 s) s).r3
      = s.r3 + n * packn ∧
    (forRange n (fun _ s => dw5x5s1_pixel2 packn packn img ker bias0 s) s).r4
      = s.r4 + n * packn ∧
    (forRange n (fun _ s => dw5x5s1_pixel2 packn packn img ker bias0 s) s).r5
      = s.r5 + n * packn ∧
    (∀ j l (_ : j < n) (hl : l < packn),
      (forRange n (fun _ s => dw5x5s1_pixel2 packn packn img ker bias0 s) s).out
          (s.outptr0 + j * packn + l)
        = dw5x5_sum packn packn img ker bias0 s.k0 (s.r0 + j * packn) (s.r1 + j * packn)
            (s.r2 + j * packn) (s.r3 + j * packn) (s.r4 + j * packn) ⟨l, hl⟩ ∧
      (forRange n (fun _ s => dw5x5s1_pixel2 packn packn img ker bias0 s) s).out
          (s.outptr1 + j * packn + l)
        = dw5x5_sum packn packn img ker bias0 s.k0 (s.r1 + j * packn) (s.r2 + j * packn)
            (s.r3 + j * packn) (s.r4 + j * packn) (s.r5 + j * packn) ⟨l, hl⟩) ∧
    (∀ p, p < s.outptr0 →
      (forRange n (fun _ s => dw5x5s1_pixel2 packn packn img ker bias0 s) s).out p
        = s.out p) := by
  induction n with
  | zero =>
    refine ⟨rfl, ?_, ?_, ?_, ?_, ?_, ?_, ?_, ?_, ?_, fun _ _ => rfl⟩
    · show s.outptr0 = _; omega
    · show s.outptr1 = _; omega
    · show s.r0 = _; omega
    · show s.r1 = _; omega
    · show s.r2 = _; omega
    · show s.r3 = _; omega
    · show s.r4 = _; omega
    · show s.r5 = _; omega
    · intro j l hj
      exact absurd hj (Nat.not_lt_zero j)
  | succ n ih =>
    obtain ⟨i1, i2, i3, i4, i5, i6, i7, i8, i9, i10, i11⟩ := ih (by omega)
    have e : (n + 1) * packn = n * packn + packn := Nat.succ_mul n packn
    have e3 : (n + 1) * packn ≤ outw * packn := Nat.mul_le_mul_right packn hn
    have hstep : forRange (n + 1) (fun _ s => dw5x5s1_pixel2 packn packn img ker bias0 s) s
        = dw5x5s1_pixel2 packn packn img ker bias0
            (forRange n (fun _ s => dw5x5s1_pixel2 packn packn img ker bias0 s) s) := rfl
    rw [hstep, dw5x5s1_pixel2_eq]
    refine ⟨i1, ?_, ?_, ?_, ?_, ?_, ?_, ?_, ?_, ?_, ?_⟩
    · show _ + packn = _; rw [i2]; omega
    · show _ + packn = _; rw [i3]; omega
    · show _ + packn = _; rw [i4]; omega
    · show _ + packn = _; rw [i5]; omega
    · show _ + packn = _; rw [i6]; omega
    · show _ + packn = _; rw [i7]; omega
    · show _ + packn = _; rw [i8]; omega
    · show _ + packn = _; rw [i9]; omega
    · intro j l hj hl
      show vse16 (vse16 _ _ _) _ _ _ = _ ∧ vse16 (vse16 _ _ _) _ _ _ = _
      rw [i1, i2, i3, i4, i5, i6, i7, i8, i9]
      by_cases hjn : j = n
      · subst hjn
        constructor
        · rw [vse16_out _ _ _ _ (Or.inl (by omega)), vse16_in _ _ _ l hl]
        · rw [vse16_in _ _ _ l hl]
      · have hlt := lane_lt j n packn l (by omega) hl
        constructor
        · rw [vse16_out _ _ _ _ (Or.inl (by omega)), vse16_out _ _ _ _ (Or.inl (by omega))]
          exact (i10 j l (by omega) hl).1
        · rw [vse16_out _ _ _ _ (Or.inl (by omega)), vse16_out _ _ _ _ (Or.inr (by omega))]
          exact (i10 j l (by omega) hl).2
    · intro p hp
      show vse16 (vse16 _ _ _) _ _ _ = _
      rw [i2, i3, vse16_out _ _ _ _ (Or.inl (by omega)), vse16_out _ _ _ _ (Or.inl (by omega))]
      exact i11 p hp

end

end

section

/-! ## Depthwise 5x5 convolution, stride 1: the loops over the rows -/

section

theorem pix_lt (i j l rows outw P : Nat) (hi : i < rows) (hj : j < outw) (hl : l < P) :
    (i * outw + j) * P + l < rows * outw * P := by
  have h1 : (i + 1) * outw ≤ rows * outw := Nat.mul_le_mul_right outw hi
  rw [Nat.succ_mul] at h1
  exact lane_lt (i * outw + j) (rows * outw) P l (by omega) hl

variable {α : Type} [Field α]

theorem dw_bias0_lane (packn : Nat) (bias : Option (Buf α)) (g l : Nat) (hl : l < packn) :
    dw_bias0 packn packn bias g ⟨l, hl⟩ = dw_bias_at packn bias g l := by
  cases bias <;> rfl

/-- The accumulated vector of the pixel `(i, j)` is the reference value, when the row pointers
are those of the input rows `stride * i + ky` at column `stride * j`. -/
theorem dw5x5_sum_ref (packn stride w : Nat) (img ker : Buf α) (bias0 : vfloat16m1_t α packn)
    (B : Nat → α) (K i j l : Nat) (hl : l < packn) (hB : bias0 ⟨l, hl⟩ = B l)
    (ra rb rc rd re : Nat)
    (ha : ra = (stride * i * w + stride * j) * packn)
    (hb : rb = ((stride * i + 1) * w + stride * j) * packn)
    (hc : rc = ((stride * i + 2) * w + stride * j) * packn)
    (hd : rd = ((stride * i + 3) * w + stride * j) * packn)
    (he : re = ((stride * i + 4) * w + stride * j) * packn) :
    dw5x5_sum packn packn img ker bias0 K ra rb rc rd re ⟨l, hl⟩
      = dw5x5_ref packn stride w img ker K B i j l := by
  have e1 : rb = ra + w * packn := by rw [ha, hb]; ring
  have e2 : rc = ra + 2 * (w * packn) := by rw [ha, hc]; ring
  have e3 : rd = ra + 3 * (w * packn) := by rw [ha, hd]; ring
  have e4 : re = ra + 4 * (w * packn) := by rw [ha, he]; ring
  rw [e1, e2, e3, e4, dw5x5_sum_eq, hB, dw5x5_ref]
  congr 1
  apply Finset.sum_congr rfl
  intro ky _
  apply Finset.sum_congr rfl
  intro kx _
  congr 2
  rw [ha]
  ring

theorem dw5x5s1_rows2_eq (packn vl w outw : Nat) (img ker : Buf α)
    (bias0 : vfloat16m1_t α vl) (t : DwState α) :
    dw5x5s1_rows2 packn vl w outw img ker bias0 t =
      { k0 := (forRange outw (fun _ s => dw5x5s1_pixel2 packn vl img ker bias0 s) t).k0,
        outptr0 := (forRange outw (fun _ s => dw5x5s1_pixel2 packn vl img ker bias0 s) t).outptr0
          + outw * packn,
        outptr1 := (forRange outw (fun _ s => dw5x5s1_pixel2 packn vl img ker bias0 s) t).outptr1
          + outw * packn,
        r0 := (forRange outw (fun _ s => dw5x5s1_pixel2 packn vl img ker bias0 s) t).r0
          + (4 * packn + w * packn),
        r1 := (forRange outw (fun _ s => dw5x5s1_pixel2 packn vl img ker bias0 s) t).r1
          + (4 * packn + w * packn),
        r2 := (forRange outw (fun _ s => dw5x5s1_pixel2 packn vl img ker bias0 s) t).r2
          + (4 * packn + w * packn),
        r3 := (forRange outw (fun _ s => dw5x5s1_pixel2 packn vl img ker bias0 s) t).r3
          + (4 * packn + w * packn),
        r4 := (forRange outw (fun _ s => dw5x5s1_pixel2 packn vl img ker bias0 s) t).r4
          + (4 * packn + w * packn),
        r5 := (forRange outw (fun _ s => dw5x5s1_pixel2 packn vl img ker bias0 s) t).r5
          + (4 * packn + w * packn),
        out := (forRange outw (fun _ s => dw5x5s1_pixel2 packn vl img ker bias0 s) t).out } := by
  simp only [dw5x5s1_rows2, forFrom_zero]

theorem dw5x5s1_rows1_eq (packn vl outw : Nat) (img ker : Buf α)
    (bias0 : vfloat16m1_t α vl) (t : DwState α) :
    dw5x5s1_rows1 packn vl outw img ker bias0 t =
      { k0 := (forRange outw (fun _ s => dw5x5_pixel1 packn vl packn img ker bias0 s) t).k0,
        outptr0 :=
          (forRange outw (fun _ s => dw5x5_pixel1 packn vl packn img ker bias0 s) t).outptr0,
        outptr1 :=
          (forRange outw (fun _ s => dw5x5_pixel1 packn vl packn img ker bias0 s) t).outptr1,
        r0 := (forRange outw (fun _ s => dw5x5_pixel1 packn vl packn img ker bias0 s) t).r0
          + 4 * packn,
        r1 := (forRange outw (fun _ s => dw5x5_pixel1 packn vl packn img ker bias0 s) t).r1
          + 4 * packn,
        r2 := (forRange outw (fun _ s => dw5x5_pixel1 packn vl packn img ker bias0 s) t).r2
          + 4 * packn,
        r3 := (forRange outw (fun _ s => dw5x5_pixel1 packn vl packn img ker bias0 s) t).r3
          + 4 * packn,
        r4 := (forRange outw (fun _ s => dw5x5_pixel1 packn vl packn img ker bias0 s) t).r4
          + 4 * packn,
        r5 := (forRange outw (fun _ s => dw5x5_pixel1 packn vl packn img ker bias0 s) t).r5,
        out := (forRange outw (fun _ s => dw5x5_pixel1 packn vl packn img ker bias0 s) t).out } := by
  simp only [dw5x5s1_rows1, forFrom_zero]

/-- The loop over pairs of output rows after `m` iterations: the pointers, and the output rows
`0 .. 2 * m - 1`. -/
theorem dw5x5s1_rows2_loop (packn w outw : Nat) (hw : w = outw + 4) (img ker : Buf α)
    (bias0 : vfloat16m1_t α packn) (B : Nat → α)
    (hB : ∀ l (hl : l < packn), bias0 ⟨l, hl⟩ = B l) (s : DwState α)
    (h1 : s.outptr0 = 0) (h2 : s.outptr1 = outw * packn) (h3 : s.r0 = 0)
    (h4 : s.r1 = w * packn) (h5 : s.r2 = 2 * w * packn) (h6 : s.r3 = 3 * w * packn)
    (h7 : s.r4 = 4 * w * packn) (h8 : s.r5 = 5 * w * packn) (m : Nat) :
    (forRange m (fun _ s => dw5x5s1_rows2 packn packn w outw img ker bias0 s) s).k0 = s.k0 ∧
    (forRange m (fun _ s => dw5x5s1_rows2 packn packn w outw img ker bias0 s) s).outptr0
      = 2 * m * outw * packn ∧
    (forRange m (fun _ s => dw5x5s1_rows2 packn packn w outw img ker bias0 s) s).outptr1
      = (2 * m + 1) * outw * packn ∧
    (forRange m (fun _ s => dw5x5s1_rows2 packn packn w outw img ker bias0 s) s).r0
      = 2 * m * w * packn ∧
    (forRange m (fun _ s => dw5x5s1_rows2 packn packn w outw img ker bias0 s) s).r1
      = (2 * m + 1) * w * packn ∧
    (forRange m (fun _ s => dw5x5s1_rows2 packn packn w outw img ker bias0 s) s).r2
      = (2 * m + 2) * w * packn ∧
    (forRange m (fun _ s => dw5x5s1_rows2 packn packn w outw img ker bias0 s) s).r3
      = (2 * m + 3) * w * packn ∧
    (forRange m (fun _ s => dw5x5s1_rows2 packn packn w outw img ker bias0 s) s).r4
      = (2 * m + 4) * w * packn ∧
    (forRange m (fun _ s => dw5x5s1_rows2 packn packn w outw img ker bias0 s) s).r5
      = (2 * m + 5) * w * packn ∧
    (∀ i j l, i < 2 * m → j < outw → l < packn →
      (forRange m (fun _ s => dw5x5s1_rows2 packn packn w outw img ker bias0 s) s).out
          ((i * outw + j) * packn + l)
        = dw5x5_ref packn 1 w img ker s.k0 B i j l) := by
  induction m with
  | zero =>
    refine ⟨rfl, ?_, ?_, ?_, ?_, ?_, ?_, ?_, ?_, ?_⟩
    · show s.outptr0 = _; rw [h1]; ring
    · show s.outptr1 = _; rw [h2]; ring
    · show s.r0 = _; rw [h3]; ring
    · show s.r1 = _; rw [h4]; ring
    · show s.r2 = _; rw [h5]
    · show s.r3 = _; rw [h6]
    · show s.r4 = _; rw [h7]
    · show s.r5 = _; rw [h8]
    · intro i j l hi
      exact absurd hi (by omega)
  | succ m ih =>
    obtain ⟨i1, i2, i3, i4, i5, i6, i7, i8, i9, i10⟩ := ih
    have hO : (forRange m (fun _ s => dw5x5s1_rows2 packn packn w outw img ker bias0 s) s).outptr0
        + outw * packn
        ≤ (forRange m (fun _ s => dw5x5s1_rows2 packn packn w outw img ker bias0 s) s).outptr1 := by
      rw [i2, i3]
      exact le_of_eq (by ring)
    obtain ⟨p1, p2, p3, p4, p5, p6, p7, p8, p9, p10, p11⟩ := dw5x5s1_pixel2_loop packn outw img
      ker bias0 (forRange m (fun _ s => dw5x5s1_rows2 packn packn w outw img ker bias0 s) s) hO
      outw (Nat.le_refl _)
    have hstep : forRange (m + 1) (fun _ s => dw5x5s1_rows2 packn packn w outw img ker bias0 s) s
        = dw5x5s1_rows2 packn packn w outw img ker bias0
            (forRange m (fun _ s => dw5x5s1_rows2 packn packn w outw img ker bias0 s) s) := rfl
    rw [hstep, dw5x5s1_rows2_eq]
    refine ⟨?_, ?_, ?_, ?_, ?_, ?_, ?_, ?_, ?_, ?_⟩
    · show DwState.k0 (forRange outw _ _) = _
      rw [p1, i1]
    · show DwState.outptr0 (forRange outw _ _) + _ = _
      rw [p2, i2]; ring
    · show DwState.outptr1 (forRange outw _ _) + _ = _
      rw [p3, i3]; ring
    · show DwState.r0 (forRange outw _ _) + _ = _
      rw [p4, i4, hw]; ring
    · show DwState.r1 (forRange outw _ _) + _ = _
      rw [p5, i5, hw]; ring
    · show DwState.r2 (forRange outw _ _) + _ = _
      rw [p6, i6, hw]; ring
    · show DwState.r3 (forRange outw _ _) + _ = _
      rw [p7, i7, hw]; ring
    · show DwState.r4 (forRange outw _ _) + _ = _
      rw [p8, i8, hw]; ring
    · show DwState.r5 (forRange outw _ _) + _ = _
      rw [p9, i9, hw]; ring
    · intro i j l hi hj hl
      show DwState.out (forRange outw _ _) _ = _
      by_cases c1 : i < 2 * m
      · rw [p11 _ (by rw [i2]; exact pix_lt i j l (2 * m) outw packn c1 hj hl)]
        exact i10 i j l c1 hj hl
      · by_cases c2 : i = 2 * m
        · subst c2
          have e : (2 * m * outw + j) * packn + l
              = (forRange m (fun _ s => dw5x5s1_rows2 packn packn w outw img ker bias0 s) s).outptr0
                + j * packn + l := by
            rw [i2]; ring
          rw [e, (p10 j l hj hl).1, i1]
          exact dw5x5_sum_ref packn 1 w img ker bias0 B s.k0 (2 * m) j l hl (hB l hl) _ _ _ _ _
            (by rw [i4]; ring) (by rw [i5]; ring) (by rw [i6]; ring) (by rw [i7]; ring)
            (by rw [i8]; ring)
        · have c3 : i = 2 * m + 1 := by omega
          subst c3
          have e : ((2 * m + 1) * outw + j) * packn + l
              = (forRange m (fun _ s => dw5x5s1_rows2 packn packn w outw img ker bias0 s) s).outptr1
                + j * packn + l := by
            rw [i3]; ring
          rw [e, (p10 j l hj hl).2, i1]
          exact dw5x5_sum_ref packn 1 w img ker bias0 B s.k0 (2 * m + 1) j l hl (hB l hl) _ _ _ _ _
            (by rw [i5]; ring) (by rw [i6]; ring) (by rw [i7]; ring) (by rw [i8]; ring)
            (by rw [i9]; ring)

/-- One iteration of the loop over the remaining output row, entered at output row `i0`. -/
theorem dw5x5s1_rows1_step (packn w outw : Nat) (img ker : Buf α)
    (bias0 : vfloat16m1_t α packn) (B : Nat → α)
    (hB : ∀ l (hl : l < packn), bias0 ⟨l, hl⟩ = B l) (K i0 : Nat) (t : DwState α)
    (h0 : t.k0 = K) (h1 : t.outptr0 = i0 * outw * packn) (h3 : t.r0 = i0 * w * packn)
    (h4 : t.r1 = (i0 + 1) * w * packn) (h5 : t.r2 = (i0 + 2) * w * packn)
    (h6 : t.r3 = (i0 + 3) * w * packn) (h7 : t.r4 = (i0 + 4) * w * packn)
    (hout : ∀ i j l, i < i0 → j < outw → l < packn →
      t.out ((i * outw + j) * packn + l) = dw5x5_ref packn 1 w img ker K B i j l) :
    (dw5x5s1_rows1 packn packn outw img ker bias0 t).k0 = K ∧
    (∀ i j l, i < i0 + 1 → j < outw → l < packn →
      (dw5x5s1_rows1 packn packn outw img ker bias0 t).out ((i * outw + j) * packn + l)
        = dw5x5_ref packn 1 w img ker K B i j l) := by
  obtain ⟨p1, p2, -, p4, p5, p6, p7, p8, -, p10, p11⟩ := dw5x5_pixel1_loop packn packn img ker
    bias0 t outw
  rw [dw5x5s1_rows1_eq]
  refine ⟨by show DwState.k0 (forRange outw _ _) = _; rw [p1, h0], ?_⟩
  intro i j l hi hj hl
  show DwState.out (forRange outw _ _) _ = _
  by_cases c1 : i < i0
  · rw [p11 _ (Or.inl (by rw [h1]; exact pix_lt i j l i0 outw packn c1 hj hl))]
    exact hout i j l c1 hj hl
  · have c2 : i = i0 := by omega
    subst c2
    have e : (i * outw + j) * packn + l = t.outptr0 + j * packn + l := by
      rw [h1]; ring
    rw [e, p10 j l hj hl, h0]
    exact dw5x5_sum_ref packn 1 w img ker bias0 B K i j l hl (hB l hl) _ _ _ _ _
      (by rw [h3]; ring) (by rw [h4]; ring) (by rw [h5]; ring) (by rw [h6]; ring)
      (by rw [h7]; ring)

/-- The two loops over the rows of a group: the kernel pointer at the end and every output
pixel. -/
theorem convdw5x5s1_group_spec (packn : Nat) (bottom_blob top_blob kernel : Mat α)
    (bias : Option (Buf α)) (g : Nat) (hw : bottom_blob.w = top_blob.w + 4)
    (hb : bottom_blob.elempack = packn) (ht : top_blob.elempack = packn) :
    (convdw5x5s1_group packn bottom_blob top_blob kernel bias g).k0 = kernel.row g ∧
    (∀ i j l, i < top_blob.h → j < top_blob.w → l < packn →
      (convdw5x5s1_group packn bottom_blob top_blob kernel bias g).out
          ((i * top_blob.w + j) * packn + l)
        = dw5x5_ref packn 1 bottom_blob.w (bottom_blob.data g) kernel.buf (kernel.row g)
            (dw_bias_at packn bias g) i j l) := by
  have hB : ∀ l (hl : l < packn),
      dw_bias0 packn packn bias g ⟨l, hl⟩ = dw_bias_at packn bias g l :=
    fun l hl => dw_bias0_lane packn bias g l hl
  simp only [convdw5x5s1_group]
  rw [forStep2_eq_forRange top_blob.h _ (top_blob.h / 2) 0 _ (by omega)]
  simp only []
  rw [forFrom_eq_forRange top_blob.h _ (top_blob.h - (0 + 2 * (top_blob.h / 2))) _ _ rfl]
  obtain ⟨i1, i2, i3, i4, i5, i6, i7, i8, i9, i10⟩ := dw5x5s1_rows2_loop packn bottom_blob.w
    top_blob.w hw (bottom_blob.channel g).buf kernel.buf (dw_bias0 packn packn bias g)
    (dw_bias_at packn bias g) hB
    { k0 := kernel.row g, outptr0 := (top_blob.channel g).row 0,
      outptr1 := (top_blob.channel g).row 1, r0 := (bottom_blob.channel g).row 0,
      r1 := (bottom_blob.channel g).row 1, r2 := (bottom_blob.channel g).row 2,
      r3 := (bottom_blob.channel g).row 3, r4 := (bottom_blob.channel g).row 4,
      r5 := (bottom_blob.channel g).row 5, out := (top_blob.channel g).buf }
    (by simp [Mat.row, Mat.channel]) (by simp [Mat.row, Mat.channel, ht])
    (by simp [Mat.row, Mat.channel]) (by simp [Mat.row, Mat.channel, hb])
    (by simp [Mat.row, Mat.channel, hb]) (by simp [Mat.row, Mat.channel, hb])
    (by simp [Mat.row, Mat.channel, hb]) (by simp [Mat.row, Mat.channel, hb]) (top_blob.h / 2)
  have hbuf : (bottom_blob.channel g).buf = bottom_blob.data g := rfl
  rcases Nat.mod_two_eq_zero_or_one top_blob.h with hpar | hpar
  · have hd : top_blob.h - (0 + 2 * (top_blob.h / 2)) = 0 := by omega
    rw [hd]
    simp only [forRange]
    refine ⟨i1, ?_⟩
    intro i j l hi hj hl
    rw [← hbuf]
    exact i10 i j l (by omega) hj hl
  · have hd : top_blob.h - (0 + 2 * (top_blob.h / 2)) = 1 := by omega
    rw [hd]
    simp only [forRange]
    obtain ⟨q1, q2⟩ := dw5x5s1_rows1_step packn bottom_blob.w top_blob.w
      (bottom_blob.channel g).buf kernel.buf (dw_bias0 packn packn bias g)
      (dw_bias_at packn bias g) hB (kernel.row g) (2 * (top_blob.h / 2)) _ i1 i2 i4
      (by rw [i5]) (by rw [i6]) (by rw [i7]) (by rw [i8]) i10
    refine ⟨q1, ?_⟩
    intro i j l hi hj hl
    rw [← hbuf]
    exact q2 i j l (by omega) hj hl

end

end

section

/-! ## Depthwise 5x5 convolution, stride 2: the loop over the rows -/

section

/-- The step of the row pointers at the end of an output row: together with the `2 * outw`
pixels of the row it amounts to two input rows. -/
theorem tailstep_rows (w outw packn : Nat) :
    ((2 * outw * packn : Nat) : Int)
        + ((w : Int) - 2 * (outw : Int) + (w : Int)) * (packn : Int)
      = ((2 * w * packn : Nat) : Int) := by
  push_cast
  ring

theorem ptr_add_tailstep (r w outw packn : Nat) :
    ptr_add (r + outw * (packn * 2))
        (((w : Int) - 2 * (outw : Int) + (w : Int)) * (packn : Int))
      = r + 2 * w * packn := by
  unfold ptr_add
  have e : ((r + outw * (packn * 2) : Nat) : Int)
      + ((w : Int) - 2 * (outw : Int) + (w : Int)) * (packn : Int)
      = ((r + 2 * w * packn : Nat) : Int) := by
    push_cast
    ring
  rw [e, Int.toNat_ofNat]

variable {α : Type} [Field α]

theorem dw5x5s2_rows1_eq (packn vl outw : Nat) (tailstep : Int) (img ker : Buf α)
    (bias0 : vfloat16m1_t α vl) (t : DwState α) :
    dw5x5s2_rows1 packn vl outw tailstep img ker bias0 t =
      { k0 := (forRange outw (fun _ s => dw5x5_pixel1 packn vl (packn * 2) img ker bias0 s) t).k0,
        outptr0 := (forRange outw
          (fun _ s => dw5x5_pixel1 packn vl (packn * 2) img ker bias0 s) t).outptr0,
        outptr1 := (forRange outw
          (fun _ s => dw5x5_pixel1 packn vl (packn * 2) img ker bias0 s) t).outptr1,
        r0 := ptr_add (forRange outw
          (fun _ s => dw5x5_pixel1 packn vl (packn * 2) img ker bias0 s) t).r0 tailstep,
        r1 := ptr_add (forRange outw
          (fun _ s => dw5x5_pixel1 packn vl (packn * 2) img ker bias0 s) t).r1 tailstep,
        r2 := ptr_add (forRange outw
          (fun _ s => dw5x5_pixel1 packn vl (packn * 2) img ker bias0 s) t).r2 tailstep,
        r3 := ptr_add (forRange outw
          (fun _ s => dw5x5_pixel1 packn vl (packn * 2) img ker bias0 s) t).r3 tailstep,
        r4 := ptr_add (forRange outw
          (fun _ s => dw5x5_pixel1 packn vl (packn * 2) img ker bias0 s) t).r4 tailstep,
        r5 := (forRange outw (fun _ s => dw5x5_pixel1 packn vl (packn * 2) img ker bias0 s) t).r5,
        out := (forRange outw
          (fun _ s => dw5x5_pixel1 packn vl (packn * 2) img ker bias0 s) t).out } := by
  simp only [dw5x5s2_rows1, forFrom_zero]

/-- One output row of the stride-2 loop, from any state: the kernel pointer is unchanged, the
output pointer has advanced by one output row and every row pointer by two input rows. -/
theorem dw5x5s2_rows1_ptr (packn w outw : Nat) (img ker : Buf α)
    (bias0 : vfloat16m1_t α packn) (t : DwState α) :
    (dw5x5s2_rows1 packn packn outw
        (((w : Int) - 2 * (outw : Int) + (w : Int)) * (packn : Int)) img ker bias0 t).k0
      = t.k0 ∧
    (dw5x5s2_rows1 packn packn outw
        (((w : Int) - 2 * (outw : Int) + (w : Int)) * (packn : Int)) img ker bias0 t).outptr0
      = t.outptr0 + outw * packn ∧
    (dw5x5s2_rows1 packn packn outw
        (((w : Int) - 2 * (outw : Int) + (w : Int)) * (packn : Int)) img ker bias0 t).r0
      = t.r0 + 2 * w * packn ∧
    (dw5x5s2_rows1 packn packn outw
        (((w : Int) - 2 * (outw : Int) + (w : Int)) * (packn : Int)) img ker bias0 t).r1
      = t.r1 + 2 * w * packn ∧
    (dw5x5s2_rows1 packn packn outw
        (((w : Int) - 2 * (outw : Int) + (w : Int)) * (packn : Int)) img ker bias0 t).r2
      = t.r2 + 2 * w * packn ∧
    (dw5x5s2_rows1 packn packn outw
        (((w : Int) - 2 * (outw : Int) + (w : Int)) * (packn : Int)) img ker bias0 t).r3
      = t.r3 + 2 * w * packn ∧
    (dw5x5s2_rows1 packn packn outw
        (((w : Int) - 2 * (outw : Int) + (w : Int)) * (packn : Int)) img ker bias0 t).r4
      = t.r4 + 2 * w * packn := by
  obtain ⟨p1, p2, -, p4, p5, p6, p7, p8, -, -, -⟩ := dw5x5_pixel1_loop packn (packn * 2) img ker
    bias0 t outw
  rw [dw5x5s2_rows1_eq]
  refine ⟨?_, ?_, ?_, ?_, ?_, ?_, ?_⟩
  · show DwState.k0 (forRange outw _ _) = _
    rw [p1]
  · show DwState.outptr0 (forRange outw _ _) = _
    rw [p2]
  · show ptr_add (DwState.r0 (forRange outw _ _)) _ = _
    rw [p4, ptr_add_tailstep]
  · show ptr_add (DwState.r1 (forRange outw _ _)) _ = _
    rw [p5, ptr_add_tailstep]
  · show ptr_add (DwState.r2 (forRange outw _ _)) _ = _
    rw [p6, ptr_add_tailstep]
  · show ptr_add (DwState.r3 (forRange outw _ _)) _ = _
    rw [p7, ptr_add_tailstep]
  · show ptr_add (DwState.r4 (forRange outw _ _)) _ = _
    rw [p8, ptr_add_tailstep]

/-- The loop over the output rows of the stride-2 convolution after `m` rows. -/
theorem dw5x5s2_rows1_loop (packn w outw : Nat) (img ker : Buf α)
    (bias0 : vfloat16m1_t α packn) (B : Nat → α)
    (hB : ∀ l (hl : l < packn), bias0 ⟨l, hl⟩ = B l) (s : DwState α)
    (h1 : s.outptr0 = 0) (h3 : s.r0 = 0) (h4 : s.r1 = w * packn) (h5 : s.r2 = 2 * w * packn)
    (h6 : s.r3 = 3 * w * packn) (h7 : s.r4 = 4 * w * packn) (m : Nat) :
    (forRange m (fun _ s => dw5x5s2_rows1 packn packn outw
        (((w : Int) - 2 * (outw : Int) + (w : Int)) * (packn : Int)) img ker bias0 s) s).k0
      = s.k0 ∧
    (forRange m (fun _ s => dw5x5s2_rows1 packn packn outw
        (((w : Int) - 2 * (outw : Int) + (w : Int)) * (packn : Int)) img ker bias0 s) s).outptr0
      = m * outw * packn ∧
    (forRange m (fun _ s => dw5x5s2_rows1 packn packn outw
        (((w : Int) - 2 * (outw : Int) + (w : Int)) * (packn : Int)) img ker bias0 s) s).r0
      = 2 * m * w * packn ∧
    (forRange m (fun _ s => dw5x5s2_rows1 packn packn outw
        (((w : Int) - 2 * (outw : Int) + (w : Int)) * (packn : Int)) img ker bias0 s) s).r1
      = (2 * m + 1) * w * packn ∧
    (forRange m (fun _ s => dw5x5s2_rows1 packn packn outw
        (((w : Int) - 2 * (outw : Int) + (w : Int)) * (packn : Int)) img ker bias0 s) s).r2
      = (2 * m + 2) * w * packn ∧
    (forRange m (fun _ s => dw5x5s2_rows1 packn packn outw
        (((w : Int) - 2 * (outw : Int) + (w : Int)) * (packn : Int)) img ker bias0 s) s).r3
      = (2 * m + 3) * w * packn ∧
    (forRange m (fun _ s => dw5x5s2_rows1 packn packn outw
        (((w : Int) - 2 * (outw : Int) + (w : Int)) * (packn : Int)) img ker bias0 s) s).r4
      = (2 * m + 4) * w * packn ∧
    (∀ i j l, i < m → j < outw → l < packn →
      (forRange m (fun _ s => dw5x5s2_rows1 packn packn outw
          (((w : Int) - 2 * (outw : Int) + (w : Int)) * (packn : Int)) img ker bias0 s) s).out
          ((i * outw + j) * packn + l)
        = dw5x5_ref packn 2 w img ker s.k0 B i j l) := by
  induction m with
  | zero =>
    refine ⟨rfl, ?_, ?_, ?_, ?_, ?_, ?_, ?_⟩
    · show s.outptr0 = _; rw [h1]; ring
    · show s.r0 = _; rw [h3]; ring
    · show s.r1 = _; rw [h4]; ring
    · show s.r2 = _; rw [h5]
    · show s.r3 = _; rw [h6]
    · show s.r4 = _; rw [h7]
    · intro i j l hi
      exact absurd hi (Nat.not_lt_zero i)
  | succ m ih =>
    obtain ⟨i1, i2, i4, i5, i6, i7, i8, i10⟩ := ih
    obtain ⟨q1, q2, q4, q5, q6, q7, q8⟩ := dw5x5s2_rows1_ptr packn w outw img ker bias0
      (forRange m (fun _ s => dw5x5s2_rows1 packn packn outw
        (((w : Int) - 2 * (outw : Int) + (w : Int)) * (packn : Int)) img ker bias0 s) s)
    obtain ⟨-, -, -, -, -, -, -, -, -, p10, p11⟩ := dw5x5_pixel1_loop packn (packn * 2) img ker
      bias0 (forRange m (fun _ s => dw5x5s2_rows1 packn packn outw
        (((w : Int) - 2 * (outw : Int) + (w : Int)) * (packn : Int)) img ker bias0 s) s) outw
    have hstep : forRange (m + 1) (fun _ s => dw5x5s2_rows1 packn packn outw
          (((w : Int) - 2 * (outw : Int) + (w : Int)) * (packn : Int)) img ker bias0 s) s
        = dw5x5s2_rows1 packn packn outw
            (((w : Int) - 2 * (outw : Int) + (w : Int)) * (packn : Int)) img ker bias0
            (forRange m (fun _ s => dw5x5s2_rows1 packn packn outw
              (((w : Int) - 2 * (outw : Int) + (w : Int)) * (packn : Int)) img ker bias0 s) s) :=
      rfl
    rw [hstep]
    refine ⟨?_, ?_, ?_, ?_, ?_, ?_, ?_, ?_⟩
    · rw [q1, i1]
    · rw [q2, i2]; ring
    · rw [q4, i4]; ring
    · rw [q5, i5]; ring
    · rw [q6, i6]; ring
    · rw [q7, i7]; ring
    · rw [q8, i8]; ring
    · intro i j l hi hj hl
      rw [dw5x5s2_rows1_eq]
      show DwState.out (forRange outw _ _) _ = _
      by_cases c1 : i < m
      · rw [p11 _ (Or.inl (by rw [i2]; exact pix_lt i j l m outw packn c1 hj hl))]
        exact i10 i j l c1 hj hl
      · have c2 : i = m := by omega
        subst c2
        have e : (i * outw + j) * packn + l
            = (forRange i (fun _ s => dw5x5s2_rows1 packn packn outw
                (((w : Int) - 2 * (outw : Int) + (w : Int)) * (packn : Int)) img ker bias0 s)
                s).outptr0 + j * packn + l := by
          rw [i2]; ring
        rw [e, p10 j l hj hl, i1]
        exact dw5x5_sum_ref packn 2 w img ker bias0 B s.k0 i j l hl (hB l hl) _ _ _ _ _
          (by rw [i4]; ring) (by rw [i5]; ring) (by rw [i6]; ring) (by rw [i7]; ring)
          (by rw [i8]; ring)

/-- The loop over the rows of a group of the stride-2 convolution: the kernel pointer at the
end and every output pixel. -/
theorem convdw5x5s2_group_spec (packn : Nat) (bottom_blob top_blob kernel : Mat α)
    (bias : Option (Buf α)) (g : Nat) (hb : bottom_blob.elempack = packn) :
    (convdw5x5s2_group packn bottom_blob top_blob kernel bias g).k0 = kernel.row g ∧
    (∀ i j l, i < top_blob.h → j < top_blob.w → l < packn →
      (convdw5x5s2_group packn bottom_blob top_blob kernel bias g).out
          ((i * top_blob.w + j) * packn + l)
        = dw5x5_ref packn 2 bottom_blob.w (bottom_blob.data g) kernel.buf (kernel.row g)
            (dw_bias_at packn bias g) i j l) := by
  have hB : ∀ l (hl : l < packn),
      dw_bias0 packn packn bias g ⟨l, hl⟩ = dw_bias_at packn bias g l :=
    fun l hl => dw_bias0_lane packn bias g l hl
  simp only [convdw5x5s2_group]
  rw [forFrom_zero]
  obtain ⟨i1, -, -, -, -, -, -, i10⟩ := dw5x5s2_rows1_loop packn bottom_blob.w
    top_blob.w (bottom_blob.channel g).buf kernel.buf (dw_bias0 packn packn bias g)
    (dw_bias_at packn bias g) hB
    { k0 := kernel.row g, outptr0 := (top_blob.channel g).row 0,
      outptr1 := 0, r0 := (bottom_blob.channel g).row 0,
      r1 := (bottom_blob.channel g).row 1, r2 := (bottom_blob.channel g).row 2,
      r3 := (bottom_blob.channel g).row 3, r4 := (bottom_blob.channel g).row 4,
      r5 := 0, out := (top_blob.channel g).buf }
    (by simp [Mat.row, Mat.channel])
    (by simp [Mat.row, Mat.channel]) (by simp [Mat.row, Mat.channel, hb])
    (by simp [Mat.row, Mat.channel, hb]) (by simp [Mat.row, Mat.channel, hb])
    (by simp [Mat.row, Mat.channel, hb]) top_blob.h
  exact ⟨i1, i10⟩

end

end

section

/-! ## Depthwise 5x5 convolution: the two functions -/

section

variable {α : Type}

/-- The loop over the groups: the buffer of channel `g` at the end is the one computed by the
body for `g`, from the channel buffers as they were when the body ran. -/
theorem conv_groups_loop (F : Nat → (Nat → Buf α) → Buf α) (group : Nat) (D : Nat → Buf α) :
    ∀ g, g < group →
      ∃ D2 : Nat → Buf α,
        forFrom group (fun g (data : Nat → Buf α) k => if k = g then F g data else data k) 0 D g
          = F g D2 := by
  rw [forFrom_zero]
  induction group with
  | zero =>
    intro g hg
    exact absurd hg (Nat.not_lt_zero g)
  | succ n ih =>
    intro g hg
    have hstep : forRange (n + 1)
          (fun g (data : Nat → Buf α) k => if k = g then F g data else data k) D g
        = if g = n then
            F n (forRange n (fun g (data : Nat → Buf α) k => if k = g then F g data else data k)
              D)
          else forRange n (fun g (data : Nat → Buf α) k => if k = g then F g data else data k)
            D g := rfl
    rw [hstep]
    by_cases c : g = n
    · rw [if_pos c, c]
      exact ⟨_, rfl⟩
    · rw [if_neg c]
      exact ih g (by omega)

end

section

variable {α : Type} [Field α]

open Finset

/-- C37: for a stride-1 depthwise 5x5 convolution whose input width is `outw + 4` and whose
tensors have pack factor `packn`, `convdw5x5s1_packn_fp16sa_rvv` leaves, for every group `g`,
every output row `i < outh` (`outh` even or odd), every column `j < outw` and every lane
`l < packn`, over exact arithmetic, the value
`bias[g] + sum over ky, kx < 5 of kernel[g][5 * ky + kx] * in[g][i + ky][j + kx]` (bias 0 when
absent) at element `(i * outw + j) * packn + l` of output channel `g`; the kernel pointer is
back at the kernel row of the group at the end of the loops and after every output pixel of
either loop; and on the same state the pixel body of the two-row loop and the pixel body of the
remainder loop store the same vector at the first output pointer. Memory is unbounded in the
model, so the number of input rows does not appear. -/
theorem C37_convdw5x5s1 (packn : Nat) (bottom_blob top_blob kernel : Mat α)
    (bias : Option (Buf α)) (hw : bottom_blob.w = top_blob.w + 4)
    (hb : bottom_blob.elempack = packn) (ht : top_blob.elempack = packn) :
    (∀ g i j l, g < bottom_blob.c → i < top_blob.h → j < top_blob.w → l < packn →
      (convdw5x5s1_packn_fp16sa_rvv packn bottom_blob top_blob kernel bias).data g
          ((i * top_blob.w + j) * packn + l)
        = dw_bias_at packn bias g l + ∑ ky in range 5, ∑ kx in range 5,
            kernel.buf (kernel.row g + (5 * ky + kx) * packn + l)
              * bottom_blob.data g (((i + ky) * bottom_blob.w + (j + kx)) * packn + l)) ∧
    (∀ g, (convdw5x5s1_group packn bottom_blob top_blob kernel bias g).k0 = kernel.row g) ∧
    (∀ (vl : Nat) (img ker : Buf α) (bias0 : vfloat16m1_t α vl) (s : DwState α),
      (dw5x5s1_pixel2 packn vl img ker bias0 s).k0 = s.k0 ∧
      (dw5x5_pixel1 packn vl packn img ker bias0 s).k0 = s.k0) ∧
    (∀ (img ker : Buf α) (bias0 : vfloat16m1_t α packn) (s : DwState α) (l : Nat),
      l < packn → s.outptr0 + packn ≤ s.outptr1 →
      (dw5x5s1_pixel2 packn packn img ker bias0 s).out (s.outptr0 + l)
        = (dw5x5_pixel1 packn packn packn img ker bias0 s).out (s.outptr0 + l)) := by
  refine ⟨?_, ?_, ?_, ?_⟩
  · intro g i j l hg hi hj hl
    obtain ⟨D2, hD⟩ := conv_groups_loop
      (fun g data => (convdw5x5s1_group packn bottom_blob { top_blob with data := data } kernel
        bias g).out) bottom_blob.c top_blob.data g hg
    have h := (convdw5x5s1_group_spec packn bottom_blob { top_blob with data := D2 } kernel bias
      g hw hb ht).2 i j l hi hj hl
    show (forFrom bottom_blob.c _ 0 top_blob.data) g _ = _
    rw [hD]
    simp only [dw5x5_ref, Nat.one_mul] at h
    exact h
  · intro g
    exact (convdw5x5s1_group_spec packn bottom_blob top_blob kernel bias g hw hb ht).1
  · intro vl img ker bias0 s
    rw [dw5x5s1_pixel2_eq, dw5x5_pixel1_eq]
    exact ⟨rfl, rfl⟩
  · intro img ker bias0 s l hl hO
    rw [dw5x5s1_pixel2_eq, dw5x5_pixel1_eq]
    show vse16 (vse16 _ _ _) _ _ _ = vse16 _ _ _ _
    rw [vse16_out _ _ _ _ (Or.inl (by omega))]

/-- Instance of C37: one group, input of 6 rows of 5 columns, output of 2 rows of 1 column,
2 lanes, no bias; output row 1, lane 1. -/
theorem C37_convdw5x5s1_witness :
    ex_dw_bottom.w = (ex_dw_top 2).w + 4 ∧ ex_dw_bottom.elempack = 2 ∧
    (ex_dw_top 2).elempack = 2 ∧
    (convdw5x5s1_packn_fp16sa_rvv 2 ex_dw_bottom (ex_dw_top 2) ex_dw_kernel none).data 0
        ((1 * (ex_dw_top 2).w + 0) * 2 + 1)
      = dw_bias_at 2 none 0 1 + ∑ ky in range 5, ∑ kx in range 5,
          ex_dw_kernel.buf (ex_dw_kernel.row 0 + (5 * ky + kx) * 2 + 1)
            * ex_dw_bottom.data 0 (((1 + ky) * ex_dw_bottom.w + (0 + kx)) * 2 + 1) :=
  ⟨rfl, rfl, rfl,
    (C37_convdw5x5s1 2 ex_dw_bottom (ex_dw_top 2) ex_dw_kernel none rfl rfl rfl).1 0 1 0 1
      (by decide) (by decide) (by decide) (by decide)⟩

/-- C38: for tensors with pack factor `packn`, `convdw5x5s2_packn_fp16sa_rvv` leaves, for
every group `g`, every output row `i < outh`, every column `j < outw` and every lane
`l < packn`, over exact arithmetic, the value
`bias[g] + sum over ky, kx < 5 of kernel[g][5 * ky + kx] * in[g][2 * i + ky][2 * j + kx]`
(bias 0 when absent) at element `(i * outw + j) * packn + l` of output channel `g`;
`2 * outw * packn + tailstep = 2 * w * packn`, and one output row of the loop, from any state,
leaves the kernel pointer unchanged, advances the output pointer by `outw * packn` and every
row pointer by `2 * w * packn`, two input rows. -/
theorem C38_convdw5x5s2 (packn : Nat) (bottom_blob top_blob kernel : Mat α)
    (bias : Option (Buf α)) (hb : bottom_blob.elempack = packn) :
    (∀ g i j l, g < bottom_blob.c → i < top_blob.h → j < top_blob.w → l < packn →
      (convdw5x5s2_packn_fp16sa_rvv packn bottom_blob top_blob kernel bias).data g
          ((i * top_blob.w + j) * packn + l)
        = dw_bias_at packn bias g l + ∑ ky in range 5, ∑ kx in range 5,
            kernel.buf (kernel.row g + (5 * ky + kx) * packn + l)
              * bottom_blob.data g
                  (((2 * i + ky) * bottom_blob.w + (2 * j + kx)) * packn + l)) ∧
    ((2 * top_blob.w * packn : Nat) : Int)
        + ((bottom_blob.w : Int) - 2 * (top_blob.w : Int) + (bottom_blob.w : Int)) * (packn : Int)
      = ((2 * bottom_blob.w * packn : Nat) : Int) ∧
    (∀ (img ker : Buf α) (bias0 : vfloat16m1_t α packn) (t : DwState α),
      (dw5x5s2_rows1 packn packn top_blob.w
          (((bottom_blob.w : Int) - 2 * (top_blob.w : Int) + (bottom_blob.w : Int))
            * (packn : Int)) img ker bias0 t).k0 = t.k0 ∧
      (dw5x5s2_rows1 packn packn top_blob.w
          (((bottom_blob.w : Int) - 2 * (top_blob.w : Int) + (bottom_blob.w : Int))
            * (packn : Int)) img ker bias0 t).outptr0 = t.outptr0 + top_blob.w * packn ∧
      (dw5x5s2_rows1 packn packn top_blob.w
          (((bottom_blob.w : Int) - 2 * (top_blob.w : Int) + (bottom_blob.w : Int))
            * (packn : Int)) img ker bias0 t).r0 = t.r0 + 2 * bottom_blob.w * packn ∧
      (dw5x5s2_rows1 packn packn top_blob.w
          (((bottom_blob.w : Int) - 2 * (top_blob.w : Int) + (bottom_blob.w : Int))
            * (packn : Int)) img ker bias0 t).r1 = t.r1 + 2 * bottom_blob.w * packn ∧
      (dw5x5s2_rows1 packn packn top_blob.w
          (((bottom_blob.w : Int) - 2 * (top_blob.w : Int) + (bottom_blob.w : Int))
            * (packn : Int)) img ker bias0 t).r2 = t.r2 + 2 * bottom_blob.w * packn ∧
      (dw5x5s2_rows1 packn packn top_blob.w
          (((bottom_blob.w : Int) - 2 * (top_blob.w : Int) + (bottom_blob.w : Int))
            * (packn : Int)) img ker bias0 t).r3 = t.r3 + 2 * bottom_blob.w * packn ∧
      (dw5x5s2_rows1 packn packn top_blob.w
          (((bottom_blob.w : Int) - 2 * (top_blob.w : Int) + (bottom_blob.w : Int))
            * (packn : Int)) img ker bias0 t).r4 = t.r4 + 2 * bottom_blob.w * packn) := by
  refine ⟨?_, tailstep_rows bottom_blob.w top_blob.w packn, ?_⟩
  · intro g i j l hg hi hj hl
    obtain ⟨D2, hD⟩ := conv_groups_loop
      (fun g data => (convdw5x5s2_group packn bottom_blob { top_blob with data := data } kernel
        bias g).out) bottom_blob.c top_blob.data g hg
    have h := (convdw5x5s2_group_spec packn bottom_blob { top_blob with data := D2 } kernel bias
      g hb).2 i j l hi hj hl
    show (forFrom bottom_blob.c _ 0 top_blob.data) g _ = _
    rw [hD]
    simp only [dw5x5_ref] at h
    exact h
  · intro img ker bias0 t
    exact dw5x5s2_rows1_ptr packn bottom_blob.w top_blob.w img ker bias0 t

/-- Instance of C38: one group, input of 6 rows of 5 columns, output of 1 row of 1 column,
2 lanes, no bias; lane 0. -/
theorem C38_convdw5x5s2_witness :
    ex_dw_bottom.elempack = 2 ∧
    (convdw5x5s2_packn_fp16sa_rvv 2 ex_dw_bottom (ex_dw_top 1) ex_dw_kernel none).data 0
        ((0 * (ex_dw_top 1).w + 0) * 2 + 0)
      = dw_bias_at 2 none 0 0 + ∑ ky in range 5, ∑ kx in range 5,
          ex_dw_kernel.buf (ex_dw_kernel.row 0 + (5 * ky + kx) * 2 + 0)
            * ex_dw_bottom.data 0 (((2 * 0 + ky) * ex_dw_bottom.w + (2 * 0 + kx)) * 2 + 0) :=
  ⟨rfl,
    (C38_convdw5x5s2 2 ex_dw_bottom (ex_dw_top 1) ex_dw_kernel none rfl).1 0 0 0 0
      (by decide) (by decide) (by decide) (by decide)⟩

end

end

end ncnn
